import Mathlib

/-!
Reluplex: a shallow embedding of the solver core.

Source files embedded: `FloatUtils.h`, `Tableau.h`, `VariableBound.h`, `ReluPairs.h`,
`SmtCore.h`, `Reluplex.h`.

Modelling conventions.
* A C++ `double` is a rational number (`ℚ`) and arithmetic is exact: the embedded methods
  do not round. `DBL_EPSILON` is the rational `2^-52`. The rounding of `double` arithmetic
  is `roundToDouble`; `Reluplex.pivotWith`, `Tableau.addScaledRowWith`,
  `Tableau.addColumnEraseSourceWith`, `Reluplex.tightenRowBoundsWith` and
  `Reluplex.rowMaxMinWith` take the rounding of each arithmetic result as a parameter `fl`
  and are the exact definitions for `fl = id`. Statements that relate the stored numbers
  to exact real solutions are made for exact arithmetic.
* `unsigned` indices are natural numbers; the size counters of the tableau wrap at `2^32`.
* C++ arrays indexed by variable (`_assignment`, `_upperBounds`, ...) and `Map`s keyed by
  variable are functions on `ℕ`; a `Set<unsigned>` is a `Finset ℕ`, iterated in increasing
  order over the variables `0 .. numVariables - 1`.
* The doubly linked tableau is the list of its entries, newest first; an `Entry *` is
  identified with the position `(row, column)` it occupies (`addEntry` assumes that the
  position is free). The row list and the column list of the source are the sublists of the
  entries of that row and of that column. One order is not reproduced: an entry that
  `addColumnEraseSource` moves to another column keeps its place in the list instead of
  becoming the head of the new column; the loops over a column that are embedded here
  (`update`, `pivot`, `addColumnEraseSource`) visit each row once and do not depend on it.
* A method that can `throw` or `exit` returns a `Res`, which carries the solver state at the
  point of the throw: C++ mutations made before a throw persist.
* `DEBUG( ... )` blocks and `checkInvariants` depend on the macro `DEBUG_ON` (header `Debug.h`);
  the flag is the field `debugOn` of the solver state.
* Logging, printing, timing and statistics counters are not modelled.
-/

namespace ReluplexModel

/-! ## FloatUtils.h -/

namespace FloatUtils

/-- The constant `DEFAULT_EPSILON = 0.0000000001`. -/
def DEFAULT_EPSILON : ℚ := 1 / 10000000000

/-- The constant `DBL_EPSILON` of `<cfloat>`, `2^-52`. -/
def DBL_EPSILON : ℚ := 1 / 4503599627370496

/-- `FloatUtils::areEqual( x, y, epsilon )`. -/
def areEqual (x y epsilon : ℚ) : Bool :=
  if |x - y| ≤ epsilon then true
  else if |x - y| ≤ (if |x| > |y| then |x| else |y|) * DBL_EPSILON then true
  else false

/-- `FloatUtils::areDisequal( x, y, epsilon )`. -/
def areDisequal (x y epsilon : ℚ) : Bool := !areEqual x y epsilon

/-- `FloatUtils::isZero( x, epsilon )`. -/
def isZero (x epsilon : ℚ) : Bool := areEqual x 0 epsilon

/-- `FloatUtils::isPositive( x, epsilon )`. -/
def isPositive (x epsilon : ℚ) : Bool := (!isZero x epsilon) && decide (x > 0)

/-- `FloatUtils::isNegative( x, epsilon )`. -/
def isNegative (x epsilon : ℚ) : Bool := (!isZero x epsilon) && decide (x < 0)

/-- `FloatUtils::gt( x, y, epsilon )`. -/
def gt (x y epsilon : ℚ) : Bool := isPositive (x - y) epsilon

/-- `FloatUtils::gte( x, y, epsilon )`. -/
def gte (x y epsilon : ℚ) : Bool := !isNegative (x - y) epsilon

/-- `FloatUtils::lt( x, y, epsilon )`. -/
def lt (x y epsilon : ℚ) : Bool := gt y x epsilon

/-- `FloatUtils::lte( x, y, epsilon )`. -/
def lte (x y epsilon : ℚ) : Bool := gte y x epsilon

end FloatUtils

open FloatUtils

/-- The constant `ALMOST_BROKEN_RELU_MARGIN = 0.001`. -/
def ALMOST_BROKEN_RELU_MARGIN : ℚ := 1 / 1000

/-- The constant `NUMBERICAL_INSTABILITY_CONSTANT = 0.0001`. -/
def NUMBERICAL_INSTABILITY_CONSTANT : ℚ := 1 / 10000

/-- The constant `OOB_EPSILON = 0.001`. -/
def OOB_EPSILON : ℚ := 1 / 1000

/-- The constant `NUM_RELU_OPERATIONS_BEFORE_SPLIT = 5` of `SmtCore.h`. -/
def NUM_RELU_OPERATIONS_BEFORE_SPLIT : ℕ := 5

/-! ## Tableau.h -/

/-- A cell of the sparse tableau (`Tableau::Entry` without its four link pointers). -/
structure Entry where
  row : ℕ
  column : ℕ
  value : ℚ
deriving DecidableEq

/-- The class `Tableau`: the entries, newest first, and the two vectors of size counters. -/
structure Tableau where
  size : ℕ
  entries : List Entry
  rowSize : ℕ → ℕ
  columnSize : ℕ → ℕ

namespace Tableau

/-- Increment of an `unsigned` counter. -/
def inc (n : ℕ) : ℕ := (n + 1) % 2 ^ 32

/-- Decrement of an `unsigned` counter. -/
def dec (n : ℕ) : ℕ := (n + 2 ^ 32 - 1) % 2 ^ 32

/-- The constructor `Tableau( size )`: no entries, all counters zero. -/
def empty (size : ℕ) : Tableau :=
  { size := size, entries := [], rowSize := fun _ => 0, columnSize := fun _ => 0 }

/-- The linked list `_rows[row]`, head first. -/
def getRow (t : Tableau) (row : ℕ) : List Entry :=
  t.entries.filter (fun e => e.row = row)

/-- The linked list `_columns[column]`, head first. -/
def getColumn (t : Tableau) (column : ℕ) : List Entry :=
  t.entries.filter (fun e => e.column = column)

/-- The first entry at a position, if any. -/
def find (t : Tableau) (row column : ℕ) : Option Entry :=
  t.entries.find? (fun e => e.row = row ∧ e.column = column)

/-- `Tableau::getCell( row, column )`: the value of the first entry of the row that lies in
the column, `0.0` when there is none. -/
def getCell (t : Tableau) (row column : ℕ) : ℚ :=
  match t.find row column with
  | some e => e.value
  | none => 0

/-- `Tableau::activeRow( row )`. -/
def activeRow (t : Tableau) (row : ℕ) : Bool := !(t.getRow row).isEmpty

/-- `Tableau::activeColumn( column )`. -/
def activeColumn (t : Tableau) (column : ℕ) : Bool := !(t.getColumn column).isEmpty

/-- `Tableau::getRowSize( row )`. -/
def getRowSize (t : Tableau) (row : ℕ) : ℕ := t.rowSize row

/-- `Tableau::getColumnSize( column )`. -/
def getColumnSize (t : Tableau) (column : ℕ) : ℕ := t.columnSize column

/-- `Tableau::totalSize()`. -/
def totalSize (t : Tableau) : ℕ :=
  (List.range t.size).foldl (fun total i => (total + t.getRowSize i) % 2 ^ 32) 0

/-- `Tableau::addEntry( row, column, value )`: a zero value is ignored, otherwise the new
entry becomes the head of its row and of its column. -/
def addEntry (t : Tableau) (row column : ℕ) (value : ℚ) : Tableau :=
  if isZero value DEFAULT_EPSILON then t
  else
    { t with
      entries := { row := row, column := column, value := value } :: t.entries
      rowSize := Function.update t.rowSize row (inc (t.rowSize row))
      columnSize := Function.update t.columnSize column (inc (t.columnSize column)) }

/-- `Tableau::eraseEntry( entry )` for the entry at `(row, column)`. -/
def eraseEntry (t : Tableau) (row column : ℕ) : Tableau :=
  { t with
    entries := t.entries.filter (fun e => ¬ (e.row = row ∧ e.column = column))
    rowSize := Function.update t.rowSize row (dec (t.rowSize row))
    columnSize := Function.update t.columnSize column (dec (t.columnSize column)) }

/-- `entry->setValue( value )` for the entry at `(row, column)`. -/
def setValue (t : Tableau) (row column : ℕ) (value : ℚ) : Tableau :=
  { t with
    entries := t.entries.map
      (fun e => if e.row = row ∧ e.column = column then { e with value := value } else e) }

/-- `Tableau::eraseRow( row )`: every entry of the row is unlinked from its column, whose
counter is decremented; the row counter is reset. -/
def eraseRow (t : Tableau) (row : ℕ) : Tableau :=
  { t with
    entries := t.entries.filter (fun e => ¬ (e.row = row))
    rowSize := Function.update t.rowSize row 0
    columnSize := (t.getRow row).foldl
      (fun cs e => Function.update cs e.column (dec (cs e.column))) t.columnSize }

/-- `Tableau::eraseColumn( column )`. -/
def eraseColumn (t : Tableau) (column : ℕ) : Tableau :=
  { t with
    entries := t.entries.filter (fun e => ¬ (e.column = column))
    columnSize := Function.update t.columnSize column 0
    rowSize := (t.getColumn column).foldl
      (fun rs e => Function.update rs e.row (dec (rs e.row))) t.rowSize }

/-- One iteration of the loop of `addScaledRow` over the source row. The state is the tableau
and the key set of `_denseMap` (the columns for which the target row has an entry). -/
def addScaledRowStep (target : ℕ) (scale : ℚ) (guaranteeIndex : ℕ) (guaranteeValue : ℚ)
    (st : Tableau × Finset ℕ) (current : Entry) : Tableau × Finset ℕ :=
  let column := current.column
  let newValue := current.value * scale
  if column ∈ st.2 then
    let v := if column ≠ guaranteeIndex then st.1.getCell target column + newValue
      else guaranteeValue
    let t1 := st.1.setValue target column v
    if isZero v DEFAULT_EPSILON then (t1.eraseEntry target column, st.2.erase column)
    else (t1, st.2)
  else if column ≠ guaranteeIndex then (st.1.addEntry target column newValue, st.2)
  else (st.1.addEntry target column guaranteeValue, st.2)

/-- `Tableau::addScaledRow( source, scale, target, guaranteeIndex, guaranteeValue )`. -/
def addScaledRow (t : Tableau) (source : ℕ) (scale : ℚ) (target guaranteeIndex : ℕ)
    (guaranteeValue : ℚ) : Tableau :=
  if !t.activeRow source then t
  else
    ((t.getRow source).foldl (addScaledRowStep target scale guaranteeIndex guaranteeValue)
      (t, ((t.getRow target).map (fun e => e.column)).toFinset)).1

/-- The "steal" branch of `addColumnEraseSource`: the entry at `(row, source)` is relinked
into column `target`. -/
def moveEntry (t : Tableau) (row source target : ℕ) : Tableau :=
  { t with
    entries := t.entries.map
      (fun e => if e.row = row ∧ e.column = source then { e with column := target } else e)
    columnSize := Function.update
      (Function.update t.columnSize target (inc (t.columnSize target)))
      source (dec (Function.update t.columnSize target (inc (t.columnSize target)) source)) }

/-- One iteration of the loop of `addColumnEraseSource` over the source column. -/
def addColumnStep (source target : ℕ) (st : Tableau × Finset ℕ) (current : Entry) :
    Tableau × Finset ℕ :=
  let row := current.row
  if row ∈ st.2 then
    let v := st.1.getCell row target + current.value
    let t1 := st.1.setValue row target v
    if isZero v DEFAULT_EPSILON then (t1.eraseEntry row target, st.2.erase row)
    else (t1, st.2)
  else (st.1.moveEntry row source target, st.2)

/-- `Tableau::addColumnEraseSource( source, target )`. -/
def addColumnEraseSource (t : Tableau) (source target : ℕ) : Tableau :=
  if !t.activeColumn source then t
  else
    (((t.getColumn source).foldl (addColumnStep source target)
      (t, ((t.getColumn target).map (fun e => e.row)).toFinset)).1).eraseColumn source

/-- The entries that `backupIntoMatrix` creates from rows `0 .. n - 1`, newest first. -/
def backupEntries (t : Tableau) : ℕ → List Entry
  | 0 => []
  | n + 1 => (t.getRow n).reverse ++ backupEntries t n

/-- `Tableau::backupIntoMatrix( other )`: `none` stands for the throw of
`COPY_INCOMPATIBLE_SPARSE_MATRICES`; otherwise the new contents of `other`. -/
def backupIntoMatrix (t other : Tableau) : Option Tableau :=
  if other.size ≠ t.size then none
  else some
    { size := other.size, entries := backupEntries t t.size,
      rowSize := t.rowSize, columnSize := t.columnSize }

end Tableau

/-! ## VariableBound.h -/

/-- The constant `UNDEFINED = 888`. -/
def UNDEFINED : ℚ := 888

/-- The class `VariableBound`. -/
structure VariableBound where
  finite : Bool
  bound : ℚ
  level : ℕ
deriving DecidableEq

namespace VariableBound

/-- The constructor `VariableBound()`. -/
def new : VariableBound := { finite := false, bound := UNDEFINED, level := 0 }

/-- `VariableBound::setBound( bound )`. -/
def setBound (b : VariableBound) (bound : ℚ) : VariableBound :=
  { b with finite := true, bound := bound }

/-- `VariableBound::setLevel( level )`. -/
def setLevel (b : VariableBound) (level : ℕ) : VariableBound :=
  { b with level := level }

end VariableBound

/-! ## ReluPairs.h -/

/-- The class `ReluPairs`: the set of pairs `(b, f)` in its iteration order (by `b`, then by
`f`) and the two maps. -/
structure ReluPairs where
  reluPairs : List (ℕ × ℕ)
  bToF : ℕ → Option ℕ
  fToB : ℕ → Option ℕ

namespace ReluPairs

/-- A registry without pairs. -/
def new : ReluPairs := { reluPairs := [], bToF := fun _ => none, fToB := fun _ => none }

/-- `ReluPair::operator<`. -/
def pairLt (p q : ℕ × ℕ) : Bool :=
  decide (p.1 < q.1) || (decide (p.1 = q.1) && decide (p.2 < q.2))

/-- Insertion into the ordered `Set<ReluPair>`. -/
def insertPair (p : ℕ × ℕ) : List (ℕ × ℕ) → List (ℕ × ℕ)
  | [] => [p]
  | q :: rest =>
    if pairLt p q then p :: q :: rest
    else if pairLt q p then q :: insertPair p rest
    else q :: rest

/-- `ReluPairs::addPair( backwardVar, forwardVar )`. -/
def addPair (r : ReluPairs) (backwardVar forwardVar : ℕ) : ReluPairs :=
  { reluPairs := insertPair (backwardVar, forwardVar) r.reluPairs
    bToF := Function.update r.bToF backwardVar (some forwardVar)
    fToB := Function.update r.fToB forwardVar (some backwardVar) }

/-- `ReluPairs::isB( backwardVar )`. -/
def isB (r : ReluPairs) (backwardVar : ℕ) : Bool := (r.bToF backwardVar).isSome

/-- `ReluPairs::isF( forwardVar )`. -/
def isF (r : ReluPairs) (forwardVar : ℕ) : Bool := (r.fToB forwardVar).isSome

/-- `ReluPairs::isRelu( var )`. -/
def isRelu (r : ReluPairs) (var : ℕ) : Bool := r.isB var || r.isF var

/-- `ReluPairs::toPartner( var )`; `none` stands for the throw of `NOT_RELU_VARIABLE`. -/
def toPartner (r : ReluPairs) (var : ℕ) : Option ℕ :=
  if r.isB var then r.bToF var
  else if r.isF var then r.fToB var
  else none

end ReluPairs

/-! ## IReluplex.h, Error.h: enumerations -/

/-- `IReluplex::VariableStatus`. -/
inductive VariableStatus where
  | ABOVE_UB | AT_UB | BETWEEN | FIXED | AT_LB | BELOW_LB
deriving DecidableEq

/-- `IReluplex::ReluDissolutionType`. -/
inductive ReluDissolutionType where
  | TYPE_SPLIT | TYPE_MERGE
deriving DecidableEq

/-- `Reluplex::FinalStatus`. -/
inductive FinalStatus where
  | SAT | UNSAT | ERROR | NOT_DONE
deriving DecidableEq

/-- `GlpkWrapper::GlpkAnswer`. -/
inductive GlpkAnswer where
  | SOLVER_FAILED | SOLUTION_FOUND | NO_SOLUTION_EXISTS
deriving DecidableEq

/-- The codes of `Error::Code` that the embedded code throws. -/
inductive ErrorCode where
  | STACK_IS_EMPTY | ILLEGAL_PIVOT_OP | NOT_RELU_VARIABLE | VARIABLE_NOT_BASIC
  | COPY_INCOMPATIBLE_SPARSE_MATRICES | NONBASIC_OUT_OF_BOUNDS | MULTIPLE_INFINITE_VARS_ON_ROW
  | EXPECTED_NO_INFINITE_VARS | CANT_FIX_BROKEN_RELU | CANT_MAKE_NON_BASIC
  | CONSECUTIVE_GLPK_FAILURES
deriving DecidableEq

/-- What a `throw` carries: an `Error` with its code, an `InvariantViolationError` with its
level, or an object of any other type (caught only by `catch ( ... )`). -/
inductive Thrown where
  | error (code : ErrorCode)
  | invariantViolation (violatingStackLevel : ℕ)
  | other
deriving DecidableEq

/-! ## SmtCore.h: data -/

/-- `SmtCore::SplitInformation::Type`. -/
inductive SplitType where
  | SPLITTING_RELU | MERGING_RELU
deriving DecidableEq

/-- The class `SmtCore::SplitInformation`. -/
structure SplitInformation where
  type : SplitType
  var : ℕ
  firstAttempt : Bool
  lowerBounds : List VariableBound
  upperBounds : List VariableBound
  assignment : List ℚ
  dissolvedReluPairs : ℕ → Option ReluDissolutionType
  basicVariables : Finset ℕ
  tableau : Tableau

/-- The data members of `SmtCore`: the stack (top first), the violation counters and the
debug-only set `_currentlyInStack`. -/
structure SmtCore where
  stack : List SplitInformation
  numVariables : ℕ
  fToViolations : ℕ → Option ℕ
  currentlyInStack : Finset ℕ

/-! ## Reluplex.h: state -/

/-- The data members of `Reluplex` that the embedded methods read or write. -/
structure Reluplex where
  numVariables : ℕ
  finalStatus : FinalStatus
  wasInitialized : Bool
  tableau : Tableau
  preprocessedTableau : Tableau
  upperBounds : ℕ → VariableBound
  lowerBounds : ℕ → VariableBound
  preprocessedUpperBounds : ℕ → VariableBound
  preprocessedLowerBounds : ℕ → VariableBound
  assignment : ℕ → ℚ
  preprocessedAssignment : ℕ → ℚ
  basicVariables : Finset ℕ
  preprocessedBasicVariables : Finset ℕ
  reluPairs : ReluPairs
  smtCore : SmtCore
  previousGlpkAnswer : GlpkAnswer
  numCallsToProgress : ℕ
  currentStackDepth : ℕ
  minStackSecondPhase : ℕ
  maximalStackDepth : ℕ
  eliminateAlmostBrokenRelus : Bool
  varToStatus : ℕ → VariableStatus
  dissolvedReluVariables : ℕ → Option ReluDissolutionType
  preprocessedDissolvedRelus : ℕ → Option ReluDissolutionType
  eliminatedVars : Finset ℕ
  useDegradationChecking : Bool
  useConflictAnalysis : Bool
  consecutiveGlpkFailureCount : ℕ
  fullTightenAllBounds : Bool
  debugOn : Bool

/-- The result of running a method: a normal return, a throw, or `exit( code )`. A return
and a throw carry the solver state they leave behind. -/
inductive Res (α : Type) where
  | ok (value : α) (state : Reluplex)
  | thrown (e : Thrown) (state : Reluplex)
  | exited (code : ℕ)

namespace Res

/-- Sequencing: run `f` on a normal return, propagate a throw or an exit. -/
def andThen {α β : Type} (r : Res α) (f : α → Reluplex → Res β) : Res β :=
  match r with
  | ok a s => f a s
  | thrown e s => thrown e s
  | exited c => exited c

end Res

namespace Reluplex

/-! ## Reluplex.h: variable status and the tests of the main loop -/

/-- The status that `computeVariableStatus( i )` assigns to variable `i`. -/
def statusOf (s : Reluplex) (i : ℕ) : VariableStatus :=
  let value := s.assignment i
  let ub := (s.upperBounds i).bound
  let lb := (s.lowerBounds i).bound
  if (s.upperBounds i).finite && (s.lowerBounds i).finite then
    if gt value ub OOB_EPSILON then .ABOVE_UB
    else if areEqual value ub OOB_EPSILON then
      (if areEqual lb ub DEFAULT_EPSILON then .FIXED else .AT_UB)
    else if gt value lb OOB_EPSILON then .BETWEEN
    else if areEqual value lb OOB_EPSILON then .AT_LB
    else .BELOW_LB
  else if !(s.upperBounds i).finite && (s.lowerBounds i).finite then
    if gt value lb OOB_EPSILON then .BETWEEN
    else if areEqual value lb OOB_EPSILON then .AT_LB
    else .BELOW_LB
  else if (s.upperBounds i).finite && !(s.lowerBounds i).finite then
    if gt value ub OOB_EPSILON then .ABOVE_UB
    else if areEqual value ub OOB_EPSILON then .AT_UB
    else .BETWEEN
  else .BETWEEN

/-- `Reluplex::computeVariableStatus( i )`. -/
def computeVariableStatus (s : Reluplex) (i : ℕ) : Reluplex :=
  { s with varToStatus := Function.update s.varToStatus i (s.statusOf i) }

/-- `Reluplex::computeVariableStatus()`: all variables, in increasing order. -/
def computeVariableStatusAll (s : Reluplex) : Reluplex :=
  (List.range s.numVariables).foldl computeVariableStatus s

/-- `Reluplex::tooLow( variable )`. -/
def tooLow (s : Reluplex) (v : ℕ) : Bool := decide (s.varToStatus v = .BELOW_LB)

/-- `Reluplex::tooHigh( variable )`. -/
def tooHigh (s : Reluplex) (v : ℕ) : Bool := decide (s.varToStatus v = .ABOVE_UB)

/-- `Reluplex::canDecrease( variable )`. -/
def canDecrease (s : Reluplex) (v : ℕ) : Bool :=
  decide (s.varToStatus v = .BETWEEN) || decide (s.varToStatus v = .AT_UB) ||
    decide (s.varToStatus v = .ABOVE_UB)

/-- `Reluplex::canIncrease( variable )`. -/
def canIncrease (s : Reluplex) (v : ℕ) : Bool :=
  decide (s.varToStatus v = .BETWEEN) || decide (s.varToStatus v = .AT_LB) ||
    decide (s.varToStatus v = .BELOW_LB)

/-- `Reluplex::outOfBounds( variable )`. -/
def outOfBounds (s : Reluplex) (v : ℕ) : Bool := s.tooLow v || s.tooHigh v

/-- The basic variables in the iteration order of `_basicVariables`. -/
def basicList (s : Reluplex) : List ℕ :=
  (List.range s.numVariables).filter (fun v => v ∈ s.basicVariables)

/-- `Reluplex::allVarsWithinBounds()`: no basic variable is out of bounds. -/
def allVarsWithinBounds (s : Reluplex) : Bool :=
  decide (∀ i ∈ s.basicVariables, s.outOfBounds i = false)

/-- `Reluplex::reluPairIsBroken( b, f )`. -/
def reluPairIsBroken (s : Reluplex) (b f : ℕ) : Bool :=
  let bVal := s.assignment b
  let fVal := s.assignment f
  (isZero fVal DEFAULT_EPSILON && isPositive bVal DEFAULT_EPSILON) ||
    (isPositive fVal DEFAULT_EPSILON && areDisequal fVal bVal DEFAULT_EPSILON)

/-- `Reluplex::allRelusHold()`. -/
def allRelusHold (s : Reluplex) : Bool :=
  s.reluPairs.reluPairs.all
    (fun p => !((s.dissolvedReluVariables p.2).isNone && s.reluPairIsBroken p.1 p.2))

/-- `Reluplex::findOutOfBounds( result )`. -/
def findOutOfBounds (s : Reluplex) : List ℕ :=
  s.basicList.filter (fun i => s.outOfBounds i)

/-- `Reluplex::findBrokenRelues( result )`: `b` then `f` of every broken active pair. -/
def findBrokenRelues (s : Reluplex) : List ℕ :=
  s.reluPairs.reluPairs.foldr
    (fun p rest =>
      if (s.dissolvedReluVariables p.2).isNone && s.reluPairIsBroken p.1 p.2
      then p.1 :: p.2 :: rest else rest) []

/-- `Reluplex::setUpperBound( variable, bound )`. -/
def setUpperBound (s : Reluplex) (v : ℕ) (bound : ℚ) : Reluplex :=
  { s with
    upperBounds :=
      Function.update s.upperBounds v (((s.upperBounds v).setBound bound).setLevel 0) }

/-- `Reluplex::setLowerBound( variable, bound )`. -/
def setLowerBound (s : Reluplex) (v : ℕ) (bound : ℚ) : Reluplex :=
  { s with
    lowerBounds :=
      Function.update s.lowerBounds v (((s.lowerBounds v).setBound bound).setLevel 0) }

/-- `Reluplex::boundInvariantHolds( variable, violatingStackLevel )`: `none` when the
invariant holds, otherwise the level written to `violatingStackLevel`. -/
def boundInvariantHolds (s : Reluplex) (v : ℕ) : Option ℕ :=
  if !(s.upperBounds v).finite || !(s.lowerBounds v).finite then none
  else if !lte (s.lowerBounds v).bound (s.upperBounds v).bound DEFAULT_EPSILON then
    some (max (s.lowerBounds v).level (s.upperBounds v).level)
  else none

/-- `Reluplex::activeReluVariable( variable )`. -/
def activeReluVariable (s : Reluplex) (v : ℕ) : Bool :=
  if !s.reluPairs.isRelu v then false
  else
    let f := if s.reluPairs.isF v then v else (s.reluPairs.toPartner v).getD 0
    (s.dissolvedReluVariables f).isNone

/-- `Reluplex::markBasic( variable )`. -/
def markBasic (s : Reluplex) (v : ℕ) : Reluplex :=
  { s with basicVariables := insert v s.basicVariables }

/-- `Reluplex::initializeCell( row, column, value )`. -/
def initializeCell (s : Reluplex) (row column : ℕ) (value : ℚ) : Reluplex :=
  { s with tableau := s.tableau.addEntry row column value }

/-- `Reluplex::setReluPair( backward, forward )` (the slack-variable maps are not modelled). -/
def setReluPair (s : Reluplex) (backward forward : ℕ) : Reluplex :=
  { s with reluPairs := s.reluPairs.addPair backward forward }

end Reluplex

namespace Reluplex

/-! ## Reluplex.h: update and pivot -/

/-- `Reluplex::turnAlmostZeroToZero( x )`. -/
def turnAlmostZeroToZero (x : ℚ) : ℚ := if isZero x DEFAULT_EPSILON then 0 else x

/-- The statements `_assignment[v] += d; turnAlmostZeroToZero( _assignment[v] );
computeVariableStatus( v );` of `update`. -/
def addToAssignment (s : Reluplex) (v : ℕ) (d : ℚ) : Reluplex :=
  computeVariableStatus
    { s with
      assignment :=
        Function.update s.assignment v (turnAlmostZeroToZero (s.assignment v + d)) } v

/-- The part of `update` between the zero test on `delta` and the ReLU test: the variable
moves by `delta` and every row that holds a cell in its column follows. -/
def updateAssignment (s : Reluplex) (v : ℕ) (delta : ℚ) : Reluplex :=
  (s.tableau.getColumn v).foldl
    (fun st current =>
      if current.row ≠ v then st.addToAssignment current.row (delta * current.value)
      else st)
    (s.addToAssignment v delta)

/-- The call `update( v, delta, true )`. -/
def updateIgnoringRelu (s : Reluplex) (v : ℕ) (delta : ℚ) : Reluplex :=
  if isZero delta DEFAULT_EPSILON then s else s.updateAssignment v delta

/-- The debug check that follows a cascaded update of `partner`. -/
def cascadeCheck (s : Reluplex) (partner : ℕ) : Res Unit :=
  if s.debugOn && (decide (s.varToStatus partner = .ABOVE_UB) ||
      decide (s.varToStatus partner = .BELOW_LB)) then
    .thrown (.error .NONBASIC_OUT_OF_BOUNDS) s
  else .ok () s

/-- `Reluplex::update( variable, delta, ignoreRelu )`. -/
def update (s : Reluplex) (v : ℕ) (delta : ℚ) (ignoreRelu : Bool) : Res Unit :=
  if isZero delta DEFAULT_EPSILON then .ok () s
  else
    let s1 := s.updateAssignment v delta
    if s1.reluPairs.isRelu v && !ignoreRelu then
      let partner := (s1.reluPairs.toPartner v).getD 0
      let variableIsF := s1.reluPairs.isF v
      let b := if variableIsF then partner else v
      let f := if variableIsF then v else partner
      if partner ∈ s1.basicVariables then .ok () s1
      else if (s1.dissolvedReluVariables f).isSome then .ok () s1
      else if !s1.reluPairIsBroken b f then .ok () s1
      else if variableIsF then
        cascadeCheck (s1.updateIgnoringRelu b (s1.assignment f - s1.assignment b)) b
      else if isNegative (s1.assignment b) DEFAULT_EPSILON then
        cascadeCheck (s1.updateIgnoringRelu f (-(s1.assignment f))) f
      else
        cascadeCheck (s1.updateIgnoringRelu f (s1.assignment b - s1.assignment f)) f
    else .ok () s1

/-- The tableau after `pivot( nonBasic, basic )`: the scaled row of `basic` becomes the row of
`nonBasic`, the row of `basic` is erased, and the column of `nonBasic` is cleared in every
other row. -/
def pivotTableau (t : Tableau) (nonBasic basic : ℕ) : Tableau :=
  let cell := t.getCell basic nonBasic
  let t1 := t.addScaledRow basic ((-1) / cell) nonBasic nonBasic (-1)
  let t2 := t1.eraseRow basic
  (t2.getColumn nonBasic).foldl
    (fun t3 current =>
      if current.row ≠ nonBasic then
        t3.addScaledRow nonBasic current.value current.row nonBasic 0
      else t3)
    t2

/-- `Reluplex::pivot( nonBasic, basic )`. -/
def pivot (s : Reluplex) (nonBasic basic : ℕ) : Res Unit :=
  if nonBasic ∈ s.basicVariables then .thrown (.error .ILLEGAL_PIVOT_OP) s
  else if basic ∉ s.basicVariables then .thrown (.error .ILLEGAL_PIVOT_OP) s
  else
    .ok ()
      { s with
        basicVariables := insert nonBasic (s.basicVariables.erase basic)
        tableau := pivotTableau s.tableau nonBasic basic }

/-! ## Reluplex.h: dissolving a pair -/

/-- `Reluplex::markReluVariableDissolved( variable, type )`. -/
def markReluVariableDissolved (s : Reluplex) (v : ℕ) (type : ReluDissolutionType) : Res Unit :=
  if s.debugOn && (s.dissolvedReluVariables v).isSome then .exited 1
  else
    .ok ()
      { s with dissolvedReluVariables := Function.update s.dissolvedReluVariables v (some type) }

/-- The loop of `makeNonBasic` over the row of `basic`: the column to pivot with, `none` when
the row offers no candidate. The accumulators are `found`, `leastEvilNonBasic` and
`leastEvilWeight`. -/
def makeNonBasicCandidate (basic forbiddenPartner : ℕ) :
    List Entry → Bool → ℕ → ℚ → Option ℕ
  | [], found, leastEvilNonBasic, _ => if found then some leastEvilNonBasic else none
  | current :: rest, found, leastEvilNonBasic, leastEvilWeight =>
    if current.column = basic ∨ current.column = forbiddenPartner then
      makeNonBasicCandidate basic forbiddenPartner rest found leastEvilNonBasic leastEvilWeight
    else if gte |current.value| NUMBERICAL_INSTABILITY_CONSTANT DEFAULT_EPSILON then
      some current.column
    else if gt |current.value| leastEvilWeight DEFAULT_EPSILON then
      makeNonBasicCandidate basic forbiddenPartner rest true current.column |current.value|
    else
      makeNonBasicCandidate basic forbiddenPartner rest true leastEvilNonBasic leastEvilWeight

/-- `Reluplex::makeNonBasic( basic, forbiddenPartner )`. -/
def makeNonBasic (s : Reluplex) (basic forbiddenPartner : ℕ) : Res Unit :=
  if basic ∉ s.basicVariables then .thrown (.error .VARIABLE_NOT_BASIC) s
  else
    match makeNonBasicCandidate basic forbiddenPartner (s.tableau.getRow basic) false 0 0 with
    | some column => s.pivot column basic
    | none => .thrown (.error .CANT_MAKE_NON_BASIC) s

/-- The steps of `unifyReluPair` once `b` and `f` are non-basic: `f` is moved into its
bounds, `b` is set to the value of `f`, the column of `b` is added to the column of `f`. -/
def unifyNonBasic (s : Reluplex) (b f : ℕ) : Reluplex :=
  let s1 :=
    if s.tooLow f then s.updateIgnoringRelu f ((s.lowerBounds f).bound - s.assignment f)
    else if s.tooHigh f then s.updateIgnoringRelu f ((s.upperBounds f).bound - s.assignment f)
    else s
  let s2 := s1.updateIgnoringRelu b (s1.assignment f - s1.assignment b)
  { s2 with tableau := s2.tableau.addColumnEraseSource b f }

/-- `Reluplex::unifyReluPair( f )`; the value is `true` iff the tableau changes. -/
def unifyReluPair (s : Reluplex) (f : ℕ) : Res Bool :=
  match s.reluPairs.toPartner f with
  | none => .thrown (.error .NOT_RELU_VARIABLE) s
  | some b =>
    if s.tableau.getColumnSize b = 0 then .ok false s
    else
      (if b ∈ s.basicVariables then s.makeNonBasic b f else Res.ok () s).andThen fun _ s1 =>
      (if f ∈ s1.basicVariables then s1.makeNonBasic f b else Res.ok () s1).andThen fun _ s2 =>
      ((s2.unifyNonBasic b f).markReluVariableDissolved f .TYPE_MERGE).andThen fun _ s3 =>
      .ok true s3

end Reluplex

namespace Reluplex

/-! ## Reluplex.h: bound updates -/

/-- The statements `_upperBounds[v].setBound( bound ); _upperBounds[v].setLevel( level );`. -/
def storeUpperBound (s : Reluplex) (v : ℕ) (bound : ℚ) (level : ℕ) : Reluplex :=
  { s with
    upperBounds :=
      Function.update s.upperBounds v (((s.upperBounds v).setBound bound).setLevel level) }

/-- The statements `_lowerBounds[v].setBound( bound ); _lowerBounds[v].setLevel( level );`. -/
def storeLowerBound (s : Reluplex) (v : ℕ) (bound : ℚ) (level : ℕ) : Reluplex :=
  { s with
    lowerBounds :=
      Function.update s.lowerBounds v (((s.lowerBounds v).setBound bound).setLevel level) }

/-- The statement `if ( !_basicVariables.exists( v ) && outOfBounds( v ) ) update( v, target -
_assignment[v], true );` that closes the ReLU branches of the bound updates. -/
def moveIntoBound (s : Reluplex) (v : ℕ) (target : ℚ) : Reluplex :=
  if v ∉ s.basicVariables ∧ s.outOfBounds v = true then
    s.updateIgnoringRelu v (target - s.assignment v)
  else s

/-- The test `!boundInvariantHolds( v ) || !boundInvariantHolds( w )`: the level thrown, if
any (the second variable is only examined when the first one passes). -/
def boundInvariantHolds2 (s : Reluplex) (v w : ℕ) : Option ℕ :=
  match s.boundInvariantHolds v with
  | some level => some level
  | none => s.boundInvariantHolds w

/-- The bound that the ReLU branch of `updateUpperBound` works with: almost-broken
elimination may replace a small positive bound by zero. -/
def adjustUpper (s : Reluplex) (bound : ℚ) : ℚ :=
  if isPositive bound DEFAULT_EPSILON && lte bound ALMOST_BROKEN_RELU_MARGIN DEFAULT_EPSILON
      && s.eliminateAlmostBrokenRelus then 0
  else bound

/-- The bound that the ReLU branch of `updateLowerBound` works with. -/
def adjustLower (s : Reluplex) (bound : ℚ) : ℚ :=
  if isNegative bound DEFAULT_EPSILON &&
      gte bound (-ALMOST_BROKEN_RELU_MARGIN) DEFAULT_EPSILON
      && s.eliminateAlmostBrokenRelus then 0
  else bound

/-- `Reluplex::updateUpperBound( variable, bound, level )`. -/
def updateUpperBound (s : Reluplex) (v : ℕ) (bound : ℚ) (level : ℕ) : Res Unit :=
  let relu := s.reluPairs.isRelu v
  let partner := if relu then (s.reluPairs.toPartner v).getD 0 else 0
  let f := if relu then (if s.reluPairs.isF v then v else partner) else 0
  let b := if relu then (if s.reluPairs.isB v then v else partner) else 0
  if !relu || (s.dissolvedReluVariables f).isSome then
    let s1 := s.storeUpperBound v bound level
    match s1.boundInvariantHolds v with
    | some violatingStackLevel => .thrown (.invariantViolation violatingStackLevel) s1
    | none =>
      let s2 := s1.computeVariableStatus v
      if v ∉ s2.basicVariables ∧ s2.outOfBounds v = true then
        s2.update v (bound - s2.assignment v) false
      else .ok () s2
  else
    let bound1 := s.adjustUpper bound
    if isPositive bound1 DEFAULT_EPSILON then
      let s1 := (s.storeUpperBound v bound1 level).storeUpperBound partner bound1 level
      match s1.boundInvariantHolds2 v partner with
      | some violatingStackLevel => .thrown (.invariantViolation violatingStackLevel) s1
      | none =>
        let s2 := (s1.computeVariableStatus v).computeVariableStatus partner
        .ok () ((s2.moveIntoBound v bound1).moveIntoBound partner bound1)
    else if isNegative bound1 DEFAULT_EPSILON && s.reluPairs.isF v then
      let s1 := s.storeUpperBound v bound1 level
      match s1.boundInvariantHolds v with
      | some violatingStackLevel => .thrown (.invariantViolation violatingStackLevel) s1
      | none => .exited 1
    else
      (s.markReluVariableDissolved f .TYPE_SPLIT).andThen fun _ s0 =>
      let s1 := (s0.storeUpperBound f 0 level).storeUpperBound b bound1 level
      match s1.boundInvariantHolds2 b f with
      | some violatingStackLevel => .thrown (.invariantViolation violatingStackLevel) s1
      | none =>
        let s2 := (s1.computeVariableStatus b).computeVariableStatus f
        .ok () ((s2.moveIntoBound b bound1).moveIntoBound f 0)

/-- `Reluplex::updateLowerBound( variable, bound, level )`; the value is `true` iff the
tableau changes. -/
def updateLowerBound (s : Reluplex) (v : ℕ) (bound : ℚ) (level : ℕ) : Res Bool :=
  let relu := s.reluPairs.isRelu v
  let partner := if relu then (s.reluPairs.toPartner v).getD 0 else 0
  let f := if relu then (if s.reluPairs.isF v then v else partner) else 0
  if !relu || (s.dissolvedReluVariables f).isSome then
    let s1 := s.storeLowerBound v bound level
    match s1.boundInvariantHolds v with
    | some violatingStackLevel => .thrown (.invariantViolation violatingStackLevel) s1
    | none =>
      let s2 := s1.computeVariableStatus v
      if v ∉ s2.basicVariables ∧ s2.outOfBounds v = true then
        (s2.update v (bound - s2.assignment v) false).andThen fun _ s3 => .ok false s3
      else .ok false s2
  else
    let bound1 := s.adjustLower bound
    if !isNegative bound1 DEFAULT_EPSILON then
      let s1 := (s.storeLowerBound v bound1 level).storeLowerBound partner bound1 level
      match s1.boundInvariantHolds2 v partner with
      | some violatingStackLevel => .thrown (.invariantViolation violatingStackLevel) s1
      | none =>
        let s2 := (s1.computeVariableStatus v).computeVariableStatus partner
        ((s2.moveIntoBound v bound1).moveIntoBound partner bound1).unifyReluPair f
    else
      let s1 := s.storeLowerBound v bound1 level
      match s1.boundInvariantHolds v with
      | some violatingStackLevel => .thrown (.invariantViolation violatingStackLevel) s1
      | none => .ok false ((s1.computeVariableStatus v).moveIntoBound v bound1)

end Reluplex

namespace Reluplex

/-! ## Reluplex.h: repairing a broken pair -/

/-- `Reluplex::canAddToNonBasic( variable, delta )`; `none` stands for the throw of
`NONBASIC_OUT_OF_BOUNDS`. -/
def canAddToNonBasic (s : Reluplex) (v : ℕ) (delta : ℚ) : Option Bool :=
  if isZero delta DEFAULT_EPSILON then some true
  else
    let positive := isPositive delta DEFAULT_EPSILON
    let status := s.varToStatus v
    if status = .ABOVE_UB ∨ status = .BELOW_LB then none
    else if status = .FIXED then some false
    else if positive then
      if status = .AT_UB ∧ gt delta OOB_EPSILON DEFAULT_EPSILON = true then some false
      else if !(s.upperBounds v).finite then some true
      else some (lte (s.assignment v + delta) (s.upperBounds v).bound OOB_EPSILON)
    else
      if status = .AT_LB ∧ lt delta (-OOB_EPSILON) DEFAULT_EPSILON = true then some false
      else if !(s.lowerBounds v).finite then some true
      else some (gte (s.assignment v + delta) (s.lowerBounds v).bound OOB_EPSILON)

/-- The loop of `findPivotCandidate` over the row of `variable`; the accumulators are
`found`, `leastEvilNonBasic` and `leastEvilWeight`. -/
def pivotCandidateScan (s : Reluplex) (v : ℕ) (increase ensureNumericalStability : Bool) :
    List Entry → Bool → ℕ → ℚ → Option ℕ
  | [], found, leastEvilNonBasic, _ => if found then some leastEvilNonBasic else none
  | current :: rest, found, leastEvilNonBasic, leastEvilWeight =>
    let column := current.column
    let positive := isPositive current.value DEFAULT_EPSILON
    if column = v then
      pivotCandidateScan s v increase ensureNumericalStability rest found leastEvilNonBasic
        leastEvilWeight
    else if !((increase && positive && s.canIncrease column) ||
        (increase && !positive && s.canDecrease column) ||
        (!increase && positive && s.canDecrease column) ||
        (!increase && !positive && s.canIncrease column)) then
      pivotCandidateScan s v increase ensureNumericalStability rest found leastEvilNonBasic
        leastEvilWeight
    else if !ensureNumericalStability ||
        gte |current.value| NUMBERICAL_INSTABILITY_CONSTANT DEFAULT_EPSILON then
      some column
    else if gt |current.value| leastEvilWeight DEFAULT_EPSILON then
      pivotCandidateScan s v increase ensureNumericalStability rest true column |current.value|
    else
      pivotCandidateScan s v increase ensureNumericalStability rest true leastEvilNonBasic
        leastEvilWeight

/-- `Reluplex::findPivotCandidate( variable, increase, pivotCandidate,
ensureNumericalStability )`: the candidate, `none` for the return value `false`. -/
def findPivotCandidate (s : Reluplex) (v : ℕ) (increase ensureNumericalStability : Bool) :
    Option ℕ :=
  pivotCandidateScan s v increase ensureNumericalStability (s.tableau.getRow v) false 0 0

/-- `Reluplex::fixBrokenReluVariable( var, increase, delta, stat )`. -/
def fixBrokenReluVariable (s : Reluplex) (v : ℕ) (increase : Bool) (delta : ℚ) : Res Bool :=
  if v ∉ s.basicVariables then
    if s.debugOn && !s.allVarsWithinBounds then .exited 1
    else if s.debugOn && decide (s.canAddToNonBasic v delta = none) then
      .thrown (.error .NONBASIC_OUT_OF_BOUNDS) s
    else if s.debugOn && decide (s.canAddToNonBasic v delta = some false) then
      .thrown (.error .CANT_FIX_BROKEN_RELU) s
    else .ok true (s.updateIgnoringRelu v delta)
  else
    match s.findPivotCandidate v increase true with
    | none => .ok false s
    | some pivotCandidate =>
      if s.debugOn && s.outOfBounds v then .exited 1
      else
        (s.pivot pivotCandidate v).andThen fun _ s1 => .ok true (s1.updateIgnoringRelu v delta)

/-- `Reluplex::fixBrokenRelu( toFix )`. -/
def fixBrokenRelu (s : Reluplex) (toFix : ℕ) : Res Bool :=
  match s.reluPairs.toPartner toFix with
  | none => .thrown (.error .NOT_RELU_VARIABLE) s
  | some partner =>
    let f := if s.reluPairs.isF toFix then toFix else partner
    let b := if s.reluPairs.isF toFix then partner else toFix
    let fVal := s.assignment f
    let bVal := s.assignment b
    let run := fun (fDelta bDelta : ℚ) =>
      (s.fixBrokenReluVariable b (isPositive bDelta DEFAULT_EPSILON) bDelta).andThen
        fun fixedB s1 =>
          if !fixedB then s1.fixBrokenReluVariable f (isPositive fDelta DEFAULT_EPSILON) fDelta
          else .ok true s1
    if isPositive fVal DEFAULT_EPSILON && !isPositive bVal DEFAULT_EPSILON then
      run (-fVal) (fVal - bVal)
    else if isPositive fVal DEFAULT_EPSILON && isPositive bVal DEFAULT_EPSILON then
      run (bVal - fVal) (fVal - bVal)
    else if isZero fVal DEFAULT_EPSILON && isPositive bVal DEFAULT_EPSILON then
      run bVal (-bVal)
    else .exited 1

end Reluplex

namespace Reluplex

/-! ## Reluplex.h: invariants and preprocessing -/

/-- The first block of `checkInvariants` for one basic variable: its column is active, holds
one cell, which lies in its own row and has value `-1`, and no other variable of its row is
basic. -/
def tableauFormAt (s : Reluplex) (basic : ℕ) : Bool :=
  s.tableau.activeColumn basic &&
    decide (s.tableau.getColumnSize basic = 1) &&
    ((s.tableau.getColumn basic).head?.map (fun e => decide (e.row = basic))).getD false &&
    ((s.tableau.getColumn basic).head?.map
      (fun e => areEqual e.value (-1) DEFAULT_EPSILON)).getD false &&
    (s.tableau.getRow basic).all
      (fun current => decide (current.column = basic) ||
        !decide (current.column ∈ s.basicVariables))

/-- The third block of `checkInvariants` for a dissolved pair `(b, f)`. -/
def dissolvedShapeAt (s : Reluplex) (b f : ℕ) (type : ReluDissolutionType) : Bool :=
  match type with
  | .TYPE_SPLIT =>
    isZero (s.upperBounds f).bound DEFAULT_EPSILON &&
      isZero (s.lowerBounds f).bound DEFAULT_EPSILON &&
      !isPositive (s.upperBounds b).bound DEFAULT_EPSILON
  | .TYPE_MERGE =>
    decide (s.tableau.getColumnSize b = 0) &&
      !isNegative (s.lowerBounds f).bound DEFAULT_EPSILON

/-- The loop of `checkInvariants` over the dissolved pairs `f = 0 .. n - 1`: `none` for the
throw of `toPartner`, otherwise whether every pair has the right shape. -/
def dissolvedShape (s : Reluplex) : ℕ → Option Bool
  | 0 => some true
  | n + 1 =>
    match dissolvedShape s n with
    | none => none
    | some false => some false
    | some true =>
      match s.dissolvedReluVariables n with
      | none => some true
      | some type =>
        match s.reluPairs.toPartner n with
        | none => none
        | some b => some (s.dissolvedShapeAt b n type)

/-- `Reluplex::checkInvariants()`: nothing happens unless `DEBUG_ON` is defined; a failed
check ends the process with `exit( 1 )`. -/
def checkInvariants (s : Reluplex) : Res Unit :=
  if !s.debugOn then .ok () s
  else if !s.basicList.all (fun basic => s.tableauFormAt basic) then .exited 1
  else if !(List.range s.numVariables).all
      (fun i => !(decide (s.varToStatus i = .ABOVE_UB) || decide (s.varToStatus i = .BELOW_LB))
        || decide (i ∈ s.basicVariables)) then .exited 1
  else
    match s.dissolvedShape s.numVariables with
    | none => .thrown (.error .NOT_RELU_VARIABLE) s
    | some false => .exited 1
    | some true => .ok () s

/-- The loop of `initialUpdate` over the variables `i, i + 1, ..` (`n` of them). -/
def initialUpdateLoop : ℕ → ℕ → Reluplex → Res Unit
  | 0, _, s => .ok () s
  | n + 1, i, s =>
    match s.boundInvariantHolds i with
    | some violatingStackLevel => .thrown (.invariantViolation violatingStackLevel) s
    | none =>
      (if i ∉ s.basicVariables ∧ s.outOfBounds i = true then
        (if s.tooLow i then s.update i ((s.lowerBounds i).bound - s.assignment i) false
         else s.update i ((s.upperBounds i).bound - s.assignment i) false)
       else Res.ok () s).andThen fun _ s1 => initialUpdateLoop n (i + 1) s1

/-- `Reluplex::initialUpdate()`. -/
def initialUpdate (s : Reluplex) : Res Unit :=
  (initialUpdateLoop s.numVariables 0 s.computeVariableStatusAll).andThen
    fun _ s1 => s1.checkInvariants

/-- The first loop of `makeAllBoundsFiniteOnRow`: the entry of the row whose variable has a
non-finite bound; the outer `none` stands for the throw of `MULTIPLE_INFINITE_VARS_ON_ROW`. -/
def findTighteningVar (s : Reluplex) : List Entry → Option Entry → Option (Option Entry)
  | [], tighteningVar => some tighteningVar
  | row :: rest, tighteningVar =>
    if !(s.upperBounds row.column).finite || !(s.lowerBounds row.column).finite then
      (if tighteningVar.isSome then none else findTighteningVar s rest (some row))
    else findTighteningVar s rest tighteningVar

/-- The second loop of `makeAllBoundsFiniteOnRow`: the pair `(max, min)`. -/
def rowMaxMin (s : Reluplex) (tighteningVarIndex : ℕ) (scale : ℚ) (row : List Entry) : ℚ × ℚ :=
  row.foldl
    (fun acc current =>
      if current.column = tighteningVarIndex then acc
      else
        let coefficient := current.value * scale
        if isPositive coefficient DEFAULT_EPSILON then
          (acc.1 + (s.upperBounds current.column).bound * coefficient,
           acc.2 + (s.lowerBounds current.column).bound * coefficient)
        else
          (acc.1 + (s.lowerBounds current.column).bound * coefficient,
           acc.2 + (s.upperBounds current.column).bound * coefficient))
    (0, 0)

/-- `Reluplex::makeAllBoundsFiniteOnRow( basic )`. -/
def makeAllBoundsFiniteOnRow (s : Reluplex) (basic : ℕ) : Res Unit :=
  match findTighteningVar s (s.tableau.getRow basic) none with
  | none => .thrown (.error .MULTIPLE_INFINITE_VARS_ON_ROW) s
  | some none => .ok () s
  | some (some tighteningVar) =>
    let index := tighteningVar.column
    let mm := rowMaxMin s index ((-1) / tighteningVar.value) (s.tableau.getRow basic)
    (if !(s.upperBounds index).finite || lt mm.1 (s.upperBounds index).bound DEFAULT_EPSILON
      then s.updateUpperBound index mm.1 0 else Res.ok () s).andThen fun _ s1 =>
    (if !(s1.lowerBounds index).finite || gt mm.2 (s1.lowerBounds index).bound DEFAULT_EPSILON
      then (s1.updateLowerBound index mm.2 0).andThen fun _ s2 => Res.ok () s2
      else Res.ok () s1).andThen fun _ s2 =>
    let s3 := s2.computeVariableStatus index
    if index ∉ s3.basicVariables ∧ s3.outOfBounds index = true then
      s3.update index ((s3.lowerBounds index).bound - s3.assignment index) false
    else .ok () s3

end Reluplex

namespace Reluplex

/-- `Reluplex::countVarsWithInfiniteBounds()`: the value written to
`_varsWithInfiniteBounds`. -/
def countVarsWithInfiniteBounds (s : Reluplex) : ℕ :=
  ((List.range s.numVariables).filter
    (fun i => !(s.upperBounds i).finite || !(s.lowerBounds i).finite)).length

/-- The loop `for ( const auto &basic : _basicVariables ) makeAllBoundsFiniteOnRow( basic )`.
The set is read while the loop runs: after the variable `i` the loop goes on with the next
larger member of the current set. The first argument bounds the number of variables still to
be examined. -/
def makeAllBoundsFiniteLoop : ℕ → ℕ → Reluplex → Res Unit
  | 0, _, s => .ok () s
  | n + 1, i, s =>
    if i ∈ s.basicVariables then
      (s.makeAllBoundsFiniteOnRow i).andThen fun _ s1 => makeAllBoundsFiniteLoop n (i + 1) s1
    else makeAllBoundsFiniteLoop n (i + 1) s

/-- `Reluplex::makeAllBoundsFinite()`. -/
def makeAllBoundsFinite (s : Reluplex) : Res Unit :=
  (makeAllBoundsFiniteLoop s.numVariables 0 s).andThen fun _ s1 =>
    if s1.countVarsWithInfiniteBounds ≠ 0 then .thrown (.error .EXPECTED_NO_INFINITE_VARS) s1
    else .ok () s1

/-- `Reluplex::initialize()`. -/
def initialise (s : Reluplex) : Res Unit :=
  s.initialUpdate.andThen fun _ s1 =>
  s1.makeAllBoundsFinite.andThen fun _ s2 =>
  .ok () { s2 with wasInitialized := true }

/-- `Reluplex::fixedAtZero( var )`. -/
def fixedAtZero (s : Reluplex) (v : ℕ) : Bool :=
  decide (s.varToStatus v = .FIXED) && isZero (s.upperBounds v).bound DEFAULT_EPSILON

/-- `Reluplex::eliminateIfPossible( var )`. -/
def eliminateIfPossible (s : Reluplex) (v : ℕ) : Res Bool :=
  if s.reluPairs.isRelu v then .exited 1
  else
    let increase := s.tooLow v
    let delta :=
      if increase then (s.lowerBounds v).bound - s.assignment v
      else (s.upperBounds v).bound - s.assignment v
    match s.findPivotCandidate v increase false with
    | none => .ok true s
    | some pivotCandidate =>
      (s.pivot pivotCandidate v).andThen fun _ s1 =>
      (s1.update v delta false).andThen fun _ s2 =>
      if !s2.fixedAtZero v then .ok true s2
      else
        .ok true
          { s2 with
            tableau := s2.tableau.eraseColumn v
            eliminatedVars := insert v s2.eliminatedVars }

/-- The loop of `eliminateAuxVariables` over the copy `initialAuxVariables`. -/
def eliminateAuxLoop : List ℕ → Reluplex → Res Bool
  | [], s => .ok true s
  | aux :: rest, s =>
    (s.eliminateIfPossible aux).andThen fun done s1 =>
      if !done then .ok false s1 else eliminateAuxLoop rest s1

/-- `Reluplex::eliminateAuxVariables()`. -/
def eliminateAuxVariables (s : Reluplex) : Res Bool :=
  eliminateAuxLoop s.computeVariableStatusAll.basicList s.computeVariableStatusAll

/-- `Reluplex::storePreprocessedMatrix()`. -/
def storePreprocessedMatrix (s : Reluplex) : Res Unit :=
  s.checkInvariants.andThen fun _ s1 =>
    match s1.tableau.backupIntoMatrix s1.preprocessedTableau with
    | none => .thrown (.error .COPY_INCOMPATIBLE_SPARSE_MATRICES) s1
    | some copy =>
      .ok ()
        { s1 with
          preprocessedTableau := copy
          preprocessedDissolvedRelus := s1.dissolvedReluVariables
          preprocessedBasicVariables := s1.basicVariables
          preprocessedAssignment := fun i =>
            if i < s1.numVariables then s1.assignment i else s1.preprocessedAssignment i
          preprocessedLowerBounds := fun i =>
            if i < s1.numVariables then s1.lowerBounds i else s1.preprocessedLowerBounds i
          preprocessedUpperBounds := fun i =>
            if i < s1.numVariables then s1.upperBounds i else s1.preprocessedUpperBounds i }

/-! ## SmtCore.h: methods -/

/-- `Reluplex::setCurrentStackDepth( depth )`. -/
def setCurrentStackDepth (s : Reluplex) (depth : ℕ) : Reluplex :=
  { s with
    currentStackDepth := depth
    maximalStackDepth := if depth > s.maximalStackDepth then depth else s.maximalStackDepth }

/-- `Reluplex::setMinStackSecondPhase( depth )`. -/
def setMinStackSecondPhase (s : Reluplex) (depth : ℕ) : Reluplex :=
  { s with
    minStackSecondPhase :=
      if depth < s.minStackSecondPhase ∨ s.minStackSecondPhase = 0 then depth
      else s.minStackSecondPhase }

/-- `SmtCore::storeCurrentState( splitInformation, variable )` on a new `SplitInformation`,
whose tableau was built for `_numVariables` variables; `none` stands for the throw of
`backupIntoMatrix`. The fields `_type` and `_firstAttempt` are those that
`dissolveReluOnVar` sets afterwards. -/
def storeCurrentState (s : Reluplex) (v : ℕ) (type : SplitType) : Option SplitInformation :=
  match s.tableau.backupIntoMatrix (Tableau.empty s.smtCore.numVariables) with
  | none => none
  | some copy =>
    some
      { type := type
        var := v
        firstAttempt := true
        lowerBounds := (List.range s.smtCore.numVariables).map s.lowerBounds
        upperBounds := (List.range s.smtCore.numVariables).map s.upperBounds
        assignment := (List.range s.smtCore.numVariables).map s.assignment
        dissolvedReluPairs := s.dissolvedReluVariables
        basicVariables := s.basicVariables
        tableau := copy }

/-- Writing a list into the first cells of an array (`setLowerBounds`, `setUpperBounds`,
`setAssignment`). -/
def writeList {α : Type} (array : ℕ → α) (values : List α) : ℕ → α :=
  fun i => match values.get? i with
    | some x => x
    | none => array i

end Reluplex

namespace Reluplex

/-- `SmtCore::restorePreviousState( previousState )`. -/
def restorePreviousState (s : Reluplex) (previousState : SplitInformation) : Res Unit :=
  let s1 : Reluplex :=
    { s with
      lowerBounds := writeList s.lowerBounds previousState.lowerBounds
      upperBounds := writeList s.upperBounds previousState.upperBounds
      dissolvedReluVariables := previousState.dissolvedReluPairs
      basicVariables := previousState.basicVariables
      assignment := writeList s.assignment previousState.assignment }
  match previousState.tableau.backupIntoMatrix s1.tableau with
  | none => .thrown (.error .COPY_INCOMPATIBLE_SPARSE_MATRICES) s1
  | some copy => .ok () ({ s1 with tableau := copy } : Reluplex).computeVariableStatusAll

/-- `SmtCore::beginWithSplit( f )`. -/
def beginWithSplit (s : Reluplex) (f : ℕ) : Bool :=
  if isPositive (s.assignment f) DEFAULT_EPSILON then false else true

/-- The statement `_stack.push( splitInformation )`. -/
def pushSnapshot (s : Reluplex) (info : SplitInformation) : Reluplex :=
  { s with smtCore := { s.smtCore with stack := info :: s.smtCore.stack } }

/-- `SmtCore::dissolveReluOnVar( variable )`. -/
def dissolveReluOnVar (s : Reluplex) (v : ℕ) : Res Unit :=
  if s.beginWithSplit v then
    match s.storeCurrentState v .SPLITTING_RELU with
    | none => .thrown (.error .COPY_INCOMPATIBLE_SPARSE_MATRICES) s
    | some info =>
      let s1 := s.pushSnapshot info
      (s1.updateUpperBound v 0 s1.smtCore.stack.length).andThen fun _ s2 =>
        .ok () (s2.setCurrentStackDepth s2.smtCore.stack.length)
  else
    match s.storeCurrentState v .MERGING_RELU with
    | none => .thrown (.error .COPY_INCOMPATIBLE_SPARSE_MATRICES) s
    | some info =>
      let s1 := s.pushSnapshot info
      (s1.updateLowerBound v 0 s1.smtCore.stack.length).andThen fun _ s2 =>
        .ok () (s2.setCurrentStackDepth s2.smtCore.stack.length)

/-- The loop of `SmtCore::pop()`; the first argument is the stack of the state. -/
def popLoop : List SplitInformation → Reluplex → Res Unit
  | [], s => .thrown (.error .STACK_IS_EMPTY) s
  | oldState :: rest, s =>
    (restorePreviousState { s with smtCore := { s.smtCore with stack := rest } }
        oldState).andThen fun _ s1 =>
      if oldState.firstAttempt then
        if oldState.type = .SPLITTING_RELU then
          let s2 := s1.pushSnapshot
            { oldState with firstAttempt := false, type := .MERGING_RELU }
          (s2.updateLowerBound oldState.var 0 s2.smtCore.stack.length).andThen fun _ s3 =>
            .ok () (s3.computeVariableStatusAll.setMinStackSecondPhase s3.smtCore.stack.length)
        else
          let s2 := s1.pushSnapshot
            { oldState with firstAttempt := false, type := .SPLITTING_RELU }
          (s2.updateUpperBound oldState.var 0 s2.smtCore.stack.length).andThen fun _ s3 =>
            .ok () (s3.computeVariableStatusAll.setMinStackSecondPhase s3.smtCore.stack.length)
      else
        popLoop rest
          (setCurrentStackDepth
            { s1 with
              smtCore :=
                { s1.smtCore with
                  currentlyInStack :=
                    if s1.debugOn then s1.smtCore.currentlyInStack.erase oldState.var
                    else s1.smtCore.currentlyInStack } }
            rest.length)

/-- `SmtCore::pop()`. -/
def pop (s : Reluplex) : Res Unit := popLoop s.smtCore.stack s

/-- The loop `while ( _stack.size() > violatingStackLevel ) pop();` of
`SmtCore::pop( violatingStackLevel )`, with fuel; `none` when the fuel runs out. -/
def popWhile : ℕ → ℕ → Reluplex → Option (Res Unit)
  | 0, _, _ => none
  | fuel + 1, violatingStackLevel, s =>
    if s.smtCore.stack.length > violatingStackLevel then
      match s.pop with
      | .ok _ s1 => popWhile fuel violatingStackLevel s1
      | .thrown e s1 => some (.thrown e s1)
      | .exited c => some (.exited c)
    else some (.ok () s)

/-- `SmtCore::pop( violatingStackLevel )`, with fuel for its loop. -/
def popTo (fuel : ℕ) (s : Reluplex) (violatingStackLevel : ℕ) : Option (Res Unit) :=
  if violatingStackLevel = 0 then some (.thrown (.error .STACK_IS_EMPTY) s)
  else
    match s.pop with
    | .ok _ s1 => popWhile fuel violatingStackLevel s1
    | .thrown e s1 => some (.thrown e s1)
    | .exited c => some (.exited c)

/-- `SmtCore::notifyBrokenRelu( f )`. -/
def notifyBrokenRelu (s : Reluplex) (f : ℕ) : Res Bool :=
  let count := ((s.smtCore.fToViolations f).getD 0) + 1
  let s1 : Reluplex :=
    { s with smtCore := { s.smtCore with
        fToViolations := Function.update s.smtCore.fToViolations f (some count) } }
  if count ≥ NUM_RELU_OPERATIONS_BEFORE_SPLIT then
    if s1.debugOn && decide (f ∈ s1.smtCore.currentlyInStack) then .exited 1
    else
      let s2 : Reluplex :=
        if s1.debugOn then
          { s1 with smtCore := { s1.smtCore with
              currentlyInStack := insert f s1.smtCore.currentlyInStack } }
        else s1
      (s2.dissolveReluOnVar f).andThen fun _ s3 =>
        .ok true { s3 with smtCore := { s3.smtCore with fToViolations := fun _ => none } }
  else .ok false s1

end Reluplex

/-! ## Reluplex.h: the driver -/

/-- The parts of a run that are not embedded: the flag `_quit`, which a signal handler may
set at any time, as the main loop reads it at the top of its iteration `k`; the degradation
test of `progress` (`checkDegradation` and, above the threshold, the outcome of
`restoreTableauFromBackup`; `none` below the threshold); and the branch of `progress` that
is taken when a basic variable is out of bounds (`fixOutOfBounds` with the LP oracle and
the bound tightening that follows), with the value that `progress` returns from it. The
definitions `Reluplex.restoreTableauFromBackup` and `Reluplex.lpBranch` further down embed
the restoration and, for a given LP oracle, that branch. -/
structure Env where
  quit : ℕ → Bool
  degradation : Reluplex → Option (Res Unit)
  lpBranch : Reluplex → Res Bool

namespace Reluplex

/-- The constructor `Reluplex( numVariables )`. The member `_previousGlpkAnswer`, which the
constructor leaves uninitialised, is taken as `SOLVER_FAILED`, the first enumerator. -/
def new (numVariables : ℕ) (debugOn : Bool) : Reluplex :=
  { numVariables := numVariables
    finalStatus := .NOT_DONE
    wasInitialized := false
    tableau := Tableau.empty numVariables
    preprocessedTableau := Tableau.empty numVariables
    upperBounds := fun _ => VariableBound.new
    lowerBounds := fun _ => VariableBound.new
    preprocessedUpperBounds := fun _ => VariableBound.new
    preprocessedLowerBounds := fun _ => VariableBound.new
    assignment := fun _ => 0
    preprocessedAssignment := fun _ => 0
    basicVariables := ∅
    preprocessedBasicVariables := ∅
    reluPairs := ReluPairs.new
    smtCore :=
      { stack := [], numVariables := numVariables, fToViolations := fun _ => none,
        currentlyInStack := ∅ }
    previousGlpkAnswer := .SOLVER_FAILED
    numCallsToProgress := 0
    currentStackDepth := 0
    minStackSecondPhase := 0
    maximalStackDepth := 0
    eliminateAlmostBrokenRelus := false
    varToStatus := fun _ => .ABOVE_UB
    dissolvedReluVariables := fun _ => none
    preprocessedDissolvedRelus := fun _ => none
    eliminatedVars := ∅
    useDegradationChecking := false
    useConflictAnalysis := true
    consecutiveGlpkFailureCount := 0
    fullTightenAllBounds := true
    debugOn := debugOn }

/-- The `try` block of `progress`: the value returned and the level left in
`violatingLevelInStack`. Taking the first element of an empty list of broken pairs is
undefined behaviour; the model ends the run there as a crash (`exited 139`). -/
def progressBody (env : Env) (s : Reluplex) : Res (Bool × ℕ) :=
  let s1 : Reluplex := { s with numCallsToProgress := (s.numCallsToProgress + 1) % 2 ^ 32 }
  let level := s1.currentStackDepth
  match (if s1.useDegradationChecking ∧ s1.numCallsToProgress % 50 = 0
      then env.degradation s1 else none) with
  | some r => r.andThen fun _ s2 => .ok (true, level) s2
  | none =>
    if s1.findOutOfBounds ≠ [] then
      (env.lpBranch s1).andThen fun result s2 => .ok (result, level) s2
    else
      let s2 : Reluplex :=
        { s1 with consecutiveGlpkFailureCount := 0, previousGlpkAnswer := .SOLUTION_FOUND }
      match s2.findBrokenRelues.head? with
      | none => .exited 139
      | some brokenReluVar =>
        match (if s2.reluPairs.isF brokenReluVar then some brokenReluVar
            else s2.reluPairs.toPartner brokenReluVar) with
        | none => .thrown (.error .NOT_RELU_VARIABLE) s2
        | some f =>
          (s2.notifyBrokenRelu f).andThen fun split s3 =>
            if split then .ok (true, level) s3
            else (s3.fixBrokenRelu f).andThen fun result s4 => .ok (result, level) s4

/-- `Reluplex::progress( violatingLevelInStack )`: the `try` block and its
`catch ( const InvariantViolationError &e )`. -/
def progress (env : Env) (s : Reluplex) : Res (Bool × ℕ) :=
  match progressBody env s with
  | .thrown (.invariantViolation violatingStackLevel) s1 =>
    .ok (false,
      if violatingStackLevel ≠ s1.currentStackDepth then violatingStackLevel
      else s.currentStackDepth) s1
  | r => r

/-- The main loop of `solve`, with fuel; `k` counts the iterations. -/
def mainLoop (env : Env) : ℕ → ℕ → Reluplex → Option (Res FinalStatus)
  | 0, _, _ => none
  | fuel + 1, k, s =>
    if env.quit k then some (.ok .NOT_DONE s)
    else
      let s1 := s.computeVariableStatusAll
      if s1.allVarsWithinBounds && s1.allRelusHold then some (.ok .SAT s1)
      else
        match progress env s1 with
        | .ok result s2 =>
          if result.1 then mainLoop env fuel (k + 1) s2
          else
            match (if s2.useConflictAnalysis then popTo fuel s2 result.2
                else some s2.pop) with
            | none => none
            | some (.ok _ s3) =>
              mainLoop env fuel (k + 1) (s3.setMinStackSecondPhase s3.currentStackDepth)
            | some (.thrown e s3) => some (.thrown e s3)
            | some (.exited c) => some (.exited c)
        | .thrown e s2 => some (.thrown e s2)
        | .exited c => some (.exited c)

/-- The `try` block of `solve`. -/
def solveBody (env : Env) (fuel : ℕ) (s : Reluplex) : Option (Res FinalStatus) :=
  match (if !s.wasInitialized then s.initialise else Res.ok () s) with
  | .thrown e s1 => some (.thrown e s1)
  | .exited c => some (.exited c)
  | .ok _ s1 =>
    match s1.eliminateAuxVariables with
    | .thrown e s2 => some (.thrown e s2)
    | .exited c => some (.exited c)
    | .ok false s2 => some (.ok .ERROR s2)
    | .ok true s2 =>
      match s2.storePreprocessedMatrix with
      | .thrown e s3 => some (.thrown e s3)
      | .exited c => some (.exited c)
      | .ok _ s3 => mainLoop env fuel 0 s3

/-- How a call of `solve` ends: it returns a status, the process exits, or (in the model)
the fuel of the main loop runs out. -/
inductive SolveResult where
  | returned (status : FinalStatus) (state : Reluplex)
  | exited (code : ℕ)
  | outOfFuel

/-- `Reluplex::solve()`: the `try` block and the three `catch` clauses. -/
def solve (env : Env) (fuel : ℕ) (s : Reluplex) : SolveResult :=
  match solveBody env fuel s with
  | none => .outOfFuel
  | some (.exited c) => .exited c
  | some (.ok status s1) => .returned status { s1 with finalStatus := status }
  | some (.thrown (.error code) s1) =>
    if code = .STACK_IS_EMPTY then .returned .UNSAT { s1 with finalStatus := .UNSAT }
    else .returned .ERROR { s1 with finalStatus := .ERROR }
  | some (.thrown (.invariantViolation _) s1) =>
    .returned .UNSAT { s1 with finalStatus := .UNSAT }
  | some (.thrown .other s1) => .returned .ERROR { s1 with finalStatus := .ERROR }

end Reluplex

/-! ## Concrete runs -/

namespace Reluplex.SolveResult

/-- The status that `solve` returned, if it returned. -/
def status? : SolveResult → Option FinalStatus
  | returned status _ => some status
  | _ => none

/-- The solver state when `solve` returned. -/
def state? : SolveResult → Option Reluplex
  | returned _ state => some state
  | _ => none

end Reluplex.SolveResult

/-- A run in which `quit()` is never called, degradation checking is off and the LP branch is
never reached (it is given an arbitrary behaviour). -/
def quietEnv : Env :=
  { quit := fun _ => false, degradation := fun _ => none, lpBranch := fun s => .thrown .other s }

/-- As `quietEnv`, with `quit()` called before iteration `k` of the main loop starts. -/
def quitAt (k : ℕ) : Env := { quietEnv with quit := fun i => decide (i = k) }

/-- A query with one ReLU pair `(b, f) = (0, 1)` and the row `x4 = f - x2 + x3`, where
`b = 5`, `0 <= f <= 9`, `x2 = 1`, `x3 = 1.0005` and `x4 = 0`:
the calls `initializeCell`, `markBasic`, `setLowerBound`, `setUpperBound`, `setReluPair`. -/
def slightlyNegativeF (debugOn : Bool) : Reluplex :=
  let s := Reluplex.new 5 debugOn
  let s := s.initializeCell 4 4 (-1)
  let s := s.initializeCell 4 3 1
  let s := s.initializeCell 4 2 (-1)
  let s := s.initializeCell 4 1 1
  let s := s.markBasic 4
  let s := (s.setLowerBound 0 5).setUpperBound 0 5
  let s := (s.setLowerBound 1 0).setUpperBound 1 9
  let s := (s.setLowerBound 2 1).setUpperBound 2 1
  let s := (s.setLowerBound 3 (2001 / 2000)).setUpperBound 3 (2001 / 2000)
  let s := (s.setLowerBound 4 0).setUpperBound 4 0
  s.setReluPair 0 1

/-- What the run on `slightlyNegativeF` is checked for: the pair `(0, 1)` is registered and
not dissolved, `lb(f) = 0`, no variable is out of bounds, `A[b] = 5`, `A[f] = -0.0005`, and
`A[f]` is further than `OOB_EPSILON` from `max(0, A[b])`. -/
def violatedReluAtSat (s : Reluplex) : Bool :=
  decide (s.reluPairs.reluPairs = [(0, 1)]) &&
  decide (s.dissolvedReluVariables 1 = none) &&
  decide (s.lowerBounds 1 = { finite := true, bound := 0, level := 0 }) &&
  (List.range s.numVariables).all (fun i => !s.outOfBounds i) &&
  decide (s.assignment 0 = 5) && decide (s.assignment 1 = -1 / 2000) &&
  decide (|s.assignment 1 - max 0 (s.assignment 0)| > OOB_EPSILON)

/-- Two ReLU pairs `(0, 1)` and `(4, 5)` with the rows `x3 = -0.5 x0 + x2 - x1` and
`x7 = 0.5 x4 + x6 - x5`; the second pair has `x4 <= -1` and `x5 >= 1`. -/
def twoPairs (debugOn : Bool) : Reluplex :=
  let s := Reluplex.new 8 debugOn
  let s := s.initializeCell 3 3 (-1)
  let s := s.initializeCell 3 0 (-1 / 2)
  let s := s.initializeCell 3 2 1
  let s := s.initializeCell 3 1 (-1)
  let s := s.initializeCell 7 7 (-1)
  let s := s.initializeCell 7 4 (1 / 2)
  let s := s.initializeCell 7 6 1
  let s := s.initializeCell 7 5 (-1)
  let s := (s.markBasic 3).markBasic 7
  let s := (s.setLowerBound 0 (-9)).setUpperBound 0 9
  let s := (s.setLowerBound 1 0).setUpperBound 1 9
  let s := (s.setLowerBound 2 (3 / 2)).setUpperBound 2 5
  let s := (s.setLowerBound 3 0).setUpperBound 3 0
  let s := (s.setLowerBound 4 (-9)).setUpperBound 4 (-1)
  let s := (s.setLowerBound 5 1).setUpperBound 5 9
  let s := (s.setLowerBound 6 3).setUpperBound 6 3
  let s := (s.setLowerBound 7 0).setUpperBound 7 0
  (s.setReluPair 0 1).setReluPair 4 5

/-- The stack as `(variable, firstAttempt, type)` triples, top first. -/
def stackSummary (s : Reluplex) : List (ℕ × Bool × SplitType) :=
  s.smtCore.stack.map (fun info => (info.var, info.firstAttempt, info.type))

/-- What escaped from the `try` block of `solve`, if anything. -/
def escaped : Option (Res FinalStatus) → Option Thrown
  | some (.thrown e _) => some e
  | _ => none

/-- One ReLU pair `(b, f) = (0, 1)` with `-9 <= b <= 5` and `0 <= f <= 9`, and the rows
`x3 = x2 - b` and `x5 = f - x4`, where `x3 = x5 = 0`, `x4 = 7` and `-9 <= x2 <= 9`. -/
def repairLeavesBounds (debugOn : Bool) : Reluplex :=
  let s := Reluplex.new 6 debugOn
  let s := s.initializeCell 3 3 (-1)
  let s := s.initializeCell 3 2 1
  let s := s.initializeCell 3 0 (-1)
  let s := s.initializeCell 5 5 (-1)
  let s := s.initializeCell 5 4 (-1)
  let s := s.initializeCell 5 1 1
  let s := (s.markBasic 3).markBasic 5
  let s := (s.setLowerBound 0 (-9)).setUpperBound 0 5
  let s := (s.setLowerBound 1 0).setUpperBound 1 9
  let s := (s.setLowerBound 2 (-9)).setUpperBound 2 9
  let s := (s.setLowerBound 3 0).setUpperBound 3 0
  let s := (s.setLowerBound 4 7).setUpperBound 4 7
  let s := (s.setLowerBound 5 0).setUpperBound 5 0
  s.setReluPair 0 1

/-- The state in which the first iteration of the main loop calls `progress`: the state
after preprocessing, with the statuses recomputed. -/
def afterPreprocessing (s : Reluplex) : Option Reluplex :=
  (Reluplex.solve (quitAt 0) 1 s).state?.map Reluplex.computeVariableStatusAll

/-- The precondition of the repair on `repairLeavesBounds`: the pair `(0, 1)` is active and
broken, and no variable at all, basic or not, is out of bounds. -/
def repairPrecondition (s : Reluplex) : Bool :=
  decide (s.reluPairs.reluPairs = [(0, 1)]) &&
  decide (s.dissolvedReluVariables 1 = none) &&
  s.reluPairIsBroken 0 1 &&
  (List.range s.numVariables).all (fun i => !s.outOfBounds i)

/-- What is checked after the repair: `fixBrokenRelu( 1 )` returned `true`, and `b = 0` is
non-basic, not eliminated, has `A[b] = 7` above its upper bound `5` and status `ABOVE_UB`. -/
def repairOutcome : Res Bool → Bool
  | .ok true s =>
    decide (0 ∉ s.basicVariables) && decide (0 ∉ s.eliminatedVars) &&
    decide (s.assignment 0 = 7) &&
    decide (s.upperBounds 0 = { finite := true, bound := 5, level := 0 }) &&
    decide (s.varToStatus 0 = .ABOVE_UB) && s.outOfBounds 0
  | _ => false

/-- The status with which the `try` block of `solve` returned, if it returned. -/
def tryReturned : Option (Res FinalStatus) → Option FinalStatus
  | some (.ok status _) => some status
  | _ => none

/-- The test of the main loop of `solve` on a state whose statuses are up to date. -/
def satTest (s : Reluplex) : Prop :=
  s.allVarsWithinBounds = true ∧ s.allRelusHold = true

/-- A query in which the `b` variable of the pair `(0, 1)` is declared basic, with the row
`b = x2`. -/
def basicReluVariable (debugOn : Bool) : Reluplex :=
  let s := Reluplex.new 3 debugOn
  let s := s.initializeCell 0 0 (-1)
  let s := s.initializeCell 0 2 1
  let s := s.markBasic 0
  let s := (s.setLowerBound 0 (-1)).setUpperBound 0 1
  let s := (s.setLowerBound 1 0).setUpperBound 1 1
  let s := (s.setLowerBound 2 (-1)).setUpperBound 2 1
  s.setReluPair 0 1

/-- The code with which the process exited inside `solve`, if it did. -/
def Reluplex.SolveResult.exitCode? : Reluplex.SolveResult → Option ℕ
  | .exited code => some code
  | _ => none

/-! ## Predicates used in the statements -/

namespace Tableau

/-- The value stored at a position, `none` when no entry is there. -/
def cell (t : Tableau) (row column : ℕ) : Option ℚ :=
  (t.find row column).map (fun e => e.value)

/-- What a computed value leaves in the tableau: nothing when it is within `DEFAULT_EPSILON`
of zero (`addEntry` ignores it, `addScaledRow` erases the entry), otherwise itself. -/
def keep (value : ℚ) : Option ℚ :=
  if isZero value DEFAULT_EPSILON then none else some value

/-- The positions of the entries. -/
def positions (t : Tableau) : List (ℕ × ℕ) :=
  t.entries.map (fun e => (e.row, e.column))

/-- The tableau is a sparse matrix: at most one entry per position. -/
def OneCellPerPosition (t : Tableau) : Prop := t.positions.Nodup

/-- No stored value is within `DEFAULT_EPSILON` of zero. -/
def ZeroFree (t : Tableau) : Prop :=
  ∀ e ∈ t.entries, isZero e.value DEFAULT_EPSILON = false

end Tableau

/-- Tableau form, the first block of `checkInvariants`: the tableau is a sparse matrix, the
column of every basic variable holds exactly one cell, its self-cell of value `-1`, and only
basic variables have a non-empty row. -/
def Reluplex.TableauForm (s : Reluplex) : Prop :=
  s.tableau.OneCellPerPosition ∧
  (∀ v ∈ s.basicVariables, s.tableau.getColumn v = [{ row := v, column := v, value := -1 }]) ∧
  (∀ e ∈ s.tableau.entries, e.row ∈ s.basicVariables)

/-- A state in tableau form: the rows `x2 = x0 + 2 x1` and `x3 = 3 x0`, with `x2` and `x3`
basic, all bounds `[-9, 9]`, and the ReLU pair `(b, f) = (0, 1)`. -/
def smallState (debugOn : Bool) : Reluplex :=
  let s := Reluplex.new 4 debugOn
  let s := s.initializeCell 2 2 (-1)
  let s := s.initializeCell 2 0 1
  let s := s.initializeCell 2 1 2
  let s := s.initializeCell 3 3 (-1)
  let s := s.initializeCell 3 0 3
  let s := (s.markBasic 2).markBasic 3
  let s := (s.setLowerBound 0 (-9)).setUpperBound 0 9
  let s := (s.setLowerBound 1 0).setUpperBound 1 9
  let s := (s.setLowerBound 2 (-9)).setUpperBound 2 9
  let s := (s.setLowerBound 3 (-9)).setUpperBound 3 9
  (s.setReluPair 0 1).computeVariableStatusAll

/-- The loop of `Reluplex::calculateBasicVariableValue( basic )`: the sum of
`_assignment[column] * value` over the cells of the row of `basic` outside its own column. -/
def Reluplex.rowValue (s : Reluplex) (basic : ℕ) : ℚ :=
  (s.tableau.getRow basic).foldl
    (fun result current =>
      if current.column ≠ basic then result + s.assignment current.column * current.value
      else result)
    0

/-- The pair `(b, f)` is registered, `b` is the `f` of no pair, `f` is the `b` of no pair, and
the pair has not been dissolved. -/
def Reluplex.ActivePair (s : Reluplex) (b f : ℕ) : Prop :=
  s.reluPairs.bToF b = some f ∧ s.reluPairs.fToB f = some b ∧
  s.reluPairs.fToB b = none ∧ s.reluPairs.bToF f = none ∧
  s.dissolvedReluVariables f = none

/-- The statement `_dissolvedReluVariables[variable] = type;` of
`markReluVariableDissolved`. -/
def Reluplex.withDissolved (s : Reluplex) (v : ℕ) (type : ReluDissolutionType) : Reluplex :=
  { s with dissolvedReluVariables := Function.update s.dissolvedReluVariables v (some type) }

/-- The state that a normal return leaves behind. -/
def Res.returned? {α : Type} : Res α → Option Reluplex
  | .ok _ s => some s
  | _ => none

/-- The state of `smallState` after `update( x0, 0.0005 )`, whose cascade also moves the
non-basic partner `x1`: both members of the pair `(0, 1)` are non-basic at `0.0005`. -/
def nearZeroPair (debugOn : Bool) : Reluplex :=
  match (smallState debugOn).update 0 (1 / 2000) false with
  | .ok _ s => s
  | _ => smallState debugOn

/-- The value of a normal return. -/
def Res.value? {α : Type} : Res α → Option α
  | .ok a _ => some a
  | _ => none

/-- A query whose ReLU input is a free variable: the row `x2 = x1`, `x2` basic, the pair
`(b, f) = (0, 1)`, bounds `[-9, 9]` for `x0` and `x2` and `[0, 9]` for `x1`. The column of
`b` is empty. -/
def freeInputPair (debugOn : Bool) : Reluplex :=
  let s := Reluplex.new 3 debugOn
  let s := s.initializeCell 2 2 (-1)
  let s := s.initializeCell 2 1 1
  let s := s.markBasic 2
  let s := (s.setLowerBound 0 (-9)).setUpperBound 0 9
  let s := (s.setLowerBound 1 0).setUpperBound 1 9
  let s := (s.setLowerBound 2 (-9)).setUpperBound 2 9
  (s.setReluPair 0 1).computeVariableStatusAll

/-- What a throw carries. -/
def Res.thrown? {α : Type} : Res α → Option Thrown
  | .thrown e _ => some e
  | _ => none

/-- The state of `freeInputPair` after `updateLowerBound( x0, 0, 2 )`: the pair `(0, 1)` is
still active (the column of `x0` is empty, so nothing is merged) and the lower bounds of both
members are `0` with level `2`. -/
def freeInputPairAtLevelTwo (debugOn : Bool) : Reluplex :=
  match (freeInputPair debugOn).updateLowerBound 0 0 2 with
  | .ok _ s => s
  | _ => freeInputPair debugOn

/-! ## Reluplex.h: bound tightening -/

/-- The values that the inner loop of `tightenBoundsOnRow` accumulates. -/
structure RowBounds where
  max : ℚ
  min : ℚ
  minBoundLevel : ℕ
  maxBoundLevel : ℕ

/-- One iteration of the inner loop of `tightenBoundsOnRow`, for the entry `current` of the
row: the entry in the column of the tightening variable is skipped. -/
def Reluplex.tightenStep (s : Reluplex) (tighteningColumn : ℕ) (scale : ℚ)
    (acc : RowBounds) (current : Entry) : RowBounds :=
  let column := current.column
  if column = tighteningColumn then acc
  else
    let coefficient := current.value * scale
    if isPositive coefficient DEFAULT_EPSILON then
      { min := acc.min + (s.lowerBounds column).bound * coefficient
        max := acc.max + (s.upperBounds column).bound * coefficient
        minBoundLevel :=
          if (s.lowerBounds column).level > acc.minBoundLevel then (s.lowerBounds column).level
          else acc.minBoundLevel
        maxBoundLevel :=
          if (s.upperBounds column).level > acc.maxBoundLevel then (s.upperBounds column).level
          else acc.maxBoundLevel }
    else
      { min := acc.min + (s.upperBounds column).bound * coefficient
        max := acc.max + (s.lowerBounds column).bound * coefficient
        maxBoundLevel :=
          if (s.lowerBounds column).level > acc.maxBoundLevel then (s.lowerBounds column).level
          else acc.maxBoundLevel
        minBoundLevel :=
          if (s.upperBounds column).level > acc.minBoundLevel then (s.upperBounds column).level
          else acc.minBoundLevel }

/-- The inner loop of `tightenBoundsOnRow` over the row of `basic`. -/
def Reluplex.tightenRowBounds (s : Reluplex) (basic tighteningColumn : ℕ) (scale : ℚ) :
    RowBounds :=
  (s.tableau.getRow basic).foldl (s.tightenStep tighteningColumn scale)
    { max := 0, min := 0, minBoundLevel := 0, maxBoundLevel := 0 }

/-- The outer loop of `tightenBoundsOnRow( basic, numLearnedBounds )` over the entries of the
row that are still to be visited. The loop goes on only while the tableau is unchanged (a
call of `updateLowerBound` that changes it ends the method), so the entries to visit are
those of the row at the call. The counter `numLearnedBounds` is a statistic. -/
def Reluplex.tightenBoundsOnRowLoop (basic : ℕ) : List Entry → Reluplex → Res Bool
  | [], s => .ok false s
  | tighteningVar :: row, s =>
    let scale := (-1) / tighteningVar.value
    let currentVar := tighteningVar.column
    let rb := s.tightenRowBounds basic currentVar scale
    (if lt rb.max (s.upperBounds currentVar).bound DEFAULT_EPSILON
      then s.updateUpperBound currentVar rb.max rb.maxBoundLevel
      else Res.ok () s).andThen fun _ s1 =>
    if gt rb.min (s1.lowerBounds currentVar).bound DEFAULT_EPSILON then
      (s1.updateLowerBound currentVar rb.min rb.minBoundLevel).andThen fun changed s2 =>
        if changed then .ok true s2 else Reluplex.tightenBoundsOnRowLoop basic row s2
    else Reluplex.tightenBoundsOnRowLoop basic row s1

/-- `Reluplex::tightenBoundsOnRow( basic, numLearnedBounds )`; the value is `true` iff the
tableau has changed and the caller has to restart. -/
def Reluplex.tightenBoundsOnRow (s : Reluplex) (basic : ℕ) : Res Bool :=
  Reluplex.tightenBoundsOnRowLoop basic (s.tableau.getRow basic) s

/-- The loop of `tightenAllBounds` when `_fullTightenAllBounds` is false: every variable of
the copy of the basic set that is still basic. -/
def Reluplex.tightenEachRow : List ℕ → Reluplex → Res Unit
  | [], s => .ok () s
  | basic :: rest, s =>
    if basic ∉ s.basicVariables then Reluplex.tightenEachRow rest s
    else (s.tightenBoundsOnRow basic).andThen fun _ s1 => Reluplex.tightenEachRow rest s1

/-- One pass of the inner `while` of `tightenAllBounds` over the basic variables; the value
is `needToRestart`. -/
def Reluplex.tightenPass : List ℕ → Reluplex → Res Bool
  | [], s => .ok false s
  | basic :: rest, s =>
    (s.tightenBoundsOnRow basic).andThen fun needToRestart s1 =>
      if needToRestart then .ok true s1 else Reluplex.tightenPass rest s1

/-- The loop `while ( !done )` of `tightenAllBounds`, with fuel; `none` when the fuel runs
out. -/
def Reluplex.tightenUntilDone : ℕ → Reluplex → Option (Res Unit)
  | 0, _ => none
  | fuel + 1, s =>
    match Reluplex.tightenPass s.basicList s with
    | .ok needToRestart s1 =>
      if needToRestart then Reluplex.tightenUntilDone fuel s1 else some (.ok () s1)
    | .thrown e s1 => some (.thrown e s1)
    | .exited c => some (.exited c)

/-- `Reluplex::tightenAllBounds()`, with fuel for the restarts. -/
def Reluplex.tightenAllBounds (fuel : ℕ) (s : Reluplex) : Option (Res Unit) :=
  if !s.fullTightenAllBounds then some (Reluplex.tightenEachRow s.basicList s)
  else Reluplex.tightenUntilDone fuel s

/-- A query in which the bounds of a pair are not aligned: the row `x2 = x0`, `x2` basic, the
pair `(b, f) = (0, 1)`, and the bounds `x0 in [-9, 9]`, `x1 in [0, 3]`, `x2 in [-9, 5]`. -/
def unalignedPair (debugOn : Bool) : Reluplex :=
  let s := Reluplex.new 3 debugOn
  let s := s.initializeCell 2 2 (-1)
  let s := s.initializeCell 2 0 1
  let s := s.markBasic 2
  let s := (s.setLowerBound 0 (-9)).setUpperBound 0 9
  let s := (s.setLowerBound 1 0).setUpperBound 1 3
  let s := (s.setLowerBound 2 (-9)).setUpperBound 2 5
  (s.setReluPair 0 1).computeVariableStatusAll

/-- The property holds of the state that the result carries (a return or a throw); an
`exit` carries none. -/
def Res.Forall {α : Type} (P : Reluplex → Prop) : Res α → Prop
  | .ok _ s => P s
  | .thrown _ s => P s
  | .exited _ => True

/-- The snapshot as `pop` pushes it back: the alternative is marked as tried and the kind is
flipped. -/
def SplitInformation.flipped (info : SplitInformation) : SplitInformation :=
  { info with
    firstAttempt := false
    type := if info.type = .SPLITTING_RELU then .MERGING_RELU else .SPLITTING_RELU }

/-- The query of `smallState` with `x0 in [-9, -1]`: the input `b` of the pair `(0, 1)` can
only be negative. -/
def negativeInputPair (debugOn : Bool) : Reluplex :=
  let s := Reluplex.new 4 debugOn
  let s := s.initializeCell 2 2 (-1)
  let s := s.initializeCell 2 0 1
  let s := s.initializeCell 2 1 2
  let s := s.initializeCell 3 3 (-1)
  let s := s.initializeCell 3 0 3
  let s := (s.markBasic 2).markBasic 3
  let s := (s.setLowerBound 0 (-9)).setUpperBound 0 (-1)
  let s := (s.setLowerBound 1 0).setUpperBound 1 9
  let s := (s.setLowerBound 2 (-9)).setUpperBound 2 9
  let s := (s.setLowerBound 3 (-9)).setUpperBound 3 9
  s.setReluPair 0 1

/-- The state of `negativeInputPair` after `initialUpdate()` and `dissolveReluOnVar( 1 )`:
the stack holds one snapshot, a split on `f = 1` whose alternative has not been tried. -/
def negativeInputSplit (debugOn : Bool) : Reluplex :=
  match (negativeInputPair debugOn).initialUpdate with
  | .ok _ s =>
    (match s.dissolveReluOnVar 1 with
     | .ok _ s1 => s1
     | _ => s)
  | _ => negativeInputPair debugOn

/-- The property holds of the state of a normal return. -/
def Res.ForallOk {α : Type} (P : Reluplex → Prop) : Res α → Prop
  | .ok _ s => P s
  | _ => True

/-- Two ReLU pairs `(0, 1)` and `(2, 3)` with the rows `x4 = x0 + 2 x1` and `x5 = x2 + x3`;
each input lies in `[-9, 9]` and each output in `[0, 9]`, so both phases of both pairs are
possible. -/
def twoFreePairs (debugOn : Bool) : Reluplex :=
  let s := Reluplex.new 6 debugOn
  let s := s.initializeCell 4 4 (-1)
  let s := s.initializeCell 4 0 1
  let s := s.initializeCell 4 1 2
  let s := s.initializeCell 5 5 (-1)
  let s := s.initializeCell 5 2 1
  let s := s.initializeCell 5 3 1
  let s := (s.markBasic 4).markBasic 5
  let s := (s.setLowerBound 0 (-9)).setUpperBound 0 9
  let s := (s.setLowerBound 1 0).setUpperBound 1 9
  let s := (s.setLowerBound 2 (-9)).setUpperBound 2 9
  let s := (s.setLowerBound 3 0).setUpperBound 3 9
  let s := (s.setLowerBound 4 (-50)).setUpperBound 4 50
  let s := (s.setLowerBound 5 (-50)).setUpperBound 5 50
  (s.setReluPair 0 1).setReluPair 2 3

/-- The state of `twoFreePairs` after `initialUpdate()`, `dissolveReluOnVar( 1 )`,
`dissolveReluOnVar( 3 )` and `pop()`: the stack has depth `2`; its top, on `f = 3`, has tried
its alternative and the snapshot below, on `f = 1`, has not. -/
def twoLevels (debugOn : Bool) : Reluplex :=
  match (twoFreePairs debugOn).initialUpdate with
  | .ok _ s =>
    (match s.dissolveReluOnVar 1 with
     | .ok _ s1 =>
       (match s1.dissolveReluOnVar 3 with
        | .ok _ s2 =>
          (match s2.pop with
           | .ok _ s3 => s3
           | _ => s2)
        | _ => s1)
     | _ => s)
  | _ => twoFreePairs debugOn

/-- The state that a throw leaves behind. -/
def Res.thrownState? {α : Type} : Res α → Option Reluplex
  | .thrown _ s => some s
  | _ => none

/-- The first `n` of a sequence of calls `notifyBrokenRelu( f )`, each made if the one before
it returned, with the value of the last one (`false` when `n = 0`). -/
def Reluplex.notifyTimes : ℕ → Reluplex → ℕ → Res Bool
  | 0, s, _ => .ok false s
  | n + 1, s, f => (Reluplex.notifyTimes n s f).andThen fun _ s1 => s1.notifyBrokenRelu f

/-- The query of `negativeInputPair` with `x1 in [1, 9]`: the output `f` of the pair `(0, 1)`
is at least `1` although the input `b` is at most `-1`. -/
def contradictoryPair (debugOn : Bool) : Reluplex :=
  let s := Reluplex.new 4 debugOn
  let s := s.initializeCell 2 2 (-1)
  let s := s.initializeCell 2 0 1
  let s := s.initializeCell 2 1 2
  let s := s.initializeCell 3 3 (-1)
  let s := s.initializeCell 3 0 3
  let s := (s.markBasic 2).markBasic 3
  let s := (s.setLowerBound 0 (-9)).setUpperBound 0 (-1)
  let s := (s.setLowerBound 1 1).setUpperBound 1 9
  let s := (s.setLowerBound 2 (-9)).setUpperBound 2 39
  let s := (s.setLowerBound 3 (-39)).setUpperBound 3 39
  s.setReluPair 0 1

/-- The state of `contradictoryPair` after `initialUpdate()`, which returns: the stack is
empty, no notification has been counted, and `A[f] = 1`. -/
def contradictoryStart (debugOn : Bool) : Reluplex :=
  match (contradictoryPair debugOn).initialUpdate with
  | .ok _ s => s
  | _ => contradictoryPair debugOn

/-- No value that `pivot( nonBasic, basic )` computes is dropped unless it is exactly zero:
the scaled cells of the row of `basic` and, in every other row with a cell in the column of
`nonBasic`, the sums with the scaled row are either zero or not within `DEFAULT_EPSILON` of
zero. -/
def Tableau.PivotExact (t : Tableau) (nonBasic basic : ℕ) : Prop :=
  (∀ e ∈ t.getRow basic,
    isZero (e.value * ((-1) / t.getCell basic nonBasic)) DEFAULT_EPSILON = false) ∧
  (∀ e1 ∈ t.getColumn nonBasic, ∀ e ∈ t.getRow basic, e1.row ≠ basic → e.column ≠ nonBasic →
    t.getCell e1.row e.column + e.value * ((-1) / t.getCell basic nonBasic) * e1.value = 0 ∨
    isZero (t.getCell e1.row e.column + e.value * ((-1) / t.getCell basic nonBasic) * e1.value)
      DEFAULT_EPSILON = false)

/-- A state in tableau form with the row `x2 = 10000 x0 + 0.000001 x1`, `x2` basic, and all
bounds `[-9, 9]`. -/
def steepRow (debugOn : Bool) : Reluplex :=
  let s := Reluplex.new 3 debugOn
  let s := s.initializeCell 2 2 (-1)
  let s := s.initializeCell 2 0 10000
  let s := s.initializeCell 2 1 (1 / 1000000)
  let s := s.markBasic 2
  let s := (s.setLowerBound 0 (-9)).setUpperBound 0 9
  let s := (s.setLowerBound 1 (-9)).setUpperBound 1 9
  let s := (s.setLowerBound 2 (-9)).setUpperBound 2 9
  s.computeVariableStatusAll

/-- The two states have the same bounds, dissolution map, ReLU pairs and number of
variables: what `update` and `pivot` leave alone. -/
def Reluplex.SameSearchState (s1 s : Reluplex) : Prop :=
  s1.upperBounds = s.upperBounds ∧ s1.lowerBounds = s.lowerBounds ∧
  s1.dissolvedReluVariables = s.dissolvedReluVariables ∧ s1.reluPairs = s.reluPairs ∧
  s1.numVariables = s.numVariables

/-- Whatever the result throws satisfies the property. -/
def Res.ThrowsOnly {α : Type} (P : Thrown → Prop) : Res α → Prop
  | .thrown e _ => P e
  | _ => True

/-- The two states have the same configuration: the ReLU pairs, the number of variables, the
flags, and the preprocessed backup. -/
def Reluplex.SameConfig (s1 s : Reluplex) : Prop :=
  s1.reluPairs = s.reluPairs ∧ s1.numVariables = s.numVariables ∧
  s1.eliminateAlmostBrokenRelus = s.eliminateAlmostBrokenRelus ∧ s1.debugOn = s.debugOn ∧
  s1.fullTightenAllBounds = s.fullTightenAllBounds ∧
  s1.preprocessedTableau = s.preprocessedTableau ∧
  s1.preprocessedUpperBounds = s.preprocessedUpperBounds ∧
  s1.preprocessedLowerBounds = s.preprocessedLowerBounds ∧
  s1.preprocessedAssignment = s.preprocessedAssignment ∧
  s1.preprocessedBasicVariables = s.preprocessedBasicVariables ∧
  s1.preprocessedDissolvedRelus = s.preprocessedDissolvedRelus

/-- A relation between the state after and the state before that no write to the working
data of the solver (assignment, statuses, bounds, dissolution map, tableau, basic set,
eliminated variables) disturbs. -/
structure Reluplex.FrameRel (R : Reluplex → Reluplex → Prop) : Prop where
  refl : ∀ s, R s s
  trans : ∀ s2 s1 s, R s2 s1 → R s1 s → R s2 s
  assignment : ∀ (s : Reluplex) (a : ℕ → ℚ), R { s with assignment := a } s
  status : ∀ (s : Reluplex) (f : ℕ → VariableStatus), R { s with varToStatus := f } s
  upper : ∀ (s : Reluplex) (u : ℕ → VariableBound), R { s with upperBounds := u } s
  lower : ∀ (s : Reluplex) (l : ℕ → VariableBound), R { s with lowerBounds := l } s
  dissolved : ∀ (s : Reluplex) (d : ℕ → Option ReluDissolutionType),
    R { s with dissolvedReluVariables := d } s
  tableau : ∀ (s : Reluplex) (t : Tableau), R { s with tableau := t } s
  basic : ∀ (s : Reluplex) (b : Finset ℕ), R { s with basicVariables := b } s
  eliminated : ∀ (s : Reluplex) (e : Finset ℕ), R { s with eliminatedVars := e } s

/-- The entries of the row of `basic` whose variable has a non-finite upper or lower bound:
the entries that the first loop of `makeAllBoundsFiniteOnRow` stops at. -/
def Reluplex.infiniteOnRow (s : Reluplex) (basic : ℕ) : List Entry :=
  (s.tableau.getRow basic).filter
    (fun e => !(s.upperBounds e.column).finite || !(s.lowerBounds e.column).finite)

/-- The row `x1 = x0` with `x1` basic and `x0` in `[0, 9]`; the basic variable has the upper
bound `3` and no lower bound. -/
def halfBoundedRow (debugOn : Bool) : Reluplex :=
  let s := Reluplex.new 2 debugOn
  let s := s.initializeCell 1 1 (-1)
  let s := s.initializeCell 1 0 1
  let s := s.markBasic 1
  let s := (s.setLowerBound 0 0).setUpperBound 0 9
  let s := s.setUpperBound 1 3
  s.computeVariableStatusAll

/-- The row `x1 = x0` with `x1` basic and `x0` in `[0, 9]`; the basic variable has no bounds. -/
def freeBasicRow (debugOn : Bool) : Reluplex :=
  let s := Reluplex.new 2 debugOn
  let s := s.initializeCell 1 1 (-1)
  let s := s.initializeCell 1 0 1
  let s := s.markBasic 1
  let s := (s.setLowerBound 0 0).setUpperBound 0 9
  s.computeVariableStatusAll

/-- A basic variable fixed at zero that no pivot can free: the row `x2 = x0 + x1` with `x2`
basic and fixed to `[0, 0]`, and `x0`, `x1` in `[0, 9]` at their lower bound `0`. -/
def stuckAuxRow (debugOn : Bool) : Reluplex :=
  let s := Reluplex.new 3 debugOn
  let s := s.initializeCell 2 2 (-1)
  let s := s.initializeCell 2 0 1
  let s := s.initializeCell 2 1 1
  let s := s.markBasic 2
  let s := (s.setLowerBound 0 0).setUpperBound 0 9
  let s := (s.setLowerBound 1 0).setUpperBound 1 9
  let s := (s.setLowerBound 2 0).setUpperBound 2 0
  s.computeVariableStatusAll

/-- A fresh solver with one variable after `setLowerBound( 0, 5 )` and
`setUpperBound( 0, 3 )`. -/
def conflictingBounds (debugOn : Bool) : Reluplex :=
  let s := Reluplex.new 1 debugOn
  (s.setLowerBound 0 5).setUpperBound 0 3

/-- The call sequence `reluplex.initialize(); reluplex.solve();` of the drivers
(`check_properties/*/main.cpp`). The call of `initialize()` is outside the `try` block of
`solve()`: what it throws reaches the caller (left) and `solve()` is not called; otherwise
the outcome is that of `solve()` (right). -/
def Reluplex.initializeThenSolve (env : Env) (fuel : ℕ) (s : Reluplex) :
    Thrown ⊕ Reluplex.SolveResult :=
  match s.initialise with
  | .thrown e _ => .inl e
  | .exited c => .inr (.exited c)
  | .ok _ s1 => .inr (s1.solve env fuel)

/-- The preprocessing of `solve()`: the statements of its `try` block before the main loop
(`initialize()` unless it has run, `eliminateAuxVariables()`, `storePreprocessedMatrix()`).
The value is `false` when `eliminateAuxVariables()` fails and `solve()` returns `ERROR`. -/
def Reluplex.preprocessing (s : Reluplex) : Res Bool :=
  (if !s.wasInitialized then s.initialise else Res.ok () s).andThen fun _ s1 =>
  s1.eliminateAuxVariables.andThen fun done s2 =>
  if !done then .ok false s2
  else s2.storePreprocessedMatrix.andThen fun _ s3 => .ok true s3

/-- One ReLU pair `(b, f) = (0, 1)` without any equation, all bounds finite: `b` in
`[lower, upper]` and `f` in `[0, 9]`. -/
def forcedPair (lower upper : ℚ) (debugOn : Bool) : Reluplex :=
  let s := Reluplex.new 2 debugOn
  let s := (s.setLowerBound 0 lower).setUpperBound 0 upper
  let s := (s.setLowerBound 1 0).setUpperBound 1 9
  s.setReluPair 0 1

namespace Reluplex

/-! ## Reluplex.h: restoring the tableau from the preprocessed backup -/

/-- The part of `adjustBasicVariables` guarded by `adjustAssignment`: the variable `leaving`
has just become non-basic; it is moved into its bounds and, if it belongs to an active broken
pair whose members are both non-basic, `f` is moved. The source tests
`FloatUtils::isPositive( b )` on the variable index `b`, not on its assignment. -/
def adjustLeaving (s : Reluplex) (leaving : ℕ) : Res Unit :=
  (if s.tooLow leaving then
      s.update leaving ((s.lowerBounds leaving).bound - s.assignment leaving) true
    else if s.tooHigh leaving then
      s.update leaving ((s.upperBounds leaving).bound - s.assignment leaving) true
    else Res.ok () s).andThen fun _ s1 =>
  if s1.reluPairs.isRelu leaving then
    match (if s1.reluPairs.isB leaving then some leaving
        else s1.reluPairs.toPartner leaving) with
    | none => .thrown (.error .NOT_RELU_VARIABLE) s1
    | some b =>
      match s1.reluPairs.toPartner b with
      | none => .thrown (.error .NOT_RELU_VARIABLE) s1
      | some f =>
        if (s1.dissolvedReluVariables f).isNone && s1.reluPairIsBroken b f then
          if b ∉ s1.basicVariables ∧ f ∉ s1.basicVariables then
            if isPositive (b : ℚ) DEFAULT_EPSILON then
              s1.update f (s1.assignment b - s1.assignment f) true
            else s1.update f (-(s1.assignment f)) true
          else .ok () s1
        else .ok () s1
  else .ok () s1

/-- The inner loop of `adjustBasicVariables` over the column of `entering`: the first row
`leaving` of the column that should not be basic and whose cell is not too small is pivoted
out. The value is the set `shouldntBeBasic` after the loop. -/
def adjustColumnScan (entering : ℕ) (adjustAssignment : Bool) :
    List Entry → Finset ℕ → Reluplex → Res (Finset ℕ)
  | [], shouldntBeBasic, s => .ok shouldntBeBasic s
  | current :: rest, shouldntBeBasic, s =>
    let leaving := current.row
    if leaving ∈ shouldntBeBasic then
      if lt |s.tableau.getCell leaving entering| NUMBERICAL_INSTABILITY_CONSTANT
          DEFAULT_EPSILON then
        adjustColumnScan entering adjustAssignment rest shouldntBeBasic s
      else
        (s.pivot entering leaving).andThen fun _ s1 =>
        let s2 := s1.computeVariableStatus leaving
        (if adjustAssignment then s2.adjustLeaving leaving else Res.ok () s2).andThen
          fun _ s3 => .ok (shouldntBeBasic.erase leaving) s3
    else adjustColumnScan entering adjustAssignment rest shouldntBeBasic s

/-- The outer loop of `adjustBasicVariables` over the members of `shouldBeBasic`. -/
def adjustBasicLoop (adjustAssignment : Bool) : List ℕ → Finset ℕ → Reluplex → Res Unit
  | [], _, s => .ok () s
  | entering :: rest, shouldntBeBasic, s =>
    (adjustColumnScan entering adjustAssignment (s.tableau.getColumn entering)
      shouldntBeBasic s).andThen fun shouldntBeBasic1 s1 =>
    adjustBasicLoop adjustAssignment rest shouldntBeBasic1 s1

/-- `Reluplex::adjustBasicVariables( shouldBeBasic, shouldntBeBasic, adjustAssignment )`. -/
def adjustBasicVariables (s : Reluplex) (shouldBeBasic shouldntBeBasic : Finset ℕ)
    (adjustAssignment : Bool) : Res Unit :=
  adjustBasicLoop adjustAssignment
    ((List.range s.numVariables).filter (fun v => v ∈ shouldBeBasic)) shouldntBeBasic s

/-- The `DEBUG` checks of the first loop of `restoreTableauFromBackup` on variable `i`: the
current bounds are not looser than the preprocessed ones and do not cross. -/
def restoreEntryCheck (s : Reluplex) (i : ℕ) : Bool :=
  !lt (s.lowerBounds i).bound (s.preprocessedLowerBounds i).bound DEFAULT_EPSILON &&
  !gt (s.upperBounds i).bound (s.preprocessedUpperBounds i).bound DEFAULT_EPSILON &&
  !gt (s.lowerBounds i).bound (s.upperBounds i).bound DEFAULT_EPSILON

/-- One iteration of the second loop of `restoreTableauFromBackup`: the bounds that
variable `i` had when the call started (in `backup`) are asserted again. -/
def reassertBounds (backup : Reluplex) (i : ℕ) (s : Reluplex) : Res Unit :=
  let newLb := (backup.lowerBounds i).bound
  let newUb := (backup.upperBounds i).bound
  let lowerOf := fun (st : Reluplex) (v : ℕ) =>
    if !(st.lowerBounds v).finite ||
        gt (backup.lowerBounds v).bound (st.lowerBounds v).bound DEFAULT_EPSILON then
      (st.updateLowerBound v (backup.lowerBounds v).bound (backup.lowerBounds v).level).andThen
        fun _ st1 => Res.ok () st1
    else Res.ok () st
  if !s.activeReluVariable i then
    (lowerOf s i).andThen fun _ s1 =>
    if !(s1.upperBounds i).finite || lt newUb (s1.upperBounds i).bound DEFAULT_EPSILON then
      s1.updateUpperBound i newUb (backup.upperBounds i).level
    else .ok () s1
  else if !s.reluPairs.isF i then .ok () s
  else
    match s.reluPairs.toPartner i with
    | none => .thrown (.error .NOT_RELU_VARIABLE) s
    | some b =>
      let bUpper := (backup.upperBounds b).bound
      match backup.dissolvedReluVariables i with
      | none =>
        (if !(s.upperBounds i).finite || lt newUb (s.upperBounds i).bound DEFAULT_EPSILON then
          s.updateUpperBound i newUb (backup.upperBounds i).level
          else Res.ok () s).andThen fun _ s1 =>
        lowerOf s1 b
      | some .TYPE_SPLIT =>
        (if !(s.upperBounds b).finite || lt bUpper (s.upperBounds b).bound DEFAULT_EPSILON then
          s.updateUpperBound b bUpper (backup.upperBounds b).level
          else Res.ok () s).andThen fun _ s1 =>
        let s2 : Reluplex :=
          { s1 with
            upperBounds := Function.update s1.upperBounds i
              ((s1.upperBounds i).setLevel (backup.upperBounds i).level) }
        lowerOf s2 b
      | some .TYPE_MERGE =>
        (lowerOf s b).andThen fun _ s1 =>
        (if !(s1.lowerBounds i).finite || gt newLb (s1.lowerBounds i).bound DEFAULT_EPSILON
          then (s1.updateLowerBound i newLb (backup.lowerBounds i).level).andThen
            fun _ s2 => Res.ok () s2
          else Res.ok () s1).andThen fun _ s2 =>
        if !(s2.upperBounds i).finite || lt newUb (s2.upperBounds i).bound DEFAULT_EPSILON then
          s2.updateUpperBound i newUb (backup.upperBounds i).level
        else .ok () s2

/-- The second loop of `restoreTableauFromBackup`, over the variables `i, i + 1, ..` (`n` of
them). -/
def reassertLoop (backup : Reluplex) : ℕ → ℕ → Reluplex → Res Unit
  | 0, _, s => .ok () s
  | n + 1, i, s => (reassertBounds backup i s).andThen fun _ s1 => reassertLoop backup n (i + 1) s1

/-- The checks on variable `i` in the closing `DEBUG` block of `restoreTableauFromBackup`:
unless `i` is the `b` of a merged pair, its bounds equal (`areDisequal`) those of the start,
except for a ReLU variable `b` with an empty column, and its levels are those of the
start. -/
def restoredBoundsAgree (backup s : Reluplex) (i : ℕ) : Bool :=
  let mergedB := s.reluPairs.isB i &&
    decide (s.dissolvedReluVariables ((s.reluPairs.toPartner i).getD 0) = some .TYPE_MERGE)
  let f := if s.reluPairs.isF i then i else (s.reluPairs.toPartner i).getD 0
  let b := (s.reluPairs.toPartner f).getD 0
  let excused := s.reluPairs.isRelu i && decide (i = b) &&
    decide (s.tableau.getColumnSize b = 0)
  mergedB ||
    ((!areDisequal (s.lowerBounds i).bound (backup.lowerBounds i).bound DEFAULT_EPSILON
        || excused) &&
     (!areDisequal (s.upperBounds i).bound (backup.upperBounds i).bound DEFAULT_EPSILON
        || excused) &&
     decide ((s.lowerBounds i).level = (backup.lowerBounds i).level) &&
     decide ((s.upperBounds i).level = (backup.upperBounds i).level))

/-- `Reluplex::restoreTableauFromBackup( keepCurrentBasicVariables )`. The comparison
`backupDissolved != _dissolvedReluVariables` of the two maps is made on the variables
`0 .. numVariables - 1`. -/
def restoreTableauFromBackup (s : Reluplex) (keepCurrentBasicVariables : Bool) : Res Unit :=
  if s.debugOn && !(List.range s.numVariables).all (fun i => s.restoreEntryCheck i) then
    .exited 1
  else
    let s1 : Reluplex :=
      { s with
        lowerBounds := fun i =>
          if i < s.numVariables then (s.preprocessedLowerBounds i).setLevel 0
          else s.lowerBounds i
        upperBounds := fun i =>
          if i < s.numVariables then (s.preprocessedUpperBounds i).setLevel 0
          else s.upperBounds i }
    match s1.preprocessedTableau.backupIntoMatrix s1.tableau with
    | none => .thrown (.error .COPY_INCOMPATIBLE_SPARSE_MATRICES) s1
    | some copy =>
      let s2 : Reluplex :=
        ({ s1 with
          tableau := copy
          dissolvedReluVariables := s1.preprocessedDissolvedRelus
          assignment := fun i =>
            if i < s1.numVariables then s1.preprocessedAssignment i else s1.assignment i
          basicVariables := s1.preprocessedBasicVariables } : Reluplex).computeVariableStatusAll
      s2.checkInvariants.andThen fun _ s3 =>
      (reassertLoop s s3.numVariables 0 s3).andThen fun _ s4 =>
      (if s4.debugOn then
        (if !(List.range s4.numVariables).all
            (fun i => decide (s.dissolvedReluVariables i = s4.dissolvedReluVariables i)) then
          Res.exited 1
        else
          s4.checkInvariants.andThen fun _ s5 =>
          if !(List.range s5.numVariables).all (fun i => restoredBoundsAgree s s5 i) then
            Res.exited 1
          else Res.ok () s5)
       else Res.ok () s4).andThen fun _ s5 =>
      (if keepCurrentBasicVariables then
        s5.adjustBasicVariables (s.basicVariables \ s5.basicVariables)
          (s5.basicVariables \ s.basicVariables) true
       else Res.ok () s5).andThen fun _ s6 =>
      s6.checkInvariants

/-- The constant `MAX_GLPK_FAILURES_BEFORE_RESOTRATION = 10`. -/
def MAX_GLPK_FAILURES_BEFORE_RESOTRATION : ℕ := 10

/-- The end of `fixOutOfBounds` after a failure of the LP solver (also taken when the
extracted solution leaves a basic variable out of bounds): the tableau is restored, keeping
the current basis while fewer than five failures have been counted, and the failure is
counted. -/
def lpFailure (s : Reluplex) : Res GlpkAnswer :=
  (s.restoreTableauFromBackup (decide (s.consecutiveGlpkFailureCount < 5))).andThen
    fun _ s1 =>
      .ok .SOLVER_FAILED
        { s1 with
          previousGlpkAnswer := .SOLVER_FAILED
          consecutiveGlpkFailureCount := (s1.consecutiveGlpkFailureCount + 1) % 2 ^ 32 }

end Reluplex

/-- The LP oracle and what depends on the data it hands back (`GlpkWrapper`, outside the
embedded sources): `run` is `glpkWrapper.run( *this )` with its answer, `extract` is the
block of `fixOutOfBounds` that installs the solution found (basis or tableau, assignment,
basic values, statuses, `DEBUG( checkInvariants() )`), and `learn` is the block
`if ( learnedGlpkBounds() ) ...` of `progress` (`performGlpkBoundTightening` and
`tightenAllBounds`). -/
structure LpOracle where
  run : Reluplex → Res GlpkAnswer
  extract : Reluplex → Res Unit
  learn : Reluplex → Res Unit

namespace Reluplex

/-- `Reluplex::fixOutOfBounds()`. -/
def fixOutOfBounds (o : LpOracle) (s : Reluplex) : Res GlpkAnswer :=
  (o.run s).andThen fun answer s1 =>
    match answer with
    | .SOLUTION_FOUND =>
      (o.extract s1).andThen fun _ s2 =>
        if !s2.allVarsWithinBounds then s2.lpFailure
        else
          .ok .SOLUTION_FOUND
            { s2 with previousGlpkAnswer := .SOLUTION_FOUND, consecutiveGlpkFailureCount := 0 }
    | .NO_SOLUTION_EXISTS =>
      .ok .NO_SOLUTION_EXISTS
        { s1 with previousGlpkAnswer := .NO_SOLUTION_EXISTS, consecutiveGlpkFailureCount := 0 }
    | .SOLVER_FAILED => s1.lpFailure

/-- The branch of `progress` for a state with out-of-bounds variables, from the call of
`fixOutOfBounds` to the `return`; the value is the one `progress` returns. -/
def lpBranch (o : LpOracle) (s : Reluplex) : Res Bool :=
  (s.fixOutOfBounds o).andThen fun answer s1 =>
    if s1.consecutiveGlpkFailureCount > MAX_GLPK_FAILURES_BEFORE_RESOTRATION then
      .thrown (.error .CONSECUTIVE_GLPK_FAILURES) s1
    else if answer = .NO_SOLUTION_EXISTS then .ok false s1
    else if answer = .SOLVER_FAILED then .ok true s1
    else if s1.allRelusHold then .ok true s1
    else (o.learn s1).andThen fun _ s2 => .ok true s2

end Reluplex

/-- An LP oracle that fails on every invocation. -/
def failingOracle : LpOracle :=
  { run := fun s => .ok .SOLVER_FAILED s
    extract := fun s => .ok () s
    learn := fun s => .ok () s }

/-- A run in which `quit()` is called before iteration `k` of the main loop (never, for
`none`), degradation checking is off and the LP oracle fails on every invocation. -/
def failingLpEnv (k : Option ℕ) : Env :=
  { quit := fun i => decide (some i = k)
    degradation := fun _ => none
    lpBranch := Reluplex.lpBranch failingOracle }

/-- The row `x1 = x0` with `x1` basic, `x0` in `[5, 9]` and `x1` in `[0, 3]`: after
preprocessing the basic variable `x1 = 5` is above its upper bound, and no pivot can help. -/
def basicOutOfBounds (debugOn : Bool) : Reluplex :=
  let s := Reluplex.new 2 debugOn
  let s := s.initializeCell 1 1 (-1)
  let s := s.initializeCell 1 0 1
  let s := s.markBasic 1
  let s := (s.setLowerBound 0 5).setUpperBound 0 9
  (s.setLowerBound 1 0).setUpperBound 1 3

/-- The pair `(b, f) = (0, 1)` of `forcedPair` with `b` in `[-9, 0]` and `f` in `[0, 9]`,
after preprocessing and the split `dissolveReluOnVar( 1 )` of the SMT core at level 1:
`D[f] = SPLIT` and `ub(b) = ub(f) = 0` with level 1. -/
def splitOnTightPair (debugOn : Bool) : Reluplex :=
  match (forcedPair (-9) 0 debugOn).preprocessing with
  | .ok _ s1 =>
    match s1.dissolveReluOnVar 1 with
    | .ok _ s2 => s2
    | _ => forcedPair (-9) 0 debugOn
  | _ => forcedPair (-9) 0 debugOn

/-- The two states have the same LP failure counter and the same previous LP answer. -/
def Reluplex.SameLpCounters (s1 s : Reluplex) : Prop :=
  s1.consecutiveGlpkFailureCount = s.consecutiveGlpkFailureCount ∧
  s1.previousGlpkAnswer = s.previousGlpkAnswer

/-- The state of `basicOutOfBounds` after preprocessing, with the statuses recomputed: the
state in which the first iteration of the main loop calls `progress`. -/
def basicOutOfBoundsReady (debugOn : Bool) : Reluplex :=
  match (basicOutOfBounds debugOn).preprocessing with
  | .ok _ s1 => s1.computeVariableStatusAll
  | _ => basicOutOfBounds debugOn

/-- As `splitOnTightPair`, with `b` in `[-9, 9]`: in the backup the pair is active with
`ub(b) = ub(f) = 9`. -/
def splitOnWidePair (debugOn : Bool) : Reluplex :=
  match (forcedPair (-9) 9 debugOn).preprocessing with
  | .ok _ s1 =>
    match s1.dissolveReluOnVar 1 with
    | .ok _ s2 => s2
    | _ => forcedPair (-9) 9 debugOn
  | _ => forcedPair (-9) 9 debugOn

/-- The exit code of a call that ended the process. -/
def Res.exitCode? {α : Type} : Res α → Option ℕ
  | .exited c => some c
  | _ => none

/-- A relation between the state after and the state before that no write to the
assignment, the statuses, the bounds or the dissolution map disturbs. -/
structure Reluplex.BoundFrameRel (R : Reluplex → Reluplex → Prop) : Prop where
  refl : ∀ s, R s s
  trans : ∀ s2 s1 s, R s2 s1 → R s1 s → R s2 s
  assignment : ∀ (s : Reluplex) (a : ℕ → ℚ), R { s with assignment := a } s
  status : ∀ (s : Reluplex) (f : ℕ → VariableStatus), R { s with varToStatus := f } s
  upper : ∀ (s : Reluplex) (u : ℕ → VariableBound), R { s with upperBounds := u } s
  lower : ∀ (s : Reluplex) (l : ℕ → VariableBound), R { s with lowerBounds := l } s
  dissolved : ∀ (s : Reluplex) (d : ℕ → Option ReluDissolutionType),
    R { s with dissolvedReluVariables := d } s

/-- The two states have the same tableau and the same basic variables. -/
def Reluplex.SameTableau (s1 s : Reluplex) : Prop :=
  s1.tableau = s.tableau ∧ s1.basicVariables = s.basicVariables

/-- Two rows that share the variable `x0`: `x2 = x0` and `x3 = x0` with `x2`, `x3` basic,
`x0` and `x2` in `[-9, 9]`, `x3` in `[-9, 5]`, the unused variable `x1` in `[0, 9]`, and no
ReLU pair. -/
def chainedRows (debugOn : Bool) : Reluplex :=
  let s := Reluplex.new 4 debugOn
  let s := s.initializeCell 2 2 (-1)
  let s := s.initializeCell 2 0 1
  let s := s.initializeCell 3 3 (-1)
  let s := s.initializeCell 3 0 1
  let s := (s.markBasic 2).markBasic 3
  let s := (s.setLowerBound 0 (-9)).setUpperBound 0 9
  let s := (s.setLowerBound 1 0).setUpperBound 1 9
  let s := (s.setLowerBound 2 (-9)).setUpperBound 2 9
  let s := (s.setLowerBound 3 (-9)).setUpperBound 3 5
  s.computeVariableStatusAll

/-- `Reluplex::toggleAlmostBrokenReluEliminiation( value )`. -/
def Reluplex.toggleAlmostBrokenReluEliminiation (s : Reluplex) (value : Bool) : Reluplex :=
  { s with eliminateAlmostBrokenRelus := value }

/-- The row `x2 = x1` with `x2` basic in `[0, 0.0005]`, where `x1` is the `f` of the pair
`(b, f) = (0, 1)` with `lb(f) = 0` and no upper bound, `b` in `[-9, 9]`, and almost-broken
elimination turned on. -/
def almostBrokenRow (debugOn : Bool) : Reluplex :=
  let s := Reluplex.new 3 debugOn
  let s := s.initializeCell 2 2 (-1)
  let s := s.initializeCell 2 1 1
  let s := s.markBasic 2
  let s := (s.setLowerBound 0 (-9)).setUpperBound 0 9
  let s := s.setLowerBound 1 0
  let s := (s.setLowerBound 2 0).setUpperBound 2 (1 / 2000)
  let s := s.setReluPair 0 1
  (s.toggleAlmostBrokenReluEliminiation true).computeVariableStatusAll

/-- The row `x2 = 100 x0 - 1e-9 x1` with `x2` basic: all variables in `[0, 1]` except
`ub(x0) = 10`; the bounds of `x1` carry levels, `lb(x1)` level 1 and `ub(x1)` level 2, every
other bound has level 0. There is no ReLU pair. -/
def tinyScaledRow (debugOn : Bool) : Reluplex :=
  let s := Reluplex.new 3 debugOn
  let s := s.initializeCell 2 2 (-1)
  let s := s.initializeCell 2 0 100
  let s := s.initializeCell 2 1 (-1 / 1000000000)
  let s := s.markBasic 2
  let s := (s.setLowerBound 0 0).setUpperBound 0 10
  let s := (s.setLowerBound 1 0).setUpperBound 1 1
  let s := (s.setLowerBound 2 0).setUpperBound 2 1
  let s := (s.storeLowerBound 1 0 1).storeUpperBound 1 1 2
  s.computeVariableStatusAll

/-- One variable far from zero: `x0` in `[10^13, 10^13 + 10]` with the value
`10^13 - 1/512`, which is the double next below `10^13`. -/
def farFromZero (debugOn : Bool) : Reluplex :=
  let s := Reluplex.new 1 debugOn
  let s := (s.setLowerBound 0 10000000000000).setUpperBound 0 10000000000010
  (s.updateIgnoringRelu 0 (10000000000000 - 1 / 512)).computeVariableStatus 0

/-- `Reluplex::setAssignment( assignment )`: the values are written to the variables
`0, 1, ...` in order (the list must not be longer than the array `_assignment`). -/
def Reluplex.setAssignment (s : Reluplex) (assignment : List ℚ) : Reluplex :=
  assignment.enum.foldl
    (fun st it => { st with assignment := Function.update st.assignment it.1 it.2 }) s

/-- The pair `(b, f) = (0, 1)` with the values `b` and `f` given through `setAssignment`. -/
def pairWithValues (b f : ℚ) : Reluplex :=
  ((Reluplex.new 2 false).setReluPair 0 1).setAssignment [b, f]

/-- The state of `twoFreePairs` after `initialUpdate()`, `dissolveReluOnVar( 1 )` and
`dissolveReluOnVar( 3 )`: the stack has depth `2` and neither snapshot has tried its
alternative. -/
def twoUntriedLevels (debugOn : Bool) : Reluplex :=
  match (twoFreePairs debugOn).initialUpdate with
  | .ok _ s =>
    (match s.dissolveReluOnVar 1 with
     | .ok _ s1 =>
       (match s1.dissolveReluOnVar 3 with
        | .ok _ s2 => s2
        | _ => s1)
     | _ => s)
  | _ => twoFreePairs debugOn

/-- The stack `final` is what a backjump makes of `original`: the snapshots `discarded` on
top are gone, and the first snapshot kept, which had not tried its alternative, is on top
with the alternative marked as tried. -/
def BackjumpOf (original final : List SplitInformation) : Prop :=
  ∃ discarded t rest, original = discarded ++ t :: rest ∧ t.firstAttempt = true ∧
    final = t.flipped :: rest

/-- The registry is a pairing: every registered pair `(b, f)` is recorded in both maps, no
`b` is the `f` of a pair and no `f` is the `b` of a pair. -/
def ReluPairs.Pairing (r : ReluPairs) : Prop :=
  ∀ p ∈ r.reluPairs, r.bToF p.1 = some p.2 ∧ r.fToB p.2 = some p.1 ∧
    r.fToB p.1 = none ∧ r.bToF p.2 = none

/-- The state of `smallState` after `update( x0, 2, true )`: `A = [2, 0, 2, 6]`, every
variable is within its bounds and the pair `(0, 1)` is broken. -/
def brokenPairInBounds (debugOn : Bool) : Reluplex :=
  (smallState debugOn).updateIgnoringRelu 0 2

/-- The state of `smallState` after `pivot( 1, 2 )`: the output `f = x1` of the pair
`(0, 1)` is basic with the row `x1 = x2 / 2 - x0 / 2`, and `b = x0` is not basic. -/
def basicOutput (debugOn : Bool) : Reluplex :=
  match (smallState debugOn).pivot 1 2 with
  | .ok _ s => s
  | _ => smallState debugOn

/-- The state of `smallState` with the values `[0, 2^-34, 2^-33, 0]` given through
`setAssignment`: the value of `f = x1` is within `1e-10` of zero without being zero. -/
def tinyOutput (debugOn : Bool) : Reluplex :=
  (smallState debugOn).setAssignment [0, 1 / 17179869184, 1 / 8589934592, 0]

/-- The representation invariant of the sparse matrix: at most one entry per position, no
stored value within `DEFAULT_EPSILON` of zero, every entry inside the `size * size` matrix,
and every size counter equal, as an `unsigned`, to the number of entries of its row or
column. -/
structure Tableau.Sound (t : Tableau) : Prop where
  oneCell : t.OneCellPerPosition
  zeroFree : t.ZeroFree
  inRange : ∀ e ∈ t.entries, e.row < t.size ∧ e.column < t.size
  rows : ∀ i, t.rowSize i = (t.getRow i).length % 2 ^ 32
  columns : ∀ j, t.columnSize j = (t.getColumn j).length % 2 ^ 32

/-- The invariant `Tableau.Sound` without zero-freeness, which the loops of `addScaledRow`
and `addColumnEraseSource` suspend between `setValue` and `eraseEntry`. -/
structure Tableau.Counted (t : Tableau) : Prop where
  oneCell : t.OneCellPerPosition
  inRange : ∀ e ∈ t.entries, e.row < t.size ∧ e.column < t.size
  rows : ∀ i, t.rowSize i = (t.getRow i).length % 2 ^ 32
  columns : ∀ j, t.columnSize j = (t.getColumn j).length % 2 ^ 32

/-- The tableaus that a sequence of calls builds from the constructor: `addEntry` on absent
cells, `eraseEntry` on a stored entry, `eraseRow`, `eraseColumn`, `addScaledRow`,
`addColumnEraseSource` and `backupIntoMatrix`, all with indices inside the matrix. The size
is an `unsigned`. -/
inductive Tableau.Reachable : Tableau → Prop where
  | empty (n : ℕ) (hn : n < 2 ^ 32) : Tableau.Reachable (Tableau.empty n)
  | addEntry (t : Tableau) (row column : ℕ) (value : ℚ) (h : Tableau.Reachable t)
      (hrow : row < t.size) (hcolumn : column < t.size) (hfree : t.cell row column = none) :
      Tableau.Reachable (t.addEntry row column value)
  | eraseEntry (t : Tableau) (row column : ℕ) (h : Tableau.Reachable t)
      (hstored : (t.cell row column).isSome = true) :
      Tableau.Reachable (t.eraseEntry row column)
  | eraseRow (t : Tableau) (row : ℕ) (h : Tableau.Reachable t) (hrow : row < t.size) :
      Tableau.Reachable (t.eraseRow row)
  | eraseColumn (t : Tableau) (column : ℕ) (h : Tableau.Reachable t)
      (hcolumn : column < t.size) : Tableau.Reachable (t.eraseColumn column)
  | addScaledRow (t : Tableau) (source : ℕ) (scale : ℚ) (target guaranteeIndex : ℕ)
      (guaranteeValue : ℚ) (h : Tableau.Reachable t) (hsource : source < t.size)
      (htarget : target < t.size) :
      Tableau.Reachable (t.addScaledRow source scale target guaranteeIndex guaranteeValue)
  | addColumnEraseSource (t : Tableau) (source target : ℕ) (h : Tableau.Reachable t)
      (hsource : source < t.size) (htarget : target < t.size) :
      Tableau.Reachable (t.addColumnEraseSource source target)
  | backupIntoMatrix (t other copy : Tableau) (h : Tableau.Reachable t)
      (hcopy : t.backupIntoMatrix other = some copy) : Tableau.Reachable copy

/-- A tableau of size 3 built with most of the operations: three rows are filled, row 0 is
added to row 1 (which cancels the cell in column 2), column 0 is merged into column 1, and an
entry and a column are erased. -/
def sampleSource : Tableau :=
  let t := Tableau.empty 3
  let t := t.addEntry 0 0 1
  let t := t.addEntry 0 2 (-2)
  let t := t.addEntry 1 2 2
  let t := t.addEntry 1 1 5
  let t := t.addEntry 2 0 4
  let t := t.addScaledRow 0 1 1 3 0
  let t := t.addColumnEraseSource 0 1
  let t := t.eraseEntry 0 2
  let t := t.addEntry 2 2 7
  t.eraseColumn 2

/-- The copy of `sampleSource` that `backupIntoMatrix` makes, after `eraseRow( 0 )`. -/
def sampleTableau : Tableau :=
  match sampleSource.backupIntoMatrix (Tableau.empty 3) with
  | some copy => copy.eraseRow 0
  | none => sampleSource

/-- A relation between the state after and the state before that no write to the
assignment, the statuses, the bounds, the tableau, the basic set or the eliminated variables
disturbs, and neither does a new entry of the dissolution map. -/
structure Reluplex.MarkRel (R : Reluplex → Reluplex → Prop) : Prop where
  refl : ∀ s, R s s
  trans : ∀ s2 s1 s, R s2 s1 → R s1 s → R s2 s
  assignment : ∀ (s : Reluplex) (a : ℕ → ℚ), R { s with assignment := a } s
  status : ∀ (s : Reluplex) (f : ℕ → VariableStatus), R { s with varToStatus := f } s
  upper : ∀ (s : Reluplex) (u : ℕ → VariableBound), R { s with upperBounds := u } s
  lower : ∀ (s : Reluplex) (l : ℕ → VariableBound), R { s with lowerBounds := l } s
  mark : ∀ (s : Reluplex) (v : ℕ) (type : ReluDissolutionType),
    R { s with dissolvedReluVariables := Function.update s.dissolvedReluVariables v (some type) } s
  tableau : ∀ (s : Reluplex) (t : Tableau), R { s with tableau := t } s
  basic : ∀ (s : Reluplex) (b : Finset ℕ), R { s with basicVariables := b } s
  eliminated : ∀ (s : Reluplex) (e : Finset ℕ), R { s with eliminatedVars := e } s

/-- The number of registered pairs that are not dissolved. -/
def Reluplex.activePairs (s : Reluplex) : ℕ :=
  (s.reluPairs.reluPairs.filter fun p => (s.dissolvedReluVariables p.2).isNone).length

/-- The maps of the registry point into its set of pairs: every `f` that one of the maps
knows is the `f` of a registered pair. -/
def ReluPairs.Registered (r : ReluPairs) : Prop :=
  (∀ f b, r.fToB f = some b → f ∈ r.reluPairs.map Prod.snd) ∧
  (∀ b f, r.bToF b = some f → f ∈ r.reluPairs.map Prod.snd)

/-- The later state has the registry of the earlier one and has kept every entry of its
dissolution map. -/
def Reluplex.KeepsDissolved (s1 s : Reluplex) : Prop :=
  s1.reluPairs = s.reluPairs ∧
  ∀ f, (s.dissolvedReluVariables f).isSome = true → (s1.dissolvedReluVariables f).isSome = true

/-- The row `x2 = x0` with `x2` basic in `[1, 5]`, `x0` in `[-9, 9]` and `x1` in `[0, 9]`,
where `(b, f) = (0, 1)` is a ReLU pair: the row forces `lb(b) = 1`, which merges the pair. -/
def mergeByTightening (debugOn : Bool) : Reluplex :=
  let s := Reluplex.new 3 debugOn
  let s := s.initializeCell 2 2 (-1)
  let s := s.initializeCell 2 0 1
  let s := s.markBasic 2
  let s := (s.setLowerBound 0 (-9)).setUpperBound 0 9
  let s := (s.setLowerBound 1 0).setUpperBound 1 9
  let s := (s.setLowerBound 2 1).setUpperBound 2 5
  (s.setReluPair 0 1).computeVariableStatusAll

/-- The assignment `x` satisfies the row equations of the tableau for the basic variables
`basics`: `x_r` is the sum of `T[r][j] * x_j` over the cells of row `r` outside column `r`. -/
def Tableau.Satisfies (t : Tableau) (basics : Finset ℕ) (x : ℕ → ℝ) : Prop :=
  ∀ r ∈ basics,
    x r = (((t.getRow r).filter fun e => decide (e.column ≠ r)).map
      fun e => (e.value : ℝ) * x e.column).sum

/-- No sum that `addColumnEraseSource( source, target )` computes is dropped unless it is
exactly zero. -/
def Tableau.MergeExact (t : Tableau) (source target : ℕ) : Prop :=
  ∀ r w x, t.cell r source = some w → t.cell r target = some x →
    x + w = 0 ∨ isZero (x + w) DEFAULT_EPSILON = false

/-- The state of `smallState` after `update( x0, 1, true )` and
`update( x1, 1 + 2^-35, true )`: `A = [1, 1 + 2^-35, 3 + 2^-34, 3]`, every row equation holds
exactly, and the values of the pair `(0, 1)` differ by less than `1e-10`. -/
def almostEqualPair (debugOn : Bool) : Reluplex :=
  ((smallState debugOn).updateIgnoringRelu 0 1).updateIgnoringRelu 1 (1 + 1 / 34359738368)

/-- The natural number nearest to `n / d`, ties to the even one. -/
def roundHalfEven (n d : ℕ) : ℕ :=
  if 2 * (n % d) < d then n / d
  else if d < 2 * (n % d) then n / d + 1
  else if n / d % 2 = 0 then n / d
  else n / d + 1

/-- The number of halvings that take `n` below 2, at most `fuel` of them; with `fuel = n`
it is the position of the leading bit of `n`. -/
def halvings : ℕ → ℕ → ℕ
  | 0, _ => 0
  | fuel + 1, n => if n < 2 then 0 else halvings fuel (n / 2) + 1

/-- The value of a C++ `double` expression whose exact value is `q`: the IEEE 754 binary64
number nearest to `q`, ties to the even significand (the rounding of every `+`, `-`, `*` and
`/` on `double`). The significand has 53 bits; overflow and subnormal numbers are not
modelled (the exponent is unbounded). -/
def roundToDouble (q : ℚ) : ℚ :=
  if q = 0 then 0
  else
    let n := q.num.natAbs
    let d := q.den
    let e0 : ℤ := (halvings n n : ℤ) - (halvings d d : ℤ)
    let e : ℤ := if n * 2 ^ (-e0).toNat < d * 2 ^ e0.toNat then e0 - 1 else e0
    let up := (52 - e).toNat
    let down := (e - 52).toNat
    let m := roundHalfEven (n * 2 ^ up) (d * 2 ^ down)
    let r : ℚ := ((m * 2 ^ down : ℕ) : ℚ) / ((2 ^ up : ℕ) : ℚ)
    if q < 0 then -r else r

/-- One iteration of the loop of `addScaledRow` with the result of each arithmetic operation
(`current->getValue() * scale`, `entryInTarget->getValue() + newValue`) passed through `fl`;
`Tableau.addScaledRowStep` is the case of exact arithmetic, `fl = id`. -/
def Tableau.addScaledRowStepWith (fl : ℚ → ℚ) (target : ℕ) (scale : ℚ) (guaranteeIndex : ℕ)
    (guaranteeValue : ℚ) (st : Tableau × Finset ℕ) (current : Entry) : Tableau × Finset ℕ :=
  let column := current.column
  let newValue := fl (current.value * scale)
  if column ∈ st.2 then
    let v := if column ≠ guaranteeIndex then fl (st.1.getCell target column + newValue)
      else guaranteeValue
    let t1 := st.1.setValue target column v
    if isZero v DEFAULT_EPSILON then (t1.eraseEntry target column, st.2.erase column)
    else (t1, st.2)
  else if column ≠ guaranteeIndex then (st.1.addEntry target column newValue, st.2)
  else (st.1.addEntry target column guaranteeValue, st.2)

/-- `Tableau::addScaledRow` with every arithmetic result passed through `fl`. -/
def Tableau.addScaledRowWith (fl : ℚ → ℚ) (t : Tableau) (source : ℕ) (scale : ℚ)
    (target guaranteeIndex : ℕ) (guaranteeValue : ℚ) : Tableau :=
  if !t.activeRow source then t
  else
    ((t.getRow source).foldl
      (Tableau.addScaledRowStepWith fl target scale guaranteeIndex guaranteeValue)
      (t, ((t.getRow target).map (fun e => e.column)).toFinset)).1

/-- The tableau after `pivot( nonBasic, basic )` with every arithmetic result, the scale
`( -1.0 ) / cell` included, passed through `fl`. -/
def pivotTableauWith (fl : ℚ → ℚ) (t : Tableau) (nonBasic basic : ℕ) : Tableau :=
  let cell := t.getCell basic nonBasic
  let t1 := t.addScaledRowWith fl basic (fl ((-1) / cell)) nonBasic nonBasic (-1)
  let t2 := t1.eraseRow basic
  (t2.getColumn nonBasic).foldl
    (fun t3 current =>
      if current.row ≠ nonBasic then
        t3.addScaledRowWith fl nonBasic current.value current.row nonBasic 0
      else t3)
    t2

/-- `Reluplex::pivot( nonBasic, basic )` with every arithmetic result passed through `fl`:
`Reluplex.pivot` for `fl = id`, the run of the compiled code for `fl = roundToDouble`. -/
def Reluplex.pivotWith (fl : ℚ → ℚ) (s : Reluplex) (nonBasic basic : ℕ) : Res Unit :=
  if nonBasic ∈ s.basicVariables then .thrown (.error .ILLEGAL_PIVOT_OP) s
  else if basic ∉ s.basicVariables then .thrown (.error .ILLEGAL_PIVOT_OP) s
  else
    .ok ()
      { s with
        basicVariables := insert nonBasic (s.basicVariables.erase basic)
        tableau := pivotTableauWith fl s.tableau nonBasic basic }

/-- The state of `smallState` after `update( x0, 1, true )`: `A = [1, 0, 1, 3]`, which
satisfies the rows `x2 = x0 + 2 x1` and `x3 = 3 x0`. -/
def unitInput (debugOn : Bool) : Reluplex :=
  (smallState debugOn).updateIgnoringRelu 0 1

/-- One iteration of the inner loop of `tightenBoundsOnRow` with the result of each
arithmetic operation (`current->getValue() * scale`, the product of a bound with the
coefficient, the addition to `min` or `max`) passed through `fl`; `Reluplex.tightenStep` is
the case of exact arithmetic, `fl = id`. -/
def Reluplex.tightenStepWith (fl : ℚ → ℚ) (s : Reluplex) (tighteningColumn : ℕ) (scale : ℚ)
    (acc : RowBounds) (current : Entry) : RowBounds :=
  let column := current.column
  if column = tighteningColumn then acc
  else
    let coefficient := fl (current.value * scale)
    if isPositive coefficient DEFAULT_EPSILON then
      { min := fl (acc.min + fl ((s.lowerBounds column).bound * coefficient))
        max := fl (acc.max + fl ((s.upperBounds column).bound * coefficient))
        minBoundLevel :=
          if (s.lowerBounds column).level > acc.minBoundLevel then (s.lowerBounds column).level
          else acc.minBoundLevel
        maxBoundLevel :=
          if (s.upperBounds column).level > acc.maxBoundLevel then (s.upperBounds column).level
          else acc.maxBoundLevel }
    else
      { min := fl (acc.min + fl ((s.upperBounds column).bound * coefficient))
        max := fl (acc.max + fl ((s.lowerBounds column).bound * coefficient))
        maxBoundLevel :=
          if (s.lowerBounds column).level > acc.maxBoundLevel then (s.lowerBounds column).level
          else acc.maxBoundLevel
        minBoundLevel :=
          if (s.upperBounds column).level > acc.minBoundLevel then (s.upperBounds column).level
          else acc.minBoundLevel }

/-- The inner loop of `tightenBoundsOnRow` over the row of `basic`, with every arithmetic
result passed through `fl`. -/
def Reluplex.tightenRowBoundsWith (fl : ℚ → ℚ) (s : Reluplex) (basic tighteningColumn : ℕ)
    (scale : ℚ) : RowBounds :=
  (s.tableau.getRow basic).foldl (s.tightenStepWith fl tighteningColumn scale)
    { max := 0, min := 0, minBoundLevel := 0, maxBoundLevel := 0 }

/-- The row `x2 = x0 + x1` with `x2` basic, `0 <= x0 <= 1`, `0 <= x1` without an upper bound
(no call of `setUpperBound( 1, .. )`), and `-9000 <= x2 <= 9000`. -/
def unboundedInput (debugOn : Bool) : Reluplex :=
  let s := Reluplex.new 3 debugOn
  let s := s.initializeCell 2 2 (-1)
  let s := s.initializeCell 2 0 1
  let s := s.initializeCell 2 1 1
  let s := s.markBasic 2
  let s := (s.setLowerBound 0 0).setUpperBound 0 1
  let s := s.setLowerBound 1 0
  let s := (s.setLowerBound 2 (-9000)).setUpperBound 2 9000
  s.computeVariableStatusAll

/-- The row `x1 = (1 + 2^-30) x0` with `x1` basic, `0 <= x0 <= 1 + 2^-30` and
`-9 <= x1 <= 9`; every number is a `double`. -/
def roundedProductRow (debugOn : Bool) : Reluplex :=
  let s := Reluplex.new 2 debugOn
  let s := s.initializeCell 1 1 (-1)
  let s := s.initializeCell 1 0 (1 + 1 / 1073741824)
  let s := s.markBasic 1
  let s := (s.setLowerBound 0 0).setUpperBound 0 (1 + 1 / 1073741824)
  let s := (s.setLowerBound 1 (-9)).setUpperBound 1 9
  s.computeVariableStatusAll

/-- A query whose registry is not a pairing: the row `x3 = x0` with `x3` basic, bounds
`[-9, 9]` for `x0` and `x3` and `[0, 9]` for `x1` and `x2`, and the pairs `setReluPair( 0, 1 )`
and `setReluPair( 1, 2 )`, so that `x1` is the `f` of the first pair and the `b` of the
second; then `update( x0, 2, true )`: `A = [2, 0, 0, 2]`. -/
def chainedPairs (debugOn : Bool) : Reluplex :=
  let s := Reluplex.new 4 debugOn
  let s := s.initializeCell 3 3 (-1)
  let s := s.initializeCell 3 0 1
  let s := s.markBasic 3
  let s := (s.setLowerBound 0 (-9)).setUpperBound 0 9
  let s := (s.setLowerBound 1 0).setUpperBound 1 9
  let s := (s.setLowerBound 2 0).setUpperBound 2 9
  let s := (s.setLowerBound 3 (-9)).setUpperBound 3 9
  let s := (s.setReluPair 0 1).setReluPair 1 2
  s.computeVariableStatusAll.updateIgnoringRelu 0 2

/-- The second loop of `makeAllBoundsFiniteOnRow` with the result of each arithmetic
operation (the coefficient, the product with the bound, the addition to `max` or `min`)
passed through `fl`; `Reluplex.rowMaxMin` is the case of exact arithmetic, `fl = id`. -/
def Reluplex.rowMaxMinWith (fl : ℚ → ℚ) (s : Reluplex) (tighteningVarIndex : ℕ) (scale : ℚ)
    (row : List Entry) : ℚ × ℚ :=
  row.foldl
    (fun acc current =>
      if current.column = tighteningVarIndex then acc
      else
        let coefficient := fl (current.value * scale)
        if isPositive coefficient DEFAULT_EPSILON then
          (fl (acc.1 + fl ((s.upperBounds current.column).bound * coefficient)),
           fl (acc.2 + fl ((s.lowerBounds current.column).bound * coefficient)))
        else
          (fl (acc.1 + fl ((s.lowerBounds current.column).bound * coefficient)),
           fl (acc.2 + fl ((s.upperBounds current.column).bound * coefficient))))
    (0, 0)

/-- One iteration of the loop of `addColumnEraseSource` with the sum
`entryInTarget->getValue() + current->getValue()` passed through `fl`;
`Tableau.addColumnStep` is the case of exact arithmetic, `fl = id`. -/
def Tableau.addColumnStepWith (fl : ℚ → ℚ) (source target : ℕ) (st : Tableau × Finset ℕ)
    (current : Entry) : Tableau × Finset ℕ :=
  let row := current.row
  if row ∈ st.2 then
    let v := fl (st.1.getCell row target + current.value)
    let t1 := st.1.setValue row target v
    if isZero v DEFAULT_EPSILON then (t1.eraseEntry row target, st.2.erase row)
    else (t1, st.2)
  else (st.1.moveEntry row source target, st.2)

/-- `Tableau::addColumnEraseSource( source, target )` with every sum passed through `fl`. -/
def Tableau.addColumnEraseSourceWith (fl : ℚ → ℚ) (t : Tableau) (source target : ℕ) :
    Tableau :=
  if !t.activeColumn source then t
  else
    (((t.getColumn source).foldl (Tableau.addColumnStepWith fl source target)
      (t, ((t.getColumn target).map (fun e => e.row)).toFinset)).1).eraseColumn source

/-- The row `x2 = x0 + (2^-30 + 2^-60) x1` in a tableau of three variables; every number is
a `double`. -/
def unevenRow : Tableau :=
  (((Tableau.empty 3).addEntry 2 2 (-1)).addEntry 2 0 1).addEntry 2 1
    (1 / 1073741824 + 1 / 1152921504606846976)

/-! # Theorems -/

set_option maxRecDepth 100000 in
/-- C1 (the code breaks the claim): on the query `slightlyNegativeF`, with or without
`DEBUG_ON`, `solve` returns SAT in its first iteration although the active pair `(0, 1)`,
whose `f` has lower bound 0, has `A[b] = 5` and `A[f] = -0.0005`: no variable is out of
bounds, `allRelusHold` accepts the pair, and `|A[f] - max(0, A[b])|` exceeds `OOB_EPSILON`. -/
theorem C1_sat_with_violated_relu :
    ∀ debugOn : Bool,
      (Reluplex.solve quietEnv 1 (slightlyNegativeF debugOn)).status? = some .SAT ∧
      ((Reluplex.solve quietEnv 1 (slightlyNegativeF debugOn)).state?.map
        violatedReluAtSat) = some true := by
  decide!

set_option maxRecDepth 100000 in
/-- C3 (the code breaks the claim): on the query `twoPairs` (built without `DEBUG_ON`) the
tenth call of `progress` dissolves the pair `(4, 5)` at level 2; the merge raises an
invariant violation, which `progress` catches, and `pop( 2 )` re-applies the split, which
raises `InvariantViolationError( 2 )` outside the `try` of `progress`. The violation
escapes from the main loop and `solve` returns UNSAT while the snapshot of the pair `(0, 1)`
at level 1 still has `_firstAttempt = true`. -/
theorem C3_violation_in_pop_ends_solve :
    escaped (Reluplex.solveBody quietEnv 11 (twoPairs false)) = some (.invariantViolation 2) ∧
    (Reluplex.solve quietEnv 11 (twoPairs false)).status? = some .UNSAT ∧
    ((Reluplex.solve quietEnv 11 (twoPairs false)).state?.map stackSummary) =
      some [(5, false, .SPLITTING_RELU), (1, true, .MERGING_RELU)] ∧
    ((Reluplex.solve (quitAt 9) 11 (twoPairs false)).state?.map stackSummary) =
      some [(1, true, .MERGING_RELU)] := by
  decide!

set_option maxRecDepth 100000 in
/-- C7 (the code breaks the claim): on the query `repairLeavesBounds`, with or without
`DEBUG_ON`, the first call of `progress` repairs the broken pair `(0, 1)` in a state where
no variable is out of bounds; `fixBrokenRelu( 1 )` pivots `b` out of the basis and sets it
to `A[f] = 7`, above `ub(b) = 5`, and returns `true`: a non-basic variable is out of
bounds. The next iteration of `solve` returns SAT with that assignment. -/
theorem C7_repair_moves_nonbasic_out_of_bounds :
    ∀ debugOn : Bool,
      ((afterPreprocessing (repairLeavesBounds debugOn)).map repairPrecondition) = some true ∧
      ((afterPreprocessing (repairLeavesBounds debugOn)).map
        (fun s => repairOutcome (s.fixBrokenRelu 1))) = some true ∧
      (Reluplex.solve quietEnv 2 (repairLeavesBounds debugOn)).status? = some .SAT ∧
      ((Reluplex.solve quietEnv 2 (repairLeavesBounds debugOn)).state?.map
        (fun s => decide (s.assignment 0 = 7 ∧ s.assignment 1 = 7 ∧ 0 ∉ s.basicVariables)))
        = some true := by
  decide!

/-! ## The driver (C2) -/

theorem mainLoop_sat (env : Env) :
    ∀ (fuel k : ℕ) (t u : Reluplex),
      Reluplex.mainLoop env fuel k t = some (.ok .SAT u) →
      ∃ (k1 : ℕ) (t1 : Reluplex),
        env.quit k1 = false ∧ u = t1.computeVariableStatusAll ∧ satTest u := by
  intro fuel
  induction fuel with
  | zero => intro k t u h; simp [Reluplex.mainLoop] at h
  | succ n ih =>
    intro k t u h
    rw [Reluplex.mainLoop] at h
    by_cases hq : env.quit k = true
    · simp [hq] at h
    · simp only [hq] at h
      by_cases hs : (t.computeVariableStatusAll.allVarsWithinBounds &&
          t.computeVariableStatusAll.allRelusHold) = true
      · simp only [hs, if_true] at h
        simp only [Bool.false_eq_true, if_false, Option.some.injEq, Res.ok.injEq, true_and] at h
        subst h
        refine ⟨k, t, by simpa using hq, rfl, ?_⟩
        simpa [satTest] using hs
      · simp only [hs, Bool.false_eq_true, if_false] at h
        cases hp : Reluplex.progress env t.computeVariableStatusAll with
        | ok result s2 =>
          rw [hp] at h
          simp only at h
          by_cases hr : result.1 = true
          · simp only [hr, if_true] at h
            exact ih _ _ _ h
          · simp only [hr, Bool.false_eq_true, if_false] at h
            cases hpop : (if s2.useConflictAnalysis = true then Reluplex.popTo n s2 result.2
                else some s2.pop) with
            | none => rw [hpop] at h; cases h
            | some r =>
              rw [hpop] at h
              cases r with
              | ok _ s3 => exact ih _ _ _ h
              | thrown e s3 => simp at h
              | exited c => simp at h
        | thrown e s2 => rw [hp] at h; simp at h
        | exited c => rw [hp] at h; simp at h

theorem solveBody_sat (env : Env) (fuel : ℕ) (s s1 : Reluplex)
    (h : Reluplex.solveBody env fuel s = some (.ok .SAT s1)) :
    ∃ (k : ℕ) (t : Reluplex), Reluplex.mainLoop env fuel k t = some (.ok .SAT s1) := by
  unfold Reluplex.solveBody at h
  cases h1 : (if (!s.wasInitialized) = true then s.initialise else Res.ok () s) with
  | thrown e t1 => rw [h1] at h; simp at h
  | exited c => rw [h1] at h; simp at h
  | ok _ t1 =>
    rw [h1] at h
    simp only at h
    cases h2 : t1.eliminateAuxVariables with
    | thrown e t2 => rw [h2] at h; simp at h
    | exited c => rw [h2] at h; simp at h
    | ok done t2 =>
      rw [h2] at h
      cases done with
      | false => simp at h
      | true =>
        simp only at h
        cases h3 : t2.storePreprocessedMatrix with
        | thrown e t3 => rw [h3] at h; simp at h
        | exited c => rw [h3] at h; simp at h
        | ok _ t3 => rw [h3] at h; exact ⟨0, t3, h⟩

theorem isZero_iff (x eps : ℚ) (heps : 0 ≤ eps) :
    isZero x eps = true ↔ |x| ≤ eps := by
  unfold isZero areEqual
  simp only [sub_zero, abs_zero]
  constructor
  · intro h
    by_cases h1 : |x| ≤ eps
    · exact h1
    · simp only [h1, if_false] at h
      by_cases h2 : |x| > 0
      · simp only [h2, if_true] at h
        have h3 : |x| ≤ |x| * DBL_EPSILON := by
          by_contra hc; simp [hc] at h
        have h4 : |x| * DBL_EPSILON < |x| := by
          have : DBL_EPSILON < 1 := by norm_num [DBL_EPSILON]
          nlinarith
        linarith
      · have h5 : |x| = 0 := le_antisymm (not_lt.mp h2) (abs_nonneg x)
        rw [h5] at h1
        exact absurd heps h1
  · intro h
    simp [h]

theorem isZero_default_iff (x : ℚ) :
    isZero x DEFAULT_EPSILON = true ↔ |x| ≤ DEFAULT_EPSILON :=
  isZero_iff x DEFAULT_EPSILON (by norm_num [DEFAULT_EPSILON])

theorem isZero_zero : isZero 0 DEFAULT_EPSILON = true := by
  rw [isZero_default_iff]; norm_num [DEFAULT_EPSILON]

theorem isZero_neg_one : isZero (-1) DEFAULT_EPSILON = false := by
  rw [Bool.eq_false_iff, Ne, isZero_default_iff]; norm_num [DEFAULT_EPSILON]

theorem ne_zero_of_not_isZero {x : ℚ} (h : isZero x DEFAULT_EPSILON = false) : x ≠ 0 := by
  intro hx; rw [hx, isZero_zero] at h; cases h

/-! ## Tableau: the cell view of the primitive operations -/

namespace Tableau

theorem getCell_eq (t : Tableau) (r c : ℕ) : t.getCell r c = (t.cell r c).getD 0 := by
  unfold getCell cell
  cases t.find r c <;> rfl

theorem cell_eq_none_iff (t : Tableau) (r c : ℕ) :
    t.cell r c = none ↔ (r, c) ∉ t.positions := by
  unfold cell find positions
  rw [Option.map_eq_none', List.find?_eq_none]
  simp only [List.mem_map, not_exists, not_and, decide_eq_true_eq, Prod.mk.injEq]

theorem cell_isSome_iff (t : Tableau) (r c : ℕ) :
    (t.cell r c).isSome = true ↔ (r, c) ∈ t.positions := by
  rw [← not_iff_not, Bool.not_eq_true, Option.not_isSome, Option.isNone_iff_eq_none,
    cell_eq_none_iff]

theorem cell_addEntry (t : Tableau) (r c : ℕ) (v : ℚ) (r1 c1 : ℕ) :
    (t.addEntry r c v).cell r1 c1 =
      if isZero v DEFAULT_EPSILON = true then t.cell r1 c1
      else if r1 = r ∧ c1 = c then some v else t.cell r1 c1 := by
  unfold addEntry
  by_cases hz : isZero v DEFAULT_EPSILON = true
  · simp [hz]
  · simp only [hz, Bool.false_eq_true, if_false]
    unfold cell find
    simp only [List.find?_cons]
    by_cases hp : r1 = r ∧ c1 = c
    · simp [hp]
    · simp only [hp, if_false]
      have : decide (r = r1 ∧ c = c1) = false := by
        simp only [decide_eq_false_iff_not]
        intro h; exact hp ⟨h.1.symm, h.2.symm⟩
      simp [this]

end Tableau

namespace Tableau

theorem cell_eraseEntry (t : Tableau) (r c r1 c1 : ℕ) :
    (t.eraseEntry r c).cell r1 c1 = if r1 = r ∧ c1 = c then none else t.cell r1 c1 := by
  unfold eraseEntry cell find
  simp only [List.find?_filter]
  by_cases hp : r1 = r ∧ c1 = c
  · simp only [hp, and_self, if_true, Option.map_eq_none', List.find?_eq_none]
    intro e _
    simp
    tauto
  · simp only [hp, if_false]
    congr 2
    funext e
    by_cases h1 : e.row = r1 ∧ e.column = c1
    · have : ¬ (e.row = r ∧ e.column = c) := by
        intro h; exact hp ⟨h1.1.symm.trans h.1, h1.2.symm.trans h.2⟩
      simp [h1, this]
      tauto
    · simp [h1]

theorem cell_eraseRow (t : Tableau) (r r1 c1 : ℕ) :
    (t.eraseRow r).cell r1 c1 = if r1 = r then none else t.cell r1 c1 := by
  unfold eraseRow cell find
  simp only [List.find?_filter]
  by_cases hp : r1 = r
  · simp only [hp, if_true, Option.map_eq_none', List.find?_eq_none]
    intro e _
    simp
    tauto
  · simp only [hp, if_false]
    congr 2
    funext e
    by_cases h1 : e.row = r1 ∧ e.column = c1
    · have : ¬ (e.row = r) := by
        intro h; exact hp (h1.1.symm.trans h)
      simp [h1, this]
      tauto
    · simp [h1]

theorem cell_eraseColumn (t : Tableau) (c r1 c1 : ℕ) :
    (t.eraseColumn c).cell r1 c1 = if c1 = c then none else t.cell r1 c1 := by
  unfold eraseColumn cell find
  simp only [List.find?_filter]
  by_cases hp : c1 = c
  · simp only [hp, if_true, Option.map_eq_none', List.find?_eq_none]
    intro e _
    simp
    tauto
  · simp only [hp, if_false]
    congr 2
    funext e
    by_cases h1 : e.row = r1 ∧ e.column = c1
    · have : ¬ (e.column = c) := by
        intro h; exact hp (h1.2.symm.trans h)
      simp [h1, this]
      tauto
    · simp [h1]

theorem cell_setValue (t : Tableau) (r c : ℕ) (v : ℚ) (r1 c1 : ℕ) :
    (t.setValue r c v).cell r1 c1 =
      if r1 = r ∧ c1 = c then (t.cell r c).map (fun _ => v) else t.cell r1 c1 := by
  unfold setValue cell find
  simp only
  induction t.entries with
  | nil => simp
  | cons e rest ih =>
    simp only [List.map_cons, List.find?_cons]
    by_cases he : e.row = r ∧ e.column = c
    · by_cases hp : r1 = r ∧ c1 = c
      · simp [hp, he]
      · have h2 : ¬ (e.row = r1 ∧ e.column = c1) := by
          intro h; exact hp ⟨h.1.symm.trans he.1, h.2.symm.trans he.2⟩
        have h3 : ¬ (r = r1 ∧ c = c1) := by
          intro h; exact hp ⟨h.1.symm, h.2.symm⟩
        simp only [he, and_self, if_true, hp, if_false, h2, h3, decide_False] at ih ⊢
        exact ih
    · simp only [he, if_false]
      by_cases h1 : e.row = r1 ∧ e.column = c1
      · have hp : ¬ (r1 = r ∧ c1 = c) := by
          intro h; exact he ⟨h1.1.trans h.1, h1.2.trans h.2⟩
        simp [h1, hp]
      · simp only [h1, decide_False]
        by_cases hp : r1 = r ∧ c1 = c
        · simp only [hp, and_self, if_true, he, decide_False] at ih ⊢
          exact ih
        · simp only [hp, if_false] at ih ⊢
          exact ih

end Tableau

namespace Tableau

theorem positions_setValue (t : Tableau) (r c : ℕ) (v : ℚ) :
    (t.setValue r c v).positions = t.positions := by
  unfold setValue positions
  simp only [List.map_map]
  apply List.map_congr_left
  intro e _
  by_cases h : e.row = r ∧ e.column = c <;> simp [h]

theorem oneCell_setValue (t : Tableau) (r c : ℕ) (v : ℚ) (h : t.OneCellPerPosition) :
    (t.setValue r c v).OneCellPerPosition := by
  unfold OneCellPerPosition; rw [positions_setValue]; exact h

theorem oneCell_eraseEntry (t : Tableau) (r c : ℕ) (h : t.OneCellPerPosition) :
    (t.eraseEntry r c).OneCellPerPosition := by
  unfold OneCellPerPosition positions eraseEntry
  exact (List.Nodup.sublist ((List.filter_sublist _).map _) h)

theorem oneCell_eraseRow (t : Tableau) (r : ℕ) (h : t.OneCellPerPosition) :
    (t.eraseRow r).OneCellPerPosition := by
  unfold OneCellPerPosition positions eraseRow
  exact (List.Nodup.sublist ((List.filter_sublist _).map _) h)

theorem oneCell_eraseColumn (t : Tableau) (c : ℕ) (h : t.OneCellPerPosition) :
    (t.eraseColumn c).OneCellPerPosition := by
  unfold OneCellPerPosition positions eraseColumn
  exact (List.Nodup.sublist ((List.filter_sublist _).map _) h)

theorem oneCell_addEntry (t : Tableau) (r c : ℕ) (v : ℚ) (h : t.OneCellPerPosition)
    (hfree : t.cell r c = none) : (t.addEntry r c v).OneCellPerPosition := by
  unfold addEntry
  by_cases hz : isZero v DEFAULT_EPSILON = true
  · simpa [hz] using h
  · simp only [hz, Bool.false_eq_true, if_false]
    unfold OneCellPerPosition positions
    simp only [List.map_cons, List.nodup_cons]
    exact ⟨(cell_eq_none_iff t r c).mp hfree, h⟩

theorem getRow_addEntry (t : Tableau) (r c : ℕ) (v : ℚ) (r1 : ℕ) (h : r1 ≠ r) :
    (t.addEntry r c v).getRow r1 = t.getRow r1 := by
  unfold addEntry getRow
  by_cases hz : isZero v DEFAULT_EPSILON = true
  · simp [hz]
  · simp only [hz, Bool.false_eq_true, if_false]
    rw [List.filter_cons_of_neg]
    simpa using fun h2 => h h2.symm

theorem getRow_eraseEntry (t : Tableau) (r c r1 : ℕ) (h : r1 ≠ r) :
    (t.eraseEntry r c).getRow r1 = t.getRow r1 := by
  unfold eraseEntry getRow
  simp only [List.filter_filter]
  apply List.filter_congr
  intro e _
  by_cases h1 : e.row = r1
  · have : ¬ (e.row = r ∧ e.column = c) := fun h2 => h (h1.symm.trans h2.1)
    simp [h1, this]
    exact Or.inl h
  · simp [h1]

theorem getRow_setValue (t : Tableau) (r c : ℕ) (v : ℚ) (r1 : ℕ) (h : r1 ≠ r) :
    (t.setValue r c v).getRow r1 = t.getRow r1 := by
  unfold setValue getRow
  simp only
  induction t.entries with
  | nil => rfl
  | cons e rest ih =>
    simp only [List.map_cons, List.filter_cons]
    by_cases he : e.row = r ∧ e.column = c
    · have h1 : ¬ (e.row = r1) := fun h2 => h (h2.symm.trans he.1)
      have h2 : ¬ (r = r1) := fun h3 => h h3.symm
      simp only [he, and_self, if_true, h1, h2, decide_False, Bool.false_eq_true, if_false]
      exact ih
    · simp only [he, if_false]
      rw [ih]

theorem cell_eq_of_getRow (t u : Tableau) (r : ℕ) (h : t.getRow r = u.getRow r) (c : ℕ) :
    t.cell r c = u.cell r c := by
  have key : ∀ w : Tableau, w.cell r c =
      ((w.getRow r).find? (fun e => e.column = c)).map (fun e => e.value) := by
    intro w
    unfold cell find getRow
    rw [List.find?_filter]
    congr 2
    funext e
    simp [Bool.decide_and]
  rw [key t, key u, h]

end Tableau

namespace Tableau

theorem keep_eq (v : ℚ) : keep v = if isZero v DEFAULT_EPSILON = true then none else some v := rfl

/-- One step of `addScaledRow`, seen cell by cell. -/
theorem addScaledRowStep_spec (tgt gi : ℕ) (gv scale : ℚ) (t : Tableau) (d : Finset ℕ)
    (e : Entry) (hd : e.column ∈ d ↔ (t.cell tgt e.column).isSome = true)
    (hone : t.OneCellPerPosition) :
    (addScaledRowStep tgt scale gi gv (t, d) e).1.OneCellPerPosition ∧
    (∀ r, r ≠ tgt → (addScaledRowStep tgt scale gi gv (t, d) e).1.getRow r = t.getRow r) ∧
    (∀ c, (addScaledRowStep tgt scale gi gv (t, d) e).1.cell tgt c =
      if c = e.column then
        keep (if e.column = gi then gv else (t.cell tgt e.column).getD 0 + e.value * scale)
      else t.cell tgt c) ∧
    (∀ c, c ≠ e.column → (c ∈ (addScaledRowStep tgt scale gi gv (t, d) e).2 ↔ c ∈ d)) := by
  unfold addScaledRowStep
  by_cases hmem : e.column ∈ d
  · have hsome : (t.cell tgt e.column).isSome = true := hd.mp hmem
    obtain ⟨x, hx⟩ := Option.isSome_iff_exists.mp hsome
    simp only [hmem, if_true]
    by_cases hz : isZero (if e.column ≠ gi then t.getCell tgt e.column + e.value * scale
        else gv) DEFAULT_EPSILON = true
    · simp only [hz, if_true]
      refine ⟨oneCell_eraseEntry _ _ _ (oneCell_setValue _ _ _ _ hone), ?_, ?_, ?_⟩
      · intro r hr
        rw [getRow_eraseEntry _ _ _ _ hr, getRow_setValue _ _ _ _ _ hr]
      · intro c
        rw [cell_eraseEntry, cell_setValue]
        by_cases hc : c = e.column
        · subst hc
          simp only [true_and, if_true, keep_eq]
          by_cases hg : e.column = gi
          · simp only [hg, ne_eq, not_true_eq_false, if_false, if_true] at hz ⊢
            simp [hz]
          · simp only [ne_eq, hg, not_false_eq_true, if_true, if_false, getCell_eq] at hz ⊢
            simp [hz]
        · simp [hc]
      · intro c hc
        simp [Finset.mem_erase, hc]
    · simp only [hz, Bool.false_eq_true, if_false]
      refine ⟨oneCell_setValue _ _ _ _ hone, ?_, ?_, ?_⟩
      · intro r hr
        rw [getRow_setValue _ _ _ _ _ hr]
      · intro c
        rw [cell_setValue]
        by_cases hc : c = e.column
        · subst hc
          simp only [true_and, if_true, keep_eq, hx, Option.map_some']
          by_cases hg : e.column = gi
          · simp only [hg, ne_eq, not_true_eq_false, if_false, if_true] at hz ⊢
            simp [hz]
          · simp only [ne_eq, hg, not_false_eq_true, if_true, if_false, getCell_eq, hx,
              Option.getD_some] at hz ⊢
            simp [hz]
        · simp [hc]
      · intro c _
        trivial
  · have hnone : t.cell tgt e.column = none := by
      have : ¬ (t.cell tgt e.column).isSome = true := fun h => hmem (hd.mpr h)
      simpa using this
    simp only [hmem, if_false]
    by_cases hg : e.column = gi
    · simp only [hg, ne_eq, not_true_eq_false, if_false]
      refine ⟨oneCell_addEntry _ _ _ _ hone (hg ▸ hnone), ?_, ?_, ?_⟩
      · intro r hr
        rw [getRow_addEntry _ _ _ _ _ hr]
      · intro c
        rw [cell_addEntry]
        by_cases hc : c = gi
        · subst hc
          simp only [true_and, if_true, keep_eq]
          by_cases hz : isZero gv DEFAULT_EPSILON = true
          · simp [hz, ← hg, hnone]
          · simp [hz]
        · simp only [hc, and_false, if_false, ite_self]
      · intro c _
        trivial
    · simp only [ne_eq, hg, not_false_eq_true, if_true, if_false]
      refine ⟨oneCell_addEntry _ _ _ _ hone hnone, ?_, ?_, ?_⟩
      · intro r hr
        rw [getRow_addEntry _ _ _ _ _ hr]
      · intro c
        rw [cell_addEntry]
        by_cases hc : c = e.column
        · subst hc
          simp only [true_and, if_true, keep_eq, hnone, Option.getD_none, zero_add]
        · simp only [hc, and_false, if_false, ite_self]
      · intro c _
        trivial

end Tableau

namespace Tableau

/-- The loop of `addScaledRow` over a list of source entries with distinct columns. -/
theorem addScaledRow_fold (tgt gi : ℕ) (gv scale : ℚ) :
    ∀ (L : List Entry) (t0 : Tableau) (d0 : Finset ℕ),
      (L.map (fun e => e.column)).Nodup →
      (∀ e ∈ L, (e.column ∈ d0 ↔ (t0.cell tgt e.column).isSome = true)) →
      t0.OneCellPerPosition →
      (L.foldl (addScaledRowStep tgt scale gi gv) (t0, d0)).1.OneCellPerPosition ∧
      (∀ r, r ≠ tgt →
        (L.foldl (addScaledRowStep tgt scale gi gv) (t0, d0)).1.getRow r = t0.getRow r) ∧
      (∀ c, (L.foldl (addScaledRowStep tgt scale gi gv) (t0, d0)).1.cell tgt c =
        match L.find? (fun e => e.column = c) with
        | some e => keep (if c = gi then gv else (t0.cell tgt c).getD 0 + e.value * scale)
        | none => t0.cell tgt c) := by
  intro L
  induction L with
  | nil =>
    intro t0 d0 _ _ hone
    exact ⟨hone, fun _ _ => rfl, fun _ => rfl⟩
  | cons e rest ih =>
    intro t0 d0 hnd hd hone
    simp only [List.map_cons, List.nodup_cons] at hnd
    obtain ⟨hstep1, hstep2, hstep3, hstep4⟩ :=
      addScaledRowStep_spec tgt gi gv scale t0 d0 e (hd e (List.mem_cons_self _ _)) hone
    have hne : ∀ e1 ∈ rest, e1.column ≠ e.column := by
      intro e1 he1 heq
      exact hnd.1 (List.mem_map.mpr ⟨e1, he1, heq⟩)
    have hd1 : ∀ e1 ∈ rest,
        (e1.column ∈ (addScaledRowStep tgt scale gi gv (t0, d0) e).2 ↔
          ((addScaledRowStep tgt scale gi gv (t0, d0) e).1.cell tgt e1.column).isSome = true) := by
      intro e1 he1
      rw [hstep4 _ (hne e1 he1), hstep3, if_neg (hne e1 he1)]
      exact hd e1 (List.mem_cons_of_mem _ he1)
    obtain ⟨ih1, ih2, ih3⟩ := ih (addScaledRowStep tgt scale gi gv (t0, d0) e).1
      (addScaledRowStep tgt scale gi gv (t0, d0) e).2 hnd.2 hd1 hstep1
    simp only [List.foldl_cons]
    refine ⟨ih1, ?_, ?_⟩
    · intro r hr
      rw [ih2 r hr, hstep2 r hr]
    · intro c
      rw [ih3 c]
      simp only [List.find?_cons]
      by_cases hc : e.column = c
      · subst hc
        have hnone : rest.find? (fun e1 => decide (e1.column = e.column)) = none := by
          rw [List.find?_eq_none]
          intro e1 he1
          simpa using hne e1 he1
        rw [hnone]
        simp only [decide_True]
        rw [hstep3, if_pos rfl]
      · have hdec : decide (e.column = c) = false := by simpa using hc
        simp only [hdec]
        have hc2 : ¬ c = e.column := fun h => hc h.symm
        rw [hstep3, if_neg hc2]
end Tableau

namespace Tableau

theorem cell_eq_find_getRow (t : Tableau) (r c : ℕ) :
    t.cell r c = ((t.getRow r).find? (fun e => e.column = c)).map (fun e => e.value) := by
  unfold cell find getRow
  rw [List.find?_filter]
  congr 2
  funext e
  simp [Bool.decide_and]

theorem nodup_columns_getRow (t : Tableau) (h : t.OneCellPerPosition) (r : ℕ) :
    ((t.getRow r).map (fun e => e.column)).Nodup := by
  unfold OneCellPerPosition positions at h
  unfold getRow
  revert h
  generalize t.entries = l
  intro h
  induction l with
  | nil => simp
  | cons e rest ih =>
    simp only [List.map_cons, List.nodup_cons] at h
    simp only [List.filter_cons]
    by_cases he : e.row = r
    · simp only [he, decide_True, if_true, List.map_cons, List.nodup_cons]
      refine ⟨?_, ih h.2⟩
      intro hmem
      obtain ⟨e1, he1, hcol⟩ := List.mem_map.mp hmem
      have he1' := List.mem_filter.mp he1
      apply h.1
      refine List.mem_map.mpr ⟨e1, he1'.1, ?_⟩
      have : e1.row = r := by simpa using he1'.2
      rw [this, hcol, he]
    · simp only [he, decide_False, Bool.false_eq_true, if_false]
      exact ih h.2

theorem mem_dense_iff (t : Tableau) (tgt c : ℕ) :
    c ∈ ((t.getRow tgt).map (fun e => e.column)).toFinset ↔ (t.cell tgt c).isSome = true := by
  rw [cell_isSome_iff]
  unfold getRow positions
  simp only [List.mem_toFinset, List.mem_map, List.mem_filter, decide_eq_true_eq, Prod.mk.injEq]
  constructor
  · rintro ⟨e, ⟨he, hr⟩, hc⟩; exact ⟨e, he, hr, hc⟩
  · rintro ⟨e, he, hr, hc⟩; exact ⟨e, ⟨he, hr⟩, hc⟩

/-- `addScaledRow` on a sparse matrix, cell by cell: the tableau stays a sparse matrix, the
other rows keep their lists, and in the target row every column for which the source row
holds a value `w` receives `target + w * scale` (the guaranteed value in the guarantee
column), dropped when within `DEFAULT_EPSILON` of zero. -/
theorem addScaledRow_spec (t : Tableau) (src tgt gi : ℕ) (scale gv : ℚ)
    (hone : t.OneCellPerPosition) :
    (t.addScaledRow src scale tgt gi gv).OneCellPerPosition ∧
    (∀ r, r ≠ tgt → (t.addScaledRow src scale tgt gi gv).getRow r = t.getRow r) ∧
    (∀ c, (t.addScaledRow src scale tgt gi gv).cell tgt c =
      match t.cell src c with
      | some w => keep (if c = gi then gv else (t.cell tgt c).getD 0 + w * scale)
      | none => t.cell tgt c) := by
  unfold addScaledRow
  by_cases hact : t.activeRow src = true
  · simp only [hact, Bool.not_true, Bool.false_eq_true, if_false]
    obtain ⟨h1, h2, h3⟩ := addScaledRow_fold tgt gi gv scale (t.getRow src) t
      ((t.getRow tgt).map (fun e => e.column)).toFinset
      (nodup_columns_getRow t hone src)
      (fun e _ => mem_dense_iff t tgt e.column) hone
    refine ⟨h1, h2, ?_⟩
    intro c
    rw [h3 c, cell_eq_find_getRow t src c]
    cases (t.getRow src).find? (fun e => decide (e.column = c)) <;> rfl
  · have hemp : t.getRow src = [] := by
      unfold activeRow at hact
      simpa using hact
    simp only [hact, Bool.not_false, if_true]
    refine ⟨hone, fun _ _ => trivial, ?_⟩
    intro c
    rw [cell_eq_find_getRow t src c, hemp]
    rfl

end Tableau

namespace Tableau

theorem getRow_eraseRow (t : Tableau) (r r1 : ℕ) :
    (t.eraseRow r).getRow r1 = if r1 = r then [] else t.getRow r1 := by
  unfold eraseRow getRow
  simp only [List.filter_filter]
  by_cases h : r1 = r
  · simp only [h, if_true, List.filter_eq_nil_iff]
    intro e _
    simp
  · simp only [h, if_false]
    apply List.filter_congr
    intro e _
    by_cases h1 : e.row = r1
    · have : ¬ e.row = r := fun h2 => h (h1.symm.trans h2)
      simp [h1, this]
      exact h
    · simp [h1]

theorem cell_eq_find_getColumn (t : Tableau) (r c : ℕ) :
    t.cell r c = ((t.getColumn c).find? (fun e => e.row = r)).map (fun e => e.value) := by
  unfold cell find getColumn
  rw [List.find?_filter]
  congr 2
  funext e
  simp [Bool.decide_and, Bool.and_comm]

theorem nodup_rows_getColumn (t : Tableau) (h : t.OneCellPerPosition) (c : ℕ) :
    ((t.getColumn c).map (fun e => e.row)).Nodup := by
  unfold OneCellPerPosition positions at h
  unfold getColumn
  revert h
  generalize t.entries = l
  intro h
  induction l with
  | nil => simp
  | cons e rest ih =>
    simp only [List.map_cons, List.nodup_cons] at h
    simp only [List.filter_cons]
    by_cases he : e.column = c
    · simp only [he, decide_True, if_true, List.map_cons, List.nodup_cons]
      refine ⟨?_, ih h.2⟩
      intro hmem
      obtain ⟨e1, he1, hrow⟩ := List.mem_map.mp hmem
      have he1' := List.mem_filter.mp he1
      apply h.1
      refine List.mem_map.mpr ⟨e1, he1'.1, ?_⟩
      have : e1.column = c := by simpa using he1'.2
      rw [this, hrow, he]
    · simp only [he, decide_False, Bool.false_eq_true, if_false]
      exact ih h.2

/-- The loop of `pivot` over the column of `nonBasic`: the list of column entries has
distinct rows. -/
theorem pivot_fold (nb : ℕ) :
    ∀ (C : List Entry) (t3 : Tableau),
      (C.map (fun e => e.row)).Nodup → t3.OneCellPerPosition →
      (C.foldl (fun t4 current =>
          if current.row ≠ nb then t4.addScaledRow nb current.value current.row nb 0
          else t4) t3).OneCellPerPosition ∧
      (∀ r, (∀ e ∈ C, e.row = r → r = nb) →
        (C.foldl (fun t4 current =>
          if current.row ≠ nb then t4.addScaledRow nb current.value current.row nb 0
          else t4) t3).getRow r = t3.getRow r) ∧
      (∀ r, r ≠ nb → ∀ c,
        (C.foldl (fun t4 current =>
          if current.row ≠ nb then t4.addScaledRow nb current.value current.row nb 0
          else t4) t3).cell r c =
        match C.find? (fun e => e.row = r) with
        | some e =>
          (match t3.cell nb c with
           | some w => keep (if c = nb then 0 else (t3.cell r c).getD 0 + w * e.value)
           | none => t3.cell r c)
        | none => t3.cell r c) := by
  intro C
  induction C with
  | nil =>
    intro t3 _ hone
    exact ⟨hone, fun _ _ => rfl, fun _ _ _ => rfl⟩
  | cons e rest ih =>
    intro t3 hnd hone
    simp only [List.map_cons, List.nodup_cons] at hnd
    have hne : ∀ e1 ∈ rest, e1.row ≠ e.row := by
      intro e1 he1 heq
      exact hnd.1 (List.mem_map.mpr ⟨e1, he1, heq⟩)
    simp only [List.foldl_cons]
    by_cases hrow : e.row = nb
    · simp only [hrow, ne_eq, not_true_eq_false, if_false]
      obtain ⟨ih1, ih2, ih3⟩ := ih t3 hnd.2 hone
      refine ⟨ih1, ?_, ?_⟩
      · intro r hr
        exact ih2 r (fun e1 he1 h => hr e1 (List.mem_cons_of_mem _ he1) h)
      · intro r hr c
        rw [ih3 r hr c]
        simp only [List.find?_cons]
        have : decide (e.row = r) = false := by
          simp only [decide_eq_false_iff_not]; intro h; exact hr (h.symm.trans hrow)
        simp only [this]
    · simp only [ne_eq, hrow, not_false_eq_true, if_true]
      obtain ⟨s1, s2, s3⟩ := addScaledRow_spec t3 nb e.row nb e.value 0 hone
      obtain ⟨ih1, ih2, ih3⟩ := ih (t3.addScaledRow nb e.value e.row nb 0) hnd.2 s1
      have hnbrow : ∀ c, (t3.addScaledRow nb e.value e.row nb 0).cell nb c = t3.cell nb c :=
        fun c => cell_eq_of_getRow _ _ nb (s2 nb (fun h => hrow h.symm)) c
      refine ⟨ih1, ?_, ?_⟩
      · intro r hr
        have hre : r ≠ e.row := by
          intro h
          exact hrow (h ▸ hr e (List.mem_cons_self _ _) h.symm)
        rw [ih2 r (fun e1 he1 h => hr e1 (List.mem_cons_of_mem _ he1) h), s2 r hre]
      · intro r hr c
        rw [ih3 r hr c]
        simp only [List.find?_cons]
        by_cases hre : e.row = r
        · subst hre
          have hnone : rest.find? (fun e1 => decide (e1.row = e.row)) = none := by
            rw [List.find?_eq_none]
            intro e1 he1
            simpa using hne e1 he1
          rw [hnone]
          simp only [decide_True]
          rw [s3 c]
        · have hdec : decide (e.row = r) = false := by simpa using hre
          simp only [hdec]
          have hrr : r ≠ e.row := fun h => hre h.symm
          rw [hnbrow c, cell_eq_of_getRow _ _ r (s2 r hrr) c]

end Tableau

namespace Tableau

theorem getRow_eq_nil_iff (t : Tableau) (r : ℕ) :
    t.getRow r = [] ↔ ∀ c, t.cell r c = none := by
  constructor
  · intro h c
    rw [cell_eq_find_getRow, h]; rfl
  · intro h
    unfold getRow
    rw [List.filter_eq_nil_iff]
    intro e he hrow
    have hrow2 : e.row = r := by simpa using hrow
    have := (cell_eq_none_iff t r e.column).mp (h e.column)
    apply this
    unfold positions
    exact List.mem_map.mpr ⟨e, he, by rw [hrow2]⟩

end Tableau

/-- The tableau after a pivot, cell by cell, when the row of `nonBasic` is empty before. -/
theorem pivotTableau_spec (t : Tableau) (nb b : ℕ) (hone : t.OneCellPerPosition)
    (hrow : t.getRow nb = []) (hne : b ≠ nb) :
    (Reluplex.pivotTableau t nb b).OneCellPerPosition ∧
    (Reluplex.pivotTableau t nb b).getRow b = [] ∧
    (∀ c, (Reluplex.pivotTableau t nb b).cell nb c =
      match t.cell b c with
      | some w => Tableau.keep (if c = nb then -1 else w * ((-1) / t.getCell b nb))
      | none => none) ∧
    (∀ r, r ≠ nb → r ≠ b → t.cell r nb = none →
      (Reluplex.pivotTableau t nb b).getRow r = t.getRow r) ∧
    (∀ r, r ≠ nb → r ≠ b → ∀ c, (Reluplex.pivotTableau t nb b).cell r c =
      match t.cell r nb with
      | some q =>
        (match (Reluplex.pivotTableau t nb b).cell nb c with
         | some w => Tableau.keep (if c = nb then 0 else (t.cell r c).getD 0 + w * q)
         | none => t.cell r c)
      | none => t.cell r c) := by
  obtain ⟨a1, a2, a3⟩ :=
    Tableau.addScaledRow_spec t b nb nb ((-1) / t.getCell b nb) (-1) hone
  have e1 := Tableau.oneCell_eraseRow _ b a1
  obtain ⟨f1, f2, f3⟩ := Tableau.pivot_fold nb
    (((t.addScaledRow b ((-1) / t.getCell b nb) nb nb (-1)).eraseRow b).getColumn nb)
    ((t.addScaledRow b ((-1) / t.getCell b nb) nb nb (-1)).eraseRow b)
    (Tableau.nodup_rows_getColumn _ e1 nb) e1
  -- cells of the intermediate tableau
  have hmid : ∀ r c, ((t.addScaledRow b ((-1) / t.getCell b nb) nb nb (-1)).eraseRow b).cell r c =
      if r = b then none
      else if r = nb then
        (match t.cell b c with
         | some w => Tableau.keep (if c = nb then -1 else w * ((-1) / t.getCell b nb))
         | none => none)
      else t.cell r c := by
    intro r c
    rw [Tableau.cell_eraseRow]
    by_cases hrb : r = b
    · simp [hrb]
    · simp only [hrb, if_false]
      by_cases hrn : r = nb
      · subst hrn
        simp only [if_true]
        rw [a3 c]
        have : t.cell r c = none := (Tableau.getRow_eq_nil_iff t r).mp hrow c
        rw [this]
        cases t.cell b c <;> simp
      · simp only [hrn, if_false]
        exact Tableau.cell_eq_of_getRow _ _ r (a2 r hrn) c
  have hmidrow : ∀ r, r ≠ nb → r ≠ b →
      ((t.addScaledRow b ((-1) / t.getCell b nb) nb nb (-1)).eraseRow b).getRow r = t.getRow r := by
    intro r hrn hrb
    rw [Tableau.getRow_eraseRow, if_neg hrb, a2 r hrn]
  have hfinalnb : ∀ c, (Reluplex.pivotTableau t nb b).cell nb c =
      ((t.addScaledRow b ((-1) / t.getCell b nb) nb nb (-1)).eraseRow b).cell nb c := by
    intro c
    exact Tableau.cell_eq_of_getRow _ _ nb (f2 nb (fun _ _ _ => rfl)) c
  refine ⟨f1, ?_, ?_, ?_, ?_⟩
  · have : (Reluplex.pivotTableau t nb b).getRow b =
        ((t.addScaledRow b ((-1) / t.getCell b nb) nb nb (-1)).eraseRow b).getRow b := by
      apply f2 b
      intro e he hrb
      have he2 := (List.mem_filter.mp he).1
      have : e ∈ ((t.addScaledRow b ((-1) / t.getCell b nb) nb nb (-1)).eraseRow b).getRow b :=
        List.mem_filter.mpr ⟨he2, by simpa using hrb⟩
      rw [Tableau.getRow_eraseRow, if_pos rfl] at this
      cases this
    rw [this, Tableau.getRow_eraseRow, if_pos rfl]
  · intro c
    rw [hfinalnb c, hmid nb c, if_neg (fun h => hne h.symm), if_pos rfl]
  · intro r hrn hrb hnone
    have : (Reluplex.pivotTableau t nb b).getRow r =
        ((t.addScaledRow b ((-1) / t.getCell b nb) nb nb (-1)).eraseRow b).getRow r := by
      apply f2 r
      intro e he hre
      exfalso
      have hc : ((t.addScaledRow b ((-1) / t.getCell b nb) nb nb (-1)).eraseRow b).cell r nb
          = none := by
        rw [hmid r nb, if_neg hrb, if_neg hrn]; exact hnone
      have hpos := (Tableau.cell_eq_none_iff _ r nb).mp hc
      apply hpos
      have he2 := List.mem_filter.mp he
      unfold Tableau.positions
      refine List.mem_map.mpr ⟨e, he2.1, ?_⟩
      have hcol : e.column = nb := by simpa using he2.2
      rw [hre, hcol]
    rw [this, hmidrow r hrn hrb]
  · intro r hrn hrb c
    have h := f3 r hrn c
    have hcol : ((t.addScaledRow b ((-1) / t.getCell b nb) nb nb (-1)).eraseRow b).cell r nb =
        t.cell r nb := by
      rw [hmid r nb, if_neg hrb, if_neg hrn]
    have hrc : ((t.addScaledRow b ((-1) / t.getCell b nb) nb nb (-1)).eraseRow b).cell r c =
        t.cell r c := by
      rw [hmid r c, if_neg hrb, if_neg hrn]
    have hfind := Tableau.cell_eq_find_getColumn
      ((t.addScaledRow b ((-1) / t.getCell b nb) nb nb (-1)).eraseRow b) r nb
    rw [hcol] at hfind
    rw [hfinalnb c]
    rw [hrc] at h
    cases hf : List.find? (fun e => decide (e.row = r))
        (((t.addScaledRow b ((-1) / t.getCell b nb) nb nb (-1)).eraseRow b).getColumn nb) with
    | none =>
      rw [hf] at h hfind
      simp only [Option.map_none'] at hfind
      rw [hfind]
      exact h
    | some e =>
      rw [hf] at h hfind
      simp only [Option.map_some'] at hfind
      rw [hfind]
      exact h

namespace Tableau

theorem cells_of_getColumn_eq (t : Tableau) (v : ℕ) (x : ℚ)
    (h : t.getColumn v = [{ row := v, column := v, value := x }]) (r : ℕ) :
    t.cell r v = if r = v then some x else none := by
  rw [cell_eq_find_getColumn, h]
  by_cases hr : r = v
  · simp [hr]
  · have : ¬ v = r := fun h2 => hr h2.symm
    simp [hr, this]

theorem getColumn_eq_of_cells (t : Tableau) (hone : t.OneCellPerPosition) (v : ℕ) (x : ℚ)
    (h : ∀ r, t.cell r v = if r = v then some x else none) :
    t.getColumn v = [{ row := v, column := v, value := x }] := by
  have hnd := nodup_rows_getColumn t hone v
  have hcol : ∀ e ∈ t.getColumn v, e.column = v := by
    intro e he
    simpa [getColumn] using (List.mem_filter.mp he).2
  have hrow : ∀ e ∈ t.getColumn v, e.row = v := by
    intro e he
    by_contra hne
    have h1 := h e.row
    rw [if_neg hne, cell_eq_none_iff] at h1
    apply h1
    unfold positions
    exact List.mem_map.mpr ⟨e, (List.mem_filter.mp he).1, by rw [hcol e he]⟩
  have hv := h v
  rw [if_pos rfl, cell_eq_find_getColumn] at hv
  cases hC : t.getColumn v with
  | nil => rw [hC] at hv; simp at hv
  | cons e rest =>
    rw [hC] at hnd hv hrow hcol
    have her : e.row = v := hrow e (List.mem_cons_self _ _)
    have hec : e.column = v := hcol e (List.mem_cons_self _ _)
    have hrest : rest = [] := by
      cases rest with
      | nil => rfl
      | cons e2 rest2 =>
        exfalso
        simp only [List.map_cons, List.nodup_cons, List.mem_cons] at hnd
        apply hnd.1
        left
        rw [her, hrow e2 (List.mem_cons_of_mem _ (List.mem_cons_self _ _))]
    subst hrest
    simp only [List.find?_cons, her, decide_True, Option.map_some', Option.some.injEq] at hv
    congr 1
    cases e
    simp only at her hec hv
    simp [her, hec, hv]

theorem rows_iff (t : Tableau) (S : Finset ℕ) :
    (∀ e ∈ t.entries, e.row ∈ S) ↔ ∀ r, r ∉ S → t.getRow r = [] := by
  constructor
  · intro h r hr
    unfold getRow
    rw [List.filter_eq_nil_iff]
    intro e he hrow
    have : e.row = r := by simpa using hrow
    exact hr (this ▸ h e he)
  · intro h e he
    by_contra hne
    have := h e.row hne
    have hmem : e ∈ t.getRow e.row := List.mem_filter.mpr ⟨he, by simp⟩
    rw [this] at hmem
    cases hmem

theorem cell_isSome_of_getCell_ne_zero (t : Tableau) (r c : ℕ) (h : t.getCell r c ≠ 0) :
    ∃ p, t.cell r c = some p ∧ p = t.getCell r c := by
  rw [getCell_eq] at h ⊢
  cases hc : t.cell r c with
  | none => rw [hc] at h; simp at h
  | some p => exact ⟨p, rfl, rfl⟩

theorem keep_neg_one : keep (-1) = some (-1) := by
  unfold keep; rw [isZero_neg_one]; rfl

theorem keep_zero : keep 0 = none := by
  unfold keep; rw [isZero_zero]; rfl

end Tableau

theorem pivot_ok (s : Reluplex) (nb b : ℕ) (hb : b ∈ s.basicVariables)
    (hnb : nb ∉ s.basicVariables) :
    s.pivot nb b = .ok ()
      { s with
        basicVariables := insert nb (s.basicVariables.erase b)
        tableau := Reluplex.pivotTableau s.tableau nb b } := by
  simp [Reluplex.pivot, hb, hnb]

/-- Tableau form survives `pivotTableau`, for the basic set with `b` replaced by `nb`. -/
theorem pivotTableau_form (t : Tableau) (S : Finset ℕ) (nb b : ℕ)
    (hone : t.OneCellPerPosition)
    (hcols : ∀ v ∈ S, t.getColumn v = [{ row := v, column := v, value := -1 }])
    (hrows : ∀ e ∈ t.entries, e.row ∈ S)
    (hb : b ∈ S) (hnb : nb ∉ S) (hp : t.getCell b nb ≠ 0) :
    (Reluplex.pivotTableau t nb b).OneCellPerPosition ∧
    (∀ v ∈ insert nb (S.erase b),
      (Reluplex.pivotTableau t nb b).getColumn v = [{ row := v, column := v, value := -1 }]) ∧
    (∀ e ∈ (Reluplex.pivotTableau t nb b).entries, e.row ∈ insert nb (S.erase b)) := by
  have hne : b ≠ nb := fun h => hnb (h ▸ hb)
  have hrowsE := (Tableau.rows_iff t S).mp hrows
  obtain ⟨p1, p2, p3, p4, p5⟩ := pivotTableau_spec t nb b hone (hrowsE nb hnb) hne
  obtain ⟨p, hpc, _⟩ := Tableau.cell_isSome_of_getCell_ne_zero t b nb hp
  refine ⟨p1, ?_, ?_⟩
  · -- columns
    have hnbcol : ∀ r, (Reluplex.pivotTableau t nb b).cell r nb =
        if r = nb then some (-1) else none := by
      intro r
      by_cases hrn : r = nb
      · subst hrn
        rw [p3 r, hpc]
        simp [Tableau.keep_neg_one]
      · rw [if_neg hrn]
        by_cases hrb : r = b
        · subst hrb
          exact (Tableau.getRow_eq_nil_iff _ r).mp p2 nb
        · rw [p5 r hrn hrb nb]
          cases hq : t.cell r nb with
          | none => rfl
          | some q =>
            simp only
            rw [p3 nb, hpc]
            simp [Tableau.keep_neg_one, Tableau.keep_zero]
    intro v hv
    simp only [Finset.mem_insert, Finset.mem_erase] at hv
    apply Tableau.getColumn_eq_of_cells _ p1
    rcases hv with hv | ⟨hvb, hvS⟩
    · subst hv; exact hnbcol
    · have hvn : v ≠ nb := fun h => hnb (h ▸ hvS)
      have hold := Tableau.cells_of_getColumn_eq t v (-1) (hcols v hvS)
      have hnbv : (Reluplex.pivotTableau t nb b).cell nb v = none := by
        rw [p3 v, hold b, if_neg (fun h => hvb h.symm)]
      intro r
      by_cases hrn : r = nb
      · subst hrn
        rw [hnbv, if_neg (fun h => hvn h.symm)]
      · by_cases hrb : r = b
        · subst hrb
          rw [(Tableau.getRow_eq_nil_iff _ r).mp p2 v, if_neg (fun h => hvb h.symm)]
        · rw [p5 r hrn hrb v, hnbv]
          cases hq : t.cell r nb <;> exact hold r
  · -- rows
    rw [Tableau.rows_iff]
    intro r hr
    simp only [Finset.mem_insert, Finset.mem_erase, not_or, not_and] at hr
    by_cases hrb : r = b
    · subst hrb; exact p2
    · have hrS : r ∉ S := fun h => hr.2 hrb h
      have hemp := hrowsE r hrS
      rw [p4 r hr.1 hrb ((Tableau.getRow_eq_nil_iff _ r).mp hemp nb)]
      exact hemp

/-- C5: tableau form is preserved by `pivot`. From a state in tableau form (the tableau is a
sparse matrix, the column of every basic variable holds exactly its self-cell of value `-1`,
only basic variables have a non-empty row), for a basic `b` and a non-basic `nb` with
`T[b][nb] != 0`, `pivot( nb, b )` returns normally, the basic set becomes
`(S \ {b}) U {nb}`, and the new state is in tableau form. -/
theorem C5_pivot_preserves_tableau_form (s : Reluplex) (nb b : ℕ)
    (hform : s.TableauForm) (hb : b ∈ s.basicVariables) (hnb : nb ∉ s.basicVariables)
    (hp : s.tableau.getCell b nb ≠ 0) :
    ∃ s1, s.pivot nb b = .ok () s1 ∧
      s1.basicVariables = insert nb (s.basicVariables.erase b) ∧ s1.TableauForm :=
  ⟨_, pivot_ok s nb b hb hnb, rfl,
    pivotTableau_form s.tableau s.basicVariables nb b hform.1 hform.2.1 hform.2.2 hb hnb hp⟩

set_option maxRecDepth 100000 in
theorem smallState_tableauForm : (smallState false).TableauForm := by
  unfold Reluplex.TableauForm Tableau.OneCellPerPosition
  decide!

set_option maxRecDepth 100000 in
/-- C5, witness: the pivot of `x0` into the row of `x2` in `smallState`. -/
theorem C5_pivot_preserves_tableau_form_witness :
    (smallState false).TableauForm ∧ 2 ∈ (smallState false).basicVariables ∧
    0 ∉ (smallState false).basicVariables ∧ (smallState false).tableau.getCell 2 0 ≠ 0 ∧
    ∃ s1, (smallState false).pivot 0 2 = .ok () s1 ∧
      s1.basicVariables = insert 0 ((smallState false).basicVariables.erase 2) ∧
      s1.TableauForm :=
  ⟨smallState_tableauForm, by decide!, by decide!, by decide!,
    C5_pivot_preserves_tableau_form (smallState false) 0 2 smallState_tableauForm
      (by decide!) (by decide!) (by decide!)⟩

theorem Tableau.keep_getD (v : ℚ) :
    (Tableau.keep v).getD 0 = Reluplex.turnAlmostZeroToZero v := by
  unfold Tableau.keep Reluplex.turnAlmostZeroToZero
  by_cases h : isZero v DEFAULT_EPSILON = true <;> simp [h]

theorem Tableau.not_isZero_of_cell (t : Tableau) (hz : t.ZeroFree) (r c : ℕ) (v : ℚ)
    (h : t.cell r c = some v) : isZero v DEFAULT_EPSILON = false := by
  unfold Tableau.cell Tableau.find at h
  cases hf : t.entries.find? (fun e => decide (e.row = r ∧ e.column = c)) with
  | none => rw [hf] at h; simp at h
  | some e =>
    rw [hf] at h
    simp only [Option.map_some', Option.some.injEq] at h
    rw [← h]
    exact hz e (List.mem_of_find?_eq_some hf)

theorem Tableau.turnAlmostZeroToZero_getCell (t : Tableau) (hz : t.ZeroFree) (r c : ℕ) :
    Reluplex.turnAlmostZeroToZero (t.getCell r c) = t.getCell r c := by
  rw [Tableau.getCell_eq]
  cases h : t.cell r c with
  | none => simp [Reluplex.turnAlmostZeroToZero, isZero_zero]
  | some v =>
    simp [Reluplex.turnAlmostZeroToZero, Tableau.not_isZero_of_cell t hz r c v h]

theorem Tableau.cell_eq_none_of_getCell_eq_zero (t : Tableau) (hz : t.ZeroFree) (r c : ℕ)
    (h : t.getCell r c = 0) : t.cell r c = none := by
  rw [Tableau.getCell_eq] at h
  cases hc : t.cell r c with
  | none => rfl
  | some v =>
    rw [hc] at h
    simp only [Option.getD_some] at h
    have := Tableau.not_isZero_of_cell t hz r c v hc
    rw [h, isZero_zero] at this
    cases this

/-- C4: the effect of `pivot`. From a state in tableau form whose tableau stores no value
within `DEFAULT_EPSILON` of zero, for a basic `b` and a non-basic `nb` with
`p = T[b][nb] != 0`, `pivot( nb, b )` returns normally and
(i) the basic set becomes `(S \ {b}) U {nb}`;
(ii) row `b` is empty, the cell `(nb, nb)` is exactly `-1`, and every other cell of row `nb`
is the cell of the old row `b` times `-1/p`;
(iii) every other row `r` with `q = T[r][nb] != 0` loses its cell in column `nb` and has, in
every other column `c`, the old `T[r][c]` plus `q` times the new `T[nb][c]`, and every row
with `T[r][nb] = 0` keeps its list of cells; computed values within `DEFAULT_EPSILON` of
zero are dropped (`turnAlmostZeroToZero`);
(iv) the assignment and the bounds are unchanged. -/
theorem C4_pivot_effect (s : Reluplex) (nb b : ℕ)
    (hform : s.TableauForm) (hzero : s.tableau.ZeroFree)
    (hb : b ∈ s.basicVariables) (hnb : nb ∉ s.basicVariables)
    (hp : s.tableau.getCell b nb ≠ 0) :
    ∃ s1, s.pivot nb b = .ok () s1 ∧
      s1.basicVariables = insert nb (s.basicVariables.erase b) ∧
      s1.tableau.getRow b = [] ∧
      s1.tableau.getCell nb nb = -1 ∧
      (∀ c, c ≠ nb → s1.tableau.getCell nb c =
        Reluplex.turnAlmostZeroToZero
          (s.tableau.getCell b c * ((-1) / s.tableau.getCell b nb))) ∧
      (∀ r, r ≠ b → r ≠ nb → s.tableau.getCell r nb ≠ 0 →
        s1.tableau.cell r nb = none ∧
        ∀ c, c ≠ nb → s1.tableau.getCell r c =
          Reluplex.turnAlmostZeroToZero
            (s.tableau.getCell r c + s.tableau.getCell r nb * s1.tableau.getCell nb c)) ∧
      (∀ r, r ≠ b → r ≠ nb → s.tableau.getCell r nb = 0 →
        s1.tableau.getRow r = s.tableau.getRow r) ∧
      s1.assignment = s.assignment ∧ s1.upperBounds = s.upperBounds ∧
      s1.lowerBounds = s.lowerBounds := by
  obtain ⟨hone, hcols, hrows⟩ := hform
  have hne : b ≠ nb := fun h => hnb (h ▸ hb)
  have hrowsE := (Tableau.rows_iff s.tableau s.basicVariables).mp hrows
  obtain ⟨p1, p2, p3, p4, p5⟩ := pivotTableau_spec s.tableau nb b hone (hrowsE nb hnb) hne
  obtain ⟨p, hpc, _⟩ := Tableau.cell_isSome_of_getCell_ne_zero s.tableau b nb hp
  have hnbnb : (Reluplex.pivotTableau s.tableau nb b).cell nb nb = some (-1) := by
    rw [p3 nb, hpc]; simp [Tableau.keep_neg_one]
  have hnbc : ∀ c, c ≠ nb → (Reluplex.pivotTableau s.tableau nb b).getCell nb c =
      Reluplex.turnAlmostZeroToZero
        (s.tableau.getCell b c * ((-1) / s.tableau.getCell b nb)) := by
    intro c hc
    rw [Tableau.getCell_eq, p3 c, Tableau.getCell_eq s.tableau b c]
    cases hbc : s.tableau.cell b c with
    | none => simp [Reluplex.turnAlmostZeroToZero, isZero_zero]
    | some w => simp only [hc, if_false, Option.getD_some, Tableau.keep_getD]
  refine ⟨_, pivot_ok s nb b hb hnb, rfl, p2, ?_, hnbc, ?_, ?_, rfl, rfl, rfl⟩
  · show (Reluplex.pivotTableau s.tableau nb b).getCell nb nb = -1
    rw [Tableau.getCell_eq, hnbnb]; rfl
  · intro r hrb hrn hq
    obtain ⟨q, hqc, hqv⟩ := Tableau.cell_isSome_of_getCell_ne_zero s.tableau r nb hq
    constructor
    · show (Reluplex.pivotTableau s.tableau nb b).cell r nb = none
      rw [p5 r hrn hrb nb, hqc]
      simp only [hnbnb, if_true, Tableau.keep_zero]
    · intro c hc
      show (Reluplex.pivotTableau s.tableau nb b).getCell r c =
        Reluplex.turnAlmostZeroToZero (s.tableau.getCell r c + s.tableau.getCell r nb *
          (Reluplex.pivotTableau s.tableau nb b).getCell nb c)
      rw [Tableau.getCell_eq _ r c, p5 r hrn hrb c, hqc, ← hqv,
        Tableau.getCell_eq _ nb c]
      cases hw : (Reluplex.pivotTableau s.tableau nb b).cell nb c with
      | none =>
        simp only [Option.getD_none, mul_zero, add_zero]
        rw [← Tableau.getCell_eq, Tableau.turnAlmostZeroToZero_getCell _ hzero]
      | some w =>
        simp only [hc, if_false, Option.getD_some, Tableau.keep_getD, ← Tableau.getCell_eq]
        rw [mul_comm w q]
  · intro r hrb hrn hq
    exact p4 r hrn hrb (Tableau.cell_eq_none_of_getCell_eq_zero _ hzero r nb hq)

set_option maxRecDepth 100000 in
theorem smallState_zeroFree : (smallState false).tableau.ZeroFree := by
  unfold Tableau.ZeroFree
  decide!

set_option maxRecDepth 100000 in
/-- C4, witness: the pivot of `x0` into the row of `x2` in `smallState`. -/
theorem C4_pivot_effect_witness :
    (smallState false).TableauForm ∧ (smallState false).tableau.ZeroFree ∧
    2 ∈ (smallState false).basicVariables ∧ 0 ∉ (smallState false).basicVariables ∧
    (smallState false).tableau.getCell 2 0 ≠ 0 ∧
    ∃ s1, (smallState false).pivot 0 2 = .ok () s1 ∧
      s1.basicVariables = insert 0 ((smallState false).basicVariables.erase 2) ∧
      s1.tableau.getRow 2 = [] ∧
      s1.tableau.getCell 0 0 = -1 ∧
      (∀ c, c ≠ 0 → s1.tableau.getCell 0 c =
        Reluplex.turnAlmostZeroToZero
          ((smallState false).tableau.getCell 2 c *
            ((-1) / (smallState false).tableau.getCell 2 0))) ∧
      (∀ r, r ≠ 2 → r ≠ 0 → (smallState false).tableau.getCell r 0 ≠ 0 →
        s1.tableau.cell r 0 = none ∧
        ∀ c, c ≠ 0 → s1.tableau.getCell r c =
          Reluplex.turnAlmostZeroToZero
            ((smallState false).tableau.getCell r c +
              (smallState false).tableau.getCell r 0 * s1.tableau.getCell 0 c)) ∧
      (∀ r, r ≠ 2 → r ≠ 0 → (smallState false).tableau.getCell r 0 = 0 →
        s1.tableau.getRow r = (smallState false).tableau.getRow r) ∧
      s1.assignment = (smallState false).assignment ∧
      s1.upperBounds = (smallState false).upperBounds ∧
      s1.lowerBounds = (smallState false).lowerBounds :=
  ⟨smallState_tableauForm, smallState_zeroFree, by decide!, by decide!, by decide!,
    C4_pivot_effect (smallState false) 0 2 smallState_tableauForm smallState_zeroFree
      (by decide!) (by decide!) (by decide!)⟩

/-! ## update: the row equations -/

theorem turnAlmostZeroToZero_err (x : ℚ) :
    |Reluplex.turnAlmostZeroToZero x - x| ≤ DEFAULT_EPSILON := by
  unfold Reluplex.turnAlmostZeroToZero
  by_cases h : isZero x DEFAULT_EPSILON = true
  · simp only [h, if_true]
    rw [zero_sub, abs_neg]
    exact (isZero_default_iff x).mp h
  · simp only [h, Bool.false_eq_true, if_false, sub_self, abs_zero]
    norm_num [DEFAULT_EPSILON]

theorem updateAssignment_fold (v : ℕ) (delta : ℚ) (l : List Entry) :
    ∀ st : Reluplex, (l.map (fun e => e.row)).Nodup → (∀ e ∈ l, e.row ≠ v) →
      (l.foldl (fun st current =>
          if current.row ≠ v then st.addToAssignment current.row (delta * current.value)
          else st) st).tableau = st.tableau ∧
      (l.foldl (fun st current =>
          if current.row ≠ v then st.addToAssignment current.row (delta * current.value)
          else st) st).basicVariables = st.basicVariables ∧
      (l.foldl (fun st current =>
          if current.row ≠ v then st.addToAssignment current.row (delta * current.value)
          else st) st).reluPairs = st.reluPairs ∧
      ∀ x, (l.foldl (fun st current =>
          if current.row ≠ v then st.addToAssignment current.row (delta * current.value)
          else st) st).assignment x =
        match l.find? (fun e => e.row = x) with
        | some e => Reluplex.turnAlmostZeroToZero (st.assignment x + delta * e.value)
        | none => st.assignment x := by
  induction l with
  | nil => intro st _ _; simp
  | cons e rest ih =>
    intro st hnd hne
    simp only [List.map_cons, List.nodup_cons] at hnd
    have hev : e.row ≠ v := hne e (List.mem_cons_self _ _)
    obtain ⟨h1, h2, h3, h4⟩ := ih (st.addToAssignment e.row (delta * e.value)) hnd.2
      (fun e1 he1 => hne e1 (List.mem_cons_of_mem _ he1))
    simp only [List.foldl_cons, hev, ne_eq, not_false_eq_true, if_true]
    refine ⟨h1, h2, h3, ?_⟩
    intro x
    rw [h4 x]
    by_cases hx : e.row = x
    · have hnone : rest.find? (fun e1 => decide (e1.row = x)) = none := by
        rw [List.find?_eq_none]
        intro e1 he1 h5
        apply hnd.1
        have : e1.row = x := by simpa using h5
        exact List.mem_map.mpr ⟨e1, he1, by rw [this, hx]⟩
      simp only [hnone, List.find?_cons, hx, decide_True]
      subst hx
      simp [Reluplex.addToAssignment, Reluplex.computeVariableStatus]
    · have hx2 : ¬ x = e.row := fun h => hx h.symm
      simp only [List.find?_cons, hx, decide_False]
      simp [Reluplex.addToAssignment, Reluplex.computeVariableStatus, Function.update, hx2]

theorem updateAssignment_spec (s : Reluplex) (v : ℕ) (delta : ℚ)
    (hform : s.TableauForm) (hv : v ∉ s.basicVariables) :
    (s.updateAssignment v delta).tableau = s.tableau ∧
    (s.updateAssignment v delta).basicVariables = s.basicVariables ∧
    (s.updateAssignment v delta).reluPairs = s.reluPairs ∧
    ∀ x, (s.updateAssignment v delta).assignment x =
      if x = v then Reluplex.turnAlmostZeroToZero (s.assignment v + delta)
      else match s.tableau.cell x v with
        | some w => Reluplex.turnAlmostZeroToZero (s.assignment x + delta * w)
        | none => s.assignment x := by
  obtain ⟨hone, _, hrows⟩ := hform
  have hne : ∀ e ∈ s.tableau.getColumn v, e.row ≠ v := by
    intro e he h
    exact hv (h ▸ hrows e (List.mem_filter.mp he).1)
  obtain ⟨h1, h2, h3, h4⟩ := updateAssignment_fold v delta (s.tableau.getColumn v)
    (s.addToAssignment v delta) (Tableau.nodup_rows_getColumn s.tableau hone v) hne
  refine ⟨h1, h2, h3, ?_⟩
  intro x
  unfold Reluplex.updateAssignment
  rw [h4 x]
  by_cases hx : x = v
  · subst hx
    have hnone : (s.tableau.getColumn x).find? (fun e => decide (e.row = x)) = none := by
      rw [List.find?_eq_none]
      intro e he h5
      exact hne e he (by simpa using h5)
    simp [hnone, Reluplex.addToAssignment, Reluplex.computeVariableStatus]
  · simp only [hx, if_false]
    rw [Tableau.cell_eq_find_getColumn]
    cases (s.tableau.getColumn v).find? (fun e => decide (e.row = x)) with
    | none => simp [Reluplex.addToAssignment, Reluplex.computeVariableStatus, Function.update, hx]
    | some e =>
      simp [Reluplex.addToAssignment, Reluplex.computeVariableStatus, Function.update, hx]

theorem rowValue_fold_diff (basic v : ℕ) (A A1 : ℕ → ℚ) (hv : v ≠ basic) (l : List Entry) :
    ∀ acc acc1 : ℚ, (l.map (fun e => e.column)).Nodup →
      (∀ e ∈ l, e.column ≠ basic → e.column ≠ v → A1 e.column = A e.column) →
      l.foldl (fun result current =>
          if current.column ≠ basic then result + A1 current.column * current.value
          else result) acc1 =
        l.foldl (fun result current =>
          if current.column ≠ basic then result + A current.column * current.value
          else result) acc + (acc1 - acc) +
        ((l.find? (fun e => e.column = v)).map (fun e => e.value)).getD 0 * (A1 v - A v) := by
  induction l with
  | nil => intro acc acc1 _ _; simp
  | cons e rest ih =>
    intro acc acc1 hnd hsame
    simp only [List.map_cons, List.nodup_cons] at hnd
    have hsame2 : ∀ e1 ∈ rest, e1.column ≠ basic → e1.column ≠ v → A1 e1.column = A e1.column :=
      fun e1 he1 => hsame e1 (List.mem_cons_of_mem _ he1)
    simp only [List.foldl_cons, List.find?_cons]
    by_cases hb : e.column = basic
    · have hev : decide (e.column = v) = false := by
        simpa using fun h : e.column = v => hv (h ▸ hb)
      rw [if_neg (not_not.mpr hb), if_neg (not_not.mpr hb), hev]
      exact ih acc acc1 hnd.2 hsame2
    · rw [if_pos hb, if_pos hb]
      by_cases hc : e.column = v
      · have hnone : rest.find? (fun e1 => decide (e1.column = v)) = none := by
          rw [List.find?_eq_none]
          intro e1 he1 h5
          apply hnd.1
          have : e1.column = v := by simpa using h5
          exact List.mem_map.mpr ⟨e1, he1, by rw [this, hc]⟩
        rw [ih (acc + A e.column * e.value) (acc1 + A1 e.column * e.value) hnd.2 hsame2, hnone]
        simp only [hc, decide_True, Option.map_some', Option.getD_some, Option.map_none',
          Option.getD_none]
        ring
      · rw [ih (acc + A e.column * e.value) (acc1 + A1 e.column * e.value) hnd.2 hsame2]
        simp only [hc, decide_False]
        rw [hsame e (List.mem_cons_self _ _) hb hc]
        ring

theorem rowValue_shift (s s1 : Reluplex) (r v : ℕ) (hone : s.tableau.OneCellPerPosition)
    (ht : s1.tableau = s.tableau) (hv : v ≠ r)
    (hsame : ∀ e ∈ s.tableau.getRow r, e.column ≠ r → e.column ≠ v →
      s1.assignment e.column = s.assignment e.column) :
    s1.rowValue r = s.rowValue r + s.tableau.getCell r v * (s1.assignment v - s.assignment v) := by
  unfold Reluplex.rowValue
  rw [ht, rowValue_fold_diff r v s.assignment s1.assignment hv (s.tableau.getRow r) 0 0
    (Tableau.nodup_columns_getRow s.tableau hone r) hsame, Tableau.getCell_eq,
    Tableau.cell_eq_find_getRow]
  ring

theorem updateAssignment_residual (s : Reluplex) (v : ℕ) (delta : ℚ)
    (hform : s.TableauForm) (hv : v ∉ s.basicVariables) (r : ℕ) (hr : r ∈ s.basicVariables) :
    |((s.updateAssignment v delta).assignment r - (s.updateAssignment v delta).rowValue r) -
      (s.assignment r - s.rowValue r)| ≤
      DEFAULT_EPSILON * (1 + |s.tableau.getCell r v|) := by
  obtain ⟨h1, h2, h3, h4⟩ := updateAssignment_spec s v delta hform hv
  obtain ⟨hone, hcols, hrows⟩ := hform
  have hrowsE := (Tableau.rows_iff s.tableau s.basicVariables).mp hrows
  have hrv : r ≠ v := fun h => hv (h ▸ hr)
  have hsame : ∀ e ∈ s.tableau.getRow r, e.column ≠ r → e.column ≠ v →
      (s.updateAssignment v delta).assignment e.column = s.assignment e.column := by
    intro e he hcr hcv
    have her : e.row = r := by simpa [Tableau.getRow] using (List.mem_filter.mp he).2
    have hnb : e.column ∉ s.basicVariables := by
      intro hb
      have hmem : e ∈ s.tableau.getColumn e.column :=
        List.mem_filter.mpr ⟨(List.mem_filter.mp he).1, by simp⟩
      rw [hcols e.column hb] at hmem
      simp only [List.mem_singleton] at hmem
      apply hcr
      rw [← her, hmem]
    rw [h4 e.column, if_neg hcv]
    have hnone : s.tableau.cell e.column v = none := by
      rw [Tableau.cell_eq_find_getRow, hrowsE e.column hnb]
      rfl
    rw [hnone]
  rw [rowValue_shift s (s.updateAssignment v delta) r v hone h1 (fun h => hrv h.symm) hsame,
    h4 r, if_neg hrv, h4 v, if_pos rfl, Tableau.getCell_eq]
  have e1 := turnAlmostZeroToZero_err (s.assignment v + delta)
  have heps : (0 : ℚ) ≤ DEFAULT_EPSILON := by norm_num [DEFAULT_EPSILON]
  cases hc : s.tableau.cell r v with
  | none =>
    simp only [Option.getD_none, zero_mul, add_zero, sub_self, abs_zero]
    positivity
  | some w =>
    simp only [Option.getD_some]
    have e2 := turnAlmostZeroToZero_err (s.assignment r + delta * w)
    have hid : Reluplex.turnAlmostZeroToZero (s.assignment r + delta * w) -
        (s.rowValue r + w * (Reluplex.turnAlmostZeroToZero (s.assignment v + delta) -
          s.assignment v)) - (s.assignment r - s.rowValue r) =
        (Reluplex.turnAlmostZeroToZero (s.assignment r + delta * w) -
          (s.assignment r + delta * w)) -
        w * (Reluplex.turnAlmostZeroToZero (s.assignment v + delta) -
          (s.assignment v + delta)) := by ring
    rw [hid]
    calc |_ - _| ≤ |Reluplex.turnAlmostZeroToZero (s.assignment r + delta * w) -
          (s.assignment r + delta * w)| +
          |w * (Reluplex.turnAlmostZeroToZero (s.assignment v + delta) -
          (s.assignment v + delta))| := abs_sub _ _
      _ ≤ DEFAULT_EPSILON + |w| * DEFAULT_EPSILON := by
          rw [abs_mul]
          exact add_le_add e2 (mul_le_mul_of_nonneg_left e1 (abs_nonneg w))
      _ = DEFAULT_EPSILON * (1 + |w|) := by ring

theorem updateAssignment_tableauForm (s : Reluplex) (v : ℕ) (delta : ℚ)
    (hform : s.TableauForm) (hv : v ∉ s.basicVariables) :
    (s.updateAssignment v delta).TableauForm := by
  obtain ⟨h1, h2, _, _⟩ := updateAssignment_spec s v delta hform hv
  unfold Reluplex.TableauForm
  rw [h1, h2]
  exact hform

theorem updateIgnoringRelu_residual (s : Reluplex) (v : ℕ) (delta : ℚ)
    (hform : s.TableauForm) (hv : v ∉ s.basicVariables) (r : ℕ) (hr : r ∈ s.basicVariables) :
    (s.updateIgnoringRelu v delta).tableau = s.tableau ∧
    (s.updateIgnoringRelu v delta).basicVariables = s.basicVariables ∧
    |((s.updateIgnoringRelu v delta).assignment r - (s.updateIgnoringRelu v delta).rowValue r) -
      (s.assignment r - s.rowValue r)| ≤
      DEFAULT_EPSILON * (1 + |s.tableau.getCell r v|) := by
  unfold Reluplex.updateIgnoringRelu
  by_cases hz : isZero delta DEFAULT_EPSILON = true
  · simp only [hz, if_true, sub_self, abs_zero, true_and]
    have heps : (0 : ℚ) ≤ DEFAULT_EPSILON := by norm_num [DEFAULT_EPSILON]
    positivity
  · simp only [hz, Bool.false_eq_true, if_false]
    obtain ⟨h1, h2, _, _⟩ := updateAssignment_spec s v delta hform hv
    exact ⟨h1, h2, updateAssignment_residual s v delta hform hv r hr⟩

theorem cascadeCheck_cases (s : Reluplex) (p : ℕ) :
    s.cascadeCheck p = .ok () s ∨
    s.cascadeCheck p = .thrown (.error .NONBASIC_OUT_OF_BOUNDS) s := by
  unfold Reluplex.cascadeCheck
  split
  · right; rfl
  · left; rfl

theorem update_cases (s : Reluplex) (v : ℕ) (delta : ℚ) (ignoreRelu : Bool) :
    (isZero delta DEFAULT_EPSILON = true ∧ s.update v delta ignoreRelu = .ok () s) ∨
    (isZero delta DEFAULT_EPSILON = false ∧
      s.update v delta ignoreRelu = .ok () (s.updateAssignment v delta)) ∨
    (isZero delta DEFAULT_EPSILON = false ∧
      ((s.updateAssignment v delta).reluPairs.isRelu v && !ignoreRelu) = true ∧
      ((s.updateAssignment v delta).reluPairs.toPartner v).getD 0 ∉
        (s.updateAssignment v delta).basicVariables ∧
      ∃ d2, s.update v delta ignoreRelu = .ok ()
          ((s.updateAssignment v delta).updateIgnoringRelu
            (((s.updateAssignment v delta).reluPairs.toPartner v).getD 0) d2) ∨
        s.update v delta ignoreRelu = .thrown (.error .NONBASIC_OUT_OF_BOUNDS)
          ((s.updateAssignment v delta).updateIgnoringRelu
            (((s.updateAssignment v delta).reluPairs.toPartner v).getD 0) d2)) := by
  unfold Reluplex.update
  by_cases hz : isZero delta DEFAULT_EPSILON = true
  · left; simp [hz]
  · right
    have hz2 : isZero delta DEFAULT_EPSILON = false := by simpa using hz
    simp only [hz2, Bool.false_eq_true, if_false, true_and]
    by_cases hrelu : ((s.updateAssignment v delta).reluPairs.isRelu v && !ignoreRelu) = true
    · simp only [hrelu, if_true, true_and]
      by_cases hp : ((s.updateAssignment v delta).reluPairs.toPartner v).getD 0 ∈
          (s.updateAssignment v delta).basicVariables
      · left; simp [hp]
      · simp only [hp, if_false, not_false_eq_true, true_and]
        split_ifs <;>
          first
          | (left; rfl)
          | (right; exact ⟨_, cascadeCheck_cases _ _⟩)
    · left; simp [hrelu]

theorem updateIgnoringRelu_frame (s : Reluplex) (v : ℕ) (delta : ℚ)
    (hform : s.TableauForm) (hv : v ∉ s.basicVariables) :
    (s.updateIgnoringRelu v delta).tableau = s.tableau ∧
    (s.updateIgnoringRelu v delta).basicVariables = s.basicVariables := by
  unfold Reluplex.updateIgnoringRelu
  split
  · exact ⟨rfl, rfl⟩
  · obtain ⟨h1, h2, _, _⟩ := updateAssignment_spec s v delta hform hv
    exact ⟨h1, h2⟩

theorem updateAssignment_fold_frame (v : ℕ) (delta : ℚ) (l : List Entry) :
    ∀ st : Reluplex,
      (l.foldl (fun st current =>
          if current.row ≠ v then st.addToAssignment current.row (delta * current.value)
          else st) st).upperBounds = st.upperBounds ∧
      (l.foldl (fun st current =>
          if current.row ≠ v then st.addToAssignment current.row (delta * current.value)
          else st) st).lowerBounds = st.lowerBounds ∧
      (l.foldl (fun st current =>
          if current.row ≠ v then st.addToAssignment current.row (delta * current.value)
          else st) st).dissolvedReluVariables = st.dissolvedReluVariables ∧
      (l.foldl (fun st current =>
          if current.row ≠ v then st.addToAssignment current.row (delta * current.value)
          else st) st).tableau = st.tableau ∧
      (l.foldl (fun st current =>
          if current.row ≠ v then st.addToAssignment current.row (delta * current.value)
          else st) st).basicVariables = st.basicVariables ∧
      ∀ x, (∀ e ∈ l, e.row ≠ x) →
        (l.foldl (fun st current =>
          if current.row ≠ v then st.addToAssignment current.row (delta * current.value)
          else st) st).varToStatus x = st.varToStatus x ∧
        (l.foldl (fun st current =>
          if current.row ≠ v then st.addToAssignment current.row (delta * current.value)
          else st) st).assignment x = st.assignment x := by
  induction l with
  | nil => intro st; simp
  | cons e rest ih =>
    intro st
    simp only [List.foldl_cons]
    by_cases hev : e.row = v
    · simp only [hev, ne_eq, not_true_eq_false, if_false]
      obtain ⟨h1, h2, h3, h4, h5, h6⟩ := ih st
      exact ⟨h1, h2, h3, h4, h5, fun x hx => h6 x (fun e1 he1 => hx e1 (List.mem_cons_of_mem _ he1))⟩
    · simp only [hev, ne_eq, not_false_eq_true, if_true]
      obtain ⟨h1, h2, h3, h4, h5, h6⟩ := ih (st.addToAssignment e.row (delta * e.value))
      refine ⟨h1, h2, h3, h4, h5, ?_⟩
      intro x hx
      have hxe : x ≠ e.row := fun h => hx e (List.mem_cons_self _ _) h.symm
      obtain ⟨h7, h8⟩ := h6 x (fun e1 he1 => hx e1 (List.mem_cons_of_mem _ he1))
      rw [h7, h8]
      simp [Reluplex.addToAssignment, Reluplex.computeVariableStatus, Function.update, hxe]

theorem updateAssignment_frame (s : Reluplex) (v : ℕ) (delta : ℚ) :
    (s.updateAssignment v delta).upperBounds = s.upperBounds ∧
    (s.updateAssignment v delta).lowerBounds = s.lowerBounds ∧
    (s.updateAssignment v delta).dissolvedReluVariables = s.dissolvedReluVariables ∧
    (s.updateAssignment v delta).tableau = s.tableau ∧
    (s.updateAssignment v delta).basicVariables = s.basicVariables ∧
    ∀ x, x ≠ v → s.tableau.cell x v = none →
      (s.updateAssignment v delta).varToStatus x = s.varToStatus x ∧
      (s.updateAssignment v delta).assignment x = s.assignment x := by
  obtain ⟨h1, h2, h3, h4, h5, h6⟩ := updateAssignment_fold_frame v delta (s.tableau.getColumn v)
    (s.addToAssignment v delta)
  refine ⟨h1, h2, h3, h4, h5, ?_⟩
  intro x hx hcell
  have hrows : ∀ e ∈ s.tableau.getColumn v, e.row ≠ x := by
    intro e he hex
    rw [Tableau.cell_eq_find_getColumn] at hcell
    cases hf : (s.tableau.getColumn v).find? (fun e => decide (e.row = x)) with
    | some e1 => rw [hf] at hcell; simp at hcell
    | none =>
      rw [List.find?_eq_none] at hf
      exact hf e he (by simpa using hex)
  obtain ⟨h7, h8⟩ := h6 x hrows
  unfold Reluplex.updateAssignment
  rw [h7, h8]
  simp [Reluplex.addToAssignment, Reluplex.computeVariableStatus, Function.update, hx]

theorem moveIntoBound_frame (s : Reluplex) (v : ℕ) (target : ℚ) :
    (s.moveIntoBound v target).upperBounds = s.upperBounds ∧
    (s.moveIntoBound v target).lowerBounds = s.lowerBounds ∧
    (s.moveIntoBound v target).dissolvedReluVariables = s.dissolvedReluVariables ∧
    (s.moveIntoBound v target).tableau = s.tableau ∧
    (s.moveIntoBound v target).basicVariables = s.basicVariables ∧
    ∀ x, x ≠ v → s.tableau.cell x v = none →
      (s.moveIntoBound v target).varToStatus x = s.varToStatus x ∧
      (s.moveIntoBound v target).assignment x = s.assignment x := by
  unfold Reluplex.moveIntoBound Reluplex.updateIgnoringRelu
  split
  · split
    · exact ⟨rfl, rfl, rfl, rfl, rfl, fun _ _ _ => ⟨rfl, rfl⟩⟩
    · exact updateAssignment_frame s v _
  · exact ⟨rfl, rfl, rfl, rfl, rfl, fun _ _ _ => ⟨rfl, rfl⟩⟩

theorem Reluplex.cell_eq_none_of_nonbasic (s : Reluplex) (hform : s.TableauForm) (x c : ℕ)
    (hx : x ∉ s.basicVariables) : s.tableau.cell x c = none := by
  rw [Tableau.cell_eq_find_getRow,
    (Tableau.rows_iff s.tableau s.basicVariables).mp hform.2.2 x hx]
  rfl

theorem isPositive_of_nonpos (x eps : ℚ) (h : x ≤ 0) : isPositive x eps = false := by
  unfold isPositive
  simp [not_lt.mpr h]

theorem isNegative_of_nonneg (x eps : ℚ) (h : 0 ≤ x) : isNegative x eps = false := by
  unfold isNegative
  simp [not_lt.mpr h]

theorem le_of_isPositive_eq_false (x eps : ℚ) (heps : 0 ≤ eps) (h : isPositive x eps = false) :
    x ≤ eps := by
  unfold isPositive at h
  by_cases hz : isZero x eps = true
  · exact le_trans (le_abs_self x) ((isZero_iff x eps heps).mp hz)
  · simp only [hz, Bool.not_false, Bool.true_and, decide_eq_false_iff_not, not_lt] at h
    linarith

theorem le_of_gt_eq_false (x y eps : ℚ) (heps : 0 ≤ eps) (h : gt x y eps = false) :
    x ≤ y + eps := by
  have := le_of_isPositive_eq_false (x - y) eps heps h
  linarith

theorem le_of_lte (x y eps : ℚ) (heps : 0 ≤ eps) (h : lte x y eps = true) :
    x ≤ y + eps := by
  unfold lte gte isNegative at h
  by_cases hz : isZero (y - x) eps = true
  · have := (isZero_iff (y - x) eps heps).mp hz
    have := neg_abs_le (y - x)
    linarith
  · simp only [hz, Bool.not_false, Bool.true_and, Bool.not_eq_true', decide_eq_false_iff_not,
      not_lt] at h
    linarith

theorem areEqual_cases (x y eps : ℚ) (h : areEqual x y eps = true) :
    |x - y| ≤ eps ∨ |x - y| ≤ (if |x| > |y| then |x| else |y|) * DBL_EPSILON := by
  unfold areEqual at h
  by_cases h1 : |x - y| ≤ eps
  · exact Or.inl h1
  · simp only [h1, if_false] at h
    by_cases h2 : |x - y| ≤ (if |x| > |y| then |x| else |y|) * DBL_EPSILON
    · exact Or.inr h2
    · rw [if_neg h2] at h
      cases h

theorem Reluplex.ActivePair.ne {s : Reluplex} {b f : ℕ} (h : s.ActivePair b f) : b ≠ f := by
  intro hbf
  obtain ⟨h1, _, _, h4, _⟩ := h
  rw [hbf, h4] at h1
  cases h1

theorem Reluplex.ActivePair.lookup_b {s : Reluplex} {b f : ℕ} (h : s.ActivePair b f) :
    s.reluPairs.isRelu b = true ∧ s.reluPairs.toPartner b = some f ∧
    s.reluPairs.isF b = false ∧ s.reluPairs.isB b = true := by
  obtain ⟨h1, h2, h3, h4, _⟩ := h
  simp [ReluPairs.isRelu, ReluPairs.toPartner, ReluPairs.isF, ReluPairs.isB, h1, h3]

theorem Reluplex.ActivePair.lookup_f {s : Reluplex} {b f : ℕ} (h : s.ActivePair b f) :
    s.reluPairs.isRelu f = true ∧ s.reluPairs.toPartner f = some b ∧
    s.reluPairs.isF f = true ∧ s.reluPairs.isB f = false := by
  obtain ⟨h1, h2, h3, h4, _⟩ := h
  simp [ReluPairs.isRelu, ReluPairs.toPartner, ReluPairs.isF, ReluPairs.isB, h2, h4]

/-- The non-positive branch of `updateUpperBound` on a pair `(b, f)`. -/
theorem updateUpperBound_split_branch (s : Reluplex) (b f v : ℕ) (beta : ℚ) (lvl : ℕ)
    (hpair : s.ActivePair b f)
    (hv : (v = b ∧ beta ≤ 0) ∨ (v = f ∧ beta = 0)) :
    s.updateUpperBound v beta lvl =
      match (((s.withDissolved f .TYPE_SPLIT).storeUpperBound f 0 lvl).storeUpperBound
          b beta lvl).boundInvariantHolds2 b f with
      | some violatingStackLevel =>
        .thrown (.invariantViolation violatingStackLevel)
          (((s.withDissolved f .TYPE_SPLIT).storeUpperBound f 0 lvl).storeUpperBound b beta lvl)
      | none =>
        .ok () (((((((s.withDissolved f .TYPE_SPLIT).storeUpperBound f 0 lvl).storeUpperBound
          b beta lvl).computeVariableStatus b).computeVariableStatus f).moveIntoBound
          b beta).moveIntoBound f 0) := by
  have hact := hpair.2.2.2.2
  have hpos : isPositive beta DEFAULT_EPSILON = false := by
    rcases hv with ⟨_, h⟩ | ⟨_, h⟩
    · exact isPositive_of_nonpos _ _ h
    · exact isPositive_of_nonpos _ _ (le_of_eq h)
  have hadj : s.adjustUpper beta = beta := by
    unfold Reluplex.adjustUpper
    simp [hpos]
  rcases hv with ⟨rfl, hbeta⟩ | ⟨rfl, rfl⟩
  · obtain ⟨l1, l2, l3, l4⟩ := hpair.lookup_b
    unfold Reluplex.updateUpperBound
    simp only [l1, l2, l3, l4, hact, hadj, hpos, Option.getD_some, if_true, Bool.not_true,
      Option.isSome_none, Bool.or_self, Bool.false_eq_true, if_false, Bool.and_false,
      Reluplex.markReluVariableDissolved, Res.andThen,
      Reluplex.withDissolved]
  · obtain ⟨l1, l2, l3, l4⟩ := hpair.lookup_f
    have hneg : isNegative (0 : ℚ) DEFAULT_EPSILON = false := isNegative_of_nonneg _ _ (le_refl _)
    unfold Reluplex.updateUpperBound
    simp only [l1, l2, l3, l4, hact, hadj, hpos, hneg, Option.getD_some, if_true, Bool.not_true,
      Option.isSome_none, Bool.or_self, Bool.false_eq_true, if_false, Bool.and_false,
      Bool.false_and, Reluplex.markReluVariableDissolved, Res.andThen,
      Reluplex.withDissolved]

theorem lte_of_le (x y eps : ℚ) (h : x ≤ y) : lte x y eps = true := by
  unfold lte gte
  rw [isNegative_of_nonneg _ _ (by linarith)]
  rfl

theorem statusOf_within_of_zero_ub (s : Reluplex) (i : ℕ)
    (hub : (s.upperBounds i).finite = true) (hub0 : (s.upperBounds i).bound = 0)
    (hlb : (s.lowerBounds i).finite = true) (hlb0 : 0 ≤ (s.lowerBounds i).bound)
    (h1 : s.statusOf i ≠ .ABOVE_UB) (h2 : s.statusOf i ≠ .BELOW_LB) :
    |s.assignment i| ≤ OOB_EPSILON := by
  have hoob : (0 : ℚ) ≤ OOB_EPSILON := by norm_num [OOB_EPSILON]
  unfold Reluplex.statusOf at h1 h2
  simp only [hub, hlb, hub0, Bool.and_self, if_true] at h1 h2
  by_cases hgt : gt (s.assignment i) 0 OOB_EPSILON = true
  · simp [hgt] at h1
  · simp only [hgt, Bool.false_eq_true, if_false] at h1 h2
    by_cases heq : areEqual (s.assignment i) 0 OOB_EPSILON = true
    · exact (isZero_iff _ _ hoob).mp heq
    · exfalso
      simp only [heq, Bool.false_eq_true, if_false] at h1 h2
      have hnz : ¬ |s.assignment i| ≤ OOB_EPSILON := fun h => heq ((isZero_iff _ _ hoob).mpr h)
      have hle : s.assignment i ≤ 0 := by
        have hp : isPositive (s.assignment i - 0) OOB_EPSILON = false := by
          simpa [gt] using hgt
        unfold isPositive at hp
        rw [sub_zero] at hp
        have hz : isZero (s.assignment i) OOB_EPSILON = false := by
          simpa [isZero] using heq
        simp only [hz, Bool.not_false, Bool.true_and, decide_eq_false_iff_not, not_lt] at hp
        exact hp
      have hneg : s.assignment i < -OOB_EPSILON := by
        rw [abs_of_nonpos hle] at hnz
        linarith
      by_cases hgl : gt (s.assignment i) (s.lowerBounds i).bound OOB_EPSILON = true
      · unfold gt isPositive at hgl
        simp only [Bool.and_eq_true, decide_eq_true_eq] at hgl
        linarith [hgl.2]
      · simp only [hgl, Bool.false_eq_true, if_false] at h2
        by_cases hel : areEqual (s.assignment i) (s.lowerBounds i).bound OOB_EPSILON = true
        · have habs : |s.assignment i - (s.lowerBounds i).bound| =
              (s.lowerBounds i).bound - s.assignment i := by
            rw [abs_of_nonpos (by linarith)]; ring
          rcases areEqual_cases _ _ _ hel with h | h
          · rw [habs] at h
            linarith
          · rw [habs, abs_of_nonpos hle, abs_of_nonneg hlb0] at h
            have hd : DBL_EPSILON < 1 := by norm_num [DBL_EPSILON]
            have hd0 : (0 : ℚ) < DBL_EPSILON := by norm_num [DBL_EPSILON]
            split at h
            · nlinarith
            · nlinarith
        · simp [hel] at h2

theorem boundInvariantHolds2_eq_none (s : Reluplex) (v w : ℕ)
    (h : s.boundInvariantHolds2 v w = none) :
    s.boundInvariantHolds v = none ∧ s.boundInvariantHolds w = none := by
  unfold Reluplex.boundInvariantHolds2 at h
  cases hv : s.boundInvariantHolds v with
  | some l => rw [hv] at h; cases h
  | none => rw [hv] at h; exact ⟨rfl, h⟩

theorem boundInvariantHolds_eq_none (s : Reluplex) (v : ℕ)
    (h : s.boundInvariantHolds v = none)
    (hub : (s.upperBounds v).finite = true) (hlb : (s.lowerBounds v).finite = true) :
    (s.lowerBounds v).bound ≤ (s.upperBounds v).bound + DEFAULT_EPSILON := by
  unfold Reluplex.boundInvariantHolds at h
  simp only [hub, hlb, Bool.not_true, Bool.or_self, Bool.false_eq_true, if_false] at h
  by_cases hl : lte (s.lowerBounds v).bound (s.upperBounds v).bound DEFAULT_EPSILON = true
  · exact le_of_lte _ _ _ (by norm_num [DEFAULT_EPSILON]) hl
  · simp [hl] at h

theorem boundInvariantHolds_of_le (s : Reluplex) (v : ℕ)
    (h : (s.lowerBounds v).finite = true → (s.lowerBounds v).bound ≤ (s.upperBounds v).bound) :
    s.boundInvariantHolds v = none := by
  unfold Reluplex.boundInvariantHolds
  by_cases hf : (!(s.upperBounds v).finite || !(s.lowerBounds v).finite) = true
  · simp [hf]
  · have hlb : (s.lowerBounds v).finite = true := by
      cases h1 : (s.lowerBounds v).finite
      · simp [h1] at hf
      · rfl
    simp only [hf, Bool.false_eq_true, if_false, lte_of_le _ _ _ (h hlb), Bool.not_true]

theorem moveIntoBound_zero (s : Reluplex) (f : ℕ) (hform : s.TableauForm)
    (hf : f ∉ s.basicVariables) (hout : s.outOfBounds f = true) :
    |(s.moveIntoBound f 0).assignment f| ≤ DEFAULT_EPSILON := by
  unfold Reluplex.moveIntoBound Reluplex.updateIgnoringRelu
  simp only [hf, hout, not_false_eq_true, and_self, if_true]
  by_cases hz : isZero (0 - s.assignment f) DEFAULT_EPSILON = true
  · simp only [hz, if_true]
    have := (isZero_default_iff _).mp hz
    rwa [zero_sub, abs_neg] at this
  · simp only [hz, Bool.false_eq_true, if_false]
    rw [(updateAssignment_spec s f _ hform hf).2.2.2 f, if_pos rfl]
    have : s.assignment f + (0 - s.assignment f) = 0 := by ring
    rw [this]
    simp [Reluplex.turnAlmostZeroToZero]
    norm_num [DEFAULT_EPSILON]

theorem moveIntoBound_of_not_out (s : Reluplex) (v : ℕ) (target : ℚ)
    (h : ¬ s.outOfBounds v = true) : s.moveIntoBound v target = s := by
  unfold Reluplex.moveIntoBound
  rw [if_neg (fun hc => h hc.2)]

/-- C8, amended: `updateUpperBound( v, beta, lvl )` on a member `v` of an active pair
`(b, f)` of a state in tableau form, with `v = b` and `beta <= 0`, or `v = f` and `beta = 0`,
either returns or throws an `InvariantViolationError`; either way it leaves `D[f] = SPLIT`,
`ub(f) = 0` and `ub(b) = beta`, both finite with level `lvl`, and the lower bounds, the
tableau and the basic set unchanged (the lower bound of `f` is never written). It returns
when `lb(b) <= beta` and `lb(f) <= 0` (where finite). When it returns, the finite lower
bounds satisfy `lb(f) <= DEFAULT_EPSILON` and `lb(b) <= beta + DEFAULT_EPSILON`, and a
non-basic `f` whose lower bound was finite and non-negative has `|A[f]| <= OOB_EPSILON`. -/
theorem C8_nonpositive_upper_bound_splits (s : Reluplex) (b f v : ℕ) (beta : ℚ) (lvl : ℕ)
    (hform : s.TableauForm) (hpair : s.ActivePair b f)
    (hv : (v = b ∧ beta ≤ 0) ∨ (v = f ∧ beta = 0)) :
    ∃ s1, (s.updateUpperBound v beta lvl = .ok () s1 ∨
        ∃ level, s.updateUpperBound v beta lvl = .thrown (.invariantViolation level) s1) ∧
      s1.dissolvedReluVariables f = some .TYPE_SPLIT ∧
      s1.upperBounds f = { finite := true, bound := 0, level := lvl } ∧
      s1.upperBounds b = { finite := true, bound := beta, level := lvl } ∧
      s1.lowerBounds = s.lowerBounds ∧ s1.tableau = s.tableau ∧
      s1.basicVariables = s.basicVariables ∧
      ((((s.lowerBounds b).finite = true → (s.lowerBounds b).bound ≤ beta) ∧
        ((s.lowerBounds f).finite = true → (s.lowerBounds f).bound ≤ 0)) →
        s.updateUpperBound v beta lvl = .ok () s1) ∧
      (s.updateUpperBound v beta lvl = .ok () s1 →
        ((s.lowerBounds f).finite = true → (s.lowerBounds f).bound ≤ DEFAULT_EPSILON) ∧
        ((s.lowerBounds b).finite = true → (s.lowerBounds b).bound ≤ beta + DEFAULT_EPSILON) ∧
        (f ∉ s.basicVariables → (s.lowerBounds f).finite = true →
          0 ≤ (s.lowerBounds f).bound → |s1.assignment f| ≤ OOB_EPSILON)) := by
  have hbf : b ≠ f := hpair.ne
  have hfb : f ≠ b := fun h => hbf h.symm
  rw [updateUpperBound_split_branch s b f v beta lvl hpair hv]
  have hD : (((s.withDissolved f .TYPE_SPLIT).storeUpperBound f 0 lvl).storeUpperBound
      b beta lvl).dissolvedReluVariables f = some .TYPE_SPLIT := by
    simp [Reluplex.storeUpperBound, Reluplex.withDissolved]
  have hUf : (((s.withDissolved f .TYPE_SPLIT).storeUpperBound f 0 lvl).storeUpperBound
      b beta lvl).upperBounds f = { finite := true, bound := 0, level := lvl } := by
    simp [Reluplex.storeUpperBound, Reluplex.withDissolved, Function.update, hfb,
      VariableBound.setBound, VariableBound.setLevel]
  have hUb : (((s.withDissolved f .TYPE_SPLIT).storeUpperBound f 0 lvl).storeUpperBound
      b beta lvl).upperBounds b = { finite := true, bound := beta, level := lvl } := by
    simp [Reluplex.storeUpperBound, Reluplex.withDissolved, Function.update,
      VariableBound.setBound, VariableBound.setLevel]
  have hL : (((s.withDissolved f .TYPE_SPLIT).storeUpperBound f 0 lvl).storeUpperBound
      b beta lvl).lowerBounds = s.lowerBounds := rfl
  have hT : (((s.withDissolved f .TYPE_SPLIT).storeUpperBound f 0 lvl).storeUpperBound
      b beta lvl).tableau = s.tableau := rfl
  have hB : (((s.withDissolved f .TYPE_SPLIT).storeUpperBound f 0 lvl).storeUpperBound
      b beta lvl).basicVariables = s.basicVariables := rfl
  have hA : (((s.withDissolved f .TYPE_SPLIT).storeUpperBound f 0 lvl).storeUpperBound
      b beta lvl).assignment = s.assignment := rfl
  generalize ((s.withDissolved f .TYPE_SPLIT).storeUpperBound f 0 lvl).storeUpperBound
      b beta lvl = S1 at hD hUf hUb hL hT hB hA ⊢
  cases hbi : S1.boundInvariantHolds2 b f with
  | some level =>
    refine ⟨_, Or.inr ⟨level, rfl⟩, hD, hUf, hUb, hL, hT, hB, ?_, ?_⟩
    · intro hle
      exfalso
      have h1 := boundInvariantHolds_of_le S1 b (by rw [hUb, hL]; exact hle.1)
      have h2 := boundInvariantHolds_of_le S1 f (by rw [hUf, hL]; exact hle.2)
      unfold Reluplex.boundInvariantHolds2 at hbi
      rw [h1, h2] at hbi
      cases hbi
    · intro h
      cases h
  | none =>
    obtain ⟨hb1, hb2⟩ := boundInvariantHolds2_eq_none _ _ _ hbi
    have hS2 : ((S1.computeVariableStatus b).computeVariableStatus f).varToStatus f =
        S1.statusOf f := by
      simp [Reluplex.computeVariableStatus, Reluplex.statusOf]
    have hS2T : ((S1.computeVariableStatus b).computeVariableStatus f).tableau = S1.tableau := rfl
    have hS2B : ((S1.computeVariableStatus b).computeVariableStatus f).basicVariables =
        S1.basicVariables := rfl
    have hS2A : ((S1.computeVariableStatus b).computeVariableStatus f).assignment =
        S1.assignment := rfl
    have hS2L : ((S1.computeVariableStatus b).computeVariableStatus f).lowerBounds =
        S1.lowerBounds := rfl
    have hS2U : ((S1.computeVariableStatus b).computeVariableStatus f).upperBounds =
        S1.upperBounds := rfl
    have hS2D : ((S1.computeVariableStatus b).computeVariableStatus f).dissolvedReluVariables =
        S1.dissolvedReluVariables := rfl
    generalize (S1.computeVariableStatus b).computeVariableStatus f = S2
      at hS2 hS2T hS2B hS2A hS2L hS2U hS2D ⊢
    obtain ⟨m1, m2, m3, m4, m5, m6⟩ := moveIntoBound_frame S2 b beta
    generalize S2.moveIntoBound b beta = S3 at m1 m2 m3 m4 m5 m6 ⊢
    obtain ⟨n1, n2, n3, n4, n5, n6⟩ := moveIntoBound_frame S3 f 0
    refine ⟨_, Or.inl rfl, ?_, ?_, ?_, ?_, ?_, ?_, fun _ => rfl, fun _ => ⟨?_, ?_, ?_⟩⟩
    · rw [n3, m3, hS2D]; exact hD
    · rw [n1, m1, hS2U]; exact hUf
    · rw [n1, m1, hS2U]; exact hUb
    · rw [n2, m2, hS2L]; exact hL
    · rw [n4, m4, hS2T]; exact hT
    · rw [n5, m5, hS2B]; exact hB
    · intro hfin
      have := boundInvariantHolds_eq_none S1 f hb2 (by rw [hUf]) (by rw [hL]; exact hfin)
      rw [hUf, hL] at this
      simpa using this
    · intro hfin
      have := boundInvariantHolds_eq_none S1 b hb1 (by rw [hUb]) (by rw [hL]; exact hfin)
      rw [hUb, hL] at this
      exact this
    · intro hfnb hfin hnonneg
      have hform3 : S3.TableauForm := by
        unfold Reluplex.TableauForm
        rw [m4, m5, hS2T, hS2B, hT, hB]
        exact hform
      have hfnb3 : f ∉ S3.basicVariables := by
        rw [m5, hS2B, hB]; exact hfnb
      have hoob : DEFAULT_EPSILON ≤ OOB_EPSILON := by norm_num [DEFAULT_EPSILON, OOB_EPSILON]
      by_cases hout : S3.outOfBounds f = true
      · exact le_trans (moveIntoBound_zero _ f hform3 hfnb3 hout) hoob
      · rw [moveIntoBound_of_not_out S3 f 0 hout]
        have hcell : S2.tableau.cell f b = none := by
          rw [hS2T, hT]
          exact Reluplex.cell_eq_none_of_nonbasic s hform f b hfnb
        obtain ⟨hst, hasg⟩ := m6 f hfb hcell
        rw [hasg, hS2A]
        unfold Reluplex.outOfBounds Reluplex.tooLow Reluplex.tooHigh at hout
        rw [hst, hS2] at hout
        simp only [Bool.or_eq_true, decide_eq_true_eq, not_or] at hout
        exact statusOf_within_of_zero_ub S1 f (by rw [hUf]) (by rw [hUf])
          (by rw [hL]; exact hfin) (by rw [hL]; exact hnonneg) hout.2 hout.1

set_option maxRecDepth 100000 in
/-- C8, counterexample: in `nearZeroPair`, with or without `DEBUG_ON`, the pair
`(b, f) = (0, 1)` is active, `lb(f) = 0`, and both members are non-basic with value `0.0005`.
`updateUpperBound( b, 0, 1 )` returns
with `D[f] = SPLIT` and `f` still non-basic, but `A[f] = 0.0005`, not `0`: `f` is within
`OOB_EPSILON` of its new upper bound, so it is not out of bounds and is not moved. -/
theorem C8_split_leaves_f_nonzero :
    ((nearZeroPair false).reluPairs.bToF 0 = some 1 ∧
      (nearZeroPair false).dissolvedReluVariables 1 = none ∧
      (nearZeroPair false).lowerBounds 1 = { finite := true, bound := 0, level := 0 } ∧
      (((nearZeroPair false).updateUpperBound 0 0 1).returned?.map
        (fun s1 => (s1.dissolvedReluVariables 1, decide (1 ∈ s1.basicVariables),
          s1.assignment 1))) = some (some .TYPE_SPLIT, false, 1 / 2000)) ∧
    ((nearZeroPair true).reluPairs.bToF 0 = some 1 ∧
      (nearZeroPair true).dissolvedReluVariables 1 = none ∧
      (nearZeroPair true).lowerBounds 1 = { finite := true, bound := 0, level := 0 } ∧
      (((nearZeroPair true).updateUpperBound 0 0 1).returned?.map
        (fun s1 => (s1.dissolvedReluVariables 1, decide (1 ∈ s1.basicVariables),
          s1.assignment 1))) = some (some .TYPE_SPLIT, false, 1 / 2000)) := by
  decide!

set_option maxRecDepth 100000 in
theorem nearZeroPair_tableauForm : (nearZeroPair false).TableauForm := by
  unfold Reluplex.TableauForm Tableau.OneCellPerPosition
  decide!

set_option maxRecDepth 100000 in
theorem nearZeroPair_activePair : (nearZeroPair false).ActivePair 0 1 := by
  unfold Reluplex.ActivePair
  decide!

/-- C8, witness: `updateUpperBound( x0, 0, 1 )` on the pair `(0, 1)` of `nearZeroPair`. -/
theorem C8_nonpositive_upper_bound_splits_witness :
    (nearZeroPair false).TableauForm ∧ (nearZeroPair false).ActivePair 0 1 ∧
    (((0 : ℕ) = 0 ∧ (0 : ℚ) ≤ 0) ∨ ((0 : ℕ) = 1 ∧ (0 : ℚ) = 0)) ∧
    ∃ s1, ((nearZeroPair false).updateUpperBound 0 0 1 = .ok () s1 ∨
        ∃ level, (nearZeroPair false).updateUpperBound 0 0 1 =
          .thrown (.invariantViolation level) s1) ∧
      s1.dissolvedReluVariables 1 = some .TYPE_SPLIT ∧
      s1.upperBounds 1 = { finite := true, bound := 0, level := 1 } ∧
      s1.upperBounds 0 = { finite := true, bound := 0, level := 1 } ∧
      s1.lowerBounds = (nearZeroPair false).lowerBounds ∧
      s1.tableau = (nearZeroPair false).tableau ∧
      s1.basicVariables = (nearZeroPair false).basicVariables ∧
      (((((nearZeroPair false).lowerBounds 0).finite = true →
          ((nearZeroPair false).lowerBounds 0).bound ≤ 0) ∧
        (((nearZeroPair false).lowerBounds 1).finite = true →
          ((nearZeroPair false).lowerBounds 1).bound ≤ 0)) →
        (nearZeroPair false).updateUpperBound 0 0 1 = .ok () s1) ∧
      ((nearZeroPair false).updateUpperBound 0 0 1 = .ok () s1 →
        (((nearZeroPair false).lowerBounds 1).finite = true →
          ((nearZeroPair false).lowerBounds 1).bound ≤ DEFAULT_EPSILON) ∧
        (((nearZeroPair false).lowerBounds 0).finite = true →
          ((nearZeroPair false).lowerBounds 0).bound ≤ 0 + DEFAULT_EPSILON) ∧
        (1 ∉ (nearZeroPair false).basicVariables →
          ((nearZeroPair false).lowerBounds 1).finite = true →
          0 ≤ ((nearZeroPair false).lowerBounds 1).bound → |s1.assignment 1| ≤ OOB_EPSILON)) :=
  ⟨nearZeroPair_tableauForm, nearZeroPair_activePair, Or.inl ⟨rfl, le_refl _⟩,
    C8_nonpositive_upper_bound_splits (nearZeroPair false) 0 1 0 0 1 nearZeroPair_tableauForm
      nearZeroPair_activePair (Or.inl ⟨rfl, le_refl _⟩)⟩

theorem areEqual_of_abs_le (x y eps : ℚ) (h : |x - y| ≤ eps) : areEqual x y eps = true := by
  unfold areEqual
  simp [h]

theorem isPositive_of_gt (x eps : ℚ) (heps : 0 ≤ eps) (h : eps < x) :
    isPositive x eps = true := by
  unfold isPositive
  have hz : isZero x eps = false := by
    cases hc : isZero x eps
    · rfl
    · have := (isZero_iff x eps heps).mp hc
      have := le_abs_self x
      linarith
  have hx : 0 < x := lt_of_le_of_lt heps h
  simp [hz, hx]

theorem gt_of_lt (x y eps : ℚ) (heps : 0 ≤ eps) (h : y + eps < x) : gt x y eps = true :=
  isPositive_of_gt _ _ heps (by linarith)

theorem gt_eq_false_of_le (x y eps : ℚ) (heps : 0 ≤ eps) (h : x ≤ y + eps) :
    gt x y eps = false := by
  unfold gt isPositive
  by_cases hx : x - y > 0
  · have hz : isZero (x - y) eps = true :=
      (isZero_iff _ _ heps).mpr (by rw [abs_of_pos hx]; linarith)
    simp [hz]
  · simp [hx]

theorem statusOf_above (s : Reluplex) (i : ℕ) (hub : (s.upperBounds i).finite = true)
    (h : (s.upperBounds i).bound + OOB_EPSILON < s.assignment i) :
    s.statusOf i = .ABOVE_UB := by
  have hg := gt_of_lt _ _ OOB_EPSILON (by norm_num [OOB_EPSILON]) h
  unfold Reluplex.statusOf
  cases hlb : (s.lowerBounds i).finite <;> simp [hub, hg]

theorem statusOf_inside (s : Reluplex) (i : ℕ) (hub : (s.upperBounds i).finite = true)
    (h1 : s.assignment i ≤ (s.upperBounds i).bound + OOB_EPSILON)
    (h2 : (s.lowerBounds i).finite = true →
      (s.lowerBounds i).bound - OOB_EPSILON ≤ s.assignment i) :
    s.statusOf i ≠ .ABOVE_UB ∧ s.statusOf i ≠ .BELOW_LB := by
  have hoob : (0 : ℚ) ≤ OOB_EPSILON := by norm_num [OOB_EPSILON]
  have hg := gt_eq_false_of_le _ _ OOB_EPSILON hoob h1
  unfold Reluplex.statusOf
  cases hlb : (s.lowerBounds i).finite
  · simp only [hub, hg, Bool.and_false, Bool.false_eq_true, if_false, Bool.not_true,
      Bool.and_true, Bool.not_false, Bool.and_self, if_true]
    split <;> simp
  · simp only [hub, hg, Bool.and_self, if_true, Bool.false_eq_true, if_false]
    have h3 := h2 hlb
    by_cases he : areEqual (s.assignment i) (s.upperBounds i).bound OOB_EPSILON = true
    · simp only [he, if_true]
      split <;> simp
    · simp only [he, Bool.false_eq_true, if_false]
      by_cases hgl : gt (s.assignment i) (s.lowerBounds i).bound OOB_EPSILON = true
      · simp [hgl]
      · simp only [hgl, Bool.false_eq_true, if_false]
        by_cases hel : areEqual (s.assignment i) (s.lowerBounds i).bound OOB_EPSILON = true
        · simp [hel]
        · exfalso
          apply hel
          apply areEqual_of_abs_le
          have hle : s.assignment i ≤ (s.lowerBounds i).bound + OOB_EPSILON := by
            by_contra hc
            exact hgl (gt_of_lt _ _ OOB_EPSILON hoob (not_le.mp hc))
          rw [abs_le]
          constructor <;> linarith

theorem moveIntoBound_value (s : Reluplex) (x : ℕ) (target : ℚ) (hform : s.TableauForm)
    (hx : x ∉ s.basicVariables) (hout : s.outOfBounds x = true)
    (hfar : DEFAULT_EPSILON < |target - s.assignment x|) :
    (s.moveIntoBound x target).assignment x = Reluplex.turnAlmostZeroToZero target := by
  unfold Reluplex.moveIntoBound Reluplex.updateIgnoringRelu
  simp only [hx, hout, not_false_eq_true, and_self, if_true]
  have hz : isZero (target - s.assignment x) DEFAULT_EPSILON = false := by
    cases hc : isZero (target - s.assignment x) DEFAULT_EPSILON
    · rfl
    · have := (isZero_default_iff _).mp hc
      linarith
  simp only [hz, Bool.false_eq_true, if_false]
  rw [(updateAssignment_spec s x _ hform hx).2.2.2 x, if_pos rfl]
  congr 1
  ring

theorem turnAlmostZeroToZero_of_gt (x : ℚ) (h : DEFAULT_EPSILON < x) :
    Reluplex.turnAlmostZeroToZero x = x := by
  unfold Reluplex.turnAlmostZeroToZero
  have hz : isZero x DEFAULT_EPSILON = false := by
    cases hc : isZero x DEFAULT_EPSILON
    · rfl
    · have := (isZero_default_iff x).mp hc
      have := le_abs_self x
      linarith
  simp [hz]

theorem Reluplex.ActivePair.lookup {s : Reluplex} {b f : ℕ} (h : s.ActivePair b f) (v p : ℕ)
    (hv : (v = b ∧ p = f) ∨ (v = f ∧ p = b)) :
    s.reluPairs.isRelu v = true ∧ s.reluPairs.toPartner v = some p ∧
    (if s.reluPairs.isF v then v else p) = f ∧ (if s.reluPairs.isB v then v else p) = b ∧
    v ≠ p := by
  rcases hv with ⟨rfl, rfl⟩ | ⟨rfl, rfl⟩
  · obtain ⟨l1, l2, l3, l4⟩ := h.lookup_b
    simp [l1, l2, l3, l4, h.ne]
  · obtain ⟨l1, l2, l3, l4⟩ := h.lookup_f
    have hne : ¬ v = p := fun hc => h.ne hc.symm
    simp [l1, l2, l3, l4, hne]

/-- The positive branch of `updateUpperBound` on a member `v` of a pair, with partner `p`. -/
theorem updateUpperBound_positive_branch (s : Reluplex) (b f v p : ℕ) (beta : ℚ) (lvl : ℕ)
    (hpair : s.ActivePair b f) (hv : (v = b ∧ p = f) ∨ (v = f ∧ p = b))
    (hbeta : DEFAULT_EPSILON < beta) (helim : s.eliminateAlmostBrokenRelus = false) :
    s.updateUpperBound v beta lvl =
      match ((s.storeUpperBound v beta lvl).storeUpperBound p beta
          lvl).boundInvariantHolds2 v p with
      | some violatingStackLevel =>
        .thrown (.invariantViolation violatingStackLevel)
          ((s.storeUpperBound v beta lvl).storeUpperBound p beta lvl)
      | none =>
        .ok () ((((((s.storeUpperBound v beta lvl).storeUpperBound p beta
          lvl).computeVariableStatus v).computeVariableStatus p).moveIntoBound
          v beta).moveIntoBound p beta) := by
  have hact := hpair.2.2.2.2
  have hpos : isPositive beta DEFAULT_EPSILON = true :=
    isPositive_of_gt _ _ (by norm_num [DEFAULT_EPSILON]) hbeta
  have hadj : s.adjustUpper beta = beta := by
    unfold Reluplex.adjustUpper
    simp [helim]
  obtain ⟨l1, l2, l3, l4, _⟩ := hpair.lookup v p hv
  unfold Reluplex.updateUpperBound
  simp only [l1, l2, l3, l4, hact, hadj, hpos, Option.getD_some, if_true, Bool.not_true,
    Option.isSome_none, Bool.or_self, Bool.false_eq_true, if_false]

/-- The positive branch of `updateUpperBound`, for a member `v` of a pair and its partner
`p`: the outcome, the frame, and the values of the non-basic members. -/
theorem updateUpperBound_positive_core (s : Reluplex) (b f v p : ℕ) (beta : ℚ) (lvl : ℕ)
    (hform : s.TableauForm) (hpair : s.ActivePair b f)
    (hv : (v = b ∧ p = f) ∨ (v = f ∧ p = b))
    (hbeta : DEFAULT_EPSILON < beta) (helim : s.eliminateAlmostBrokenRelus = false) :
    ∃ s1, (s.updateUpperBound v beta lvl = .ok () s1 ∨
        ∃ level, s.updateUpperBound v beta lvl = .thrown (.invariantViolation level) s1) ∧
      s1.upperBounds v = { finite := true, bound := beta, level := lvl } ∧
      s1.upperBounds p = { finite := true, bound := beta, level := lvl } ∧
      s1.dissolvedReluVariables = s.dissolvedReluVariables ∧
      s1.tableau = s.tableau ∧ s1.lowerBounds = s.lowerBounds ∧
      s1.basicVariables = s.basicVariables ∧
      ((((s.lowerBounds v).finite = true → (s.lowerBounds v).bound ≤ beta) ∧
        ((s.lowerBounds p).finite = true → (s.lowerBounds p).bound ≤ beta)) →
        s.updateUpperBound v beta lvl = .ok () s1) ∧
      (s.updateUpperBound v beta lvl = .ok () s1 →
        ∀ x, x = v ∨ x = p → x ∉ s.basicVariables →
          (beta + OOB_EPSILON < s.assignment x → s1.assignment x = beta) ∧
          (s.assignment x ≤ beta + OOB_EPSILON →
            ((s.lowerBounds x).finite = true →
              (s.lowerBounds x).bound - OOB_EPSILON ≤ s.assignment x) →
            s1.assignment x = s.assignment x)) := by
  obtain ⟨_, _, _, _, hvp⟩ := hpair.lookup v p hv
  have hpv : p ≠ v := fun h => hvp h.symm
  rw [updateUpperBound_positive_branch s b f v p beta lvl hpair hv hbeta helim]
  have hUv : ((s.storeUpperBound v beta lvl).storeUpperBound p beta lvl).upperBounds v =
      { finite := true, bound := beta, level := lvl } := by
    simp [Reluplex.storeUpperBound, Function.update, hvp,
      VariableBound.setBound, VariableBound.setLevel]
  have hUp : ((s.storeUpperBound v beta lvl).storeUpperBound p beta lvl).upperBounds p =
      { finite := true, bound := beta, level := lvl } := by
    simp [Reluplex.storeUpperBound, Function.update,
      VariableBound.setBound, VariableBound.setLevel]
  have hD : ((s.storeUpperBound v beta lvl).storeUpperBound p beta
      lvl).dissolvedReluVariables = s.dissolvedReluVariables := rfl
  have hL : ((s.storeUpperBound v beta lvl).storeUpperBound p beta lvl).lowerBounds =
      s.lowerBounds := rfl
  have hT : ((s.storeUpperBound v beta lvl).storeUpperBound p beta lvl).tableau =
      s.tableau := rfl
  have hB : ((s.storeUpperBound v beta lvl).storeUpperBound p beta lvl).basicVariables =
      s.basicVariables := rfl
  have hA : ((s.storeUpperBound v beta lvl).storeUpperBound p beta lvl).assignment =
      s.assignment := rfl
  generalize (s.storeUpperBound v beta lvl).storeUpperBound p beta lvl = S1
    at hD hUv hUp hL hT hB hA ⊢
  cases hbi : S1.boundInvariantHolds2 v p with
  | some level =>
    refine ⟨_, Or.inr ⟨level, rfl⟩, hUv, hUp, hD, hT, hL, hB, ?_, ?_⟩
    · intro hle
      exfalso
      have h1 := boundInvariantHolds_of_le S1 v (by rw [hUv, hL]; exact hle.1)
      have h2 := boundInvariantHolds_of_le S1 p (by rw [hUp, hL]; exact hle.2)
      unfold Reluplex.boundInvariantHolds2 at hbi
      rw [h1, h2] at hbi
      cases hbi
    · intro h
      cases h
  | none =>
    have hS2v : ((S1.computeVariableStatus v).computeVariableStatus p).varToStatus v =
        S1.statusOf v := by
      simp [Reluplex.computeVariableStatus, Function.update, hvp]
    have hS2p : ((S1.computeVariableStatus v).computeVariableStatus p).varToStatus p =
        S1.statusOf p := by
      simp [Reluplex.computeVariableStatus, Reluplex.statusOf]
    have hS2T : ((S1.computeVariableStatus v).computeVariableStatus p).tableau = S1.tableau := rfl
    have hS2B : ((S1.computeVariableStatus v).computeVariableStatus p).basicVariables =
        S1.basicVariables := rfl
    have hS2A : ((S1.computeVariableStatus v).computeVariableStatus p).assignment =
        S1.assignment := rfl
    have hS2L : ((S1.computeVariableStatus v).computeVariableStatus p).lowerBounds =
        S1.lowerBounds := rfl
    have hS2U : ((S1.computeVariableStatus v).computeVariableStatus p).upperBounds =
        S1.upperBounds := rfl
    have hS2D : ((S1.computeVariableStatus v).computeVariableStatus p).dissolvedReluVariables =
        S1.dissolvedReluVariables := rfl
    generalize (S1.computeVariableStatus v).computeVariableStatus p = S2
      at hS2v hS2p hS2T hS2B hS2A hS2L hS2U hS2D ⊢
    have hform2 : S2.TableauForm := by
      unfold Reluplex.TableauForm
      rw [hS2T, hS2B, hT, hB]
      exact hform
    obtain ⟨m1, m2, m3, m4, m5, m6⟩ := moveIntoBound_frame S2 v beta
    have hmv := moveIntoBound_value S2 v beta hform2
    have hmn := moveIntoBound_of_not_out S2 v beta
    generalize S2.moveIntoBound v beta = S3 at m1 m2 m3 m4 m5 m6 hmv hmn ⊢
    have hform3 : S3.TableauForm := by
      unfold Reluplex.TableauForm
      rw [m4, m5]
      exact hform2
    obtain ⟨n1, n2, n3, n4, n5, n6⟩ := moveIntoBound_frame S3 p beta
    have hoob : (0 : ℚ) < OOB_EPSILON - DEFAULT_EPSILON := by
      norm_num [DEFAULT_EPSILON, OOB_EPSILON]
    have heps0 : (0 : ℚ) < DEFAULT_EPSILON := by norm_num [DEFAULT_EPSILON]
    refine ⟨_, Or.inl rfl, ?_, ?_, ?_, ?_, ?_, ?_, fun _ => rfl, fun _ => ?_⟩
    · rw [n1, m1, hS2U]; exact hUv
    · rw [n1, m1, hS2U]; exact hUp
    · rw [n3, m3, hS2D]; exact hD
    · rw [n4, m4, hS2T]; exact hT
    · rw [n2, m2, hS2L]; exact hL
    · rw [n5, m5, hS2B]; exact hB
    · intro x hx hxnb
      have hx2 : x ∉ S2.basicVariables := by rw [hS2B, hB]; exact hxnb
      have hx3 : x ∉ S3.basicVariables := by rw [m5]; exact hx2
      rcases hx with rfl | rfl
      · -- the updated variable itself
        have hcell : S3.tableau.cell x p = none :=
          Reluplex.cell_eq_none_of_nonbasic S3 hform3 x p hx3
        rw [(n6 x hvp hcell).2]
        constructor
        · intro hgt
          have hst := statusOf_above S1 x (by rw [hUv]) (by rw [hUv, hA]; exact hgt)
          have hout : S2.outOfBounds x = true := by
            unfold Reluplex.outOfBounds Reluplex.tooLow Reluplex.tooHigh
            rw [hS2v, hst]
            rfl
          rw [hmv hx2 hout (by
            rw [hS2A, hA, abs_sub_comm, abs_of_pos (by linarith)]
            linarith)]
          exact turnAlmostZeroToZero_of_gt beta hbeta
        · intro hle hlb
          have hst := statusOf_inside S1 x (by rw [hUv]) (by rw [hUv, hA]; exact hle)
            (by rw [hL, hA]; exact hlb)
          have hout : ¬ S2.outOfBounds x = true := by
            unfold Reluplex.outOfBounds Reluplex.tooLow Reluplex.tooHigh
            rw [hS2v]
            simp [hst.1, hst.2]
          rw [hmn hout, hS2A, hA]
      · -- the partner
        have hcell : S2.tableau.cell x v = none :=
          Reluplex.cell_eq_none_of_nonbasic S2 hform2 x v hx2
        obtain ⟨hst3, hasg3⟩ := m6 x hpv hcell
        constructor
        · intro hgt
          have hst := statusOf_above S1 x (by rw [hUp]) (by rw [hUp, hA]; exact hgt)
          have hout : S3.outOfBounds x = true := by
            unfold Reluplex.outOfBounds Reluplex.tooLow Reluplex.tooHigh
            rw [hst3, hS2p, hst]
            rfl
          rw [moveIntoBound_value S3 x beta hform3 hx3 hout (by
            rw [hasg3, hS2A, hA, abs_sub_comm, abs_of_pos (by linarith)]
            linarith)]
          exact turnAlmostZeroToZero_of_gt beta hbeta
        · intro hle hlb
          have hst := statusOf_inside S1 x (by rw [hUp]) (by rw [hUp, hA]; exact hle)
            (by rw [hL, hA]; exact hlb)
          have hout : ¬ S3.outOfBounds x = true := by
            unfold Reluplex.outOfBounds Reluplex.tooLow Reluplex.tooHigh
            rw [hst3, hS2p]
            simp [hst.1, hst.2]
          rw [moveIntoBound_of_not_out S3 x beta hout, hasg3, hS2A, hA]

set_option maxRecDepth 100000 in
theorem smallState_activePair : (smallState false).ActivePair 0 1 := by
  unfold Reluplex.ActivePair
  decide!

theorem Tableau.cell_of_mem (t : Tableau) (hone : t.OneCellPerPosition) (e : Entry)
    (he : e ∈ t.entries) : t.cell e.row e.column = some e.value := by
  unfold Tableau.OneCellPerPosition Tableau.positions at hone
  unfold Tableau.cell Tableau.find
  revert hone he
  generalize t.entries = l
  intro hone he
  induction l with
  | nil => cases he
  | cons e1 rest ih =>
    simp only [List.map_cons, List.nodup_cons] at hone
    simp only [List.find?_cons]
    rcases List.mem_cons.mp he with h | h
    · subst h
      simp
    · have hne : ¬ (e1.row = e.row ∧ e1.column = e.column) := by
        intro hc
        apply hone.1
        exact List.mem_map.mpr ⟨e, h, by rw [hc.1, hc.2]⟩
      simp only [hne, decide_False]
      exact ih hone.2 h

theorem Tableau.not_isZero_of_keep (v w : ℚ) (h : Tableau.keep v = some w) :
    isZero w DEFAULT_EPSILON = false := by
  unfold Tableau.keep at h
  by_cases hz : isZero v DEFAULT_EPSILON = true
  · simp [hz] at h
  · simp only [hz, Bool.false_eq_true, if_false, Option.some.injEq] at h
    rw [← h]
    simpa using hz

theorem pivotTableau_zeroFree (t : Tableau) (nb b : ℕ) (hone : t.OneCellPerPosition)
    (hzero : t.ZeroFree) (hrow : t.getRow nb = []) (hne : b ≠ nb) :
    (Reluplex.pivotTableau t nb b).ZeroFree := by
  obtain ⟨p1, p2, p3, p4, p5⟩ := pivotTableau_spec t nb b hone hrow hne
  intro e he
  have hcell := Tableau.cell_of_mem _ p1 e he
  by_cases hrn : e.row = nb
  · rw [hrn, p3 e.column] at hcell
    cases hbc : t.cell b e.column with
    | none => rw [hbc] at hcell; cases hcell
    | some w =>
      rw [hbc] at hcell
      exact Tableau.not_isZero_of_keep _ _ hcell
  · by_cases hrb : e.row = b
    · exfalso
      have := (Tableau.getRow_eq_nil_iff _ b).mp p2 e.column
      rw [hrb, this] at hcell
      cases hcell
    · rw [p5 e.row hrn hrb e.column] at hcell
      cases hq : t.cell e.row nb with
      | none =>
        rw [hq] at hcell
        exact Tableau.not_isZero_of_cell t hzero _ _ _ hcell
      | some q =>
        rw [hq] at hcell
        simp only at hcell
        cases hw : (Reluplex.pivotTableau t nb b).cell nb e.column with
        | none =>
          rw [hw] at hcell
          exact Tableau.not_isZero_of_cell t hzero _ _ _ hcell
        | some w =>
          rw [hw] at hcell
          exact Tableau.not_isZero_of_keep _ _ hcell

theorem gt_abs_zero_of_not_isZero (x : ℚ) (h : isZero x DEFAULT_EPSILON = false) :
    gt |x| 0 DEFAULT_EPSILON = true := by
  apply gt_of_lt _ _ _ (by norm_num [DEFAULT_EPSILON])
  rw [zero_add]
  by_contra hc
  have := (isZero_default_iff x).mpr (not_lt.mp hc)
  rw [h] at this
  cases this

theorem makeNonBasicCandidate_spec (basic forbiddenPartner : ℕ) (P : ℕ → Prop)
    (l : List Entry) :
    ∀ (found : Bool) (leastEvilNonBasic : ℕ) (leastEvilWeight : ℚ) (c : ℕ),
      (∀ e ∈ l, isZero e.value DEFAULT_EPSILON = false) →
      (∀ e ∈ l, e.column ≠ basic → e.column ≠ forbiddenPartner → P e.column) →
      (found = true → P leastEvilNonBasic) → (found = false → leastEvilWeight = 0) →
      Reluplex.makeNonBasicCandidate basic forbiddenPartner l found leastEvilNonBasic
        leastEvilWeight = some c → P c := by
  induction l with
  | nil =>
    intro found le lw c _ _ hf _ h
    unfold Reluplex.makeNonBasicCandidate at h
    cases found with
    | false => simp at h
    | true =>
      simp only [if_true, Option.some.injEq] at h
      rw [← h]
      exact hf rfl
  | cons e rest ih =>
    intro found le lw c hz hP hf hw h
    have hz2 : ∀ e1 ∈ rest, isZero e1.value DEFAULT_EPSILON = false :=
      fun e1 he1 => hz e1 (List.mem_cons_of_mem _ he1)
    have hP2 : ∀ e1 ∈ rest, e1.column ≠ basic → e1.column ≠ forbiddenPartner → P e1.column :=
      fun e1 he1 => hP e1 (List.mem_cons_of_mem _ he1)
    unfold Reluplex.makeNonBasicCandidate at h
    by_cases hskip : e.column = basic ∨ e.column = forbiddenPartner
    · rw [if_pos hskip] at h
      exact ih found le lw c hz2 hP2 hf hw h
    · rw [if_neg hskip] at h
      have hPe : P e.column :=
        hP e (List.mem_cons_self _ _) (fun h1 => hskip (Or.inl h1)) (fun h1 => hskip (Or.inr h1))
      by_cases hbig : gte |e.value| NUMBERICAL_INSTABILITY_CONSTANT DEFAULT_EPSILON = true
      · rw [if_pos hbig] at h
        simp only [Option.some.injEq] at h
        rw [← h]
        exact hPe
      · rw [if_neg hbig] at h
        by_cases hgt : gt |e.value| lw DEFAULT_EPSILON = true
        · rw [if_pos hgt] at h
          exact ih true e.column |e.value| c hz2 hP2 (fun _ => hPe) (fun h1 => by cases h1) h
        · rw [if_neg hgt] at h
          refine ih true le lw c hz2 hP2 (fun _ => ?_) (fun h1 => by cases h1) h
          cases hfound : found with
          | true => exact hf hfound
          | false =>
            exfalso
            apply hgt
            rw [hw hfound]
            exact gt_abs_zero_of_not_isZero _ (hz e (List.mem_cons_self _ _))

theorem makeNonBasic_spec (s : Reluplex) (basic forbiddenPartner : ℕ)
    (hform : s.TableauForm) (hzero : s.tableau.ZeroFree) (hb : basic ∈ s.basicVariables) :
    s.makeNonBasic basic forbiddenPartner = .thrown (.error .CANT_MAKE_NON_BASIC) s ∨
    ∃ c, c ≠ basic ∧ c ≠ forbiddenPartner ∧ c ∉ s.basicVariables ∧
      s.tableau.getCell basic c ≠ 0 ∧
      s.makeNonBasic basic forbiddenPartner = .ok ()
        { s with
          basicVariables := insert c (s.basicVariables.erase basic)
          tableau := Reluplex.pivotTableau s.tableau c basic } := by
  unfold Reluplex.makeNonBasic
  simp only [hb, not_true_eq_false, if_false]
  cases hcand : Reluplex.makeNonBasicCandidate basic forbiddenPartner
      (s.tableau.getRow basic) false 0 0 with
  | none => left; rfl
  | some c =>
    right
    have hP := makeNonBasicCandidate_spec basic forbiddenPartner
      (fun c => c ≠ basic ∧ c ≠ forbiddenPartner ∧ (s.tableau.cell basic c).isSome = true)
      (s.tableau.getRow basic) false 0 0 c
      (fun e he => hzero e (List.mem_filter.mp he).1)
      (fun e he h1 h2 => ⟨h1, h2, by
        rw [Tableau.cell_isSome_iff]
        have her : e.row = basic := by simpa [Tableau.getRow] using (List.mem_filter.mp he).2
        unfold Tableau.positions
        exact List.mem_map.mpr ⟨e, (List.mem_filter.mp he).1, by rw [her]⟩⟩)
      (fun h => by cases h) (fun _ => rfl) hcand
    obtain ⟨h1, h2, h3⟩ := hP
    have hcnb : c ∉ s.basicVariables := by
      intro hc
      have := Tableau.cells_of_getColumn_eq s.tableau c (-1) (hform.2.1 c hc) basic
      rw [if_neg (fun h => h1 h.symm)] at this
      rw [this] at h3
      cases h3
    have hne0 : s.tableau.getCell basic c ≠ 0 := by
      rw [Tableau.getCell_eq]
      cases hcell : s.tableau.cell basic c with
      | none => rw [hcell] at h3; cases h3
      | some w =>
        exact ne_zero_of_not_isZero (Tableau.not_isZero_of_cell s.tableau hzero _ _ _ hcell)
    exact ⟨c, h1, h2, hcnb, hne0, pivot_ok s c basic hb hcnb⟩

theorem Tableau.getColumn_addColumnEraseSource (t : Tableau) (source target : ℕ) :
    (t.addColumnEraseSource source target).getColumn source = [] := by
  unfold Tableau.addColumnEraseSource
  by_cases ha : (!t.activeColumn source) = true
  · simp only [ha, if_true]
    unfold Tableau.activeColumn at ha
    simpa using ha
  · simp only [ha, Bool.false_eq_true, if_false]
    unfold Tableau.eraseColumn Tableau.getColumn
    simp only
    rw [List.filter_filter, List.filter_eq_nil_iff]
    intro e _
    simp

theorem updateAssignment_fold_reluPairs (v : ℕ) (delta : ℚ) (l : List Entry) :
    ∀ st : Reluplex,
      (l.foldl (fun st current =>
          if current.row ≠ v then st.addToAssignment current.row (delta * current.value)
          else st) st).reluPairs = st.reluPairs := by
  induction l with
  | nil => intro st; rfl
  | cons e rest ih =>
    intro st
    simp only [List.foldl_cons]
    split
    · rw [ih]; rfl
    · rw [ih]

theorem updateIgnoringRelu_frame_all (s : Reluplex) (v : ℕ) (delta : ℚ) :
    (s.updateIgnoringRelu v delta).upperBounds = s.upperBounds ∧
    (s.updateIgnoringRelu v delta).lowerBounds = s.lowerBounds ∧
    (s.updateIgnoringRelu v delta).dissolvedReluVariables = s.dissolvedReluVariables ∧
    (s.updateIgnoringRelu v delta).tableau = s.tableau ∧
    (s.updateIgnoringRelu v delta).basicVariables = s.basicVariables ∧
    (s.updateIgnoringRelu v delta).reluPairs = s.reluPairs := by
  unfold Reluplex.updateIgnoringRelu
  split
  · exact ⟨rfl, rfl, rfl, rfl, rfl, rfl⟩
  · obtain ⟨h1, h2, h3, h4, h5, _⟩ := updateAssignment_frame s v delta
    refine ⟨h1, h2, h3, h4, h5, ?_⟩
    unfold Reluplex.updateAssignment
    rw [updateAssignment_fold_reluPairs]
    rfl

theorem moveIntoBound_reluPairs (s : Reluplex) (v : ℕ) (target : ℚ) :
    (s.moveIntoBound v target).reluPairs = s.reluPairs := by
  unfold Reluplex.moveIntoBound
  split
  · exact (updateIgnoringRelu_frame_all s v _).2.2.2.2.2
  · rfl

theorem unifyNonBasic_spec (s : Reluplex) (b f : ℕ) (hform : s.TableauForm)
    (hb : b ∉ s.basicVariables) (hf : f ∉ s.basicVariables) (hne : b ≠ f) :
    (s.unifyNonBasic b f).tableau.getColumn b = [] ∧
    (s.unifyNonBasic b f).basicVariables = s.basicVariables ∧
    (s.unifyNonBasic b f).dissolvedReluVariables = s.dissolvedReluVariables ∧
    (s.unifyNonBasic b f).lowerBounds = s.lowerBounds ∧
    (s.unifyNonBasic b f).upperBounds = s.upperBounds ∧
    |(s.unifyNonBasic b f).assignment b - (s.unifyNonBasic b f).assignment f| ≤
      DEFAULT_EPSILON := by
  unfold Reluplex.unifyNonBasic
  simp only
  have hstep1 : ∃ d, (if s.tooLow f = true then
        s.updateIgnoringRelu f ((s.lowerBounds f).bound - s.assignment f)
      else if s.tooHigh f = true then
        s.updateIgnoringRelu f ((s.upperBounds f).bound - s.assignment f)
      else s) = s.updateIgnoringRelu f d := by
    split
    · exact ⟨_, rfl⟩
    · split
      · exact ⟨_, rfl⟩
      · refine ⟨0, ?_⟩
        unfold Reluplex.updateIgnoringRelu
        rw [isZero_zero]
        rfl
  obtain ⟨d, hd⟩ := hstep1
  rw [hd]
  obtain ⟨a1, a2, a3, a4, a5, _⟩ := updateIgnoringRelu_frame_all s f d
  generalize s.updateIgnoringRelu f d = s1 at a1 a2 a3 a4 a5 ⊢
  have hform1 : s1.TableauForm := by
    unfold Reluplex.TableauForm
    rw [a4, a5]
    exact hform
  have hb1 : b ∉ s1.basicVariables := by rw [a5]; exact hb
  have hf1 : f ∉ s1.basicVariables := by rw [a5]; exact hf
  obtain ⟨c1, c2, c3, c4, c5, _⟩ :=
    updateIgnoringRelu_frame_all s1 b (s1.assignment f - s1.assignment b)
  refine ⟨Tableau.getColumn_addColumnEraseSource _ b f, c5.trans a5, c3.trans a3,
    c2.trans a2, c1.trans a1, ?_⟩
  show |(s1.updateIgnoringRelu b (s1.assignment f - s1.assignment b)).assignment b -
      (s1.updateIgnoringRelu b (s1.assignment f - s1.assignment b)).assignment f| ≤
      DEFAULT_EPSILON
  unfold Reluplex.updateIgnoringRelu
  by_cases hz : isZero (s1.assignment f - s1.assignment b) DEFAULT_EPSILON = true
  · simp only [hz, if_true]
    rw [abs_sub_comm]
    exact (isZero_default_iff _).mp hz
  · simp only [hz, Bool.false_eq_true, if_false]
    obtain ⟨_, _, _, hA⟩ := updateAssignment_spec s1 b (s1.assignment f - s1.assignment b)
      hform1 hb1
    rw [hA b, if_pos rfl, hA f, if_neg (fun h => hne h.symm),
      Reluplex.cell_eq_none_of_nonbasic s1 hform1 f b hf1]
    have : s1.assignment b + (s1.assignment f - s1.assignment b) = s1.assignment f := by ring
    rw [this]
    exact turnAlmostZeroToZero_err _

/-- The step `if ( _basicVariables.exists( x ) ) makeNonBasic( x, y );` of `unifyReluPair`. -/
theorem makeNonBasic_if_spec (s : Reluplex) (x y : ℕ)
    (hform : s.TableauForm) (hzero : s.tableau.ZeroFree) :
    ((if x ∈ s.basicVariables then s.makeNonBasic x y else Res.ok () s) =
        .thrown (.error .CANT_MAKE_NON_BASIC) s ∧ x ∈ s.basicVariables) ∨
    ∃ s1, (if x ∈ s.basicVariables then s.makeNonBasic x y else Res.ok () s) = .ok () s1 ∧
      s1.TableauForm ∧ s1.tableau.ZeroFree ∧ x ∉ s1.basicVariables ∧
      (y ∉ s.basicVariables → y ∉ s1.basicVariables) ∧
      (x ∉ s.basicVariables → s1 = s) ∧
      s1.dissolvedReluVariables = s.dissolvedReluVariables ∧
      s1.lowerBounds = s.lowerBounds ∧ s1.upperBounds = s.upperBounds ∧
      s1.reluPairs = s.reluPairs := by
  by_cases hx : x ∈ s.basicVariables
  · simp only [hx, if_true]
    rcases makeNonBasic_spec s x y hform hzero hx with h | ⟨c, h1, h2, h3, h4, h5⟩
    · left; exact ⟨h, trivial⟩
    · right
      refine ⟨_, h5, ?_, ?_, ?_, ?_, ?_, rfl, rfl, rfl, rfl⟩
      · exact pivotTableau_form s.tableau s.basicVariables c x hform.1 hform.2.1 hform.2.2
          hx h3 h4
      · exact pivotTableau_zeroFree s.tableau c x hform.1 hzero
          ((Tableau.rows_iff s.tableau s.basicVariables).mp hform.2.2 c h3)
          (fun h => h1 h.symm)
      · simp only [Finset.mem_insert, Finset.mem_erase, not_or, not_and]
        exact ⟨fun h => h1 h.symm, fun h => absurd rfl h⟩
      · intro hy
        simp only [Finset.mem_insert, Finset.mem_erase, not_or, not_and]
        exact ⟨fun h => h2 h.symm, fun _ => hy⟩
      · intro hc
        exact absurd trivial hc
  · right
    simp only [hx, if_false]
    exact ⟨s, rfl, hform, hzero, hx, fun h => h, fun _ => rfl, rfl, rfl, rfl, rfl⟩

theorem unifyReluPair_spec (s : Reluplex) (b f : ℕ)
    (hform : s.TableauForm) (hzero : s.tableau.ZeroFree) (hpair : s.ActivePair b f) :
    (s.tableau.getColumnSize b = 0 → s.unifyReluPair f = .ok false s) ∧
    (s.tableau.getColumnSize b ≠ 0 →
      (∃ s1, s.unifyReluPair f = .thrown (.error .CANT_MAKE_NON_BASIC) s1 ∧
        (b ∈ s.basicVariables ∨ f ∈ s.basicVariables) ∧
        s1.lowerBounds = s.lowerBounds) ∨
      (∃ s1, s.unifyReluPair f = .ok true s1 ∧
        s1.dissolvedReluVariables f = some .TYPE_MERGE ∧
        s1.tableau.getColumn b = [] ∧ b ∉ s1.basicVariables ∧ f ∉ s1.basicVariables ∧
        |s1.assignment b - s1.assignment f| ≤ DEFAULT_EPSILON ∧
        s1.lowerBounds = s.lowerBounds)) := by
  obtain ⟨_, l2, _, _⟩ := hpair.lookup_f
  have hact := hpair.2.2.2.2
  unfold Reluplex.unifyReluPair
  simp only [l2]
  constructor
  · intro h0
    simp [h0]
  · intro h0
    simp only [h0, if_false]
    rcases makeNonBasic_if_spec s b f hform hzero with ⟨h1, hb⟩ |
      ⟨s1, h1, hform1, hzero1, hb1, _, hsame1, hD1, hL1, hU1, hR1⟩
    · left
      refine ⟨s, ?_, Or.inl hb, rfl⟩
      rw [h1]
      rfl
    · rw [h1]
      simp only [Res.andThen]
      rcases makeNonBasic_if_spec s1 f b hform1 hzero1 with ⟨h2, hf⟩ |
        ⟨s2, h2, hform2, hzero2, hf2, hb2, _, hD2, hL2, hU2, hR2⟩
      · left
        refine ⟨s1, ?_, ?_, hL1⟩
        · rw [h2]
        · by_cases hb : b ∈ s.basicVariables
          · exact Or.inl hb
          · right
            rw [hsame1 hb] at hf
            exact hf
      · right
        rw [h2]
        simp only
        obtain ⟨u1, u2, u3, u4, u5, u6⟩ :=
          unifyNonBasic_spec s2 b f hform2 (hb2 hb1) hf2 hpair.ne
        have hDnone : (s2.unifyNonBasic b f).dissolvedReluVariables f = none := by
          rw [u3, hD2, hD1]; exact hact
        refine ⟨(s2.unifyNonBasic b f).withDissolved f .TYPE_MERGE, ?_, ?_, u1, ?_, ?_, u6, ?_⟩
        · unfold Reluplex.markReluVariableDissolved
          simp [hDnone, Reluplex.withDissolved]
        · simp [Reluplex.withDissolved]
        · show b ∉ (s2.unifyNonBasic b f).basicVariables
          rw [u2]; exact hb2 hb1
        · show f ∉ (s2.unifyNonBasic b f).basicVariables
          rw [u2]; exact hf2
        · show (s2.unifyNonBasic b f).lowerBounds = s.lowerBounds
          rw [u4, hL2, hL1]

theorem boundInvariantHolds_of_finite_le (s : Reluplex) (v : ℕ)
    (h : (s.upperBounds v).finite = true → (s.lowerBounds v).finite = true →
      (s.lowerBounds v).bound ≤ (s.upperBounds v).bound) :
    s.boundInvariantHolds v = none := by
  unfold Reluplex.boundInvariantHolds
  by_cases hf : (!(s.upperBounds v).finite || !(s.lowerBounds v).finite) = true
  · simp [hf]
  · have hub : (s.upperBounds v).finite = true := by
      cases h1 : (s.upperBounds v).finite
      · simp [h1] at hf
      · rfl
    have hlb : (s.lowerBounds v).finite = true := by
      cases h1 : (s.lowerBounds v).finite
      · simp [h1] at hf
      · rfl
    simp only [hf, Bool.false_eq_true, if_false, lte_of_le _ _ _ (h hub hlb), Bool.not_true]

/-- The non-negative branch of `updateLowerBound` on a member `v` of a pair, with partner
`p`. -/
theorem updateLowerBound_nonneg_branch (s : Reluplex) (b f v p : ℕ) (beta : ℚ) (lvl : ℕ)
    (hpair : s.ActivePair b f) (hv : (v = b ∧ p = f) ∨ (v = f ∧ p = b))
    (hbeta : 0 ≤ beta) :
    s.updateLowerBound v beta lvl =
      match ((s.storeLowerBound v beta lvl).storeLowerBound p beta
          lvl).boundInvariantHolds2 v p with
      | some violatingStackLevel =>
        .thrown (.invariantViolation violatingStackLevel)
          ((s.storeLowerBound v beta lvl).storeLowerBound p beta lvl)
      | none =>
        ((((((s.storeLowerBound v beta lvl).storeLowerBound p beta
          lvl).computeVariableStatus v).computeVariableStatus p).moveIntoBound
          v beta).moveIntoBound p beta).unifyReluPair f := by
  have hact := hpair.2.2.2.2
  have hneg : isNegative beta DEFAULT_EPSILON = false := isNegative_of_nonneg _ _ hbeta
  have hadj : s.adjustLower beta = beta := by
    unfold Reluplex.adjustLower
    simp [hneg]
  obtain ⟨l1, l2, l3, _, _⟩ := hpair.lookup v p hv
  unfold Reluplex.updateLowerBound
  simp only [l1, l2, l3, hact, hadj, hneg, Option.getD_some, if_true, Bool.not_true,
    Option.isSome_none, Bool.or_self, Bool.false_eq_true, if_false, Bool.not_false]

/-- The non-negative branch of `updateLowerBound`, for a member `v` of the pair `(b, f)` and
its partner `p`. -/
theorem updateLowerBound_nonneg_core (s : Reluplex) (b f v p : ℕ) (beta : ℚ) (lvl : ℕ)
    (hform : s.TableauForm) (hzero : s.tableau.ZeroFree) (hpair : s.ActivePair b f)
    (hv : (v = b ∧ p = f) ∨ (v = f ∧ p = b)) (hbeta : 0 ≤ beta) :
    ∃ s1,
      ((∃ r, s.updateLowerBound v beta lvl = .ok r s1 ∧
          (r = true ↔ s.tableau.getColumnSize b ≠ 0) ∧
          (s.tableau.getColumnSize b = 0 →
            s1.dissolvedReluVariables = s.dissolvedReluVariables ∧ s1.tableau = s.tableau) ∧
          (s.tableau.getColumnSize b ≠ 0 →
            s1.dissolvedReluVariables f = some .TYPE_MERGE ∧
            s1.tableau.getColumn b = [] ∧ b ∉ s1.basicVariables ∧ f ∉ s1.basicVariables ∧
            |s1.assignment b - s1.assignment f| ≤ DEFAULT_EPSILON)) ∨
        (∃ level, s.updateLowerBound v beta lvl = .thrown (.invariantViolation level) s1) ∨
        (s.updateLowerBound v beta lvl = .thrown (.error .CANT_MAKE_NON_BASIC) s1 ∧
          (b ∈ s.basicVariables ∨ f ∈ s.basicVariables))) ∧
      s1.lowerBounds v = { finite := true, bound := beta, level := lvl } ∧
      s1.lowerBounds p = { finite := true, bound := beta, level := lvl } ∧
      ((((s.upperBounds v).finite = true → beta ≤ (s.upperBounds v).bound) ∧
        ((s.upperBounds p).finite = true → beta ≤ (s.upperBounds p).bound) ∧
        b ∉ s.basicVariables ∧ f ∉ s.basicVariables) →
        ∃ r, s.updateLowerBound v beta lvl = .ok r s1) := by
  obtain ⟨_, _, _, _, hvp⟩ := hpair.lookup v p hv
  rw [updateLowerBound_nonneg_branch s b f v p beta lvl hpair hv hbeta]
  have hLv : ((s.storeLowerBound v beta lvl).storeLowerBound p beta lvl).lowerBounds v =
      { finite := true, bound := beta, level := lvl } := by
    simp [Reluplex.storeLowerBound, Function.update, hvp,
      VariableBound.setBound, VariableBound.setLevel]
  have hLp : ((s.storeLowerBound v beta lvl).storeLowerBound p beta lvl).lowerBounds p =
      { finite := true, bound := beta, level := lvl } := by
    simp [Reluplex.storeLowerBound, Function.update,
      VariableBound.setBound, VariableBound.setLevel]
  have hD : ((s.storeLowerBound v beta lvl).storeLowerBound p beta
      lvl).dissolvedReluVariables = s.dissolvedReluVariables := rfl
  have hU : ((s.storeLowerBound v beta lvl).storeLowerBound p beta lvl).upperBounds =
      s.upperBounds := rfl
  have hT : ((s.storeLowerBound v beta lvl).storeLowerBound p beta lvl).tableau =
      s.tableau := rfl
  have hB : ((s.storeLowerBound v beta lvl).storeLowerBound p beta lvl).basicVariables =
      s.basicVariables := rfl
  have hR : ((s.storeLowerBound v beta lvl).storeLowerBound p beta lvl).reluPairs =
      s.reluPairs := rfl
  generalize (s.storeLowerBound v beta lvl).storeLowerBound p beta lvl = S1
    at hD hLv hLp hU hT hB hR ⊢
  cases hbi : S1.boundInvariantHolds2 v p with
  | some level =>
    refine ⟨S1, Or.inr (Or.inl ⟨level, rfl⟩), hLv, hLp, ?_⟩
    intro hle
    exfalso
    have h1 := boundInvariantHolds_of_finite_le S1 v
      (by rw [hLv, hU]; exact fun h _ => hle.1 h)
    have h2 := boundInvariantHolds_of_finite_le S1 p
      (by rw [hLp, hU]; exact fun h _ => hle.2.1 h)
    unfold Reluplex.boundInvariantHolds2 at hbi
    rw [h1, h2] at hbi
    cases hbi
  | none =>
    simp only
    have hS2T : ((S1.computeVariableStatus v).computeVariableStatus p).tableau = S1.tableau := rfl
    have hS2B : ((S1.computeVariableStatus v).computeVariableStatus p).basicVariables =
        S1.basicVariables := rfl
    have hS2L : ((S1.computeVariableStatus v).computeVariableStatus p).lowerBounds =
        S1.lowerBounds := rfl
    have hS2D : ((S1.computeVariableStatus v).computeVariableStatus p).dissolvedReluVariables =
        S1.dissolvedReluVariables := rfl
    have hS2R : ((S1.computeVariableStatus v).computeVariableStatus p).reluPairs =
        S1.reluPairs := rfl
    generalize (S1.computeVariableStatus v).computeVariableStatus p = S2
      at hS2T hS2B hS2L hS2D hS2R ⊢
    obtain ⟨_, m2, m3, m4, m5, _⟩ := moveIntoBound_frame S2 v beta
    have mR := moveIntoBound_reluPairs S2 v beta
    generalize S2.moveIntoBound v beta = S3 at m2 m3 m4 m5 mR ⊢
    obtain ⟨_, n2, n3, n4, n5, _⟩ := moveIntoBound_frame S3 p beta
    have nR := moveIntoBound_reluPairs S3 p beta
    generalize S3.moveIntoBound p beta = S4 at n2 n3 n4 n5 nR ⊢
    have e4T : S4.tableau = s.tableau := by rw [n4, m4, hS2T, hT]
    have e4B : S4.basicVariables = s.basicVariables := by rw [n5, m5, hS2B, hB]
    have e4D : S4.dissolvedReluVariables = s.dissolvedReluVariables := by rw [n3, m3, hS2D, hD]
    have e4R : S4.reluPairs = s.reluPairs := by rw [nR, mR, hS2R, hR]
    have e4L : S4.lowerBounds = S1.lowerBounds := by rw [n2, m2, hS2L]
    have hform4 : S4.TableauForm := by
      unfold Reluplex.TableauForm
      rw [e4T, e4B]
      exact hform
    have hzero4 : S4.tableau.ZeroFree := by rw [e4T]; exact hzero
    have hpair4 : S4.ActivePair b f := by
      unfold Reluplex.ActivePair
      rw [e4R, e4D]
      exact hpair
    obtain ⟨q1, q2⟩ := unifyReluPair_spec S4 b f hform4 hzero4 hpair4
    rw [e4T] at q1 q2
    by_cases h0 : s.tableau.getColumnSize b = 0
    · refine ⟨S4, Or.inl ⟨false, q1 h0, ?_, fun _ => ⟨e4D, e4T⟩, fun h => absurd h0 h⟩,
        by rw [e4L]; exact hLv, by rw [e4L]; exact hLp, fun _ => ⟨false, q1 h0⟩⟩
      simp [h0]
    · rcases q2 h0 with ⟨s1, r1, r2, r3⟩ | ⟨s1, r1, r2, r3, r4, r5, r6, r7⟩
      · rw [e4B] at r2
        refine ⟨s1, Or.inr (Or.inr ⟨r1, r2⟩), by rw [r3, e4L]; exact hLv,
          by rw [r3, e4L]; exact hLp, ?_⟩
        intro hle
        exfalso
        rcases r2 with hb | hf
        · exact hle.2.2.1 hb
        · exact hle.2.2.2 hf
      · refine ⟨s1, Or.inl ⟨true, r1, ?_, fun h => absurd h h0,
          fun _ => ⟨r2, r3, r4, r5, r6⟩⟩, by rw [r7, e4L]; exact hLv,
          by rw [r7, e4L]; exact hLp, fun _ => ⟨true, r1⟩⟩
        simp [h0]

theorem lte_eq_false_of_lt (x y eps : ℚ) (heps : 0 ≤ eps) (h : y + eps < x) :
    lte x y eps = false := by
  unfold lte gte isNegative
  have hz : isZero (y - x) eps = false := by
    cases hc : isZero (y - x) eps
    · rfl
    · have := (isZero_iff _ _ heps).mp hc
      have := neg_abs_le (y - x)
      linarith
  have hlt : y - x < 0 := by linarith
  simp [hz, hlt]

theorem isNegative_of_lt (x eps : ℚ) (heps : 0 ≤ eps) (h : x < -eps) :
    isNegative x eps = true := by
  unfold isNegative
  have hz : isZero x eps = false := by
    cases hc : isZero x eps
    · rfl
    · have := (isZero_iff _ _ heps).mp hc
      have := neg_abs_le x
      linarith
  have hx : x < 0 := by linarith
  simp [hz, hx]

theorem boundInvariantHolds_eq_some (s : Reluplex) (v : ℕ)
    (hub : (s.upperBounds v).finite = true) (hlb : (s.lowerBounds v).finite = true)
    (h : (s.upperBounds v).bound + DEFAULT_EPSILON < (s.lowerBounds v).bound) :
    s.boundInvariantHolds v = some (max (s.lowerBounds v).level (s.upperBounds v).level) := by
  unfold Reluplex.boundInvariantHolds
  simp [hub, hlb, lte_eq_false_of_lt _ _ _ (by norm_num [DEFAULT_EPSILON]) h]

theorem boundInvariantHolds_iff (s : Reluplex) (v : ℕ) :
    s.boundInvariantHolds v = none ↔
      ¬ ((s.upperBounds v).finite = true ∧ (s.lowerBounds v).finite = true ∧
        (s.upperBounds v).bound + DEFAULT_EPSILON < (s.lowerBounds v).bound) := by
  constructor
  · intro h hc
    rw [boundInvariantHolds_eq_some s v hc.1 hc.2.1 hc.2.2] at h
    cases h
  · intro h
    by_cases hub : (s.upperBounds v).finite = true
    · by_cases hlb : (s.lowerBounds v).finite = true
      · unfold Reluplex.boundInvariantHolds
        have hle : (s.lowerBounds v).bound ≤ (s.upperBounds v).bound + DEFAULT_EPSILON := by
          by_contra hc
          exact h ⟨hub, hlb, not_le.mp hc⟩
        have hl : lte (s.lowerBounds v).bound (s.upperBounds v).bound DEFAULT_EPSILON = true := by
          unfold lte gte
          cases hn : isNegative ((s.upperBounds v).bound - (s.lowerBounds v).bound)
              DEFAULT_EPSILON
          · rfl
          · exfalso
            unfold isNegative at hn
            simp only [Bool.and_eq_true, Bool.not_eq_true', decide_eq_true_eq] at hn
            have hz := hn.1
            have : isZero ((s.upperBounds v).bound - (s.lowerBounds v).bound)
                DEFAULT_EPSILON = true := by
              rw [isZero_default_iff, abs_of_neg hn.2]
              linarith
            rw [this] at hz
            cases hz
        simp [hub, hlb, hl]
      · unfold Reluplex.boundInvariantHolds
        simp [hlb]
    · unfold Reluplex.boundInvariantHolds
      simp [hub]

set_option maxRecDepth 100000 in
/-- C11, counterexample: in `freeInputPairAtLevelTwo`, with or without `DEBUG_ON`, the pair
`(b, f) = (0, 1)` is active and `lb(f) = 0` has level `2`. `updateUpperBound( f, -1, 1 )`
raises an invariant violation that carries level `2`, not the level `1` of the call: the
level thrown is the larger of the levels of the two bounds of `f`. And in `smallState` the
call `updateUpperBound( f, -0.00000000001, 1 )` raises nothing: the bound is not
`isNegative`, and the pair is dissolved as a split. -/
theorem C11_violation_carries_max_level :
    ((freeInputPairAtLevelTwo false).reluPairs.fToB 1 = some 0 ∧
      (freeInputPairAtLevelTwo false).dissolvedReluVariables 1 = none ∧
      (freeInputPairAtLevelTwo false).lowerBounds 1 =
        { finite := true, bound := 0, level := 2 } ∧
      ((freeInputPairAtLevelTwo false).updateUpperBound 1 (-1) 1).thrown? =
        some (.invariantViolation 2)) ∧
    ((freeInputPairAtLevelTwo true).reluPairs.fToB 1 = some 0 ∧
      (freeInputPairAtLevelTwo true).dissolvedReluVariables 1 = none ∧
      (freeInputPairAtLevelTwo true).lowerBounds 1 =
        { finite := true, bound := 0, level := 2 } ∧
      ((freeInputPairAtLevelTwo true).updateUpperBound 1 (-1) 1).thrown? =
        some (.invariantViolation 2)) ∧
    ((smallState false).reluPairs.fToB 1 = some 0 ∧
      (smallState false).dissolvedReluVariables 1 = none ∧
      (-1 / 100000000000 : ℚ) < 0 ∧
      ((smallState false).updateUpperBound 1 (-1 / 100000000000) 1).thrown? = none ∧
      (((smallState false).updateUpperBound 1 (-1 / 100000000000) 1).returned?.map
        (fun s1 => s1.dissolvedReluVariables 1)) = some (some .TYPE_SPLIT)) := by
  decide!

/-- C11, amended: `updateUpperBound( f, beta, lvl )` with `beta < -DEFAULT_EPSILON` on the
`f` of an active pair stores the bound and then, when `lb(f)` is finite and exceeds `beta` by
more than `DEFAULT_EPSILON` (as every non-negative `lb(f)` does), raises an invariant
violation that carries the larger of `lvl` and the level of `lb(f)`, which is `lvl` when the
level of `lb(f)` is at most `lvl`; otherwise the process ends with `exit( 1 )`. -/
theorem C11_negative_upper_bound_on_f (s : Reluplex) (b f : ℕ) (beta : ℚ) (lvl : ℕ)
    (hpair : s.ActivePair b f) (hbeta : beta < -DEFAULT_EPSILON) :
    ((s.lowerBounds f).finite = true → beta + DEFAULT_EPSILON < (s.lowerBounds f).bound →
      s.updateUpperBound f beta lvl =
        .thrown (.invariantViolation (max (s.lowerBounds f).level lvl))
          (s.storeUpperBound f beta lvl)) ∧
    ((s.lowerBounds f).finite = true → 0 ≤ (s.lowerBounds f).bound →
      (s.lowerBounds f).level ≤ lvl →
      s.updateUpperBound f beta lvl =
        .thrown (.invariantViolation lvl) (s.storeUpperBound f beta lvl)) ∧
    (¬ ((s.lowerBounds f).finite = true ∧
        beta + DEFAULT_EPSILON < (s.lowerBounds f).bound) →
      s.updateUpperBound f beta lvl = .exited 1) := by
  have heps : (0 : ℚ) ≤ DEFAULT_EPSILON := by norm_num [DEFAULT_EPSILON]
  have hact := hpair.2.2.2.2
  have hpos : isPositive beta DEFAULT_EPSILON = false :=
    isPositive_of_nonpos _ _ (by linarith)
  have hneg : isNegative beta DEFAULT_EPSILON = true := isNegative_of_lt _ _ heps hbeta
  have hadj : s.adjustUpper beta = beta := by
    unfold Reluplex.adjustUpper
    simp [hpos]
  obtain ⟨l1, l2, l3, l4⟩ := hpair.lookup_f
  have hbranch : s.updateUpperBound f beta lvl =
      match (s.storeUpperBound f beta lvl).boundInvariantHolds f with
      | some violatingStackLevel =>
        .thrown (.invariantViolation violatingStackLevel) (s.storeUpperBound f beta lvl)
      | none => .exited 1 := by
    unfold Reluplex.updateUpperBound
    simp only [l1, l2, l3, l4, hact, hadj, hpos, hneg, Option.getD_some, if_true, Bool.not_true,
      Option.isSome_none, Bool.or_self, Bool.false_eq_true, if_false, Bool.and_self]
  have hU : (s.storeUpperBound f beta lvl).upperBounds f =
      { finite := true, bound := beta, level := lvl } := by
    simp [Reluplex.storeUpperBound, VariableBound.setBound, VariableBound.setLevel]
  have hL : (s.storeUpperBound f beta lvl).lowerBounds = s.lowerBounds := rfl
  have hthrow : (s.lowerBounds f).finite = true →
      beta + DEFAULT_EPSILON < (s.lowerBounds f).bound →
      s.updateUpperBound f beta lvl =
        .thrown (.invariantViolation (max (s.lowerBounds f).level lvl))
          (s.storeUpperBound f beta lvl) := by
    intro hfin hgap
    rw [hbranch, boundInvariantHolds_eq_some _ f (by rw [hU]) (by rw [hL]; exact hfin)
      (by rw [hU, hL]; exact hgap), hU, hL]
  refine ⟨hthrow, ?_, ?_⟩
  · intro hfin h0 hlev
    rw [hthrow hfin (by linarith), max_eq_right hlev]
  · intro hno
    rw [hbranch, (boundInvariantHolds_iff _ f).mpr (by
      rw [hU, hL]
      exact fun hc => hno ⟨hc.2.1, hc.2.2⟩)]

set_option maxRecDepth 100000 in
theorem freeInputPairAtLevelTwo_activePair : (freeInputPairAtLevelTwo false).ActivePair 0 1 := by
  unfold Reluplex.ActivePair
  decide!

set_option maxRecDepth 100000 in
/-- C11, witness: `updateUpperBound( x1, -1, 1 )` on the pair `(0, 1)` of
`freeInputPairAtLevelTwo`. -/
theorem C11_negative_upper_bound_on_f_witness :
    (freeInputPairAtLevelTwo false).ActivePair 0 1 ∧ (-1 : ℚ) < -DEFAULT_EPSILON ∧
    (freeInputPairAtLevelTwo false).updateUpperBound 1 (-1) 1 =
      .thrown (.invariantViolation (max ((freeInputPairAtLevelTwo false).lowerBounds 1).level 1))
        ((freeInputPairAtLevelTwo false).storeUpperBound 1 (-1) 1) :=
  ⟨freeInputPairAtLevelTwo_activePair, by decide!,
    (C11_negative_upper_bound_on_f (freeInputPairAtLevelTwo false) 0 1 (-1) 1
      freeInputPairAtLevelTwo_activePair (by decide!)).1 (by decide!) (by decide!)⟩

set_option maxRecDepth 100000 in
/-- C12, counterexample: in `smallState`, with or without `DEBUG_ON`, the pair
`(b, f) = (0, 1)` is active with `lb(b) = -9` and `lb(f) = 0`.
`updateLowerBound( f, -1, 1 )` returns `false` with `lb(f) = -1` at level `1` and `lb(b)`
still `-9`: the negative branch writes the lower bound of the variable it is called on. -/
theorem C12_negative_lower_bound_on_f_changes_f :
    ((smallState false).reluPairs.fToB 1 = some 0 ∧
      (smallState false).dissolvedReluVariables 1 = none ∧
      (smallState false).eliminateAlmostBrokenRelus = false ∧
      (smallState false).lowerBounds 0 = { finite := true, bound := -9, level := 0 } ∧
      (smallState false).lowerBounds 1 = { finite := true, bound := 0, level := 0 } ∧
      ((smallState false).updateLowerBound 1 (-1) 1).value? = some false ∧
      (((smallState false).updateLowerBound 1 (-1) 1).returned?.map
        (fun s1 => (s1.lowerBounds 0, s1.lowerBounds 1))) =
        some ({ finite := true, bound := -9, level := 0 },
          { finite := true, bound := -1, level := 1 })) ∧
    ((smallState true).reluPairs.fToB 1 = some 0 ∧
      (smallState true).dissolvedReluVariables 1 = none ∧
      (smallState true).eliminateAlmostBrokenRelus = false ∧
      (smallState true).lowerBounds 0 = { finite := true, bound := -9, level := 0 } ∧
      (smallState true).lowerBounds 1 = { finite := true, bound := 0, level := 0 } ∧
      ((smallState true).updateLowerBound 1 (-1) 1).value? = some false ∧
      (((smallState true).updateLowerBound 1 (-1) 1).returned?.map
        (fun s1 => (s1.lowerBounds 0, s1.lowerBounds 1))) =
        some ({ finite := true, bound := -9, level := 0 },
          { finite := true, bound := -1, level := 1 })) := by
  decide!

/-- C12, amended: `updateLowerBound( b, beta, lvl )` with `beta < -DEFAULT_EPSILON` on the
`b` of an active pair `(b, f)`, with almost-broken elimination disabled, sets `lb(b)` to
`beta`, finite with level `lvl`, and leaves every other lower bound, every upper bound, the
dissolution map, the tableau and the basic set unchanged. It returns `false`, unless `ub(b)`
is finite and `beta` exceeds it by more than `DEFAULT_EPSILON`: then it raises an invariant
violation that carries the larger of `lvl` and the level of `ub(b)`. -/
theorem C12_negative_lower_bound_on_b (s : Reluplex) (b f : ℕ) (beta : ℚ) (lvl : ℕ)
    (hpair : s.ActivePair b f) (hbeta : beta < -DEFAULT_EPSILON)
    (helim : s.eliminateAlmostBrokenRelus = false) :
    ∃ s1, s1.lowerBounds b = { finite := true, bound := beta, level := lvl } ∧
      (∀ x, x ≠ b → s1.lowerBounds x = s.lowerBounds x) ∧
      s1.upperBounds = s.upperBounds ∧
      s1.dissolvedReluVariables = s.dissolvedReluVariables ∧
      s1.tableau = s.tableau ∧ s1.basicVariables = s.basicVariables ∧
      (¬ ((s.upperBounds b).finite = true ∧
          (s.upperBounds b).bound + DEFAULT_EPSILON < beta) →
        s.updateLowerBound b beta lvl = .ok false s1) ∧
      ((s.upperBounds b).finite = true → (s.upperBounds b).bound + DEFAULT_EPSILON < beta →
        s.updateLowerBound b beta lvl =
          .thrown (.invariantViolation (max lvl (s.upperBounds b).level)) s1) := by
  have heps : (0 : ℚ) ≤ DEFAULT_EPSILON := by norm_num [DEFAULT_EPSILON]
  have hact := hpair.2.2.2.2
  have hneg : isNegative beta DEFAULT_EPSILON = true := isNegative_of_lt _ _ heps hbeta
  have hadj : s.adjustLower beta = beta := by
    unfold Reluplex.adjustLower
    simp [helim]
  obtain ⟨l1, l2, l3, l4⟩ := hpair.lookup_b
  have hbranch : s.updateLowerBound b beta lvl =
      match (s.storeLowerBound b beta lvl).boundInvariantHolds b with
      | some violatingStackLevel =>
        .thrown (.invariantViolation violatingStackLevel) (s.storeLowerBound b beta lvl)
      | none => .ok false
          (((s.storeLowerBound b beta lvl).computeVariableStatus b).moveIntoBound b beta) := by
    unfold Reluplex.updateLowerBound
    simp only [l1, l2, l3, hact, hadj, hneg, Option.getD_some, if_true, Bool.not_true,
      Option.isSome_none, Bool.or_self, Bool.false_eq_true, if_false]
  have hLb : (s.storeLowerBound b beta lvl).lowerBounds b =
      { finite := true, bound := beta, level := lvl } := by
    simp [Reluplex.storeLowerBound, VariableBound.setBound, VariableBound.setLevel]
  have hLx : ∀ x, x ≠ b → (s.storeLowerBound b beta lvl).lowerBounds x = s.lowerBounds x := by
    intro x hx
    simp [Reluplex.storeLowerBound, Function.update, hx]
  have hU : (s.storeLowerBound b beta lvl).upperBounds = s.upperBounds := rfl
  by_cases hinv : (s.upperBounds b).finite = true ∧
      (s.upperBounds b).bound + DEFAULT_EPSILON < beta
  · refine ⟨s.storeLowerBound b beta lvl, hLb, hLx, hU, rfl, rfl, rfl,
      fun h => absurd hinv h, fun _ _ => ?_⟩
    rw [hbranch, boundInvariantHolds_eq_some _ b (by rw [hU]; exact hinv.1) (by rw [hLb])
      (by rw [hU, hLb]; exact hinv.2), hLb, hU]
  · obtain ⟨m1, m2, m3, m4, m5, _⟩ := moveIntoBound_frame
      ((s.storeLowerBound b beta lvl).computeVariableStatus b) b beta
    refine ⟨((s.storeLowerBound b beta lvl).computeVariableStatus b).moveIntoBound b beta,
      ?_, ?_, ?_, ?_, ?_, ?_, fun _ => ?_, fun h1 h2 => absurd ⟨h1, h2⟩ hinv⟩
    · rw [m2]; exact hLb
    · intro x hx
      rw [m2]; exact hLx x hx
    · rw [m1]; rfl
    · rw [m3]; rfl
    · rw [m4]; rfl
    · rw [m5]; rfl
    · rw [hbranch, (boundInvariantHolds_iff _ b).mpr (by
        rw [hU, hLb]
        exact fun hc => hinv ⟨hc.1, hc.2.2⟩)]

set_option maxRecDepth 100000 in
/-- C12, witness: `updateLowerBound( x0, -1, 1 )` on the pair `(0, 1)` of `smallState`. -/
theorem C12_negative_lower_bound_on_b_witness :
    (smallState false).ActivePair 0 1 ∧ (-1 : ℚ) < -DEFAULT_EPSILON ∧
    (smallState false).eliminateAlmostBrokenRelus = false ∧
    ∃ s1, s1.lowerBounds 0 = { finite := true, bound := -1, level := 1 } ∧
      (∀ x, x ≠ 0 → s1.lowerBounds x = (smallState false).lowerBounds x) ∧
      s1.upperBounds = (smallState false).upperBounds ∧
      s1.dissolvedReluVariables = (smallState false).dissolvedReluVariables ∧
      s1.tableau = (smallState false).tableau ∧
      s1.basicVariables = (smallState false).basicVariables ∧
      (¬ (((smallState false).upperBounds 0).finite = true ∧
          ((smallState false).upperBounds 0).bound + DEFAULT_EPSILON < -1) →
        (smallState false).updateLowerBound 0 (-1) 1 = .ok false s1) ∧
      (((smallState false).upperBounds 0).finite = true →
        ((smallState false).upperBounds 0).bound + DEFAULT_EPSILON < -1 →
        (smallState false).updateLowerBound 0 (-1) 1 =
          .thrown (.invariantViolation (max 1 ((smallState false).upperBounds 0).level)) s1) :=
  ⟨smallState_activePair, by decide!, by decide!,
    C12_negative_lower_bound_on_b (smallState false) 0 1 (-1) 1 smallState_activePair
      (by decide!) (by decide!)⟩

theorem updateAssignment_reluPairs (s : Reluplex) (v : ℕ) (delta : ℚ) :
    (s.updateAssignment v delta).reluPairs = s.reluPairs := by
  unfold Reluplex.updateAssignment
  rw [updateAssignment_fold_reluPairs]
  rfl

/-- `update( v, delta )` on a variable outside every active pair returns, without a cascade,
and leaves the bounds alone. -/
theorem update_inactive (s : Reluplex) (v : ℕ) (delta : ℚ)
    (hin : s.activeReluVariable v = false) :
    ∃ s1, s.update v delta false = .ok () s1 ∧ s1.upperBounds = s.upperBounds ∧
      s1.lowerBounds = s.lowerBounds := by
  unfold Reluplex.update
  by_cases hz : isZero delta DEFAULT_EPSILON = true
  · exact ⟨s, by simp [hz], rfl, rfl⟩
  · obtain ⟨h1, h2, h3, _, _, _⟩ := updateAssignment_frame s v delta
    have hR := updateAssignment_reluPairs s v delta
    refine ⟨s.updateAssignment v delta, ?_, h1, h2⟩
    simp only [hz, Bool.false_eq_true, if_false, hR, h3, Bool.not_false, Bool.and_true]
    by_cases hrelu : s.reluPairs.isRelu v = true
    · unfold Reluplex.activeReluVariable at hin
      simp only [hrelu, Bool.not_true, Bool.false_eq_true, if_false] at hin
      simp only [hrelu, if_true]
      by_cases hF : s.reluPairs.isF v = true
      · simp only [hF, if_true] at hin ⊢
        have hD : (s.dissolvedReluVariables v).isSome = true := by
          cases hd : s.dissolvedReluVariables v
          · rw [hd] at hin; simp at hin
          · rfl
        simp [hD]
      · simp only [hF, Bool.false_eq_true, if_false] at hin ⊢
        have hD : (s.dissolvedReluVariables ((s.reluPairs.toPartner v).getD 0)).isSome = true := by
          cases hd : s.dissolvedReluVariables ((s.reluPairs.toPartner v).getD 0)
          · rw [hd] at hin; simp at hin
          · rfl
        simp [hD]
    · simp [hrelu]

/-- The branch that `updateUpperBound` and `updateLowerBound` take on a variable outside
every active pair. -/
theorem inactive_branch (s : Reluplex) (v : ℕ) (hin : s.activeReluVariable v = false) :
    (!s.reluPairs.isRelu v ||
      (s.dissolvedReluVariables
        (if s.reluPairs.isRelu v = true then
          (if s.reluPairs.isF v = true then v
           else if s.reluPairs.isRelu v = true then (s.reluPairs.toPartner v).getD 0 else 0)
         else 0)).isSome) = true := by
  unfold Reluplex.activeReluVariable at hin
  by_cases hrelu : s.reluPairs.isRelu v = true
  · simp only [hrelu, Bool.not_true, Bool.false_eq_true, if_false] at hin
    simp only [hrelu, Bool.not_true, Bool.false_or, if_true]
    cases hd : s.dissolvedReluVariables
        (if s.reluPairs.isF v = true then v else (s.reluPairs.toPartner v).getD 0)
    · rw [hd] at hin; simp at hin
    · rfl
  · simp [hrelu]

theorem updateUpperBound_inactive (s : Reluplex) (v : ℕ) (beta : ℚ) (lvl : ℕ)
    (hin : s.activeReluVariable v = false) :
    s.updateUpperBound v beta lvl =
      match (s.storeUpperBound v beta lvl).boundInvariantHolds v with
      | some violatingStackLevel =>
        .thrown (.invariantViolation violatingStackLevel) (s.storeUpperBound v beta lvl)
      | none =>
        if v ∉ ((s.storeUpperBound v beta lvl).computeVariableStatus v).basicVariables ∧
            ((s.storeUpperBound v beta lvl).computeVariableStatus v).outOfBounds v = true then
          ((s.storeUpperBound v beta lvl).computeVariableStatus v).update v
            (beta - ((s.storeUpperBound v beta lvl).computeVariableStatus v).assignment v) false
        else .ok () ((s.storeUpperBound v beta lvl).computeVariableStatus v) := by
  have h := inactive_branch s v hin
  unfold Reluplex.updateUpperBound
  simp only [h, if_true]

theorem updateLowerBound_inactive (s : Reluplex) (v : ℕ) (beta : ℚ) (lvl : ℕ)
    (hin : s.activeReluVariable v = false) :
    s.updateLowerBound v beta lvl =
      match (s.storeLowerBound v beta lvl).boundInvariantHolds v with
      | some violatingStackLevel =>
        .thrown (.invariantViolation violatingStackLevel) (s.storeLowerBound v beta lvl)
      | none =>
        if v ∉ ((s.storeLowerBound v beta lvl).computeVariableStatus v).basicVariables ∧
            ((s.storeLowerBound v beta lvl).computeVariableStatus v).outOfBounds v = true then
          (((s.storeLowerBound v beta lvl).computeVariableStatus v).update v
            (beta - ((s.storeLowerBound v beta lvl).computeVariableStatus v).assignment v)
            false).andThen fun _ s3 => .ok false s3
        else .ok false ((s.storeLowerBound v beta lvl).computeVariableStatus v) := by
  have h := inactive_branch s v hin
  unfold Reluplex.updateLowerBound
  simp only [h, if_true]

theorem activeReluVariable_frame (s s1 : Reluplex) (v : ℕ)
    (hR : s1.reluPairs = s.reluPairs)
    (hD : s1.dissolvedReluVariables = s.dissolvedReluVariables) :
    s1.activeReluVariable v = s.activeReluVariable v := by
  unfold Reluplex.activeReluVariable
  rw [hR, hD]

/-- C13: bound updates on a variable `v` that is not a member of an active pair.
`updateUpperBound( v, beta, lvl )` raises an invariant violation exactly when `lb(v)` is
finite and exceeds `beta` by more than `DEFAULT_EPSILON`, and `updateLowerBound( v, beta,
lvl )` exactly when `ub(v)` is finite and `beta` exceeds it by more than `DEFAULT_EPSILON`;
the violation carries the larger of `lvl` and the level of the opposite bound, and leaves the
new bound stored. Otherwise the call returns (`false` for `updateLowerBound`) with the new
bound, finite with level `lvl`, the opposite bound unchanged, and `lb(v) <= ub(v) +
DEFAULT_EPSILON` whenever both bounds are finite. -/
theorem C13_bound_update_outside_active_pair (s : Reluplex) (v : ℕ) (beta : ℚ) (lvl : ℕ)
    (hin : s.activeReluVariable v = false) :
    (((s.lowerBounds v).finite = true ∧ beta + DEFAULT_EPSILON < (s.lowerBounds v).bound) →
      s.updateUpperBound v beta lvl =
        .thrown (.invariantViolation (max (s.lowerBounds v).level lvl))
          (s.storeUpperBound v beta lvl)) ∧
    (¬ ((s.lowerBounds v).finite = true ∧ beta + DEFAULT_EPSILON < (s.lowerBounds v).bound) →
      ∃ s1, s.updateUpperBound v beta lvl = .ok () s1 ∧
        s1.upperBounds v = { finite := true, bound := beta, level := lvl } ∧
        s1.lowerBounds = s.lowerBounds ∧
        ((s1.lowerBounds v).finite = true →
          (s1.lowerBounds v).bound ≤ (s1.upperBounds v).bound + DEFAULT_EPSILON)) ∧
    (((s.upperBounds v).finite = true ∧ (s.upperBounds v).bound + DEFAULT_EPSILON < beta) →
      s.updateLowerBound v beta lvl =
        .thrown (.invariantViolation (max lvl (s.upperBounds v).level))
          (s.storeLowerBound v beta lvl)) ∧
    (¬ ((s.upperBounds v).finite = true ∧ (s.upperBounds v).bound + DEFAULT_EPSILON < beta) →
      ∃ s1, s.updateLowerBound v beta lvl = .ok false s1 ∧
        s1.lowerBounds v = { finite := true, bound := beta, level := lvl } ∧
        s1.upperBounds = s.upperBounds ∧
        ((s1.upperBounds v).finite = true →
          (s1.lowerBounds v).bound ≤ (s1.upperBounds v).bound + DEFAULT_EPSILON)) := by
  have hU : (s.storeUpperBound v beta lvl).upperBounds v =
      { finite := true, bound := beta, level := lvl } := by
    simp [Reluplex.storeUpperBound, VariableBound.setBound, VariableBound.setLevel]
  have hUL : (s.storeUpperBound v beta lvl).lowerBounds = s.lowerBounds := rfl
  have hL : (s.storeLowerBound v beta lvl).lowerBounds v =
      { finite := true, bound := beta, level := lvl } := by
    simp [Reluplex.storeLowerBound, VariableBound.setBound, VariableBound.setLevel]
  have hLU : (s.storeLowerBound v beta lvl).upperBounds = s.upperBounds := rfl
  refine ⟨?_, ?_, ?_, ?_⟩
  · intro hinv
    rw [updateUpperBound_inactive s v beta lvl hin,
      boundInvariantHolds_eq_some _ v (by rw [hU]) (by rw [hUL]; exact hinv.1)
        (by rw [hU, hUL]; exact hinv.2), hU, hUL]
  · intro hno
    have hnone : (s.storeUpperBound v beta lvl).boundInvariantHolds v = none :=
      (boundInvariantHolds_iff _ v).mpr (by
        rw [hU, hUL]
        exact fun hc => hno ⟨hc.2.1, hc.2.2⟩)
    have hle : (s.lowerBounds v).finite = true →
        (s.lowerBounds v).bound ≤ beta + DEFAULT_EPSILON := by
      intro hfin
      by_contra hc
      exact hno ⟨hfin, not_le.mp hc⟩
    rw [updateUpperBound_inactive s v beta lvl hin, hnone]
    simp only
    split
    · have hin2 : ((s.storeUpperBound v beta lvl).computeVariableStatus v).activeReluVariable
          v = false := by
        exact (activeReluVariable_frame s _ v rfl rfl).trans hin
      obtain ⟨s1, h1, h2, h3⟩ := update_inactive
        ((s.storeUpperBound v beta lvl).computeVariableStatus v) v
        (beta - ((s.storeUpperBound v beta lvl).computeVariableStatus v).assignment v) hin2
      refine ⟨s1, h1, by rw [h2]; exact hU, by rw [h3]; rfl, ?_⟩
      rw [h2, h3]
      show (s.lowerBounds v).finite = true →
        (s.lowerBounds v).bound ≤ ((s.storeUpperBound v beta lvl).upperBounds v).bound +
          DEFAULT_EPSILON
      rw [hU]
      exact hle
    · refine ⟨_, rfl, hU, rfl, ?_⟩
      show (s.lowerBounds v).finite = true →
        (s.lowerBounds v).bound ≤ ((s.storeUpperBound v beta lvl).upperBounds v).bound +
          DEFAULT_EPSILON
      rw [hU]
      exact hle
  · intro hinv
    rw [updateLowerBound_inactive s v beta lvl hin,
      boundInvariantHolds_eq_some _ v (by rw [hLU]; exact hinv.1) (by rw [hL])
        (by rw [hL, hLU]; exact hinv.2), hL, hLU]
  · intro hno
    have hnone : (s.storeLowerBound v beta lvl).boundInvariantHolds v = none :=
      (boundInvariantHolds_iff _ v).mpr (by
        rw [hL, hLU]
        exact fun hc => hno ⟨hc.1, hc.2.2⟩)
    have hle : (s.upperBounds v).finite = true →
        beta ≤ (s.upperBounds v).bound + DEFAULT_EPSILON := by
      intro hfin
      by_contra hc
      exact hno ⟨hfin, not_le.mp hc⟩
    rw [updateLowerBound_inactive s v beta lvl hin, hnone]
    simp only
    split
    · have hin2 : ((s.storeLowerBound v beta lvl).computeVariableStatus v).activeReluVariable
          v = false := by
        exact (activeReluVariable_frame s _ v rfl rfl).trans hin
      obtain ⟨s1, h1, h2, h3⟩ := update_inactive
        ((s.storeLowerBound v beta lvl).computeVariableStatus v) v
        (beta - ((s.storeLowerBound v beta lvl).computeVariableStatus v).assignment v) hin2
      refine ⟨s1, by rw [h1]; rfl, by rw [h3]; exact hL, by rw [h2]; rfl, ?_⟩
      rw [h2, h3]
      show (s.upperBounds v).finite = true →
        ((s.storeLowerBound v beta lvl).lowerBounds v).bound ≤ (s.upperBounds v).bound +
          DEFAULT_EPSILON
      rw [hL]
      exact hle
    · refine ⟨_, rfl, hL, rfl, ?_⟩
      show (s.upperBounds v).finite = true →
        ((s.storeLowerBound v beta lvl).lowerBounds v).bound ≤ (s.upperBounds v).bound +
          DEFAULT_EPSILON
      rw [hL]
      exact hle

set_option maxRecDepth 100000 in
/-- C13, witness: `updateUpperBound( x3, 5, 1 )` in `smallState`, where `x3` belongs to no
pair and `lb(x3) = -9`. -/
theorem C13_bound_update_outside_active_pair_witness :
    (smallState false).activeReluVariable 3 = false ∧
    ∃ s1, (smallState false).updateUpperBound 3 5 1 = .ok () s1 ∧
      s1.upperBounds 3 = { finite := true, bound := 5, level := 1 } ∧
      s1.lowerBounds = (smallState false).lowerBounds ∧
      ((s1.lowerBounds 3).finite = true →
        (s1.lowerBounds 3).bound ≤ (s1.upperBounds 3).bound + DEFAULT_EPSILON) :=
  ⟨by decide!,
    (C13_bound_update_outside_active_pair (smallState false) 3 5 1 (by decide!)).2.1
      (by decide!)⟩

/-! ## Bound tightening (C14, C15) -/

set_option maxRecDepth 100000 in
/-- C14 (the code breaks the claim): in `unalignedPair`, with or without `DEBUG_ON`, all
bounds are finite and `ub(f) = 3` for the pair `(b, f) = (0, 1)`. `tightenBoundsOnRow( 2 )`
derives `ub(b) = 5` from the row `x2 = x0` and `ub(x2) = 5`, and `updateUpperBound( b, 5 )`
writes the same bound to the partner: the call returns `false` with `ub(f) = 5`, larger than
before. `tightenAllBounds` ends in the same state, in both of its modes. -/
theorem C14_tightening_loosens_partner_bound :
    ∀ debugOn : Bool,
      (∀ i ∈ List.range 3, ((unalignedPair debugOn).lowerBounds i).finite = true ∧
        ((unalignedPair debugOn).upperBounds i).finite = true) ∧
      (unalignedPair debugOn).reluPairs.bToF 0 = some 1 ∧
      (unalignedPair debugOn).dissolvedReluVariables 1 = none ∧
      ((unalignedPair debugOn).upperBounds 1).bound = 3 ∧
      ((unalignedPair debugOn).tightenBoundsOnRow 2).value? = some false ∧
      (((unalignedPair debugOn).tightenBoundsOnRow 2).returned?.map
        (fun s1 => (s1.upperBounds 0, s1.upperBounds 1))) =
        some ({ finite := true, bound := 5, level := 0 },
          { finite := true, bound := 5, level := 0 }) ∧
      ((((unalignedPair debugOn).tightenAllBounds 2).bind Res.returned?).map
        (fun s1 => (s1.upperBounds 1).bound)) = some 5 ∧
      (((Reluplex.tightenAllBounds 2
          { unalignedPair debugOn with fullTightenAllBounds := false }).bind
          Res.returned?).map
        (fun s1 => (s1.upperBounds 1).bound)) = some 5 := by
  decide!

theorem tightenStep_fold (s : Reluplex) (v : ℕ) (scale : ℚ) (l : List Entry) :
    ∀ acc : RowBounds,
      (l.foldl (s.tightenStep v scale) acc).max = acc.max +
        ((l.filter (fun e => e.column ≠ v)).map (fun e =>
          if isPositive (e.value * scale) DEFAULT_EPSILON
          then (s.upperBounds e.column).bound * (e.value * scale)
          else (s.lowerBounds e.column).bound * (e.value * scale))).sum ∧
      (l.foldl (s.tightenStep v scale) acc).min = acc.min +
        ((l.filter (fun e => e.column ≠ v)).map (fun e =>
          if isPositive (e.value * scale) DEFAULT_EPSILON
          then (s.lowerBounds e.column).bound * (e.value * scale)
          else (s.upperBounds e.column).bound * (e.value * scale))).sum := by
  induction l with
  | nil => intro acc; simp
  | cons e rest ih =>
    intro acc
    simp only [List.foldl_cons]
    obtain ⟨h1, h2⟩ := ih (s.tightenStep v scale acc e)
    rw [h1, h2]
    by_cases hv : e.column = v
    · simp [Reluplex.tightenStep, hv]
    · by_cases hp : isPositive (e.value * scale) DEFAULT_EPSILON = true
      · simp only [Reluplex.tightenStep, hv, if_false, hp, if_true, List.filter_cons, ne_eq,
          not_false_eq_true, decide_True, List.map_cons, List.sum_cons]
        constructor <;> ring
      · simp only [Reluplex.tightenStep, hv, if_false, hp, Bool.false_eq_true,
          List.filter_cons, ne_eq, not_false_eq_true, decide_True, if_true, List.map_cons,
          List.sum_cons]
        constructor <;> ring

theorem sum_split_at_column (f : Entry → ℚ) (tv : Entry) (l : List Entry) :
    (l.map (fun e => e.column)).Nodup → tv ∈ l →
      (l.map f).sum = f tv + ((l.filter (fun e => e.column ≠ tv.column)).map f).sum := by
  induction l with
  | nil => intro _ h; cases h
  | cons e rest ih =>
    intro hnd hmem
    simp only [List.map_cons, List.nodup_cons] at hnd
    rcases List.mem_cons.mp hmem with h | h
    · subst h
      have hfil : rest.filter (fun e => decide (e.column ≠ tv.column)) = rest := by
        rw [List.filter_eq_self]
        intro e1 he1
        simp only [ne_eq, decide_not, Bool.not_eq_true', decide_eq_false_iff_not]
        intro hc
        exact hnd.1 (List.mem_map.mpr ⟨e1, he1, hc⟩)
      have hhead : (tv :: rest).filter (fun e => decide (e.column ≠ tv.column)) =
          rest.filter (fun e => decide (e.column ≠ tv.column)) := by
        rw [List.filter_cons]
        simp
      rw [hhead, hfil, List.map_cons, List.sum_cons]
    · have hne : e.column ≠ tv.column := by
        intro hc
        exact hnd.1 (List.mem_map.mpr ⟨tv, h, hc.symm⟩)
      simp only [List.map_cons, List.sum_cons, List.filter_cons, hne, ne_eq, not_false_eq_true,
        decide_True, if_true]
      rw [ih hnd.2 h]
      ring

theorem tighten_terms_sound (s : Reluplex) (v : ℕ) (scale : ℚ) (x : ℕ → ℚ)
    (l : List Entry)
    (hx : ∀ e ∈ l, e.column ≠ v →
      (s.lowerBounds e.column).bound ≤ x e.column ∧ x e.column ≤ (s.upperBounds e.column).bound)
    (hk : ∀ e ∈ l, e.column ≠ v → DEFAULT_EPSILON < |e.value * scale|) :
    ((l.filter (fun e => e.column ≠ v)).map (fun e =>
        if isPositive (e.value * scale) DEFAULT_EPSILON
        then (s.lowerBounds e.column).bound * (e.value * scale)
        else (s.upperBounds e.column).bound * (e.value * scale))).sum ≤
      ((l.filter (fun e => e.column ≠ v)).map (fun e => e.value * scale * x e.column)).sum ∧
    ((l.filter (fun e => e.column ≠ v)).map (fun e => e.value * scale * x e.column)).sum ≤
      ((l.filter (fun e => e.column ≠ v)).map (fun e =>
        if isPositive (e.value * scale) DEFAULT_EPSILON
        then (s.upperBounds e.column).bound * (e.value * scale)
        else (s.lowerBounds e.column).bound * (e.value * scale))).sum := by
  have heps : (0 : ℚ) < DEFAULT_EPSILON := by norm_num [DEFAULT_EPSILON]
  induction l with
  | nil => simp
  | cons e rest ih =>
    obtain ⟨i1, i2⟩ := ih (fun e1 he1 => hx e1 (List.mem_cons_of_mem _ he1))
      (fun e1 he1 => hk e1 (List.mem_cons_of_mem _ he1))
    by_cases hv : e.column = v
    · simp only [List.filter_cons, hv, ne_eq, not_true_eq_false, decide_False,
        Bool.false_eq_true, if_false]
      exact ⟨i1, i2⟩
    · obtain ⟨b1, b2⟩ := hx e (List.mem_cons_self _ _) hv
      have hmag := hk e (List.mem_cons_self _ _) hv
      simp only [List.filter_cons, hv, ne_eq, not_false_eq_true, decide_True, if_true,
        List.map_cons, List.sum_cons]
      by_cases hp : isPositive (e.value * scale) DEFAULT_EPSILON = true
      · have hpos : 0 < e.value * scale := by
          unfold isPositive at hp
          simp only [Bool.and_eq_true, decide_eq_true_eq] at hp
          exact hp.2
        simp only [hp, if_true]
        constructor
        · nlinarith
        · nlinarith
      · have hneg : e.value * scale < 0 := by
          by_contra hc
          have h0 : 0 ≤ e.value * scale := not_lt.mp hc
          rw [abs_of_nonneg h0] at hmag
          exact hp (isPositive_of_gt _ _ (le_of_lt heps) hmag)
        simp only [hp, Bool.false_eq_true, if_false]
        constructor
        · nlinarith
        · nlinarith

/-! ## Snapshots (C16) -/

theorem Tableau.getRow_backupEntries (t : Tableau) (r : ℕ) :
    ∀ n, (Tableau.backupEntries t n).filter (fun e => e.row = r) =
      if r < n then (t.getRow r).reverse else [] := by
  intro n
  induction n with
  | zero => simp [Tableau.backupEntries]
  | succ n ih =>
    unfold Tableau.backupEntries
    rw [List.filter_append, ih]
    by_cases hrn : r = n
    · subst hrn
      have h1 : (t.getRow r).reverse.filter (fun e => decide (e.row = r)) =
          (t.getRow r).reverse := by
        rw [List.filter_eq_self]
        intro e he
        have := List.mem_reverse.mp he
        simpa [Tableau.getRow] using (List.mem_filter.mp this).2
      simp [h1]
    · have h1 : (t.getRow n).reverse.filter (fun e => decide (e.row = r)) = [] := by
        rw [List.filter_eq_nil_iff]
        intro e he
        have hmem := List.mem_reverse.mp he
        have hen : e.row = n := by simpa [Tableau.getRow] using (List.mem_filter.mp hmem).2
        simp only [decide_eq_true_eq]
        intro hc
        exact hrn (hc ▸ hen)
      rw [h1, List.nil_append]
      by_cases hlt : r < n
      · have : r < n + 1 := Nat.lt_succ_of_lt hlt
        simp [hlt, this]
      · have : ¬ r < n + 1 := by omega
        simp [hlt, this]

theorem Tableau.backupIntoMatrix_spec (t other : Tableau) (h : other.size = t.size) :
    ∃ copy, t.backupIntoMatrix other = some copy ∧ copy.size = t.size ∧
      copy.rowSize = t.rowSize ∧ copy.columnSize = t.columnSize ∧
      ∀ r, copy.getRow r = if r < t.size then (t.getRow r).reverse else [] := by
  unfold Tableau.backupIntoMatrix
  rw [if_neg (not_not.mpr h)]
  exact ⟨_, rfl, h, rfl, rfl, fun r => Tableau.getRow_backupEntries t r t.size⟩

theorem computeVariableStatus_fold_frame (l : List ℕ) :
    ∀ s : Reluplex,
      (l.foldl Reluplex.computeVariableStatus s).lowerBounds = s.lowerBounds ∧
      (l.foldl Reluplex.computeVariableStatus s).upperBounds = s.upperBounds ∧
      (l.foldl Reluplex.computeVariableStatus s).assignment = s.assignment ∧
      (l.foldl Reluplex.computeVariableStatus s).basicVariables = s.basicVariables ∧
      (l.foldl Reluplex.computeVariableStatus s).dissolvedReluVariables =
        s.dissolvedReluVariables ∧
      (l.foldl Reluplex.computeVariableStatus s).tableau = s.tableau ∧
      (l.foldl Reluplex.computeVariableStatus s).smtCore = s.smtCore ∧
      (l.foldl Reluplex.computeVariableStatus s).reluPairs = s.reluPairs ∧
      (l.foldl Reluplex.computeVariableStatus s).debugOn = s.debugOn ∧
      (l.foldl Reluplex.computeVariableStatus s).numVariables = s.numVariables := by
  induction l with
  | nil => intro s; exact ⟨rfl, rfl, rfl, rfl, rfl, rfl, rfl, rfl, rfl, rfl⟩
  | cons i rest ih =>
    intro s
    simp only [List.foldl_cons]
    exact ih (s.computeVariableStatus i)

theorem computeVariableStatusAll_frame (s : Reluplex) :
    s.computeVariableStatusAll.lowerBounds = s.lowerBounds ∧
    s.computeVariableStatusAll.upperBounds = s.upperBounds ∧
    s.computeVariableStatusAll.assignment = s.assignment ∧
    s.computeVariableStatusAll.basicVariables = s.basicVariables ∧
    s.computeVariableStatusAll.dissolvedReluVariables = s.dissolvedReluVariables ∧
    s.computeVariableStatusAll.tableau = s.tableau ∧
    s.computeVariableStatusAll.smtCore = s.smtCore ∧
    s.computeVariableStatusAll.reluPairs = s.reluPairs ∧
    s.computeVariableStatusAll.debugOn = s.debugOn ∧
    s.computeVariableStatusAll.numVariables = s.numVariables :=
  computeVariableStatus_fold_frame _ s

theorem writeList_map_range {α : Type} (array f : ℕ → α) (n i : ℕ) (h : i < n) :
    Reluplex.writeList array ((List.range n).map f) i = f i := by
  unfold Reluplex.writeList
  simp [List.get?_eq_getElem?, h]

/-- C16: the snapshot round trip. In a state `s` whose tableau has the size that the
`SmtCore` was built with and holds its entries in rows below that size,
`storeCurrentState( info, v )` succeeds, and `restorePreviousState( info )`, run in any state
`t` whose tableau has the same size, returns and restores, for every variable below
`_numVariables`, the lower and the upper bound (finiteness, value and level) and the
assignment of `s`, and the basic set, the dissolution map and the tableau of `s`: every row
list, hence every cell, and the size counters. -/
theorem C16_snapshot_round_trip (s t : Reluplex) (v : ℕ) (type : SplitType)
    (hn : s.tableau.size = s.smtCore.numVariables)
    (hrows : ∀ e ∈ s.tableau.entries, e.row < s.tableau.size)
    (hsize : t.tableau.size = s.tableau.size) :
    ∃ info, s.storeCurrentState v type = some info ∧ info.var = v ∧
      ∃ s2, t.restorePreviousState info = .ok () s2 ∧
        (∀ i, i < s.smtCore.numVariables →
          s2.lowerBounds i = s.lowerBounds i ∧ s2.upperBounds i = s.upperBounds i ∧
          s2.assignment i = s.assignment i) ∧
        s2.basicVariables = s.basicVariables ∧
        s2.dissolvedReluVariables = s.dissolvedReluVariables ∧
        (∀ r, s2.tableau.getRow r = s.tableau.getRow r) ∧
        (∀ r c, s2.tableau.cell r c = s.tableau.cell r c) ∧
        (∀ r c, s2.tableau.getCell r c = s.tableau.getCell r c) ∧
        s2.tableau.rowSize = s.tableau.rowSize ∧
        s2.tableau.columnSize = s.tableau.columnSize := by
  obtain ⟨copy, c1, c2, c3, c4, c5⟩ := Tableau.backupIntoMatrix_spec s.tableau
    (Tableau.empty s.smtCore.numVariables) hn.symm
  unfold Reluplex.storeCurrentState
  rw [c1]
  refine ⟨_, rfl, rfl, ?_⟩
  obtain ⟨back, b1, b2, b3, b4, b5⟩ := Tableau.backupIntoMatrix_spec copy t.tableau
    (hsize.trans c2.symm)
  unfold Reluplex.restorePreviousState
  simp only [b1]
  obtain ⟨f1, f2, f3, f4, f5, f6, _⟩ := computeVariableStatusAll_frame
    ({ ({ t with
        lowerBounds := Reluplex.writeList t.lowerBounds
          ((List.range s.smtCore.numVariables).map s.lowerBounds)
        upperBounds := Reluplex.writeList t.upperBounds
          ((List.range s.smtCore.numVariables).map s.upperBounds)
        dissolvedReluVariables := s.dissolvedReluVariables
        basicVariables := s.basicVariables
        assignment := Reluplex.writeList t.assignment
          ((List.range s.smtCore.numVariables).map s.assignment) } : Reluplex) with
      tableau := back } : Reluplex)
  have hrow : ∀ r, back.getRow r = s.tableau.getRow r := by
    intro r
    rw [b5 r, c2]
    by_cases hr : r < s.tableau.size
    · rw [if_pos hr, c5 r, if_pos hr, List.reverse_reverse]
    · rw [if_neg hr]
      symm
      unfold Tableau.getRow
      rw [List.filter_eq_nil_iff]
      intro e he
      simp only [decide_eq_true_eq]
      intro hc
      exact hr (hc ▸ hrows e he)
  refine ⟨_, rfl, ?_, ?_, ?_, ?_, ?_, ?_, ?_, ?_⟩
  · intro i hi
    rw [f1, f2, f3]
    exact ⟨writeList_map_range _ _ _ i hi, writeList_map_range _ _ _ i hi,
      writeList_map_range _ _ _ i hi⟩
  · rw [f4]
  · rw [f5]
  · intro r
    rw [f6]
    exact hrow r
  · intro r c
    rw [f6]
    exact Tableau.cell_eq_of_getRow _ _ r (hrow r) c
  · intro r c
    rw [f6, Tableau.getCell_eq, Tableau.getCell_eq]
    exact congrArg (fun o => o.getD 0) (Tableau.cell_eq_of_getRow _ _ r (hrow r) c)
  · rw [f6]
    exact b3.trans c3
  · rw [f6]
    exact b4.trans c4

set_option maxRecDepth 100000 in
/-- C16, witness: a snapshot of `smallState`, restored in `nearZeroPair` (the state after an
update that changed the assignment). -/
theorem C16_snapshot_round_trip_witness :
    (smallState false).tableau.size = (smallState false).smtCore.numVariables ∧
    (∀ e ∈ (smallState false).tableau.entries, e.row < (smallState false).tableau.size) ∧
    (nearZeroPair false).tableau.size = (smallState false).tableau.size ∧
    ∃ info, (smallState false).storeCurrentState 1 .SPLITTING_RELU = some info ∧ info.var = 1 ∧
      ∃ s2, (nearZeroPair false).restorePreviousState info = .ok () s2 ∧
        (∀ i, i < (smallState false).smtCore.numVariables →
          s2.lowerBounds i = (smallState false).lowerBounds i ∧
          s2.upperBounds i = (smallState false).upperBounds i ∧
          s2.assignment i = (smallState false).assignment i) ∧
        s2.basicVariables = (smallState false).basicVariables ∧
        s2.dissolvedReluVariables = (smallState false).dissolvedReluVariables ∧
        (∀ r, s2.tableau.getRow r = (smallState false).tableau.getRow r) ∧
        (∀ r c, s2.tableau.cell r c = (smallState false).tableau.cell r c) ∧
        (∀ r c, s2.tableau.getCell r c = (smallState false).tableau.getCell r c) ∧
        s2.tableau.rowSize = (smallState false).tableau.rowSize ∧
        s2.tableau.columnSize = (smallState false).tableau.columnSize :=
  ⟨by decide!, by decide!, by decide!,
    C16_snapshot_round_trip (smallState false) (nearZeroPair false) 1 .SPLITTING_RELU
      (by decide!) (by decide!) (by decide!)⟩

/-! ## The decision stack (C17 to C19) -/

theorem Res.Forall.andThen {α β : Type} {P Q : Reluplex → Prop} {r : Res α}
    {f : α → Reluplex → Res β} (hr : Res.Forall P r) (hPQ : ∀ s, P s → Q s)
    (hf : ∀ a s, P s → Res.Forall Q (f a s)) : Res.Forall Q (r.andThen f) := by
  cases r with
  | ok a s => exact hf a s hr
  | thrown e s => exact hPQ s hr
  | exited c => trivial

theorem Res.Forall.mono {α : Type} {P Q : Reluplex → Prop} {r : Res α}
    (hr : Res.Forall P r) (hPQ : ∀ s, P s → Q s) : Res.Forall Q r := by
  cases r with
  | ok a s => exact hPQ s hr
  | thrown e s => exact hPQ s hr
  | exited c => trivial

theorem updateAssignment_fold_smtCore (v : ℕ) (delta : ℚ) (l : List Entry) :
    ∀ st : Reluplex,
      (l.foldl (fun st current =>
          if current.row ≠ v then st.addToAssignment current.row (delta * current.value)
          else st) st).smtCore = st.smtCore := by
  induction l with
  | nil => intro st; rfl
  | cons e rest ih =>
    intro st
    simp only [List.foldl_cons]
    split
    · rw [ih]; rfl
    · rw [ih]

theorem updateIgnoringRelu_smtCore (s : Reluplex) (v : ℕ) (delta : ℚ) :
    (s.updateIgnoringRelu v delta).smtCore = s.smtCore := by
  unfold Reluplex.updateIgnoringRelu
  split
  · rfl
  · unfold Reluplex.updateAssignment
    rw [updateAssignment_fold_smtCore]
    rfl

theorem moveIntoBound_smtCore (s : Reluplex) (v : ℕ) (target : ℚ) :
    (s.moveIntoBound v target).smtCore = s.smtCore := by
  unfold Reluplex.moveIntoBound
  split
  · exact updateIgnoringRelu_smtCore s v _
  · rfl

theorem update_smtCore (s : Reluplex) (v : ℕ) (delta : ℚ) (ignoreRelu : Bool) :
    Res.Forall (fun s1 => s1.smtCore = s.smtCore) (s.update v delta ignoreRelu) := by
  have h1 : (s.updateAssignment v delta).smtCore = s.smtCore := by
    unfold Reluplex.updateAssignment
    rw [updateAssignment_fold_smtCore]
    rfl
  rcases update_cases s v delta ignoreRelu with ⟨_, hu⟩ | ⟨_, hu⟩ | ⟨_, _, _, d2, hu | hu⟩
  · rw [hu]; rfl
  · rw [hu]; exact h1
  · rw [hu]; exact (updateIgnoringRelu_smtCore _ _ _).trans h1
  · rw [hu]; exact (updateIgnoringRelu_smtCore _ _ _).trans h1

theorem pivot_smtCore (s : Reluplex) (nb b : ℕ) :
    Res.Forall (fun s1 => s1.smtCore = s.smtCore) (s.pivot nb b) := by
  unfold Reluplex.pivot
  split
  · rfl
  · split
    · rfl
    · rfl

theorem makeNonBasic_smtCore (s : Reluplex) (basic forbiddenPartner : ℕ) :
    Res.Forall (fun s1 => s1.smtCore = s.smtCore) (s.makeNonBasic basic forbiddenPartner) := by
  unfold Reluplex.makeNonBasic
  split
  · rfl
  · split
    · exact pivot_smtCore s _ _
    · rfl

theorem markReluVariableDissolved_smtCore (s : Reluplex) (v : ℕ) (type : ReluDissolutionType) :
    Res.Forall (fun s1 => s1.smtCore = s.smtCore) (s.markReluVariableDissolved v type) := by
  unfold Reluplex.markReluVariableDissolved
  split
  · trivial
  · rfl

theorem unifyNonBasic_smtCore (s : Reluplex) (b f : ℕ) :
    (s.unifyNonBasic b f).smtCore = s.smtCore := by
  unfold Reluplex.unifyNonBasic
  simp only
  rw [updateIgnoringRelu_smtCore]
  split
  · exact updateIgnoringRelu_smtCore _ _ _
  · split
    · exact updateIgnoringRelu_smtCore _ _ _
    · rfl

theorem unifyReluPair_smtCore (s : Reluplex) (f : ℕ) :
    Res.Forall (fun s1 => s1.smtCore = s.smtCore) (s.unifyReluPair f) := by
  unfold Reluplex.unifyReluPair
  cases hp : s.reluPairs.toPartner f with
  | none => exact rfl
  | some b =>
    simp only
    by_cases h0 : s.tableau.getColumnSize b = 0
    · rw [if_pos h0]
      exact rfl
    · rw [if_neg h0]
      have h1 : Res.Forall (fun s1 => s1.smtCore = s.smtCore)
          (if b ∈ s.basicVariables then s.makeNonBasic b f else Res.ok () s) := by
        split
        · exact makeNonBasic_smtCore s _ _
        · exact rfl
      refine Res.Forall.andThen h1 (fun _ h => h) ?_
      intro _ s1 hs1
      have h2 : Res.Forall (fun s2 => s2.smtCore = s1.smtCore)
          (if f ∈ s1.basicVariables then s1.makeNonBasic f b else Res.ok () s1) := by
        split
        · exact makeNonBasic_smtCore s1 _ _
        · exact rfl
      refine Res.Forall.andThen (Res.Forall.mono h2 (fun _ h => h.trans hs1)) (fun _ h => h) ?_
      intro _ s2 hs2
      refine Res.Forall.andThen
        (Res.Forall.mono (markReluVariableDissolved_smtCore _ f .TYPE_MERGE)
          (fun _ h => (h.trans (unifyNonBasic_smtCore s2 _ f)).trans hs2))
        (fun _ h => h) ?_
      intro _ s3 hs3
      exact hs3

theorem updateUpperBound_smtCore (s : Reluplex) (v : ℕ) (bound : ℚ) (level : ℕ) :
    Res.Forall (fun s1 => s1.smtCore = s.smtCore) (s.updateUpperBound v bound level) := by
  unfold Reluplex.updateUpperBound
  simp only
  split_ifs <;> (try split) <;>
    first
    | exact rfl
    | trivial
    | exact Res.Forall.mono (update_smtCore _ _ _ _) (fun _ h => h)
    | exact (moveIntoBound_smtCore _ _ _).trans (moveIntoBound_smtCore _ _ _)
    | (refine Res.Forall.andThen (markReluVariableDissolved_smtCore s _ .TYPE_SPLIT)
          (fun _ h => h) ?_
       intro _ s0 hs0
       split
       · exact hs0
       · exact ((moveIntoBound_smtCore _ _ _).trans (moveIntoBound_smtCore _ _ _)).trans hs0)

theorem updateLowerBound_smtCore (s : Reluplex) (v : ℕ) (bound : ℚ) (level : ℕ) :
    Res.Forall (fun s1 => s1.smtCore = s.smtCore) (s.updateLowerBound v bound level) := by
  unfold Reluplex.updateLowerBound
  simp only
  split_ifs <;> (try split) <;>
    first
    | exact rfl
    | trivial
    | exact moveIntoBound_smtCore _ _ _
    | (refine Res.Forall.andThen (update_smtCore _ _ _ _) (fun _ h => h) ?_
       intro _ s3 hs3
       exact hs3)
    | exact Res.Forall.mono (unifyReluPair_smtCore _ _)
        (fun _ h => h.trans ((moveIntoBound_smtCore _ _ _).trans (moveIntoBound_smtCore _ _ _)))

set_option maxRecDepth 100000 in
/-- C17, counterexample: in `negativeInputSplit`, with or without `DEBUG_ON`, the stack has
depth `1` and its top is a split on `f = 1` that has not tried its alternative. `pop()` does
not return: re-applying the alternative, `updateLowerBound( f, 0, 1 )`, sets `lb(b) = 0`
above `ub(b) = -1` and raises an invariant violation of level `1`, which leaves `pop`. -/
theorem C17_pop_may_throw :
    (((negativeInputSplit false).smtCore.stack.map
        (fun i => (i.var, i.firstAttempt, i.type))) = [(1, true, .SPLITTING_RELU)] ∧
      (negativeInputSplit false).pop.value? = none ∧
      (negativeInputSplit false).pop.thrown? = some (.invariantViolation 1)) ∧
    (((negativeInputSplit true).smtCore.stack.map
        (fun i => (i.var, i.firstAttempt, i.type))) = [(1, true, .SPLITTING_RELU)] ∧
      (negativeInputSplit true).pop.value? = none ∧
      (negativeInputSplit true).pop.thrown? = some (.invariantViolation 1)) := by
  decide!

theorem restorePreviousState_spec (s : Reluplex) (info : SplitInformation)
    (hsize : s.tableau.size = info.tableau.size) :
    ∃ s1, s.restorePreviousState info = .ok () s1 ∧
      s1.smtCore = s.smtCore ∧
      s1.basicVariables = info.basicVariables ∧
      s1.dissolvedReluVariables = info.dissolvedReluPairs ∧
      s1.lowerBounds = Reluplex.writeList s.lowerBounds info.lowerBounds ∧
      s1.upperBounds = Reluplex.writeList s.upperBounds info.upperBounds ∧
      s1.assignment = Reluplex.writeList s.assignment info.assignment ∧
      (∀ r, s1.tableau.getRow r =
        if r < info.tableau.size then (info.tableau.getRow r).reverse else []) := by
  obtain ⟨back, b1, b2, b3, b4, b5⟩ := Tableau.backupIntoMatrix_spec info.tableau s.tableau
    hsize
  unfold Reluplex.restorePreviousState
  simp only [b1]
  obtain ⟨f1, f2, f3, f4, f5, f6, f7, _⟩ := computeVariableStatusAll_frame
    ({ ({ s with
        lowerBounds := Reluplex.writeList s.lowerBounds info.lowerBounds
        upperBounds := Reluplex.writeList s.upperBounds info.upperBounds
        dissolvedReluVariables := info.dissolvedReluPairs
        basicVariables := info.basicVariables
        assignment := Reluplex.writeList s.assignment info.assignment } : Reluplex) with
      tableau := back } : Reluplex)
  refine ⟨_, rfl, f7, f4, f5, f1, f2, f3, ?_⟩
  intro r
  rw [f6]
  exact b5 r

/-- C17, amended: `pop()` on a stack `top :: rest` of depth `d` whose top snapshot has not
tried its alternative (the tableau of the snapshot has the size of the tableau of the
solver). The state is restored from the snapshot (basic set, dissolution map, the bounds and
the assignment written back, the rows of the tableau copied back); the snapshot is pushed
again with its kind flipped and its alternative marked as tried; the opposite direction is
re-applied at level `d`, `updateLowerBound( f, 0, d )` after a split and
`updateUpperBound( f, 0, d )` after a merge; `pop` returns if that call returns and lets its
exception through otherwise. Either way the stack is `flipped top :: rest`, of depth `d`. -/
theorem C17_pop_tries_alternative (s : Reluplex) (top : SplitInformation)
    (rest : List SplitInformation)
    (hstack : s.smtCore.stack = top :: rest) (hfirst : top.firstAttempt = true)
    (hsize : s.tableau.size = top.tableau.size) :
    ∃ s1, Reluplex.restorePreviousState
        { s with smtCore := { s.smtCore with stack := rest } } top = .ok () s1 ∧
      s1.basicVariables = top.basicVariables ∧
      s1.dissolvedReluVariables = top.dissolvedReluPairs ∧
      s1.lowerBounds = Reluplex.writeList s.lowerBounds top.lowerBounds ∧
      s1.upperBounds = Reluplex.writeList s.upperBounds top.upperBounds ∧
      s1.assignment = Reluplex.writeList s.assignment top.assignment ∧
      (∀ r, s1.tableau.getRow r =
        if r < top.tableau.size then (top.tableau.getRow r).reverse else []) ∧
      (top.type = .SPLITTING_RELU →
        s.pop = ((s1.pushSnapshot top.flipped).updateLowerBound top.var 0
          (rest.length + 1)).andThen fun _ s3 =>
            .ok () (s3.computeVariableStatusAll.setMinStackSecondPhase
              s3.smtCore.stack.length)) ∧
      (top.type ≠ .SPLITTING_RELU →
        s.pop = ((s1.pushSnapshot top.flipped).updateUpperBound top.var 0
          (rest.length + 1)).andThen fun _ s3 =>
            .ok () (s3.computeVariableStatusAll.setMinStackSecondPhase
              s3.smtCore.stack.length)) ∧
      Res.Forall (fun s3 => s3.smtCore.stack = top.flipped :: rest) s.pop := by
  obtain ⟨s1, r1, r2, r3, r4, r5, r6, r7, r8⟩ := restorePreviousState_spec
    ({ s with smtCore := { s.smtCore with stack := rest } } : Reluplex) top hsize
  have hstack1 : s1.smtCore.stack = rest := by rw [r2]
  have hpop : s.pop =
      if top.type = .SPLITTING_RELU then
        ((s1.pushSnapshot top.flipped).updateLowerBound top.var 0
          (rest.length + 1)).andThen fun _ s3 =>
            .ok () (s3.computeVariableStatusAll.setMinStackSecondPhase
              s3.smtCore.stack.length)
      else
        ((s1.pushSnapshot top.flipped).updateUpperBound top.var 0
          (rest.length + 1)).andThen fun _ s3 =>
            .ok () (s3.computeVariableStatusAll.setMinStackSecondPhase
              s3.smtCore.stack.length) := by
    unfold Reluplex.pop
    rw [hstack]
    unfold Reluplex.popLoop
    rw [r1]
    simp only [Res.andThen, hfirst, if_true]
    by_cases ht : top.type = .SPLITTING_RELU
    · simp only [ht, if_true, Reluplex.pushSnapshot, hstack1, List.length_cons,
        SplitInformation.flipped]
    · simp only [ht, if_false, Reluplex.pushSnapshot, hstack1, List.length_cons,
        SplitInformation.flipped]
  have hpush : (s1.pushSnapshot top.flipped).smtCore.stack = top.flipped :: rest := by
    simp [Reluplex.pushSnapshot, hstack1]
  have hfin : ∀ s3 : Reluplex, s3.smtCore = (s1.pushSnapshot top.flipped).smtCore →
      (s3.computeVariableStatusAll.setMinStackSecondPhase s3.smtCore.stack.length).smtCore.stack
        = top.flipped :: rest := by
    intro s3 h3
    show s3.computeVariableStatusAll.smtCore.stack = _
    rw [(computeVariableStatusAll_frame s3).2.2.2.2.2.2.1, h3, hpush]
  refine ⟨s1, r1, r3, r4, r5, r6, r7, r8, ?_, ?_, ?_⟩
  · intro ht
    rw [hpop, if_pos ht]
  · intro ht
    rw [hpop, if_neg ht]
  · rw [hpop]
    split
    · exact Res.Forall.andThen (updateLowerBound_smtCore _ _ _ _)
        (fun s3 h3 => by rw [h3, hpush]) (fun _ s3 h3 => hfin s3 h3)
    · exact Res.Forall.andThen (updateUpperBound_smtCore _ _ _ _)
        (fun s3 h3 => by rw [h3, hpush]) (fun _ s3 h3 => hfin s3 h3)

set_option maxRecDepth 100000 in
/-- C17, witness: `pop()` in `negativeInputSplit`, whose stack holds one untried split. -/
theorem C17_pop_tries_alternative_witness :
    ∃ top rest, (negativeInputSplit false).smtCore.stack = top :: rest ∧
      top.firstAttempt = true ∧ (negativeInputSplit false).tableau.size = top.tableau.size ∧
      Res.Forall (fun s3 => s3.smtCore.stack = top.flipped :: rest)
        (negativeInputSplit false).pop := by
  have h1 : (negativeInputSplit false).smtCore.stack.map
      (fun i => (i.firstAttempt, i.tableau.size)) =
      [(true, (negativeInputSplit false).tableau.size)] := by decide!
  cases hst : (negativeInputSplit false).smtCore.stack with
  | nil => rw [hst] at h1; cases h1
  | cons top rest =>
    rw [hst] at h1
    simp only [List.map_cons, List.cons.injEq, Prod.mk.injEq] at h1
    exact ⟨top, rest, rfl, h1.1.1, h1.1.2.symm,
      (C17_pop_tries_alternative (negativeInputSplit false) top rest hst h1.1.1
        h1.1.2.symm).choose_spec.2.2.2.2.2.2.2.2.2⟩

theorem Res.ForallOk.of_andThen {α β : Type} {Q : Reluplex → Prop} {r : Res α}
    {f : α → Reluplex → Res β} (hf : ∀ a s, r = .ok a s → Res.ForallOk Q (f a s)) :
    Res.ForallOk Q (r.andThen f) := by
  cases r with
  | ok a s => exact hf a s rfl
  | thrown e s => trivial
  | exited c => trivial

theorem Res.Forall.of_ok {α : Type} {P : Reluplex → Prop} {r : Res α} {a : α}
    {s : Reluplex} (h : Res.Forall P r) (hr : r = .ok a s) : P s := by
  rw [hr] at h
  exact h

theorem restorePreviousState_smtCore (s : Reluplex) (info : SplitInformation) :
    Res.Forall (fun s1 => s1.smtCore = s.smtCore ∧ s1.tableau.size = s.tableau.size ∧
      s1.debugOn = s.debugOn)
      (s.restorePreviousState info) := by
  unfold Reluplex.restorePreviousState
  simp only
  cases hb : info.tableau.backupIntoMatrix s.tableau with
  | none => exact ⟨rfl, rfl, rfl⟩
  | some copy =>
    simp only
    have hcopy : copy.size = s.tableau.size := by
      unfold Tableau.backupIntoMatrix at hb
      split at hb
      · cases hb
      · simp only [Option.some.injEq] at hb
        rw [← hb]
    obtain ⟨_, _, _, _, _, f6, f7, _, f9, _⟩ := computeVariableStatusAll_frame
      ({ ({ s with
          lowerBounds := Reluplex.writeList s.lowerBounds info.lowerBounds
          upperBounds := Reluplex.writeList s.upperBounds info.upperBounds
          dissolvedReluVariables := info.dissolvedReluPairs
          basicVariables := info.basicVariables
          assignment := Reluplex.writeList s.assignment info.assignment } : Reluplex) with
        tableau := copy } : Reluplex)
    refine ⟨f7, ?_, f9⟩
    show (Reluplex.computeVariableStatusAll _).tableau.size = s.tableau.size
    rw [f6]
    exact hcopy

/-- The loop of `pop()`: the stack never grows; a snapshot that has tried its alternative is
discarded; and a return leaves on top a snapshot whose alternative has been tried. -/
theorem popLoop_spec : ∀ (stack : List SplitInformation) (s : Reluplex),
    s.smtCore.stack = stack →
    Res.Forall (fun s1 => s1.smtCore.stack.length ≤ stack.length ∧
        (∀ top rest, stack = top :: rest → top.firstAttempt = false →
          s1.smtCore.stack.length ≤ rest.length))
      (Reluplex.popLoop stack s) ∧
    Res.ForallOk (fun s1 => ∃ t r, s1.smtCore.stack = t :: r ∧ t.firstAttempt = false)
      (Reluplex.popLoop stack s) := by
  intro stack
  induction stack with
  | nil =>
    intro s hs
    unfold Reluplex.popLoop
    refine ⟨⟨?_, ?_⟩, trivial⟩
    · show s.smtCore.stack.length ≤ 0
      rw [hs]; exact le_refl _
    · intro top rest h
      cases h
  | cons top rest ih =>
    intro s _
    unfold Reluplex.popLoop
    have hr := restorePreviousState_smtCore
      ({ s with smtCore := { s.smtCore with stack := rest } } : Reluplex) top
    constructor
    · refine Res.Forall.andThen hr ?_ ?_
      · intro s1 h1
        have : s1.smtCore.stack = rest := by rw [h1.1]
        rw [this]
        exact ⟨Nat.le_succ _, fun _ _ h _ => by cases h; exact le_refl _⟩
      · intro _ s1 h1
        have hst : s1.smtCore.stack = rest := by rw [h1.1]
        by_cases hfirst : top.firstAttempt = true
        · simp only [hfirst, if_true]
          have hlen : ∀ (info : SplitInformation) (s3 : Reluplex),
              s3.smtCore = (s1.pushSnapshot info).smtCore →
              s3.smtCore.stack.length ≤ (top :: rest).length ∧
              (∀ top1 rest1, top :: rest = top1 :: rest1 → top1.firstAttempt = false →
                s3.smtCore.stack.length ≤ rest1.length) := by
            intro info s3 h3
            have : s3.smtCore.stack = info :: rest := by
              rw [h3]; simp [Reluplex.pushSnapshot, hst]
            rw [this]
            refine ⟨le_refl _, ?_⟩
            intro top1 rest1 h hf
            cases h
            rw [hfirst] at hf
            cases hf
          have hfin : ∀ (info : SplitInformation) (s3 : Reluplex),
              s3.smtCore = (s1.pushSnapshot info).smtCore →
              (s3.computeVariableStatusAll.setMinStackSecondPhase
                s3.smtCore.stack.length).smtCore = (s1.pushSnapshot info).smtCore := by
            intro info s3 h3
            show s3.computeVariableStatusAll.smtCore = _
            rw [(computeVariableStatusAll_frame s3).2.2.2.2.2.2.1, h3]
          split
          · exact Res.Forall.andThen (updateLowerBound_smtCore _ _ _ _)
              (fun s3 h3 => hlen _ s3 h3) (fun _ s3 h3 => hlen _ _ (hfin _ s3 h3))
          · exact Res.Forall.andThen (updateUpperBound_smtCore _ _ _ _)
              (fun s3 h3 => hlen _ s3 h3) (fun _ s3 h3 => hlen _ _ (hfin _ s3 h3))
        · simp only [hfirst, Bool.false_eq_true, if_false]
          have key : ∀ X : Reluplex, X.smtCore.stack = rest →
              Res.Forall (fun s2 => s2.smtCore.stack.length ≤ (top :: rest).length ∧
                (∀ top1 rest1, top :: rest = top1 :: rest1 → top1.firstAttempt = false →
                  s2.smtCore.stack.length ≤ rest1.length)) (Reluplex.popLoop rest X) :=
            fun X hX => Res.Forall.mono (ih X hX).1 (fun s2 h2 =>
              ⟨Nat.le_succ_of_le h2.1, fun _ _ h _ => by cases h; exact h2.1⟩)
          apply key
          simp [Reluplex.setCurrentStackDepth, hst]
    · refine Res.ForallOk.of_andThen ?_
      intro _ s1 hok
      have h1 := Res.Forall.of_ok hr hok
      have hst : s1.smtCore.stack = rest := by rw [h1.1]
      by_cases hfirst : top.firstAttempt = true
      · simp only [hfirst, if_true]
        have hfin : ∀ (info : SplitInformation) (s3 : Reluplex),
            s3.smtCore = (s1.pushSnapshot info).smtCore →
            (s3.computeVariableStatusAll.setMinStackSecondPhase
              s3.smtCore.stack.length).smtCore.stack = info :: rest := by
          intro info s3 h3
          show s3.computeVariableStatusAll.smtCore.stack = _
          rw [(computeVariableStatusAll_frame s3).2.2.2.2.2.2.1, h3]
          simp [Reluplex.pushSnapshot, hst]
        split
        · refine Res.ForallOk.of_andThen ?_
          intro _ s3 hok3
          exact ⟨_, _, hfin _ s3 (Res.Forall.of_ok (updateLowerBound_smtCore _ _ _ _) hok3),
            rfl⟩
        · refine Res.ForallOk.of_andThen ?_
          intro _ s3 hok3
          exact ⟨_, _, hfin _ s3 (Res.Forall.of_ok (updateUpperBound_smtCore _ _ _ _) hok3),
            rfl⟩
      · simp only [hfirst, Bool.false_eq_true, if_false]
        have key : ∀ X : Reluplex, X.smtCore.stack = rest →
            Res.ForallOk (fun s2 => ∃ t r, s2.smtCore.stack = t :: r ∧ t.firstAttempt = false)
              (Reluplex.popLoop rest X) := fun X hX => (ih X hX).2
        apply key
        simp [Reluplex.setCurrentStackDepth, hst]

set_option maxRecDepth 100000 in
/-- C18, counterexample: in `twoLevels`, with or without `DEBUG_ON`, the stack has depth `2`:
a tried snapshot on `f = 3` above an untried one on `f = 1`. `pop( 2 )` returns with a stack
of depth `1`, not `2`: its first `pop()` discards the tried top and flips the snapshot below.
And in `negativeInputSplit`, a stack of depth `1`, `pop( 1 )` neither returns nor raises
`STACK_IS_EMPTY`: the invariant violation of level `1` raised while the alternative is
re-applied leaves it. -/
theorem C18_pop_to_level_overshoots :
    ((stackSummary (twoLevels false) =
        [(3, false, .MERGING_RELU), (1, true, .SPLITTING_RELU)] ∧
      (Reluplex.popTo 3 (twoLevels false) 2).map (fun r => r.returned?.map stackSummary) =
        some (some [(1, false, .MERGING_RELU)])) ∧
     (stackSummary (twoLevels true) =
        [(3, false, .MERGING_RELU), (1, true, .SPLITTING_RELU)] ∧
      (Reluplex.popTo 3 (twoLevels true) 2).map (fun r => r.returned?.map stackSummary) =
        some (some [(1, false, .MERGING_RELU)]))) ∧
    ((stackSummary (negativeInputSplit false) = [(1, true, .SPLITTING_RELU)] ∧
      (Reluplex.popTo 3 (negativeInputSplit false) 1).map (fun r => r.thrown?) =
        some (some (.invariantViolation 1))) ∧
     (stackSummary (negativeInputSplit true) = [(1, true, .SPLITTING_RELU)] ∧
      (Reluplex.popTo 3 (negativeInputSplit true) 1).map (fun r => r.thrown?) =
        some (some (.invariantViolation 1)))) := by
  refine ⟨⟨⟨?_, ?_⟩, ⟨?_, ?_⟩⟩, ⟨⟨?_, ?_⟩, ⟨?_, ?_⟩⟩⟩ <;> decide!

/-- When every snapshot has tried its alternative and fits the tableau, `pop()` empties the
stack and raises `STACK_IS_EMPTY`. -/
theorem popLoop_all_tried : ∀ (stack : List SplitInformation) (s : Reluplex),
    s.smtCore.stack = stack →
    (∀ i ∈ stack, i.firstAttempt = false ∧ i.tableau.size = s.tableau.size) →
    ∃ s1, Reluplex.popLoop stack s = .thrown (.error .STACK_IS_EMPTY) s1 ∧
      s1.smtCore.stack = [] := by
  intro stack
  induction stack with
  | nil =>
    intro s hs _
    exact ⟨s, by unfold Reluplex.popLoop; rfl, hs⟩
  | cons top rest ih =>
    intro s _ hall
    have htop := hall top (List.mem_cons_self _ _)
    obtain ⟨s1, r1, r2, -⟩ := restorePreviousState_spec
      ({ s with smtCore := { s.smtCore with stack := rest } } : Reluplex) top htop.2.symm
    have hsz := (Res.Forall.of_ok (restorePreviousState_smtCore _ _) r1).2.1
    have hst : s1.smtCore.stack = rest := by rw [r2]
    unfold Reluplex.popLoop
    rw [r1]
    simp only [Res.andThen, htop.1, Bool.false_eq_true, if_false]
    have key : ∀ X : Reluplex, X.smtCore.stack = rest → X.tableau.size = s.tableau.size →
        ∃ s2, Reluplex.popLoop rest X = .thrown (.error .STACK_IS_EMPTY) s2 ∧
          s2.smtCore.stack = [] :=
      fun X hX hXs => ih X hX (fun i hi => ⟨(hall i (List.mem_cons_of_mem _ hi)).1,
        ((hall i (List.mem_cons_of_mem _ hi)).2).trans hXs.symm⟩)
    apply key
    · simp [Reluplex.setCurrentStackDepth, hst]
    · exact hsz

/-- The loop of `pop( level )`, entered with a tried snapshot on top: with fuel above the
depth it ends, the stack has not grown, and a return leaves a depth within `level`. -/
theorem popWhile_spec (level : ℕ) : ∀ (fuel : ℕ) (s : Reluplex),
    (∃ t r, s.smtCore.stack = t :: r ∧ t.firstAttempt = false) →
    s.smtCore.stack.length < fuel →
    ∃ r, Reluplex.popWhile fuel level s = some r ∧
      Res.Forall (fun s1 => s1.smtCore.stack.length ≤ s.smtCore.stack.length) r ∧
      Res.ForallOk (fun s1 => s1.smtCore.stack.length ≤ level ∧
        ∃ t rest, s1.smtCore.stack = t :: rest ∧ t.firstAttempt = false) r := by
  intro fuel
  induction fuel with
  | zero => intro s _ h; exact absurd h (Nat.not_lt_zero _)
  | succ n ih =>
    intro s htop hfuel
    unfold Reluplex.popWhile
    by_cases hgt : s.smtCore.stack.length > level
    · rw [if_pos hgt]
      obtain ⟨t, r, hst, htried⟩ := htop
      have hspec := popLoop_spec s.smtCore.stack s rfl
      have hpop : s.pop = Reluplex.popLoop s.smtCore.stack s := rfl
      rw [← hpop] at hspec
      cases hp : s.pop with
      | ok a s1 =>
        rw [hp] at hspec
        have hlen : s1.smtCore.stack.length ≤ r.length := hspec.1.2 t r hst htried
        have hslen : s.smtCore.stack.length = r.length + 1 := by rw [hst]; rfl
        obtain ⟨res, e1, e2, e3⟩ := ih s1 hspec.2 (by omega)
        exact ⟨res, e1, Res.Forall.mono e2 (fun s2 h2 => by
          show s2.smtCore.stack.length ≤ s.smtCore.stack.length
          omega), e3⟩
      | thrown e s1 =>
        rw [hp] at hspec
        exact ⟨_, rfl, hspec.1.1, trivial⟩
      | exited c => exact ⟨_, rfl, trivial, trivial⟩
    · rw [if_neg hgt]
      exact ⟨_, rfl, le_refl _, Nat.le_of_not_gt hgt, htop⟩

/-- C18, amended: `pop( level )` with `1 <= level` and fuel above the depth ends; the stack
has not grown in the state it leaves, whether it returns or throws; when it returns, the
depth is at least `1` and at most `level` (it may be below `level`), and the top snapshot
has tried its alternative. When every snapshot has tried its alternative and fits the
tableau, it raises `STACK_IS_EMPTY` with an empty stack. `pop( 0 )` raises `STACK_IS_EMPTY`
and leaves the state as it was. -/
theorem C18_pop_to_level (s : Reluplex) (level fuel : ℕ) (hlevel : 1 ≤ level)
    (hfuel : s.smtCore.stack.length < fuel) :
    (∃ r, Reluplex.popTo fuel s level = some r ∧
      Res.Forall (fun s1 => s1.smtCore.stack.length ≤ s.smtCore.stack.length) r ∧
      Res.ForallOk (fun s1 => 1 ≤ s1.smtCore.stack.length ∧
        s1.smtCore.stack.length ≤ level ∧
        ∃ t rest, s1.smtCore.stack = t :: rest ∧ t.firstAttempt = false) r) ∧
    ((∀ i ∈ s.smtCore.stack, i.firstAttempt = false ∧ i.tableau.size = s.tableau.size) →
      ∃ s1, Reluplex.popTo fuel s level = some (.thrown (.error .STACK_IS_EMPTY) s1) ∧
        s1.smtCore.stack = []) ∧
    Reluplex.popTo fuel s 0 = some (.thrown (.error .STACK_IS_EMPTY) s) := by
  have hne : level ≠ 0 := by omega
  have hspec := popLoop_spec s.smtCore.stack s rfl
  have hpop : s.pop = Reluplex.popLoop s.smtCore.stack s := rfl
  rw [← hpop] at hspec
  refine ⟨?_, ?_, ?_⟩
  · unfold Reluplex.popTo
    rw [if_neg hne]
    cases hp : s.pop with
    | ok a s1 =>
      rw [hp] at hspec
      have hlen : s1.smtCore.stack.length ≤ s.smtCore.stack.length := hspec.1.1
      obtain ⟨res, e1, e2, e3⟩ := popWhile_spec level fuel s1 hspec.2 (by omega)
      refine ⟨res, e1, Res.Forall.mono e2 (fun s2 h2 => by
        show s2.smtCore.stack.length ≤ s.smtCore.stack.length
        omega), ?_⟩
      cases res with
      | ok a2 s2 =>
        obtain ⟨h1, t, rest, h2, h3⟩ := e3
        exact ⟨by rw [h2]; exact Nat.succ_le_succ (Nat.zero_le _), h1, t, rest, h2, h3⟩
      | thrown e s2 => trivial
      | exited c => trivial
    | thrown e s1 =>
      rw [hp] at hspec
      exact ⟨_, rfl, hspec.1.1, trivial⟩
    | exited c => exact ⟨_, rfl, trivial, trivial⟩
  · intro hall
    obtain ⟨s1, h1, h2⟩ := popLoop_all_tried s.smtCore.stack s rfl hall
    refine ⟨s1, ?_, h2⟩
    unfold Reluplex.popTo
    rw [if_neg hne, hpop, h1]
  · unfold Reluplex.popTo
    rw [if_pos rfl]

set_option maxRecDepth 100000 in
/-- C18, witness: `pop( 2 )` in `twoLevels`, whose stack has depth `2`. -/
theorem C18_pop_to_level_witness :
    1 ≤ 2 ∧ (twoLevels false).smtCore.stack.length < 3 ∧
    ∃ r, Reluplex.popTo 3 (twoLevels false) 2 = some r ∧
      Res.ForallOk (fun s1 => 1 ≤ s1.smtCore.stack.length ∧
        s1.smtCore.stack.length ≤ 2 ∧
        ∃ t rest, s1.smtCore.stack = t :: rest ∧ t.firstAttempt = false) r := by
  have h : (twoLevels false).smtCore.stack.length < 3 := by decide!
  obtain ⟨r, h1, -, h3⟩ := (C18_pop_to_level (twoLevels false) 2 3 (by decide) h).1
  exact ⟨by decide, h, r, h1, h3⟩

set_option maxRecDepth 100000 in
/-- C19, counterexample: in `contradictoryStart`, with or without `DEBUG_ON`, the `SmtCore`
is fresh (empty stack, no counter for `f = 1`) and its tableau has the size the core was built
with. Four calls of `notifyBrokenRelu( 1 )` return `false`; the fifth does not return `true`:
`dissolveReluOnVar( 1 )` pushes its snapshot and raises an invariant violation of level `1`
(`lb(b) = 0` above `ub(b) = -1`), which leaves `notifyBrokenRelu` before
`_fToViolations.clear()`: the stack has depth `1` and the counter of `f` is still `5`. -/
theorem C19_fifth_call_may_throw :
    ((stackSummary (contradictoryStart false) = [] ∧
      (contradictoryStart false).smtCore.fToViolations 1 = none ∧
      (contradictoryStart false).tableau.size = (contradictoryStart false).smtCore.numVariables ∧
      ((contradictoryStart false).notifyTimes 4 1).value? = some false) ∧
     (((contradictoryStart false).notifyTimes 5 1).value? = none ∧
      ((contradictoryStart false).notifyTimes 5 1).thrown? = some (.invariantViolation 1) ∧
      ((contradictoryStart false).notifyTimes 5 1).thrownState?.map
        (fun s => (s.smtCore.stack.length, s.smtCore.fToViolations 1)) = some (1, some 5))) ∧
    ((stackSummary (contradictoryStart true) = [] ∧
      (contradictoryStart true).smtCore.fToViolations 1 = none ∧
      (contradictoryStart true).tableau.size = (contradictoryStart true).smtCore.numVariables ∧
      ((contradictoryStart true).notifyTimes 4 1).value? = some false) ∧
     (((contradictoryStart true).notifyTimes 5 1).value? = none ∧
      ((contradictoryStart true).notifyTimes 5 1).thrown? = some (.invariantViolation 1) ∧
      ((contradictoryStart true).notifyTimes 5 1).thrownState?.map
        (fun s => (s.smtCore.stack.length, s.smtCore.fToViolations 1)) = some (1, some 5))) := by
  refine ⟨⟨⟨?_, ?_, ?_, ?_⟩, ⟨?_, ?_, ?_⟩⟩, ⟨⟨?_, ?_, ?_, ?_⟩, ⟨?_, ?_, ?_⟩⟩⟩ <;> decide!

/-- When the tableau has the size the core was built with, `dissolveReluOnVar( f )` pushes a
snapshot for `f` that has not tried its alternative, and leaves the rest of the `SmtCore` as
it was, whether the bound update returns or throws. -/
theorem dissolveReluOnVar_spec (s : Reluplex) (f : ℕ)
    (hn : s.tableau.size = s.smtCore.numVariables) :
    ∃ info type, s.storeCurrentState f type = some info ∧
      info.var = f ∧ info.firstAttempt = true ∧
      Res.Forall (fun s1 => s1.smtCore = { s.smtCore with stack := info :: s.smtCore.stack })
        (s.dissolveReluOnVar f) := by
  have hstore : ∀ type, ∃ info, s.storeCurrentState f type = some info ∧ info.var = f ∧
      info.firstAttempt = true := by
    intro type
    obtain ⟨copy, c1, -⟩ := Tableau.backupIntoMatrix_spec s.tableau
      (Tableau.empty s.smtCore.numVariables) hn.symm
    unfold Reluplex.storeCurrentState
    rw [c1]
    exact ⟨_, rfl, rfl, rfl⟩
  unfold Reluplex.dissolveReluOnVar
  by_cases hb : s.beginWithSplit f = true
  · obtain ⟨info, h1, h2, h3⟩ := hstore .SPLITTING_RELU
    refine ⟨info, _, h1, h2, h3, ?_⟩
    rw [if_pos hb, h1]
    exact Res.Forall.andThen (updateUpperBound_smtCore _ _ _ _) (fun _ h => h)
      (fun _ _ h => h)
  · obtain ⟨info, h1, h2, h3⟩ := hstore .MERGING_RELU
    refine ⟨info, _, h1, h2, h3, ?_⟩
    rw [if_neg hb, h1]
    exact Res.Forall.andThen (updateLowerBound_smtCore _ _ _ _) (fun _ h => h)
      (fun _ _ h => h)

/-- A call of `notifyBrokenRelu( f )` that finds the counter of `f` below four adds one to it,
changes nothing else and returns `false`. -/
theorem notifyBrokenRelu_below (s : Reluplex) (f : ℕ)
    (hcount : (s.smtCore.fToViolations f).getD 0 + 1 < NUM_RELU_OPERATIONS_BEFORE_SPLIT) :
    s.notifyBrokenRelu f = .ok false
      { s with smtCore := { s.smtCore with
          fToViolations := Function.update s.smtCore.fToViolations f
            (some ((s.smtCore.fToViolations f).getD 0 + 1)) } } := by
  unfold Reluplex.notifyBrokenRelu
  simp only
  rw [if_neg (Nat.not_le.mpr hcount)]

/-- A call of `notifyBrokenRelu( f )` that finds the counter of `f` at four or above pushes a
snapshot for `f`; if `dissolveReluOnVar` returns, all counters are cleared and the value is
`true`. -/
theorem notifyBrokenRelu_split (s : Reluplex) (f : ℕ)
    (hcount : NUM_RELU_OPERATIONS_BEFORE_SPLIT ≤ (s.smtCore.fToViolations f).getD 0 + 1)
    (hn : s.tableau.size = s.smtCore.numVariables)
    (hdebug : s.debugOn = true → f ∉ s.smtCore.currentlyInStack) :
    ∃ info type, s.storeCurrentState f type = some info ∧
      info.var = f ∧ info.firstAttempt = true ∧
      Res.Forall (fun s1 => s1.smtCore.stack = info :: s.smtCore.stack)
        (s.notifyBrokenRelu f) ∧
      Res.ForallOk (fun s1 => s1.smtCore.fToViolations = fun _ => none)
        (s.notifyBrokenRelu f) ∧
      (s.notifyBrokenRelu f).value? ≠ some false := by
  have key : ∀ s2 : Reluplex, s2.smtCore.stack = s.smtCore.stack →
      s2.tableau.size = s2.smtCore.numVariables →
      (∀ type, s2.storeCurrentState f type = s.storeCurrentState f type) →
      ∃ info type, s.storeCurrentState f type = some info ∧
        info.var = f ∧ info.firstAttempt = true ∧
        Res.Forall (fun s1 => s1.smtCore.stack = info :: s.smtCore.stack)
          ((s2.dissolveReluOnVar f).andThen fun _ s3 =>
            .ok true { s3 with smtCore := { s3.smtCore with fToViolations := fun _ => none } }) ∧
        Res.ForallOk (fun s1 => s1.smtCore.fToViolations = fun _ => none)
          ((s2.dissolveReluOnVar f).andThen fun _ s3 =>
            .ok true { s3 with smtCore := { s3.smtCore with fToViolations := fun _ => none } }) ∧
        ((s2.dissolveReluOnVar f).andThen fun _ s3 =>
            (.ok true { s3 with smtCore := { s3.smtCore with fToViolations := fun _ => none } } :
              Res Bool)).value? ≠ some false := by
    intro s2 hst hn2 hstore
    obtain ⟨info, type, h1, h2, h3, hd⟩ := dissolveReluOnVar_spec s2 f hn2
    refine ⟨info, type, (hstore type).symm.trans h1, h2, h3, ?_⟩
    cases hr : s2.dissolveReluOnVar f with
    | ok a s3 =>
      rw [hr] at hd
      refine ⟨?_, rfl, by simp [Res.andThen, Res.value?]⟩
      show s3.smtCore.stack = info :: s.smtCore.stack
      rw [hd, ← hst]
    | thrown e s3 =>
      rw [hr] at hd
      refine ⟨?_, trivial, by simp [Res.andThen, Res.value?]⟩
      show s3.smtCore.stack = info :: s.smtCore.stack
      rw [hd, ← hst]
    | exited c => exact ⟨trivial, trivial, by simp [Res.andThen, Res.value?]⟩
  have hcond : ¬ ((s.debugOn && decide (f ∈ s.smtCore.currentlyInStack)) = true) := by
    intro h
    simp only [Bool.and_eq_true, decide_eq_true_eq] at h
    exact hdebug h.1 h.2
  unfold Reluplex.notifyBrokenRelu
  simp only
  rw [if_pos hcount, if_neg hcond]
  apply key
  · split <;> rfl
  · split <;> exact hn
  · intro type
    split <;> rfl

/-- On a core with no counter for `f`, each of the first four calls returns `false` and the
state differs from the first one only in the counter of `f`. -/
theorem notifyTimes_below (s : Reluplex) (f : ℕ) (hfresh : s.smtCore.fToViolations f = none) :
    ∀ n, n < 4 → s.notifyTimes (n + 1) f = .ok false
      { s with smtCore := { s.smtCore with
          fToViolations := Function.update s.smtCore.fToViolations f (some (n + 1)) } } := by
  intro n
  induction n with
  | zero =>
    intro _
    unfold Reluplex.notifyTimes
    unfold Reluplex.notifyTimes
    simp only [Res.andThen]
    rw [notifyBrokenRelu_below s f (by rw [hfresh]; decide)]
    rw [hfresh]
    rfl
  | succ k ih =>
    intro hk
    unfold Reluplex.notifyTimes
    rw [ih (by omega)]
    simp only [Res.andThen]
    rw [notifyBrokenRelu_below _ f (by
      simp only [Function.update_same, Option.getD_some]
      show k + 1 + 1 < 5
      omega)]
    simp only [Function.update_same, Option.getD_some, Function.update_idem]

/-- C19, amended: let the tableau have the size the `SmtCore` was built with and, under
`DEBUG_ON`, let `f` not be recorded as split on. A call of `notifyBrokenRelu( f )` that finds
the counter of `f` below four returns `false` and changes only that counter, by one. A call
that finds it at four or above pushes exactly one snapshot for `f` (the one that
`storeCurrentState` builds, its alternative untried) on top of the stack, whether
`dissolveReluOnVar` returns or throws; only if it returns are all counters cleared, and the
value is then `true`. So on a core with no counter for `f`, each of the first four calls
returns `false` and leaves a state that differs from the first one only in the counter of
`f`, and the fifth call is such a split. -/
theorem C19_notify_broken_relu (s : Reluplex) (f : ℕ)
    (hn : s.tableau.size = s.smtCore.numVariables)
    (hdebug : s.debugOn = true → f ∉ s.smtCore.currentlyInStack) :
    ((s.smtCore.fToViolations f).getD 0 + 1 < NUM_RELU_OPERATIONS_BEFORE_SPLIT →
      s.notifyBrokenRelu f = .ok false
        { s with smtCore := { s.smtCore with
            fToViolations := Function.update s.smtCore.fToViolations f
              (some ((s.smtCore.fToViolations f).getD 0 + 1)) } }) ∧
    (NUM_RELU_OPERATIONS_BEFORE_SPLIT ≤ (s.smtCore.fToViolations f).getD 0 + 1 →
      ∃ info type, s.storeCurrentState f type = some info ∧
        info.var = f ∧ info.firstAttempt = true ∧
        Res.Forall (fun s1 => s1.smtCore.stack = info :: s.smtCore.stack)
          (s.notifyBrokenRelu f) ∧
        Res.ForallOk (fun s1 => s1.smtCore.fToViolations = fun _ => none)
          (s.notifyBrokenRelu f) ∧
        (s.notifyBrokenRelu f).value? ≠ some false) ∧
    (s.smtCore.fToViolations f = none →
      (∀ n, n < 4 → s.notifyTimes (n + 1) f = .ok false
        { s with smtCore := { s.smtCore with
            fToViolations := Function.update s.smtCore.fToViolations f (some (n + 1)) } }) ∧
      ∃ info type, s.storeCurrentState f type = some info ∧
        info.var = f ∧ info.firstAttempt = true ∧
        Res.Forall (fun s1 => s1.smtCore.stack = info :: s.smtCore.stack)
          (s.notifyTimes 5 f) ∧
        Res.ForallOk (fun s1 => s1.smtCore.fToViolations = fun _ => none)
          (s.notifyTimes 5 f) ∧
        (s.notifyTimes 5 f).value? ≠ some false) := by
  refine ⟨notifyBrokenRelu_below s f, fun hcount => notifyBrokenRelu_split s f hcount hn hdebug,
    fun hfresh => ⟨notifyTimes_below s f hfresh, ?_⟩⟩
  have h5 : s.notifyTimes 5 f = (s.notifyTimes 4 f).andThen fun _ s1 => s1.notifyBrokenRelu f := by
    rw [Reluplex.notifyTimes]
  rw [h5, notifyTimes_below s f hfresh 3 (by decide)]
  simp only [Res.andThen]
  obtain ⟨info, type, h1, h2, h3, h4, h5, h6⟩ := notifyBrokenRelu_split
    ({ s with smtCore := { s.smtCore with
        fToViolations := Function.update s.smtCore.fToViolations f (some (3 + 1)) } } : Reluplex)
    f (by
      simp only [Function.update_same, Option.getD_some]
      decide) hn hdebug
  exact ⟨info, type, h1, h2, h3, h4, h5, h6⟩

set_option maxRecDepth 100000 in
/-- C19, witness: five calls of `notifyBrokenRelu( 1 )` in `freeInputPair`. -/
theorem C19_notify_broken_relu_witness :
    (freeInputPair false).tableau.size = (freeInputPair false).smtCore.numVariables ∧
    ((freeInputPair false).debugOn = true → 1 ∉ (freeInputPair false).smtCore.currentlyInStack) ∧
    (freeInputPair false).smtCore.fToViolations 1 = none ∧
    ((freeInputPair false).notifyTimes 4 1).value? = some false ∧
    Res.ForallOk (fun s1 => s1.smtCore.fToViolations = fun _ => none)
      ((freeInputPair false).notifyTimes 5 1) := by
  have hn : (freeInputPair false).tableau.size = (freeInputPair false).smtCore.numVariables := by
    decide!
  have hdebug : (freeInputPair false).debugOn = true →
      1 ∉ (freeInputPair false).smtCore.currentlyInStack := by decide!
  have hfresh : (freeInputPair false).smtCore.fToViolations 1 = none := by decide!
  have h := (C19_notify_broken_relu (freeInputPair false) 1 hn hdebug).2.2 hfresh
  obtain ⟨h4, info, type, -, -, -, -, h5, -⟩ := h
  refine ⟨hn, hdebug, hfresh, ?_, h5⟩
  rw [h4 3 (by decide)]
  rfl

theorem Tableau.cell_value_mem (t : Tableau) (r c : ℕ) (x : ℚ) (h : t.cell r c = some x) :
    ∃ e ∈ t.entries, e.value = x := by
  unfold Tableau.cell Tableau.find at h
  cases hf : t.entries.find? (fun e => decide (e.row = r ∧ e.column = c)) with
  | none => rw [hf] at h; cases h
  | some e =>
    rw [hf] at h
    simp only [Option.map_some', Option.some.injEq] at h
    exact ⟨e, List.mem_of_find?_eq_some hf, h⟩

/-- C20: `addScaledRow( src, alpha, tgt, g, gv )` on a sparse matrix with `src != tgt`. The
result is a sparse matrix. In a column `c != g` where the source row holds a cell, the
target row receives `T[tgt][c] + alpha * T[src][c]`, and the cell is removed, so that it
reads as `0`, when that value is within `DEFAULT_EPSILON` of zero; in a column `c != g` where
the source row holds no cell (`T[src][c] = 0`) the target cell is untouched. When no stored
value is within `DEFAULT_EPSILON` of zero, every column `c != g` therefore reads
`T[tgt][c] + alpha * T[src][c]`, or `0` when that is within `DEFAULT_EPSILON` of zero. The
row list of every row other than `tgt`, the source row among them, is unchanged. -/
theorem C20_add_scaled_row (t : Tableau) (src tgt g : ℕ) (alpha gv : ℚ)
    (hone : t.OneCellPerPosition) (hsrc : src ≠ tgt) :
    (t.addScaledRow src alpha tgt g gv).OneCellPerPosition ∧
    (∀ c, c ≠ g → (t.cell src c).isSome = true →
      (t.addScaledRow src alpha tgt g gv).cell tgt c =
        Tableau.keep (t.getCell tgt c + alpha * t.getCell src c) ∧
      (t.addScaledRow src alpha tgt g gv).getCell tgt c =
        if isZero (t.getCell tgt c + alpha * t.getCell src c) DEFAULT_EPSILON = true then 0
        else t.getCell tgt c + alpha * t.getCell src c) ∧
    (∀ c, c ≠ g → t.cell src c = none →
      (t.addScaledRow src alpha tgt g gv).cell tgt c = t.cell tgt c ∧
      (t.addScaledRow src alpha tgt g gv).getCell tgt c =
        t.getCell tgt c + alpha * t.getCell src c) ∧
    (t.ZeroFree → ∀ c, c ≠ g →
      (t.addScaledRow src alpha tgt g gv).getCell tgt c =
        if isZero (t.getCell tgt c + alpha * t.getCell src c) DEFAULT_EPSILON = true then 0
        else t.getCell tgt c + alpha * t.getCell src c) ∧
    (∀ r, r ≠ tgt → (t.addScaledRow src alpha tgt g gv).getRow r = t.getRow r) ∧
    (t.addScaledRow src alpha tgt g gv).getRow src = t.getRow src := by
  obtain ⟨h1, h2, h3⟩ := Tableau.addScaledRow_spec t src tgt g alpha gv hone
  have hsome : ∀ c, c ≠ g → (t.cell src c).isSome = true →
      (t.addScaledRow src alpha tgt g gv).cell tgt c =
        Tableau.keep (t.getCell tgt c + alpha * t.getCell src c) ∧
      (t.addScaledRow src alpha tgt g gv).getCell tgt c =
        if isZero (t.getCell tgt c + alpha * t.getCell src c) DEFAULT_EPSILON = true then 0
        else t.getCell tgt c + alpha * t.getCell src c := by
    intro c hc hs
    obtain ⟨w, hw⟩ := Option.isSome_iff_exists.mp hs
    have hcell : (t.addScaledRow src alpha tgt g gv).cell tgt c =
        Tableau.keep (t.getCell tgt c + alpha * t.getCell src c) := by
      rw [h3 c, hw]
      simp only [if_neg hc]
      rw [Tableau.getCell_eq t tgt c, Tableau.getCell_eq t src c, hw, Option.getD_some,
        mul_comm alpha w]
    refine ⟨hcell, ?_⟩
    rw [Tableau.getCell_eq, hcell, Tableau.keep_eq]
    split_ifs <;> rfl
  have hnone : ∀ c, c ≠ g → t.cell src c = none →
      (t.addScaledRow src alpha tgt g gv).cell tgt c = t.cell tgt c ∧
      (t.addScaledRow src alpha tgt g gv).getCell tgt c =
        t.getCell tgt c + alpha * t.getCell src c := by
    intro c _ hn
    have hcell : (t.addScaledRow src alpha tgt g gv).cell tgt c = t.cell tgt c := by
      rw [h3 c, hn]
    refine ⟨hcell, ?_⟩
    rw [Tableau.getCell_eq, hcell, Tableau.getCell_eq t tgt c, Tableau.getCell_eq t src c, hn]
    simp
  refine ⟨h1, hsome, hnone, ?_, h2, h2 src hsrc⟩
  intro hzf c hc
  cases hs : t.cell src c with
  | some w => exact (hsome c hc (by rw [hs]; rfl)).2
  | none =>
    rw [(hnone c hc hs).2]
    have h0 : t.getCell src c = 0 := by rw [Tableau.getCell_eq, hs]; rfl
    rw [h0, mul_zero, add_zero]
    cases ht : t.cell tgt c with
    | none =>
      have : t.getCell tgt c = 0 := by rw [Tableau.getCell_eq, ht]; rfl
      rw [this]
      split_ifs <;> rfl
    | some x =>
      have hx : t.getCell tgt c = x := by rw [Tableau.getCell_eq, ht]; rfl
      obtain ⟨e, he, hev⟩ := Tableau.cell_value_mem t tgt c x ht
      have hz := hzf e he
      rw [hev] at hz
      rw [hx, hz]
      simp

set_option maxRecDepth 100000 in
/-- C20, witness: adding `-3` times the row of `x2` to the row of `x3` in `smallState`. -/
theorem C20_add_scaled_row_witness :
    (smallState false).tableau.OneCellPerPosition ∧ (2 : ℕ) ≠ 3 ∧
    ((smallState false).tableau.addScaledRow 2 (-3) 3 0 0).OneCellPerPosition ∧
    ((smallState false).tableau.addScaledRow 2 (-3) 3 0 0).getCell 3 1 = -6 ∧
    ((smallState false).tableau.addScaledRow 2 (-3) 3 0 0).getRow 2 =
      (smallState false).tableau.getRow 2 := by
  have h := C20_add_scaled_row (smallState false).tableau 2 3 0 (-3) 0
    smallState_tableauForm.1 (by decide)
  refine ⟨smallState_tableauForm.1, by decide, h.1, ?_, h.2.2.2.2.2⟩
  rw [(h.2.1 1 (by decide) (by decide!)).2]
  decide!

/-! ## Tableau operations: guarantee, column addition, double pivot (C21 to C23) -/

set_option maxRecDepth 100000 in
/-- C21, counterexample: in the tableau of `smallState` the row of `x3` holds cells in the
columns `3` and `0` only. `addScaledRow( 3, 1, 2, 1, 7 )` leaves the cell `(2, 1)` at `2`, not
at the guaranteed value `7`, and `addScaledRow( 3, 1, 1, 1, -1 )` fills the empty row `1`
without a self-cell `(1, 1)`: the guarantee is applied only while the loop visits a cell of
the source row in the guarantee column. -/
theorem C21_guarantee_needs_source_cell :
    ((smallState false).tableau.cell 3 1 = none ∧
      (smallState false).tableau.cell 2 1 = some 2 ∧
      ((smallState false).tableau.addScaledRow 3 1 2 1 7).cell 2 1 = some 2) ∧
    ((smallState false).tableau.cell 1 1 = none ∧
      ((smallState false).tableau.addScaledRow 3 1 1 1 (-1)).cell 1 1 = none ∧
      ((smallState false).tableau.addScaledRow 3 1 1 1 (-1)).cell 1 0 = some 3) := by
  refine ⟨⟨?_, ?_, ?_⟩, ⟨?_, ?_, ?_⟩⟩ <;> decide!

/-- C21, amended: on a sparse matrix, if the source row holds a cell in the guarantee column
`g`, then after `addScaledRow( src, alpha, tgt, g, gv )` the cell `(tgt, g)` holds exactly
`gv`, and is absent when `gv` is within `DEFAULT_EPSILON` of zero; with the guarantee
`(g, gv) = (tgt, -1)` the self-cell `(tgt, tgt)` is `-1`. If the source row holds no cell in
column `g`, the cell `(tgt, g)` is left as it was. -/
theorem C21_guarantee_cell (t : Tableau) (src tgt g : ℕ) (alpha gv : ℚ)
    (hone : t.OneCellPerPosition) :
    ((t.cell src g).isSome = true →
      (t.addScaledRow src alpha tgt g gv).cell tgt g = Tableau.keep gv ∧
      (isZero gv DEFAULT_EPSILON = false →
        (t.addScaledRow src alpha tgt g gv).cell tgt g = some gv ∧
        (t.addScaledRow src alpha tgt g gv).getCell tgt g = gv) ∧
      (isZero gv DEFAULT_EPSILON = true →
        (t.addScaledRow src alpha tgt g gv).cell tgt g = none)) ∧
    ((t.cell src tgt).isSome = true →
      (t.addScaledRow src alpha tgt tgt (-1)).cell tgt tgt = some (-1) ∧
      (t.addScaledRow src alpha tgt tgt (-1)).getCell tgt tgt = -1) ∧
    (t.cell src g = none →
      (t.addScaledRow src alpha tgt g gv).cell tgt g = t.cell tgt g) := by
  have key : ∀ (g1 : ℕ) (gv1 : ℚ), (t.cell src g1).isSome = true →
      (t.addScaledRow src alpha tgt g1 gv1).cell tgt g1 = Tableau.keep gv1 := by
    intro g1 gv1 hs
    obtain ⟨w, hw⟩ := Option.isSome_iff_exists.mp hs
    rw [(Tableau.addScaledRow_spec t src tgt g1 alpha gv1 hone).2.2 g1, hw]
    simp only [if_true]
  refine ⟨fun hs => ⟨key g gv hs, ?_, ?_⟩, fun hs => ?_, fun hn => ?_⟩
  · intro hz
    have hc : (t.addScaledRow src alpha tgt g gv).cell tgt g = some gv := by
      rw [key g gv hs, Tableau.keep_eq, hz]
      rfl
    exact ⟨hc, by rw [Tableau.getCell_eq, hc]; rfl⟩
  · intro hz
    rw [key g gv hs, Tableau.keep_eq, hz]
    rfl
  · have hc : (t.addScaledRow src alpha tgt tgt (-1)).cell tgt tgt = some (-1) := by
      rw [key tgt (-1) hs]
      decide!
    exact ⟨hc, by rw [Tableau.getCell_eq, hc]; rfl⟩
  · rw [(Tableau.addScaledRow_spec t src tgt g alpha gv hone).2.2 g, hn]

set_option maxRecDepth 100000 in
/-- C21, witness: the guarantee `(0, 5)` when `-3` times the row of `x2`, which holds a cell in
column `0`, is added to the row of `x3` in `smallState`. -/
theorem C21_guarantee_cell_witness :
    (smallState false).tableau.OneCellPerPosition ∧
    ((smallState false).tableau.addScaledRow 2 (-3) 3 0 5).cell 3 0 = some 5 := by
  refine ⟨smallState_tableauForm.1, ?_⟩
  exact (((C21_guarantee_cell (smallState false).tableau 2 3 0 (-3) 5
    smallState_tableauForm.1).1 (by decide!)).2.1 (by decide!)).1

namespace Tableau

theorem find_cons_if (p : Entry → Bool) (e : Entry) (rest : List Entry) :
    (e :: rest).find? p = if p e = true then some e else rest.find? p := by
  rw [List.find?_cons]
  cases p e <;> rfl

theorem find_moveEntry_aux (r src tgt r1 c1 : ℕ) :
    ∀ l : List Entry, (∀ e ∈ l, ¬ (e.row = r ∧ e.column = tgt)) →
    ((l.map (fun e => if e.row = r ∧ e.column = src then { e with column := tgt } else e)).find?
        (fun e => decide (e.row = r1 ∧ e.column = c1))).map (fun e => e.value) =
      if r1 = r ∧ c1 = tgt then
        (l.find? (fun e => decide (e.row = r ∧ e.column = src))).map (fun e => e.value)
      else if r1 = r ∧ c1 = src then none
      else (l.find? (fun e => decide (e.row = r1 ∧ e.column = c1))).map (fun e => e.value) := by
  intro l
  induction l with
  | nil => intro _; simp
  | cons e rest ih =>
    intro hfree
    have hrest := ih (fun x hx => hfree x (List.mem_cons_of_mem _ hx))
    have he := hfree e (List.mem_cons_self _ _)
    simp only [List.map_cons, find_cons_if, decide_eq_true_eq]
    by_cases hsrc : e.row = r ∧ e.column = src
    · rw [if_pos hsrc]
      dsimp only
      by_cases h1 : r1 = r ∧ c1 = tgt
      · have h1b : e.row = r1 ∧ tgt = c1 := ⟨hsrc.1.trans h1.1.symm, h1.2.symm⟩
        rw [if_pos h1b, if_pos h1, if_pos hsrc]
        rfl
      · have h1b : ¬ (e.row = r1 ∧ tgt = c1) :=
          fun h => h1 ⟨h.1.symm.trans hsrc.1, h.2.symm⟩
        rw [if_neg h1b, if_neg h1]
        rw [if_neg h1] at hrest
        by_cases h2 : r1 = r ∧ c1 = src
        · rw [if_pos h2]
          rw [if_pos h2] at hrest
          exact hrest
        · have h2b : ¬ (e.row = r1 ∧ e.column = c1) :=
            fun h => h2 ⟨h.1.symm.trans hsrc.1, h.2.symm.trans hsrc.2⟩
          rw [if_neg h2, if_neg h2b]
          rw [if_neg h2] at hrest
          exact hrest
    · rw [if_neg hsrc]
      by_cases h1 : r1 = r ∧ c1 = tgt
      · have hA : ¬ (e.row = r1 ∧ e.column = c1) := by rw [h1.1, h1.2]; exact he
        rw [if_neg hA, if_pos h1, if_neg hsrc]
        rw [if_pos h1] at hrest
        exact hrest
      · rw [if_neg h1]
        rw [if_neg h1] at hrest
        by_cases h2 : r1 = r ∧ c1 = src
        · have hA : ¬ (e.row = r1 ∧ e.column = c1) := by rw [h2.1, h2.2]; exact hsrc
          rw [if_neg hA, if_pos h2]
          rw [if_pos h2] at hrest
          exact hrest
        · rw [if_neg h2]
          rw [if_neg h2] at hrest
          by_cases hA : e.row = r1 ∧ e.column = c1
          · rw [if_pos hA, if_pos hA]
          · rw [if_neg hA, if_neg hA]
            exact hrest

theorem cell_moveEntry (t : Tableau) (r src tgt : ℕ)
    (hfree : t.cell r tgt = none) (r1 c1 : ℕ) :
    (t.moveEntry r src tgt).cell r1 c1 =
      if r1 = r ∧ c1 = tgt then t.cell r src
      else if r1 = r ∧ c1 = src then none
      else t.cell r1 c1 := by
  have hfree2 : ∀ e ∈ t.entries, ¬ (e.row = r ∧ e.column = tgt) := by
    intro e he h
    have := (cell_eq_none_iff t r tgt).mp hfree
    apply this
    unfold positions
    exact List.mem_map.mpr ⟨e, he, by rw [h.1, h.2]⟩
  unfold moveEntry cell find
  exact find_moveEntry_aux r src tgt r1 c1 t.entries hfree2

theorem oneCell_moveEntry (t : Tableau) (r src tgt : ℕ) (h : t.OneCellPerPosition)
    (hfree : t.cell r tgt = none) : (t.moveEntry r src tgt).OneCellPerPosition := by
  have hnot := (cell_eq_none_iff t r tgt).mp hfree
  unfold OneCellPerPosition positions at h hnot ⊢
  unfold moveEntry
  simp only [List.map_map]
  have hmap : t.entries.map ((fun e : Entry => (e.row, e.column)) ∘
      (fun e => if e.row = r ∧ e.column = src then { e with column := tgt } else e)) =
      (t.entries.map (fun e : Entry => (e.row, e.column))).map
        (fun p : ℕ × ℕ => if p = (r, src) then (r, tgt) else p) := by
    rw [List.map_map]
    apply List.map_congr_left
    intro e _
    by_cases hp : e.row = r ∧ e.column = src
    · simp [hp]
    · have : ¬ ((e.row, e.column) = (r, src)) := by
        simpa [Prod.mk.injEq] using hp
      simp [hp, this]
  rw [hmap]
  apply List.Nodup.map_on _ h
  intro p hp q hq hpq
  by_cases h1 : p = (r, src)
  · by_cases h2 : q = (r, src)
    · rw [h1, h2]
    · simp only [h1, h2, if_true, if_false] at hpq
      exact absurd (hpq ▸ hq) hnot
  · by_cases h2 : q = (r, src)
    · simp only [h1, h2, if_true, if_false] at hpq
      exact absurd (hpq ▸ hp) hnot
    · simpa [h1, h2] using hpq

/-- One step of `addColumnEraseSource`, seen cell by cell. -/
theorem addColumnStep_spec (src tgt : ℕ) (t : Tableau) (d : Finset ℕ) (e : Entry)
    (hd : e.row ∈ d ↔ (t.cell e.row tgt).isSome = true) (hone : t.OneCellPerPosition) :
    (addColumnStep src tgt (t, d) e).1.OneCellPerPosition ∧
    (∀ r c, r ≠ e.row → (addColumnStep src tgt (t, d) e).1.cell r c = t.cell r c) ∧
    (∀ c, c ≠ src → c ≠ tgt → (addColumnStep src tgt (t, d) e).1.cell e.row c = t.cell e.row c) ∧
    ((addColumnStep src tgt (t, d) e).1.cell e.row tgt =
      match t.cell e.row tgt with
      | some x => keep (x + e.value)
      | none => t.cell e.row src) ∧
    (∀ r, r ≠ e.row → (r ∈ (addColumnStep src tgt (t, d) e).2 ↔ r ∈ d)) := by
  unfold addColumnStep
  by_cases hmem : e.row ∈ d
  · have hsome : (t.cell e.row tgt).isSome = true := hd.mp hmem
    obtain ⟨x, hx⟩ := Option.isSome_iff_exists.mp hsome
    have hg : t.getCell e.row tgt = x := by rw [getCell_eq, hx]; rfl
    simp only [hmem, if_true, hg, hx]
    by_cases hz : isZero (x + e.value) DEFAULT_EPSILON = true
    · simp only [hz, if_true]
      refine ⟨oneCell_eraseEntry _ _ _ (oneCell_setValue _ _ _ _ hone), ?_, ?_, ?_, ?_⟩
      · intro r c hr
        rw [cell_eraseEntry, cell_setValue]
        simp [hr]
      · intro c _ hc
        rw [cell_eraseEntry, cell_setValue]
        simp [hc]
      · rw [cell_eraseEntry, keep_eq, hz]
        simp
      · intro r hr
        simp [Finset.mem_erase, hr]
    · simp only [hz, Bool.false_eq_true, if_false]
      refine ⟨oneCell_setValue _ _ _ _ hone, ?_, ?_, ?_, fun _ _ => trivial⟩
      · intro r c hr
        rw [cell_setValue]
        simp [hr]
      · intro c _ hc
        rw [cell_setValue]
        simp [hc]
      · rw [cell_setValue, keep_eq, hx]
        simp [hz]
  · have hnone : t.cell e.row tgt = none := by
      cases hc : t.cell e.row tgt with
      | none => rfl
      | some x => exact absurd (hd.mpr (by rw [hc]; rfl)) hmem
    simp only [hmem, if_false, hnone]
    refine ⟨oneCell_moveEntry _ _ _ _ hone hnone, ?_, ?_, ?_, fun _ _ => trivial⟩
    · intro r c hr
      rw [cell_moveEntry _ _ _ _ hnone]
      simp [hr]
    · intro c hcs hct
      rw [cell_moveEntry _ _ _ _ hnone]
      simp [hcs, hct]
    · rw [cell_moveEntry _ _ _ _ hnone]
      simp

/-- The loop of `addColumnEraseSource` over a list of source entries with distinct rows. -/
theorem addColumn_fold (src tgt : ℕ) :
    ∀ (L : List Entry) (t0 : Tableau) (d0 : Finset ℕ),
      (L.map (fun e => e.row)).Nodup →
      (∀ e ∈ L, (e.row ∈ d0 ↔ (t0.cell e.row tgt).isSome = true)) →
      (∀ e ∈ L, t0.cell e.row src = some e.value) →
      t0.OneCellPerPosition →
      (L.foldl (addColumnStep src tgt) (t0, d0)).1.OneCellPerPosition ∧
      (∀ r c, c ≠ src → c ≠ tgt →
        (L.foldl (addColumnStep src tgt) (t0, d0)).1.cell r c = t0.cell r c) ∧
      (∀ r, (L.foldl (addColumnStep src tgt) (t0, d0)).1.cell r tgt =
        match L.find? (fun e => e.row = r) with
        | some e =>
          (match t0.cell r tgt with
           | some x => keep (x + e.value)
           | none => some e.value)
        | none => t0.cell r tgt) := by
  intro L
  induction L with
  | nil =>
    intro t0 d0 _ _ _ hone
    exact ⟨hone, fun _ _ _ _ => rfl, fun _ => rfl⟩
  | cons e rest ih =>
    intro t0 d0 hnd hd hsrc hone
    simp only [List.map_cons, List.nodup_cons] at hnd
    obtain ⟨s1, s2, s3, s4, s5⟩ :=
      addColumnStep_spec src tgt t0 d0 e (hd e (List.mem_cons_self _ _)) hone
    have hner : ∀ e1 ∈ rest, e1.row ≠ e.row := by
      intro e1 he1 heq
      exact hnd.1 (List.mem_map.mpr ⟨e1, he1, heq⟩)
    have hd1 : ∀ e1 ∈ rest, (e1.row ∈ (addColumnStep src tgt (t0, d0) e).2 ↔
        ((addColumnStep src tgt (t0, d0) e).1.cell e1.row tgt).isSome = true) := by
      intro e1 he1
      rw [s5 _ (hner e1 he1), s2 _ _ (hner e1 he1)]
      exact hd e1 (List.mem_cons_of_mem _ he1)
    have hsrc1 : ∀ e1 ∈ rest,
        (addColumnStep src tgt (t0, d0) e).1.cell e1.row src = some e1.value := by
      intro e1 he1
      rw [s2 _ _ (hner e1 he1)]
      exact hsrc e1 (List.mem_cons_of_mem _ he1)
    obtain ⟨i1, i2, i3⟩ := ih (addColumnStep src tgt (t0, d0) e).1
      (addColumnStep src tgt (t0, d0) e).2 hnd.2 hd1 hsrc1 s1
    simp only [List.foldl_cons]
    refine ⟨i1, ?_, ?_⟩
    · intro r c hcs hct
      rw [i2 r c hcs hct]
      by_cases hr : r = e.row
      · rw [hr]; exact s3 c hcs hct
      · exact s2 r c hr
    · intro r
      rw [i3 r]
      simp only [find_cons_if, decide_eq_true_eq]
      by_cases hr : e.row = r
      · have hnf : rest.find? (fun e1 => decide (e1.row = r)) = none := by
          rw [List.find?_eq_none]
          intro e1 he1 h1
          exact hner e1 he1 ((of_decide_eq_true h1).trans hr.symm)
        rw [hnf, if_pos hr]
        simp only
        rw [← hr, s4, hsrc e (List.mem_cons_self _ _)]
      · rw [if_neg hr, s2 r tgt (fun h => hr h.symm)]

/-- The entries of a column carry the cells of the column. -/
theorem cell_of_mem_getColumn (t : Tableau) (hone : t.OneCellPerPosition) (c : ℕ) (e : Entry)
    (he : e ∈ t.getColumn c) : t.cell e.row c = some e.value := by
  rw [cell_eq_find_getColumn]
  have hnd := nodup_rows_getColumn t hone c
  generalize t.getColumn c = l at he hnd
  induction l with
  | nil => cases he
  | cons x rest ih =>
    simp only [List.map_cons, List.nodup_cons] at hnd
    rw [find_cons_if]
    simp only [decide_eq_true_eq]
    rcases List.mem_cons.mp he with h | h
    · rw [h, if_pos rfl]; rfl
    · have : x.row ≠ e.row := fun hx => hnd.1 (List.mem_map.mpr ⟨e, h, hx.symm⟩)
      rw [if_neg this]
      exact ih h hnd.2

theorem mem_denseColumn_iff (t : Tableau) (tgt r : ℕ) :
    r ∈ ((t.getColumn tgt).map (fun e => e.row)).toFinset ↔ (t.cell r tgt).isSome = true := by
  rw [cell_isSome_iff]
  unfold getColumn positions
  simp only [List.mem_toFinset, List.mem_map, List.mem_filter, decide_eq_true_eq, Prod.mk.injEq]
  constructor
  · rintro ⟨e, ⟨he, hc⟩, hr⟩; exact ⟨e, he, hr, hc⟩
  · rintro ⟨e, he, hr, hc⟩; exact ⟨e, ⟨he, hc⟩, hr⟩

/-- `addColumnEraseSource` on a sparse matrix, cell by cell. -/
theorem addColumnEraseSource_spec (t : Tableau) (src tgt : ℕ) (hone : t.OneCellPerPosition)
    (hne : src ≠ tgt) :
    (t.addColumnEraseSource src tgt).OneCellPerPosition ∧
    (∀ r, (t.addColumnEraseSource src tgt).cell r src = none) ∧
    (∀ r c, c ≠ src → c ≠ tgt → (t.addColumnEraseSource src tgt).cell r c = t.cell r c) ∧
    (∀ r, (t.addColumnEraseSource src tgt).cell r tgt =
      match t.cell r src with
      | some w =>
        (match t.cell r tgt with
         | some x => keep (x + w)
         | none => some w)
      | none => t.cell r tgt) := by
  unfold addColumnEraseSource
  by_cases hact : t.activeColumn src = true
  · simp only [hact, Bool.not_true, Bool.false_eq_true, if_false]
    obtain ⟨h1, h2, h3⟩ := addColumn_fold src tgt (t.getColumn src) t
      ((t.getColumn tgt).map (fun e => e.row)).toFinset
      (nodup_rows_getColumn t hone src)
      (fun e _ => mem_denseColumn_iff t tgt e.row)
      (fun e he => cell_of_mem_getColumn t hone src e he) hone
    refine ⟨oneCell_eraseColumn _ _ h1, ?_, ?_, ?_⟩
    · intro r
      rw [cell_eraseColumn, if_pos rfl]
    · intro r c hcs hct
      rw [cell_eraseColumn, if_neg hcs, h2 r c hcs hct]
    · intro r
      rw [cell_eraseColumn, if_neg (fun h => hne h.symm), h3 r, cell_eq_find_getColumn t r src]
      cases (t.getColumn src).find? (fun e => decide (e.row = r)) <;> rfl
  · have hemp : t.getColumn src = [] := by
      unfold activeColumn at hact
      simpa using hact
    have hnone : ∀ r, t.cell r src = none := by
      intro r
      rw [cell_eq_find_getColumn, hemp]
      rfl
    simp only [hact, Bool.not_false, if_true]
    refine ⟨hone, hnone, fun _ _ _ _ => trivial, ?_⟩
    intro r
    rw [hnone r]

end Tableau

/-- C22: `addColumnEraseSource( src, tgt )` on a sparse matrix with `src != tgt`. The result
is a sparse matrix whose column `src` is empty. In a row where both columns hold a cell, the
target cell receives `T[r][tgt] + T[r][src]`, and is removed, so that it reads as `0`, when
that sum is within `DEFAULT_EPSILON` of zero; in a row where only the source column holds a
cell, that cell is moved to the target column (`T[r][tgt] = 0`); in a row where the source
column holds none (`T[r][src] = 0`), the target cell is untouched. When no stored value is
within `DEFAULT_EPSILON` of zero, every row therefore reads `T[r][tgt] + T[r][src]` in column
`tgt`, or `0` when that is within `DEFAULT_EPSILON` of zero. The cells outside the two
columns are unchanged. -/
theorem C22_add_column_erase_source (t : Tableau) (src tgt : ℕ)
    (hone : t.OneCellPerPosition) (hne : src ≠ tgt) :
    (t.addColumnEraseSource src tgt).OneCellPerPosition ∧
    (t.addColumnEraseSource src tgt).getColumn src = [] ∧
    (∀ r, (t.addColumnEraseSource src tgt).cell r src = none) ∧
    (∀ r, (t.cell r src).isSome = true → (t.cell r tgt).isSome = true →
      (t.addColumnEraseSource src tgt).cell r tgt =
        Tableau.keep (t.getCell r tgt + t.getCell r src) ∧
      (t.addColumnEraseSource src tgt).getCell r tgt =
        if isZero (t.getCell r tgt + t.getCell r src) DEFAULT_EPSILON = true then 0
        else t.getCell r tgt + t.getCell r src) ∧
    (∀ r, (t.cell r src).isSome = true → t.cell r tgt = none →
      (t.addColumnEraseSource src tgt).cell r tgt = t.cell r src ∧
      (t.addColumnEraseSource src tgt).getCell r tgt = t.getCell r tgt + t.getCell r src) ∧
    (∀ r, t.cell r src = none →
      (t.addColumnEraseSource src tgt).cell r tgt = t.cell r tgt ∧
      (t.addColumnEraseSource src tgt).getCell r tgt = t.getCell r tgt + t.getCell r src) ∧
    (t.ZeroFree → ∀ r,
      (t.addColumnEraseSource src tgt).getCell r tgt =
        if isZero (t.getCell r tgt + t.getCell r src) DEFAULT_EPSILON = true then 0
        else t.getCell r tgt + t.getCell r src) ∧
    (∀ r c, c ≠ src → c ≠ tgt → (t.addColumnEraseSource src tgt).cell r c = t.cell r c) := by
  obtain ⟨h1, h2, h3, h4⟩ := Tableau.addColumnEraseSource_spec t src tgt hone hne
  have hboth : ∀ r, (t.cell r src).isSome = true → (t.cell r tgt).isSome = true →
      (t.addColumnEraseSource src tgt).cell r tgt =
        Tableau.keep (t.getCell r tgt + t.getCell r src) ∧
      (t.addColumnEraseSource src tgt).getCell r tgt =
        if isZero (t.getCell r tgt + t.getCell r src) DEFAULT_EPSILON = true then 0
        else t.getCell r tgt + t.getCell r src := by
    intro r hs ht
    obtain ⟨w, hw⟩ := Option.isSome_iff_exists.mp hs
    obtain ⟨x, hx⟩ := Option.isSome_iff_exists.mp ht
    have hcell : (t.addColumnEraseSource src tgt).cell r tgt =
        Tableau.keep (t.getCell r tgt + t.getCell r src) := by
      rw [h4 r, hw, hx, Tableau.getCell_eq t r tgt, Tableau.getCell_eq t r src, hw, hx]
      rfl
    refine ⟨hcell, ?_⟩
    rw [Tableau.getCell_eq, hcell, Tableau.keep_eq]
    split_ifs <;> rfl
  have hmove : ∀ r, (t.cell r src).isSome = true → t.cell r tgt = none →
      (t.addColumnEraseSource src tgt).cell r tgt = t.cell r src ∧
      (t.addColumnEraseSource src tgt).getCell r tgt = t.getCell r tgt + t.getCell r src := by
    intro r hs ht
    obtain ⟨w, hw⟩ := Option.isSome_iff_exists.mp hs
    have hcell : (t.addColumnEraseSource src tgt).cell r tgt = t.cell r src := by
      rw [h4 r, hw, ht]
    refine ⟨hcell, ?_⟩
    rw [Tableau.getCell_eq, hcell, Tableau.getCell_eq t r tgt, Tableau.getCell_eq t r src, ht, hw]
    simp
  have hnone : ∀ r, t.cell r src = none →
      (t.addColumnEraseSource src tgt).cell r tgt = t.cell r tgt ∧
      (t.addColumnEraseSource src tgt).getCell r tgt = t.getCell r tgt + t.getCell r src := by
    intro r hs
    have hcell : (t.addColumnEraseSource src tgt).cell r tgt = t.cell r tgt := by
      rw [h4 r, hs]
    refine ⟨hcell, ?_⟩
    rw [Tableau.getCell_eq, hcell, Tableau.getCell_eq t r tgt, Tableau.getCell_eq t r src, hs]
    simp
  have hclamp : ∀ x : ℚ, isZero x DEFAULT_EPSILON = false →
      x = if isZero x DEFAULT_EPSILON = true then 0 else x := by
    intro x hx
    rw [hx]
    simp
  refine ⟨h1, Tableau.getColumn_addColumnEraseSource t src tgt, h2, hboth, hmove, hnone, ?_, h3⟩
  intro hzf r
  cases hs : t.cell r src with
  | some w =>
    have hws : isZero w DEFAULT_EPSILON = false := by
      obtain ⟨e, he, hev⟩ := Tableau.cell_value_mem t r src w hs
      rw [← hev]; exact hzf e he
    cases ht : t.cell r tgt with
    | some x => exact (hboth r (by rw [hs]; rfl) (by rw [ht]; rfl)).2
    | none =>
      rw [(hmove r (by rw [hs]; rfl) ht).2]
      have h0 : t.getCell r tgt = 0 := by rw [Tableau.getCell_eq, ht]; rfl
      have hw : t.getCell r src = w := by rw [Tableau.getCell_eq, hs]; rfl
      rw [h0, hw, zero_add]
      exact hclamp w hws
  | none =>
    rw [(hnone r hs).2]
    have h0 : t.getCell r src = 0 := by rw [Tableau.getCell_eq, hs]; rfl
    rw [h0, add_zero]
    cases ht : t.cell r tgt with
    | none =>
      have : t.getCell r tgt = 0 := by rw [Tableau.getCell_eq, ht]; rfl
      rw [this]
      split_ifs <;> rfl
    | some x =>
      have hx : t.getCell r tgt = x := by rw [Tableau.getCell_eq, ht]; rfl
      obtain ⟨e, he, hev⟩ := Tableau.cell_value_mem t r tgt x ht
      rw [hx]
      exact hclamp x (hev ▸ hzf e he)

set_option maxRecDepth 100000 in
/-- C22, witness: the column of `x1` is added to the column of `x0` in `smallState`; the row of
`x2` then reads `1 + 2 = 3` in column `0`. -/
theorem C22_add_column_erase_source_witness :
    (smallState false).tableau.OneCellPerPosition ∧ (1 : ℕ) ≠ 0 ∧
    ((smallState false).tableau.addColumnEraseSource 1 0).getColumn 1 = [] ∧
    ((smallState false).tableau.addColumnEraseSource 1 0).getCell 2 0 = 3 := by
  have h := C22_add_column_erase_source (smallState false).tableau 1 0
    smallState_tableauForm.1 (by decide)
  refine ⟨smallState_tableauForm.1, by decide, h.2.1, ?_⟩
  rw [(h.2.2.2.1 2 (by decide!) (by decide!)).2]
  decide!

theorem Tableau.mem_getRow_of_cell (t : Tableau) (r c : ℕ) (w : ℚ) (h : t.cell r c = some w) :
    ∃ e ∈ t.getRow r, e.column = c ∧ e.value = w := by
  rw [Tableau.cell_eq_find_getRow] at h
  cases hf : (t.getRow r).find? (fun e => decide (e.column = c)) with
  | none => rw [hf] at h; cases h
  | some e =>
    rw [hf] at h
    simp only [Option.map_some', Option.some.injEq] at h
    have hp := List.find?_some hf
    exact ⟨e, List.mem_of_find?_eq_some hf, of_decide_eq_true hp, h⟩

theorem Tableau.mem_getColumn_of_cell (t : Tableau) (r c : ℕ) (w : ℚ)
    (h : t.cell r c = some w) : ∃ e ∈ t.getColumn c, e.row = r ∧ e.value = w := by
  rw [Tableau.cell_eq_find_getColumn] at h
  cases hf : (t.getColumn c).find? (fun e => decide (e.row = r)) with
  | none => rw [hf] at h; cases h
  | some e =>
    rw [hf] at h
    simp only [Option.map_some', Option.some.injEq] at h
    have hp := List.find?_some hf
    exact ⟨e, List.mem_of_find?_eq_some hf, of_decide_eq_true hp, h⟩

theorem Tableau.keep_of_not_isZero (v : ℚ) (h : isZero v DEFAULT_EPSILON = false) :
    Tableau.keep v = some v := by
  rw [Tableau.keep_eq, h]
  rfl

theorem Tableau.keep_of_zero_or (v : ℚ) (h : v = 0 ∨ isZero v DEFAULT_EPSILON = false) :
    Tableau.keep v = if v = 0 then none else some v := by
  rcases h with h | h
  · rw [h, Tableau.keep_zero, if_pos rfl]
  · rw [Tableau.keep_of_not_isZero v h, if_neg (ne_zero_of_not_isZero h)]

/-- The cells after a pivot none of whose values is dropped. -/
theorem pivotTableau_exact (t : Tableau) (nb b : ℕ) (hone : t.OneCellPerPosition)
    (hrow : t.getRow nb = []) (hne : b ≠ nb) (hex : t.PivotExact nb b) :
    (∀ c, (Reluplex.pivotTableau t nb b).cell b c = none) ∧
    (∀ c, (Reluplex.pivotTableau t nb b).cell nb c =
      (t.cell b c).map (fun w => if c = nb then -1 else w * ((-1) / t.getCell b nb))) ∧
    (∀ r, r ≠ nb → r ≠ b → ∀ c, (Reluplex.pivotTableau t nb b).cell r c =
      match t.cell r nb, t.cell b c with
      | some q, some w =>
        if c = nb then none
        else if (t.cell r c).getD 0 + w * ((-1) / t.getCell b nb) * q = 0 then none
        else some ((t.cell r c).getD 0 + w * ((-1) / t.getCell b nb) * q)
      | _, _ => t.cell r c) := by
  obtain ⟨p1, p2, p3, p4, p5⟩ := pivotTableau_spec t nb b hone hrow hne
  have hnbrow : ∀ c, (Reluplex.pivotTableau t nb b).cell nb c =
      (t.cell b c).map (fun w => if c = nb then -1 else w * ((-1) / t.getCell b nb)) := by
    intro c
    rw [p3 c]
    cases hbc : t.cell b c with
    | none => rfl
    | some w =>
      simp only [Option.map_some']
      by_cases hc : c = nb
      · simp only [hc, if_true]
        exact Tableau.keep_neg_one
      · simp only [hc, if_false]
        obtain ⟨e, he, _, hev⟩ := Tableau.mem_getRow_of_cell t b c w hbc
        exact Tableau.keep_of_not_isZero _ (hev ▸ hex.1 e he)
  refine ⟨?_, hnbrow, ?_⟩
  · intro c
    rw [Tableau.cell_eq_find_getRow, p2]
    rfl
  · intro r hrn hrb c
    rw [p5 r hrn hrb c, hnbrow c]
    cases hq : t.cell r nb with
    | none => rfl
    | some q =>
      cases hbc : t.cell b c with
      | none => rfl
      | some w =>
        simp only [Option.map_some']
        by_cases hc : c = nb
        · simp only [hc, if_true]
          exact Tableau.keep_zero
        · simp only [hc, if_false]
          obtain ⟨e, he, hec, hev⟩ := Tableau.mem_getRow_of_cell t b c w hbc
          obtain ⟨e1, he1, he1r, he1v⟩ := Tableau.mem_getColumn_of_cell t r nb q hq
          have h := hex.2 e1 he1 e he (by rw [he1r]; exact hrb) (by rw [hec]; exact hc)
          rw [he1r, hec, hev, he1v, Tableau.getCell_eq t r c] at h
          exact Tableau.keep_of_zero_or _ h

theorem Tableau.keep_getD_cell (t : Tableau) (hz : t.ZeroFree) (r c : ℕ) :
    Tableau.keep ((t.cell r c).getD 0) = t.cell r c := by
  cases h : t.cell r c with
  | none => exact Tableau.keep_zero
  | some x => exact Tableau.keep_of_not_isZero x (Tableau.not_isZero_of_cell t hz r c x h)

/-- Two pivots in a row, the second undoing the first, give back every cell when the first
one drops no value. -/
theorem doublePivot_cells (t : Tableau) (S : Finset ℕ) (nb b : ℕ)
    (hone : t.OneCellPerPosition)
    (hcols : ∀ v ∈ S, t.getColumn v = [{ row := v, column := v, value := -1 }])
    (hrows : ∀ e ∈ t.entries, e.row ∈ S) (hzero : t.ZeroFree)
    (hb : b ∈ S) (hnb : nb ∉ S) (hp : t.getCell b nb ≠ 0) (hex : t.PivotExact nb b) :
    (Reluplex.pivotTableau t nb b).getCell nb b ≠ 0 ∧
    ∀ r c, (Reluplex.pivotTableau (Reluplex.pivotTableau t nb b) b nb).cell r c = t.cell r c := by
  have hne : b ≠ nb := fun h => hnb (h ▸ hb)
  have hrowsE := (Tableau.rows_iff t S).mp hrows
  have hcolB : ∀ r, t.cell r b = if r = b then some (-1) else none :=
    Tableau.cells_of_getColumn_eq t b (-1) (hcols b hb)
  obtain ⟨a, ha, hag⟩ := Tableau.cell_isSome_of_getCell_ne_zero t b nb hp
  have ha0 : a ≠ 0 := by rw [hag]; exact hp
  obtain ⟨p1, p2, _, _, _⟩ := pivotTableau_spec t nb b hone (hrowsE nb hnb) hne
  obtain ⟨E1, E2, E3⟩ := pivotTableau_exact t nb b hone (hrowsE nb hnb) hne hex
  obtain ⟨q1, q2, q3, _, q5⟩ :=
    pivotTableau_spec (Reluplex.pivotTableau t nb b) b nb p1 p2 (fun h => hne h.symm)
  rw [← hag] at E2 E3
  -- the pivot element of the second pivot
  have hbb : t.cell b b = some (-1) := by rw [hcolB b, if_pos rfl]
  have hpiv : (Reluplex.pivotTableau t nb b).getCell nb b = (-1) * ((-1) / a) := by
    rw [Tableau.getCell_eq, E2 b, hbb]
    simp only [Option.map_some', if_neg hne, Option.getD_some]
  have hpiv0 : (Reluplex.pivotTableau t nb b).getCell nb b ≠ 0 := by
    rw [hpiv]
    have : (-1 : ℚ) * ((-1) / a) = 1 / a := by field_simp
    rw [this]
    exact one_div_ne_zero ha0
  refine ⟨hpiv0, ?_⟩
  rw [hpiv] at q3
  -- the row of b
  have hrowb : ∀ c, (Reluplex.pivotTableau (Reluplex.pivotTableau t nb b) b nb).cell b c =
      t.cell b c := by
    intro c
    rw [q3 c, E2 c]
    cases hbc : t.cell b c with
    | none => rfl
    | some w =>
      simp only [Option.map_some']
      by_cases hcb : c = b
      · have : w = -1 := by
          rw [hcb, hbb] at hbc
          exact (Option.some.inj hbc).symm
        simp only [hcb, if_true, this]
        exact Tableau.keep_neg_one
      · simp only [hcb, if_false]
        have hw : isZero w DEFAULT_EPSILON = false := Tableau.not_isZero_of_cell t hzero b c w hbc
        by_cases hcn : c = nb
        · have hwa : w = a := by
            rw [hcn, ha] at hbc
            exact (Option.some.inj hbc).symm
          simp only [hcn, if_true]
          have : (-1 : ℚ) * ((-1) / ((-1) * ((-1) / a))) = w := by
            rw [hwa]; field_simp
          rw [this]
          exact Tableau.keep_of_not_isZero w hw
        · simp only [hcn, if_false]
          have : w * ((-1) / a) * ((-1) / ((-1) * ((-1) / a))) = w := by
            field_simp
          rw [this]
          exact Tableau.keep_of_not_isZero w hw
  intro r c
  by_cases hrb : r = b
  · rw [hrb]; exact hrowb c
  by_cases hrn : r = nb
  · rw [hrn, Tableau.cell_eq_find_getRow, q2, Tableau.cell_eq_find_getRow, hrowsE nb hnb]
  rw [q5 r hrb hrn c, hrowb c]
  have hrbcell : t.cell r b = none := by rw [hcolB r, if_neg hrb]
  cases hq : t.cell r nb with
  | none =>
    have h1 : (Reluplex.pivotTableau t nb b).cell r b = none := by
      rw [E3 r hrn hrb b, hq]
      exact hrbcell
    have h2 : (Reluplex.pivotTableau t nb b).cell r c = t.cell r c := by
      rw [E3 r hrn hrb c, hq]
    rw [h1]
    exact h2
  | some q =>
    have hq0 : q ≠ 0 :=
      ne_zero_of_not_isZero (Tableau.not_isZero_of_cell t hzero r nb q hq)
    have hval : (0 : ℚ) + (-1) * ((-1) / a) * q ≠ 0 := by
      have : (0 : ℚ) + (-1) * ((-1) / a) * q = q / a := by field_simp
      rw [this]
      exact div_ne_zero hq0 ha0
    have h1 : (Reluplex.pivotTableau t nb b).cell r b = some (0 + (-1) * ((-1) / a) * q) := by
      rw [E3 r hrn hrb b, hq, hbb]
      simp only [if_neg hne, hrbcell, Option.getD_none, if_neg hval]
    rw [h1]
    simp only
    cases hbc : t.cell b c with
    | none =>
      simp only
      rw [E3 r hrn hrb c, hq, hbc]
    | some w =>
      simp only
      by_cases hcb : c = b
      · simp only [hcb, if_true]
        rw [hrbcell]
        exact Tableau.keep_zero
      · simp only [hcb, if_false]
        by_cases hcn : c = nb
        · have hwa : w = a := by
            rw [hcn, ha] at hbc
            exact (Option.some.inj hbc).symm
          have h2 : (Reluplex.pivotTableau t nb b).cell r c = none := by
            rw [E3 r hrn hrb c, hq, hbc]
            simp only [hcn, if_true]
          rw [h2, hcn, hq, hwa]
          have : (none : Option ℚ).getD 0 + a * (0 + (-1) * ((-1) / a) * q) = q := by
            simp only [Option.getD_none]
            field_simp
          rw [this]
          exact Tableau.keep_of_not_isZero q (Tableau.not_isZero_of_cell t hzero r nb q hq)
        · have h2 : ((Reluplex.pivotTableau t nb b).cell r c).getD 0 =
              (t.cell r c).getD 0 + w * ((-1) / a) * q := by
            rw [E3 r hrn hrb c, hq, hbc]
            simp only [if_neg hcn]
            by_cases hv : (t.cell r c).getD 0 + w * ((-1) / a) * q = 0
            · rw [if_pos hv, hv]; rfl
            · rw [if_neg hv]; rfl
          rw [h2]
          have : (t.cell r c).getD 0 + w * ((-1) / a) * q + w * (0 + (-1) * ((-1) / a) * q) =
              (t.cell r c).getD 0 := by
            field_simp
          rw [this]
          exact Tableau.keep_getD_cell t hzero r c

/-- C23, amended: double pivot is the identity when the first pivot drops no value. From a
state in tableau form whose tableau stores no value within `DEFAULT_EPSILON` of zero, for a
basic `b` and a non-basic `nb` with `T[b][nb] != 0`, if every value that `pivot( nb, b )`
computes is either zero or not within `DEFAULT_EPSILON` of zero, then `pivot( nb, b )` and
`pivot( b, nb )` both return, the basic set is the original one, the state is in tableau
form, and every cell of the tableau is the original cell (in the model, whose arithmetic is
exact). -/
theorem C23_double_pivot (s : Reluplex) (nb b : ℕ)
    (hform : s.TableauForm) (hzero : s.tableau.ZeroFree)
    (hb : b ∈ s.basicVariables) (hnb : nb ∉ s.basicVariables)
    (hp : s.tableau.getCell b nb ≠ 0) (hex : s.tableau.PivotExact nb b) :
    ∃ s1 s2, s.pivot nb b = .ok () s1 ∧ s1.pivot b nb = .ok () s2 ∧
      s2.basicVariables = s.basicVariables ∧ s2.TableauForm ∧
      (∀ r c, s2.tableau.cell r c = s.tableau.cell r c) ∧
      (∀ r c, s2.tableau.getCell r c = s.tableau.getCell r c) := by
  have hne : b ≠ nb := fun h => hnb (h ▸ hb)
  obtain ⟨hone, hcols, hrows⟩ := hform
  obtain ⟨hpiv0, hcells⟩ := doublePivot_cells s.tableau s.basicVariables nb b hone hcols hrows
    hzero hb hnb hp hex
  obtain ⟨f1, f2, f3⟩ := pivotTableau_form s.tableau s.basicVariables nb b hone hcols hrows
    hb hnb hp
  have hnb1 : nb ∈ insert nb (s.basicVariables.erase b) := Finset.mem_insert_self _ _
  have hb1 : b ∉ insert nb (s.basicVariables.erase b) := by
    simp [Finset.mem_insert, Finset.mem_erase, hne]
  obtain ⟨g1, g2, g3⟩ := pivotTableau_form (Reluplex.pivotTableau s.tableau nb b)
    (insert nb (s.basicVariables.erase b)) b nb f1 f2 f3 hnb1 hb1 hpiv0
  have hset : insert b ((insert nb (s.basicVariables.erase b)).erase nb) = s.basicVariables := by
    ext x
    simp only [Finset.mem_insert, Finset.mem_erase]
    constructor
    · rintro (h | ⟨_, h | ⟨_, h⟩⟩)
      · rw [h]; exact hb
      · contradiction
      · exact h
    · intro hx
      by_cases hxb : x = b
      · exact Or.inl hxb
      · exact Or.inr ⟨fun h => hnb (h ▸ hx), Or.inr ⟨hxb, hx⟩⟩
  refine ⟨_, _, pivot_ok s nb b hb hnb, pivot_ok _ b nb hnb1 hb1, hset, ?_, hcells, ?_⟩
  · exact ⟨g1, g2, g3⟩
  · intro r c
    rw [Tableau.getCell_eq, Tableau.getCell_eq]
    exact congrArg (fun o => Option.getD o 0) (hcells r c)

set_option maxRecDepth 100000 in
/-- C23, counterexample: `steepRow` is in tableau form, stores no value within
`DEFAULT_EPSILON` of zero, `x2` is basic, `x0` is not, and `T[2][0] = 10000`. `pivot( 0, 2 )`
computes `-0.000001 / 10000 = -1e-10` for the cell `(0, 1)` and drops it, so after
`pivot( 2, 0 )` the basic set is the original one but the cell `(2, 1)`, originally
`0.000001`, is absent: the difference is ten thousand times `DEFAULT_EPSILON`. -/
theorem C23_double_pivot_loses_cell :
    ((steepRow false).TableauForm ∧ (steepRow false).tableau.ZeroFree ∧
      2 ∈ (steepRow false).basicVariables ∧ 0 ∉ (steepRow false).basicVariables ∧
      (steepRow false).tableau.getCell 2 0 = 10000 ∧
      (steepRow false).tableau.cell 2 1 = some (1 / 1000000)) ∧
    ((((steepRow false).pivot 0 2).andThen fun _ s1 => s1.pivot 2 0).returned?.map
        (fun s2 => (decide (s2.basicVariables = (steepRow false).basicVariables),
          s2.tableau.cell 2 0, s2.tableau.cell 2 1)) =
      some (true, some 10000, none)) := by
  refine ⟨⟨?_, ?_, ?_, ?_, ?_, ?_⟩, ?_⟩
  · unfold Reluplex.TableauForm Tableau.OneCellPerPosition
    decide!
  · unfold Tableau.ZeroFree
    decide!
  all_goals decide!

theorem smallState_pivotExact : (smallState false).tableau.PivotExact 0 2 := by
  unfold Tableau.PivotExact
  decide!

set_option maxRecDepth 100000 in
/-- C23, witness: `pivot( 0, 2 )` followed by `pivot( 2, 0 )` in `smallState`. -/
theorem C23_double_pivot_witness :
    (smallState false).TableauForm ∧ (smallState false).tableau.ZeroFree ∧
    2 ∈ (smallState false).basicVariables ∧ 0 ∉ (smallState false).basicVariables ∧
    (smallState false).tableau.getCell 2 0 ≠ 0 ∧ (smallState false).tableau.PivotExact 0 2 ∧
    ∃ s1 s2, (smallState false).pivot 0 2 = .ok () s1 ∧ s1.pivot 2 0 = .ok () s2 ∧
      s2.basicVariables = (smallState false).basicVariables ∧
      (∀ r c, s2.tableau.cell r c = (smallState false).tableau.cell r c) := by
  have h1 : 2 ∈ (smallState false).basicVariables := by decide!
  have h2 : 0 ∉ (smallState false).basicVariables := by decide!
  have h3 : (smallState false).tableau.getCell 2 0 ≠ 0 := by decide!
  obtain ⟨s1, s2, e1, e2, e3, -, e5, -⟩ := C23_double_pivot (smallState false) 0 2
    smallState_tableauForm smallState_zeroFree h1 h2 h3 smallState_pivotExact
  exact ⟨smallState_tableauForm, smallState_zeroFree, h1, h2, h3, smallState_pivotExact,
    s1, s2, e1, e2, e3, e5⟩

/-! ## Frames of the bounds and the dissolution map -/

theorem Reluplex.SameSearchState.refl (s : Reluplex) : s.SameSearchState s :=
  ⟨rfl, rfl, rfl, rfl, rfl⟩

theorem Reluplex.SameSearchState.trans {s2 s1 s : Reluplex} (h2 : s2.SameSearchState s1)
    (h1 : s1.SameSearchState s) : s2.SameSearchState s :=
  ⟨h2.1.trans h1.1, h2.2.1.trans h1.2.1, h2.2.2.1.trans h1.2.2.1,
    h2.2.2.2.1.trans h1.2.2.2.1, h2.2.2.2.2.trans h1.2.2.2.2⟩

theorem updateAssignment_fold_same (v : ℕ) (delta : ℚ) (l : List Entry) :
    ∀ st : Reluplex,
      (l.foldl (fun st current =>
          if current.row ≠ v then st.addToAssignment current.row (delta * current.value)
          else st) st).SameSearchState st := by
  induction l with
  | nil => intro st; exact Reluplex.SameSearchState.refl st
  | cons e rest ih =>
    intro st
    simp only [List.foldl_cons]
    split
    · exact (ih _).trans ⟨rfl, rfl, rfl, rfl, rfl⟩
    · exact ih _

theorem updateAssignment_same (s : Reluplex) (v : ℕ) (delta : ℚ) :
    (s.updateAssignment v delta).SameSearchState s := by
  unfold Reluplex.updateAssignment
  exact (updateAssignment_fold_same v delta _ _).trans ⟨rfl, rfl, rfl, rfl, rfl⟩

theorem updateIgnoringRelu_same (s : Reluplex) (v : ℕ) (delta : ℚ) :
    (s.updateIgnoringRelu v delta).SameSearchState s := by
  unfold Reluplex.updateIgnoringRelu
  split
  · exact Reluplex.SameSearchState.refl s
  · exact updateAssignment_same s v delta

theorem moveIntoBound_same (s : Reluplex) (v : ℕ) (target : ℚ) :
    (s.moveIntoBound v target).SameSearchState s := by
  unfold Reluplex.moveIntoBound
  split
  · exact updateIgnoringRelu_same s v _
  · exact Reluplex.SameSearchState.refl s

theorem update_same (s : Reluplex) (v : ℕ) (delta : ℚ) (ignoreRelu : Bool) :
    Res.Forall (fun s1 => s1.SameSearchState s) (s.update v delta ignoreRelu) := by
  have h1 := updateAssignment_same s v delta
  rcases update_cases s v delta ignoreRelu with ⟨_, hu⟩ | ⟨_, hu⟩ | ⟨_, _, _, d2, hu | hu⟩
  · rw [hu]; exact Reluplex.SameSearchState.refl s
  · rw [hu]; exact h1
  · rw [hu]; exact (updateIgnoringRelu_same _ _ _).trans h1
  · rw [hu]; exact (updateIgnoringRelu_same _ _ _).trans h1

theorem pivot_same (s : Reluplex) (nb b : ℕ) :
    Res.Forall (fun s1 => s1.SameSearchState s) (s.pivot nb b) := by
  unfold Reluplex.pivot
  split
  · exact Reluplex.SameSearchState.refl s
  · split
    · exact Reluplex.SameSearchState.refl s
    · exact ⟨rfl, rfl, rfl, rfl, rfl⟩

theorem computeVariableStatusAll_same (s : Reluplex) :
    s.computeVariableStatusAll.SameSearchState s := by
  obtain ⟨f1, f2, _, _, f5, _, _, f8, _, f10⟩ := computeVariableStatusAll_frame s
  exact ⟨f2, f1, f5, f8, f10⟩

theorem makeNonBasic_same (s : Reluplex) (basic forbiddenPartner : ℕ) :
    Res.Forall (fun s1 => s1.SameSearchState s) (s.makeNonBasic basic forbiddenPartner) := by
  unfold Reluplex.makeNonBasic
  split
  · exact Reluplex.SameSearchState.refl s
  · split
    · exact pivot_same s _ _
    · exact Reluplex.SameSearchState.refl s

theorem checkInvariants_same (s : Reluplex) :
    Res.Forall (fun s1 => s1 = s) s.checkInvariants := by
  unfold Reluplex.checkInvariants
  split_ifs <;> (try split) <;> first | exact rfl | trivial

theorem update_bounds (s : Reluplex) (v : ℕ) (delta : ℚ) (ignoreRelu : Bool) :
    Res.Forall (fun s1 => s1.upperBounds = s.upperBounds ∧ s1.lowerBounds = s.lowerBounds)
      (s.update v delta ignoreRelu) :=
  Res.Forall.mono (update_same s v delta ignoreRelu) (fun _ h => ⟨h.1, h.2.1⟩)

theorem unifyNonBasic_bounds (s : Reluplex) (b f : ℕ) :
    (s.unifyNonBasic b f).upperBounds = s.upperBounds ∧
    (s.unifyNonBasic b f).lowerBounds = s.lowerBounds := by
  unfold Reluplex.unifyNonBasic
  simp only
  have h2 := fun (x : Reluplex) (d : ℚ) => updateIgnoringRelu_same x b d
  split
  · exact ⟨((h2 _ _).1).trans (updateIgnoringRelu_same s f _).1,
      ((h2 _ _).2.1).trans (updateIgnoringRelu_same s f _).2.1⟩
  · split
    · exact ⟨((h2 _ _).1).trans (updateIgnoringRelu_same s f _).1,
        ((h2 _ _).2.1).trans (updateIgnoringRelu_same s f _).2.1⟩
    · exact ⟨(h2 _ _).1, (h2 _ _).2.1⟩

theorem unifyReluPair_bounds (s : Reluplex) (f : ℕ) :
    Res.Forall (fun s1 => s1.upperBounds = s.upperBounds ∧ s1.lowerBounds = s.lowerBounds)
      (s.unifyReluPair f) := by
  unfold Reluplex.unifyReluPair
  cases hp : s.reluPairs.toPartner f with
  | none => exact ⟨rfl, rfl⟩
  | some b =>
    simp only
    by_cases h0 : s.tableau.getColumnSize b = 0
    · rw [if_pos h0]
      exact ⟨rfl, rfl⟩
    · rw [if_neg h0]
      have h1 : Res.Forall (fun s1 => s1.upperBounds = s.upperBounds ∧
          s1.lowerBounds = s.lowerBounds)
          (if b ∈ s.basicVariables then s.makeNonBasic b f else Res.ok () s) := by
        split
        · exact Res.Forall.mono (makeNonBasic_same s _ _) (fun _ h => ⟨h.1, h.2.1⟩)
        · exact ⟨rfl, rfl⟩
      refine Res.Forall.andThen h1 (fun _ h => h) ?_
      intro _ s1 hs1
      have h2 : Res.Forall (fun s2 => s2.upperBounds = s1.upperBounds ∧
          s2.lowerBounds = s1.lowerBounds)
          (if f ∈ s1.basicVariables then s1.makeNonBasic f b else Res.ok () s1) := by
        split
        · exact Res.Forall.mono (makeNonBasic_same s1 _ _) (fun _ h => ⟨h.1, h.2.1⟩)
        · exact ⟨rfl, rfl⟩
      refine Res.Forall.andThen
        (Res.Forall.mono h2 (fun _ h => ⟨h.1.trans hs1.1, h.2.trans hs1.2⟩)) (fun _ h => h) ?_
      intro _ s2 hs2
      have h3 : Res.Forall (fun s3 => s3.upperBounds = s2.upperBounds ∧
          s3.lowerBounds = s2.lowerBounds)
          ((s2.unifyNonBasic b f).markReluVariableDissolved f .TYPE_MERGE) := by
        unfold Reluplex.markReluVariableDissolved
        split
        · trivial
        · exact unifyNonBasic_bounds s2 b f
      refine Res.Forall.andThen
        (Res.Forall.mono h3 (fun _ h => ⟨h.1.trans hs2.1, h.2.trans hs2.2⟩)) (fun _ h => h) ?_
      intro _ s3 hs3
      exact hs3

/-- What `updateUpperBound( v, bound, level )` does to the bounds: the lower bounds stay, and
the upper bound of `v` is finite and holds the bound passed (after the almost-broken
adjustment), or `0` when `v` is an `f` that the call splits. -/
theorem updateUpperBound_bounds (s : Reluplex) (v : ℕ) (bound : ℚ) (level : ℕ) :
    Res.Forall (fun s1 => s1.lowerBounds = s.lowerBounds ∧
        (s1.upperBounds v).finite = true ∧
        ((s1.upperBounds v).bound = bound ∨ (s1.upperBounds v).bound = s.adjustUpper bound ∨
          ((s1.upperBounds v).bound = 0 ∧ s.reluPairs.isF v = true ∧
            isPositive (s.adjustUpper bound) DEFAULT_EPSILON = false ∧
            isNegative (s.adjustUpper bound) DEFAULT_EPSILON = false)))
      (s.updateUpperBound v bound level) := by
  have hsame : ∀ (x : Reluplex) (w : ℕ) (c : ℚ) (l : ℕ),
      ((x.storeUpperBound w c l).upperBounds w).finite = true ∧
      ((x.storeUpperBound w c l).upperBounds w).bound = c := by
    intro x w c l
    simp [Reluplex.storeUpperBound, VariableBound.setBound, VariableBound.setLevel]
  have hother : ∀ (x : Reluplex) (w u : ℕ) (c : ℚ) (l : ℕ), u ≠ w →
      (x.storeUpperBound w c l).upperBounds u = x.upperBounds u := by
    intro x w u c l hu
    simp [Reluplex.storeUpperBound, Function.update, hu]
  unfold Reluplex.updateUpperBound
  simp only
  by_cases hplain : (!s.reluPairs.isRelu v ||
      (s.dissolvedReluVariables (if s.reluPairs.isRelu v = true then
        (if s.reluPairs.isF v = true then v
         else if s.reluPairs.isRelu v = true then (s.reluPairs.toPartner v).getD 0 else 0)
        else 0)).isSome) = true
  · rw [if_pos hplain]
    have hfin := hsame s v bound level
    split
    · exact ⟨rfl, hfin.1, Or.inl hfin.2⟩
    · split
      · refine Res.Forall.mono (update_bounds _ _ _ _) ?_
        intro s1 h1
        rw [h1.1, h1.2]
        exact ⟨rfl, hfin.1, Or.inl hfin.2⟩
      · exact ⟨rfl, hfin.1, Or.inl hfin.2⟩
  · rw [if_neg hplain]
    have hrelu : s.reluPairs.isRelu v = true := by
      by_contra h
      simp [h] at hplain
    simp only [hrelu, if_true]
    generalize (s.reluPairs.toPartner v).getD 0 = p
    generalize hc : s.adjustUpper bound = c
    have hvfb : (s.reluPairs.isB v = true ∧ (if s.reluPairs.isB v = true then v else p) = v) ∨
        (s.reluPairs.isF v = true ∧ (if s.reluPairs.isF v = true then v else p) = v ∧
          (if s.reluPairs.isB v = true then v else p) = p) := by
      by_cases hB : s.reluPairs.isB v = true
      · exact Or.inl ⟨hB, by rw [if_pos hB]⟩
      · have hF : s.reluPairs.isF v = true := by
          unfold ReluPairs.isRelu at hrelu
          simpa [hB] using hrelu
        exact Or.inr ⟨hF, by rw [if_pos hF], by rw [if_neg hB]⟩
    generalize (if s.reluPairs.isF v = true then v else p) = f at hvfb ⊢
    generalize (if s.reluPairs.isB v = true then v else p) = b at hvfb ⊢
    by_cases hpos : isPositive c DEFAULT_EPSILON = true
    · rw [if_pos hpos]
      have hv : (((s.storeUpperBound v c level).storeUpperBound p c level).upperBounds v).finite =
            true ∧
          (((s.storeUpperBound v c level).storeUpperBound p c level).upperBounds v).bound = c := by
        by_cases hvp : v = p
        · rw [← hvp]; exact hsame _ v c level
        · rw [hother _ p v c level hvp]; exact hsame s v c level
      have hconc : ∀ sx : Reluplex, sx.lowerBounds = s.lowerBounds →
          sx.upperBounds = ((s.storeUpperBound v c level).storeUpperBound p c level).upperBounds →
          sx.lowerBounds = s.lowerBounds ∧ (sx.upperBounds v).finite = true ∧
          ((sx.upperBounds v).bound = bound ∨ (sx.upperBounds v).bound = c ∨
            ((sx.upperBounds v).bound = 0 ∧ s.reluPairs.isF v = true ∧
              isPositive c DEFAULT_EPSILON = false ∧ isNegative c DEFAULT_EPSILON = false)) := by
        intro sx hL hU
        rw [hU]
        exact ⟨hL, hv.1, Or.inr (Or.inl hv.2)⟩
      split
      · exact hconc _ rfl rfl
      · exact hconc _
          ((moveIntoBound_same _ _ _).2.1.trans (moveIntoBound_same _ _ _).2.1)
          ((moveIntoBound_same _ _ _).1.trans (moveIntoBound_same _ _ _).1)
    · rw [if_neg hpos]
      have hpos2 : isPositive c DEFAULT_EPSILON = false := by simpa using hpos
      by_cases hneg : (isNegative c DEFAULT_EPSILON && s.reluPairs.isF v) = true
      · rw [if_pos hneg]
        have hfin := hsame s v c level
        split
        · exact ⟨rfl, hfin.1, Or.inr (Or.inl hfin.2)⟩
        · trivial
      · rw [if_neg hneg]
        have hv : ∀ s0 : Reluplex,
            (((s0.storeUpperBound f 0 level).storeUpperBound b c level).upperBounds v).finite =
              true ∧
            ((((s0.storeUpperBound f 0 level).storeUpperBound b c level).upperBounds v).bound =
                c ∨
              ((((s0.storeUpperBound f 0 level).storeUpperBound b c level).upperBounds v).bound =
                0 ∧ s.reluPairs.isF v = true)) := by
          intro s0
          rcases hvfb with ⟨_, hb⟩ | ⟨hF, hf, hb⟩
          · rw [hb]
            exact ⟨(hsame _ v c level).1, Or.inl (hsame _ v c level).2⟩
          · rw [hf, hb]
            by_cases hvp : v = p
            · rw [← hvp]
              exact ⟨(hsame _ v c level).1, Or.inl (hsame _ v c level).2⟩
            · rw [hother _ p v c level hvp]
              exact ⟨(hsame _ v 0 level).1, Or.inr ⟨(hsame _ v 0 level).2, hF⟩⟩
        have hconc : ∀ s0 sx : Reluplex, s0.lowerBounds = s.lowerBounds →
            sx.lowerBounds = s0.lowerBounds →
            sx.upperBounds =
              ((s0.storeUpperBound f 0 level).storeUpperBound b c level).upperBounds →
            sx.lowerBounds = s.lowerBounds ∧ (sx.upperBounds v).finite = true ∧
            ((sx.upperBounds v).bound = bound ∨ (sx.upperBounds v).bound = c ∨
              ((sx.upperBounds v).bound = 0 ∧ s.reluPairs.isF v = true ∧
                isPositive c DEFAULT_EPSILON = false ∧
                isNegative c DEFAULT_EPSILON = false)) := by
          intro s0 sx h0 hL hU
          refine ⟨hL.trans h0, by rw [hU]; exact (hv s0).1, ?_⟩
          rw [hU]
          rcases (hv s0).2 with h | ⟨h, hF⟩
          · exact Or.inr (Or.inl h)
          · refine Or.inr (Or.inr ⟨h, hF, hpos2, ?_⟩)
            simpa [hF] using hneg
        unfold Reluplex.markReluVariableDissolved
        by_cases hdbg : (s.debugOn && (s.dissolvedReluVariables f).isSome) = true
        · rw [if_pos hdbg]
          trivial
        · rw [if_neg hdbg]
          simp only [Res.andThen]
          split
          · exact hconc _ _ rfl rfl rfl
          · exact hconc _ _ rfl
              ((moveIntoBound_same _ _ _).2.1.trans (moveIntoBound_same _ _ _).2.1)
              ((moveIntoBound_same _ _ _).1.trans (moveIntoBound_same _ _ _).1)

/-- What `updateLowerBound( v, bound, level )` does to the bounds: the upper bounds stay, and
the lower bound of `v` is finite and holds the bound passed (after the almost-broken
adjustment). -/
theorem updateLowerBound_bounds (s : Reluplex) (v : ℕ) (bound : ℚ) (level : ℕ) :
    Res.Forall (fun s1 => s1.upperBounds = s.upperBounds ∧
        (s1.lowerBounds v).finite = true ∧
        ((s1.lowerBounds v).bound = bound ∨ (s1.lowerBounds v).bound = s.adjustLower bound))
      (s.updateLowerBound v bound level) := by
  have hsame : ∀ (x : Reluplex) (w : ℕ) (c : ℚ) (l : ℕ),
      ((x.storeLowerBound w c l).lowerBounds w).finite = true ∧
      ((x.storeLowerBound w c l).lowerBounds w).bound = c := by
    intro x w c l
    simp [Reluplex.storeLowerBound, VariableBound.setBound, VariableBound.setLevel]
  have hother : ∀ (x : Reluplex) (w u : ℕ) (c : ℚ) (l : ℕ), u ≠ w →
      (x.storeLowerBound w c l).lowerBounds u = x.lowerBounds u := by
    intro x w u c l hu
    simp [Reluplex.storeLowerBound, Function.update, hu]
  unfold Reluplex.updateLowerBound
  simp only
  by_cases hplain : (!s.reluPairs.isRelu v ||
      (s.dissolvedReluVariables (if s.reluPairs.isRelu v = true then
        (if s.reluPairs.isF v = true then v
         else if s.reluPairs.isRelu v = true then (s.reluPairs.toPartner v).getD 0 else 0)
        else 0)).isSome) = true
  · rw [if_pos hplain]
    have hfin := hsame s v bound level
    split
    · exact ⟨rfl, hfin.1, Or.inl hfin.2⟩
    · split
      · refine Res.Forall.andThen (update_bounds _ _ _ _) ?_ ?_
        · intro s1 h1
          rw [h1.1, h1.2]
          exact ⟨rfl, hfin.1, Or.inl hfin.2⟩
        · intro _ s1 h1
          show s1.upperBounds = s.upperBounds ∧ _
          rw [h1.1, h1.2]
          exact ⟨rfl, hfin.1, Or.inl hfin.2⟩
      · exact ⟨rfl, hfin.1, Or.inl hfin.2⟩
  · rw [if_neg hplain]
    have hrelu : s.reluPairs.isRelu v = true := by
      by_contra h
      simp [h] at hplain
    simp only [hrelu, if_true]
    generalize (s.reluPairs.toPartner v).getD 0 = p
    generalize hc : s.adjustLower bound = c
    generalize (if s.reluPairs.isF v = true then v else p) = f
    by_cases hneg : (!isNegative c DEFAULT_EPSILON) = true
    · rw [if_pos hneg]
      have hv : (((s.storeLowerBound v c level).storeLowerBound p c level).lowerBounds v).finite =
            true ∧
          (((s.storeLowerBound v c level).storeLowerBound p c level).lowerBounds v).bound = c := by
        by_cases hvp : v = p
        · rw [← hvp]; exact hsame _ v c level
        · rw [hother _ p v c level hvp]; exact hsame s v c level
      have hconc : ∀ sx : Reluplex, sx.upperBounds = s.upperBounds →
          sx.lowerBounds = ((s.storeLowerBound v c level).storeLowerBound p c level).lowerBounds →
          sx.upperBounds = s.upperBounds ∧ (sx.lowerBounds v).finite = true ∧
          ((sx.lowerBounds v).bound = bound ∨ (sx.lowerBounds v).bound = c) := by
        intro sx hU hL
        rw [hL]
        exact ⟨hU, hv.1, Or.inr hv.2⟩
      split
      · exact hconc _ rfl rfl
      · refine Res.Forall.mono (unifyReluPair_bounds _ _) ?_
        intro s1 h1
        exact hconc s1
          (h1.1.trans ((moveIntoBound_same _ _ _).1.trans (moveIntoBound_same _ _ _).1))
          (h1.2.trans ((moveIntoBound_same _ _ _).2.1.trans (moveIntoBound_same _ _ _).2.1))
    · rw [if_neg hneg]
      have hfin := hsame s v c level
      split
      · exact ⟨rfl, hfin.1, Or.inr hfin.2⟩
      · refine ⟨(moveIntoBound_same _ _ _).1, ?_, ?_⟩
        · show ((Reluplex.moveIntoBound _ v c).lowerBounds v).finite = true
          rw [(moveIntoBound_same _ _ _).2.1]
          exact hfin.1
        · right
          show ((Reluplex.moveIntoBound _ v c).lowerBounds v).bound = c
          rw [(moveIntoBound_same _ _ _).2.1]
          exact hfin.2

theorem Res.ThrowsOnly.through_andThen {α β : Type} {P : Thrown → Prop} {r : Res α}
    {f : α → Reluplex → Res β} (hr : Res.ThrowsOnly P r)
    (hf : ∀ a s, Res.ThrowsOnly P (f a s)) : Res.ThrowsOnly P (r.andThen f) := by
  cases r with
  | ok a s => exact hf a s
  | thrown e s => exact hr
  | exited c => trivial

theorem update_throws (s : Reluplex) (v : ℕ) (delta : ℚ) (ignoreRelu : Bool) :
    Res.ThrowsOnly (fun e => e = .error .NONBASIC_OUT_OF_BOUNDS)
      (s.update v delta ignoreRelu) := by
  rcases update_cases s v delta ignoreRelu with ⟨_, hu⟩ | ⟨_, hu⟩ | ⟨_, _, _, d2, hu | hu⟩
  · rw [hu]; trivial
  · rw [hu]; trivial
  · rw [hu]; trivial
  · rw [hu]; exact rfl

theorem pivot_throws (s : Reluplex) (nb b : ℕ) :
    Res.ThrowsOnly (fun e => e = .error .ILLEGAL_PIVOT_OP) (s.pivot nb b) := by
  unfold Reluplex.pivot
  split
  · exact rfl
  · split
    · exact rfl
    · trivial

theorem makeNonBasic_throws (s : Reluplex) (basic forbiddenPartner : ℕ) :
    Res.ThrowsOnly (fun e => e ≠ .error .MULTIPLE_INFINITE_VARS_ON_ROW)
      (s.makeNonBasic basic forbiddenPartner) := by
  unfold Reluplex.makeNonBasic
  split
  · intro h; cases h
  · split
    · have := pivot_throws s ‹ℕ› basic
      cases hp : s.pivot ‹ℕ› basic with
      | ok a s1 => trivial
      | thrown e s1 =>
        rw [hp] at this
        intro h
        rw [h] at this
        cases this
      | exited c => trivial
    · intro h; cases h

theorem unifyReluPair_throws (s : Reluplex) (f : ℕ) :
    Res.ThrowsOnly (fun e => e ≠ .error .MULTIPLE_INFINITE_VARS_ON_ROW)
      (s.unifyReluPair f) := by
  unfold Reluplex.unifyReluPair
  cases hp : s.reluPairs.toPartner f with
  | none => intro h; cases h
  | some b =>
    simp only
    by_cases h0 : s.tableau.getColumnSize b = 0
    · rw [if_pos h0]; trivial
    · rw [if_neg h0]
      refine Res.ThrowsOnly.through_andThen ?_ ?_
      · split
        · exact makeNonBasic_throws s _ _
        · trivial
      · intro _ s1
        refine Res.ThrowsOnly.through_andThen ?_ ?_
        · split
          · exact makeNonBasic_throws s1 _ _
          · trivial
        · intro _ s2
          refine Res.ThrowsOnly.through_andThen ?_ (fun _ _ => trivial)
          unfold Reluplex.markReluVariableDissolved
          split <;> trivial

theorem update_throws_ne (s : Reluplex) (v : ℕ) (delta : ℚ) (ignoreRelu : Bool) :
    Res.ThrowsOnly (fun e => e ≠ .error .MULTIPLE_INFINITE_VARS_ON_ROW)
      (s.update v delta ignoreRelu) := by
  have := update_throws s v delta ignoreRelu
  cases hu : s.update v delta ignoreRelu with
  | ok a s1 => trivial
  | thrown e s1 =>
    rw [hu] at this
    intro h
    rw [h] at this
    cases this
  | exited c => trivial

theorem updateUpperBound_throws (s : Reluplex) (v : ℕ) (bound : ℚ) (level : ℕ) :
    Res.ThrowsOnly (fun e => e ≠ .error .MULTIPLE_INFINITE_VARS_ON_ROW)
      (s.updateUpperBound v bound level) := by
  unfold Reluplex.updateUpperBound
  simp only
  split_ifs <;> (try split) <;>
    first
    | trivial
    | (intro h; cases h)
    | exact update_throws_ne _ _ _ _
    | (unfold Reluplex.markReluVariableDissolved
       split
       · trivial
       · simp only [Res.andThen]
         split
         · intro h; cases h
         · trivial)

theorem updateLowerBound_throws (s : Reluplex) (v : ℕ) (bound : ℚ) (level : ℕ) :
    Res.ThrowsOnly (fun e => e ≠ .error .MULTIPLE_INFINITE_VARS_ON_ROW)
      (s.updateLowerBound v bound level) := by
  unfold Reluplex.updateLowerBound
  simp only
  split_ifs <;> (try split) <;>
    first
    | trivial
    | (intro h; cases h)
    | exact Res.ThrowsOnly.through_andThen (update_throws_ne _ _ _ _) (fun _ _ => trivial)
    | exact unifyReluPair_throws _ _

/-! ## Frames of the configuration -/

theorem sameConfig_frameRel : Reluplex.FrameRel Reluplex.SameConfig where
  refl := fun _ => ⟨rfl, rfl, rfl, rfl, rfl, rfl, rfl, rfl, rfl, rfl, rfl⟩
  trans := by
    intro s2 s1 s h2 h1
    obtain ⟨a1, a2, a3, a4, a5, a6, a7, a8, a9, a10, a11⟩ := h2
    obtain ⟨b1, b2, b3, b4, b5, b6, b7, b8, b9, b10, b11⟩ := h1
    exact ⟨a1.trans b1, a2.trans b2, a3.trans b3, a4.trans b4, a5.trans b5, a6.trans b6,
      a7.trans b7, a8.trans b8, a9.trans b9, a10.trans b10, a11.trans b11⟩
  assignment := fun _ _ => ⟨rfl, rfl, rfl, rfl, rfl, rfl, rfl, rfl, rfl, rfl, rfl⟩
  status := fun _ _ => ⟨rfl, rfl, rfl, rfl, rfl, rfl, rfl, rfl, rfl, rfl, rfl⟩
  upper := fun _ _ => ⟨rfl, rfl, rfl, rfl, rfl, rfl, rfl, rfl, rfl, rfl, rfl⟩
  lower := fun _ _ => ⟨rfl, rfl, rfl, rfl, rfl, rfl, rfl, rfl, rfl, rfl, rfl⟩
  dissolved := fun _ _ => ⟨rfl, rfl, rfl, rfl, rfl, rfl, rfl, rfl, rfl, rfl, rfl⟩
  tableau := fun _ _ => ⟨rfl, rfl, rfl, rfl, rfl, rfl, rfl, rfl, rfl, rfl, rfl⟩
  basic := fun _ _ => ⟨rfl, rfl, rfl, rfl, rfl, rfl, rfl, rfl, rfl, rfl, rfl⟩
  eliminated := fun _ _ => ⟨rfl, rfl, rfl, rfl, rfl, rfl, rfl, rfl, rfl, rfl, rfl⟩

section FrameRel

variable {R : Reluplex → Reluplex → Prop} (hR : Reluplex.FrameRel R)
include hR

theorem computeVariableStatus_rel (s : Reluplex) (v : ℕ) : R (s.computeVariableStatus v) s :=
  hR.status s _

theorem addToAssignment_rel (s : Reluplex) (v : ℕ) (d : ℚ) : R (s.addToAssignment v d) s :=
  hR.trans _ _ _ (hR.status _ _) (hR.assignment s _)

theorem updateAssignment_fold_rel (v : ℕ) (delta : ℚ) (l : List Entry) :
    ∀ st : Reluplex,
      R (l.foldl (fun st current =>
          if current.row ≠ v then st.addToAssignment current.row (delta * current.value)
          else st) st) st := by
  induction l with
  | nil => intro st; exact hR.refl st
  | cons e rest ih =>
    intro st
    simp only [List.foldl_cons]
    split
    · exact hR.trans _ _ _ (ih _) (addToAssignment_rel hR st _ _)
    · exact ih _

theorem updateAssignment_rel (s : Reluplex) (v : ℕ) (delta : ℚ) :
    R (s.updateAssignment v delta) s := by
  unfold Reluplex.updateAssignment
  exact hR.trans _ _ _ (updateAssignment_fold_rel hR v delta _ _) (addToAssignment_rel hR s v delta)

theorem updateIgnoringRelu_rel (s : Reluplex) (v : ℕ) (delta : ℚ) :
    R (s.updateIgnoringRelu v delta) s := by
  unfold Reluplex.updateIgnoringRelu
  split
  · exact hR.refl s
  · exact updateAssignment_rel hR s v delta

theorem moveIntoBound_rel (s : Reluplex) (v : ℕ) (target : ℚ) :
    R (s.moveIntoBound v target) s := by
  unfold Reluplex.moveIntoBound
  split
  · exact updateIgnoringRelu_rel hR s v _
  · exact hR.refl s

theorem update_rel (s : Reluplex) (v : ℕ) (delta : ℚ) (ignoreRelu : Bool) :
    Res.Forall (fun s1 => R s1 s) (s.update v delta ignoreRelu) := by
  have h1 := updateAssignment_rel hR s v delta
  rcases update_cases s v delta ignoreRelu with ⟨_, hu⟩ | ⟨_, hu⟩ | ⟨_, _, _, d2, hu | hu⟩
  · rw [hu]; exact hR.refl s
  · rw [hu]; exact h1
  · rw [hu]; exact hR.trans _ _ _ (updateIgnoringRelu_rel hR _ _ _) h1
  · rw [hu]; exact hR.trans _ _ _ (updateIgnoringRelu_rel hR _ _ _) h1

theorem pivot_rel (s : Reluplex) (nb b : ℕ) :
    Res.Forall (fun s1 => R s1 s) (s.pivot nb b) := by
  unfold Reluplex.pivot
  split
  · exact hR.refl s
  · split
    · exact hR.refl s
    · exact hR.trans _ { s with basicVariables := insert nb (s.basicVariables.erase b) } _
        (hR.tableau { s with basicVariables := insert nb (s.basicVariables.erase b) }
          (Reluplex.pivotTableau s.tableau nb b))
        (hR.basic s _)

theorem makeNonBasic_rel (s : Reluplex) (basic forbiddenPartner : ℕ) :
    Res.Forall (fun s1 => R s1 s) (s.makeNonBasic basic forbiddenPartner) := by
  unfold Reluplex.makeNonBasic
  split
  · exact hR.refl s
  · split
    · exact pivot_rel hR s _ _
    · exact hR.refl s

theorem markReluVariableDissolved_rel (s : Reluplex) (v : ℕ) (type : ReluDissolutionType) :
    Res.Forall (fun s1 => R s1 s) (s.markReluVariableDissolved v type) := by
  unfold Reluplex.markReluVariableDissolved
  split
  · trivial
  · exact hR.dissolved s _

theorem unifyNonBasic_rel (s : Reluplex) (b f : ℕ) : R (s.unifyNonBasic b f) s := by
  unfold Reluplex.unifyNonBasic
  simp only
  split
  · exact hR.trans _ _ _ (hR.tableau _ _)
      (hR.trans _ _ _ (updateIgnoringRelu_rel hR _ b _) (updateIgnoringRelu_rel hR s f _))
  · split
    · exact hR.trans _ _ _ (hR.tableau _ _)
        (hR.trans _ _ _ (updateIgnoringRelu_rel hR _ b _) (updateIgnoringRelu_rel hR s f _))
    · exact hR.trans _ _ _ (hR.tableau _ _) (updateIgnoringRelu_rel hR _ b _)

theorem unifyReluPair_rel (s : Reluplex) (f : ℕ) :
    Res.Forall (fun s1 => R s1 s) (s.unifyReluPair f) := by
  unfold Reluplex.unifyReluPair
  cases hp : s.reluPairs.toPartner f with
  | none => exact hR.refl s
  | some b =>
    simp only
    by_cases h0 : s.tableau.getColumnSize b = 0
    · rw [if_pos h0]
      exact hR.refl s
    · rw [if_neg h0]
      have h1 : Res.Forall (fun s1 => R s1 s)
          (if b ∈ s.basicVariables then s.makeNonBasic b f else Res.ok () s) := by
        split
        · exact makeNonBasic_rel hR s _ _
        · exact hR.refl s
      refine Res.Forall.andThen h1 (fun _ h => h) ?_
      intro _ s1 hs1
      have h2 : Res.Forall (fun s2 => R s2 s1)
          (if f ∈ s1.basicVariables then s1.makeNonBasic f b else Res.ok () s1) := by
        split
        · exact makeNonBasic_rel hR s1 _ _
        · exact hR.refl s1
      refine Res.Forall.andThen (Res.Forall.mono h2 (fun _ h => hR.trans _ _ _ h hs1))
        (fun _ h => h) ?_
      intro _ s2 hs2
      refine Res.Forall.andThen
        (Res.Forall.mono (markReluVariableDissolved_rel hR _ f .TYPE_MERGE)
          (fun _ h => hR.trans _ _ _ (hR.trans _ _ _ h (unifyNonBasic_rel hR s2 _ f)) hs2))
        (fun _ h => h) ?_
      intro _ s3 hs3
      exact hs3

theorem storeUpperBound_rel (s : Reluplex) (v : ℕ) (bound : ℚ) (level : ℕ) :
    R (s.storeUpperBound v bound level) s := hR.upper s _

theorem storeLowerBound_rel (s : Reluplex) (v : ℕ) (bound : ℚ) (level : ℕ) :
    R (s.storeLowerBound v bound level) s := hR.lower s _

theorem updateUpperBound_rel (s : Reluplex) (v : ℕ) (bound : ℚ) (level : ℕ) :
    Res.Forall (fun s1 => R s1 s) (s.updateUpperBound v bound level) := by
  have st1 : ∀ (x : Reluplex) (w : ℕ) (c : ℚ) (l : ℕ), R x s → R (x.storeUpperBound w c l) s :=
    fun x w c l h => hR.trans _ _ _ (hR.upper x _) h
  have cs1 : ∀ (x : Reluplex) (w : ℕ), R x s → R (x.computeVariableStatus w) s :=
    fun x w h => hR.trans _ _ _ (hR.status x _) h
  have mv1 : ∀ (x : Reluplex) (w : ℕ) (c : ℚ), R x s → R (x.moveIntoBound w c) s :=
    fun x w c h => hR.trans _ _ _ (moveIntoBound_rel hR x w c) h
  unfold Reluplex.updateUpperBound
  simp only
  generalize (if s.reluPairs.isRelu v = true then (s.reluPairs.toPartner v).getD 0 else 0) = p
  generalize (if s.reluPairs.isRelu v = true then
    (if s.reluPairs.isF v = true then v else p) else 0) = f
  generalize (if s.reluPairs.isRelu v = true then
    (if s.reluPairs.isB v = true then v else p) else 0) = b
  generalize s.adjustUpper bound = c
  by_cases hplain : (!s.reluPairs.isRelu v || (s.dissolvedReluVariables f).isSome) = true
  · rw [if_pos hplain]
    split
    · exact st1 _ _ _ _ (hR.refl s)
    · split
      · exact Res.Forall.mono (update_rel hR _ _ _ _)
          (fun _ h => hR.trans _ _ _ h (cs1 _ _ (st1 _ _ _ _ (hR.refl s))))
      · exact cs1 _ _ (st1 _ _ _ _ (hR.refl s))
  · rw [if_neg hplain]
    by_cases hpos : isPositive c DEFAULT_EPSILON = true
    · rw [if_pos hpos]
      split
      · exact st1 _ _ _ _ (st1 _ _ _ _ (hR.refl s))
      · exact mv1 _ _ _ (mv1 _ _ _ (cs1 _ _ (cs1 _ _ (st1 _ _ _ _ (st1 _ _ _ _ (hR.refl s))))))
    · rw [if_neg hpos]
      by_cases hneg : (isNegative c DEFAULT_EPSILON && s.reluPairs.isF v) = true
      · rw [if_pos hneg]
        split
        · exact st1 _ _ _ _ (hR.refl s)
        · trivial
      · rw [if_neg hneg]
        refine Res.Forall.andThen (markReluVariableDissolved_rel hR s f .TYPE_SPLIT)
          (fun _ h => h) ?_
        intro _ s0 hs0
        split
        · exact st1 _ _ _ _ (st1 _ _ _ _ hs0)
        · exact mv1 _ _ _ (mv1 _ _ _ (cs1 _ _ (cs1 _ _ (st1 _ _ _ _ (st1 _ _ _ _ hs0)))))

theorem updateLowerBound_rel (s : Reluplex) (v : ℕ) (bound : ℚ) (level : ℕ) :
    Res.Forall (fun s1 => R s1 s) (s.updateLowerBound v bound level) := by
  have st1 : ∀ (x : Reluplex) (w : ℕ) (c : ℚ) (l : ℕ), R x s → R (x.storeLowerBound w c l) s :=
    fun x w c l h => hR.trans _ _ _ (hR.lower x _) h
  have cs1 : ∀ (x : Reluplex) (w : ℕ), R x s → R (x.computeVariableStatus w) s :=
    fun x w h => hR.trans _ _ _ (hR.status x _) h
  have mv1 : ∀ (x : Reluplex) (w : ℕ) (c : ℚ), R x s → R (x.moveIntoBound w c) s :=
    fun x w c h => hR.trans _ _ _ (moveIntoBound_rel hR x w c) h
  unfold Reluplex.updateLowerBound
  simp only
  generalize (if s.reluPairs.isRelu v = true then (s.reluPairs.toPartner v).getD 0 else 0) = p
  generalize (if s.reluPairs.isRelu v = true then
    (if s.reluPairs.isF v = true then v else p) else 0) = f
  generalize s.adjustLower bound = c
  by_cases hplain : (!s.reluPairs.isRelu v || (s.dissolvedReluVariables f).isSome) = true
  · rw [if_pos hplain]
    split
    · exact st1 _ _ _ _ (hR.refl s)
    · split
      · refine Res.Forall.andThen (update_rel hR _ _ _ _)
          (fun _ h => hR.trans _ _ _ h (cs1 _ _ (st1 _ _ _ _ (hR.refl s)))) ?_
        intro _ s3 hs3
        exact hR.trans _ _ _ hs3 (cs1 _ _ (st1 _ _ _ _ (hR.refl s)))
      · exact cs1 _ _ (st1 _ _ _ _ (hR.refl s))
  · rw [if_neg hplain]
    by_cases hneg : (!isNegative c DEFAULT_EPSILON) = true
    · rw [if_pos hneg]
      split
      · exact st1 _ _ _ _ (st1 _ _ _ _ (hR.refl s))
      · exact Res.Forall.mono (unifyReluPair_rel hR _ _)
          (fun _ h => hR.trans _ _ _ h
            (mv1 _ _ _ (mv1 _ _ _ (cs1 _ _ (cs1 _ _ (st1 _ _ _ _ (st1 _ _ _ _ (hR.refl s))))))))
    · rw [if_neg hneg]
      split
      · exact st1 _ _ _ _ (hR.refl s)
      · exact mv1 _ _ _ (cs1 _ _ (st1 _ _ _ _ (hR.refl s)))

end FrameRel

/-! ## Making all bounds finite (C24) -/

theorem Res.andThen_eq_ok {α β : Type} {r : Res α} {f : α → Reluplex → Res β} {b : β}
    {s1 : Reluplex} (h : r.andThen f = .ok b s1) :
    ∃ a s0, r = .ok a s0 ∧ f a s0 = .ok b s1 := by
  cases r with
  | ok a s0 => exact ⟨a, s0, rfl, h⟩
  | thrown e s0 => cases h
  | exited c => cases h

theorem Res.ForallOk.of_forall {α : Type} {P : Reluplex → Prop} {r : Res α}
    (h : Res.Forall P r) : Res.ForallOk P r := by
  cases r with
  | ok a s => exact h
  | thrown e s => trivial
  | exited c => trivial

theorem findTighteningVar_some (s : Reluplex) (l : List Entry) :
    ∀ a : Entry, Reluplex.findTighteningVar s l (some a) =
      if l.filter (fun e => !(s.upperBounds e.column).finite ||
          !(s.lowerBounds e.column).finite) = [] then some (some a) else none := by
  induction l with
  | nil => intro a; simp [Reluplex.findTighteningVar]
  | cons e rest ih =>
    intro a
    unfold Reluplex.findTighteningVar
    by_cases hinf : (!(s.upperBounds e.column).finite || !(s.lowerBounds e.column).finite) = true
    · rw [if_pos hinf, List.filter_cons]
      simp only [hinf, if_true]
      simp
    · rw [if_neg hinf, List.filter_cons]
      simp only [hinf, if_false]
      exact ih a

theorem findTighteningVar_none (s : Reluplex) (l : List Entry) :
    (l.filter (fun e => !(s.upperBounds e.column).finite ||
        !(s.lowerBounds e.column).finite) = [] →
      Reluplex.findTighteningVar s l none = some none) ∧
    (∀ tv, l.filter (fun e => !(s.upperBounds e.column).finite ||
        !(s.lowerBounds e.column).finite) = [tv] →
      Reluplex.findTighteningVar s l none = some (some tv)) ∧
    (2 ≤ (l.filter (fun e => !(s.upperBounds e.column).finite ||
        !(s.lowerBounds e.column).finite)).length →
      Reluplex.findTighteningVar s l none = none) := by
  induction l with
  | nil =>
    refine ⟨fun _ => rfl, fun tv h => ?_, fun h => ?_⟩
    · simp at h
    · simp at h
  | cons e rest ih =>
    obtain ⟨i1, i2, i3⟩ := ih
    unfold Reluplex.findTighteningVar
    by_cases hinf : (!(s.upperBounds e.column).finite || !(s.lowerBounds e.column).finite) = true
    · rw [if_pos hinf, List.filter_cons]
      simp only [hinf, if_true, Option.isSome_none, Bool.false_eq_true, if_false]
      rw [findTighteningVar_some]
      refine ⟨fun h => ?_, fun tv h => ?_, fun h => ?_⟩
      · cases h
      · simp only [List.cons.injEq] at h
        rw [if_pos h.2, h.1]
      · rw [if_neg]
        intro h0
        rw [h0] at h
        simp at h
    · rw [if_neg hinf, List.filter_cons]
      simp only [hinf, if_false]
      exact ⟨i1, i2, i3⟩

theorem rowMaxMin_fold (s : Reluplex) (v : ℕ) (scale : ℚ) (l : List Entry) :
    ∀ acc : ℚ × ℚ,
      (l.foldl
        (fun acc current =>
          if current.column = v then acc
          else
            if isPositive (current.value * scale) DEFAULT_EPSILON then
              (acc.1 + (s.upperBounds current.column).bound * (current.value * scale),
               acc.2 + (s.lowerBounds current.column).bound * (current.value * scale))
            else
              (acc.1 + (s.lowerBounds current.column).bound * (current.value * scale),
               acc.2 + (s.upperBounds current.column).bound * (current.value * scale)))
        acc) =
      (acc.1 + ((l.filter (fun e => e.column ≠ v)).map (fun e =>
          if isPositive (e.value * scale) DEFAULT_EPSILON
          then (s.upperBounds e.column).bound * (e.value * scale)
          else (s.lowerBounds e.column).bound * (e.value * scale))).sum,
       acc.2 + ((l.filter (fun e => e.column ≠ v)).map (fun e =>
          if isPositive (e.value * scale) DEFAULT_EPSILON
          then (s.lowerBounds e.column).bound * (e.value * scale)
          else (s.upperBounds e.column).bound * (e.value * scale))).sum) := by
  induction l with
  | nil => intro acc; simp
  | cons e rest ih =>
    intro acc
    simp only [List.foldl_cons]
    rw [ih]
    by_cases hv : e.column = v
    · simp [hv]
    · by_cases hp : isPositive (e.value * scale) DEFAULT_EPSILON = true
      · simp only [hv, if_false, hp, if_true, List.filter_cons, ne_eq,
          not_false_eq_true, decide_True, List.map_cons, List.sum_cons]
        ext <;> simp only <;> ring
      · simp only [hv, if_false, hp, Bool.false_eq_true,
          List.filter_cons, ne_eq, not_false_eq_true, decide_True, if_true, List.map_cons,
          List.sum_cons]
        ext <;> simp only <;> ring

theorem rowMaxMin_eq (s : Reluplex) (v : ℕ) (scale : ℚ) (l : List Entry) :
    s.rowMaxMin v scale l =
      (((l.filter (fun e => e.column ≠ v)).map (fun e =>
          if isPositive (e.value * scale) DEFAULT_EPSILON
          then (s.upperBounds e.column).bound * (e.value * scale)
          else (s.lowerBounds e.column).bound * (e.value * scale))).sum,
       ((l.filter (fun e => e.column ≠ v)).map (fun e =>
          if isPositive (e.value * scale) DEFAULT_EPSILON
          then (s.lowerBounds e.column).bound * (e.value * scale)
          else (s.upperBounds e.column).bound * (e.value * scale))).sum) := by
  unfold Reluplex.rowMaxMin
  simp only
  rw [rowMaxMin_fold s v scale l (0, 0)]
  simp

theorem row_solved_for (l : List Entry) (tv : Entry) (x : ℕ → ℚ)
    (hnd : (l.map (fun e => e.column)).Nodup) (htv : tv ∈ l) (hc : tv.value ≠ 0)
    (hrow : (l.map (fun e => e.value * x e.column)).sum = 0) :
    x tv.column =
      ((l.filter (fun e => e.column ≠ tv.column)).map
        (fun e => e.value * ((-1) / tv.value) * x e.column)).sum := by
  have hsplit := sum_split_at_column (fun e => e.value * x e.column) tv l hnd htv
  rw [hrow] at hsplit
  have hmul : ((l.filter (fun e => e.column ≠ tv.column)).map
      (fun e => e.value * ((-1) / tv.value) * x e.column)).sum =
      ((-1) / tv.value) *
      ((l.filter (fun e => e.column ≠ tv.column)).map (fun e => e.value * x e.column)).sum := by
    rw [← List.sum_map_mul_left]
    congr 1
    apply List.map_congr_left
    intro e _
    ring
  rw [hmul]
  have h2 : ((l.filter (fun e => e.column ≠ tv.column)).map
      (fun e => e.value * x e.column)).sum = -(tv.value * x tv.column) := by
    have hsplit2 : (0 : ℚ) = tv.value * x tv.column +
        ((l.filter (fun e => e.column ≠ tv.column)).map (fun e => e.value * x e.column)).sum :=
      hsplit
    linarith
  rw [h2]
  field_simp

theorem rowMaxMin_sound (s : Reluplex) (basic : ℕ) (tv : Entry)
    (hone : s.tableau.OneCellPerPosition) (htv : tv ∈ s.tableau.getRow basic)
    (hc : tv.value ≠ 0) (x : ℕ → ℚ)
    (hrow : ((s.tableau.getRow basic).map (fun e => e.value * x e.column)).sum = 0)
    (hx : ∀ e ∈ s.tableau.getRow basic, e.column ≠ tv.column →
      (s.lowerBounds e.column).bound ≤ x e.column ∧
      x e.column ≤ (s.upperBounds e.column).bound)
    (hk : ∀ e ∈ s.tableau.getRow basic, e.column ≠ tv.column →
      DEFAULT_EPSILON < |e.value * ((-1) / tv.value)|) :
    (s.rowMaxMin tv.column ((-1) / tv.value) (s.tableau.getRow basic)).2 ≤ x tv.column ∧
    x tv.column ≤ (s.rowMaxMin tv.column ((-1) / tv.value) (s.tableau.getRow basic)).1 := by
  obtain ⟨t1, t2⟩ := tighten_terms_sound s tv.column ((-1) / tv.value) x
    (s.tableau.getRow basic) hx hk
  have hsolve := row_solved_for (s.tableau.getRow basic) tv x
    (Tableau.nodup_columns_getRow s.tableau hone basic) htv hc hrow
  rw [rowMaxMin_eq]
  constructor
  · rw [hsolve]; exact t1
  · rw [hsolve]; exact t2

theorem adjustLower_config (s1 s : Reluplex) (h : s1.SameConfig s) (b : ℚ) :
    s1.adjustLower b = s.adjustLower b := by
  unfold Reluplex.adjustLower
  rw [h.2.2.1]

theorem adjustUpper_config (s1 s : Reluplex) (h : s1.SameConfig s) (b : ℚ) :
    s1.adjustUpper b = s.adjustUpper b := by
  unfold Reluplex.adjustUpper
  rw [h.2.2.1]

theorem makeAllBoundsFiniteOnRow_one (s : Reluplex) (basic : ℕ) (tv : Entry)
    (hfind : Reluplex.findTighteningVar s (s.tableau.getRow basic) none = some (some tv)) :
    Res.ForallOk (fun s1 =>
      (s1.upperBounds tv.column).finite = true ∧ (s1.lowerBounds tv.column).finite = true ∧
      (((s.upperBounds tv.column).finite = true ∧
          (s1.upperBounds tv.column).bound = (s.upperBounds tv.column).bound) ∨
        (s1.upperBounds tv.column).bound =
          (s.rowMaxMin tv.column ((-1) / tv.value) (s.tableau.getRow basic)).1 ∨
        (s1.upperBounds tv.column).bound =
          s.adjustUpper (s.rowMaxMin tv.column ((-1) / tv.value) (s.tableau.getRow basic)).1 ∨
        ((s1.upperBounds tv.column).bound = 0 ∧ s.reluPairs.isF tv.column = true ∧
          isPositive
            (s.adjustUpper (s.rowMaxMin tv.column ((-1) / tv.value) (s.tableau.getRow basic)).1)
            DEFAULT_EPSILON = false ∧
          isNegative
            (s.adjustUpper (s.rowMaxMin tv.column ((-1) / tv.value) (s.tableau.getRow basic)).1)
            DEFAULT_EPSILON = false)) ∧
      (((s.lowerBounds tv.column).finite = true ∧
          (s1.lowerBounds tv.column).bound = (s.lowerBounds tv.column).bound) ∨
        (s1.lowerBounds tv.column).bound =
          (s.rowMaxMin tv.column ((-1) / tv.value) (s.tableau.getRow basic)).2 ∨
        (s1.lowerBounds tv.column).bound =
          s.adjustLower (s.rowMaxMin tv.column ((-1) / tv.value) (s.tableau.getRow basic)).2))
      (s.makeAllBoundsFiniteOnRow basic) := by
  unfold Reluplex.makeAllBoundsFiniteOnRow
  rw [hfind]
  simp only
  generalize s.rowMaxMin tv.column ((-1) / tv.value) (s.tableau.getRow basic) = mm
  apply Res.ForallOk.of_andThen
  intro a sA hA
  have hU : sA.lowerBounds = s.lowerBounds ∧ sA.SameConfig s ∧
      (sA.upperBounds tv.column).finite = true ∧
      (((s.upperBounds tv.column).finite = true ∧
          (sA.upperBounds tv.column).bound = (s.upperBounds tv.column).bound) ∨
        (sA.upperBounds tv.column).bound = mm.1 ∨
        (sA.upperBounds tv.column).bound = s.adjustUpper mm.1 ∨
        ((sA.upperBounds tv.column).bound = 0 ∧ s.reluPairs.isF tv.column = true ∧
          isPositive (s.adjustUpper mm.1) DEFAULT_EPSILON = false ∧
          isNegative (s.adjustUpper mm.1) DEFAULT_EPSILON = false)) := by
    by_cases hc : (!(s.upperBounds tv.column).finite ||
        lt mm.1 (s.upperBounds tv.column).bound DEFAULT_EPSILON) = true
    · rw [if_pos hc] at hA
      have h1 := Res.Forall.of_ok (updateUpperBound_bounds s tv.column mm.1 0) hA
      have h2 := Res.Forall.of_ok
        (updateUpperBound_rel sameConfig_frameRel s tv.column mm.1 0) hA
      exact ⟨h1.1, h2, h1.2.1, Or.inr h1.2.2⟩
    · rw [if_neg hc] at hA
      cases hA
      simp only [Bool.or_eq_true, Bool.not_eq_true', not_or, Bool.not_eq_false] at hc
      exact ⟨rfl, sameConfig_frameRel.refl s, hc.1, Or.inl ⟨hc.1, rfl⟩⟩
  obtain ⟨hAl, hAc, hAf, hAd⟩ := hU
  apply Res.ForallOk.of_andThen
  intro a2 sB hB
  have hL : sB.upperBounds = sA.upperBounds ∧ (sB.lowerBounds tv.column).finite = true ∧
      (((s.lowerBounds tv.column).finite = true ∧
          (sB.lowerBounds tv.column).bound = (s.lowerBounds tv.column).bound) ∨
        (sB.lowerBounds tv.column).bound = mm.2 ∨
        (sB.lowerBounds tv.column).bound = s.adjustLower mm.2) := by
    by_cases hc : (!(sA.lowerBounds tv.column).finite ||
        gt mm.2 (sA.lowerBounds tv.column).bound DEFAULT_EPSILON) = true
    · rw [if_pos hc] at hB
      obtain ⟨a3, s0, e1, e2⟩ := Res.andThen_eq_ok hB
      cases e2
      have h1 := Res.Forall.of_ok (updateLowerBound_bounds sA tv.column mm.2 0) e1
      rw [adjustLower_config sA s hAc] at h1
      exact ⟨h1.1, h1.2.1, Or.inr h1.2.2⟩
    · rw [if_neg hc] at hB
      cases hB
      simp only [Bool.or_eq_true, Bool.not_eq_true', not_or, Bool.not_eq_false] at hc
      rw [hAl] at hc ⊢
      exact ⟨rfl, hc.1, Or.inl ⟨hc.1, rfl⟩⟩
  obtain ⟨hBu, hBf, hBd⟩ := hL
  have hfin : ∀ s3 : Reluplex, s3.upperBounds = sB.upperBounds →
      s3.lowerBounds = sB.lowerBounds →
      (s3.upperBounds tv.column).finite = true ∧ (s3.lowerBounds tv.column).finite = true ∧
      (((s.upperBounds tv.column).finite = true ∧
          (s3.upperBounds tv.column).bound = (s.upperBounds tv.column).bound) ∨
        (s3.upperBounds tv.column).bound = mm.1 ∨
        (s3.upperBounds tv.column).bound = s.adjustUpper mm.1 ∨
        ((s3.upperBounds tv.column).bound = 0 ∧ s.reluPairs.isF tv.column = true ∧
          isPositive (s.adjustUpper mm.1) DEFAULT_EPSILON = false ∧
          isNegative (s.adjustUpper mm.1) DEFAULT_EPSILON = false)) ∧
      (((s.lowerBounds tv.column).finite = true ∧
          (s3.lowerBounds tv.column).bound = (s.lowerBounds tv.column).bound) ∨
        (s3.lowerBounds tv.column).bound = mm.2 ∨
        (s3.lowerBounds tv.column).bound = s.adjustLower mm.2) := by
    intro s3 hu hl
    rw [hu, hl, hBu]
    exact ⟨hAf, hBf, hAd, hBd⟩
  split
  · exact Res.ForallOk.of_forall
      (Res.Forall.mono (update_bounds _ _ _ _) (fun s4 h => hfin s4 h.1 h.2))
  · exact hfin _ rfl rfl

theorem makeAllBoundsFiniteOnRow_throws (s : Reluplex) (basic : ℕ) (tv : Entry)
    (hfind : Reluplex.findTighteningVar s (s.tableau.getRow basic) none = some (some tv)) :
    Res.ThrowsOnly (fun e => e ≠ .error .MULTIPLE_INFINITE_VARS_ON_ROW)
      (s.makeAllBoundsFiniteOnRow basic) := by
  unfold Reluplex.makeAllBoundsFiniteOnRow
  rw [hfind]
  simp only
  refine Res.ThrowsOnly.through_andThen ?_ ?_
  · split
    · exact updateUpperBound_throws _ _ _ _
    · trivial
  · intro _ sA
    refine Res.ThrowsOnly.through_andThen ?_ ?_
    · split
      · exact Res.ThrowsOnly.through_andThen (updateLowerBound_throws _ _ _ _) (fun _ _ => trivial)
      · trivial
    · intro _ sB
      split
      · exact update_throws_ne _ _ _ _
      · trivial

theorem le_of_isPositive_false (x eps : ℚ) (heps : 0 ≤ eps)
    (h : isPositive x eps = false) : x ≤ eps := by
  by_contra hc
  have := isPositive_of_gt x eps heps (not_le.mp hc)
  rw [h] at this
  cases this

set_option maxRecDepth 100000 in
/-- C24, counterexample to the claim as stated, with or without `DEBUG_ON`. (1) In
`halfBoundedRow` (row `x1 = x0`, `x0` in `[0, 9]`, `x1 <= 3` without a lower bound) the basic
variable `x1` is the only variable of row `1` with a non-finite bound.
`makeAllBoundsFiniteOnRow( 1 )` returns with `x1` in `[0, 3]`: the derived maximum `9` is not
smaller than the bound `3` the variable already had, so that bound is kept. The value
`x1 = 5` with `x0 = 5` satisfies the row equation and the bounds of the other variable `x0`,
and lies outside `[0, 3]`. (2) In `almostBrokenRow` (row `x2 = x1`, `x2` in `[0, 0.0005]`,
almost-broken elimination on) the only variable of row `2` with a non-finite bound is `x1`,
the `f` of the pair `(0, 1)`, with `lb = 0`. `makeAllBoundsFiniteOnRow( 2 )` derives the
maximum `0.0005`, which `updateUpperBound` replaces by `0`: the call returns with
`ub(x1) = 0` and the pair split. The value `x1 = x2 = 0.0005` satisfies the row equation,
the bounds of `x2` and the lower bound of `x1`, and lies above `ub(x1) = 0`. -/
theorem C24_own_bound_is_kept :
    (((halfBoundedRow false).infiniteOnRow 1 = [{ row := 1, column := 1, value := -1 }] ∧
      (((halfBoundedRow false).makeAllBoundsFiniteOnRow 1).returned?.map
        (fun s1 => ((s1.lowerBounds 1).finite, (s1.lowerBounds 1).bound,
          (s1.upperBounds 1).finite, (s1.upperBounds 1).bound))) = some (true, 0, true, 3) ∧
      (((halfBoundedRow false).tableau.getRow 1).map (fun e => e.value * (5 : ℚ))).sum = 0 ∧
      ((halfBoundedRow false).lowerBounds 0).bound ≤ (5 : ℚ) ∧
      (5 : ℚ) ≤ ((halfBoundedRow false).upperBounds 0).bound ∧ ¬ ((5 : ℚ) ≤ 3)) ∧
    ((halfBoundedRow true).infiniteOnRow 1 = [{ row := 1, column := 1, value := -1 }] ∧
      (((halfBoundedRow true).makeAllBoundsFiniteOnRow 1).returned?.map
        (fun s1 => ((s1.lowerBounds 1).finite, (s1.lowerBounds 1).bound,
          (s1.upperBounds 1).finite, (s1.upperBounds 1).bound))) = some (true, 0, true, 3) ∧
      (((halfBoundedRow true).tableau.getRow 1).map (fun e => e.value * (5 : ℚ))).sum = 0 ∧
      ((halfBoundedRow true).lowerBounds 0).bound ≤ (5 : ℚ) ∧
      (5 : ℚ) ≤ ((halfBoundedRow true).upperBounds 0).bound ∧ ¬ ((5 : ℚ) ≤ 3))) ∧
    (((almostBrokenRow false).infiniteOnRow 2 = [{ row := 2, column := 1, value := 1 }] ∧
      (almostBrokenRow false).reluPairs.bToF 0 = some 1 ∧
      (almostBrokenRow false).lowerBounds 1 = { finite := true, bound := 0, level := 0 } ∧
      (((almostBrokenRow false).makeAllBoundsFiniteOnRow 2).returned?.map
        (fun s1 => ((s1.lowerBounds 1).bound, (s1.upperBounds 1).finite,
          (s1.upperBounds 1).bound, decide (s1.dissolvedReluVariables 1 = some .TYPE_SPLIT))))
        = some (0, true, 0, true) ∧
      (((almostBrokenRow false).tableau.getRow 2).map
        (fun e => e.value * (1 / 2000 : ℚ))).sum = 0 ∧
      ((almostBrokenRow false).lowerBounds 2).bound ≤ (1 / 2000 : ℚ) ∧
      (1 / 2000 : ℚ) ≤ ((almostBrokenRow false).upperBounds 2).bound ∧
      ¬ ((1 / 2000 : ℚ) ≤ 0 + DEFAULT_EPSILON)) ∧
    ((almostBrokenRow true).infiniteOnRow 2 = [{ row := 2, column := 1, value := 1 }] ∧
      (almostBrokenRow true).reluPairs.bToF 0 = some 1 ∧
      (almostBrokenRow true).lowerBounds 1 = { finite := true, bound := 0, level := 0 } ∧
      (((almostBrokenRow true).makeAllBoundsFiniteOnRow 2).returned?.map
        (fun s1 => ((s1.lowerBounds 1).bound, (s1.upperBounds 1).finite,
          (s1.upperBounds 1).bound, decide (s1.dissolvedReluVariables 1 = some .TYPE_SPLIT))))
        = some (0, true, 0, true) ∧
      (((almostBrokenRow true).tableau.getRow 2).map
        (fun e => e.value * (1 / 2000 : ℚ))).sum = 0 ∧
      ((almostBrokenRow true).lowerBounds 2).bound ≤ (1 / 2000 : ℚ) ∧
      (1 / 2000 : ℚ) ≤ ((almostBrokenRow true).upperBounds 2).bound ∧
      ¬ ((1 / 2000 : ℚ) ≤ 0 + DEFAULT_EPSILON))) := by
  refine ⟨⟨⟨?_, ?_, ?_, ?_, ?_, ?_⟩, ⟨?_, ?_, ?_, ?_, ?_, ?_⟩⟩,
    ⟨⟨?_, ?_, ?_, ?_, ?_, ?_, ?_, ?_⟩, ⟨?_, ?_, ?_, ?_, ?_, ?_, ?_, ?_⟩⟩⟩ <;> decide!

/-- C24 (amended): `makeAllBoundsFiniteOnRow( basic )` on a tableau with at most one cell per
position. (1) It raises `MULTIPLE_INFINITE_VARS_ON_ROW` iff at least two entries of the row
belong to variables with a non-finite lower or upper bound. (2) When no entry does, the call
returns and the whole state is unchanged. (3) When exactly one entry `tv` does and the call
returns, both bounds of its variable `v` are finite afterwards; and, in exact arithmetic
(the scale, the products and the sums of the loop are not rounded), with almost-broken
elimination off and `tv` a non-zero cell, every assignment `x` that satisfies the row equation,
the bounds of the other variables of the row (whose scaled coefficients have magnitude above
`DEFAULT_EPSILON`) and the finite bounds `v` already had, satisfies `lb(v) <= x_v` and
`x_v <= ub(v) + DEFAULT_EPSILON` for the new bounds, with `x_v <= ub(v)` when `v` is not the
output of a ReLU pair. -/
theorem C24_make_all_bounds_finite_on_row (s : Reluplex) (basic : ℕ)
    (hone : s.tableau.OneCellPerPosition) :
    ((s.makeAllBoundsFiniteOnRow basic).thrown? =
        some (.error .MULTIPLE_INFINITE_VARS_ON_ROW) ↔
      2 ≤ (s.infiniteOnRow basic).length) ∧
    (s.infiniteOnRow basic = [] → s.makeAllBoundsFiniteOnRow basic = .ok () s) ∧
    ∀ (tv : Entry) (s1 : Reluplex), s.infiniteOnRow basic = [tv] →
      s.makeAllBoundsFiniteOnRow basic = .ok () s1 →
      (s1.upperBounds tv.column).finite = true ∧ (s1.lowerBounds tv.column).finite = true ∧
      ∀ x : ℕ → ℚ, s.eliminateAlmostBrokenRelus = false → tv.value ≠ 0 →
        ((s.tableau.getRow basic).map (fun e => e.value * x e.column)).sum = 0 →
        (∀ e ∈ s.tableau.getRow basic, e.column ≠ tv.column →
          (s.lowerBounds e.column).bound ≤ x e.column ∧
          x e.column ≤ (s.upperBounds e.column).bound) →
        (∀ e ∈ s.tableau.getRow basic, e.column ≠ tv.column →
          DEFAULT_EPSILON < |e.value * ((-1) / tv.value)|) →
        ((s.upperBounds tv.column).finite = true →
          x tv.column ≤ (s.upperBounds tv.column).bound) →
        ((s.lowerBounds tv.column).finite = true →
          (s.lowerBounds tv.column).bound ≤ x tv.column) →
        (s1.lowerBounds tv.column).bound ≤ x tv.column ∧
        x tv.column ≤ (s1.upperBounds tv.column).bound + DEFAULT_EPSILON ∧
        (s.reluPairs.isF tv.column = false →
          x tv.column ≤ (s1.upperBounds tv.column).bound) := by
  have heps : (0 : ℚ) < DEFAULT_EPSILON := by norm_num [DEFAULT_EPSILON]
  obtain ⟨f1, f2, f3⟩ := findTighteningVar_none s (s.tableau.getRow basic)
  refine ⟨⟨?_, ?_⟩, ?_, ?_⟩
  · intro hth
    by_contra hlt
    have hlen : (s.infiniteOnRow basic).length < 2 := not_le.mp hlt
    cases hl : s.infiniteOnRow basic with
    | nil =>
      have hfind := f1 hl
      unfold Reluplex.makeAllBoundsFiniteOnRow at hth
      rw [hfind] at hth
      cases hth
    | cons e rest =>
      cases rest with
      | nil =>
        have hT := makeAllBoundsFiniteOnRow_throws s basic e (f2 e hl)
        cases hr : s.makeAllBoundsFiniteOnRow basic with
        | ok a s1 => rw [hr] at hth; cases hth
        | thrown e1 s1 =>
          rw [hr] at hth hT
          simp only [Res.thrown?, Option.some.injEq] at hth
          exact hT hth
        | exited c => rw [hr] at hth; cases hth
      | cons e2 rest2 =>
        rw [hl] at hlen
        simp only [List.length_cons] at hlen
        omega
  · intro h2
    have hfind := f3 h2
    unfold Reluplex.makeAllBoundsFiniteOnRow
    rw [hfind]
    rfl
  · intro h0
    have hfind := f1 h0
    unfold Reluplex.makeAllBoundsFiniteOnRow
    rw [hfind]
  · intro tv s1 hinf hres
    have hfind := f2 tv hinf
    have hP := makeAllBoundsFiniteOnRow_one s basic tv hfind
    rw [hres] at hP
    obtain ⟨hf1, hf2, hU, hL⟩ := hP
    refine ⟨hf1, hf2, ?_⟩
    intro x hflag hc hrow hx hk hub hlb
    have htv : tv ∈ s.tableau.getRow basic := by
      have hmem : tv ∈ s.infiniteOnRow basic := by
        rw [hinf]
        exact List.mem_singleton_self tv
      exact List.mem_of_mem_filter hmem
    obtain ⟨m1, m2⟩ := rowMaxMin_sound s basic tv hone htv hc x hrow hx hk
    have hau : ∀ b : ℚ, s.adjustUpper b = b := by
      intro b
      unfold Reluplex.adjustUpper
      rw [hflag]
      simp
    have hal : ∀ b : ℚ, s.adjustLower b = b := by
      intro b
      unfold Reluplex.adjustLower
      rw [hflag]
      simp
    rw [hau] at hU
    rw [hal] at hL
    refine ⟨?_, ?_, ?_⟩
    · rcases hL with ⟨hfin, hb⟩ | hb | hb
      · rw [hb]; exact hlb hfin
      · rw [hb]; exact m1
      · rw [hb]; exact m1
    · rcases hU with ⟨hfin, hb⟩ | hb | hb | ⟨hb, _, hp, _⟩
      · rw [hb]; linarith [hub hfin]
      · rw [hb]; linarith
      · rw [hb]; linarith
      · rw [hb]
        have := le_of_isPositive_false _ _ (le_of_lt heps) hp
        linarith
    · intro hnf
      rcases hU with ⟨hfin, hb⟩ | hb | hb | ⟨_, hisf, _, _⟩
      · rw [hb]; exact hub hfin
      · rw [hb]; exact m2
      · rw [hb]; exact m2
      · rw [hnf] at hisf
        cases hisf

set_option maxRecDepth 100000 in
/-- C24, witness: the row `x1 = x0` of `freeBasicRow`, whose basic variable has no bounds;
the call returns, and the values `x0 = x1 = 5` lie within the bounds it derives for `x1`. -/
theorem C24_make_all_bounds_finite_on_row_witness :
    (freeBasicRow false).tableau.OneCellPerPosition ∧
    ((freeBasicRow false).makeAllBoundsFiniteOnRow 1).returned?.isSome = true ∧
    Res.ForallOk (fun s1 => (s1.lowerBounds 1).bound ≤ (5 : ℚ) ∧
        (5 : ℚ) ≤ (s1.upperBounds 1).bound + DEFAULT_EPSILON)
      ((freeBasicRow false).makeAllBoundsFiniteOnRow 1) := by
  have hone : (freeBasicRow false).tableau.OneCellPerPosition := by
    unfold Tableau.OneCellPerPosition
    decide!
  refine ⟨hone, by decide!, ?_⟩
  cases hr : (freeBasicRow false).makeAllBoundsFiniteOnRow 1 with
  | ok a s1 =>
    have h := ((C24_make_all_bounds_finite_on_row (freeBasicRow false) 1 hone).2.2
      { row := 1, column := 1, value := -1 } s1 (by decide!) hr).2.2 (fun _ => 5)
      (by decide!) (by decide!) (by decide!) (by decide!) (by decide!) (by decide!)
      (by decide!)
    exact ⟨h.1, h.2.1⟩
  | thrown e s1 => trivial
  | exited c => trivial

/-! ## Elimination of auxiliary variables (C25) -/

theorem pivotCandidateScan_unstable (s : Reluplex) (v : ℕ) (increase : Bool) (l : List Entry) :
    ∀ (found : Bool) (leastEvilNonBasic : ℕ) (leastEvilWeight : ℚ) (c : ℕ),
      Reluplex.pivotCandidateScan s v increase false l found leastEvilNonBasic
        leastEvilWeight = some c →
      (found = true ∧ c = leastEvilNonBasic) ∨ ∃ e ∈ l, e.column = c ∧ c ≠ v := by
  induction l with
  | nil =>
    intro found le lw c h
    unfold Reluplex.pivotCandidateScan at h
    cases found with
    | false => simp at h
    | true =>
      simp only [if_true, Option.some.injEq] at h
      exact Or.inl ⟨rfl, h.symm⟩
  | cons e rest ih =>
    intro found le lw c h
    unfold Reluplex.pivotCandidateScan at h
    simp only at h
    by_cases hv : e.column = v
    · rw [if_pos hv] at h
      rcases ih _ _ _ _ h with h1 | ⟨e1, he1, h1⟩
      · exact Or.inl h1
      · exact Or.inr ⟨e1, List.mem_cons_of_mem _ he1, h1⟩
    · rw [if_neg hv] at h
      split at h
      · rcases ih _ _ _ _ h with h1 | ⟨e1, he1, h1⟩
        · exact Or.inl h1
        · exact Or.inr ⟨e1, List.mem_cons_of_mem _ he1, h1⟩
      · simp only [Bool.not_false, Bool.true_or, if_true, Option.some.injEq] at h
        exact Or.inr ⟨e, List.mem_cons_self _ _, h, h ▸ hv⟩

theorem findPivotCandidate_nonBasic (s : Reluplex) (v c : ℕ) (increase : Bool)
    (hform : s.TableauForm) (h : s.findPivotCandidate v increase false = some c) :
    c ≠ v ∧ c ∉ s.basicVariables := by
  unfold Reluplex.findPivotCandidate at h
  rcases pivotCandidateScan_unstable s v increase _ _ _ _ _ h with ⟨h1, _⟩ | ⟨e, he, hec, hcv⟩
  · cases h1
  · refine ⟨hcv, ?_⟩
    intro hcb
    have hcol := hform.2.1 c hcb
    have hmem : e ∈ s.tableau.getColumn c := by
      unfold Tableau.getColumn
      unfold Tableau.getRow at he
      rw [List.mem_filter] at he ⊢
      exact ⟨he.1, by simpa using hec⟩
    rw [hcol] at hmem
    have hrow : e.row = v := by
      unfold Tableau.getRow at he
      rw [List.mem_filter] at he
      simpa using he.2
    rw [List.mem_singleton] at hmem
    rw [hmem] at hrow
    exact hcv hrow


theorem update_nonRelu (s : Reluplex) (v : ℕ) (delta : ℚ)
    (hrelu : s.reluPairs.isRelu v = false) :
    s.update v delta false = .ok () (s.updateIgnoringRelu v delta) := by
  unfold Reluplex.updateIgnoringRelu
  rcases update_cases s v delta false with ⟨hz, hu⟩ | ⟨hz, hu⟩ | ⟨_, hr, _⟩
  · rw [hu, if_pos hz]
  · rw [hu, hz]
    rfl
  · rw [updateAssignment_reluPairs, hrelu] at hr
    cases hr

theorem statusOf_fixed (s : Reluplex) (i : ℕ) (h : s.statusOf i = .FIXED) :
    (s.upperBounds i).finite = true ∧ (s.lowerBounds i).finite = true ∧
    areEqual (s.lowerBounds i).bound (s.upperBounds i).bound DEFAULT_EPSILON = true := by
  unfold Reluplex.statusOf at h
  simp only at h
  split_ifs at h
  simp_all

theorem statusOf_fixed_at_zero (s : Reluplex) (i : ℕ)
    (hub : (s.upperBounds i).finite = true) (hlb : (s.lowerBounds i).finite = true)
    (heq : areEqual (s.lowerBounds i).bound (s.upperBounds i).bound DEFAULT_EPSILON = true)
    (hz : isZero (s.upperBounds i).bound DEFAULT_EPSILON = true)
    (ha : s.assignment i = 0) : s.statusOf i = .FIXED := by
  have habs := (isZero_default_iff _).mp hz
  have hoob : DEFAULT_EPSILON ≤ OOB_EPSILON := by norm_num [DEFAULT_EPSILON, OOB_EPSILON]
  have h0 : (0 : ℚ) ≤ OOB_EPSILON := by norm_num [OOB_EPSILON]
  have hle := neg_abs_le (s.upperBounds i).bound
  have hgt : gt 0 (s.upperBounds i).bound OOB_EPSILON = false := by
    apply gt_eq_false_of_le _ _ _ h0
    linarith
  have hae : areEqual 0 (s.upperBounds i).bound OOB_EPSILON = true := by
    apply areEqual_of_abs_le
    rw [zero_sub, abs_neg]
    linarith
  unfold Reluplex.statusOf
  simp only [hub, hlb, ha, hgt, hae, heq, Bool.and_self, if_true, Bool.false_eq_true, if_false]

/-- C25 (amended): `eliminateIfPossible( v )` in tableau form, for a basic variable `v` that is
not a ReLU variable. Without a pivot candidate the call returns `true` and the state is
unchanged, whether or not `v` is fixed at zero. With a candidate `c`, a non-basic variable, the
call first pivots `c` into the row of `v` and moves `v` to its bound, which always returns, in
a state `s2` where `v` is non-basic with an empty row; only then is `fixedAtZero( v )` tested.
If the test fails the call returns `true` in `s2`; if it succeeds the call returns `true`
after erasing the column of `v` and recording `v` as eliminated, so that `v` has neither a
row nor a column. A variable that is fixed at zero when the call starts passes the test. -/
theorem C25_eliminate_if_possible (s : Reluplex) (v : ℕ) (hform : s.TableauForm)
    (hv : v ∈ s.basicVariables) (hrelu : s.reluPairs.isRelu v = false) :
    (s.findPivotCandidate v (s.tooLow v) false = none → s.eliminateIfPossible v = .ok true s) ∧
    ∀ c, s.findPivotCandidate v (s.tooLow v) false = some c →
      c ∉ s.basicVariables ∧
      ∃ s2, (s.pivot c v).andThen (fun _ s1 => s1.update v
            (if s.tooLow v then (s.lowerBounds v).bound - s.assignment v
              else (s.upperBounds v).bound - s.assignment v) false) = .ok () s2 ∧
        s2.basicVariables = insert c (s.basicVariables.erase v) ∧
        s2.tableau = Reluplex.pivotTableau s.tableau c v ∧
        s2.tableau.getRow v = [] ∧
        (s2.fixedAtZero v = false → s.eliminateIfPossible v = .ok true s2) ∧
        (s2.fixedAtZero v = true →
          s.eliminateIfPossible v = .ok true
            { s2 with
              tableau := s2.tableau.eraseColumn v
              eliminatedVars := insert v s2.eliminatedVars } ∧
          (s2.tableau.eraseColumn v).getColumn v = [] ∧
          (s2.tableau.eraseColumn v).getRow v = [] ∧ v ∉ s2.basicVariables) ∧
        (s.fixedAtZero v = true → s.varToStatus v = s.statusOf v →
          s2.fixedAtZero v = true) := by
  constructor
  · intro h
    unfold Reluplex.eliminateIfPossible
    simp only [hrelu, Bool.false_eq_true, if_false]
    rw [h]
  · intro c hc
    obtain ⟨hcv, hcnb⟩ := findPivotCandidate_nonBasic s v c _ hform hc
    refine ⟨hcnb, ?_⟩
    obtain ⟨hone, hcols, hrows⟩ := hform
    have hrowc : s.tableau.getRow c = [] := (Tableau.rows_iff s.tableau _).mp hrows c hcnb
    obtain ⟨p1, p2, _⟩ := pivotTableau_spec s.tableau c v hone hrowc (fun h => hcv h.symm)
    generalize hdelta : (if s.tooLow v then (s.lowerBounds v).bound - s.assignment v
      else (s.upperBounds v).bound - s.assignment v) = delta
    have hpiv := pivot_ok s c v hv hcnb
    generalize hs1 : ({ s with
        basicVariables := insert c (s.basicVariables.erase v)
        tableau := Reluplex.pivotTableau s.tableau c v } : Reluplex) = s1 at hpiv
    have hs1t : s1.tableau = Reluplex.pivotTableau s.tableau c v := by rw [← hs1]
    have hs1b : s1.basicVariables = insert c (s.basicVariables.erase v) := by rw [← hs1]
    have hs1r : s1.reluPairs = s.reluPairs := by rw [← hs1]
    have hs1u : s1.upperBounds = s.upperBounds := by rw [← hs1]
    have hs1l : s1.lowerBounds = s.lowerBounds := by rw [← hs1]
    have hs1s : s1.varToStatus = s.varToStatus := by rw [← hs1]
    have hs1a : s1.assignment = s.assignment := by rw [← hs1]
    have hupd := update_nonRelu s1 v delta (by rw [hs1r]; exact hrelu)
    have hfr : (s1.updateIgnoringRelu v delta).tableau = s1.tableau ∧
        (s1.updateIgnoringRelu v delta).basicVariables = s1.basicVariables := by
      unfold Reluplex.updateIgnoringRelu
      split
      · exact ⟨rfl, rfl⟩
      · obtain ⟨_, _, _, h4, h5, _⟩ := updateAssignment_frame s1 v delta
        exact ⟨h4, h5⟩
    have hvnb : v ∉ insert c (s.basicVariables.erase v) := by
      simp only [Finset.mem_insert, Finset.mem_erase, ne_eq, not_true_eq_false, false_and,
        or_false]
      exact fun h => hcv h.symm
    have helim : s.eliminateIfPossible v =
        if (!(s1.updateIgnoringRelu v delta).fixedAtZero v) = true then
          .ok true (s1.updateIgnoringRelu v delta)
        else
          .ok true
            { s1.updateIgnoringRelu v delta with
              tableau := (s1.updateIgnoringRelu v delta).tableau.eraseColumn v
              eliminatedVars := insert v (s1.updateIgnoringRelu v delta).eliminatedVars } := by
      unfold Reluplex.eliminateIfPossible
      simp only [hrelu, Bool.false_eq_true, if_false]
      rw [hc]
      simp only
      rw [hdelta, hpiv]
      simp only [Res.andThen]
      rw [hupd]
    refine ⟨s1.updateIgnoringRelu v delta, ?_, ?_, ?_, ?_, ?_, ?_, ?_⟩
    · rw [hpiv]
      simp only [Res.andThen]
      exact hupd
    · rw [hfr.2, hs1b]
    · rw [hfr.1, hs1t]
    · rw [hfr.1, hs1t]
      exact p2
    · intro hfz
      rw [helim, hfz]
      rfl
    · intro hfz
      refine ⟨?_, ?_, ?_, ?_⟩
      · rw [helim, hfz]
        rfl
      · unfold Tableau.getColumn Tableau.eraseColumn
        simp only
        rw [List.filter_filter, List.filter_eq_nil_iff]
        intro e _
        simp
      · rw [hfr.1, hs1t]
        unfold Tableau.getRow Tableau.eraseColumn
        simp only
        rw [List.filter_eq_nil_iff]
        intro e he hrow
        have hmem : e ∈ (Reluplex.pivotTableau s.tableau c v).getRow v := by
          unfold Tableau.getRow
          rw [List.mem_filter]
          exact ⟨(List.mem_filter.mp he).1, hrow⟩
        rw [p2] at hmem
        cases hmem
      · rw [hfr.2, hs1b]
        exact hvnb
    · intro hfz hst
      unfold Reluplex.fixedAtZero at hfz ⊢
      simp only [Bool.and_eq_true, decide_eq_true_eq] at hfz ⊢
      obtain ⟨hfixed, hzero⟩ := hfz
      have hs2same := updateIgnoringRelu_same s1 v delta
      have hub2 : (s1.updateIgnoringRelu v delta).upperBounds = s.upperBounds :=
        hs2same.1.trans hs1u
      have hlb2 : (s1.updateIgnoringRelu v delta).lowerBounds = s.lowerBounds :=
        hs2same.2.1.trans hs1l
      rw [hub2]
      refine ⟨?_, hzero⟩
      unfold Reluplex.updateIgnoringRelu
      split
      · rw [hs1s]
        exact hfixed
      · obtain ⟨_, _, _, _, _, h6⟩ := updateAssignment_fold_frame v delta
          (s1.tableau.getColumn v) (s1.addToAssignment v delta)
        have hrowsv : ∀ e ∈ s1.tableau.getColumn v, e.row ≠ v := by
          intro e he hrow
          have hmem : e ∈ s1.tableau.getRow v := by
            unfold Tableau.getRow
            rw [List.mem_filter]
            exact ⟨(List.mem_filter.mp he).1, by simpa using hrow⟩
          rw [hs1t, p2] at hmem
          cases hmem
        unfold Reluplex.updateAssignment
        rw [(h6 v hrowsv).1]
        rw [hst] at hfixed
        obtain ⟨g1, g2, g3⟩ := statusOf_fixed s v hfixed
        have hlow : s.tooLow v = false := by
          unfold Reluplex.tooLow
          rw [hst, hfixed]
          rfl
        rw [hlow] at hdelta
        simp only [Bool.false_eq_true, if_false] at hdelta
        unfold Reluplex.addToAssignment Reluplex.computeVariableStatus
        simp only [Function.update_same]
        apply statusOf_fixed_at_zero
        · simp only; rw [hs1u]; exact g1
        · simp only; rw [hs1l]; exact g2
        · simp only; rw [hs1u, hs1l]; exact g3
        · simp only; rw [hs1u]; exact hzero
        · simp only [Function.update_same]
          rw [hs1a, ← hdelta]
          unfold Reluplex.turnAlmostZeroToZero
          rw [if_pos]
          rw [show s.assignment v + ((s.upperBounds v).bound - s.assignment v) =
            (s.upperBounds v).bound by ring]
          exact hzero

set_option maxRecDepth 100000 in
/-- C25, counterexample to the claim as stated, with or without `DEBUG_ON`. (1) In `smallState`
the basic variable `x2`, in `[-9, 9]`, is not a ReLU variable and is not fixed at zero;
`eliminateIfPossible( 2 )` returns `true` after pivoting `x0` into the row of `x2` and moving
`x2` to its upper bound: the basic set changes from `{2, 3}` to `{0, 3}`, the assignment of
`x2` from `0` to `9`, and the tableau now has a cell in row `0`. (2) In `stuckAuxRow` the
basic variable `x2` is fixed at zero, but no variable of its row can move in the required
direction: `eliminateIfPossible( 2 )` returns `true` with `x2` still basic, its row and its
column in place, and nothing recorded as eliminated. -/
theorem C25_acts_on_other_variables :
    ((2 ∈ (smallState false).basicVariables ∧ (smallState false).reluPairs.isRelu 2 = false ∧
      (smallState false).fixedAtZero 2 = false ∧
      ((smallState false).basicList, (smallState false).assignment 2,
        (smallState false).tableau.getCell 0 2) = ([2, 3], 0, 0) ∧
      ((smallState false).eliminateIfPossible 2).value? = some true ∧
      ((smallState false).eliminateIfPossible 2).returned?.map
        (fun s1 => (s1.basicList, s1.assignment 2, s1.tableau.getCell 0 2,
          decide (2 ∈ s1.eliminatedVars))) = some ([0, 3], 9, 1, false)) ∧
     (2 ∈ (smallState true).basicVariables ∧ (smallState true).reluPairs.isRelu 2 = false ∧
      (smallState true).fixedAtZero 2 = false ∧
      ((smallState true).basicList, (smallState true).assignment 2,
        (smallState true).tableau.getCell 0 2) = ([2, 3], 0, 0) ∧
      ((smallState true).eliminateIfPossible 2).value? = some true ∧
      ((smallState true).eliminateIfPossible 2).returned?.map
        (fun s1 => (s1.basicList, s1.assignment 2, s1.tableau.getCell 0 2,
          decide (2 ∈ s1.eliminatedVars))) = some ([0, 3], 9, 1, false))) ∧
    ((2 ∈ (stuckAuxRow false).basicVariables ∧ (stuckAuxRow false).reluPairs.isRelu 2 = false ∧
      (stuckAuxRow false).fixedAtZero 2 = true ∧
      ((stuckAuxRow false).eliminateIfPossible 2).value? = some true ∧
      ((stuckAuxRow false).eliminateIfPossible 2).returned?.map
        (fun s1 => (s1.basicList, (s1.tableau.getRow 2).length,
          (s1.tableau.getColumn 2).length, decide (2 ∈ s1.eliminatedVars))) =
        some ([2], 3, 1, false)) ∧
     (2 ∈ (stuckAuxRow true).basicVariables ∧ (stuckAuxRow true).reluPairs.isRelu 2 = false ∧
      (stuckAuxRow true).fixedAtZero 2 = true ∧
      ((stuckAuxRow true).eliminateIfPossible 2).value? = some true ∧
      ((stuckAuxRow true).eliminateIfPossible 2).returned?.map
        (fun s1 => (s1.basicList, (s1.tableau.getRow 2).length,
          (s1.tableau.getColumn 2).length, decide (2 ∈ s1.eliminatedVars))) =
        some ([2], 3, 1, false))) := by
  refine ⟨⟨⟨?_, ?_, ?_, ?_, ?_, ?_⟩, ⟨?_, ?_, ?_, ?_, ?_, ?_⟩⟩,
    ⟨⟨?_, ?_, ?_, ?_, ?_⟩, ⟨?_, ?_, ?_, ?_, ?_⟩⟩⟩ <;> decide!

set_option maxRecDepth 100000 in
/-- C25, witness: `eliminateIfPossible( 2 )` in `smallState`, where the pivot candidate for
the basic variable `x2` is the non-basic variable `x0`. -/
theorem C25_eliminate_if_possible_witness :
    (smallState false).TableauForm ∧ 2 ∈ (smallState false).basicVariables ∧
    (smallState false).reluPairs.isRelu 2 = false ∧
    (smallState false).findPivotCandidate 2 ((smallState false).tooLow 2) false = some 0 ∧
    0 ∉ (smallState false).basicVariables :=
  ⟨smallState_tableauForm, by decide!, by decide!, by decide!,
    ((C25_eliminate_if_possible (smallState false) 2 smallState_tableauForm (by decide!)
      (by decide!)).2 0 (by decide!)).1⟩

/-! ## Level-0 bound conflict (C26) -/

set_option maxRecDepth 100000 in
theorem conflictingBounds_initialise (debugOn : Bool) :
    (conflictingBounds debugOn).wasInitialized = false ∧
    ∃ s1, (conflictingBounds debugOn).initialise = .thrown (.invariantViolation 0) s1 := by
  have ht : (conflictingBounds debugOn).wasInitialized = false ∧
      ((conflictingBounds debugOn).initialise).thrown? = some (.invariantViolation 0) := by
    cases debugOn
    · constructor <;> decide!
    · constructor <;> decide!
  refine ⟨ht.1, ?_⟩
  cases hi : (conflictingBounds debugOn).initialise with
  | ok a s1 =>
    have h2 := ht.2
    rw [hi] at h2
    cases h2
  | thrown e s1 =>
    have h2 := ht.2
    rw [hi] at h2
    simp only [Res.thrown?, Option.some.injEq] at h2
    rw [h2]
    exact ⟨s1, rfl⟩
  | exited c =>
    have h2 := ht.2
    rw [hi] at h2
    cases h2

theorem initialise_throw_outcome (s s1 : Reluplex) (env : Env) (fuel : ℕ)
    (hw : s.wasInitialized = false)
    (hi : s.initialise = .thrown (.invariantViolation 0) s1) :
    (s.initialise).thrown? = some (.invariantViolation 0) ∧
    (s.initializeThenSolve env fuel).getLeft? = some (.invariantViolation 0) ∧
    (s.initializeThenSolve env fuel).getRight? = none ∧
    (s.solve env fuel).status? = some .UNSAT := by
  refine ⟨?_, ?_, ?_, ?_⟩
  · rw [hi]; rfl
  · unfold Reluplex.initializeThenSolve
    rw [hi]
    rfl
  · unfold Reluplex.initializeThenSolve
    rw [hi]
    rfl
  · unfold Reluplex.solve Reluplex.solveBody
    rw [hw]
    simp only [Bool.not_false, if_true]
    rw [hi]
    rfl

set_option maxRecDepth 100000 in
/-- C26 (the code breaks the claim): on the fresh solver `conflictingBounds`, with bounds
`lb = 5 > ub = 3` on its variable, with or without `DEBUG_ON`, for every environment and any
number of main-loop iterations allowed: `initialize()` throws `InvariantViolationError( 0 )`
from `initialUpdate`, so in the call sequence `initialize(); solve()` the exception escapes to
the caller and `solve()` is never called. Only when `solve()` is called without a previous
`initialize()` does it run the initialization inside its `try` block and return `UNSAT`. -/
theorem C26_conflict_escapes_from_initialize (debugOn : Bool) (env : Env) (fuel : ℕ) :
    ((conflictingBounds debugOn).initialise).thrown? = some (.invariantViolation 0) ∧
    ((conflictingBounds debugOn).initializeThenSolve env fuel).getLeft? =
      some (.invariantViolation 0) ∧
    ((conflictingBounds debugOn).initializeThenSolve env fuel).getRight? = none ∧
    ((conflictingBounds debugOn).solve env fuel).status? = some .UNSAT := by
  obtain ⟨hw, s1, hi⟩ := conflictingBounds_initialise debugOn
  exact initialise_throw_outcome _ s1 env fuel hw hi

/-! ## Preprocessing and the dissolution map (C27) -/

theorem update_tableau (s : Reluplex) (v : ℕ) (delta : ℚ) (ignoreRelu : Bool) :
    Res.Forall (fun s1 => s1.tableau = s.tableau ∧ s1.basicVariables = s.basicVariables)
      (s.update v delta ignoreRelu) := by
  obtain ⟨_, _, _, h4, h5, _⟩ := updateAssignment_frame s v delta
  rcases update_cases s v delta ignoreRelu with ⟨_, hu⟩ | ⟨_, hu⟩ | ⟨_, _, _, d2, hu | hu⟩
  · rw [hu]; exact ⟨rfl, rfl⟩
  · rw [hu]; exact ⟨h4, h5⟩
  · rw [hu]
    obtain ⟨_, _, _, g4, g5, _⟩ := updateIgnoringRelu_frame_all (s.updateAssignment v delta)
      (((s.updateAssignment v delta).reluPairs.toPartner v).getD 0) d2
    exact ⟨g4.trans h4, g5.trans h5⟩
  · rw [hu]
    obtain ⟨_, _, _, g4, g5, _⟩ := updateIgnoringRelu_frame_all (s.updateAssignment v delta)
      (((s.updateAssignment v delta).reluPairs.toPartner v).getD 0) d2
    exact ⟨g4.trans h4, g5.trans h5⟩

theorem initialUpdateLoop_same (n : ℕ) :
    ∀ (i : ℕ) (s : Reluplex),
      Res.Forall (fun s1 => s1.SameSearchState s ∧ s1.tableau = s.tableau ∧
        s1.basicVariables = s.basicVariables) (Reluplex.initialUpdateLoop n i s) := by
  induction n with
  | zero =>
    intro i s
    exact ⟨Reluplex.SameSearchState.refl s, rfl, rfl⟩
  | succ n ih =>
    intro i s
    unfold Reluplex.initialUpdateLoop
    split
    · exact ⟨Reluplex.SameSearchState.refl s, rfl, rfl⟩
    · have h1 : Res.Forall (fun s1 => s1.SameSearchState s ∧ s1.tableau = s.tableau ∧
          s1.basicVariables = s.basicVariables)
          (if i ∉ s.basicVariables ∧ s.outOfBounds i = true then
            (if s.tooLow i = true then
              s.update i ((s.lowerBounds i).bound - s.assignment i) false
            else s.update i ((s.upperBounds i).bound - s.assignment i) false)
          else Res.ok () s) := by
        have hu : ∀ d, Res.Forall (fun s1 => s1.SameSearchState s ∧ s1.tableau = s.tableau ∧
            s1.basicVariables = s.basicVariables) (s.update i d false) := by
          intro d
          have a1 := update_same s i d false
          have a2 := update_tableau s i d false
          cases hr : s.update i d false with
          | ok a s1 => rw [hr] at a1 a2; exact ⟨a1, a2⟩
          | thrown e s1 => rw [hr] at a1 a2; exact ⟨a1, a2⟩
          | exited c => trivial
        split
        · split
          · exact hu _
          · exact hu _
        · exact ⟨Reluplex.SameSearchState.refl s, rfl, rfl⟩
      refine Res.Forall.andThen h1 (fun _ h => h) ?_
      intro _ s1 hs1
      exact Res.Forall.mono (ih (i + 1) s1)
        (fun _ h => ⟨h.1.trans hs1.1, h.2.1.trans hs1.2.1, h.2.2.trans hs1.2.2⟩)

theorem initialUpdate_same (s : Reluplex) :
    Res.Forall (fun s1 => s1.SameSearchState s ∧ s1.tableau = s.tableau ∧
      s1.basicVariables = s.basicVariables) s.initialUpdate := by
  unfold Reluplex.initialUpdate
  obtain ⟨_, _, _, f4, _, f6, _, _, _, f10⟩ := computeVariableStatusAll_frame s
  have h0 := computeVariableStatusAll_same s
  have h1 := Res.Forall.mono (initialUpdateLoop_same s.numVariables 0 s.computeVariableStatusAll)
    (fun _ h => (⟨h.1.trans h0, h.2.1.trans f6, h.2.2.trans f4⟩ :
      _ ∧ _ ∧ _))
  refine Res.Forall.andThen h1 (fun _ h => h) ?_
  intro _ s1 hs1
  exact Res.Forall.mono (checkInvariants_same s1) (fun _ h => by rw [h]; exact hs1)

theorem makeAllBoundsFiniteLoop_finite (s : Reluplex)
    (hfin : ∀ e ∈ s.tableau.entries, (s.upperBounds e.column).finite = true ∧
      (s.lowerBounds e.column).finite = true) (n : ℕ) :
    ∀ i, Reluplex.makeAllBoundsFiniteLoop n i s = .ok () s := by
  induction n with
  | zero => intro i; rfl
  | succ n ih =>
    intro i
    unfold Reluplex.makeAllBoundsFiniteLoop
    have hrow : s.makeAllBoundsFiniteOnRow i = .ok () s := by
      have hnil : (s.tableau.getRow i).filter (fun e => !(s.upperBounds e.column).finite ||
          !(s.lowerBounds e.column).finite) = [] := by
        rw [List.filter_eq_nil_iff]
        intro e he
        have := hfin e (List.mem_filter.mp he).1
        simp [this.1, this.2]
      unfold Reluplex.makeAllBoundsFiniteOnRow
      rw [(findTighteningVar_none s (s.tableau.getRow i)).1 hnil]
    split
    · rw [hrow]
      exact ih (i + 1)
    · exact ih (i + 1)

theorem initialise_same (s : Reluplex)
    (hfin : ∀ e ∈ s.tableau.entries, (s.upperBounds e.column).finite = true ∧
      (s.lowerBounds e.column).finite = true) :
    Res.Forall (fun s1 => s1.SameSearchState s) s.initialise := by
  unfold Reluplex.initialise
  refine Res.Forall.andThen (initialUpdate_same s) (fun _ h => h.1) ?_
  intro _ s1 hs1
  have hfin1 : ∀ e ∈ s1.tableau.entries, (s1.upperBounds e.column).finite = true ∧
      (s1.lowerBounds e.column).finite = true := by
    rw [hs1.2.1, hs1.1.1, hs1.1.2.1]
    exact hfin
  have h2 : Res.Forall (fun s2 => s2.SameSearchState s) s1.makeAllBoundsFinite := by
    unfold Reluplex.makeAllBoundsFinite
    rw [makeAllBoundsFiniteLoop_finite s1 hfin1]
    simp only [Res.andThen]
    split
    · exact hs1.1
    · exact hs1.1
  refine Res.Forall.andThen h2 (fun _ h => h) ?_
  intro _ s2 hs2
  exact hs2

theorem eliminateIfPossible_same (s : Reluplex) (v : ℕ) :
    Res.Forall (fun s1 => s1.SameSearchState s) (s.eliminateIfPossible v) := by
  unfold Reluplex.eliminateIfPossible
  split
  · trivial
  · simp only
    split
    · exact Reluplex.SameSearchState.refl s
    · refine Res.Forall.andThen (pivot_same s _ v) (fun _ h => h) ?_
      intro _ s1 hs1
      refine Res.Forall.andThen
        (Res.Forall.mono (update_same s1 v _ false) (fun _ h => h.trans hs1)) (fun _ h => h) ?_
      intro _ s2 hs2
      split
      · exact hs2
      · exact hs2

theorem eliminateAuxLoop_same (l : List ℕ) :
    ∀ s : Reluplex, Res.Forall (fun s1 => s1.SameSearchState s)
      (Reluplex.eliminateAuxLoop l s) := by
  induction l with
  | nil => intro s; exact Reluplex.SameSearchState.refl s
  | cons aux rest ih =>
    intro s
    unfold Reluplex.eliminateAuxLoop
    refine Res.Forall.andThen (eliminateIfPossible_same s aux) (fun _ h => h) ?_
    intro done s1 hs1
    split
    · exact hs1
    · exact Res.Forall.mono (ih s1) (fun _ h => h.trans hs1)

theorem storePreprocessedMatrix_same (s : Reluplex) :
    Res.Forall (fun s1 => s1.SameSearchState s) s.storePreprocessedMatrix := by
  unfold Reluplex.storePreprocessedMatrix
  refine Res.Forall.andThen (checkInvariants_same s) (fun _ h => by
    rw [h]; exact Reluplex.SameSearchState.refl s) ?_
  intro _ s1 hs1
  rw [hs1]
  split
  · exact Reluplex.SameSearchState.refl s
  · exact ⟨rfl, rfl, rfl, rfl, rfl⟩

theorem preprocessing_same (s : Reluplex)
    (hfin : ∀ e ∈ s.tableau.entries, (s.upperBounds e.column).finite = true ∧
      (s.lowerBounds e.column).finite = true) :
    Res.Forall (fun s1 => s1.SameSearchState s) s.preprocessing := by
  unfold Reluplex.preprocessing
  have h1 : Res.Forall (fun s1 => s1.SameSearchState s)
      (if (!s.wasInitialized) = true then s.initialise else Res.ok () s) := by
    split
    · exact initialise_same s hfin
    · exact Reluplex.SameSearchState.refl s
  refine Res.Forall.andThen h1 (fun _ h => h) ?_
  intro _ s1 hs1
  have h2 : Res.Forall (fun s2 => s2.SameSearchState s) s1.eliminateAuxVariables := by
    unfold Reluplex.eliminateAuxVariables
    exact Res.Forall.mono (eliminateAuxLoop_same _ _)
      (fun _ h => (h.trans (computeVariableStatusAll_same s1)).trans hs1)
  refine Res.Forall.andThen h2 (fun _ h => h) ?_
  intro done s2 hs2
  split
  · exact hs2
  · refine Res.Forall.andThen
      (Res.Forall.mono (storePreprocessedMatrix_same s2) (fun _ h => h.trans hs2))
      (fun _ h => h) ?_
    intro _ s3 hs3
    exact hs3

set_option maxRecDepth 100000 in
/-- C27, counterexample to the claim as stated, with or without `DEBUG_ON`: `forcedPair` has
one registered pair `(b, f) = (0, 1)` and all bounds finite. With `lb(b) = 1` preprocessing
returns with `A[b] = A[f] = 1`, but the pair is not merged: `D[f]` is still unset and
`lb(f)` is still `0`. With `ub(b) = -1` preprocessing returns with `A[b] = -1` and
`A[f] = 0`, but the pair is not split: `D[f]` is still unset and `ub(f)` is still `9`. The
same holds in the state in which the main loop of `solve()` starts. -/
theorem C27_forced_pairs_stay_active :
    ((forcedPair 1 9 false).preprocessing.value? = some true ∧
      (forcedPair 1 9 false).preprocessing.returned?.map
        (fun s1 => (decide (s1.dissolvedReluVariables 1 = none), s1.assignment 0,
          s1.assignment 1, (s1.lowerBounds 1).bound)) = some (true, 1, 1, 0) ∧
      (afterPreprocessing (forcedPair 1 9 false)).map
        (fun s1 => (decide (s1.dissolvedReluVariables 1 = none), s1.assignment 0,
          s1.assignment 1, (s1.lowerBounds 1).bound)) = some (true, 1, 1, 0) ∧
      (forcedPair 1 9 true).preprocessing.value? = some true ∧
      (forcedPair 1 9 true).preprocessing.returned?.map
        (fun s1 => (decide (s1.dissolvedReluVariables 1 = none), s1.assignment 0,
          s1.assignment 1, (s1.lowerBounds 1).bound)) = some (true, 1, 1, 0) ∧
      (afterPreprocessing (forcedPair 1 9 true)).map
        (fun s1 => (decide (s1.dissolvedReluVariables 1 = none), s1.assignment 0,
          s1.assignment 1, (s1.lowerBounds 1).bound)) = some (true, 1, 1, 0)) ∧
    ((forcedPair (-9) (-1) false).preprocessing.value? = some true ∧
      (forcedPair (-9) (-1) false).preprocessing.returned?.map
        (fun s1 => (decide (s1.dissolvedReluVariables 1 = none), s1.assignment 0,
          s1.assignment 1, (s1.upperBounds 1).bound)) = some (true, -1, 0, 9) ∧
      (afterPreprocessing (forcedPair (-9) (-1) false)).map
        (fun s1 => (decide (s1.dissolvedReluVariables 1 = none), s1.assignment 0,
          s1.assignment 1, (s1.upperBounds 1).bound)) = some (true, -1, 0, 9) ∧
      (forcedPair (-9) (-1) true).preprocessing.value? = some true ∧
      (forcedPair (-9) (-1) true).preprocessing.returned?.map
        (fun s1 => (decide (s1.dissolvedReluVariables 1 = none), s1.assignment 0,
          s1.assignment 1, (s1.upperBounds 1).bound)) = some (true, -1, 0, 9) ∧
      (afterPreprocessing (forcedPair (-9) (-1) true)).map
        (fun s1 => (decide (s1.dissolvedReluVariables 1 = none), s1.assignment 0,
          s1.assignment 1, (s1.upperBounds 1).bound)) = some (true, -1, 0, 9)) := by
  refine ⟨⟨?_, ?_, ?_, ?_, ?_, ?_⟩, ⟨?_, ?_, ?_, ?_, ?_, ?_⟩⟩ <;> decide!

/-- C27 (amended): preprocessing dissolves no pair when all bounds are finite. If every
variable that occurs in a tableau cell has a finite lower and a finite upper bound, then in
the state in which preprocessing (`initialize()` and the pre-loop steps of `solve()`) ends,
by a return or by a throw, the dissolution map, the upper bounds and the lower bounds are
those of the start: bounds set with `setLowerBound` / `setUpperBound` force no phase. -/
theorem C27_preprocessing_keeps_dissolution_map (s : Reluplex)
    (hfin : ∀ e ∈ s.tableau.entries, (s.upperBounds e.column).finite = true ∧
      (s.lowerBounds e.column).finite = true) :
    Res.Forall (fun s1 => s1.dissolvedReluVariables = s.dissolvedReluVariables ∧
      s1.upperBounds = s.upperBounds ∧ s1.lowerBounds = s.lowerBounds) s.preprocessing :=
  Res.Forall.mono (preprocessing_same s hfin) (fun _ h => ⟨h.2.2.1, h.1, h.2.1⟩)

set_option maxRecDepth 100000 in
/-- C27, witness: `smallState`, whose four variables have finite bounds and whose tableau has
two rows; preprocessing returns. -/
theorem C27_preprocessing_keeps_dissolution_map_witness :
    (∀ e ∈ (smallState false).tableau.entries,
      ((smallState false).upperBounds e.column).finite = true ∧
      ((smallState false).lowerBounds e.column).finite = true) ∧
    (smallState false).preprocessing.value? = some true ∧
    Res.Forall (fun s1 =>
      s1.dissolvedReluVariables = (smallState false).dissolvedReluVariables ∧
      s1.upperBounds = (smallState false).upperBounds ∧
      s1.lowerBounds = (smallState false).lowerBounds) (smallState false).preprocessing :=
  ⟨by decide!, by decide!,
    C27_preprocessing_keeps_dissolution_map (smallState false) (by decide!)⟩

theorem solveBody_preprocessing (env : Env) (fuel : ℕ) (s : Reluplex) :
    Reluplex.solveBody env fuel s =
      match s.preprocessing with
      | .thrown e s1 => some (.thrown e s1)
      | .exited c => some (.exited c)
      | .ok false s2 => some (.ok .ERROR s2)
      | .ok true s3 => Reluplex.mainLoop env fuel 0 s3 := by
  unfold Reluplex.solveBody Reluplex.preprocessing
  cases (if (!s.wasInitialized) = true then s.initialise else Res.ok () s) with
  | thrown e s1 => rfl
  | exited c => rfl
  | ok a s1 =>
    simp only [Res.andThen]
    cases s1.eliminateAuxVariables with
    | thrown e s2 => rfl
    | exited c => rfl
    | ok done s2 =>
      cases done with
      | false => rfl
      | true =>
        simp only [Bool.not_true, Bool.false_eq_true, if_false]
        cases s2.storePreprocessedMatrix with
        | thrown e s3 => rfl
        | exited c => rfl
        | ok a3 s3 => rfl

/-! ## Frames of the restoration from the backup -/

theorem sameLpCounters_frameRel : Reluplex.FrameRel Reluplex.SameLpCounters where
  refl := fun _ => ⟨rfl, rfl⟩
  trans := fun _ _ _ h2 h1 => ⟨h2.1.trans h1.1, h2.2.trans h1.2⟩
  assignment := fun _ _ => ⟨rfl, rfl⟩
  status := fun _ _ => ⟨rfl, rfl⟩
  upper := fun _ _ => ⟨rfl, rfl⟩
  lower := fun _ _ => ⟨rfl, rfl⟩
  dissolved := fun _ _ => ⟨rfl, rfl⟩
  tableau := fun _ _ => ⟨rfl, rfl⟩
  basic := fun _ _ => ⟨rfl, rfl⟩
  eliminated := fun _ _ => ⟨rfl, rfl⟩

section RestoreFrame

variable {R : Reluplex → Reluplex → Prop} (hR : Reluplex.FrameRel R)
include hR

theorem Res.Forall.chain {α β : Type} {r : Res α} {f : α → Reluplex → Res β} (s : Reluplex)
    (h1 : Res.Forall (fun s1 => R s1 s) r)
    (h2 : ∀ a s1, Res.Forall (fun s2 => R s2 s1) (f a s1)) :
    Res.Forall (fun s2 => R s2 s) (r.andThen f) :=
  Res.Forall.andThen h1 (fun _ h => h)
    (fun a s1 hs1 => Res.Forall.mono (h2 a s1) (fun _ h => hR.trans _ _ _ h hs1))

theorem computeVariableStatus_fold_rel (l : List ℕ) :
    ∀ s : Reluplex, R (l.foldl Reluplex.computeVariableStatus s) s := by
  induction l with
  | nil => intro s; exact hR.refl s
  | cons i rest ih =>
    intro s
    exact hR.trans _ _ _ (ih _) (hR.status s _)

theorem computeVariableStatusAll_rel (s : Reluplex) : R s.computeVariableStatusAll s :=
  computeVariableStatus_fold_rel hR _ s

theorem checkInvariants_rel (s : Reluplex) :
    Res.Forall (fun s1 => R s1 s) s.checkInvariants :=
  Res.Forall.mono (checkInvariants_same s) (fun _ h => by rw [h]; exact hR.refl s)

theorem adjustLeaving_rel (s : Reluplex) (leaving : ℕ) :
    Res.Forall (fun s1 => R s1 s) (s.adjustLeaving leaving) := by
  unfold Reluplex.adjustLeaving
  refine Res.Forall.chain hR s ?_ ?_
  · split
    · exact update_rel hR _ _ _ _
    · split
      · exact update_rel hR _ _ _ _
      · exact hR.refl s
  · intro _ s1
    split
    · split
      · exact hR.refl s1
      · split
        · exact hR.refl s1
        · split
          · split
            · split
              · exact update_rel hR _ _ _ _
              · exact update_rel hR _ _ _ _
            · exact hR.refl s1
          · exact hR.refl s1
    · exact hR.refl s1

theorem adjustColumnScan_rel (entering : ℕ) (adjustAssignment : Bool) (l : List Entry) :
    ∀ (shouldntBeBasic : Finset ℕ) (s : Reluplex),
      Res.Forall (fun s1 => R s1 s)
        (Reluplex.adjustColumnScan entering adjustAssignment l shouldntBeBasic s) := by
  induction l with
  | nil => intro _ s; exact hR.refl s
  | cons current rest ih =>
    intro sb s
    unfold Reluplex.adjustColumnScan
    simp only
    split
    · split
      · exact ih sb s
      · refine Res.Forall.chain hR s (pivot_rel hR s _ _) ?_
        intro _ s1
        refine Res.Forall.mono (Res.Forall.chain hR (s1.computeVariableStatus current.row) ?_ ?_)
          (fun _ h => hR.trans _ _ _ h (hR.status s1 _))
        · split
          · exact adjustLeaving_rel hR _ _
          · exact hR.refl _
        · intro _ s3
          exact hR.refl s3
    · exact ih sb s

theorem adjustBasicLoop_rel (adjustAssignment : Bool) (l : List ℕ) :
    ∀ (shouldntBeBasic : Finset ℕ) (s : Reluplex),
      Res.Forall (fun s1 => R s1 s)
        (Reluplex.adjustBasicLoop adjustAssignment l shouldntBeBasic s) := by
  induction l with
  | nil => intro _ s; exact hR.refl s
  | cons entering rest ih =>
    intro sb s
    unfold Reluplex.adjustBasicLoop
    exact Res.Forall.chain hR s (adjustColumnScan_rel hR _ _ _ _ _) (fun sb1 s1 => ih sb1 s1)

theorem reassertBounds_rel (backup : Reluplex) (i : ℕ) (s : Reluplex) :
    Res.Forall (fun s1 => R s1 s) (Reluplex.reassertBounds backup i s) := by
  have hlow : ∀ (st : Reluplex) (v : ℕ) (c : Prop) [Decidable c] (x : ℚ) (l : ℕ),
      Res.Forall (fun s1 => R s1 st)
        (if c then (st.updateLowerBound v x l).andThen fun _ st1 => Res.ok () st1
          else Res.ok () st) := by
    intro st v c _ x l
    split
    · exact Res.Forall.chain hR st (updateLowerBound_rel hR _ _ _ _) (fun _ s1 => hR.refl s1)
    · exact hR.refl st
  have hup : ∀ (st : Reluplex) (v : ℕ) (c : Prop) [Decidable c] (x : ℚ) (l : ℕ),
      Res.Forall (fun s1 => R s1 st)
        (if c then st.updateUpperBound v x l else Res.ok () st) := by
    intro st v c _ x l
    split
    · exact updateUpperBound_rel hR _ _ _ _
    · exact hR.refl st
  unfold Reluplex.reassertBounds
  simp only
  split
  · exact Res.Forall.chain hR s (hlow _ _ _ _ _) (fun _ s1 => hup _ _ _ _ _)
  · split
    · exact hR.refl s
    · split
      · exact hR.refl s
      · split
        · exact Res.Forall.chain hR s (hup _ _ _ _ _) (fun _ s1 => hlow _ _ _ _ _)
        · refine Res.Forall.chain hR s (hup _ _ _ _ _) ?_
          intro _ s1
          exact Res.Forall.mono (hlow _ _ _ _ _) (fun _ h => hR.trans _ _ _ h (hR.upper s1 _))
        · refine Res.Forall.chain hR s (hlow _ _ _ _ _) ?_
          intro _ s1
          exact Res.Forall.chain hR s1 (hlow _ _ _ _ _) (fun _ s2 => hup _ _ _ _ _)

theorem reassertLoop_rel (backup : Reluplex) (n : ℕ) :
    ∀ (i : ℕ) (s : Reluplex),
      Res.Forall (fun s1 => R s1 s) (Reluplex.reassertLoop backup n i s) := by
  induction n with
  | zero => intro _ s; exact hR.refl s
  | succ n ih =>
    intro i s
    unfold Reluplex.reassertLoop
    exact Res.Forall.chain hR s (reassertBounds_rel hR backup i s) (fun _ s1 => ih (i + 1) s1)

theorem restoreTableauFromBackup_rel (s : Reluplex) (keepCurrentBasicVariables : Bool) :
    Res.Forall (fun s1 => R s1 s) (s.restoreTableauFromBackup keepCurrentBasicVariables) := by
  unfold Reluplex.restoreTableauFromBackup
  split
  · trivial
  · simp only
    have h1 : ∀ (l u : ℕ → VariableBound),
        R
          { s with
            lowerBounds := l
            upperBounds := u } s := by
      intro l u
      exact hR.trans _ { s with lowerBounds := l } _
        (hR.upper { s with lowerBounds := l } u) (hR.lower s l)
    have h2 : ∀ (l u : ℕ → VariableBound) (t : Tableau)
        (d : ℕ → Option ReluDissolutionType) (a : ℕ → ℚ) (b : Finset ℕ),
        R (Reluplex.computeVariableStatusAll
            { s with
              lowerBounds := l
              upperBounds := u
              tableau := t
              dissolvedReluVariables := d
              assignment := a
              basicVariables := b }) s := by
      intro l u t d a b
      refine hR.trans _ _ _ (computeVariableStatusAll_rel hR _) ?_
      refine hR.trans _
        { s with
          lowerBounds := l
          upperBounds := u
          tableau := t
          dissolvedReluVariables := d
          assignment := a } _
        (hR.basic
          { s with
            lowerBounds := l
            upperBounds := u
            tableau := t
            dissolvedReluVariables := d
            assignment := a } b) ?_
      refine hR.trans _
        { s with
          lowerBounds := l
          upperBounds := u
          tableau := t
          dissolvedReluVariables := d } _
        (hR.assignment
          { s with
            lowerBounds := l
            upperBounds := u
            tableau := t
            dissolvedReluVariables := d } a) ?_
      refine hR.trans _
        { s with
          lowerBounds := l
          upperBounds := u
          tableau := t } _
        (hR.dissolved
          { s with
            lowerBounds := l
            upperBounds := u
            tableau := t } d) ?_
      exact hR.trans _
        { s with
          lowerBounds := l
          upperBounds := u } _
        (hR.tableau
          { s with
            lowerBounds := l
            upperBounds := u } t) (h1 l u)
    split
    · exact h1 _ _
    · refine Res.Forall.mono (Res.Forall.chain hR _ (checkInvariants_rel hR _) ?_)
        (fun _ h => hR.trans _ _ _ h (h2 _ _ _ _ _ _))
      intro _ s3
      refine Res.Forall.chain hR s3 (reassertLoop_rel hR _ _ _ _) ?_
      intro _ s4
      refine Res.Forall.chain hR s4 ?_ ?_
      · split
        · split
          · trivial
          · refine Res.Forall.chain hR s4 (checkInvariants_rel hR _) ?_
            intro _ s5
            split
            · trivial
            · exact hR.refl s5
        · exact hR.refl s4
      · intro _ s5
        refine Res.Forall.chain hR s5 ?_ (fun _ s6 => checkInvariants_rel hR s6)
        split
        · exact adjustBasicLoop_rel hR _ _ _ _
        · exact hR.refl s5

end RestoreFrame

/-! ## Consecutive failures of the LP oracle (C28) -/

theorem lpFailure_spec (s s2 : Reluplex)
    (hres : s.restoreTableauFromBackup (decide (s.consecutiveGlpkFailureCount < 5)) =
      .ok () s2) :
    s2.consecutiveGlpkFailureCount = s.consecutiveGlpkFailureCount ∧
    s.lpFailure = .ok .SOLVER_FAILED
      { s2 with
        previousGlpkAnswer := .SOLVER_FAILED
        consecutiveGlpkFailureCount := (s.consecutiveGlpkFailureCount + 1) % 2 ^ 32 } := by
  have hfr := Res.Forall.of_ok
    (restoreTableauFromBackup_rel sameLpCounters_frameRel s
      (decide (s.consecutiveGlpkFailureCount < 5))) hres
  refine ⟨hfr.1, ?_⟩
  unfold Reluplex.lpFailure
  rw [hres]
  simp only [Res.andThen]
  rw [hfr.1]

set_option maxRecDepth 100000 in
/-- C28, counterexample to the claim as stated, with or without `DEBUG_ON`: in
`basicOutOfBounds` the basic variable `x1` is out of bounds in every iteration, and the LP
oracle of `failingLpEnv` fails on every invocation. When `quit()` is called before iteration
`10`, after ten calls of `progress` and ten consecutive failures, `solve()` returns
`NOT_DONE` with the failure count at `10`: the call of `progress` that observed the tenth
failure returned normally. Without `quit()` the eleventh call raises
`CONSECUTIVE_GLPK_FAILURES` and `solve()` returns `ERROR`, with the count at `11`. -/
theorem C28_tenth_failure_is_survived :
    (((basicOutOfBounds false).solve (failingLpEnv (some 10)) 20).status? = some .NOT_DONE ∧
      ((basicOutOfBounds false).solve (failingLpEnv (some 10)) 20).state?.map
        (fun s1 => (s1.numCallsToProgress, s1.consecutiveGlpkFailureCount)) = some (10, 10) ∧
      escaped (Reluplex.solveBody (failingLpEnv none) 20 (basicOutOfBounds false)) =
        some (.error .CONSECUTIVE_GLPK_FAILURES) ∧
      ((basicOutOfBounds false).solve (failingLpEnv none) 20).status? = some .ERROR ∧
      ((basicOutOfBounds false).solve (failingLpEnv none) 20).state?.map
        (fun s1 => (s1.numCallsToProgress, s1.consecutiveGlpkFailureCount)) = some (11, 11)) ∧
    (((basicOutOfBounds true).solve (failingLpEnv (some 10)) 20).status? = some .NOT_DONE ∧
      ((basicOutOfBounds true).solve (failingLpEnv (some 10)) 20).state?.map
        (fun s1 => (s1.numCallsToProgress, s1.consecutiveGlpkFailureCount)) = some (10, 10) ∧
      escaped (Reluplex.solveBody (failingLpEnv none) 20 (basicOutOfBounds true)) =
        some (.error .CONSECUTIVE_GLPK_FAILURES) ∧
      ((basicOutOfBounds true).solve (failingLpEnv none) 20).status? = some .ERROR ∧
      ((basicOutOfBounds true).solve (failingLpEnv none) 20).state?.map
        (fun s1 => (s1.numCallsToProgress, s1.consecutiveGlpkFailureCount)) = some (11, 11)) := by
  refine ⟨⟨?_, ?_, ?_, ?_, ?_⟩, ⟨?_, ?_, ?_, ?_, ?_⟩⟩ <;> decide!

/-- C28 (amended): the LP branch of `progress` with an LP oracle `o`, from a state `s`.
(1) If the oracle fails, leaving the state `s1` with failure count `k <= 10`, and the
restoration from the backup returns, then the restoration leaves the count alone and the
failure is counted: for `k < 10` (the first to the tenth consecutive failure) `progress`
returns `true` with the count at `k + 1`; for `k = 10` (the eleventh) it raises
`CONSECUTIVE_GLPK_FAILURES`, the test being `count > 10`. (2) A `NO_SOLUTION_EXISTS` answer
makes `progress` return `false` with the count at `0`. (3) A solution that is extracted with
all variables within bounds makes `fixOutOfBounds` return with the count at `0`. (4) When no
variable is out of bounds (degradation checking off), `progress` behaves as if the count were
`0` and the previous answer `SOLUTION_FOUND`: it overwrites both before anything reads them.
(5) When the `try` block of `solve()` ends with `CONSECUTIVE_GLPK_FAILURES`, `solve()`
returns `ERROR`. -/
theorem C28_consecutive_lp_failures (o : LpOracle) (env : Env) (fuel : ℕ) (s : Reluplex) :
    (∀ s1 s2, o.run s = .ok .SOLVER_FAILED s1 →
      s1.consecutiveGlpkFailureCount ≤ 10 →
      s1.restoreTableauFromBackup (decide (s1.consecutiveGlpkFailureCount < 5)) = .ok () s2 →
      s2.consecutiveGlpkFailureCount = s1.consecutiveGlpkFailureCount ∧
      (s1.consecutiveGlpkFailureCount < 10 →
        s.lpBranch o = .ok true
          { s2 with
            previousGlpkAnswer := .SOLVER_FAILED
            consecutiveGlpkFailureCount := s1.consecutiveGlpkFailureCount + 1 }) ∧
      (s1.consecutiveGlpkFailureCount = 10 →
        s.lpBranch o = .thrown (.error .CONSECUTIVE_GLPK_FAILURES)
          { s2 with
            previousGlpkAnswer := .SOLVER_FAILED
            consecutiveGlpkFailureCount := 11 })) ∧
    (∀ s1, o.run s = .ok .NO_SOLUTION_EXISTS s1 →
      s.lpBranch o = .ok false
        { s1 with
          previousGlpkAnswer := .NO_SOLUTION_EXISTS
          consecutiveGlpkFailureCount := 0 }) ∧
    (∀ s1 s2, o.run s = .ok .SOLUTION_FOUND s1 → o.extract s1 = .ok () s2 →
      s2.allVarsWithinBounds = true →
      s.fixOutOfBounds o = .ok .SOLUTION_FOUND
        { s2 with
          previousGlpkAnswer := .SOLUTION_FOUND
          consecutiveGlpkFailureCount := 0 }) ∧
    (s.useDegradationChecking = false → s.findOutOfBounds = [] →
      Reluplex.progressBody env s =
        Reluplex.progressBody env
          { s with
            consecutiveGlpkFailureCount := 0
            previousGlpkAnswer := .SOLUTION_FOUND }) ∧
    (∀ s1, Reluplex.solveBody env fuel s =
        some (.thrown (.error .CONSECUTIVE_GLPK_FAILURES) s1) →
      (s.solve env fuel).status? = some .ERROR) := by
  refine ⟨?_, ?_, ?_, ?_, ?_⟩
  · intro s1 s2 hrun hk hres
    obtain ⟨hc, hf⟩ := lpFailure_spec s1 s2 hres
    have hmod : (s1.consecutiveGlpkFailureCount + 1) % 2 ^ 32 =
        s1.consecutiveGlpkFailureCount + 1 := by
      apply Nat.mod_eq_of_lt
      have : (11 : ℕ) < 2 ^ 32 := by norm_num
      omega
    rw [hmod] at hf
    have hbr : s.lpBranch o =
        if s1.consecutiveGlpkFailureCount + 1 > Reluplex.MAX_GLPK_FAILURES_BEFORE_RESOTRATION then
          .thrown (.error .CONSECUTIVE_GLPK_FAILURES)
            { s2 with
              previousGlpkAnswer := .SOLVER_FAILED
              consecutiveGlpkFailureCount := s1.consecutiveGlpkFailureCount + 1 }
        else
          .ok true
            { s2 with
              previousGlpkAnswer := .SOLVER_FAILED
              consecutiveGlpkFailureCount := s1.consecutiveGlpkFailureCount + 1 } := by
      unfold Reluplex.lpBranch Reluplex.fixOutOfBounds
      rw [hrun]
      simp only [Res.andThen]
      rw [hf]
      simp only
      split
      · rfl
      · rfl
    refine ⟨hc, ?_, ?_⟩
    · intro hlt
      rw [hbr, if_neg]
      unfold Reluplex.MAX_GLPK_FAILURES_BEFORE_RESOTRATION
      omega
    · intro heq
      rw [hbr, if_pos, heq]
      unfold Reluplex.MAX_GLPK_FAILURES_BEFORE_RESOTRATION
      omega
  · intro s1 hrun
    unfold Reluplex.lpBranch Reluplex.fixOutOfBounds
    rw [hrun]
    simp only [Res.andThen]
    rw [if_neg]
    · rfl
    · unfold Reluplex.MAX_GLPK_FAILURES_BEFORE_RESOTRATION
      simp
  · intro s1 s2 hrun hex hin
    unfold Reluplex.fixOutOfBounds
    rw [hrun]
    simp only [Res.andThen]
    rw [hex]
    simp only [Res.andThen, hin, Bool.not_true, Bool.false_eq_true, if_false]
  · intro hdeg hoob
    unfold Reluplex.progressBody
    simp only [hdeg, Bool.false_eq_true, false_and, if_false]
    rw [if_neg, if_neg]
    · exact fun h => h hoob
    · exact fun h => h hoob
  · intro s1 h
    unfold Reluplex.solve
    rw [h]
    rfl

set_option maxRecDepth 100000 in
/-- C28, witness: the first failure of the oracle in `basicOutOfBoundsReady`, where the
count is `0`: the restoration returns and `progress` returns `true` with the count at `1`. -/
theorem C28_consecutive_lp_failures_witness :
    failingOracle.run (basicOutOfBoundsReady false) =
      .ok .SOLVER_FAILED (basicOutOfBoundsReady false) ∧
    (basicOutOfBoundsReady false).consecutiveGlpkFailureCount = 0 ∧
    ((basicOutOfBoundsReady false).restoreTableauFromBackup
      (decide ((basicOutOfBoundsReady false).consecutiveGlpkFailureCount < 5))).returned?.isSome
      = true ∧
    ((basicOutOfBoundsReady false).lpBranch failingOracle).value? = some true ∧
    ((basicOutOfBoundsReady false).lpBranch failingOracle).returned?.map
      (fun s1 => s1.consecutiveGlpkFailureCount) = some 1 := by
  have hcount : (basicOutOfBoundsReady false).consecutiveGlpkFailureCount = 0 := by decide!
  have hsome : ((basicOutOfBoundsReady false).restoreTableauFromBackup
      (decide ((basicOutOfBoundsReady false).consecutiveGlpkFailureCount < 5))).returned?.isSome
      = true := by decide!
  refine ⟨rfl, hcount, hsome, ?_⟩
  cases hr : (basicOutOfBoundsReady false).restoreTableauFromBackup
      (decide ((basicOutOfBoundsReady false).consecutiveGlpkFailureCount < 5)) with
  | ok a s2 =>
    have h := ((C28_consecutive_lp_failures failingOracle quietEnv 0
      (basicOutOfBoundsReady false)).1 (basicOutOfBoundsReady false) s2 rfl
      (by rw [hcount]; omega) hr).2.1 (by rw [hcount]; omega)
    rw [h, hcount]
    exact ⟨rfl, rfl⟩
  | thrown e s2 => rw [hr] at hsome; cases hsome
  | exited c => rw [hr] at hsome; cases hsome

/-! ## Restoring from the backup after a split (C29) -/

set_option maxRecDepth 100000 in
/-- C29 (the code breaks the claim): `splitOnTightPair` is the query with the pair
`(b, f) = (0, 1)`, `b` in `[-9, 0]` and `f` in `[0, 9]`, after preprocessing and the split
of the SMT core on `f` at level 1, so that `D[f] = SPLIT` and `ub(b) = ub(f) = 0` with
level 1. In the backup the pair is active with `ub(b) = 0` and `ub(f) = 9`. The restoration
re-asserts `ub(b)` only if it is smaller than the preprocessed bound (`FloatUtils::lt`),
which it is not, so nothing splits the pair again. Without `DEBUG_ON`
`restoreTableauFromBackup` returns normally, for both values of
`keepCurrentBasicVariables`, with `D[f]` unset, `ub(f) = 9` instead of `0`, and level `0`
instead of `1` on `ub(b)`. With `DEBUG_ON` the closing check of the function
(`backupDissolved != _dissolvedReluVariables`) ends the process with `exit( 1 )`. For
comparison, in `splitOnWidePair`, where the backup has `ub(b) = 9`, the restoration returns
with `D[f] = SPLIT` and both upper bounds `0` at level 1, as they were. -/
theorem C29_restore_forgets_split :
    ((splitOnTightPair false).dissolvedReluVariables 1 = some .TYPE_SPLIT ∧
      (splitOnTightPair false).upperBounds 0 = { finite := true, bound := 0, level := 1 } ∧
      (splitOnTightPair false).upperBounds 1 = { finite := true, bound := 0, level := 1 } ∧
      (splitOnTightPair false).reluPairs.bToF 0 = some 1 ∧
      ((splitOnTightPair false).restoreTableauFromBackup true).returned?.map
        (fun s1 => (decide (s1.dissolvedReluVariables 1 = none), s1.upperBounds 0,
          s1.upperBounds 1)) =
        some (true, { finite := true, bound := 0, level := 0 },
          { finite := true, bound := 9, level := 1 }) ∧
      ((splitOnTightPair false).restoreTableauFromBackup false).returned?.map
        (fun s1 => (decide (s1.dissolvedReluVariables 1 = none), s1.upperBounds 0,
          s1.upperBounds 1)) =
        some (true, { finite := true, bound := 0, level := 0 },
          { finite := true, bound := 9, level := 1 })) ∧
    ((splitOnTightPair true).dissolvedReluVariables 1 = some .TYPE_SPLIT ∧
      (splitOnTightPair true).upperBounds 0 = { finite := true, bound := 0, level := 1 } ∧
      (splitOnTightPair true).upperBounds 1 = { finite := true, bound := 0, level := 1 } ∧
      ((splitOnTightPair true).restoreTableauFromBackup true).exitCode? = some 1 ∧
      ((splitOnTightPair true).restoreTableauFromBackup false).exitCode? = some 1) ∧
    ((splitOnWidePair true).dissolvedReluVariables 1 = some .TYPE_SPLIT ∧
      ((splitOnWidePair true).restoreTableauFromBackup true).returned?.map
        (fun s1 => (decide (s1.dissolvedReluVariables 1 = some .TYPE_SPLIT), s1.upperBounds 0,
          s1.upperBounds 1)) =
        some (true, { finite := true, bound := 0, level := 1 },
          { finite := true, bound := 0, level := 1 })) := by
  refine ⟨⟨?_, ?_, ?_, ?_, ?_, ?_⟩, ⟨?_, ?_, ?_, ?_, ?_⟩, ⟨?_, ?_⟩⟩ <;> decide!

/-! ## Full bound tightening (C30) -/

theorem sameTableau_boundFrameRel : Reluplex.BoundFrameRel Reluplex.SameTableau where
  refl := fun _ => ⟨rfl, rfl⟩
  trans := fun _ _ _ h2 h1 => ⟨h2.1.trans h1.1, h2.2.trans h1.2⟩
  assignment := fun _ _ => ⟨rfl, rfl⟩
  status := fun _ _ => ⟨rfl, rfl⟩
  upper := fun _ _ => ⟨rfl, rfl⟩
  lower := fun _ _ => ⟨rfl, rfl⟩
  dissolved := fun _ _ => ⟨rfl, rfl⟩

theorem unifyReluPair_false (s s1 : Reluplex) (f : ℕ)
    (h : s.unifyReluPair f = .ok false s1) : s1 = s := by
  unfold Reluplex.unifyReluPair at h
  cases hp : s.reluPairs.toPartner f with
  | none => rw [hp] at h; cases h
  | some b =>
    rw [hp] at h
    simp only at h
    by_cases h0 : s.tableau.getColumnSize b = 0
    · rw [if_pos h0] at h
      cases h
      rfl
    · rw [if_neg h0] at h
      obtain ⟨_, _, _, h2⟩ := Res.andThen_eq_ok h
      obtain ⟨_, _, _, h3⟩ := Res.andThen_eq_ok h2
      obtain ⟨_, _, _, h4⟩ := Res.andThen_eq_ok h3
      cases h4

section BoundFrameRel

variable {R : Reluplex → Reluplex → Prop} (hR : Reluplex.BoundFrameRel R)
include hR

theorem addToAssignment_brel (s : Reluplex) (v : ℕ) (d : ℚ) : R (s.addToAssignment v d) s :=
  hR.trans _ _ _ (hR.status _ _) (hR.assignment s _)

theorem updateAssignment_fold_brel (v : ℕ) (delta : ℚ) (l : List Entry) :
    ∀ st : Reluplex,
      R (l.foldl (fun st current =>
          if current.row ≠ v then st.addToAssignment current.row (delta * current.value)
          else st) st) st := by
  induction l with
  | nil => intro st; exact hR.refl st
  | cons e rest ih =>
    intro st
    simp only [List.foldl_cons]
    split
    · exact hR.trans _ _ _ (ih _) (addToAssignment_brel hR st _ _)
    · exact ih _

theorem updateAssignment_brel (s : Reluplex) (v : ℕ) (delta : ℚ) :
    R (s.updateAssignment v delta) s := by
  unfold Reluplex.updateAssignment
  exact hR.trans _ _ _ (updateAssignment_fold_brel hR v delta _ _)
    (addToAssignment_brel hR s v delta)

theorem updateIgnoringRelu_brel (s : Reluplex) (v : ℕ) (delta : ℚ) :
    R (s.updateIgnoringRelu v delta) s := by
  unfold Reluplex.updateIgnoringRelu
  split
  · exact hR.refl s
  · exact updateAssignment_brel hR s v delta

theorem moveIntoBound_brel (s : Reluplex) (v : ℕ) (target : ℚ) :
    R (s.moveIntoBound v target) s := by
  unfold Reluplex.moveIntoBound
  split
  · exact updateIgnoringRelu_brel hR s v _
  · exact hR.refl s

theorem update_brel (s : Reluplex) (v : ℕ) (delta : ℚ) (ignoreRelu : Bool) :
    Res.Forall (fun s1 => R s1 s) (s.update v delta ignoreRelu) := by
  have h1 := updateAssignment_brel hR s v delta
  rcases update_cases s v delta ignoreRelu with ⟨_, hu⟩ | ⟨_, hu⟩ | ⟨_, _, _, d2, hu | hu⟩
  · rw [hu]; exact hR.refl s
  · rw [hu]; exact h1
  · rw [hu]; exact hR.trans _ _ _ (updateIgnoringRelu_brel hR _ _ _) h1
  · rw [hu]; exact hR.trans _ _ _ (updateIgnoringRelu_brel hR _ _ _) h1

theorem markReluVariableDissolved_brel (s : Reluplex) (v : ℕ) (type : ReluDissolutionType) :
    Res.Forall (fun s1 => R s1 s) (s.markReluVariableDissolved v type) := by
  unfold Reluplex.markReluVariableDissolved
  split
  · trivial
  · exact hR.dissolved s _

theorem updateUpperBound_brel (s : Reluplex) (v : ℕ) (bound : ℚ) (level : ℕ) :
    Res.Forall (fun s1 => R s1 s) (s.updateUpperBound v bound level) := by
  have st1 : ∀ (x : Reluplex) (w : ℕ) (c : ℚ) (l : ℕ), R x s → R (x.storeUpperBound w c l) s :=
    fun x w c l h => hR.trans _ _ _ (hR.upper x _) h
  have cs1 : ∀ (x : Reluplex) (w : ℕ), R x s → R (x.computeVariableStatus w) s :=
    fun x w h => hR.trans _ _ _ (hR.status x _) h
  have mv1 : ∀ (x : Reluplex) (w : ℕ) (c : ℚ), R x s → R (x.moveIntoBound w c) s :=
    fun x w c h => hR.trans _ _ _ (moveIntoBound_brel hR x w c) h
  unfold Reluplex.updateUpperBound
  simp only
  generalize (if s.reluPairs.isRelu v = true then (s.reluPairs.toPartner v).getD 0 else 0) = p
  generalize (if s.reluPairs.isRelu v = true then
    (if s.reluPairs.isF v = true then v else p) else 0) = f
  generalize (if s.reluPairs.isRelu v = true then
    (if s.reluPairs.isB v = true then v else p) else 0) = b
  generalize s.adjustUpper bound = c
  by_cases hplain : (!s.reluPairs.isRelu v || (s.dissolvedReluVariables f).isSome) = true
  · rw [if_pos hplain]
    split
    · exact st1 _ _ _ _ (hR.refl s)
    · split
      · exact Res.Forall.mono (update_brel hR _ _ _ _)
          (fun _ h => hR.trans _ _ _ h (cs1 _ _ (st1 _ _ _ _ (hR.refl s))))
      · exact cs1 _ _ (st1 _ _ _ _ (hR.refl s))
  · rw [if_neg hplain]
    by_cases hpos : isPositive c DEFAULT_EPSILON = true
    · rw [if_pos hpos]
      split
      · exact st1 _ _ _ _ (st1 _ _ _ _ (hR.refl s))
      · exact mv1 _ _ _ (mv1 _ _ _ (cs1 _ _ (cs1 _ _ (st1 _ _ _ _ (st1 _ _ _ _ (hR.refl s))))))
    · rw [if_neg hpos]
      by_cases hneg : (isNegative c DEFAULT_EPSILON && s.reluPairs.isF v) = true
      · rw [if_pos hneg]
        split
        · exact st1 _ _ _ _ (hR.refl s)
        · trivial
      · rw [if_neg hneg]
        refine Res.Forall.andThen (markReluVariableDissolved_brel hR s f .TYPE_SPLIT)
          (fun _ h => h) ?_
        intro _ s0 hs0
        split
        · exact st1 _ _ _ _ (st1 _ _ _ _ hs0)
        · exact mv1 _ _ _ (mv1 _ _ _ (cs1 _ _ (cs1 _ _ (st1 _ _ _ _ (st1 _ _ _ _ hs0)))))

theorem updateLowerBound_false_brel (s s1 : Reluplex) (v : ℕ) (bound : ℚ) (level : ℕ)
    (h : s.updateLowerBound v bound level = .ok false s1) : R s1 s := by
  have st1 : ∀ (x : Reluplex) (w : ℕ) (c : ℚ) (l : ℕ), R x s → R (x.storeLowerBound w c l) s :=
    fun x w c l h => hR.trans _ _ _ (hR.lower x _) h
  have cs1 : ∀ (x : Reluplex) (w : ℕ), R x s → R (x.computeVariableStatus w) s :=
    fun x w h => hR.trans _ _ _ (hR.status x _) h
  have mv1 : ∀ (x : Reluplex) (w : ℕ) (c : ℚ), R x s → R (x.moveIntoBound w c) s :=
    fun x w c h => hR.trans _ _ _ (moveIntoBound_brel hR x w c) h
  unfold Reluplex.updateLowerBound at h
  simp only at h
  generalize (if s.reluPairs.isRelu v = true then (s.reluPairs.toPartner v).getD 0 else 0) = p
    at h
  generalize (if s.reluPairs.isRelu v = true then
    (if s.reluPairs.isF v = true then v else p) else 0) = f at h
  generalize s.adjustLower bound = c at h
  by_cases hplain : (!s.reluPairs.isRelu v || (s.dissolvedReluVariables f).isSome) = true
  · rw [if_pos hplain] at h
    split at h
    · cases h
    · split at h
      · obtain ⟨_, s3, e1, e2⟩ := Res.andThen_eq_ok h
        cases e2
        have hx := Res.Forall.of_ok (update_brel hR _ _ _ _) e1
        exact hR.trans _ _ _ hx (cs1 _ _ (st1 _ _ _ _ (hR.refl s)))
      · cases h
        exact cs1 _ _ (st1 _ _ _ _ (hR.refl s))
  · rw [if_neg hplain] at h
    by_cases hneg : (!isNegative c DEFAULT_EPSILON) = true
    · rw [if_pos hneg] at h
      split at h
      · cases h
      · have := unifyReluPair_false _ _ _ h
        rw [this]
        exact mv1 _ _ _ (mv1 _ _ _ (cs1 _ _ (cs1 _ _ (st1 _ _ _ _ (st1 _ _ _ _ (hR.refl s))))))
    · rw [if_neg hneg] at h
      split at h
      · cases h
      · cases h
        exact mv1 _ _ _ (cs1 _ _ (st1 _ _ _ _ (hR.refl s)))

theorem tightenBoundsOnRowLoop_false_brel (basic : ℕ) (l : List Entry) :
    ∀ (s s1 : Reluplex), Reluplex.tightenBoundsOnRowLoop basic l s = .ok false s1 → R s1 s := by
  induction l with
  | nil =>
    intro s s1 h
    unfold Reluplex.tightenBoundsOnRowLoop at h
    cases h
    exact hR.refl s
  | cons tv row ih =>
    intro s s1 h
    unfold Reluplex.tightenBoundsOnRowLoop at h
    simp only at h
    obtain ⟨_, sA, e1, e2⟩ := Res.andThen_eq_ok h
    have hA : R sA s := by
      split at e1
      · have hx := Res.Forall.of_ok (updateUpperBound_brel hR _ _ _ _) e1
        exact hx
      · cases e1
        exact hR.refl s
    split at e2
    · obtain ⟨changed, sB, e3, e4⟩ := Res.andThen_eq_ok e2
      cases changed with
      | true => simp at e4
      | false =>
        simp only [Bool.false_eq_true, if_false] at e4
        exact hR.trans _ _ _ (ih _ _ e4)
          (hR.trans _ _ _ (updateLowerBound_false_brel hR _ _ _ _ _ e3) hA)
    · exact hR.trans _ _ _ (ih _ _ e2) hA

theorem tightenPass_false_brel (l : List ℕ) :
    ∀ (s s1 : Reluplex), Reluplex.tightenPass l s = .ok false s1 → R s1 s := by
  induction l with
  | nil =>
    intro s s1 h
    unfold Reluplex.tightenPass at h
    cases h
    exact hR.refl s
  | cons basic rest ih =>
    intro s s1 h
    unfold Reluplex.tightenPass at h
    obtain ⟨needToRestart, sA, e1, e2⟩ := Res.andThen_eq_ok h
    cases needToRestart with
    | true => simp at e2
    | false =>
      simp only [Bool.false_eq_true, if_false] at e2
      exact hR.trans _ _ _ (ih _ _ e2) (tightenBoundsOnRowLoop_false_brel hR _ _ _ _ e1)

end BoundFrameRel

theorem tightenUntilDone_last_pass (fuel : ℕ) :
    ∀ (s s1 : Reluplex), Reluplex.tightenUntilDone fuel s = some (.ok () s1) →
      ∃ s0, Reluplex.tightenPass s0.basicList s0 = .ok false s1 := by
  induction fuel with
  | zero =>
    intro s s1 h
    unfold Reluplex.tightenUntilDone at h
    cases h
  | succ fuel ih =>
    intro s s1 h
    unfold Reluplex.tightenUntilDone at h
    cases hp : Reluplex.tightenPass s.basicList s with
    | ok needToRestart sA =>
      rw [hp] at h
      cases needToRestart with
      | true =>
        simp only [if_true] at h
        exact ih _ _ h
      | false =>
        simp only [Bool.false_eq_true, if_false, Option.some.injEq] at h
        cases h
        exact ⟨s, hp⟩
    | thrown e sA =>
      rw [hp] at h
      simp only [Option.some.injEq] at h
      cases h
    | exited c =>
      rw [hp] at h
      simp only [Option.some.injEq] at h
      cases h

/-- The level counters of the inner loop of `tightenBoundsOnRow`: started from `acc`, the
loop ends with the maximum of the start value and of the levels of the entries visited. -/
theorem tightenStep_fold_levels (s : Reluplex) (v : ℕ) (scale : ℚ) (row : List Entry) :
    ∀ acc : RowBounds,
      (row.foldl (s.tightenStep v scale) acc).maxBoundLevel =
        max acc.maxBoundLevel
          (((row.filter fun e => decide (e.column ≠ v)).map fun e =>
            if isPositive (e.value * scale) DEFAULT_EPSILON = true
            then (s.upperBounds e.column).level else (s.lowerBounds e.column).level).foldr
            max 0) ∧
      (row.foldl (s.tightenStep v scale) acc).minBoundLevel =
        max acc.minBoundLevel
          (((row.filter fun e => decide (e.column ≠ v)).map fun e =>
            if isPositive (e.value * scale) DEFAULT_EPSILON = true
            then (s.lowerBounds e.column).level else (s.upperBounds e.column).level).foldr
            max 0) := by
  induction row with
  | nil => intro acc; simp
  | cons e rest ih =>
    intro acc
    rw [List.foldl_cons]
    obtain ⟨h1, h2⟩ := ih (s.tightenStep v scale acc e)
    rw [h1, h2]
    clear h1 h2 ih
    by_cases hc : e.column = v
    · have hstep : s.tightenStep v scale acc e = acc := by
        unfold Reluplex.tightenStep; simp [hc]
      have hd : decide (e.column ≠ v) = false := by simp [hc]
      rw [hstep, List.filter_cons, if_neg (by rw [hd]; simp)]
      exact ⟨rfl, rfl⟩
    · have hd : decide (e.column ≠ v) = true := by simp [hc]
      rw [List.filter_cons, if_pos hd, List.map_cons, List.map_cons, List.foldr_cons,
        List.foldr_cons]
      by_cases hp : isPositive (e.value * scale) DEFAULT_EPSILON = true
      · have hstep : s.tightenStep v scale acc e =
            { min := acc.min + (s.lowerBounds e.column).bound * (e.value * scale)
              max := acc.max + (s.upperBounds e.column).bound * (e.value * scale)
              minBoundLevel :=
                if (s.lowerBounds e.column).level > acc.minBoundLevel
                then (s.lowerBounds e.column).level else acc.minBoundLevel
              maxBoundLevel :=
                if (s.upperBounds e.column).level > acc.maxBoundLevel
                then (s.upperBounds e.column).level else acc.maxBoundLevel } := by
          unfold Reluplex.tightenStep; simp [hc, hp]
        rw [hstep, if_pos hp, if_pos hp]
        constructor
        · show max (if _ then _ else _) _ = _
          split_ifs with h <;> omega
        · show max (if _ then _ else _) _ = _
          split_ifs with h <;> omega
      · have hstep : s.tightenStep v scale acc e =
            { min := acc.min + (s.upperBounds e.column).bound * (e.value * scale)
              max := acc.max + (s.lowerBounds e.column).bound * (e.value * scale)
              maxBoundLevel :=
                if (s.lowerBounds e.column).level > acc.maxBoundLevel
                then (s.lowerBounds e.column).level else acc.maxBoundLevel
              minBoundLevel :=
                if (s.upperBounds e.column).level > acc.minBoundLevel
                then (s.upperBounds e.column).level else acc.minBoundLevel } := by
          unfold Reluplex.tightenStep; simp [hc, hp]
        rw [hstep, if_neg hp, if_neg hp]
        constructor
        · show max (if _ then _ else _) _ = _
          split_ifs with h <;> omega
        · show max (if _ then _ else _) _ = _
          split_ifs with h <;> omega

set_option maxRecDepth 100000 in
/-- C31 (counterexample): in the row `x2 = 100 x0 - 1e-9 x1` of `tinyScaledRow` the scaled
coefficient of `x1` for the tightening variable `x0` is `1e-11`, which is positive, and the
other variable of the row, `x2`, has bounds of level 0; the claim predicts the level of
`ub(x1)`, which is 2, for the new upper bound of `x0`. The loop computes level 1, the level of
`lb(x1)`, and `tightenBoundsOnRow` stores the learned bound `ub(x0) = 0.01` with level 1. -/
theorem C31_tiny_positive_coefficient_takes_lower_level :
    (0 : ℚ) < (-1 / 1000000000) * ((-1) / 100) ∧
    ((tinyScaledRow true).tableau.getRow 2).map (fun e => (e.column, e.value)) =
      [(1, -1 / 1000000000), (0, 100), (2, -1)] ∧
    (((tinyScaledRow true).upperBounds 1).level = 2 ∧
      ((tinyScaledRow true).lowerBounds 1).level = 1 ∧
      ((tinyScaledRow true).upperBounds 2).level = 0 ∧
      ((tinyScaledRow true).lowerBounds 2).level = 0) ∧
    ((tinyScaledRow true).tightenRowBounds 2 0 ((-1) / 100)).maxBoundLevel = 1 ∧
    ((tinyScaledRow false).tightenRowBounds 2 0 ((-1) / 100)).maxBoundLevel = 1 ∧
    (((tinyScaledRow true).tightenBoundsOnRow 2).returned?.map
        fun s => ((s.upperBounds 0).finite, (s.upperBounds 0).bound, (s.upperBounds 0).level)) =
      some (true, 1 / 100, 1) ∧
    (((tinyScaledRow false).tightenBoundsOnRow 2).returned?.map
        fun s => ((s.upperBounds 0).finite, (s.upperBounds 0).bound, (s.upperBounds 0).level)) =
      some (true, 1 / 100, 1) := by
  refine ⟨by norm_num, ?_, ⟨?_, ?_, ?_, ?_⟩, ?_, ?_, ?_, ?_⟩ <;> decide!

/-- C31 (amended): for the entry `tighteningVar` of the row of `basic`, with
`scale = -1 / tighteningVar.value`, `tightenBoundsOnRow` passes to `updateUpperBound` the
level `maxBoundLevel` and to `updateLowerBound` the level `minBoundLevel` of the inner loop;
`maxBoundLevel` is the maximum, over the entries of the row in another column, of the level
of the upper bound when `isPositive` accepts the scaled coefficient (it exceeds `1e-10`) and
of the level of the lower bound otherwise, 0 if there is no such entry; `minBoundLevel` is
the same with the two bounds exchanged. -/
theorem C31_level_of_learned_bound (s : Reluplex) (basic : ℕ) (tighteningVar : Entry)
    (row : List Entry) :
    (Reluplex.tightenBoundsOnRowLoop basic (tighteningVar :: row) s =
      ((if lt (s.tightenRowBounds basic tighteningVar.column ((-1) / tighteningVar.value)).max
            (s.upperBounds tighteningVar.column).bound DEFAULT_EPSILON
        then s.updateUpperBound tighteningVar.column
          (s.tightenRowBounds basic tighteningVar.column ((-1) / tighteningVar.value)).max
          (s.tightenRowBounds basic tighteningVar.column
            ((-1) / tighteningVar.value)).maxBoundLevel
        else Res.ok () s).andThen fun _ s1 =>
      if gt (s.tightenRowBounds basic tighteningVar.column ((-1) / tighteningVar.value)).min
          (s1.lowerBounds tighteningVar.column).bound DEFAULT_EPSILON then
        (s1.updateLowerBound tighteningVar.column
          (s.tightenRowBounds basic tighteningVar.column ((-1) / tighteningVar.value)).min
          (s.tightenRowBounds basic tighteningVar.column
            ((-1) / tighteningVar.value)).minBoundLevel).andThen fun changed s2 =>
          if changed then .ok true s2 else Reluplex.tightenBoundsOnRowLoop basic row s2
      else Reluplex.tightenBoundsOnRowLoop basic row s1)) ∧
    (s.tightenRowBounds basic tighteningVar.column ((-1) / tighteningVar.value)).maxBoundLevel =
      ((((s.tableau.getRow basic).filter fun e => decide (e.column ≠ tighteningVar.column)).map
        fun e =>
          if isPositive (e.value * ((-1) / tighteningVar.value)) DEFAULT_EPSILON = true
          then (s.upperBounds e.column).level else (s.lowerBounds e.column).level).foldr
        max 0) ∧
    (s.tightenRowBounds basic tighteningVar.column ((-1) / tighteningVar.value)).minBoundLevel =
      ((((s.tableau.getRow basic).filter fun e => decide (e.column ≠ tighteningVar.column)).map
        fun e =>
          if isPositive (e.value * ((-1) / tighteningVar.value)) DEFAULT_EPSILON = true
          then (s.lowerBounds e.column).level else (s.upperBounds e.column).level).foldr
        max 0) := by
  have h := tightenStep_fold_levels s tighteningVar.column ((-1) / tighteningVar.value)
    (s.tableau.getRow basic) { max := 0, min := 0, minBoundLevel := 0, maxBoundLevel := 0 }
  refine ⟨by rw [Reluplex.tightenBoundsOnRowLoop], ?_, ?_⟩
  · unfold Reluplex.tightenRowBounds
    rw [h.1]
    exact Nat.zero_max _
  · unfold Reluplex.tightenRowBounds
    rw [h.2]
    exact Nat.zero_max _

theorem gt_iff (x y eps : ℚ) (heps : 0 ≤ eps) : gt x y eps = true ↔ y + eps < x := by
  constructor
  · intro h
    by_contra hn
    rw [gt_eq_false_of_le x y eps heps (not_lt.mp hn)] at h
    cases h
  · exact gt_of_lt x y eps heps

/-- When the relative test of `areEqual` cannot succeed beyond `eps`, `areEqual` is the
absolute test. -/
theorem areEqual_iff_of_small (x y eps : ℚ) (hx : |x| * DBL_EPSILON ≤ eps)
    (hy : |y| * DBL_EPSILON ≤ eps) : areEqual x y eps = true ↔ |x - y| ≤ eps := by
  constructor
  · intro h
    rcases areEqual_cases x y eps h with h1 | h1
    · exact h1
    · split_ifs at h1 <;> linarith
  · exact areEqual_of_abs_le x y eps

/-- The status of a variable with two finite bounds `lb ≤ ub` whose magnitudes are small
enough for the relative test of `areEqual` to be subsumed by `OOB_EPSILON`. -/
theorem statusOf_finite_small (s : Reluplex) (i : ℕ)
    (hA : |s.assignment i| * DBL_EPSILON ≤ OOB_EPSILON)
    (hL : |(s.lowerBounds i).bound| * DBL_EPSILON ≤ OOB_EPSILON)
    (hU : |(s.upperBounds i).bound| * DBL_EPSILON ≤ OOB_EPSILON)
    (hfu : (s.upperBounds i).finite = true) (hfl : (s.lowerBounds i).finite = true)
    (hle : (s.lowerBounds i).bound ≤ (s.upperBounds i).bound) :
    (s.statusOf i = .ABOVE_UB ↔ s.assignment i > (s.upperBounds i).bound + OOB_EPSILON) ∧
    (s.statusOf i = .BELOW_LB ↔ s.assignment i < (s.lowerBounds i).bound - OOB_EPSILON) ∧
    (s.statusOf i = .FIXED ↔
      |s.assignment i - (s.upperBounds i).bound| ≤ OOB_EPSILON ∧
        areEqual (s.lowerBounds i).bound (s.upperBounds i).bound DEFAULT_EPSILON = true) := by
  have he : (0 : ℚ) ≤ OOB_EPSILON := by norm_num [OOB_EPSILON]
  have hpos : (0 : ℚ) < OOB_EPSILON := by norm_num [OOB_EPSILON]
  have g1 := gt_iff (s.assignment i) (s.upperBounds i).bound OOB_EPSILON he
  have g2 := gt_iff (s.assignment i) (s.lowerBounds i).bound OOB_EPSILON he
  have a1 := areEqual_iff_of_small (s.assignment i) (s.upperBounds i).bound OOB_EPSILON hA hU
  have a2 := areEqual_iff_of_small (s.assignment i) (s.lowerBounds i).bound OOB_EPSILON hA hL
  rw [abs_le] at a1 a2
  rw [abs_le]
  unfold Reluplex.statusOf
  simp only [hfu, hfl, Bool.and_self, if_true]
  by_cases c1 : gt (s.assignment i) (s.upperBounds i).bound OOB_EPSILON = true
  · have := g1.mp c1
    simp only [c1, if_true]
    refine ⟨by simp; linarith, by simp; linarith, by simp; intro _ _; linarith⟩
  · have n1 : ¬ ((s.upperBounds i).bound + OOB_EPSILON < s.assignment i) := fun h => c1 (g1.mpr h)
    rw [if_neg c1]
    by_cases c2 : areEqual (s.assignment i) (s.upperBounds i).bound OOB_EPSILON = true
    · have h2 := a1.mp c2
      rw [if_pos c2]
      by_cases c3 : areEqual (s.lowerBounds i).bound (s.upperBounds i).bound DEFAULT_EPSILON
          = true
      · rw [if_pos c3]
        refine ⟨by simp; linarith, by simp; linarith, by simp only [c3, and_true, true_iff]; exact h2⟩
      · rw [if_neg c3]
        refine ⟨by simp; linarith, by simp; linarith, by simp [c3]⟩
    · have n2 : ¬ (-OOB_EPSILON ≤ s.assignment i - (s.upperBounds i).bound ∧
          s.assignment i - (s.upperBounds i).bound ≤ OOB_EPSILON) := fun h => c2 (a1.mpr h)
      rw [if_neg c2]
      by_cases c3 : gt (s.assignment i) (s.lowerBounds i).bound OOB_EPSILON = true
      · have := g2.mp c3
        rw [if_pos c3]
        refine ⟨by simp; linarith, by simp; linarith, by simp only [false_iff, reduceCtorEq]; intro h; exact n2 h.1⟩
      · have n3 : ¬ ((s.lowerBounds i).bound + OOB_EPSILON < s.assignment i) :=
          fun h => c3 (g2.mpr h)
        rw [if_neg c3]
        by_cases c4 : areEqual (s.assignment i) (s.lowerBounds i).bound OOB_EPSILON = true
        · have h4 := a2.mp c4
          rw [if_pos c4]
          refine ⟨by simp; linarith, by simp; linarith,
            by simp only [false_iff, reduceCtorEq]; intro h; exact n2 h.1⟩
        · have n4 : ¬ (-OOB_EPSILON ≤ s.assignment i - (s.lowerBounds i).bound ∧
              s.assignment i - (s.lowerBounds i).bound ≤ OOB_EPSILON) := fun h => c4 (a2.mpr h)
          rw [if_neg c4]
          refine ⟨by simp; linarith, ?_, by simp only [false_iff, reduceCtorEq]; intro h; exact n2 h.1⟩
          simp only [true_iff]
          by_contra hn
          apply n4
          constructor
          · linarith
          · linarith

/-- A variable without a finite bound has status BETWEEN. -/
theorem statusOf_unbounded (s : Reluplex) (i : ℕ) (hfu : (s.upperBounds i).finite = false)
    (hfl : (s.lowerBounds i).finite = false) : s.statusOf i = .BETWEEN := by
  unfold Reluplex.statusOf
  simp [hfu, hfl]

/-- The test `outOfBounds( i )` right after `computeVariableStatus( i )`. -/
theorem outOfBounds_computeVariableStatus (s : Reluplex) (i : ℕ) :
    ((s.computeVariableStatus i).varToStatus i = s.statusOf i) ∧
    ((s.computeVariableStatus i).outOfBounds i = true ↔
      s.statusOf i = .BELOW_LB ∨ s.statusOf i = .ABOVE_UB) := by
  have h : (s.computeVariableStatus i).varToStatus i = s.statusOf i := by
    unfold Reluplex.computeVariableStatus
    simp
  refine ⟨h, ?_⟩
  unfold Reluplex.outOfBounds Reluplex.tooLow Reluplex.tooHigh
  rw [h]
  simp

set_option maxRecDepth 100000 in
/-- C33 (counterexample): in `farFromZero` both bounds of `x0` are finite with
`lb = 10^13 ≤ ub = 10^13 + 10`, and the value `10^13 - 1/512` lies below `lb - 0.001`; the
relative test of `areEqual` (`|A - lb| ≤ 10^13 * DBL_EPSILON`) accepts the value as equal to
`lb`, so `computeVariableStatus( 0 )` stores AT_LB, not BELOW_LB, and `outOfBounds( 0 )` is
false. -/
theorem C33_relative_test_hides_low_value :
    ((farFromZero true).assignment 0 = 10000000000000 - 1 / 512 ∧
      (farFromZero true).lowerBounds 0 = { finite := true, bound := 10000000000000, level := 0 } ∧
      (farFromZero true).upperBounds 0 = { finite := true, bound := 10000000000010, level := 0 } ∧
      (farFromZero true).assignment 0 < ((farFromZero true).lowerBounds 0).bound - OOB_EPSILON ∧
      (farFromZero true).statusOf 0 = .AT_LB ∧
      (farFromZero true).varToStatus 0 = .AT_LB ∧
      (farFromZero true).outOfBounds 0 = false) ∧
    ((farFromZero false).assignment 0 = 10000000000000 - 1 / 512 ∧
      (farFromZero false).lowerBounds 0 = { finite := true, bound := 10000000000000, level := 0 } ∧
      (farFromZero false).upperBounds 0 = { finite := true, bound := 10000000000010, level := 0 } ∧
      (farFromZero false).assignment 0 < ((farFromZero false).lowerBounds 0).bound - OOB_EPSILON ∧
      (farFromZero false).statusOf 0 = .AT_LB ∧
      (farFromZero false).varToStatus 0 = .AT_LB ∧
      (farFromZero false).outOfBounds 0 = false) := by
  refine ⟨⟨?_, ?_, ?_, ?_, ?_, ?_, ?_⟩, ⟨?_, ?_, ?_, ?_, ?_, ?_, ?_⟩⟩ <;> decide!

/-- C33 (amended): let the value and the two bounds of variable `i` have magnitude at most
`OOB_EPSILON / DBL_EPSILON` (about `4.5 * 10^12`), so that the relative test of `areEqual`
adds nothing to the tolerance `OOB_EPSILON`. With both bounds finite and `lb ≤ ub`, the
status computed by `computeVariableStatus( i )` is ABOVE_UB iff `A[i] > ub + OOB_EPSILON`,
BELOW_LB iff `A[i] < lb - OOB_EPSILON`, FIXED iff `|A[i] - ub| ≤ OOB_EPSILON` and
`areEqual( lb, ub )` holds with the default epsilon, and `outOfBounds( i )` holds afterwards
iff `A[i]` lies outside `[lb - OOB_EPSILON, ub + OOB_EPSILON]`. With no finite bound the
status is BETWEEN and the variable is not out of bounds. -/
theorem C33_status_classification (s : Reluplex) (i : ℕ)
    (hA : |s.assignment i| * DBL_EPSILON ≤ OOB_EPSILON)
    (hL : |(s.lowerBounds i).bound| * DBL_EPSILON ≤ OOB_EPSILON)
    (hU : |(s.upperBounds i).bound| * DBL_EPSILON ≤ OOB_EPSILON) :
    (s.computeVariableStatus i).varToStatus i = s.statusOf i ∧
    ((s.upperBounds i).finite = true → (s.lowerBounds i).finite = true →
      (s.lowerBounds i).bound ≤ (s.upperBounds i).bound →
      (s.statusOf i = .ABOVE_UB ↔ s.assignment i > (s.upperBounds i).bound + OOB_EPSILON) ∧
      (s.statusOf i = .BELOW_LB ↔ s.assignment i < (s.lowerBounds i).bound - OOB_EPSILON) ∧
      (s.statusOf i = .FIXED ↔
        |s.assignment i - (s.upperBounds i).bound| ≤ OOB_EPSILON ∧
          areEqual (s.lowerBounds i).bound (s.upperBounds i).bound DEFAULT_EPSILON = true) ∧
      ((s.computeVariableStatus i).outOfBounds i = true ↔
        s.assignment i < (s.lowerBounds i).bound - OOB_EPSILON ∨
          s.assignment i > (s.upperBounds i).bound + OOB_EPSILON)) ∧
    ((s.upperBounds i).finite = false → (s.lowerBounds i).finite = false →
      s.statusOf i = .BETWEEN ∧ (s.computeVariableStatus i).outOfBounds i = false) := by
  obtain ⟨h0, hoob⟩ := outOfBounds_computeVariableStatus s i
  refine ⟨h0, ?_, ?_⟩
  · intro hfu hfl hle
    obtain ⟨h1, h2, h3⟩ := statusOf_finite_small s i hA hL hU hfu hfl hle
    refine ⟨h1, h2, h3, ?_⟩
    rw [hoob, h1, h2]
  · intro hfu hfl
    have hb := statusOf_unbounded s i hfu hfl
    refine ⟨hb, ?_⟩
    cases hc : (s.computeVariableStatus i).outOfBounds i
    · rfl
    · rw [hoob, hb] at hc
      simp at hc

set_option maxRecDepth 100000 in
/-- C33, witness: the variable `x3` of `chainedRows`, with the bounds `[-9, 5]` and the
value 0. -/
theorem C33_status_classification_witness :
    (chainedRows true).assignment 3 = 0 ∧
    (chainedRows true).lowerBounds 3 = { finite := true, bound := -9, level := 0 } ∧
    (chainedRows true).upperBounds 3 = { finite := true, bound := 5, level := 0 } ∧
    ((chainedRows true).statusOf 3 = .BELOW_LB ↔
      (chainedRows true).assignment 3 < ((chainedRows true).lowerBounds 3).bound - OOB_EPSILON) :=
  have hA : (chainedRows true).assignment 3 = 0 := by decide!
  have hL : (chainedRows true).lowerBounds 3 = { finite := true, bound := -9, level := 0 } := by
    decide!
  have hU : (chainedRows true).upperBounds 3 = { finite := true, bound := 5, level := 0 } := by
    decide!
  ⟨hA, hL, hU,
    ((C33_status_classification (chainedRows true) 3
      (by rw [hA]; norm_num [DBL_EPSILON, OOB_EPSILON])
      (by rw [hL]; norm_num [DBL_EPSILON, OOB_EPSILON])
      (by rw [hU]; norm_num [DBL_EPSILON, OOB_EPSILON])).2.1
      (by rw [hU]) (by rw [hL]) (by rw [hL, hU]; norm_num)).2.1⟩

theorem isPositive_iff (x eps : ℚ) (heps : 0 ≤ eps) : isPositive x eps = true ↔ eps < x := by
  constructor
  · intro h
    unfold isPositive at h
    simp only [Bool.and_eq_true, Bool.not_eq_true', decide_eq_true_eq] at h
    by_contra hn
    have hz : isZero x eps = true :=
      (isZero_iff x eps heps).mpr (by rw [abs_of_pos h.2]; linarith)
    rw [hz] at h
    exact absurd h.1 (by simp)
  · exact isPositive_of_gt x eps heps

/-- The test `reluPairIsBroken( b, f )` as a condition on the two values. -/
theorem reluPairIsBroken_iff (s : Reluplex) (b f : ℕ) :
    s.reluPairIsBroken b f = true ↔
      (|s.assignment f| ≤ DEFAULT_EPSILON ∧ DEFAULT_EPSILON < s.assignment b) ∨
      (DEFAULT_EPSILON < s.assignment f ∧
        areEqual (s.assignment f) (s.assignment b) DEFAULT_EPSILON = false) := by
  have he : (0 : ℚ) ≤ DEFAULT_EPSILON := by norm_num [DEFAULT_EPSILON]
  unfold Reluplex.reluPairIsBroken areDisequal
  simp only [Bool.or_eq_true, Bool.and_eq_true, Bool.not_eq_true']
  rw [isZero_default_iff, isPositive_iff _ _ he, isPositive_iff _ _ he]

set_option maxRecDepth 100000 in
/-- C36 (counterexample): with `A[b] = 2^-33` and `A[f] = 2^-34` the value of `f` is not
negative and differs from `max(0, A[b])` by `2^-34 < 1e-10`, yet `reluPairIsBroken` returns
true (`f` counts as zero and `b` as positive). With `A[f] = 10^6` and `A[b] = 10^6 + 2^-33`
the difference `2^-33` exceeds `1e-10`, yet the pair is reported as not broken (the relative
test of `areEqual` accepts it). -/
theorem C36_tolerance_seams :
    ((pairWithValues (1 / 8589934592) (1 / 17179869184)).assignment 0 = 1 / 8589934592 ∧
      (pairWithValues (1 / 8589934592) (1 / 17179869184)).assignment 1 = 1 / 17179869184 ∧
      (0 : ℚ) ≤ 1 / 17179869184 ∧
      |(1 / 17179869184 : ℚ) - max 0 (1 / 8589934592)| ≤ DEFAULT_EPSILON ∧
      (pairWithValues (1 / 8589934592) (1 / 17179869184)).reluPairIsBroken 0 1 = true) ∧
    ((pairWithValues (1000000 + 1 / 8589934592) 1000000).assignment 0 =
        1000000 + 1 / 8589934592 ∧
      (pairWithValues (1000000 + 1 / 8589934592) 1000000).assignment 1 = 1000000 ∧
      ¬ |(1000000 : ℚ) - max 0 (1000000 + 1 / 8589934592)| ≤ DEFAULT_EPSILON ∧
      (pairWithValues (1000000 + 1 / 8589934592) 1000000).reluPairIsBroken 0 1 = false) := by
  refine ⟨⟨?_, ?_, ?_, ?_, ?_⟩, ⟨?_, ?_, ?_, ?_⟩⟩ <;> decide!

/-- C36 (amended): `reluPairIsBroken( b, f )` is true iff `|A[f]| ≤ 1e-10` and
`A[b] > 1e-10`, or `A[f] > 1e-10` and `areEqual( A[f], A[b] )` fails. Hence, for `A[f] ≥ 0`,
a pair that is not broken has `A[f]` within `1e-10` of `max(0, A[b])` or within the relative
tolerance `max(|A[f]|, |A[b]|) * DBL_EPSILON` of `A[b]`; a pair with `A[f]` within `1e-10` of
`max(0, A[b])` is not broken when `A[f]` is exactly 0 or exceeds `1e-10` (the values that
`turnAlmostZeroToZero` leaves), and otherwise can be broken only for
`1e-10 < A[b] ≤ 2e-10`; and for `A[f] < -1e-10` the pair is never broken. -/
theorem C36_broken_pair_test (s : Reluplex) (b f : ℕ) :
    (s.reluPairIsBroken b f = true ↔
      (|s.assignment f| ≤ DEFAULT_EPSILON ∧ DEFAULT_EPSILON < s.assignment b) ∨
      (DEFAULT_EPSILON < s.assignment f ∧
        areEqual (s.assignment f) (s.assignment b) DEFAULT_EPSILON = false)) ∧
    (0 ≤ s.assignment f → s.reluPairIsBroken b f = false →
      |s.assignment f - max 0 (s.assignment b)| ≤ DEFAULT_EPSILON ∨
      |s.assignment f - s.assignment b| ≤
        max |s.assignment f| |s.assignment b| * DBL_EPSILON) ∧
    (0 ≤ s.assignment f → |s.assignment f - max 0 (s.assignment b)| ≤ DEFAULT_EPSILON →
      (s.assignment f = 0 ∨ DEFAULT_EPSILON < s.assignment f) →
      s.reluPairIsBroken b f = false) ∧
    (0 ≤ s.assignment f → |s.assignment f - max 0 (s.assignment b)| ≤ DEFAULT_EPSILON →
      s.reluPairIsBroken b f = true →
      s.assignment f ≤ DEFAULT_EPSILON ∧ DEFAULT_EPSILON < s.assignment b ∧
        s.assignment b ≤ 2 * DEFAULT_EPSILON) ∧
    (s.assignment f < -DEFAULT_EPSILON → s.reluPairIsBroken b f = false) := by
  have he : (0 : ℚ) < DEFAULT_EPSILON := by norm_num [DEFAULT_EPSILON]
  have hiff := reluPairIsBroken_iff s b f
  have hnot : s.reluPairIsBroken b f = false ↔
      ¬ ((|s.assignment f| ≤ DEFAULT_EPSILON ∧ DEFAULT_EPSILON < s.assignment b) ∨
        (DEFAULT_EPSILON < s.assignment f ∧
          areEqual (s.assignment f) (s.assignment b) DEFAULT_EPSILON = false)) := by
    rw [← hiff]; simp
  refine ⟨hiff, ?_, ?_, ?_, ?_⟩
  · intro h0 hb
    rw [hnot] at hb
    push_neg at hb
    obtain ⟨hb1, hb2⟩ := hb
    by_cases hf : DEFAULT_EPSILON < s.assignment f
    · have heq := hb2 hf
      simp only [Bool.not_eq_false] at heq
      rcases areEqual_cases _ _ _ heq with h1 | h1
      · by_cases hbn : 0 ≤ s.assignment b
        · left; rw [max_eq_right hbn]; exact h1
        · exfalso
          rw [abs_le] at h1
          linarith
      · right
        have hm : (if |s.assignment f| > |s.assignment b| then |s.assignment f|
            else |s.assignment b|) ≤ max |s.assignment f| |s.assignment b| := by
          split_ifs
          · exact le_max_left _ _
          · exact le_max_right _ _
        have hd : (0 : ℚ) ≤ DBL_EPSILON := by norm_num [DBL_EPSILON]
        exact le_trans h1 (mul_le_mul_of_nonneg_right hm hd)
    · left
      have hfle : |s.assignment f| ≤ DEFAULT_EPSILON := by
        rw [abs_of_nonneg h0]; exact not_lt.mp hf
      have hble := hb1 hfle
      rw [abs_le]
      rcases le_total 0 (s.assignment b) with hb0 | hb0
      · rw [max_eq_right hb0]; constructor <;> linarith
      · rw [max_eq_left hb0]; constructor <;> linarith
  · intro h0 hclose hsnap
    rw [hnot]
    push_neg
    rw [abs_le] at hclose
    constructor
    · intro hfz
      rcases hsnap with h | h
      · have := le_max_right 0 (s.assignment b)
        rw [h] at hclose
        linarith
      · rw [abs_of_nonneg h0] at hfz
        linarith
    · intro hf
      simp only [ne_eq, Bool.not_eq_false]
      apply areEqual_of_abs_le
      rcases le_total 0 (s.assignment b) with hb0 | hb0
      · rw [max_eq_right hb0] at hclose
        rw [abs_le]; exact hclose
      · rw [max_eq_left hb0] at hclose
        linarith
  · intro h0 hclose hb
    rw [hiff] at hb
    rw [abs_le] at hclose
    rcases hb with ⟨h1, h2⟩ | ⟨h1, h2⟩
    · rw [abs_of_nonneg h0] at h1
      have hb0 : 0 ≤ s.assignment b := by linarith
      rw [max_eq_right hb0] at hclose
      refine ⟨h1, h2, by linarith⟩
    · exfalso
      have hne : areEqual (s.assignment f) (s.assignment b) DEFAULT_EPSILON = true := by
        apply areEqual_of_abs_le
        rcases le_total 0 (s.assignment b) with hb0 | hb0
        · rw [max_eq_right hb0] at hclose
          rw [abs_le]; exact hclose
        · rw [max_eq_left hb0] at hclose
          linarith
      rw [hne] at h2
      cases h2
  · intro hneg
    rw [hnot]
    push_neg
    constructor
    · intro hfz
      rw [abs_le] at hfz
      linarith
    · intro hf
      linarith

/-- A return of the loop of `pop()` has discarded the tried snapshots on top and flipped the
first untried one. -/
theorem popLoop_shape : ∀ (stack : List SplitInformation) (s : Reluplex),
    s.smtCore.stack = stack →
    Res.ForallOk (fun s1 => ∃ discarded t rest, stack = discarded ++ t :: rest ∧
        (∀ i ∈ discarded, i.firstAttempt = false) ∧ t.firstAttempt = true ∧
        s1.smtCore.stack = t.flipped :: rest)
      (Reluplex.popLoop stack s) := by
  intro stack
  induction stack with
  | nil =>
    intro s _
    unfold Reluplex.popLoop
    trivial
  | cons top rest ih =>
    intro s _
    unfold Reluplex.popLoop
    have hr := restorePreviousState_smtCore
      ({ s with smtCore := { s.smtCore with stack := rest } } : Reluplex) top
    refine Res.ForallOk.of_andThen ?_
    intro _ s1 hok
    have h1 := Res.Forall.of_ok hr hok
    have hst : s1.smtCore.stack = rest := by rw [h1.1]
    by_cases hfirst : top.firstAttempt = true
    · simp only [hfirst, if_true]
      have hfin : ∀ (info : SplitInformation) (s3 : Reluplex),
          s3.smtCore = (s1.pushSnapshot info).smtCore →
          (s3.computeVariableStatusAll.setMinStackSecondPhase
            s3.smtCore.stack.length).smtCore.stack = info :: rest := by
        intro info s3 h3
        show s3.computeVariableStatusAll.smtCore.stack = _
        rw [(computeVariableStatusAll_frame s3).2.2.2.2.2.2.1, h3]
        simp [Reluplex.pushSnapshot, hst]
      split
      · rename_i hty
        refine Res.ForallOk.of_andThen ?_
        intro _ s3 hok3
        refine ⟨[], top, rest, rfl, (fun i hi => absurd hi (List.not_mem_nil i)), hfirst, ?_⟩
        rw [hfin _ s3 (Res.Forall.of_ok (updateLowerBound_smtCore _ _ _ _) hok3)]
        simp [SplitInformation.flipped, hty]
      · rename_i hty
        refine Res.ForallOk.of_andThen ?_
        intro _ s3 hok3
        refine ⟨[], top, rest, rfl, (fun i hi => absurd hi (List.not_mem_nil i)), hfirst, ?_⟩
        rw [hfin _ s3 (Res.Forall.of_ok (updateUpperBound_smtCore _ _ _ _) hok3)]
        simp [SplitInformation.flipped, hty]
    · simp only [hfirst, Bool.false_eq_true, if_false]
      have hff : top.firstAttempt = false := by
        cases h : top.firstAttempt
        · rfl
        · exact absurd h hfirst
      have key : ∀ X : Reluplex, X.smtCore.stack = rest →
          Res.ForallOk (fun s1 => ∃ discarded t rest1,
              top :: rest = discarded ++ t :: rest1 ∧
              (∀ i ∈ discarded, i.firstAttempt = false) ∧ t.firstAttempt = true ∧
              s1.smtCore.stack = t.flipped :: rest1) (Reluplex.popLoop rest X) := by
        intro X hX
        have h := ih X hX
        cases hp : Reluplex.popLoop rest X with
        | ok a s2 =>
          rw [hp] at h
          obtain ⟨d, t, r1, e1, e2, e3, e4⟩ := h
          refine ⟨top :: d, t, r1, by rw [e1]; rfl, ?_, e3, e4⟩
          intro i hi
          rcases List.mem_cons.mp hi with h | h
          · rw [h]; exact hff
          · exact e2 i h
        | thrown e s2 => trivial
        | exited c => trivial
      apply key
      simp [Reluplex.setCurrentStackDepth, hst]

theorem BackjumpOf.step {a b c : List SplitInformation} (h1 : BackjumpOf a b)
    (h2 : BackjumpOf b c) : BackjumpOf a c := by
  obtain ⟨d, t, rest, e1, e2, e3⟩ := h1
  obtain ⟨d2, t2, rest2, f1, f2, f3⟩ := h2
  rw [e3] at f1
  cases d2 with
  | nil =>
    simp only [List.nil_append, List.cons.injEq] at f1
    have : t2.firstAttempt = false := by rw [← f1.1]; rfl
    rw [this] at f2
    cases f2
  | cons x d3 =>
    simp only [List.cons_append, List.cons.injEq] at f1
    refine ⟨d ++ t :: d3, t2, rest2, ?_, f2, f3⟩
    rw [e1, f1.2]
    simp

/-- The loop of `pop( level )`: a return leaves the stack it found or a backjump of it. -/
theorem popWhile_shape (level : ℕ) : ∀ (fuel : ℕ) (s : Reluplex) (r : Res Unit),
    Reluplex.popWhile fuel level s = some r →
    Res.ForallOk (fun s1 => s1.smtCore.stack = s.smtCore.stack ∨
      BackjumpOf s.smtCore.stack s1.smtCore.stack) r := by
  intro fuel
  induction fuel with
  | zero =>
    intro s r h
    unfold Reluplex.popWhile at h
    cases h
  | succ n ih =>
    intro s r h
    unfold Reluplex.popWhile at h
    by_cases hgt : s.smtCore.stack.length > level
    · rw [if_pos hgt] at h
      have hshape := popLoop_shape s.smtCore.stack s rfl
      have hpop : s.pop = Reluplex.popLoop s.smtCore.stack s := rfl
      rw [← hpop] at hshape
      cases hp : s.pop with
      | ok a s1 =>
        rw [hp] at hshape h
        obtain ⟨d, t, rest, e1, -, e3, e4⟩ := hshape
        have hb : BackjumpOf s.smtCore.stack s1.smtCore.stack := ⟨d, t, rest, e1, e3, e4⟩
        have h2 := ih s1 r h
        cases r with
        | ok a2 s2 =>
          rcases h2 with h3 | h3
          · right
            show BackjumpOf s.smtCore.stack s2.smtCore.stack
            rw [h3]; exact hb
          · right
            exact hb.step h3
        | thrown e s2 => trivial
        | exited c => trivial
      | thrown e s1 =>
        rw [hp] at h
        simp only [Option.some.injEq] at h
        rw [← h]; trivial
      | exited c =>
        rw [hp] at h
        simp only [Option.some.injEq] at h
        rw [← h]; trivial
    · rw [if_neg hgt] at h
      simp only [Option.some.injEq] at h
      rw [← h]
      exact Or.inl rfl

/-- C37: `pop( level )` with `1 ≤ level` and fuel above the depth ends. When it returns
normally, the depth of the stack is between 1 and `level`, the snapshot on top has its
alternative marked as tried, and the stack is a backjump of the stack at the call: that
stack was `discarded ++ t :: rest`, the new one is `t.flipped :: rest`, so every snapshot at
a depth above `level` is among the discarded ones, whether or not it had tried its
alternative. -/
theorem C37_backjump_bound (s : Reluplex) (level fuel : ℕ) (hlevel : 1 ≤ level)
    (hfuel : s.smtCore.stack.length < fuel) :
    ∃ r, Reluplex.popTo fuel s level = some r ∧
      Res.ForallOk (fun s1 =>
        1 ≤ s1.smtCore.stack.length ∧ s1.smtCore.stack.length ≤ level ∧
        (∃ t rest, s1.smtCore.stack = t :: rest ∧ t.firstAttempt = false) ∧
        ∃ discarded t rest, s.smtCore.stack = discarded ++ t :: rest ∧
          t.firstAttempt = true ∧ s1.smtCore.stack = t.flipped :: rest ∧
          rest.length < level) r := by
  have hne : level ≠ 0 := by omega
  have hspec := popLoop_spec s.smtCore.stack s rfl
  have hshape := popLoop_shape s.smtCore.stack s rfl
  have hpop : s.pop = Reluplex.popLoop s.smtCore.stack s := rfl
  rw [← hpop] at hspec hshape
  unfold Reluplex.popTo
  rw [if_neg hne]
  cases hp : s.pop with
  | ok a s1 =>
    rw [hp] at hspec hshape
    have hlen : s1.smtCore.stack.length ≤ s.smtCore.stack.length := hspec.1.1
    obtain ⟨d, t, rest, e1, -, e3, e4⟩ := hshape
    have hb : BackjumpOf s.smtCore.stack s1.smtCore.stack := ⟨d, t, rest, e1, e3, e4⟩
    obtain ⟨res, r1, -, r3⟩ := popWhile_spec level fuel s1 hspec.2 (by omega)
    have hsh := popWhile_shape level fuel s1 res r1
    refine ⟨res, r1, ?_⟩
    cases res with
    | ok a2 s2 =>
      obtain ⟨h1, t2, rest2, h2, h3⟩ := r3
      have hb2 : BackjumpOf s.smtCore.stack s2.smtCore.stack := by
        rcases hsh with h | h
        · rw [h]; exact hb
        · exact hb.step h
      obtain ⟨d3, t3, rest3, g1, g2, g3⟩ := hb2
      have hl : s2.smtCore.stack.length = rest3.length + 1 := by rw [g3]; rfl
      exact ⟨by omega, h1, ⟨t2, rest2, h2, h3⟩, d3, t3, rest3, g1, g2, g3, by omega⟩
    | thrown e s2 => trivial
    | exited c => trivial
  | thrown e s1 => exact ⟨_, rfl, trivial⟩
  | exited c => exact ⟨_, rfl, trivial⟩

set_option maxRecDepth 100000 in
/-- C37, witness: `pop( 1 )` in `twoUntriedLevels`, whose stack holds an untried snapshot on
`f = 3` above an untried snapshot on `f = 1`; the call returns with the flipped snapshot on
`f = 1` alone: the snapshot on `f = 3` is discarded. -/
theorem C37_backjump_bound_witness :
    1 ≤ 1 ∧ (twoUntriedLevels false).smtCore.stack.length < 3 ∧
    stackSummary (twoUntriedLevels false) =
      [(3, true, .SPLITTING_RELU), (1, true, .SPLITTING_RELU)] ∧
    (Reluplex.popTo 3 (twoUntriedLevels false) 1).map (fun r => r.returned?.map stackSummary) =
      some (some [(1, false, .MERGING_RELU)]) ∧
    ∃ r, Reluplex.popTo 3 (twoUntriedLevels false) 1 = some r ∧
      Res.ForallOk (fun s1 =>
        1 ≤ s1.smtCore.stack.length ∧ s1.smtCore.stack.length ≤ 1 ∧
        (∃ t rest, s1.smtCore.stack = t :: rest ∧ t.firstAttempt = false) ∧
        ∃ discarded t rest, (twoUntriedLevels false).smtCore.stack = discarded ++ t :: rest ∧
          t.firstAttempt = true ∧ s1.smtCore.stack = t.flipped :: rest ∧
          rest.length < 1) r :=
  have h : (twoUntriedLevels false).smtCore.stack.length < 3 := by decide!
  ⟨by decide, h, by decide!, by decide!,
    C37_backjump_bound (twoUntriedLevels false) 1 3 (by decide) h⟩

/-- When `allRelusHold` fails, `findBrokenRelues` starts with the `b` and the `f` of a
registered pair that is not dissolved and is broken. -/
theorem findBrokenRelues_head (s : Reluplex) (h : s.allRelusHold = false) :
    ∃ b f rest, s.findBrokenRelues = b :: f :: rest ∧ (b, f) ∈ s.reluPairs.reluPairs ∧
      s.dissolvedReluVariables f = none ∧ s.reluPairIsBroken b f = true := by
  unfold Reluplex.allRelusHold at h
  unfold Reluplex.findBrokenRelues
  generalize s.reluPairs.reluPairs = l at h ⊢
  induction l with
  | nil => simp at h
  | cons p rest ih =>
    rw [List.foldr_cons]
    by_cases hp : ((s.dissolvedReluVariables p.2).isNone && s.reluPairIsBroken p.1 p.2) = true
    · rw [if_pos hp]
      simp only [Bool.and_eq_true, Option.isNone_iff_eq_none] at hp
      exact ⟨p.1, p.2, _, rfl, List.mem_cons_self _ _, hp.1, hp.2⟩
    · rw [if_neg hp]
      have hrest : (rest.all fun p =>
          !((s.dissolvedReluVariables p.2).isNone && s.reluPairIsBroken p.1 p.2)) = false := by
        rw [List.all_cons] at h
        simp only [Bool.not_eq_true] at hp
        rw [hp] at h
        simpa using h
      obtain ⟨b, f, r, e1, e2, e3, e4⟩ := ih hrest
      exact ⟨b, f, r, e1, List.mem_cons_of_mem _ e2, e3, e4⟩

theorem findOutOfBounds_nil (s : Reluplex) (h : s.allVarsWithinBounds = true) :
    s.findOutOfBounds = [] := by
  unfold Reluplex.allVarsWithinBounds at h
  have h1 := of_decide_eq_true h
  unfold Reluplex.findOutOfBounds
  rw [List.filter_eq_nil_iff]
  intro i hi
  have hb : i ∈ s.basicVariables := by
    unfold Reluplex.basicList at hi
    simpa using (List.mem_filter.mp hi).2
  rw [h1 i hb]
  simp

theorem isPositive_not_isZero (x eps : ℚ) (h : isPositive x eps = true) :
    isZero x eps = false := by
  unfold isPositive at h
  cases hz : isZero x eps
  · rfl
  · rw [hz] at h
    simp at h

/-- For a registered pair `(b, f)` that is broken, `fixBrokenRelu( f )` takes exactly one of
its three delta cases. -/
theorem fixBrokenRelu_cases (s : Reluplex) (b f : ℕ)
    (hf : s.reluPairs.fToB f = some b) (hfb : s.reluPairs.bToF f = none)
    (hbroken : s.reluPairIsBroken b f = true) :
    ((isPositive (s.assignment f) DEFAULT_EPSILON = true ∧
        isPositive (s.assignment b) DEFAULT_EPSILON = false ∧
        isZero (s.assignment f) DEFAULT_EPSILON = false) ∨
      (isPositive (s.assignment f) DEFAULT_EPSILON = true ∧
        isPositive (s.assignment b) DEFAULT_EPSILON = true ∧
        isZero (s.assignment f) DEFAULT_EPSILON = false) ∨
      (isPositive (s.assignment f) DEFAULT_EPSILON = false ∧
        isPositive (s.assignment b) DEFAULT_EPSILON = true ∧
        isZero (s.assignment f) DEFAULT_EPSILON = true)) ∧
    s.fixBrokenRelu f =
      (s.fixBrokenReluVariable b
        (isPositive
          (if isPositive (s.assignment f) DEFAULT_EPSILON = true then
            s.assignment f - s.assignment b else -(s.assignment b)) DEFAULT_EPSILON)
        (if isPositive (s.assignment f) DEFAULT_EPSILON = true then
          s.assignment f - s.assignment b else -(s.assignment b))).andThen
        fun fixedB s1 =>
          if !fixedB then
            s1.fixBrokenReluVariable f
              (isPositive
                (if isPositive (s.assignment f) DEFAULT_EPSILON = true then
                  (if isPositive (s.assignment b) DEFAULT_EPSILON = true then
                    s.assignment b - s.assignment f else -(s.assignment f))
                else s.assignment b) DEFAULT_EPSILON)
              (if isPositive (s.assignment f) DEFAULT_EPSILON = true then
                (if isPositive (s.assignment b) DEFAULT_EPSILON = true then
                  s.assignment b - s.assignment f else -(s.assignment f))
              else s.assignment b)
          else .ok true s1 := by
  have hisF : s.reluPairs.isF f = true := by
    unfold ReluPairs.isF; rw [hf]; rfl
  have hisB : s.reluPairs.isB f = false := by
    unfold ReluPairs.isB; rw [hfb]; rfl
  have hpart : s.reluPairs.toPartner f = some b := by
    unfold ReluPairs.toPartner
    rw [hisB, hisF]
    simpa using hf
  have hb := hbroken
  unfold Reluplex.reluPairIsBroken at hb
  simp only [Bool.or_eq_true, Bool.and_eq_true] at hb
  unfold Reluplex.fixBrokenRelu
  rw [hpart]
  simp only [hisF, if_true]
  rcases hb with ⟨hz, hpb⟩ | ⟨hpf, -⟩
  · have hpf : isPositive (s.assignment f) DEFAULT_EPSILON = false := by
      cases hc : isPositive (s.assignment f) DEFAULT_EPSILON
      · rfl
      · rw [isPositive_not_isZero _ _ hc] at hz
        cases hz
    refine ⟨Or.inr (Or.inr ⟨hpf, hpb, hz⟩), ?_⟩
    simp [hpf, hpb, hz]
  · have hz := isPositive_not_isZero _ _ hpf
    cases hpb : isPositive (s.assignment b) DEFAULT_EPSILON
    · refine ⟨Or.inl ⟨hpf, rfl, hz⟩, ?_⟩
      simp [hpf, hpb]
    · refine ⟨Or.inr (Or.inl ⟨hpf, rfl, hz⟩), ?_⟩
      simp [hpf, hpb]

/-- A call of `notifyBrokenRelu` that returns false has only counted the violation. -/
theorem notifyBrokenRelu_false (s s3 : Reluplex) (f : ℕ)
    (h : s.notifyBrokenRelu f = .ok false s3) :
    s3.assignment = s.assignment ∧ s3.reluPairs = s.reluPairs ∧
      s3.dissolvedReluVariables = s.dissolvedReluVariables := by
  unfold Reluplex.notifyBrokenRelu at h
  simp only at h
  by_cases h1 : (s.smtCore.fToViolations f).getD 0 + 1 ≥ NUM_RELU_OPERATIONS_BEFORE_SPLIT
  · rw [if_pos h1] at h
    split_ifs at h <;>
      (obtain ⟨a, s4, -, e2⟩ := Res.andThen_eq_ok h
       cases e2)
  · rw [if_neg h1] at h
    cases h
    exact ⟨rfl, rfl, rfl⟩

/-- C38 (amended): let the registry be a pairing (every pair is recorded in both maps, no
variable is the `b` of one pair and the `f` of another), and let the SAT test of the main
loop fail in a state in which no basic variable is out of bounds. Then `findOutOfBounds` is empty and the
list of `findBrokenRelues` starts with the `b` and the `f` of a registered, undissolved,
broken pair, so its first element exists and `progress` selects that `f`; unless the
degradation check restores the tableau, `progress` is `notifyBrokenRelu( f )` followed, when
that returns false, by `fixBrokenRelu( f )`; and in the state that `notifyBrokenRelu` leaves
the pair is still broken, exactly one of the three delta cases of `fixBrokenRelu` applies,
and `fixBrokenRelu( f )` is the repair of `b`, then of `f`, with the deltas of that case: its
`exit( 1 )` branch is not taken. -/
theorem C38_repair_branch_is_safe (env : Env) (s : Reluplex)
    (hpairing : s.reluPairs.Pairing)
    (hsat : (s.allVarsWithinBounds && s.allRelusHold) = false)
    (hbounds : s.allVarsWithinBounds = true) :
    s.findOutOfBounds = [] ∧
    ∃ b f rest, s.findBrokenRelues = b :: f :: rest ∧ (b, f) ∈ s.reluPairs.reluPairs ∧
      s.dissolvedReluVariables f = none ∧ s.reluPairIsBroken b f = true ∧
      (if s.reluPairs.isF b = true then some b else s.reluPairs.toPartner b) = some f ∧
      ((if s.useDegradationChecking = true ∧ (s.numCallsToProgress + 1) % 2 ^ 32 % 50 = 0
          then env.degradation
            { s with numCallsToProgress := (s.numCallsToProgress + 1) % 2 ^ 32 }
          else none) = none →
        Reluplex.progressBody env s =
          (Reluplex.notifyBrokenRelu
            { s with
              numCallsToProgress := (s.numCallsToProgress + 1) % 2 ^ 32
              consecutiveGlpkFailureCount := 0
              previousGlpkAnswer := .SOLUTION_FOUND } f).andThen fun split s3 =>
            if split = true then .ok (true, s.currentStackDepth) s3
            else (s3.fixBrokenRelu f).andThen fun result s4 =>
              .ok (result, s.currentStackDepth) s4) ∧
      ∀ s3 : Reluplex,
        Reluplex.notifyBrokenRelu
            { s with
              numCallsToProgress := (s.numCallsToProgress + 1) % 2 ^ 32
              consecutiveGlpkFailureCount := 0
              previousGlpkAnswer := .SOLUTION_FOUND } f = .ok false s3 →
        s3.reluPairIsBroken b f = true ∧
        (((isPositive (s3.assignment f) DEFAULT_EPSILON &&
              !isPositive (s3.assignment b) DEFAULT_EPSILON) = true ∧
            (isPositive (s3.assignment f) DEFAULT_EPSILON &&
              isPositive (s3.assignment b) DEFAULT_EPSILON) = false ∧
            (isZero (s3.assignment f) DEFAULT_EPSILON &&
              isPositive (s3.assignment b) DEFAULT_EPSILON) = false) ∨
          ((isPositive (s3.assignment f) DEFAULT_EPSILON &&
              !isPositive (s3.assignment b) DEFAULT_EPSILON) = false ∧
            (isPositive (s3.assignment f) DEFAULT_EPSILON &&
              isPositive (s3.assignment b) DEFAULT_EPSILON) = true ∧
            (isZero (s3.assignment f) DEFAULT_EPSILON &&
              isPositive (s3.assignment b) DEFAULT_EPSILON) = false) ∨
          ((isPositive (s3.assignment f) DEFAULT_EPSILON &&
              !isPositive (s3.assignment b) DEFAULT_EPSILON) = false ∧
            (isPositive (s3.assignment f) DEFAULT_EPSILON &&
              isPositive (s3.assignment b) DEFAULT_EPSILON) = false ∧
            (isZero (s3.assignment f) DEFAULT_EPSILON &&
              isPositive (s3.assignment b) DEFAULT_EPSILON) = true)) ∧
        s3.fixBrokenRelu f =
          (s3.fixBrokenReluVariable b
            (isPositive
              (if isPositive (s3.assignment f) DEFAULT_EPSILON = true then
                s3.assignment f - s3.assignment b else -(s3.assignment b)) DEFAULT_EPSILON)
            (if isPositive (s3.assignment f) DEFAULT_EPSILON = true then
              s3.assignment f - s3.assignment b else -(s3.assignment b))).andThen
            fun fixedB s4 =>
              if !fixedB then
                s4.fixBrokenReluVariable f
                  (isPositive
                    (if isPositive (s3.assignment f) DEFAULT_EPSILON = true then
                      (if isPositive (s3.assignment b) DEFAULT_EPSILON = true then
                        s3.assignment b - s3.assignment f else -(s3.assignment f))
                    else s3.assignment b) DEFAULT_EPSILON)
                  (if isPositive (s3.assignment f) DEFAULT_EPSILON = true then
                    (if isPositive (s3.assignment b) DEFAULT_EPSILON = true then
                      s3.assignment b - s3.assignment f else -(s3.assignment f))
                  else s3.assignment b)
              else .ok true s4 := by
  have hrelu : s.allRelusHold = false := by
    rw [hbounds] at hsat
    simpa using hsat
  have hoob := findOutOfBounds_nil s hbounds
  obtain ⟨b, f, rest, e1, e2, e3, e4⟩ := findBrokenRelues_head s hrelu
  obtain ⟨w1, w2, w3, w4⟩ := hpairing (b, f) e2
  have hisFb : s.reluPairs.isF b = false := by
    unfold ReluPairs.isF; rw [w3]; rfl
  have hisBb : s.reluPairs.isB b = true := by
    unfold ReluPairs.isB; rw [w1]; rfl
  have hpart : s.reluPairs.toPartner b = some f := by
    unfold ReluPairs.toPartner
    rw [hisBb]
    simpa using w1
  have hsel : (if s.reluPairs.isF b = true then some b else s.reluPairs.toPartner b) =
      some f := by
    rw [hisFb]; simpa using hpart
  refine ⟨hoob, b, f, rest, e1, e2, e3, e4, hsel, ?_, ?_⟩
  · intro hdeg
    unfold Reluplex.progressBody
    simp only
    rw [hdeg]
    have h1 : Reluplex.findOutOfBounds
        { s with numCallsToProgress := (s.numCallsToProgress + 1) % 2 ^ 32 } = [] := hoob
    have h2 : Reluplex.findBrokenRelues
        { s with
          numCallsToProgress := (s.numCallsToProgress + 1) % 2 ^ 32
          consecutiveGlpkFailureCount := 0
          previousGlpkAnswer := .SOLUTION_FOUND } = b :: f :: rest := e1
    simp only [h1, ne_eq, not_true_eq_false, if_false, h2, List.head?_cons, hisFb,
      Bool.false_eq_true, hpart]
  · intro s3 h3
    obtain ⟨n1, n2, -⟩ := notifyBrokenRelu_false _ s3 f h3
    have hbr : s3.reluPairIsBroken b f = true := by
      unfold Reluplex.reluPairIsBroken
      rw [n1]
      exact e4
    have hf3 : s3.reluPairs.fToB f = some b := by rw [n2]; exact w2
    have hb3 : s3.reluPairs.bToF f = none := by rw [n2]; exact w4
    obtain ⟨c, heq⟩ := fixBrokenRelu_cases s3 b f hf3 hb3 hbr
    refine ⟨hbr, ?_, heq⟩
    rcases c with ⟨c1, c2, c3⟩ | ⟨c1, c2, c3⟩ | ⟨c1, c2, c3⟩
    · left; rw [c1, c2, c3]; exact ⟨rfl, rfl, rfl⟩
    · right; left; rw [c1, c2, c3]; exact ⟨rfl, rfl, rfl⟩
    · right; right; rw [c1, c2, c3]; exact ⟨rfl, rfl, rfl⟩

theorem brokenPairInBounds_pairing : (brokenPairInBounds false).reluPairs.Pairing := by
  unfold ReluPairs.Pairing
  decide!

set_option maxRecDepth 100000 in
/-- C38, witness: the state `brokenPairInBounds`, where `A = [2, 0, 2, 6]`: the basic
variables `x2` and `x3` are within `[-9, 9]` and the pair `(0, 1)` is broken. -/
theorem C38_repair_branch_is_safe_witness :
    (brokenPairInBounds false).reluPairs.Pairing ∧
    ((brokenPairInBounds false).allVarsWithinBounds &&
      (brokenPairInBounds false).allRelusHold) = false ∧
    (brokenPairInBounds false).allVarsWithinBounds = true ∧
    (brokenPairInBounds false).findBrokenRelues = [0, 1] ∧
    (brokenPairInBounds false).findOutOfBounds = [] :=
  ⟨brokenPairInBounds_pairing, by decide!, by decide!, by decide!,
    (C38_repair_branch_is_safe quietEnv (brokenPairInBounds false) brokenPairInBounds_pairing
      (by decide!) (by decide!)).1⟩

theorem turnAlmostZeroToZero_idem (x : ℚ) :
    Reluplex.turnAlmostZeroToZero (Reluplex.turnAlmostZeroToZero x) =
      Reluplex.turnAlmostZeroToZero x := by
  unfold Reluplex.turnAlmostZeroToZero
  by_cases h : isZero x DEFAULT_EPSILON = true
  · simp [h, isZero_zero]
  · simp [h]

theorem eq_zero_of_snapped_isZero (x : ℚ) (hs : Reluplex.turnAlmostZeroToZero x = x)
    (hz : isZero x DEFAULT_EPSILON = true) : x = 0 := by
  unfold Reluplex.turnAlmostZeroToZero at hs
  rw [if_pos hz] at hs
  exact hs.symm

theorem turnAlmostZeroToZero_zero : Reluplex.turnAlmostZeroToZero 0 = 0 := by
  unfold Reluplex.turnAlmostZeroToZero
  simp

theorem isZero_eq_false_of_lt_abs (x : ℚ) (h : DEFAULT_EPSILON < |x|) :
    isZero x DEFAULT_EPSILON = false := by
  cases hc : isZero x DEFAULT_EPSILON
  · rfl
  · have := (isZero_default_iff x).mp hc
    linarith

theorem abs_gt_of_areDisequal (x y : ℚ) (h : areDisequal x y DEFAULT_EPSILON = true) :
    DEFAULT_EPSILON < |x - y| := by
  unfold areDisequal at h
  by_contra hn
  rw [areEqual_of_abs_le x y _ (not_lt.mp hn)] at h
  cases h

theorem areDisequal_self (x : ℚ) : areDisequal x x DEFAULT_EPSILON = false := by
  unfold areDisequal
  rw [areEqual_of_abs_le x x _ (by simp; norm_num [DEFAULT_EPSILON])]
  rfl

/-- The values of a pair after the cascade that follows a change of `b`. -/
theorem cascade_values_b (B F : ℚ) (hB : Reluplex.turnAlmostZeroToZero B = B)
    (hF : Reluplex.turnAlmostZeroToZero F = F)
    (hbroken : ((isZero F DEFAULT_EPSILON && isPositive B DEFAULT_EPSILON) ||
      (isPositive F DEFAULT_EPSILON && areDisequal F B DEFAULT_EPSILON)) = true) :
    isZero (if isNegative B DEFAULT_EPSILON = true then -F else B - F) DEFAULT_EPSILON =
      false ∧
    Reluplex.turnAlmostZeroToZero
      (F + (if isNegative B DEFAULT_EPSILON = true then -F else B - F)) =
      (if isNegative B DEFAULT_EPSILON = true then 0 else B) := by
  have he : (0 : ℚ) < DEFAULT_EPSILON := by norm_num [DEFAULT_EPSILON]
  simp only [Bool.or_eq_true, Bool.and_eq_true] at hbroken
  by_cases hneg : isNegative B DEFAULT_EPSILON = true
  · simp only [hneg, if_true, add_neg_cancel, turnAlmostZeroToZero_zero, and_true]
    rcases hbroken with ⟨_, hpb⟩ | ⟨hpf, _⟩
    · exfalso
      unfold isNegative at hneg
      unfold isPositive at hpb
      simp only [Bool.and_eq_true, decide_eq_true_eq] at hneg hpb
      linarith [hneg.2, hpb.2]
    · have := (isPositive_iff F _ he.le).mp hpf
      apply isZero_eq_false_of_lt_abs
      rw [abs_neg, abs_of_pos (by linarith)]
      exact this
  · simp only [hneg, Bool.false_eq_true, if_false]
    have hsum : F + (B - F) = B := by ring
    rw [hsum, hB]
    refine ⟨?_, rfl⟩
    rcases hbroken with ⟨hzf, hpb⟩ | ⟨_, hdis⟩
    · have hF0 := eq_zero_of_snapped_isZero F hF hzf
      have := (isPositive_iff B _ he.le).mp hpb
      apply isZero_eq_false_of_lt_abs
      rw [hF0, sub_zero, abs_of_pos (by linarith)]
      exact this
    · apply isZero_eq_false_of_lt_abs
      rw [abs_sub_comm]
      exact abs_gt_of_areDisequal F B hdis

/-- The values of a pair after the cascade that follows a change of `f`. -/
theorem cascade_values_f (B F : ℚ) (hF : Reluplex.turnAlmostZeroToZero F = F)
    (hbroken : ((isZero F DEFAULT_EPSILON && isPositive B DEFAULT_EPSILON) ||
      (isPositive F DEFAULT_EPSILON && areDisequal F B DEFAULT_EPSILON)) = true) :
    isZero (F - B) DEFAULT_EPSILON = false ∧
    Reluplex.turnAlmostZeroToZero (B + (F - B)) = F := by
  have he : (0 : ℚ) < DEFAULT_EPSILON := by norm_num [DEFAULT_EPSILON]
  simp only [Bool.or_eq_true, Bool.and_eq_true] at hbroken
  have hsum : B + (F - B) = F := by ring
  rw [hsum, hF]
  refine ⟨?_, rfl⟩
  rcases hbroken with ⟨hzf, hpb⟩ | ⟨_, hdis⟩
  · have hF0 := eq_zero_of_snapped_isZero F hF hzf
    have := (isPositive_iff B _ he.le).mp hpb
    apply isZero_eq_false_of_lt_abs
    rw [hF0, zero_sub, abs_neg, abs_of_pos (by linarith)]
    exact this
  · apply isZero_eq_false_of_lt_abs
    exact abs_gt_of_areDisequal F B hdis

/-- A pair with equal values is not broken, and neither is one with `f = 0` and a negative
`b`. -/
theorem not_broken_values (B F : ℚ)
    (h : F = B ∨ (F = 0 ∧ isNegative B DEFAULT_EPSILON = true)) :
    ((isZero F DEFAULT_EPSILON && isPositive B DEFAULT_EPSILON) ||
      (isPositive F DEFAULT_EPSILON && areDisequal F B DEFAULT_EPSILON)) = false := by
  rcases h with rfl | ⟨rfl, hneg⟩
  · rw [areDisequal_self]
    cases hp : isPositive F DEFAULT_EPSILON
    · simp
    · rw [isPositive_not_isZero _ _ hp]
      simp
  · have hpb : isPositive B DEFAULT_EPSILON = false := by
      unfold isNegative at hneg
      simp only [Bool.and_eq_true, decide_eq_true_eq] at hneg
      exact isPositive_of_nonpos _ _ hneg.2.le
    have hp0 : isPositive 0 DEFAULT_EPSILON = false := isPositive_of_nonpos _ _ le_rfl
    rw [hpb, hp0]
    simp

/-- In tableau form a variable that is not basic has no row. -/
theorem Reluplex.TableauForm.cell_nonBasic {s : Reluplex} (hform : s.TableauForm) (p v : ℕ)
    (hp : p ∉ s.basicVariables) : s.tableau.cell p v = none := by
  unfold Tableau.cell Tableau.find
  cases hfind : s.tableau.entries.find? (fun e => e.row = p ∧ e.column = v) with
  | none => rfl
  | some e =>
    exfalso
    have hmem := List.mem_of_find?_eq_some hfind
    have hprop := List.find?_some hfind
    simp only [decide_eq_true_eq] at hprop
    exact hp (hprop.1 ▸ hform.2.2 e hmem)

/-- The form of `update( v, delta, false )` on a member `v` of an active pair `(b, f)` whose
partner `p` is not basic. -/
theorem update_on_pair (s : Reluplex) (b f v p : ℕ) (delta : ℚ)
    (hpair : s.ActivePair b f) (hvp : (v = b ∧ p = f) ∨ (v = f ∧ p = b))
    (hp : p ∉ s.basicVariables) (hdelta : isZero delta DEFAULT_EPSILON = false) :
    s.update v delta false =
      if (s.updateAssignment v delta).reluPairIsBroken b f = false then
        .ok () (s.updateAssignment v delta)
      else if v = f then
        Reluplex.cascadeCheck ((s.updateAssignment v delta).updateIgnoringRelu b
          ((s.updateAssignment v delta).assignment f -
            (s.updateAssignment v delta).assignment b)) b
      else if isNegative ((s.updateAssignment v delta).assignment b) DEFAULT_EPSILON = true then
        Reluplex.cascadeCheck ((s.updateAssignment v delta).updateIgnoringRelu f
          (-((s.updateAssignment v delta).assignment f))) f
      else
        Reluplex.cascadeCheck ((s.updateAssignment v delta).updateIgnoringRelu f
          ((s.updateAssignment v delta).assignment b -
            (s.updateAssignment v delta).assignment f)) f := by
  obtain ⟨l1, l2, l3, l4, l5⟩ := hpair.lookup v p hvp
  have hD : (s.updateAssignment v delta).dissolvedReluVariables f = none := by
    rw [(updateAssignment_frame s v delta).2.2.1]; exact hpair.2.2.2.2
  have hB : (s.updateAssignment v delta).basicVariables = s.basicVariables :=
    (updateAssignment_frame s v delta).2.2.2.2.1
  unfold Reluplex.update
  simp only [hdelta, Bool.false_eq_true, if_false, updateAssignment_reluPairs, l1, l2,
    Bool.not_false, Bool.and_self, if_true, Option.getD_some, hB, hp]
  rcases hvp with ⟨rfl, rfl⟩ | ⟨rfl, rfl⟩
  · obtain ⟨_, _, m3, _⟩ := hpair.lookup_b
    have hne : ¬ v = p := l5
    simp only [m3, Bool.false_eq_true, if_false, hD, Option.isSome_none, hne]
    cases hbr : (s.updateAssignment v delta).reluPairIsBroken v p <;> simp
  · obtain ⟨_, _, m3, _⟩ := hpair.lookup_f
    simp only [m3, if_true, hD, Option.isSome_none, Bool.false_eq_true, if_false]
    cases hbr : (s.updateAssignment v delta).reluPairIsBroken p v <;> simp

theorem Reluplex.TableauForm.of_updateAssignment {s : Reluplex} (hform : s.TableauForm)
    (v : ℕ) (delta : ℚ) : (s.updateAssignment v delta).TableauForm := by
  obtain ⟨_, _, _, h4, h5, _⟩ := updateAssignment_frame s v delta
  unfold Reluplex.TableauForm
  rw [h4, h5]
  exact hform

/-- The cascade of `update( v, delta, false )` on a member `v` of an active pair whose
members are not basic. -/
theorem update_cascade (s : Reluplex) (b f v p : ℕ) (delta : ℚ)
    (hform : s.TableauForm) (hpair : s.ActivePair b f)
    (hvp : (v = b ∧ p = f) ∨ (v = f ∧ p = b))
    (hv : v ∉ s.basicVariables) (hp : p ∉ s.basicVariables)
    (hdelta : isZero delta DEFAULT_EPSILON = false)
    (hsnap : v = b → Reluplex.turnAlmostZeroToZero (s.assignment f) = s.assignment f) :
    ∃ s2, (s.update v delta false = .ok () s2 ∨
        s.update v delta false = .thrown (.error .NONBASIC_OUT_OF_BOUNDS) s2) ∧
      s2.reluPairIsBroken b f = false ∧
      s2.assignment v = (s.updateAssignment v delta).assignment v ∧
      ((s.updateAssignment v delta).reluPairIsBroken b f = false →
        s2 = s.updateAssignment v delta) ∧
      ((s.updateAssignment v delta).reluPairIsBroken b f = true → v = b →
        s2.assignment f =
          if isNegative ((s.updateAssignment v delta).assignment b) DEFAULT_EPSILON = true
          then 0 else (s.updateAssignment v delta).assignment b) ∧
      ((s.updateAssignment v delta).reluPairIsBroken b f = true → v = f →
        s2.assignment b = (s.updateAssignment v delta).assignment f) := by
  have hne : v ≠ p := (hpair.lookup v p hvp).2.2.2.2
  have hbf : b ≠ f := hpair.ne
  obtain ⟨_, hB1, _, hA1⟩ := updateAssignment_spec s v delta hform hv
  have hform1 := hform.of_updateAssignment v delta
  have hv1 : v ∉ (s.updateAssignment v delta).basicVariables := by rw [hB1]; exact hv
  have hp1 : p ∉ (s.updateAssignment v delta).basicVariables := by rw [hB1]; exact hp
  have hAv : (s.updateAssignment v delta).assignment v =
      Reluplex.turnAlmostZeroToZero (s.assignment v + delta) := by
    rw [hA1 v, if_pos rfl]
  have hAp : (s.updateAssignment v delta).assignment p = s.assignment p := by
    rw [hA1 p, if_neg (fun h => hne h.symm), hform.cell_nonBasic p v hp]
  have hsnapv : Reluplex.turnAlmostZeroToZero ((s.updateAssignment v delta).assignment v) =
      (s.updateAssignment v delta).assignment v := by
    rw [hAv, turnAlmostZeroToZero_idem]
  rw [update_on_pair s b f v p delta hpair hvp hp hdelta]
  cases hbr : (s.updateAssignment v delta).reluPairIsBroken b f
  · refine ⟨s.updateAssignment v delta, Or.inl (by simp), hbr, rfl, fun _ => rfl, ?_, ?_⟩
    · intro h; cases h
    · intro h; cases h
  · simp only [Bool.true_eq_false, if_false]
    have hbr2 := hbr
    unfold Reluplex.reluPairIsBroken at hbr2
    simp only at hbr2
    -- the second update, on the partner
    have second : ∀ d : ℚ, isZero d DEFAULT_EPSILON = false →
        ((s.updateAssignment v delta).updateIgnoringRelu p d).assignment p =
          Reluplex.turnAlmostZeroToZero ((s.updateAssignment v delta).assignment p + d) ∧
        ((s.updateAssignment v delta).updateIgnoringRelu p d).assignment v =
          (s.updateAssignment v delta).assignment v := by
      intro d hd
      unfold Reluplex.updateIgnoringRelu
      simp only [hd, Bool.false_eq_true, if_false]
      obtain ⟨_, _, _, hA2⟩ := updateAssignment_spec (s.updateAssignment v delta) p d hform1 hp1
      constructor
      · rw [hA2 p, if_pos rfl]
      · rw [hA2 v, if_neg hne, hform1.cell_nonBasic v p hv1]
    rcases hvp with ⟨rfl, rfl⟩ | ⟨rfl, rfl⟩
    · -- the change was on b, the cascade moves f
      have hF : Reluplex.turnAlmostZeroToZero ((s.updateAssignment v delta).assignment p) =
          (s.updateAssignment v delta).assignment p := by
        rw [hAp]; exact hsnap rfl
      obtain ⟨c1, c2⟩ := cascade_values_b _ _ hsnapv hF hbr2
      rw [if_neg hbf]
      by_cases hneg :
          isNegative ((s.updateAssignment v delta).assignment v) DEFAULT_EPSILON = true
      · rw [if_pos hneg] at c1
        rw [if_pos hneg, if_pos hneg] at c2
        rw [if_pos hneg]
        obtain ⟨k1, k2⟩ := second _ c1
        refine ⟨_, cascadeCheck_cases _ p, ?_, k2, ?_, ?_, ?_⟩
        · unfold Reluplex.reluPairIsBroken
          simp only
          rw [k1, k2, c2]
          exact not_broken_values _ _ (Or.inr ⟨rfl, hneg⟩)
        · intro h; cases h
        · intro _ _; rw [k1, c2, if_pos hneg]
        · intro _ h; exact absurd h hbf
      · rw [if_neg hneg] at c1
        rw [if_neg hneg, if_neg hneg] at c2
        rw [if_neg hneg]
        obtain ⟨k1, k2⟩ := second _ c1
        refine ⟨_, cascadeCheck_cases _ p, ?_, k2, ?_, ?_, ?_⟩
        · unfold Reluplex.reluPairIsBroken
          simp only
          rw [k1, k2, c2]
          exact not_broken_values _ _ (Or.inl rfl)
        · intro h; cases h
        · intro _ _; rw [k1, c2, if_neg hneg]
        · intro _ h; exact absurd h hbf
    · -- the change was on f, the cascade moves b
      obtain ⟨c1, c2⟩ := cascade_values_f _ _ hsnapv hbr2
      rw [if_pos rfl]
      obtain ⟨k1, k2⟩ := second _ c1
      refine ⟨_, cascadeCheck_cases _ p, ?_, k2, ?_, ?_, ?_⟩
      · unfold Reluplex.reluPairIsBroken
        simp only
        rw [k1, k2, c2]
        exact not_broken_values _ _ (Or.inl rfl)
      · intro h; cases h
      · intro _ h; exact absurd h.symm hbf
      · intro _ _; rw [k1, c2]

namespace Tableau

theorem inc_mod (n : ℕ) : inc (n % 2 ^ 32) = (n + 1) % 2 ^ 32 := by
  unfold inc
  omega

theorem dec_mod (n : ℕ) : dec ((n + 1) % 2 ^ 32) = n % 2 ^ 32 := by
  unfold dec
  omega

theorem length_getRow (t : Tableau) (i : ℕ) :
    (t.getRow i).length = t.entries.countP (fun e => decide (e.row = i)) := by
  unfold getRow
  rw [List.countP_eq_length_filter]

theorem length_getColumn (t : Tableau) (j : ℕ) :
    (t.getColumn j).length = t.entries.countP (fun e => decide (e.column = j)) := by
  unfold getColumn
  rw [List.countP_eq_length_filter]

/-- In a sparse matrix a position that holds a cell holds exactly one entry. -/
theorem countP_at (t : Tableau) (hone : t.OneCellPerPosition) (r c : ℕ)
    (hpres : (t.cell r c).isSome = true) :
    t.entries.countP (fun e => decide (e.row = r ∧ e.column = c)) = 1 := by
  have hmem := (cell_isSome_iff t r c).mp hpres
  unfold OneCellPerPosition positions at hone
  unfold positions at hmem
  revert hone hmem
  generalize t.entries = l
  intro hone hmem
  induction l with
  | nil => cases hmem
  | cons e rest ih =>
    simp only [List.map_cons, List.nodup_cons] at hone
    simp only [List.map_cons, List.mem_cons] at hmem
    rw [List.countP_cons]
    by_cases hat : e.row = r ∧ e.column = c
    · have hzero : rest.countP (fun e => decide (e.row = r ∧ e.column = c)) = 0 := by
        rw [List.countP_eq_zero]
        intro e1 he1 h1
        simp only [decide_eq_true_eq] at h1
        apply hone.1
        refine List.mem_map.mpr ⟨e1, he1, ?_⟩
        rw [h1.1, h1.2, hat.1, hat.2]
      rw [hzero]
      simp [hat]
    · have hin : (r, c) ∈ rest.map (fun e => (e.row, e.column)) := by
        rcases hmem with h | h
        · exfalso
          apply hat
          simp only [Prod.mk.injEq] at h
          exact ⟨h.1.symm, h.2.symm⟩
        · exact h
      rw [ih hone.2 hin]
      simp [hat]

theorem countP_split (l : List Entry) (p q : Entry → Bool) :
    l.countP p = l.countP (fun e => p e && q e) + l.countP (fun e => p e && !q e) := by
  induction l with
  | nil => rfl
  | cons e rest ih =>
    simp only [List.countP_cons, ih]
    cases p e <;> cases q e <;> simp <;> omega

theorem Sound.counted {t : Tableau} (h : t.Sound) : t.Counted :=
  ⟨h.oneCell, h.inRange, h.rows, h.columns⟩

theorem Counted.sound {t : Tableau} (h : t.Counted) (hz : t.ZeroFree) : t.Sound :=
  ⟨h.oneCell, hz, h.inRange, h.rows, h.columns⟩

theorem sound_empty (n : ℕ) : (Tableau.empty n).Sound := by
  refine ⟨?_, ?_, ?_, ?_, ?_⟩
  · unfold OneCellPerPosition positions Tableau.empty; simp
  · intro e he; cases he
  · intro e he; cases he
  · intro i; rfl
  · intro j; rfl

theorem counted_addEntry (t : Tableau) (h : t.Counted) (r c : ℕ) (v : ℚ)
    (hr : r < t.size) (hc : c < t.size) (hfree : t.cell r c = none) :
    (t.addEntry r c v).Counted := by
  have hone := oneCell_addEntry t r c v h.oneCell hfree
  unfold addEntry at hone ⊢
  by_cases hz : isZero v DEFAULT_EPSILON = true
  · simpa [hz] using h
  · simp only [hz, Bool.false_eq_true, if_false] at hone ⊢
    refine ⟨hone, ?_, ?_, ?_⟩
    · intro e he
      rcases List.mem_cons.mp he with rfl | he
      · exact ⟨hr, hc⟩
      · exact h.inRange e he
    · intro i
      show Function.update t.rowSize r (inc (t.rowSize r)) i = _
      rw [length_getRow]
      simp only [List.countP_cons]
      by_cases hi : i = r
      · subst hi
        rw [Function.update_same, h.rows, inc_mod, length_getRow]
        simp
      · rw [Function.update_noteq hi, h.rows, length_getRow]
        have : ¬ r = i := fun h2 => hi h2.symm
        simp [this]
    · intro j
      show Function.update t.columnSize c (inc (t.columnSize c)) j = _
      rw [length_getColumn]
      simp only [List.countP_cons]
      by_cases hj : j = c
      · subst hj
        rw [Function.update_same, h.columns, inc_mod, length_getColumn]
        simp
      · rw [Function.update_noteq hj, h.columns, length_getColumn]
        have : ¬ c = j := fun h2 => hj h2.symm
        simp [this]

theorem zeroFree_addEntry (t : Tableau) (h : t.ZeroFree) (r c : ℕ) (v : ℚ) :
    (t.addEntry r c v).ZeroFree := by
  unfold addEntry
  by_cases hz : isZero v DEFAULT_EPSILON = true
  · simpa [hz] using h
  · simp only [hz, Bool.false_eq_true, if_false]
    intro e he
    rcases List.mem_cons.mp he with rfl | he
    · simpa using hz
    · exact h e he

theorem counted_setValue (t : Tableau) (h : t.Counted) (r c : ℕ) (v : ℚ) :
    (t.setValue r c v).Counted := by
  refine ⟨oneCell_setValue t r c v h.oneCell, ?_, ?_, ?_⟩
  · intro e he
    unfold setValue at he
    obtain ⟨e0, he0, rfl⟩ := List.mem_map.mp he
    have := h.inRange e0 he0
    by_cases hat : e0.row = r ∧ e0.column = c
    · simpa [hat] using this
    · simpa [hat] using this
  · intro i
    rw [length_getRow]
    show t.rowSize i = _
    rw [h.rows, length_getRow]
    unfold setValue
    simp only [List.countP_map]
    congr 1
    apply List.countP_congr
    intro e _
    by_cases hat : e.row = r ∧ e.column = c <;> simp [hat]
  · intro j
    rw [length_getColumn]
    show t.columnSize j = _
    rw [h.columns, length_getColumn]
    unfold setValue
    simp only [List.countP_map]
    congr 1
    apply List.countP_congr
    intro e _
    by_cases hat : e.row = r ∧ e.column = c <;> simp [hat]

theorem counted_eraseEntry (t : Tableau) (h : t.Counted) (r c : ℕ)
    (hpres : (t.cell r c).isSome = true) : (t.eraseEntry r c).Counted := by
  have hone := countP_at t h.oneCell r c hpres
  refine ⟨oneCell_eraseEntry t r c h.oneCell, ?_, ?_, ?_⟩
  · intro e he
    exact h.inRange e (List.mem_filter.mp he).1
  · intro i
    show Function.update t.rowSize r (dec (t.rowSize r)) i = _
    rw [length_getRow]
    have hsplit := countP_split t.entries (fun e => decide (e.row = i))
      (fun e => decide (e.row = r ∧ e.column = c))
    have hnew : (t.eraseEntry r c).entries.countP (fun e => decide (e.row = i)) =
        t.entries.countP (fun e => decide (e.row = i) &&
          !decide (e.row = r ∧ e.column = c)) := by
      unfold eraseEntry
      simp only [List.countP_filter]
      apply List.countP_congr
      intro e _
      simp
    rw [hnew]
    by_cases hi : i = r
    · subst hi
      have hat : t.entries.countP (fun e => decide (e.row = i) &&
          decide (e.row = i ∧ e.column = c)) = 1 := by
        rw [← hone]
        apply List.countP_congr
        intro e _
        simp
      rw [Function.update_same, h.rows, length_getRow, hsplit, hat, Nat.add_comm, dec_mod]
    · have hat : t.entries.countP (fun e => decide (e.row = i) &&
          decide (e.row = r ∧ e.column = c)) = 0 := by
        rw [List.countP_eq_zero]
        intro e _
        simp
        intro h1 h2
        exact absurd (h1.symm.trans h2) hi
      rw [Function.update_noteq hi, h.rows, length_getRow, hsplit, hat, Nat.zero_add]
  · intro j
    show Function.update t.columnSize c (dec (t.columnSize c)) j = _
    rw [length_getColumn]
    have hsplit := countP_split t.entries (fun e => decide (e.column = j))
      (fun e => decide (e.row = r ∧ e.column = c))
    have hnew : (t.eraseEntry r c).entries.countP (fun e => decide (e.column = j)) =
        t.entries.countP (fun e => decide (e.column = j) &&
          !decide (e.row = r ∧ e.column = c)) := by
      unfold eraseEntry
      simp only [List.countP_filter]
      apply List.countP_congr
      intro e _
      simp
    rw [hnew]
    by_cases hj : j = c
    · subst hj
      have hat : t.entries.countP (fun e => decide (e.column = j) &&
          decide (e.row = r ∧ e.column = j)) = 1 := by
        rw [← hone]
        apply List.countP_congr
        intro e _
        simp
      rw [Function.update_same, h.columns, length_getColumn, hsplit, hat, Nat.add_comm,
        dec_mod]
    · have hat : t.entries.countP (fun e => decide (e.column = j) &&
          decide (e.row = r ∧ e.column = c)) = 0 := by
        rw [List.countP_eq_zero]
        intro e _
        simp
        intro h1 _ h2
        exact absurd (h1.symm.trans h2) hj
      rw [Function.update_noteq hj, h.columns, length_getColumn, hsplit, hat, Nat.zero_add]

theorem zeroFree_eraseEntry (t : Tableau) (h : t.ZeroFree) (r c : ℕ) :
    (t.eraseEntry r c).ZeroFree := by
  intro e he
  exact h e (List.mem_filter.mp he).1

/-- A cell that is set and then erased leaves the other values as they were. -/
theorem zeroFree_setValue_eraseEntry (t : Tableau) (h : t.ZeroFree) (r c : ℕ) (v : ℚ) :
    ((t.setValue r c v).eraseEntry r c).ZeroFree := by
  intro e he
  unfold eraseEntry setValue at he
  obtain ⟨hmem, hnot⟩ := List.mem_filter.mp he
  obtain ⟨e0, he0, rfl⟩ := List.mem_map.mp hmem
  by_cases hat : e0.row = r ∧ e0.column = c
  · exfalso
    simp [hat] at hnot
  · simp only [hat, if_false]
    exact h e0 he0

theorem zeroFree_setValue (t : Tableau) (h : t.ZeroFree) (r c : ℕ) (v : ℚ)
    (hv : isZero v DEFAULT_EPSILON = false) : (t.setValue r c v).ZeroFree := by
  intro e he
  unfold setValue at he
  obtain ⟨e0, he0, rfl⟩ := List.mem_map.mp he
  by_cases hat : e0.row = r ∧ e0.column = c
  · simpa [hat] using hv
  · simp only [hat, if_false]
    exact h e0 he0

end Tableau

namespace Tableau

theorem countP_or (l : List Entry) (p q : Entry → Bool)
    (hdisj : ∀ e ∈ l, ¬ (p e = true ∧ q e = true)) :
    l.countP (fun e => p e || q e) = l.countP p + l.countP q := by
  induction l with
  | nil => rfl
  | cons e rest ih =>
    have hd := hdisj e (List.mem_cons_self _ _)
    simp only [List.countP_cons, ih (fun e1 he1 => hdisj e1 (List.mem_cons_of_mem _ he1))]
    cases hp : p e <;> cases hq : q e <;> simp [hp, hq] at hd ⊢ <;> omega

theorem counted_moveEntry (t : Tableau) (h : t.Counted) (r src tgt : ℕ)
    (hne : src ≠ tgt) (htgt : tgt < t.size)
    (hpres : (t.cell r src).isSome = true) (hfree : t.cell r tgt = none) :
    (t.moveEntry r src tgt).Counted := by
  have hone := countP_at t h.oneCell r src hpres
  refine ⟨oneCell_moveEntry t r src tgt h.oneCell hfree, ?_, ?_, ?_⟩
  · intro e he
    unfold moveEntry at he
    obtain ⟨e0, he0, rfl⟩ := List.mem_map.mp he
    have := h.inRange e0 he0
    by_cases hat : e0.row = r ∧ e0.column = src
    · simp only [hat, and_self, if_true]
      exact ⟨hat.1 ▸ this.1, htgt⟩
    · simpa [hat] using this
  · intro i
    rw [length_getRow]
    show t.rowSize i = _
    rw [h.rows, length_getRow]
    unfold moveEntry
    simp only [List.countP_map]
    congr 1
    apply List.countP_congr
    intro e _
    by_cases hat : e.row = r ∧ e.column = src <;> simp [hat]
  · intro j
    rw [length_getColumn]
    have hnew : (t.moveEntry r src tgt).entries.countP (fun e => decide (e.column = j)) =
        t.entries.countP (fun e =>
          decide (if e.row = r ∧ e.column = src then tgt = j else e.column = j)) := by
      unfold moveEntry
      simp only [List.countP_map]
      apply List.countP_congr
      intro e _
      by_cases hat : e.row = r ∧ e.column = src <;> simp [hat]
    rw [hnew]
    show Function.update (Function.update t.columnSize tgt (inc (t.columnSize tgt))) src
      (dec (Function.update t.columnSize tgt (inc (t.columnSize tgt)) src)) j = _
    have hsplit := countP_split t.entries (fun e => decide (e.column = j))
      (fun e => decide (e.row = r ∧ e.column = src))
    by_cases hj : j = src
    · subst hj
      have hat : t.entries.countP (fun e => decide (e.column = j) &&
          decide (e.row = r ∧ e.column = j)) = 1 := by
        rw [← hone]
        apply List.countP_congr
        intro e _
        simp
      have hrest : t.entries.countP (fun e =>
          decide (if e.row = r ∧ e.column = j then tgt = j else e.column = j)) =
          t.entries.countP (fun e => decide (e.column = j) &&
            !decide (e.row = r ∧ e.column = j)) := by
        apply List.countP_congr
        intro e _
        by_cases hat : e.row = r ∧ e.column = j
        · have : ¬ tgt = j := fun h2 => hne h2.symm
          simp [hat, this]
        · simp [hat]
      rw [Function.update_same, Function.update_noteq hne, h.columns, length_getColumn,
        hsplit, hat, hrest, Nat.add_comm, dec_mod]
    · rw [Function.update_noteq hj]
      by_cases hj2 : j = tgt
      · subst hj2
        have hdisj : t.entries.countP (fun e => decide (e.column = j) &&
            decide (e.row = r ∧ e.column = src)) = 0 := by
          rw [List.countP_eq_zero]
          intro e _
          simp
          intro h1 _ h2
          exact absurd (h1.symm.trans h2) hj
        have hrest : t.entries.countP (fun e =>
            decide (if e.row = r ∧ e.column = src then j = j else e.column = j)) =
            t.entries.countP (fun e => decide (e.column = j)) +
              t.entries.countP (fun e => decide (e.row = r ∧ e.column = src)) := by
          rw [← countP_or t.entries _ _ (fun e _ h2 => by
            simp only [decide_eq_true_eq] at h2
            exact hj (h2.1.symm.trans h2.2.2))]
          apply List.countP_congr
          intro e _
          by_cases hat : e.row = r ∧ e.column = src
          · simp [hat]
          · by_cases hc : e.column = j <;> simp [hat, hc]
        rw [Function.update_same, h.columns, inc_mod, length_getColumn, hrest, hone]
      · have hrest : t.entries.countP (fun e =>
            decide (if e.row = r ∧ e.column = src then tgt = j else e.column = j)) =
            t.entries.countP (fun e => decide (e.column = j)) := by
          apply List.countP_congr
          intro e _
          by_cases hat : e.row = r ∧ e.column = src
          · have h1 : ¬ tgt = j := fun h2 => hj2 h2.symm
            have h2 : ¬ e.column = j := fun h3 => hj (h3.symm.trans hat.2)
            have h3 : ¬ src = j := fun h4 => hj h4.symm
            simp [hat, h1, h2, h3]
          · simp [hat]
        rw [Function.update_noteq hj2, h.columns, length_getColumn, hrest]

theorem zeroFree_moveEntry (t : Tableau) (h : t.ZeroFree) (r src tgt : ℕ) :
    (t.moveEntry r src tgt).ZeroFree := by
  intro e he
  unfold moveEntry at he
  obtain ⟨e0, he0, rfl⟩ := List.mem_map.mp he
  by_cases hat : e0.row = r ∧ e0.column = src
  · simpa [hat] using h e0 he0
  · simpa [hat] using h e0 he0

theorem dec_iterate (k : ℕ) : ∀ n : ℕ, dec^[k] ((n + k) % 2 ^ 32) = n % 2 ^ 32 := by
  induction k with
  | zero => intro n; rfl
  | succ k ih =>
    intro n
    rw [Function.iterate_succ_apply]
    have : n + (k + 1) = (n + k) + 1 := by omega
    rw [this, dec_mod, ih]

/-- The counters after the loop of `eraseRow` (or `eraseColumn`): each is decremented once
for every erased entry that it counts. -/
theorem dec_fold (key : Entry → ℕ) (L : List Entry) : ∀ (cs : ℕ → ℕ) (j : ℕ),
    L.foldl (fun cs e => Function.update cs (key e) (dec (cs (key e)))) cs j =
      dec^[L.countP (fun e => decide (key e = j))] (cs j) := by
  induction L with
  | nil => intro cs j; rfl
  | cons e rest ih =>
    intro cs j
    rw [List.foldl_cons, ih, List.countP_cons]
    by_cases hk : key e = j
    · subst hk
      simp only [decide_True, if_true, Function.update_same]
      rw [Function.iterate_succ_apply]
    · simp only [hk, decide_False, Bool.false_eq_true, if_false, Nat.add_zero]
      rw [Function.update_noteq (fun h => hk h.symm)]

theorem counted_eraseRow (t : Tableau) (h : t.Counted) (r : ℕ) : (t.eraseRow r).Counted := by
  refine ⟨oneCell_eraseRow t r h.oneCell, ?_, ?_, ?_⟩
  · intro e he
    exact h.inRange e (List.mem_filter.mp he).1
  · intro i
    show Function.update t.rowSize r 0 i = _
    rw [length_getRow]
    have hnew : (t.eraseRow r).entries.countP (fun e => decide (e.row = i)) =
        t.entries.countP (fun e => decide (e.row = i) && !decide (e.row = r)) := by
      unfold eraseRow
      simp only [List.countP_filter]
      apply List.countP_congr
      intro e _
      simp
    rw [hnew]
    by_cases hi : i = r
    · subst hi
      rw [Function.update_same]
      have : t.entries.countP (fun e => decide (e.row = i) && !decide (e.row = i)) = 0 := by
        rw [List.countP_eq_zero]
        intro e _
        simp
      rw [this]
      rfl
    · rw [Function.update_noteq hi, h.rows, length_getRow]
      congr 1
      apply List.countP_congr
      intro e _
      simp
      intro h1 h2
      exact hi (h1.symm.trans h2)
  · intro j
    show (t.getRow r).foldl (fun cs e => Function.update cs e.column (dec (cs e.column)))
      t.columnSize j = _
    rw [dec_fold (fun e => e.column), length_getColumn, h.columns, length_getColumn]
    have hsplit := countP_split t.entries (fun e => decide (e.column = j))
      (fun e => decide (e.row = r))
    have hk : (t.getRow r).countP (fun e => decide (e.column = j)) =
        t.entries.countP (fun e => decide (e.column = j) && decide (e.row = r)) := by
      unfold getRow
      rw [List.countP_filter]
    have hnew : (t.eraseRow r).entries.countP (fun e => decide (e.column = j)) =
        t.entries.countP (fun e => decide (e.column = j) && !decide (e.row = r)) := by
      unfold eraseRow
      simp only [List.countP_filter]
      apply List.countP_congr
      intro e _
      simp
    rw [hk, hnew, hsplit, Nat.add_comm, dec_iterate]

theorem counted_eraseColumn (t : Tableau) (h : t.Counted) (c : ℕ) :
    (t.eraseColumn c).Counted := by
  refine ⟨oneCell_eraseColumn t c h.oneCell, ?_, ?_, ?_⟩
  · intro e he
    exact h.inRange e (List.mem_filter.mp he).1
  · intro i
    show (t.getColumn c).foldl (fun rs e => Function.update rs e.row (dec (rs e.row)))
      t.rowSize i = _
    rw [dec_fold (fun e => e.row), length_getRow, h.rows, length_getRow]
    have hsplit := countP_split t.entries (fun e => decide (e.row = i))
      (fun e => decide (e.column = c))
    have hk : (t.getColumn c).countP (fun e => decide (e.row = i)) =
        t.entries.countP (fun e => decide (e.row = i) && decide (e.column = c)) := by
      unfold getColumn
      rw [List.countP_filter]
    have hnew : (t.eraseColumn c).entries.countP (fun e => decide (e.row = i)) =
        t.entries.countP (fun e => decide (e.row = i) && !decide (e.column = c)) := by
      unfold eraseColumn
      simp only [List.countP_filter]
      apply List.countP_congr
      intro e _
      simp
    rw [hk, hnew, hsplit, Nat.add_comm, dec_iterate]
  · intro j
    show Function.update t.columnSize c 0 j = _
    rw [length_getColumn]
    have hnew : (t.eraseColumn c).entries.countP (fun e => decide (e.column = j)) =
        t.entries.countP (fun e => decide (e.column = j) && !decide (e.column = c)) := by
      unfold eraseColumn
      simp only [List.countP_filter]
      apply List.countP_congr
      intro e _
      simp
    rw [hnew]
    by_cases hj : j = c
    · subst hj
      rw [Function.update_same]
      have : t.entries.countP (fun e => decide (e.column = j) && !decide (e.column = j)) =
          0 := by
        rw [List.countP_eq_zero]
        intro e _
        simp
      rw [this]
      rfl
    · rw [Function.update_noteq hj, h.columns, length_getColumn]
      congr 1
      apply List.countP_congr
      intro e _
      simp
      intro h1 h2
      exact hj (h1.symm.trans h2)

theorem zeroFree_eraseRow (t : Tableau) (h : t.ZeroFree) (r : ℕ) : (t.eraseRow r).ZeroFree := by
  intro e he
  exact h e (List.mem_filter.mp he).1

theorem zeroFree_eraseColumn (t : Tableau) (h : t.ZeroFree) (c : ℕ) :
    (t.eraseColumn c).ZeroFree := by
  intro e he
  exact h e (List.mem_filter.mp he).1

end Tableau

namespace Tableau

theorem size_addEntry (t : Tableau) (r c : ℕ) (v : ℚ) : (t.addEntry r c v).size = t.size := by
  unfold addEntry
  split <;> rfl

/-- One iteration of the loop of `addScaledRow` keeps the representation invariant. -/
theorem sound_addScaledRowStep (tgt gi : ℕ) (gv scale : ℚ) (t : Tableau) (d : Finset ℕ)
    (e : Entry) (hd : e.column ∈ d ↔ (t.cell tgt e.column).isSome = true)
    (h : t.Sound) (htgt : tgt < t.size) (hcol : e.column < t.size) :
    (addScaledRowStep tgt scale gi gv (t, d) e).1.Sound ∧
    (addScaledRowStep tgt scale gi gv (t, d) e).1.size = t.size := by
  unfold addScaledRowStep
  by_cases hmem : e.column ∈ d
  · have hsome : (t.cell tgt e.column).isSome = true := hd.mp hmem
    simp only [hmem, if_true]
    have hpres : ∀ v : ℚ, ((t.setValue tgt e.column v).cell tgt e.column).isSome = true := by
      intro v
      rw [cell_setValue, if_pos ⟨rfl, rfl⟩]
      simpa using hsome
    by_cases hz : isZero (if e.column ≠ gi then t.getCell tgt e.column + e.value * scale
        else gv) DEFAULT_EPSILON = true
    · simp only [hz, if_true]
      exact ⟨(counted_eraseEntry _ (counted_setValue t h.counted _ _ _) _ _ (hpres _)).sound
        (zeroFree_setValue_eraseEntry t h.zeroFree _ _ _), rfl⟩
    · simp only [hz, Bool.false_eq_true, if_false]
      exact ⟨(counted_setValue t h.counted _ _ _).sound
        (zeroFree_setValue t h.zeroFree _ _ _ (by simpa using hz)), rfl⟩
  · have hnone : t.cell tgt e.column = none := by
      have : ¬ (t.cell tgt e.column).isSome = true := fun h => hmem (hd.mpr h)
      simpa using this
    simp only [hmem, if_false]
    by_cases hg : e.column ≠ gi
    · rw [if_pos hg]
      exact ⟨(counted_addEntry t h.counted _ _ _ htgt hcol hnone).sound
        (zeroFree_addEntry t h.zeroFree _ _ _), size_addEntry _ _ _ _⟩
    · rw [if_neg hg]
      exact ⟨(counted_addEntry t h.counted _ _ _ htgt hcol hnone).sound
        (zeroFree_addEntry t h.zeroFree _ _ _), size_addEntry _ _ _ _⟩

/-- The loop of `addScaledRow` keeps the representation invariant. -/
theorem addScaledRow_fold_sound (tgt gi : ℕ) (gv scale : ℚ) :
    ∀ (L : List Entry) (t0 : Tableau) (d0 : Finset ℕ),
      (L.map (fun e => e.column)).Nodup →
      (∀ e ∈ L, (e.column ∈ d0 ↔ (t0.cell tgt e.column).isSome = true)) →
      t0.Sound → tgt < t0.size → (∀ e ∈ L, e.column < t0.size) →
      (L.foldl (addScaledRowStep tgt scale gi gv) (t0, d0)).1.Sound ∧
      (L.foldl (addScaledRowStep tgt scale gi gv) (t0, d0)).1.size = t0.size := by
  intro L
  induction L with
  | nil =>
    intro t0 d0 _ _ h _ _
    exact ⟨h, rfl⟩
  | cons e rest ih =>
    intro t0 d0 hnd hd h htgt hcols
    simp only [List.map_cons, List.nodup_cons] at hnd
    obtain ⟨_, _, hstep3, hstep4⟩ :=
      addScaledRowStep_spec tgt gi gv scale t0 d0 e (hd e (List.mem_cons_self _ _)) h.oneCell
    obtain ⟨hs, hsize⟩ := sound_addScaledRowStep tgt gi gv scale t0 d0 e
      (hd e (List.mem_cons_self _ _)) h htgt (hcols e (List.mem_cons_self _ _))
    have hne : ∀ e1 ∈ rest, e1.column ≠ e.column := by
      intro e1 he1 heq
      exact hnd.1 (List.mem_map.mpr ⟨e1, he1, heq⟩)
    have hd1 : ∀ e1 ∈ rest,
        (e1.column ∈ (addScaledRowStep tgt scale gi gv (t0, d0) e).2 ↔
          ((addScaledRowStep tgt scale gi gv (t0, d0) e).1.cell tgt e1.column).isSome = true) := by
      intro e1 he1
      rw [hstep4 _ (hne e1 he1), hstep3, if_neg (hne e1 he1)]
      exact hd e1 (List.mem_cons_of_mem _ he1)
    obtain ⟨i1, i2⟩ := ih (addScaledRowStep tgt scale gi gv (t0, d0) e).1
      (addScaledRowStep tgt scale gi gv (t0, d0) e).2 hnd.2 hd1 hs (by rw [hsize]; exact htgt)
      (fun e1 he1 => by rw [hsize]; exact hcols e1 (List.mem_cons_of_mem _ he1))
    simp only [List.foldl_cons]
    exact ⟨i1, i2.trans hsize⟩

/-- `addScaledRow` keeps the representation invariant. -/
theorem sound_addScaledRow (t : Tableau) (h : t.Sound) (src tgt gi : ℕ) (scale gv : ℚ)
    (htgt : tgt < t.size) :
    (t.addScaledRow src scale tgt gi gv).Sound ∧
    (t.addScaledRow src scale tgt gi gv).size = t.size := by
  unfold addScaledRow
  by_cases hact : t.activeRow src = true
  · simp only [hact, Bool.not_true, Bool.false_eq_true, if_false]
    exact addScaledRow_fold_sound tgt gi gv scale (t.getRow src) t
      ((t.getRow tgt).map (fun e => e.column)).toFinset
      (nodup_columns_getRow t h.oneCell src)
      (fun e _ => mem_dense_iff t tgt e.column) h htgt
      (fun e he => (h.inRange e (List.mem_filter.mp he).1).2)
  · simp only [hact, Bool.not_false, if_true]
    exact ⟨h, trivial⟩

/-- One iteration of the loop of `addColumnEraseSource` keeps the representation
invariant. -/
theorem sound_addColumnStep (src tgt : ℕ) (t : Tableau) (d : Finset ℕ) (e : Entry)
    (hd : e.row ∈ d ↔ (t.cell e.row tgt).isSome = true)
    (hsrc : t.cell e.row src = some e.value)
    (h : t.Sound) (htgt : tgt < t.size) :
    (addColumnStep src tgt (t, d) e).1.Sound ∧
    (addColumnStep src tgt (t, d) e).1.size = t.size := by
  unfold addColumnStep
  by_cases hmem : e.row ∈ d
  · have hsome : (t.cell e.row tgt).isSome = true := hd.mp hmem
    simp only [hmem, if_true]
    have hpres : ∀ v : ℚ, ((t.setValue e.row tgt v).cell e.row tgt).isSome = true := by
      intro v
      rw [cell_setValue, if_pos ⟨rfl, rfl⟩]
      simpa using hsome
    by_cases hz : isZero (t.getCell e.row tgt + e.value) DEFAULT_EPSILON = true
    · simp only [hz, if_true]
      exact ⟨(counted_eraseEntry _ (counted_setValue t h.counted _ _ _) _ _ (hpres _)).sound
        (zeroFree_setValue_eraseEntry t h.zeroFree _ _ _), rfl⟩
    · simp only [hz, Bool.false_eq_true, if_false]
      exact ⟨(counted_setValue t h.counted _ _ _).sound
        (zeroFree_setValue t h.zeroFree _ _ _ (by simpa using hz)), rfl⟩
  · have hnone : t.cell e.row tgt = none := by
      have : ¬ (t.cell e.row tgt).isSome = true := fun h => hmem (hd.mpr h)
      simpa using this
    have hne : src ≠ tgt := by
      intro heq
      rw [heq, hnone] at hsrc
      cases hsrc
    simp only [hmem, if_false]
    exact ⟨(counted_moveEntry t h.counted e.row src tgt hne htgt (by rw [hsrc]; rfl)
      hnone).sound (zeroFree_moveEntry t h.zeroFree _ _ _), rfl⟩

/-- The loop of `addColumnEraseSource` keeps the representation invariant. -/
theorem addColumn_fold_sound (src tgt : ℕ) :
    ∀ (L : List Entry) (t0 : Tableau) (d0 : Finset ℕ),
      (L.map (fun e => e.row)).Nodup →
      (∀ e ∈ L, (e.row ∈ d0 ↔ (t0.cell e.row tgt).isSome = true)) →
      (∀ e ∈ L, t0.cell e.row src = some e.value) →
      t0.Sound → tgt < t0.size →
      (L.foldl (addColumnStep src tgt) (t0, d0)).1.Sound ∧
      (L.foldl (addColumnStep src tgt) (t0, d0)).1.size = t0.size := by
  intro L
  induction L with
  | nil =>
    intro t0 d0 _ _ _ h _
    exact ⟨h, rfl⟩
  | cons e rest ih =>
    intro t0 d0 hnd hd hsrc h htgt
    simp only [List.map_cons, List.nodup_cons] at hnd
    obtain ⟨_, s2, _, _, s5⟩ :=
      addColumnStep_spec src tgt t0 d0 e (hd e (List.mem_cons_self _ _)) h.oneCell
    obtain ⟨hs, hsize⟩ := sound_addColumnStep src tgt t0 d0 e (hd e (List.mem_cons_self _ _))
      (hsrc e (List.mem_cons_self _ _)) h htgt
    have hner : ∀ e1 ∈ rest, e1.row ≠ e.row := by
      intro e1 he1 heq
      exact hnd.1 (List.mem_map.mpr ⟨e1, he1, heq⟩)
    have hd1 : ∀ e1 ∈ rest, (e1.row ∈ (addColumnStep src tgt (t0, d0) e).2 ↔
        ((addColumnStep src tgt (t0, d0) e).1.cell e1.row tgt).isSome = true) := by
      intro e1 he1
      rw [s5 _ (hner e1 he1), s2 _ _ (hner e1 he1)]
      exact hd e1 (List.mem_cons_of_mem _ he1)
    have hsrc1 : ∀ e1 ∈ rest,
        (addColumnStep src tgt (t0, d0) e).1.cell e1.row src = some e1.value := by
      intro e1 he1
      rw [s2 _ _ (hner e1 he1)]
      exact hsrc e1 (List.mem_cons_of_mem _ he1)
    obtain ⟨i1, i2⟩ := ih (addColumnStep src tgt (t0, d0) e).1
      (addColumnStep src tgt (t0, d0) e).2 hnd.2 hd1 hsrc1 hs (by rw [hsize]; exact htgt)
    simp only [List.foldl_cons]
    exact ⟨i1, i2.trans hsize⟩

/-- `addColumnEraseSource` keeps the representation invariant. -/
theorem sound_addColumnEraseSource (t : Tableau) (h : t.Sound) (src tgt : ℕ)
    (htgt : tgt < t.size) :
    (t.addColumnEraseSource src tgt).Sound ∧
    (t.addColumnEraseSource src tgt).size = t.size := by
  unfold addColumnEraseSource
  by_cases hact : t.activeColumn src = true
  · simp only [hact, Bool.not_true, Bool.false_eq_true, if_false]
    obtain ⟨h1, h2⟩ := addColumn_fold_sound src tgt (t.getColumn src) t
      ((t.getColumn tgt).map (fun e => e.row)).toFinset
      (nodup_rows_getColumn t h.oneCell src)
      (fun e _ => mem_denseColumn_iff t tgt e.row)
      (fun e he => cell_of_mem_getColumn t h.oneCell src e he) h htgt
    exact ⟨(counted_eraseColumn _ h1.counted src).sound
      (zeroFree_eraseColumn _ h1.zeroFree src), h2⟩
  · simp only [hact, Bool.not_false, if_true]
    exact ⟨h, trivial⟩

end Tableau

namespace Tableau

theorem filter_perm_split (l : List Entry) (p q : Entry → Bool)
    (hdisj : ∀ e ∈ l, ¬ (p e = true ∧ q e = true)) :
    (l.filter fun e => p e || q e).Perm (l.filter p ++ l.filter q) := by
  induction l with
  | nil => exact List.Perm.refl _
  | cons e rest ih =>
    have hd := hdisj e (List.mem_cons_self _ _)
    have ih2 := ih (fun e1 he1 => hdisj e1 (List.mem_cons_of_mem _ he1))
    simp only [List.filter_cons]
    cases hp : p e <;> cases hq : q e
    · simpa [hp, hq] using ih2
    · simp only [hp, hq, Bool.false_or, if_true, Bool.false_eq_true, if_false]
      exact (List.Perm.cons e ih2).trans List.perm_middle.symm
    · simp only [hp, hq, Bool.or_false, if_true, Bool.false_eq_true, if_false,
        List.cons_append]
      exact List.Perm.cons e ih2
    · exact absurd ⟨hp, hq⟩ hd

/-- The copy made by `backupIntoMatrix` holds the entries of the rows below `n`. -/
theorem backupEntries_perm (t : Tableau) : ∀ n,
    (backupEntries t n).Perm (t.entries.filter fun e => decide (e.row < n)) := by
  intro n
  induction n with
  | zero =>
    unfold backupEntries
    have : (t.entries.filter fun e => decide (e.row < 0)) = [] := by
      rw [List.filter_eq_nil_iff]
      intro e _
      simp
    rw [this]
  | succ n ih =>
    unfold backupEntries
    have h1 : (t.entries.filter fun e => decide (e.row < n + 1)) =
        t.entries.filter fun e => decide (e.row = n) || decide (e.row < n) := by
      apply List.filter_congr
      intro e _
      by_cases h1 : e.row < n + 1
      · have h2 : e.row = n ∨ e.row < n := by omega
        rcases h2 with h2 | h2 <;> simp [h1, h2]
      · have h2 : ¬ e.row = n := by omega
        have h3 : ¬ e.row < n := by omega
        simp [h1, h2, h3]
    rw [h1]
    refine List.Perm.trans ?_ (filter_perm_split t.entries _ _ ?_).symm
    · exact List.Perm.append (List.reverse_perm _) ih
    · intro e _ h
      simp only [decide_eq_true_eq] at h
      omega

theorem sound_of_perm (t u : Tableau) (h : t.Sound) (hperm : u.entries.Perm t.entries)
    (hsize : u.size = t.size) (hrows : u.rowSize = t.rowSize)
    (hcols : u.columnSize = t.columnSize) : u.Sound := by
  refine ⟨?_, ?_, ?_, ?_, ?_⟩
  · unfold OneCellPerPosition positions
    exact ((hperm.map _).nodup_iff).mpr h.oneCell
  · intro e he
    exact h.zeroFree e (hperm.mem_iff.mp he)
  · intro e he
    rw [hsize]
    exact h.inRange e (hperm.mem_iff.mp he)
  · intro i
    rw [hrows, h.rows, length_getRow, length_getRow, hperm.countP_eq]
  · intro j
    rw [hcols, h.columns, length_getColumn, length_getColumn, hperm.countP_eq]

theorem sound_backupIntoMatrix (t other copy : Tableau) (h : t.Sound)
    (hcopy : t.backupIntoMatrix other = some copy) : copy.Sound ∧ copy.size = t.size := by
  unfold backupIntoMatrix at hcopy
  split_ifs at hcopy with hs
  simp only [Option.some.injEq] at hcopy
  have hsz : other.size = t.size := not_not.mp hs
  have hall : (t.entries.filter fun e => decide (e.row < t.size)) = t.entries := by
    rw [List.filter_eq_self]
    intro e he
    simpa using (h.inRange e he).1
  have hperm : copy.entries.Perm t.entries := by
    rw [← hcopy]
    have := backupEntries_perm t t.size
    rw [hall] at this
    exact this
  have hsize : copy.size = t.size := by rw [← hcopy]; exact hsz
  refine ⟨sound_of_perm t copy h hperm hsize ?_ ?_, hsize⟩
  · rw [← hcopy]
  · rw [← hcopy]

/-- Every reachable tableau satisfies the representation invariant. -/
theorem Reachable.is_sound {t : Tableau} (h : t.Reachable) : t.Sound ∧ t.size < 2 ^ 32 := by
  induction h with
  | empty n hn => exact ⟨sound_empty n, hn⟩
  | addEntry t r c v _ hr hc hfree ih =>
    exact ⟨(counted_addEntry t ih.1.counted r c v hr hc hfree).sound
      (zeroFree_addEntry t ih.1.zeroFree r c v), by rw [size_addEntry]; exact ih.2⟩
  | eraseEntry t r c _ hstored ih =>
    exact ⟨(counted_eraseEntry t ih.1.counted r c hstored).sound
      (zeroFree_eraseEntry t ih.1.zeroFree r c), ih.2⟩
  | eraseRow t r _ _ ih =>
    exact ⟨(counted_eraseRow t ih.1.counted r).sound (zeroFree_eraseRow t ih.1.zeroFree r),
      ih.2⟩
  | eraseColumn t c _ _ ih =>
    exact ⟨(counted_eraseColumn t ih.1.counted c).sound
      (zeroFree_eraseColumn t ih.1.zeroFree c), ih.2⟩
  | addScaledRow t src scale tgt gi gv _ _ htgt ih =>
    obtain ⟨h1, h2⟩ := sound_addScaledRow t ih.1 src tgt gi scale gv htgt
    exact ⟨h1, by rw [h2]; exact ih.2⟩
  | addColumnEraseSource t src tgt _ _ htgt ih =>
    obtain ⟨h1, h2⟩ := sound_addColumnEraseSource t ih.1 src tgt htgt
    exact ⟨h1, by rw [h2]; exact ih.2⟩
  | backupIntoMatrix t other copy _ hcopy ih =>
    obtain ⟨h1, h2⟩ := sound_backupIntoMatrix t other copy ih.1 hcopy
    exact ⟨h1, by rw [h2]; exact ih.2⟩

/-- A row of a sound tableau has at most `size` entries, and so has a column. -/
theorem Sound.length_le {t : Tableau} (h : t.Sound) (i : ℕ) :
    (t.getRow i).length ≤ t.size ∧ (t.getColumn i).length ≤ t.size := by
  constructor
  · have hnd := nodup_columns_getRow t h.oneCell i
    have hsub : (t.getRow i).map (fun e => e.column) ⊆ List.range t.size := by
      intro c hc
      obtain ⟨e, he, rfl⟩ := List.mem_map.mp hc
      exact List.mem_range.mpr (h.inRange e (List.mem_filter.mp he).1).2
    have := (List.subperm_of_subset hnd hsub).length_le
    simpa using this
  · have hnd := nodup_rows_getColumn t h.oneCell i
    have hsub : (t.getColumn i).map (fun e => e.row) ⊆ List.range t.size := by
      intro c hc
      obtain ⟨e, he, rfl⟩ := List.mem_map.mp hc
      exact List.mem_range.mpr (h.inRange e (List.mem_filter.mp he).1).1
    have := (List.subperm_of_subset hnd hsub).length_le
    simpa using this

/-- The loop of `totalSize` over the rows below `n`. -/
theorem totalSize_fold (t : Tableau) (h : t.Sound) : ∀ n,
    (List.range n).foldl (fun total i => (total + t.getRowSize i) % 2 ^ 32) 0 =
      (t.entries.countP fun e => decide (e.row < n)) % 2 ^ 32 ∧
    ((List.range n).map fun i => (t.getRow i).length).sum =
      t.entries.countP fun e => decide (e.row < n) := by
  intro n
  induction n with
  | zero =>
    have : (t.entries.countP fun e => decide (e.row < 0)) = 0 := by
      rw [List.countP_eq_zero]
      intro e _
      simp
    rw [this]
    exact ⟨rfl, rfl⟩
  | succ n ih =>
    have hsplit : (t.entries.countP fun e => decide (e.row < n + 1)) =
        (t.entries.countP fun e => decide (e.row < n)) +
          (t.entries.countP fun e => decide (e.row = n)) := by
      rw [← countP_or t.entries _ _ (fun e _ h2 => by
        simp only [decide_eq_true_eq] at h2
        omega)]
      apply List.countP_congr
      intro e _
      simp only [Bool.or_eq_true, decide_eq_true_eq]
      omega
    rw [List.range_succ, List.foldl_append, List.map_append, List.sum_append, ih.1, ih.2,
      hsplit]
    simp only [List.foldl_cons, List.foldl_nil, List.map_cons, List.map_nil, List.sum_cons,
      List.sum_nil, Nat.add_zero]
    unfold getRowSize
    rw [h.rows, length_getRow]
    constructor
    · omega
    · trivial

end Tableau

/-- C40: in every tableau that a sequence of `addEntry` (on absent cells), `eraseEntry`,
`eraseRow`, `eraseColumn`, `addScaledRow`, `addColumnEraseSource` and `backupIntoMatrix`
builds from the constructor, `getRowSize( i )` is the number of entries of row `i`,
`getColumnSize( j )` the number of entries of column `j`, the row sizes add up to the number
of entries, `totalSize()` is that number as an `unsigned` (the number itself when it is
below `2^32`), no stored value is within `DEFAULT_EPSILON` of zero, and no position holds two
entries. -/
theorem C40_counters_and_zero_freeness (t : Tableau) (h : t.Reachable) :
    (∀ i, t.getRowSize i = (t.getRow i).length) ∧
    (∀ j, t.getColumnSize j = (t.getColumn j).length) ∧
    ((List.range t.size).map fun i => (t.getRow i).length).sum = t.entries.length ∧
    t.totalSize = t.entries.length % 2 ^ 32 ∧
    (t.entries.length < 2 ^ 32 →
      t.totalSize = ((List.range t.size).map fun i => (t.getRow i).length).sum) ∧
    (∀ e ∈ t.entries, isZero e.value DEFAULT_EPSILON = false) ∧
    t.OneCellPerPosition := by
  obtain ⟨hs, hsize⟩ := h.is_sound
  obtain ⟨f1, f2⟩ := Tableau.totalSize_fold t hs t.size
  have hall : (t.entries.countP fun e => decide (e.row < t.size)) = t.entries.length := by
    rw [List.countP_eq_length]
    intro e he
    simpa using (hs.inRange e he).1
  rw [hall] at f1 f2
  refine ⟨?_, ?_, f2, f1, ?_, hs.zeroFree, hs.oneCell⟩
  · intro i
    unfold Tableau.getRowSize
    rw [hs.rows]
    exact Nat.mod_eq_of_lt (lt_of_le_of_lt (hs.length_le i).1 hsize)
  · intro j
    unfold Tableau.getColumnSize
    rw [hs.columns]
    exact Nat.mod_eq_of_lt (lt_of_le_of_lt (hs.length_le j).2 hsize)
  · intro hlt
    unfold Tableau.totalSize
    rw [f1, f2]
    exact Nat.mod_eq_of_lt hlt

set_option maxRecDepth 100000 in
/-- C40, witness: the tableau `sampleTableau`, built with all seven operations; it holds the
entries `(2, 1) = 4` and `(1, 1) = 6`. -/
theorem C40_counters_and_zero_freeness_witness :
    sampleTableau.Reachable ∧
    sampleTableau.entries.map (fun e => (e.row, e.column, e.value)) = [(2, 1, 4), (1, 1, 6)] ∧
    [0, 1, 2].map sampleTableau.getRowSize = [0, 1, 1] ∧
    [0, 1, 2].map sampleTableau.getColumnSize = [0, 2, 0] ∧
    sampleTableau.totalSize = 2 ∧
    (∀ i, sampleTableau.getRowSize i = (sampleTableau.getRow i).length) := by
  have h0 := Tableau.Reachable.empty 3 (by decide)
  have h1 := Tableau.Reachable.addEntry _ 0 0 1 h0 (by decide!) (by decide!) (by decide!)
  have h2 := Tableau.Reachable.addEntry _ 0 2 (-2) h1 (by decide!) (by decide!) (by decide!)
  have h3 := Tableau.Reachable.addEntry _ 1 2 2 h2 (by decide!) (by decide!) (by decide!)
  have h4 := Tableau.Reachable.addEntry _ 1 1 5 h3 (by decide!) (by decide!) (by decide!)
  have h5 := Tableau.Reachable.addEntry _ 2 0 4 h4 (by decide!) (by decide!) (by decide!)
  have h6 := Tableau.Reachable.addScaledRow _ 0 1 1 3 0 h5 (by decide!) (by decide!)
  have h7 := Tableau.Reachable.addColumnEraseSource _ 0 1 h6 (by decide!) (by decide!)
  have h8 := Tableau.Reachable.eraseEntry _ 0 2 h7 (by decide!)
  have h9 := Tableau.Reachable.addEntry _ 2 2 7 h8 (by decide!) (by decide!) (by decide!)
  have h10 := Tableau.Reachable.eraseColumn _ 2 h9 (by decide!)
  have hsrc : sampleSource.Reachable := h10
  obtain ⟨copy, hc, hcs, -⟩ :=
    Tableau.backupIntoMatrix_spec sampleSource (Tableau.empty 3) (by decide!)
  have hst : sampleTableau = copy.eraseRow 0 := by
    unfold sampleTableau
    rw [hc]
  have hreach : sampleTableau.Reachable := by
    rw [hst]
    exact Tableau.Reachable.eraseRow copy 0
      (Tableau.Reachable.backupIntoMatrix sampleSource (Tableau.empty 3) copy hsrc hc)
      (by rw [hcs]; decide!)
  exact ⟨hreach, by decide!, by decide!, by decide!, by decide!,
    (C40_counters_and_zero_freeness sampleTableau hreach).1⟩

section MarkRel

variable {R : Reluplex → Reluplex → Prop} (hR : Reluplex.MarkRel R)
include hR

theorem computeVariableStatus_mrel (s : Reluplex) (v : ℕ) : R (s.computeVariableStatus v) s :=
  hR.status s _

theorem addToAssignment_mrel (s : Reluplex) (v : ℕ) (d : ℚ) : R (s.addToAssignment v d) s :=
  hR.trans _ _ _ (hR.status _ _) (hR.assignment s _)

theorem updateAssignment_fold_mrel (v : ℕ) (delta : ℚ) (l : List Entry) :
    ∀ st : Reluplex,
      R (l.foldl (fun st current =>
          if current.row ≠ v then st.addToAssignment current.row (delta * current.value)
          else st) st) st := by
  induction l with
  | nil => intro st; exact hR.refl st
  | cons e rest ih =>
    intro st
    simp only [List.foldl_cons]
    split
    · exact hR.trans _ _ _ (ih _) (addToAssignment_mrel hR st _ _)
    · exact ih _

theorem updateAssignment_mrel (s : Reluplex) (v : ℕ) (delta : ℚ) :
    R (s.updateAssignment v delta) s := by
  unfold Reluplex.updateAssignment
  exact hR.trans _ _ _ (updateAssignment_fold_mrel hR v delta _ _) (addToAssignment_mrel hR s v delta)

theorem updateIgnoringRelu_mrel (s : Reluplex) (v : ℕ) (delta : ℚ) :
    R (s.updateIgnoringRelu v delta) s := by
  unfold Reluplex.updateIgnoringRelu
  split
  · exact hR.refl s
  · exact updateAssignment_mrel hR s v delta

theorem moveIntoBound_mrel (s : Reluplex) (v : ℕ) (target : ℚ) :
    R (s.moveIntoBound v target) s := by
  unfold Reluplex.moveIntoBound
  split
  · exact updateIgnoringRelu_mrel hR s v _
  · exact hR.refl s

theorem update_mrel (s : Reluplex) (v : ℕ) (delta : ℚ) (ignoreRelu : Bool) :
    Res.Forall (fun s1 => R s1 s) (s.update v delta ignoreRelu) := by
  have h1 := updateAssignment_mrel hR s v delta
  rcases update_cases s v delta ignoreRelu with ⟨_, hu⟩ | ⟨_, hu⟩ | ⟨_, _, _, d2, hu | hu⟩
  · rw [hu]; exact hR.refl s
  · rw [hu]; exact h1
  · rw [hu]; exact hR.trans _ _ _ (updateIgnoringRelu_mrel hR _ _ _) h1
  · rw [hu]; exact hR.trans _ _ _ (updateIgnoringRelu_mrel hR _ _ _) h1

theorem pivot_mrel (s : Reluplex) (nb b : ℕ) :
    Res.Forall (fun s1 => R s1 s) (s.pivot nb b) := by
  unfold Reluplex.pivot
  split
  · exact hR.refl s
  · split
    · exact hR.refl s
    · exact hR.trans _ { s with basicVariables := insert nb (s.basicVariables.erase b) } _
        (hR.tableau { s with basicVariables := insert nb (s.basicVariables.erase b) }
          (Reluplex.pivotTableau s.tableau nb b))
        (hR.basic s _)

theorem makeNonBasic_mrel (s : Reluplex) (basic forbiddenPartner : ℕ) :
    Res.Forall (fun s1 => R s1 s) (s.makeNonBasic basic forbiddenPartner) := by
  unfold Reluplex.makeNonBasic
  split
  · exact hR.refl s
  · split
    · exact pivot_mrel hR s _ _
    · exact hR.refl s

theorem markReluVariableDissolved_mrel (s : Reluplex) (v : ℕ) (type : ReluDissolutionType) :
    Res.Forall (fun s1 => R s1 s) (s.markReluVariableDissolved v type) := by
  unfold Reluplex.markReluVariableDissolved
  split
  · trivial
  · exact hR.mark s _ _

theorem unifyNonBasic_mrel (s : Reluplex) (b f : ℕ) : R (s.unifyNonBasic b f) s := by
  unfold Reluplex.unifyNonBasic
  simp only
  split
  · exact hR.trans _ _ _ (hR.tableau _ _)
      (hR.trans _ _ _ (updateIgnoringRelu_mrel hR _ b _) (updateIgnoringRelu_mrel hR s f _))
  · split
    · exact hR.trans _ _ _ (hR.tableau _ _)
        (hR.trans _ _ _ (updateIgnoringRelu_mrel hR _ b _) (updateIgnoringRelu_mrel hR s f _))
    · exact hR.trans _ _ _ (hR.tableau _ _) (updateIgnoringRelu_mrel hR _ b _)

theorem unifyReluPair_mrel (s : Reluplex) (f : ℕ) :
    Res.Forall (fun s1 => R s1 s) (s.unifyReluPair f) := by
  unfold Reluplex.unifyReluPair
  cases hp : s.reluPairs.toPartner f with
  | none => exact hR.refl s
  | some b =>
    simp only
    by_cases h0 : s.tableau.getColumnSize b = 0
    · rw [if_pos h0]
      exact hR.refl s
    · rw [if_neg h0]
      have h1 : Res.Forall (fun s1 => R s1 s)
          (if b ∈ s.basicVariables then s.makeNonBasic b f else Res.ok () s) := by
        split
        · exact makeNonBasic_mrel hR s _ _
        · exact hR.refl s
      refine Res.Forall.andThen h1 (fun _ h => h) ?_
      intro _ s1 hs1
      have h2 : Res.Forall (fun s2 => R s2 s1)
          (if f ∈ s1.basicVariables then s1.makeNonBasic f b else Res.ok () s1) := by
        split
        · exact makeNonBasic_mrel hR s1 _ _
        · exact hR.refl s1
      refine Res.Forall.andThen (Res.Forall.mono h2 (fun _ h => hR.trans _ _ _ h hs1))
        (fun _ h => h) ?_
      intro _ s2 hs2
      refine Res.Forall.andThen
        (Res.Forall.mono (markReluVariableDissolved_mrel hR _ f .TYPE_MERGE)
          (fun _ h => hR.trans _ _ _ (hR.trans _ _ _ h (unifyNonBasic_mrel hR s2 _ f)) hs2))
        (fun _ h => h) ?_
      intro _ s3 hs3
      exact hs3

theorem storeUpperBound_mrel (s : Reluplex) (v : ℕ) (bound : ℚ) (level : ℕ) :
    R (s.storeUpperBound v bound level) s := hR.upper s _

theorem storeLowerBound_mrel (s : Reluplex) (v : ℕ) (bound : ℚ) (level : ℕ) :
    R (s.storeLowerBound v bound level) s := hR.lower s _

theorem updateUpperBound_mrel (s : Reluplex) (v : ℕ) (bound : ℚ) (level : ℕ) :
    Res.Forall (fun s1 => R s1 s) (s.updateUpperBound v bound level) := by
  have st1 : ∀ (x : Reluplex) (w : ℕ) (c : ℚ) (l : ℕ), R x s → R (x.storeUpperBound w c l) s :=
    fun x w c l h => hR.trans _ _ _ (hR.upper x _) h
  have cs1 : ∀ (x : Reluplex) (w : ℕ), R x s → R (x.computeVariableStatus w) s :=
    fun x w h => hR.trans _ _ _ (hR.status x _) h
  have mv1 : ∀ (x : Reluplex) (w : ℕ) (c : ℚ), R x s → R (x.moveIntoBound w c) s :=
    fun x w c h => hR.trans _ _ _ (moveIntoBound_mrel hR x w c) h
  unfold Reluplex.updateUpperBound
  simp only
  generalize (if s.reluPairs.isRelu v = true then (s.reluPairs.toPartner v).getD 0 else 0) = p
  generalize (if s.reluPairs.isRelu v = true then
    (if s.reluPairs.isF v = true then v else p) else 0) = f
  generalize (if s.reluPairs.isRelu v = true then
    (if s.reluPairs.isB v = true then v else p) else 0) = b
  generalize s.adjustUpper bound = c
  by_cases hplain : (!s.reluPairs.isRelu v || (s.dissolvedReluVariables f).isSome) = true
  · rw [if_pos hplain]
    split
    · exact st1 _ _ _ _ (hR.refl s)
    · split
      · exact Res.Forall.mono (update_mrel hR _ _ _ _)
          (fun _ h => hR.trans _ _ _ h (cs1 _ _ (st1 _ _ _ _ (hR.refl s))))
      · exact cs1 _ _ (st1 _ _ _ _ (hR.refl s))
  · rw [if_neg hplain]
    by_cases hpos : isPositive c DEFAULT_EPSILON = true
    · rw [if_pos hpos]
      split
      · exact st1 _ _ _ _ (st1 _ _ _ _ (hR.refl s))
      · exact mv1 _ _ _ (mv1 _ _ _ (cs1 _ _ (cs1 _ _ (st1 _ _ _ _ (st1 _ _ _ _ (hR.refl s))))))
    · rw [if_neg hpos]
      by_cases hneg : (isNegative c DEFAULT_EPSILON && s.reluPairs.isF v) = true
      · rw [if_pos hneg]
        split
        · exact st1 _ _ _ _ (hR.refl s)
        · trivial
      · rw [if_neg hneg]
        refine Res.Forall.andThen (markReluVariableDissolved_mrel hR s f .TYPE_SPLIT)
          (fun _ h => h) ?_
        intro _ s0 hs0
        split
        · exact st1 _ _ _ _ (st1 _ _ _ _ hs0)
        · exact mv1 _ _ _ (mv1 _ _ _ (cs1 _ _ (cs1 _ _ (st1 _ _ _ _ (st1 _ _ _ _ hs0)))))

theorem updateLowerBound_mrel (s : Reluplex) (v : ℕ) (bound : ℚ) (level : ℕ) :
    Res.Forall (fun s1 => R s1 s) (s.updateLowerBound v bound level) := by
  have st1 : ∀ (x : Reluplex) (w : ℕ) (c : ℚ) (l : ℕ), R x s → R (x.storeLowerBound w c l) s :=
    fun x w c l h => hR.trans _ _ _ (hR.lower x _) h
  have cs1 : ∀ (x : Reluplex) (w : ℕ), R x s → R (x.computeVariableStatus w) s :=
    fun x w h => hR.trans _ _ _ (hR.status x _) h
  have mv1 : ∀ (x : Reluplex) (w : ℕ) (c : ℚ), R x s → R (x.moveIntoBound w c) s :=
    fun x w c h => hR.trans _ _ _ (moveIntoBound_mrel hR x w c) h
  unfold Reluplex.updateLowerBound
  simp only
  generalize (if s.reluPairs.isRelu v = true then (s.reluPairs.toPartner v).getD 0 else 0) = p
  generalize (if s.reluPairs.isRelu v = true then
    (if s.reluPairs.isF v = true then v else p) else 0) = f
  generalize s.adjustLower bound = c
  by_cases hplain : (!s.reluPairs.isRelu v || (s.dissolvedReluVariables f).isSome) = true
  · rw [if_pos hplain]
    split
    · exact st1 _ _ _ _ (hR.refl s)
    · split
      · refine Res.Forall.andThen (update_mrel hR _ _ _ _)
          (fun _ h => hR.trans _ _ _ h (cs1 _ _ (st1 _ _ _ _ (hR.refl s)))) ?_
        intro _ s3 hs3
        exact hR.trans _ _ _ hs3 (cs1 _ _ (st1 _ _ _ _ (hR.refl s)))
      · exact cs1 _ _ (st1 _ _ _ _ (hR.refl s))
  · rw [if_neg hplain]
    by_cases hneg : (!isNegative c DEFAULT_EPSILON) = true
    · rw [if_pos hneg]
      split
      · exact st1 _ _ _ _ (st1 _ _ _ _ (hR.refl s))
      · exact Res.Forall.mono (unifyReluPair_mrel hR _ _)
          (fun _ h => hR.trans _ _ _ h
            (mv1 _ _ _ (mv1 _ _ _ (cs1 _ _ (cs1 _ _ (st1 _ _ _ _ (st1 _ _ _ _ (hR.refl s))))))))
    · rw [if_neg hneg]
      split
      · exact st1 _ _ _ _ (hR.refl s)
      · exact mv1 _ _ _ (cs1 _ _ (st1 _ _ _ _ (hR.refl s)))

end MarkRel

theorem keepsDissolved_markRel : Reluplex.MarkRel Reluplex.KeepsDissolved where
  refl := fun _ => ⟨rfl, fun _ h => h⟩
  trans := fun _ _ _ h2 h1 => ⟨h2.1.trans h1.1, fun f h => h2.2 f (h1.2 f h)⟩
  assignment := fun _ _ => ⟨rfl, fun _ h => h⟩
  status := fun _ _ => ⟨rfl, fun _ h => h⟩
  upper := fun _ _ => ⟨rfl, fun _ h => h⟩
  lower := fun _ _ => ⟨rfl, fun _ h => h⟩
  mark := fun s v type => ⟨rfl, fun f h => by
    show (Function.update s.dissolvedReluVariables v (some type) f).isSome = true
    by_cases hf : f = v
    · subst hf; rw [Function.update_same]; rfl
    · rw [Function.update_noteq hf]; exact h⟩
  tableau := fun _ _ => ⟨rfl, fun _ h => h⟩
  basic := fun _ _ => ⟨rfl, fun _ h => h⟩
  eliminated := fun _ _ => ⟨rfl, fun _ h => h⟩

section MarkRelTighten

variable {R : Reluplex → Reluplex → Prop} (hR : Reluplex.MarkRel R)
include hR

theorem tightenBoundsOnRowLoop_mrel (basic : ℕ) (l : List Entry) :
    ∀ s : Reluplex, Res.Forall (fun s1 => R s1 s) (Reluplex.tightenBoundsOnRowLoop basic l s) := by
  induction l with
  | nil => intro s; exact hR.refl s
  | cons tv row ih =>
    intro s
    rw [Reluplex.tightenBoundsOnRowLoop]
    have h1 : Res.Forall (fun s1 => R s1 s)
        (if lt (s.tightenRowBounds basic tv.column ((-1) / tv.value)).max
            (s.upperBounds tv.column).bound DEFAULT_EPSILON = true
          then s.updateUpperBound tv.column
            (s.tightenRowBounds basic tv.column ((-1) / tv.value)).max
            (s.tightenRowBounds basic tv.column ((-1) / tv.value)).maxBoundLevel
          else Res.ok () s) := by
      split
      · exact updateUpperBound_mrel hR _ _ _ _
      · exact hR.refl s
    refine Res.Forall.andThen h1 (fun _ h => h) ?_
    intro _ s1 hs1
    split
    · refine Res.Forall.andThen (updateLowerBound_mrel hR s1 _ _ _)
        (fun _ h => hR.trans _ _ _ h hs1) ?_
      intro changed s2 hs2
      split
      · exact hR.trans _ _ _ hs2 hs1
      · exact Res.Forall.mono (ih s2) (fun _ h => hR.trans _ _ _ h (hR.trans _ _ _ hs2 hs1))
    · exact Res.Forall.mono (ih s1) (fun _ h => hR.trans _ _ _ h hs1)

end MarkRelTighten

/-- Fewer accepted elements, fewer counted. -/
theorem length_filter_lt (l : List (ℕ × ℕ)) (q1 q : ℕ × ℕ → Bool)
    (hle : ∀ x ∈ l, q1 x = true → q x = true)
    (hlt : ∃ x ∈ l, q x = true ∧ q1 x = false) :
    (l.filter q1).length < (l.filter q).length := by
  induction l with
  | nil =>
    obtain ⟨x, hx, _⟩ := hlt
    cases hx
  | cons a rest ih =>
    have hle2 : ∀ x ∈ rest, q1 x = true → q x = true :=
      fun x hx => hle x (List.mem_cons_of_mem _ hx)
    have hmono : (rest.filter q1).length ≤ (rest.filter q).length := by
      rw [← List.countP_eq_length_filter, ← List.countP_eq_length_filter]
      exact List.countP_mono_left hle2
    simp only [List.filter_cons]
    obtain ⟨x, hx, hq, hq1⟩ := hlt
    rcases List.mem_cons.mp hx with rfl | hx2
    · rw [hq, hq1]
      simp only [if_true, Bool.false_eq_true, if_false, List.length_cons]
      omega
    · have := ih hle2 ⟨x, hx2, hq, hq1⟩
      cases h1 : q1 a
      · cases h2 : q a <;> simp <;> omega
      · rw [hle a (List.mem_cons_self _ _) h1]
        simp only [if_true, List.length_cons]
        omega

theorem length_filter_le (l : List (ℕ × ℕ)) (q1 q : ℕ × ℕ → Bool)
    (hle : ∀ x ∈ l, q1 x = true → q x = true) :
    (l.filter q1).length ≤ (l.filter q).length := by
  rw [← List.countP_eq_length_filter, ← List.countP_eq_length_filter]
  exact List.countP_mono_left hle

theorem Reluplex.KeepsDissolved.activePairs_le {s1 s : Reluplex} (h : s1.KeepsDissolved s) :
    s1.activePairs ≤ s.activePairs := by
  unfold Reluplex.activePairs
  rw [h.1]
  apply length_filter_le
  intro p _ hp
  cases hd : s.dissolvedReluVariables p.2 with
  | none => rfl
  | some x =>
    have := h.2 p.2 (by rw [hd]; rfl)
    cases hd1 : s1.dissolvedReluVariables p.2 with
    | none => rw [hd1] at this; cases this
    | some y => rw [hd1] at hp; cases hp

theorem Reluplex.KeepsDissolved.activePairs_lt {s1 s : Reluplex} (h : s1.KeepsDissolved s)
    (f : ℕ) (hreg : f ∈ s.reluPairs.reluPairs.map Prod.snd)
    (hnone : s.dissolvedReluVariables f = none)
    (hsome : (s1.dissolvedReluVariables f).isSome = true) :
    s1.activePairs < s.activePairs := by
  unfold Reluplex.activePairs
  rw [h.1]
  apply length_filter_lt
  · intro p _ hp
    cases hd : s.dissolvedReluVariables p.2 with
    | none => rfl
    | some x =>
      have := h.2 p.2 (by rw [hd]; rfl)
      cases hd1 : s1.dissolvedReluVariables p.2 with
      | none => rw [hd1] at this; cases this
      | some y => rw [hd1] at hp; cases hp
  · obtain ⟨p, hp, rfl⟩ := List.mem_map.mp hreg
    refine ⟨p, hp, by rw [hnone]; rfl, ?_⟩
    cases hd1 : s1.dissolvedReluVariables p.2 with
    | none => rw [hd1] at hsome; cases hsome
    | some y => rfl

/-- A call of `unifyReluPair( f )` that reports a tableau change has recorded the merge. -/
theorem unifyReluPair_true (s s1 : Reluplex) (f : ℕ) (h : s.unifyReluPair f = .ok true s1) :
    s1.dissolvedReluVariables f = some .TYPE_MERGE := by
  unfold Reluplex.unifyReluPair at h
  cases hp : s.reluPairs.toPartner f with
  | none => rw [hp] at h; cases h
  | some b =>
    rw [hp] at h
    simp only at h
    by_cases h0 : s.tableau.getColumnSize b = 0
    · rw [if_pos h0] at h
      cases h
    · rw [if_neg h0] at h
      obtain ⟨_, x1, -, h⟩ := Res.andThen_eq_ok h
      obtain ⟨_, x2, -, h⟩ := Res.andThen_eq_ok h
      obtain ⟨_, x3, hm, h⟩ := Res.andThen_eq_ok h
      cases h
      unfold Reluplex.markReluVariableDissolved at hm
      split at hm
      · cases hm
      · cases hm
        exact Function.update_same f _ _

/-- A call of `updateLowerBound` that reports a tableau change was made on a member of an
undissolved pair and has recorded the merge of that pair. -/
theorem updateLowerBound_true (s s1 : Reluplex) (v : ℕ) (bound : ℚ) (level : ℕ)
    (h : s.updateLowerBound v bound level = .ok true s1) :
    s.reluPairs.isRelu v = true ∧
    s.dissolvedReluVariables
      (if s.reluPairs.isF v = true then v else (s.reluPairs.toPartner v).getD 0) = none ∧
    s1.dissolvedReluVariables
      (if s.reluPairs.isF v = true then v else (s.reluPairs.toPartner v).getD 0) =
      some .TYPE_MERGE := by
  unfold Reluplex.updateLowerBound at h
  simp only at h
  by_cases hrelu : s.reluPairs.isRelu v = true
  · simp only [hrelu, if_true, Bool.not_true, Bool.false_or] at h
    by_cases hD : (s.dissolvedReluVariables
        (if s.reluPairs.isF v = true then v else (s.reluPairs.toPartner v).getD 0)).isSome = true
    · rw [if_pos hD] at h
      exfalso
      split at h
      · cases h
      · split at h
        · obtain ⟨_, x, -, h2⟩ := Res.andThen_eq_ok h
          cases h2
        · cases h
    · rw [if_neg hD] at h
      have hnone : s.dissolvedReluVariables
          (if s.reluPairs.isF v = true then v else (s.reluPairs.toPartner v).getD 0) = none := by
        simpa using hD
      refine ⟨hrelu, hnone, ?_⟩
      split at h
      · split at h
        · cases h
        · exact unifyReluPair_true _ _ _ h
      · exfalso
        split at h
        · cases h
        · cases h
  · exfalso
    have hr : s.reluPairs.isRelu v = false := by simpa using hrelu
    simp only [hr, Bool.not_false, Bool.true_or, if_true, Bool.false_eq_true, if_false] at h
    split at h
    · cases h
    · split at h
      · obtain ⟨_, x, -, h2⟩ := Res.andThen_eq_ok h
        cases h2
      · cases h

/-- The `f` that `updateLowerBound` works on is the `f` of a registered pair. -/
theorem ReluPairs.Registered.mem_of_isRelu {r : ReluPairs} (h : r.Registered) (v : ℕ)
    (hrelu : r.isRelu v = true) :
    (if r.isF v = true then v else (r.toPartner v).getD 0) ∈ r.reluPairs.map Prod.snd := by
  by_cases hf : r.isF v = true
  · rw [if_pos hf]
    unfold ReluPairs.isF at hf
    obtain ⟨b, hb⟩ := Option.isSome_iff_exists.mp hf
    exact h.1 v b hb
  · rw [if_neg hf]
    have hb : r.isB v = true := by
      unfold ReluPairs.isRelu at hrelu
      simpa [hf] using hrelu
    unfold ReluPairs.toPartner
    rw [if_pos hb]
    unfold ReluPairs.isB at hb
    obtain ⟨f, hf2⟩ := Option.isSome_iff_exists.mp hb
    rw [hf2]
    exact h.2 v f hf2

/-- A run of the loop of `tightenBoundsOnRow` keeps the entries of the dissolution map, and
one that asks for a restart has dissolved a registered pair. -/
theorem tightenBoundsOnRowLoop_restart (basic : ℕ) (l : List Entry) :
    ∀ (s s1 : Reluplex), s.reluPairs.Registered →
      Reluplex.tightenBoundsOnRowLoop basic l s = .ok true s1 →
      s1.activePairs < s.activePairs := by
  induction l with
  | nil =>
    intro s s1 _ h
    rw [Reluplex.tightenBoundsOnRowLoop] at h
    cases h
  | cons tv row ih =>
    intro s s1 hreg h
    rw [Reluplex.tightenBoundsOnRowLoop] at h
    obtain ⟨_, x1, e1, h⟩ := Res.andThen_eq_ok h
    have k1 : x1.KeepsDissolved s := by
      split at e1
      · have hx := Res.Forall.of_ok (updateUpperBound_mrel keepsDissolved_markRel s _ _ _) e1
        exact hx
      · cases e1
        exact keepsDissolved_markRel.refl s
    have hreg1 : x1.reluPairs.Registered := by rw [k1.1]; exact hreg
    split at h
    · obtain ⟨changed, x2, e2, h⟩ := Res.andThen_eq_ok h
      have k2 := Res.Forall.of_ok (updateLowerBound_mrel keepsDissolved_markRel x1 _ _ _) e2
      cases changed
      · simp only [Bool.false_eq_true, if_false] at h
        have := ih x2 s1 (by rw [k2.1]; exact hreg1) h
        have := k2.activePairs_le
        have := k1.activePairs_le
        omega
      · simp only [if_true] at h
        cases h
        obtain ⟨u1, u2, u3⟩ := updateLowerBound_true x1 _ _ _ _ e2
        have := k2.activePairs_lt _ (hreg1.mem_of_isRelu _ u1) u2 (by rw [u3]; rfl)
        have := k1.activePairs_le
        omega
    · have := ih x1 s1 hreg1 h
      have := k1.activePairs_le
      omega

theorem tightenPass_keeps (l : List ℕ) : ∀ s : Reluplex,
    Res.Forall (fun s1 => s1.KeepsDissolved s) (Reluplex.tightenPass l s) := by
  induction l with
  | nil => intro s; exact keepsDissolved_markRel.refl s
  | cons basic rest ih =>
    intro s
    rw [Reluplex.tightenPass]
    refine Res.Forall.andThen
      (tightenBoundsOnRowLoop_mrel keepsDissolved_markRel basic _ s) (fun _ h => h) ?_
    intro needToRestart s1 hs1
    split
    · exact hs1
    · exact Res.Forall.mono (ih s1) (fun _ h => keepsDissolved_markRel.trans _ _ _ h hs1)

/-- A pass of `tightenAllBounds` that asks for a restart has dissolved a registered pair. -/
theorem tightenPass_restart (l : List ℕ) :
    ∀ (s s1 : Reluplex), s.reluPairs.Registered →
      Reluplex.tightenPass l s = .ok true s1 → s1.activePairs < s.activePairs := by
  induction l with
  | nil =>
    intro s s1 _ h
    rw [Reluplex.tightenPass] at h
    cases h
  | cons basic rest ih =>
    intro s s1 hreg h
    rw [Reluplex.tightenPass] at h
    obtain ⟨needToRestart, x1, e1, h⟩ := Res.andThen_eq_ok h
    have k1 := Res.Forall.of_ok (tightenBoundsOnRowLoop_mrel keepsDissolved_markRel basic _ s) e1
    cases needToRestart
    · simp only [Bool.false_eq_true, if_false] at h
      have := ih x1 s1 (by rw [k1.1]; exact hreg) h
      have := k1.activePairs_le
      omega
    · simp only [if_true] at h
      cases h
      exact tightenBoundsOnRowLoop_restart basic _ s _ hreg e1

/-- The loop of full-mode `tightenAllBounds` ends when the fuel exceeds the number of
undissolved pairs. -/
theorem tightenUntilDone_terminates : ∀ (fuel : ℕ) (s : Reluplex),
    s.reluPairs.Registered → s.activePairs < fuel →
    ∃ r, Reluplex.tightenUntilDone fuel s = some r := by
  intro fuel
  induction fuel with
  | zero => intro s _ h; exact absurd h (Nat.not_lt_zero _)
  | succ n ih =>
    intro s hreg hlt
    rw [Reluplex.tightenUntilDone]
    cases hp : Reluplex.tightenPass s.basicList s with
    | ok needToRestart s1 =>
      cases needToRestart
      · exact ⟨_, rfl⟩
      · have hk := Res.Forall.of_ok (tightenPass_keeps _ s) hp
        have := tightenPass_restart _ s s1 hreg hp
        exact ih s1 (by rw [hk.1]; exact hreg) (by omega)
    | thrown e s1 => exact ⟨_, rfl⟩
    | exited c => exact ⟨_, rfl⟩

theorem ReluPairs.mem_insertPair (p : ℕ × ℕ) : ∀ l : List (ℕ × ℕ),
    p ∈ ReluPairs.insertPair p l ∧ ∀ q ∈ l, q ∈ ReluPairs.insertPair p l := by
  intro l
  induction l with
  | nil =>
    unfold ReluPairs.insertPair
    exact ⟨List.mem_singleton.mpr rfl, fun q hq => by cases hq⟩
  | cons a rest ih =>
    unfold ReluPairs.insertPair
    by_cases h1 : ReluPairs.pairLt p a = true
    · rw [if_pos h1]
      exact ⟨List.mem_cons_self _ _, fun q hq => List.mem_cons_of_mem _ hq⟩
    · rw [if_neg h1]
      by_cases h2 : ReluPairs.pairLt a p = true
      · rw [if_pos h2]
        refine ⟨List.mem_cons_of_mem _ ih.1, ?_⟩
        intro q hq
        rcases List.mem_cons.mp hq with rfl | hq
        · exact List.mem_cons_self _ _
        · exact List.mem_cons_of_mem _ (ih.2 q hq)
      · rw [if_neg h2]
        refine ⟨?_, fun q hq => hq⟩
        have hpa : p = a := by
          unfold ReluPairs.pairLt at h1 h2
          simp only [Bool.or_eq_true, Bool.and_eq_true, decide_eq_true_eq, not_or, not_and,
            not_lt] at h1 h2
          have e1 : p.1 = a.1 := le_antisymm h2.1 h1.1
          have e2 : p.2 = a.2 := le_antisymm (h2.2 e1.symm) (h1.2 e1)
          exact Prod.ext e1 e2
        rw [hpa]
        exact List.mem_cons_self _ _

theorem ReluPairs.registered_new : ReluPairs.new.Registered :=
  ⟨fun _ _ h => (by cases h), fun _ _ h => (by cases h)⟩

theorem ReluPairs.Registered.addPair {r : ReluPairs} (h : r.Registered) (b f : ℕ) :
    (r.addPair b f).Registered := by
  have hins := ReluPairs.mem_insertPair (b, f) r.reluPairs
  have hnew : f ∈ (r.addPair b f).reluPairs.map Prod.snd :=
    List.mem_map.mpr ⟨(b, f), hins.1, rfl⟩
  have hold : ∀ x, x ∈ r.reluPairs.map Prod.snd → x ∈ (r.addPair b f).reluPairs.map Prod.snd := by
    intro x hx
    obtain ⟨q, hq, rfl⟩ := List.mem_map.mp hx
    exact List.mem_map.mpr ⟨q, hins.2 q hq, rfl⟩
  constructor
  · intro f1 b1 h1
    unfold ReluPairs.addPair at h1
    simp only at h1
    by_cases hf : f1 = f
    · rw [hf]; exact hnew
    · rw [Function.update_noteq hf] at h1
      exact hold _ (h.1 f1 b1 h1)
  · intro b1 f1 h1
    unfold ReluPairs.addPair at h1
    simp only at h1
    by_cases hb : b1 = b
    · rw [hb, Function.update_same] at h1
      cases h1
      exact hnew
    · rw [Function.update_noteq hb] at h1
      exact hold _ (h.2 b1 f1 h1)

theorem mergeByTightening_registered (debugOn : Bool) :
    (mergeByTightening debugOn).reluPairs.Registered := by
  have h : (mergeByTightening debugOn).reluPairs = ReluPairs.new.addPair 0 1 := by
    unfold mergeByTightening
    simp only
    rw [(computeVariableStatusAll_frame _).2.2.2.2.2.2.2.1]
    rfl
  rw [h]
  exact ReluPairs.registered_new.addPair 0 1

/-- A run of the loop of `tightenBoundsOnRow` that asks for a restart ends with a call of
`updateLowerBound` that reports a tableau change. -/
theorem tightenBoundsOnRowLoop_true_call (basic : ℕ) (l : List Entry) :
    ∀ (s s1 : Reluplex), Reluplex.tightenBoundsOnRowLoop basic l s = .ok true s1 →
      ∃ (x : Reluplex) (v : ℕ) (bound : ℚ) (level : ℕ),
        x.KeepsDissolved s ∧ x.updateLowerBound v bound level = .ok true s1 := by
  induction l with
  | nil =>
    intro s s1 h
    rw [Reluplex.tightenBoundsOnRowLoop] at h
    cases h
  | cons tv row ih =>
    intro s s1 h
    rw [Reluplex.tightenBoundsOnRowLoop] at h
    obtain ⟨_, x1, e1, h⟩ := Res.andThen_eq_ok h
    have k1 : x1.KeepsDissolved s := by
      split at e1
      · have hx := Res.Forall.of_ok (updateUpperBound_mrel keepsDissolved_markRel s _ _ _) e1
        exact hx
      · cases e1
        exact keepsDissolved_markRel.refl s
    split at h
    · obtain ⟨changed, x2, e2, h⟩ := Res.andThen_eq_ok h
      have k2 := Res.Forall.of_ok (updateLowerBound_mrel keepsDissolved_markRel x1 _ _ _) e2
      cases changed
      · simp only [Bool.false_eq_true, if_false] at h
        obtain ⟨x, v, bound, level, kx, hx⟩ := ih x2 s1 h
        exact ⟨x, v, bound, level,
          keepsDissolved_markRel.trans _ _ _ kx (keepsDissolved_markRel.trans _ _ _ k2 k1), hx⟩
      · simp only [if_true] at h
        cases h
        exact ⟨x1, _, _, _, k1, e2⟩
    · obtain ⟨x, v, bound, level, kx, hx⟩ := ih x1 s1 h
      exact ⟨x, v, bound, level, keepsDissolved_markRel.trans _ _ _ kx k1, hx⟩

/-- A pass of `tightenAllBounds` that asks for a restart ends with a call of
`updateLowerBound` that reports a tableau change. -/
theorem tightenPass_true_call (l : List ℕ) :
    ∀ (s s1 : Reluplex), Reluplex.tightenPass l s = .ok true s1 →
      ∃ (x : Reluplex) (v : ℕ) (bound : ℚ) (level : ℕ),
        x.KeepsDissolved s ∧ x.updateLowerBound v bound level = .ok true s1 := by
  induction l with
  | nil =>
    intro s s1 h
    rw [Reluplex.tightenPass] at h
    cases h
  | cons basic rest ih =>
    intro s s1 h
    rw [Reluplex.tightenPass] at h
    obtain ⟨needToRestart, x1, e1, h⟩ := Res.andThen_eq_ok h
    have k1 := Res.Forall.of_ok (tightenBoundsOnRowLoop_mrel keepsDissolved_markRel basic _ s) e1
    cases needToRestart
    · simp only [Bool.false_eq_true, if_false] at h
      obtain ⟨x, v, bound, level, kx, hx⟩ := ih x1 s1 h
      exact ⟨x, v, bound, level, keepsDissolved_markRel.trans _ _ _ kx k1, hx⟩
    · simp only [if_true] at h
      cases h
      exact tightenBoundsOnRowLoop_true_call basic _ s _ e1

/-- C39: let the maps of the ReLU registry point into its set of pairs. A pass of full-mode
`tightenAllBounds` that asks for a restart ends with a call of `updateLowerBound` that
returns true; such a call is made on a member of a pair that was not dissolved and leaves the
pair in the dissolution map as merged, no earlier entry of the map is lost, and the number of
undissolved registered pairs is smaller after the pass than before. Hence the loop ends
within `activePairs + 1` passes: with more fuel than undissolved pairs, `tightenAllBounds`
ends, in either mode. -/
theorem C39_full_tightening_terminates (s : Reluplex) (fuel : ℕ)
    (hreg : s.reluPairs.Registered) (hfuel : s.activePairs < fuel) :
    (∃ r, Reluplex.tightenUntilDone fuel s = some r) ∧
    (∃ r, s.tightenAllBounds fuel = some r) ∧
    (∀ s1, Reluplex.tightenPass s.basicList s = .ok true s1 →
      s1.activePairs < s.activePairs ∧
      ∃ (x : Reluplex) (v : ℕ) (bound : ℚ) (level : ℕ),
        x.KeepsDissolved s ∧ x.updateLowerBound v bound level = .ok true s1) ∧
    (∀ (x x1 : Reluplex) (v : ℕ) (bound : ℚ) (level : ℕ),
      x.updateLowerBound v bound level = .ok true x1 →
      x.reluPairs.isRelu v = true ∧
      x.dissolvedReluVariables
        (if x.reluPairs.isF v = true then v else (x.reluPairs.toPartner v).getD 0) = none ∧
      x1.dissolvedReluVariables
        (if x.reluPairs.isF v = true then v else (x.reluPairs.toPartner v).getD 0) =
        some .TYPE_MERGE ∧
      x1.KeepsDissolved x) := by
  have hterm := tightenUntilDone_terminates fuel s hreg hfuel
  refine ⟨hterm, ?_, ?_, ?_⟩
  · unfold Reluplex.tightenAllBounds
    split
    · exact ⟨_, rfl⟩
    · exact hterm
  · intro s1 h1
    exact ⟨tightenPass_restart _ s s1 hreg h1, tightenPass_true_call _ s s1 h1⟩
  · intro x x1 v bound level h1
    obtain ⟨u1, u2, u3⟩ := updateLowerBound_true x x1 v bound level h1
    have hk := Res.Forall.of_ok (updateLowerBound_mrel keepsDissolved_markRel x v bound level) h1
    exact ⟨u1, u2, u3, hk⟩

set_option maxRecDepth 100000 in
/-- C39, witness: `tightenAllBounds` on `mergeByTightening`, which has one undissolved pair.
The first pass merges the pair and asks for a restart, so one unit of fuel is not enough;
with two the call returns, and no undissolved pair is left. -/
theorem C39_full_tightening_terminates_witness :
    (mergeByTightening false).reluPairs.Registered ∧
    (mergeByTightening false).activePairs = 1 ∧
    (mergeByTightening false).fullTightenAllBounds = true ∧
    (Reluplex.tightenPass (mergeByTightening false).basicList
      (mergeByTightening false)).value? = some true ∧
    (mergeByTightening false).tightenAllBounds 1 = none ∧
    ((mergeByTightening false).tightenAllBounds 2).map
      (fun r => r.returned?.map Reluplex.activePairs) = some (some 0) ∧
    ∃ r, (mergeByTightening false).tightenAllBounds 2 = some r :=
  have hcount : (mergeByTightening false).activePairs = 1 := by decide!
  ⟨mergeByTightening_registered false, hcount, by decide!, by decide!,
    by
      have h : ((mergeByTightening false).tightenAllBounds 1).isNone = true := by decide!
      exact Option.isNone_iff_eq_none.mp h,
    by decide!,
    (C39_full_tightening_terminates (mergeByTightening false) 2
      (mergeByTightening_registered false) (by rw [hcount]; decide)).2.1⟩

/-- The sum over a row of the sparse matrix as a sum over a set of columns that covers the
row. -/
theorem Tableau.rowSum_eq_finset (t : Tableau) (hone : t.OneCellPerPosition) (r : ℕ)
    (x : ℕ → ℝ) (N : Finset ℕ) (hN : ∀ e ∈ t.getRow r, e.column ∈ N) :
    ((t.getRow r).map fun e => (e.value : ℝ) * x e.column).sum =
      ∑ c in N, (t.getCell r c : ℝ) * x c := by
  have h1 : ((t.getRow r).map fun e => (e.value : ℝ) * x e.column) =
      ((t.getRow r).map fun e => e.column).map fun c => (t.getCell r c : ℝ) * x c := by
    rw [List.map_map]
    apply List.map_congr_left
    intro e he
    have hmem := List.mem_filter.mp he
    have hrow : e.row = r := by simpa using hmem.2
    have hcell := Tableau.cell_of_mem t hone e hmem.1
    rw [hrow] at hcell
    simp only [Function.comp, Tableau.getCell_eq, hcell, Option.getD_some]
  rw [h1, ← List.sum_toFinset _ (Tableau.nodup_columns_getRow t hone r)]
  apply Finset.sum_subset
  · intro c hc
    obtain ⟨e, he, rfl⟩ := List.mem_map.mp (List.mem_toFinset.mp hc)
    exact hN e he
  · intro c _ hc
    have hnone : t.cell r c = none := by
      rw [Tableau.cell_eq_find_getRow]
      have : (t.getRow r).find? (fun e => decide (e.column = c)) = none := by
        rw [List.find?_eq_none]
        intro e he h2
        apply hc
        exact List.mem_toFinset.mpr (List.mem_map.mpr ⟨e, he, by simpa using h2⟩)
      rw [this]
      rfl
    rw [Tableau.getCell_eq, hnone]
    simp

/-- With the self-cell `-1` in the row, the row equation says that the whole row sums to
zero. -/
theorem Tableau.row_equation_iff (t : Tableau) (hone : t.OneCellPerPosition) (r : ℕ)
    (x : ℕ → ℝ) (hself : t.cell r r = some (-1)) :
    x r = (((t.getRow r).filter fun e => decide (e.column ≠ r)).map
        fun e => (e.value : ℝ) * x e.column).sum ↔
      ((t.getRow r).map fun e => (e.value : ℝ) * x e.column).sum = 0 := by
  obtain ⟨e, he, hcol, hval⟩ := Tableau.mem_getRow_of_cell t r r (-1) hself
  have hnd := Tableau.nodup_columns_getRow t hone r
  have hsplit : ∀ l : List Entry, (l.map (fun e => e.column)).Nodup → e ∈ l →
      (l.map fun e => (e.value : ℝ) * x e.column).sum =
        (e.value : ℝ) * x e.column +
          ((l.filter fun e1 => decide (e1.column ≠ e.column)).map
            fun e => (e.value : ℝ) * x e.column).sum := by
    intro l
    induction l with
    | nil => intro _ h; cases h
    | cons a rest ih =>
      intro hnd hmem
      simp only [List.map_cons, List.nodup_cons] at hnd
      rcases List.mem_cons.mp hmem with h | h
      · subst h
        have hfil : rest.filter (fun e1 => decide (e1.column ≠ e.column)) = rest := by
          rw [List.filter_eq_self]
          intro e1 he1
          simp only [ne_eq, decide_not, Bool.not_eq_true', decide_eq_false_iff_not]
          intro hc
          exact hnd.1 (List.mem_map.mpr ⟨e1, he1, hc⟩)
        have hhead : (e :: rest).filter (fun e1 => decide (e1.column ≠ e.column)) =
            rest.filter (fun e1 => decide (e1.column ≠ e.column)) := by
          rw [List.filter_cons]
          simp
        rw [hhead, hfil, List.map_cons, List.sum_cons]
      · have hne : a.column ≠ e.column := by
          intro hc
          exact hnd.1 (List.mem_map.mpr ⟨e, h, hc.symm⟩)
        simp only [List.map_cons, List.sum_cons, List.filter_cons, hne, ne_eq,
          not_false_eq_true, decide_True, if_true]
        rw [ih hnd.2 h]
        ring
  rw [hsplit _ hnd he, hcol, hval]
  push_cast
  constructor
  · intro h; linarith
  · intro h; linarith

/-- The coefficients after a pivot that drops no value, as a dense matrix. -/
theorem pivotTableau_dense (t : Tableau) (nb b : ℕ) (hone : t.OneCellPerPosition)
    (hrow : t.getRow nb = []) (hne : b ≠ nb) (hp : t.getCell b nb ≠ 0)
    (hex : t.PivotExact nb b) :
    (∀ c, (Reluplex.pivotTableau t nb b).getCell b c = 0) ∧
    (∀ c, (Reluplex.pivotTableau t nb b).getCell nb c =
      t.getCell b c * ((-1) / t.getCell b nb)) ∧
    (∀ r, r ≠ nb → r ≠ b → ∀ c, (Reluplex.pivotTableau t nb b).getCell r c =
      t.getCell r c + t.getCell b c * ((-1) / t.getCell b nb) * t.getCell r nb) := by
  obtain ⟨E1, E2, E3⟩ := pivotTableau_exact t nb b hone hrow hne hex
  obtain ⟨a, ha, hag⟩ := Tableau.cell_isSome_of_getCell_ne_zero t b nb hp
  have ha0 : a ≠ 0 := by rw [hag]; exact hp
  rw [← hag] at E2 E3 ⊢
  refine ⟨?_, ?_, ?_⟩
  · intro c
    rw [Tableau.getCell_eq, E1 c]
    rfl
  · intro c
    rw [Tableau.getCell_eq, Tableau.getCell_eq, E2 c]
    cases hbc : t.cell b c with
    | none => simp
    | some w =>
      simp only [Option.map_some', Option.getD_some]
      by_cases hc : c = nb
      · subst hc
        rw [ha] at hbc
        cases hbc
        rw [if_pos rfl]
        field_simp
      · rw [if_neg hc]
  · intro r hrn hrb c
    rw [Tableau.getCell_eq, Tableau.getCell_eq, Tableau.getCell_eq, Tableau.getCell_eq, E3 r hrn hrb c]
    cases hq : t.cell r nb with
    | none => simp
    | some q =>
      cases hbc : t.cell b c with
      | none => simp
      | some w =>
        simp only [Option.getD_some]
        by_cases hc : c = nb
        · subst hc
          rw [ha] at hbc
          cases hbc
          rw [hq]
          simp only [if_true, Option.getD_none, Option.getD_some]
          field_simp
        · simp only [hc, if_false]
          by_cases h0 : (t.cell r c).getD 0 + w * ((-1) / a) * q = 0
          · rw [if_pos h0]
            simp only [Option.getD_none]
            exact h0.symm
          · rw [if_neg h0]
            rfl

/-- The solution set of the row equations is the same before and after a pivot that drops
no value. -/
theorem pivotTableau_satisfies_iff (t : Tableau) (S : Finset ℕ) (nb b : ℕ)
    (hone : t.OneCellPerPosition)
    (hcols : ∀ v ∈ S, t.getColumn v = [{ row := v, column := v, value := -1 }])
    (hrows : ∀ e ∈ t.entries, e.row ∈ S)
    (hb : b ∈ S) (hnb : nb ∉ S) (hp : t.getCell b nb ≠ 0) (hex : t.PivotExact nb b)
    (x : ℕ → ℝ) :
    t.Satisfies S x ↔
      (Reluplex.pivotTableau t nb b).Satisfies (insert nb (S.erase b)) x := by
  have hne : b ≠ nb := fun h => hnb (h ▸ hb)
  have hrowsE := (Tableau.rows_iff t S).mp hrows
  obtain ⟨f1, f2, f3⟩ := pivotTableau_form t S nb b hone hcols hrows hb hnb hp
  obtain ⟨d1, d2, d3⟩ := pivotTableau_dense t nb b hone (hrowsE nb hnb) hne hp hex
  have hpR : (t.getCell b nb : ℝ) ≠ 0 := by exact_mod_cast hp
  -- a set of columns that covers both tableaus
  let N : Finset ℕ := (t.entries.map fun e => e.column).toFinset ∪
    ((Reluplex.pivotTableau t nb b).entries.map fun e => e.column).toFinset
  have hN : ∀ r, ∀ e ∈ t.getRow r, e.column ∈ N := by
    intro r e he
    exact Finset.mem_union_left _
      (List.mem_toFinset.mpr (List.mem_map.mpr ⟨e, (List.mem_filter.mp he).1, rfl⟩))
  have hN1 : ∀ r, ∀ e ∈ (Reluplex.pivotTableau t nb b).getRow r, e.column ∈ N := by
    intro r e he
    exact Finset.mem_union_right _
      (List.mem_toFinset.mpr (List.mem_map.mpr ⟨e, (List.mem_filter.mp he).1, rfl⟩))
  -- the equations as dense sums
  have hold : ∀ r ∈ S,
      (x r = (((t.getRow r).filter fun e => decide (e.column ≠ r)).map
          fun e => (e.value : ℝ) * x e.column).sum ↔
        ∑ c in N, (t.getCell r c : ℝ) * x c = 0) := by
    intro r hr
    have hself : t.cell r r = some (-1) := by
      rw [Tableau.cells_of_getColumn_eq t r (-1) (hcols r hr) r, if_pos rfl]
    rw [Tableau.row_equation_iff t hone r x hself,
      Tableau.rowSum_eq_finset t hone r x N (hN r)]
  have hnew : ∀ r ∈ insert nb (S.erase b),
      (x r = ((((Reluplex.pivotTableau t nb b).getRow r).filter
          fun e => decide (e.column ≠ r)).map fun e => (e.value : ℝ) * x e.column).sum ↔
        ∑ c in N, ((Reluplex.pivotTableau t nb b).getCell r c : ℝ) * x c = 0) := by
    intro r hr
    have hself : (Reluplex.pivotTableau t nb b).cell r r = some (-1) := by
      rw [Tableau.cells_of_getColumn_eq _ r (-1) (f2 r hr) r, if_pos rfl]
    rw [Tableau.row_equation_iff _ f1 r x hself,
      Tableau.rowSum_eq_finset _ f1 r x N (hN1 r)]
  -- the new sums in terms of the old ones
  have hsum_nb : ∑ c in N, ((Reluplex.pivotTableau t nb b).getCell nb c : ℝ) * x c =
      ((-1) / (t.getCell b nb : ℝ)) * ∑ c in N, (t.getCell b c : ℝ) * x c := by
    rw [Finset.mul_sum]
    apply Finset.sum_congr rfl
    intro c _
    rw [d2 c]
    push_cast
    ring
  have hsum_r : ∀ r, r ≠ nb → r ≠ b →
      ∑ c in N, ((Reluplex.pivotTableau t nb b).getCell r c : ℝ) * x c =
        ∑ c in N, (t.getCell r c : ℝ) * x c +
          ((-1) / (t.getCell b nb : ℝ)) * (t.getCell r nb : ℝ) *
            ∑ c in N, (t.getCell b c : ℝ) * x c := by
    intro r hrn hrb
    rw [Finset.mul_sum, ← Finset.sum_add_distrib]
    apply Finset.sum_congr rfl
    intro c _
    rw [d3 r hrn hrb c]
    push_cast
    ring
  have hk : ((-1) / (t.getCell b nb : ℝ)) ≠ 0 := div_ne_zero (by norm_num) hpR
  unfold Tableau.Satisfies
  constructor
  · intro h r hr
    rw [hnew r hr]
    have hb0 := (hold b hb).mp (h b hb)
    rcases Finset.mem_insert.mp hr with rfl | hr2
    · rw [hsum_nb, hb0, mul_zero]
    · have hrb : r ≠ b := (Finset.mem_erase.mp hr2).1
      have hrS : r ∈ S := (Finset.mem_erase.mp hr2).2
      have hrn : r ≠ nb := fun h2 => hnb (h2 ▸ hrS)
      rw [hsum_r r hrn hrb, hb0, mul_zero, add_zero]
      exact (hold r hrS).mp (h r hrS)
  · intro h r hr
    rw [hold r hr]
    have hnb0 := (hnew nb (Finset.mem_insert_self _ _)).mp (h nb (Finset.mem_insert_self _ _))
    rw [hsum_nb] at hnb0
    have hb0 : ∑ c in N, (t.getCell b c : ℝ) * x c = 0 := by
      rcases mul_eq_zero.mp hnb0 with h2 | h2
      · exact absurd h2 hk
      · exact h2
    by_cases hrb : r = b
    · rw [hrb]; exact hb0
    · have hrn : r ≠ nb := fun h2 => hnb (h2 ▸ hr)
      have hr1 : r ∈ insert nb (S.erase b) :=
        Finset.mem_insert_of_mem (Finset.mem_erase.mpr ⟨hrb, hr⟩)
      have h3 := (hnew r hr1).mp (h r hr1)
      rw [hsum_r r hrn hrb, hb0, mul_zero, add_zero] at h3
      exact h3

/-- C34 (amended): in exact arithmetic (`Reluplex.pivot` is `Reluplex.pivotWith id`: the
scale `( -1.0 ) / cell`, the products and the sums of the pivot are not rounded), in a state
in tableau form, for a basic `b` and a non-basic `nb` with `T[b][nb] ≠ 0`, and provided no
value computed by the pivot is dropped unless it is exactly zero (`Tableau.PivotExact`), `pivot( nb, b )` returns a state in tableau form whose basic set
is the old one with `b` replaced by `nb`, and every real assignment satisfies all row
equations `x_r = sum over j ≠ r of T[r][j] * x_j` of the old basic variables iff it satisfies
all row equations of the new ones. -/
theorem C34_pivot_preserves_solutions (s : Reluplex) (nb b : ℕ)
    (hform : s.TableauForm) (hb : b ∈ s.basicVariables) (hnb : nb ∉ s.basicVariables)
    (hp : s.tableau.getCell b nb ≠ 0) (hex : s.tableau.PivotExact nb b) :
    ∃ s1, s.pivot nb b = .ok () s1 ∧
      s1.basicVariables = insert nb (s.basicVariables.erase b) ∧
      s1.TableauForm ∧
      ∀ x : ℕ → ℝ,
        s.tableau.Satisfies s.basicVariables x ↔ s1.tableau.Satisfies s1.basicVariables x := by
  obtain ⟨hone, hcols, hrows⟩ := hform
  refine ⟨_, pivot_ok s nb b hb hnb, rfl,
    pivotTableau_form s.tableau s.basicVariables nb b hone hcols hrows hb hnb hp, ?_⟩
  intro x
  exact pivotTableau_satisfies_iff s.tableau s.basicVariables nb b hone hcols hrows hb hnb hp
    hex x

set_option maxRecDepth 100000 in
/-- C34, witness: `pivot( 0, 2 )` in `smallState`, whose rows are `x2 = x0 + 2 x1` and
`x3 = 3 x0`. -/
theorem C34_pivot_preserves_solutions_witness :
    (smallState false).TableauForm ∧ 2 ∈ (smallState false).basicVariables ∧
    0 ∉ (smallState false).basicVariables ∧ (smallState false).tableau.getCell 2 0 ≠ 0 ∧
    (smallState false).tableau.PivotExact 0 2 ∧
    ∃ s1, (smallState false).pivot 0 2 = .ok () s1 ∧
      s1.basicVariables = insert 0 ((smallState false).basicVariables.erase 2) ∧
      s1.TableauForm ∧
      ∀ x : ℕ → ℝ,
        (smallState false).tableau.Satisfies (smallState false).basicVariables x ↔
          s1.tableau.Satisfies s1.basicVariables x :=
  have h1 : 2 ∈ (smallState false).basicVariables := by decide!
  have h2 : 0 ∉ (smallState false).basicVariables := by decide!
  have h3 : (smallState false).tableau.getCell 2 0 ≠ 0 := by decide!
  ⟨smallState_tableauForm, h1, h2, h3, smallState_pivotExact,
    C34_pivot_preserves_solutions (smallState false) 0 2 smallState_tableauForm h1 h2 h3
      smallState_pivotExact⟩

theorem unifyNonBasic_tableau (s : Reluplex) (b f : ℕ) :
    (s.unifyNonBasic b f).tableau = s.tableau.addColumnEraseSource b f ∧
    (s.unifyNonBasic b f).basicVariables = s.basicVariables := by
  unfold Reluplex.unifyNonBasic
  simp only
  have h2 := fun (x : Reluplex) (v : ℕ) (d : ℚ) => updateIgnoringRelu_frame_all x v d
  split
  · rw [(h2 _ b _).2.2.2.1, (h2 s f _).2.2.2.1, (h2 _ b _).2.2.2.2.1, (h2 s f _).2.2.2.2.1]
    exact ⟨rfl, rfl⟩
  · split
    · rw [(h2 _ b _).2.2.2.1, (h2 s f _).2.2.2.1, (h2 _ b _).2.2.2.2.1, (h2 s f _).2.2.2.2.1]
      exact ⟨rfl, rfl⟩
    · rw [(h2 _ b _).2.2.2.1, (h2 _ b _).2.2.2.2.1]
      exact ⟨rfl, rfl⟩

/-- A call of `unifyReluPair( f )` that returns true has made `b` and `f` non-basic, if they
were not, and then merged the column of `b` into the column of `f`. -/
theorem unifyReluPair_true_shape (s s1 : Reluplex) (b f : ℕ)
    (hform : s.TableauForm) (hzero : s.tableau.ZeroFree) (hpair : s.ActivePair b f)
    (h : s.unifyReluPair f = .ok true s1) :
    ∃ s2, s2.TableauForm ∧ s2.tableau.ZeroFree ∧
      b ∉ s2.basicVariables ∧ f ∉ s2.basicVariables ∧
      (b ∉ s.basicVariables → f ∉ s.basicVariables → s2 = s) ∧
      s1.tableau = s2.tableau.addColumnEraseSource b f ∧
      s1.basicVariables = s2.basicVariables ∧
      |s1.assignment b - s1.assignment f| ≤ DEFAULT_EPSILON ∧
      s1.dissolvedReluVariables f = some .TYPE_MERGE := by
  obtain ⟨_, l2, _, _⟩ := hpair.lookup_f
  have hmerge := unifyReluPair_true s s1 f h
  unfold Reluplex.unifyReluPair at h
  simp only [l2] at h
  by_cases h0 : s.tableau.getColumnSize b = 0
  · rw [if_pos h0] at h
    cases h
  · rw [if_neg h0] at h
    rcases makeNonBasic_if_spec s b f hform hzero with ⟨h1, _⟩ |
      ⟨x1, h1, hform1, hzero1, hb1, hfkeep, hsame1, _, _, _, _⟩
    · rw [h1] at h
      cases h
    · rw [h1] at h
      simp only [Res.andThen] at h
      rcases makeNonBasic_if_spec x1 f b hform1 hzero1 with ⟨h2, _⟩ |
        ⟨x2, h2, hform2, hzero2, hf2, hbkeep, hsame2, _, _, _, _⟩
      · rw [h2] at h
        cases h
      · rw [h2] at h
        simp only [Res.andThen] at h
        have hb2 : b ∉ x2.basicVariables := hbkeep hb1
        obtain ⟨_, x3, hm, h3⟩ := Res.andThen_eq_ok h
        cases h3
        have hs1 : s1.tableau = (x2.unifyNonBasic b f).tableau ∧
            s1.basicVariables = (x2.unifyNonBasic b f).basicVariables ∧
            s1.assignment = (x2.unifyNonBasic b f).assignment := by
          unfold Reluplex.markReluVariableDissolved at hm
          split at hm
          · cases hm
          · cases hm
            exact ⟨rfl, rfl, rfl⟩
        refine ⟨x2, hform2, hzero2, hb2, hf2, ?_, ?_, ?_, ?_, hmerge⟩
        · intro hb hf
          rw [hsame2 (by rw [hsame1 hb]; exact hf), hsame1 hb]
        · rw [hs1.1]
          exact (unifyNonBasic_tableau x2 b f).1
        · rw [hs1.2.1]
          exact (unifyNonBasic_tableau x2 b f).2
        · rw [hs1.2.2]
          exact (unifyNonBasic_spec x2 b f hform2 hb2 hf2 hpair.ne).2.2.2.2.2

/-- The coefficients after a column merge that drops no sum, as a dense matrix. -/
theorem addColumnEraseSource_dense (t : Tableau) (b f : ℕ) (hone : t.OneCellPerPosition)
    (hne : b ≠ f) (hex : t.MergeExact b f) :
    (∀ r, (t.addColumnEraseSource b f).getCell r b = 0) ∧
    (∀ r c, c ≠ b → c ≠ f → (t.addColumnEraseSource b f).getCell r c = t.getCell r c) ∧
    (∀ r, (t.addColumnEraseSource b f).getCell r f = t.getCell r f + t.getCell r b) := by
  obtain ⟨_, a2, a3, a4⟩ := Tableau.addColumnEraseSource_spec t b f hone hne
  refine ⟨?_, ?_, ?_⟩
  · intro r
    rw [Tableau.getCell_eq, a2 r]
    rfl
  · intro r c hcb hcf
    rw [Tableau.getCell_eq, Tableau.getCell_eq, a3 r c hcb hcf]
  · intro r
    rw [Tableau.getCell_eq, Tableau.getCell_eq, Tableau.getCell_eq, a4 r]
    cases hw : t.cell r b with
    | none => simp
    | some w =>
      cases hx : t.cell r f with
      | none => simp
      | some x =>
        simp only [Option.getD_some]
        rcases hex r w x hw hx with h0 | h0
        · rw [h0, Tableau.keep_zero]
          rfl
        · rw [Tableau.keep_of_not_isZero _ h0]
          rfl

/-- An assignment that gives `b` and `f` the same value satisfies the row equations before a
column merge that drops no sum iff it satisfies them after. -/
theorem addColumnEraseSource_satisfies_iff (t : Tableau) (S : Finset ℕ) (b f : ℕ)
    (hone : t.OneCellPerPosition)
    (hcols : ∀ v ∈ S, t.getColumn v = [{ row := v, column := v, value := -1 }])
    (hb : b ∉ S) (hf : f ∉ S) (hne : b ≠ f) (hex : t.MergeExact b f)
    (x : ℕ → ℝ) (hx : x b = x f) :
    t.Satisfies S x ↔ (t.addColumnEraseSource b f).Satisfies S x := by
  obtain ⟨f1, _, f3, _⟩ := Tableau.addColumnEraseSource_spec t b f hone hne
  obtain ⟨d1, d2, d3⟩ := addColumnEraseSource_dense t b f hone hne hex
  let N : Finset ℕ := insert b (insert f ((t.entries.map fun e => e.column).toFinset ∪
    ((t.addColumnEraseSource b f).entries.map fun e => e.column).toFinset))
  have hbN : b ∈ N := Finset.mem_insert_self _ _
  have hfN : f ∈ N := Finset.mem_insert_of_mem (Finset.mem_insert_self _ _)
  have hN : ∀ r, ∀ e ∈ t.getRow r, e.column ∈ N := by
    intro r e he
    exact Finset.mem_insert_of_mem (Finset.mem_insert_of_mem (Finset.mem_union_left _
      (List.mem_toFinset.mpr (List.mem_map.mpr ⟨e, (List.mem_filter.mp he).1, rfl⟩))))
  have hN1 : ∀ r, ∀ e ∈ (t.addColumnEraseSource b f).getRow r, e.column ∈ N := by
    intro r e he
    exact Finset.mem_insert_of_mem (Finset.mem_insert_of_mem (Finset.mem_union_right _
      (List.mem_toFinset.mpr (List.mem_map.mpr ⟨e, (List.mem_filter.mp he).1, rfl⟩))))
  have hsum : ∀ r,
      ∑ c in N, ((t.addColumnEraseSource b f).getCell r c : ℝ) * x c =
        ∑ c in N, (t.getCell r c : ℝ) * x c := by
    intro r
    have hdiff : ∀ c ∈ N, ((t.addColumnEraseSource b f).getCell r c : ℝ) * x c =
        (t.getCell r c : ℝ) * x c +
          ((if c = f then (t.getCell r b : ℝ) * x f else 0) -
            (if c = b then (t.getCell r b : ℝ) * x b else 0)) := by
      intro c _
      by_cases hcb : c = b
      · subst hcb
        rw [d1 r, if_neg hne, if_pos rfl]
        push_cast
        ring
      · by_cases hcf : c = f
        · subst hcf
          rw [d3 r, if_pos rfl, if_neg hcb]
          push_cast
          ring
        · rw [d2 r c hcb hcf, if_neg hcf, if_neg hcb]
          ring
    rw [Finset.sum_congr rfl hdiff, Finset.sum_add_distrib, Finset.sum_sub_distrib,
      Finset.sum_ite_eq' N f, Finset.sum_ite_eq' N b, if_pos hfN, if_pos hbN, hx]
    ring
  unfold Tableau.Satisfies
  have hiff : ∀ r ∈ S,
      (x r = (((t.getRow r).filter fun e => decide (e.column ≠ r)).map
          fun e => (e.value : ℝ) * x e.column).sum ↔
        x r = ((((t.addColumnEraseSource b f).getRow r).filter
          fun e => decide (e.column ≠ r)).map fun e => (e.value : ℝ) * x e.column).sum) := by
    intro r hr
    have hself : t.cell r r = some (-1) := by
      rw [Tableau.cells_of_getColumn_eq t r (-1) (hcols r hr) r, if_pos rfl]
    have hrb : r ≠ b := fun h => hb (h ▸ hr)
    have hrf : r ≠ f := fun h => hf (h ▸ hr)
    have hself1 : (t.addColumnEraseSource b f).cell r r = some (-1) := by
      rw [f3 r r hrb hrf, hself]
    rw [Tableau.row_equation_iff t hone r x hself,
      Tableau.rowSum_eq_finset t hone r x N (hN r),
      Tableau.row_equation_iff _ f1 r x hself1,
      Tableau.rowSum_eq_finset _ f1 r x N (hN1 r), hsum r]
  constructor
  · intro h r hr
    exact (hiff r hr).mp (h r hr)
  · intro h r hr
    exact (hiff r hr).mpr (h r hr)

set_option maxRecDepth 100000 in
/-- Sample values of `roundToDouble`: the doubles `0.1`, `0.1 + 0.2 = 0.30000000000000004`
and `0.7 * 0.1 = 0.06999999999999999`; a number with a 53-bit significand is left as it is,
and a tie goes to the even significand. -/
theorem roundToDouble_samples :
    roundToDouble (1 / 10) = 7205759403792794 / 72057594037927936 ∧
    roundToDouble (roundToDouble (1 / 10) + roundToDouble (2 / 10)) =
      5404319552844596 / 18014398509481984 ∧
    roundToDouble (roundToDouble (7 / 10) * roundToDouble (1 / 10)) =
      5044031582654955 / 72057594037927936 ∧
    roundToDouble 3 = 3 ∧
    roundToDouble (1 + 1 / 1073741824) = 1 + 1 / 1073741824 ∧
    roundToDouble (9007199254740992 + 1) = 9007199254740992 ∧
    roundToDouble (9007199254740992 + 3) = 9007199254740992 + 4 := by
  refine ⟨?_, ?_, ?_, ?_, ?_, ?_, ?_⟩ <;> decide!

theorem pivotWith_id (s : Reluplex) (nonBasic basic : ℕ) :
    s.pivotWith id nonBasic basic = s.pivot nonBasic basic := rfl

set_option maxRecDepth 100000 in
/-- C34 (counterexample): `unitInput` is in tableau form with the rows `x2 = x0 + 2 x1` and
`x3 = 3 x0`; `x3` is basic, `x0` is not, and `T[3][0] = 3`. The assignment `A = [1, 0, 1, 3]`
satisfies both row equations. In `double` arithmetic `pivot( 0, 3 )` computes the scale
`( -1.0 ) / 3`, which is not `-1/3`, and stores `0.333...33 = 6004799503160661 / 2^54` in
the row of `x0`; no cell is dropped. The same assignment no longer satisfies the row of `x0`:
the exact value of that row is `1 - 2^-54`, not `A[0] = 1`. -/
theorem C34_rounded_pivot_changes_solutions :
    ((unitInput false).basicList = [2, 3] ∧
      (unitInput false).tableau.entries.map (fun e => (e.row, e.column, e.value)) =
        [(3, 0, 3), (3, 3, -1), (2, 1, 2), (2, 0, 1), (2, 2, -1)] ∧
      [0, 1, 2, 3].map (unitInput false).assignment = [1, 0, 1, 3] ∧
      [2, 3].map (unitInput false).rowValue = [1, 3] ∧
      roundToDouble ((-1) / (unitInput false).tableau.getCell 3 0) =
        -6004799503160661 / 18014398509481984 ∧
      ((unitInput false).pivotWith roundToDouble 0 3).returned?.map
          (fun s => (s.basicList, s.tableau.entries.map (fun e => (e.row, e.column, e.value)),
            [0, 1, 2, 3].map s.assignment, s.rowValue 0)) =
        some ([0, 2],
          [(2, 3, 6004799503160661 / 18014398509481984),
            (0, 3, 6004799503160661 / 18014398509481984), (0, 0, -1), (2, 1, 2), (2, 2, -1)],
          [1, 0, 1, 3], 18014398509481983 / 18014398509481984)) ∧
    ((unitInput true).basicList = [2, 3] ∧
      (unitInput true).tableau.entries.map (fun e => (e.row, e.column, e.value)) =
        [(3, 0, 3), (3, 3, -1), (2, 1, 2), (2, 0, 1), (2, 2, -1)] ∧
      [0, 1, 2, 3].map (unitInput true).assignment = [1, 0, 1, 3] ∧
      [2, 3].map (unitInput true).rowValue = [1, 3] ∧
      roundToDouble ((-1) / (unitInput true).tableau.getCell 3 0) =
        -6004799503160661 / 18014398509481984 ∧
      ((unitInput true).pivotWith roundToDouble 0 3).returned?.map
          (fun s => (s.basicList, s.tableau.entries.map (fun e => (e.row, e.column, e.value)),
            [0, 1, 2, 3].map s.assignment, s.rowValue 0)) =
        some ([0, 2],
          [(2, 3, 6004799503160661 / 18014398509481984),
            (0, 3, 6004799503160661 / 18014398509481984), (0, 0, -1), (2, 1, 2), (2, 2, -1)],
          [1, 0, 1, 3], 18014398509481983 / 18014398509481984)) := by
  refine ⟨⟨?_, ?_, ?_, ?_, ?_, ?_⟩, ⟨?_, ?_, ?_, ?_, ?_, ?_⟩⟩ <;> decide!

theorem tightenRowBoundsWith_id (s : Reluplex) (basic tighteningColumn : ℕ) (scale : ℚ) :
    s.tightenRowBoundsWith id basic tighteningColumn scale =
      s.tightenRowBounds basic tighteningColumn scale := rfl

set_option maxRecDepth 100000 in
/-- C15 (counterexample): in `unboundedInput` the variable `x1` of the row `x2 = x0 + x1` has
no upper bound; `getBound()` returns the placeholder 888 for it, so the loop of
`tightenBoundsOnRow` computes `max = 1 + 888 = 889` for `x2`, and `tightenBoundsOnRow( 2 )`
stores `ub(x2) = 889`. The assignment `x = [0, 1000, 1000]` satisfies the row equation and
the bounds of `x0` and `x1`, and `x2 = 1000` exceeds that `max`. And in
`roundedProductRow`, where all bounds are finite, the loop run in `double` arithmetic
computes `max = 1 + 2^-29` for `x1`, the rounded product of `ub(x0) = 1 + 2^-30` with the
coefficient `1 + 2^-30`; the assignment `x0 = 1 + 2^-30`, `x1 = (1 + 2^-30)^2` satisfies
the row equation and the bounds of `x0`, and `x1` exceeds that `max` by `2^-60`. -/
theorem C15_placeholder_and_rounding :
    ((((unboundedInput false).tableau.getRow 2).map (fun e => (e.column, e.value)) =
        [(1, 1), (0, 1), (2, -1)] ∧
      ((unboundedInput false).upperBounds 1).finite = false ∧
      ((unboundedInput false).upperBounds 1).bound = 888 ∧
      ((unboundedInput false).tightenRowBounds 2 2 ((-1) / (-1))).max = 889 ∧
      (((unboundedInput false).tableau.getRow 2).map
        (fun e => e.value * ([0, 1000, 1000] : List ℚ).getD e.column 0)).sum = 0 ∧
      ((unboundedInput false).lowerBounds 0).bound ≤ (0 : ℚ) ∧
      (0 : ℚ) ≤ ((unboundedInput false).upperBounds 0).bound ∧
      ((unboundedInput false).lowerBounds 1).bound ≤ (1000 : ℚ) ∧
      ¬ ((1000 : ℚ) ≤ ((unboundedInput false).tightenRowBounds 2 2 ((-1) / (-1))).max) ∧
      ((unboundedInput false).tightenBoundsOnRow 2).returned?.map
          (fun s => ((s.upperBounds 2).finite, (s.upperBounds 2).bound)) = some (true, 889) ∧
      ((unboundedInput true).tightenBoundsOnRow 2).returned?.map
          (fun s => ((s.upperBounds 2).finite, (s.upperBounds 2).bound)) = some (true, 889))) ∧
    (((roundedProductRow false).tableau.getRow 1).map (fun e => (e.column, e.value)) =
        [(0, 1 + 1 / 1073741824), (1, -1)] ∧
      (roundedProductRow false).lowerBounds 0 = { finite := true, bound := 0, level := 0 } ∧
      (roundedProductRow false).upperBounds 0 =
        { finite := true, bound := 1 + 1 / 1073741824, level := 0 } ∧
      ((roundedProductRow false).tightenRowBoundsWith roundToDouble 1 1
        (roundToDouble ((-1) / (-1)))).max = 1 + 1 / 536870912 ∧
      (((roundedProductRow false).tableau.getRow 1).map
        (fun e => e.value * ([1 + 1 / 1073741824,
          (1 + 1 / 1073741824) * (1 + 1 / 1073741824)] : List ℚ).getD e.column 0)).sum = 0 ∧
      ¬ ((1 + 1 / 1073741824 : ℚ) * (1 + 1 / 1073741824) ≤
        ((roundedProductRow false).tightenRowBoundsWith roundToDouble 1 1
          (roundToDouble ((-1) / (-1)))).max) ∧
      (1 + 1 / 1073741824 : ℚ) * (1 + 1 / 1073741824) - (1 + 1 / 536870912) =
        1 / 1152921504606846976) := by
  refine ⟨⟨?_, ?_, ?_, ?_, ?_, ?_, ?_, ?_, ?_, ?_, ?_⟩, ⟨?_, ?_, ?_, ?_, ?_, ?_, ?_⟩⟩ <;>
    decide!

/-- C15 (amended): interval propagation on a row, in exact arithmetic. For the row of `basic`
in a tableau with at most one cell per position, and an entry `tv` of the row (the
tightening variable `v`, with coefficient `c_v != 0`), the inner loop of `tightenBoundsOnRow`
run with `scale = -1 / c_v` computes `max` as the sum, over the other entries `j` of the
row, of `ub(j) * k_j` when `k_j = c_j * scale` is positive (`isPositive`) and of
`lb(j) * k_j` otherwise, and `min` as the sum of `lb(j) * k_j` when `k_j` is positive and of
`ub(j) * k_j` otherwise, where `ub(j)` and `lb(j)` are the values of `getBound()`. Hence,
when every bound of the other variables of the row is finite, every assignment `x` that
satisfies the row equation (the cells of the row times `x` sum to zero) and those bounds has
`min <= x_v <= max`, provided every `k_j` has magnitude above `DEFAULT_EPSILON`. -/
theorem C15_interval_propagation_sound (s : Reluplex) (basic : ℕ) (tv : Entry)
    (hone : s.tableau.OneCellPerPosition) (htv : tv ∈ s.tableau.getRow basic)
    (hc : tv.value ≠ 0) :
    (s.tightenRowBounds basic tv.column ((-1) / tv.value)).max =
      (((s.tableau.getRow basic).filter (fun e => e.column ≠ tv.column)).map (fun e =>
        if isPositive (e.value * ((-1) / tv.value)) DEFAULT_EPSILON
        then (s.upperBounds e.column).bound * (e.value * ((-1) / tv.value))
        else (s.lowerBounds e.column).bound * (e.value * ((-1) / tv.value)))).sum ∧
    (s.tightenRowBounds basic tv.column ((-1) / tv.value)).min =
      (((s.tableau.getRow basic).filter (fun e => e.column ≠ tv.column)).map (fun e =>
        if isPositive (e.value * ((-1) / tv.value)) DEFAULT_EPSILON
        then (s.lowerBounds e.column).bound * (e.value * ((-1) / tv.value))
        else (s.upperBounds e.column).bound * (e.value * ((-1) / tv.value)))).sum ∧
    ∀ x : ℕ → ℚ,
      ((s.tableau.getRow basic).map (fun e => e.value * x e.column)).sum = 0 →
      (∀ e ∈ s.tableau.getRow basic, e.column ≠ tv.column →
        (s.lowerBounds e.column).finite = true ∧ (s.upperBounds e.column).finite = true) →
      (∀ e ∈ s.tableau.getRow basic, e.column ≠ tv.column →
        (s.lowerBounds e.column).bound ≤ x e.column ∧
        x e.column ≤ (s.upperBounds e.column).bound) →
      (∀ e ∈ s.tableau.getRow basic, e.column ≠ tv.column →
        DEFAULT_EPSILON < |e.value * ((-1) / tv.value)|) →
      (s.tightenRowBounds basic tv.column ((-1) / tv.value)).min ≤ x tv.column ∧
      x tv.column ≤ (s.tightenRowBounds basic tv.column ((-1) / tv.value)).max := by
  obtain ⟨f1, f2⟩ := tightenStep_fold s tv.column ((-1) / tv.value) (s.tableau.getRow basic)
    { max := 0, min := 0, minBoundLevel := 0, maxBoundLevel := 0 }
  simp only [zero_add] at f1 f2
  refine ⟨f1, f2, ?_⟩
  intro x hrow _ hx hk
  obtain ⟨t1, t2⟩ := tighten_terms_sound s tv.column ((-1) / tv.value) x
    (s.tableau.getRow basic) hx hk
  have hsplit := sum_split_at_column (fun e => e.value * x e.column) tv
    (s.tableau.getRow basic) (Tableau.nodup_columns_getRow s.tableau hone basic) htv
  rw [hrow] at hsplit
  have hsolve : x tv.column =
      (((s.tableau.getRow basic).filter (fun e => e.column ≠ tv.column)).map
        (fun e => e.value * ((-1) / tv.value) * x e.column)).sum := by
    have hmul : (((s.tableau.getRow basic).filter (fun e => e.column ≠ tv.column)).map
        (fun e => e.value * ((-1) / tv.value) * x e.column)).sum =
        ((-1) / tv.value) *
        (((s.tableau.getRow basic).filter (fun e => e.column ≠ tv.column)).map
          (fun e => e.value * x e.column)).sum := by
      rw [← List.sum_map_mul_left]
      congr 1
      apply List.map_congr_left
      intro e _
      ring
    rw [hmul]
    have h2 : (((s.tableau.getRow basic).filter (fun e => e.column ≠ tv.column)).map
        (fun e => e.value * x e.column)).sum = -(tv.value * x tv.column) := by
      have hsplit2 : (0 : ℚ) = tv.value * x tv.column +
          (((s.tableau.getRow basic).filter (fun e => e.column ≠ tv.column)).map
            (fun e => e.value * x e.column)).sum := hsplit
      linarith
    rw [h2]
    field_simp
  unfold Reluplex.tightenRowBounds
  rw [f1, f2]
  constructor
  · rw [hsolve]; exact t1
  · rw [hsolve]; exact t2

set_option maxRecDepth 100000 in
/-- C15, witness: the row `x2 = x0 + 2 x1` of `smallState`, tightening `x0`, and the
assignment that is zero everywhere. -/
theorem C15_interval_propagation_sound_witness :
    (smallState false).tableau.OneCellPerPosition ∧
    ({ row := 2, column := 0, value := 1 } : Entry) ∈ (smallState false).tableau.getRow 2 ∧
    (∀ e ∈ (smallState false).tableau.getRow 2, e.column ≠ 0 →
      ((smallState false).lowerBounds e.column).finite = true ∧
      ((smallState false).upperBounds e.column).finite = true) ∧
    ((smallState false).tightenRowBounds 2 0 ((-1) / 1)).min ≤ (0 : ℚ) ∧
    (0 : ℚ) ≤ ((smallState false).tightenRowBounds 2 0 ((-1) / 1)).max :=
  ⟨smallState_tableauForm.1, by decide!, by decide!,
    (C15_interval_propagation_sound (smallState false) 2 { row := 2, column := 0, value := 1 }
      smallState_tableauForm.1 (by decide!) (by decide!)).2.2 (fun _ => 0)
      (by decide!) (by decide!) (by decide!) (by decide!)⟩

theorem popWhile_mono (level : ℕ) : ∀ (fuel : ℕ) (s : Reluplex) (r : Res Unit),
    Reluplex.popWhile fuel level s = some r → Reluplex.popWhile (fuel + 1) level s = some r := by
  intro fuel
  induction fuel with
  | zero => intro s r h; simp [Reluplex.popWhile] at h
  | succ n ih =>
    intro s r h
    rw [Reluplex.popWhile] at h ⊢
    by_cases hgt : s.smtCore.stack.length > level
    · rw [if_pos hgt] at h ⊢
      cases hp : s.pop with
      | ok a s1 =>
        rw [hp] at h
        exact ih s1 r h
      | thrown e s1 => rw [hp] at h; exact h
      | exited c => rw [hp] at h; exact h
    · rw [if_neg hgt] at h ⊢
      exact h

theorem popTo_mono (s : Reluplex) (level : ℕ) (r : Res Unit) : ∀ (fuel extra : ℕ),
    Reluplex.popTo fuel s level = some r → Reluplex.popTo (fuel + extra) s level = some r := by
  intro fuel extra
  induction extra with
  | zero => intro h; exact h
  | succ n ih =>
    intro h
    have h1 := ih h
    unfold Reluplex.popTo at h1 ⊢
    by_cases hl : level = 0
    · rw [if_pos hl] at h1 ⊢; exact h1
    · rw [if_neg hl] at h1 ⊢
      cases hp : s.pop with
      | ok a s1 =>
        rw [hp] at h1
        exact popWhile_mono level _ s1 r h1
      | thrown e s1 => rw [hp] at h1; exact h1
      | exited c => rw [hp] at h1; exact h1

/-- With fuel above the depth of the stack, `pop( level )` ends. -/
theorem popTo_total (s : Reluplex) (level fuel : ℕ) (hfuel : s.smtCore.stack.length < fuel) :
    ∃ r, Reluplex.popTo fuel s level = some r := by
  unfold Reluplex.popTo
  by_cases hl : level = 0
  · rw [if_pos hl]; exact ⟨_, rfl⟩
  · rw [if_neg hl]
    have hspec := popLoop_spec s.smtCore.stack s rfl
    have hpop : s.pop = Reluplex.popLoop s.smtCore.stack s := rfl
    rw [← hpop] at hspec
    cases hp : s.pop with
    | ok a s1 =>
      rw [hp] at hspec
      have hlen : s1.smtCore.stack.length ≤ s.smtCore.stack.length := hspec.1.1
      obtain ⟨res, e1, _, _⟩ := popWhile_spec level fuel s1 hspec.2 (by omega)
      exact ⟨res, e1⟩
    | thrown e s1 => exact ⟨_, rfl⟩
    | exited c => exact ⟨_, rfl⟩

theorem mainLoop_mono (env : Env) : ∀ (fuel k : ℕ) (s : Reluplex) (r : Res FinalStatus),
    Reluplex.mainLoop env fuel k s = some r →
    Reluplex.mainLoop env (fuel + 1) k s = some r := by
  intro fuel
  induction fuel with
  | zero => intro k s r h; simp [Reluplex.mainLoop] at h
  | succ n ih =>
    intro k s r h
    rw [Reluplex.mainLoop] at h ⊢
    by_cases hq : env.quit k = true
    · rw [if_pos hq] at h ⊢; exact h
    · rw [if_neg hq] at h ⊢
      simp only at h ⊢
      by_cases hs : (s.computeVariableStatusAll.allVarsWithinBounds &&
          s.computeVariableStatusAll.allRelusHold) = true
      · rw [if_pos hs] at h ⊢; exact h
      · rw [if_neg hs] at h ⊢
        cases hp : Reluplex.progress env s.computeVariableStatusAll with
        | ok result s2 =>
          rw [hp] at h
          simp only at h ⊢
          by_cases hr : result.1 = true
          · rw [if_pos hr] at h ⊢
            exact ih _ _ _ h
          · rw [if_neg hr] at h ⊢
            by_cases hu : s2.useConflictAnalysis = true
            · rw [if_pos hu] at h ⊢
              cases hpop : Reluplex.popTo n s2 result.2 with
              | none => rw [hpop] at h; cases h
              | some r0 =>
                rw [hpop] at h
                rw [popTo_mono s2 result.2 r0 n 1 hpop]
                cases r0 with
                | ok a s3 => exact ih _ _ _ h
                | thrown e s3 => exact h
                | exited c => exact h
            · rw [if_neg hu] at h ⊢
              cases hpop : s2.pop with
              | ok a s3 => rw [hpop] at h; exact ih _ _ _ h
              | thrown e s3 => rw [hpop] at h; exact h
              | exited c => rw [hpop] at h; exact h
        | thrown e s2 => rw [hp] at h; exact h
        | exited c => rw [hp] at h; exact h

theorem mainLoop_mono_le (env : Env) (k : ℕ) (s : Reluplex) (r : Res FinalStatus) :
    ∀ (fuel extra : ℕ), Reluplex.mainLoop env fuel k s = some r →
      Reluplex.mainLoop env (fuel + extra) k s = some r := by
  intro fuel extra h
  induction extra with
  | zero => exact h
  | succ n ih => exact mainLoop_mono env _ k s r ih

/-- If the quit flag is set when iteration `k + d` reads it, the main loop entered at
iteration `k` ends, whatever the state: some amount of fuel gives a result. -/
theorem mainLoop_ends_by_quit (env : Env) : ∀ (d k : ℕ) (s : Reluplex),
    env.quit (k + d) = true → ∃ N r, Reluplex.mainLoop env N k s = some r := by
  intro d
  induction d with
  | zero =>
    intro k s hq
    have hqk : env.quit k = true := hq
    refine ⟨1, .ok .NOT_DONE s, ?_⟩
    rw [Reluplex.mainLoop, if_pos hqk]
  | succ d ih =>
    intro k s hq
    have hq1 : env.quit (k + 1 + d) = true := by
      rw [Nat.add_assoc, Nat.add_comm 1 d]; exact hq
    by_cases hqk : env.quit k = true
    · refine ⟨1, .ok .NOT_DONE s, ?_⟩
      rw [Reluplex.mainLoop, if_pos hqk]
    · by_cases hs : (s.computeVariableStatusAll.allVarsWithinBounds &&
          s.computeVariableStatusAll.allRelusHold) = true
      · refine ⟨1, .ok .SAT s.computeVariableStatusAll, ?_⟩
        rw [Reluplex.mainLoop, if_neg hqk]
        simp only
        rw [if_pos hs]
      · cases hp : Reluplex.progress env s.computeVariableStatusAll with
        | thrown e s2 =>
          refine ⟨1, .thrown e s2, ?_⟩
          rw [Reluplex.mainLoop, if_neg hqk]
          simp only
          rw [if_neg hs, hp]
        | exited c =>
          refine ⟨1, .exited c, ?_⟩
          rw [Reluplex.mainLoop, if_neg hqk]
          simp only
          rw [if_neg hs, hp]
        | ok result s2 =>
          by_cases hr : result.1 = true
          · obtain ⟨N, r, hN⟩ := ih (k + 1) s2 hq1
            refine ⟨N + 1, r, ?_⟩
            rw [Reluplex.mainLoop, if_neg hqk]
            simp only
            rw [if_neg hs, hp]
            simp only
            rw [if_pos hr]
            exact hN
          · by_cases hu : s2.useConflictAnalysis = true
            · obtain ⟨r0, h0⟩ := popTo_total s2 result.2 (s2.smtCore.stack.length + 1)
                (Nat.lt_succ_self _)
              cases r0 with
              | ok a s3 =>
                obtain ⟨N, r, hN⟩ := ih (k + 1)
                  (s3.setMinStackSecondPhase s3.currentStackDepth) hq1
                refine ⟨(s2.smtCore.stack.length + 1) + N + 1, r, ?_⟩
                rw [Reluplex.mainLoop, if_neg hqk]
                simp only
                rw [if_neg hs, hp]
                simp only
                rw [if_neg hr, if_pos hu, popTo_mono s2 result.2 _ _ N h0]
                simp only
                have := mainLoop_mono_le env (k + 1)
                  (s3.setMinStackSecondPhase s3.currentStackDepth) r N
                  (s2.smtCore.stack.length + 1) hN
                rw [Nat.add_comm] at this
                exact this
              | thrown e s3 =>
                refine ⟨(s2.smtCore.stack.length + 1) + 1, .thrown e s3, ?_⟩
                rw [Reluplex.mainLoop, if_neg hqk]
                simp only
                rw [if_neg hs, hp]
                simp only
                rw [if_neg hr, if_pos hu, h0]
              | exited c =>
                refine ⟨(s2.smtCore.stack.length + 1) + 1, .exited c, ?_⟩
                rw [Reluplex.mainLoop, if_neg hqk]
                simp only
                rw [if_neg hs, hp]
                simp only
                rw [if_neg hr, if_pos hu, h0]
            · cases hpop : s2.pop with
              | ok a s3 =>
                obtain ⟨N, r, hN⟩ := ih (k + 1)
                  (s3.setMinStackSecondPhase s3.currentStackDepth) hq1
                refine ⟨N + 1, r, ?_⟩
                rw [Reluplex.mainLoop, if_neg hqk]
                simp only
                rw [if_neg hs, hp]
                simp only
                rw [if_neg hr, if_neg hu, hpop]
                exact hN
              | thrown e s3 =>
                refine ⟨1, .thrown e s3, ?_⟩
                rw [Reluplex.mainLoop, if_neg hqk]
                simp only
                rw [if_neg hs, hp]
                simp only
                rw [if_neg hr, if_neg hu, hpop]
              | exited c =>
                refine ⟨1, .exited c, ?_⟩
                rw [Reluplex.mainLoop, if_neg hqk]
                simp only
                rw [if_neg hs, hp]
                simp only
                rw [if_neg hr, if_neg hu, hpop]

theorem solveBody_mono (env : Env) (s : Reluplex) (r : Res FinalStatus) (fuel extra : ℕ)
    (h : Reluplex.solveBody env fuel s = some r) :
    Reluplex.solveBody env (fuel + extra) s = some r := by
  unfold Reluplex.solveBody at h ⊢
  cases h1 : (if (!s.wasInitialized) = true then s.initialise else Res.ok () s) with
  | thrown e t1 => rw [h1] at h; exact h
  | exited c => rw [h1] at h; exact h
  | ok _ t1 =>
    rw [h1] at h
    simp only at h ⊢
    cases h2 : t1.eliminateAuxVariables with
    | thrown e t2 => rw [h2] at h; exact h
    | exited c => rw [h2] at h; exact h
    | ok done t2 =>
      rw [h2] at h
      cases done with
      | false => exact h
      | true =>
        simp only at h ⊢
        cases h3 : t2.storePreprocessedMatrix with
        | thrown e t3 => rw [h3] at h; exact h
        | exited c => rw [h3] at h; exact h
        | ok _ t3 =>
          rw [h3] at h
          exact mainLoop_mono_le env 0 t3 r fuel extra h

theorem solveBody_ends_by_quit (env : Env) (s : Reluplex) (k : ℕ)
    (hq : env.quit k = true) : ∃ N r, Reluplex.solveBody env N s = some r := by
  unfold Reluplex.solveBody
  cases h1 : (if (!s.wasInitialized) = true then s.initialise else Res.ok () s) with
  | thrown e t1 => exact ⟨0, _, rfl⟩
  | exited c => exact ⟨0, _, rfl⟩
  | ok _ t1 =>
    simp only
    cases h2 : t1.eliminateAuxVariables with
    | thrown e t2 => exact ⟨0, _, rfl⟩
    | exited c => exact ⟨0, _, rfl⟩
    | ok done t2 =>
      cases done with
      | false => exact ⟨0, _, rfl⟩
      | true =>
        simp only
        cases h3 : t2.storePreprocessedMatrix with
        | thrown e t3 => exact ⟨0, _, rfl⟩
        | exited c => exact ⟨0, _, rfl⟩
        | ok _ t3 =>
          have hq0 : env.quit (0 + k) = true := by rw [Nat.zero_add]; exact hq
          exact mainLoop_ends_by_quit env k 0 t3 hq0

/-- When the `try` block of `solve` has ended, `solve` has returned a status or the process
has exited. -/
theorem solve_outcome (env : Env) (fuel : ℕ) (s : Reluplex)
    (h : Reluplex.solveBody env fuel s ≠ none) :
    (∃ status, (Reluplex.solve env fuel s).status? = some status) ∨
    (∃ c, (Reluplex.solve env fuel s).exitCode? = some c) := by
  cases hb : Reluplex.solveBody env fuel s with
  | none => exact absurd hb h
  | some r =>
    cases r with
    | exited c =>
      exact Or.inr ⟨c, by simp [Reluplex.solve, hb, Reluplex.SolveResult.exitCode?]⟩
    | ok status s1 =>
      exact Or.inl ⟨status, by simp [Reluplex.solve, hb, Reluplex.SolveResult.status?]⟩
    | thrown e s1 =>
      cases e with
      | error code =>
        by_cases hc : code = .STACK_IS_EMPTY
        · exact Or.inl ⟨.UNSAT, by simp [Reluplex.solve, hb, hc, Reluplex.SolveResult.status?]⟩
        · exact Or.inl ⟨.ERROR, by simp [Reluplex.solve, hb, hc, Reluplex.SolveResult.status?]⟩
      | invariantViolation l =>
        exact Or.inl ⟨.UNSAT, by simp [Reluplex.solve, hb, Reluplex.SolveResult.status?]⟩
      | other =>
        exact Or.inl ⟨.ERROR, by simp [Reluplex.solve, hb, Reluplex.SolveResult.status?]⟩

set_option maxRecDepth 100000 in
/-- C38 (counterexample): in `chainedPairs`, with or without `DEBUG_ON`, the SAT test fails,
no basic variable is out of bounds, and the list of broken pairs is `[0, 1]`, the pair
`(0, 1)` with `A[b] = 2` and `A[f] = 0`. `progress` selects `f = 1`; since `x1` is also the
`b` of the pair `(1, 2)`, `toPartner( 1 )` is 2 and `fixBrokenRelu( 1 )` compares
`A[1] = 0` with `A[2] = 0`, a pair that is not broken: none of its three cases applies and
the process ends in the `exit( 1 )` branch. -/
theorem C38_chained_pairs_reach_exit :
    (((chainedPairs false).reluPairs.reluPairs = [(0, 1), (1, 2)] ∧
      [0, 1, 2, 3].map (chainedPairs false).assignment = [2, 0, 0, 2] ∧
      ((chainedPairs false).allVarsWithinBounds && (chainedPairs false).allRelusHold) = false ∧
      (chainedPairs false).allVarsWithinBounds = true ∧
      (chainedPairs false).findBrokenRelues = [0, 1] ∧
      (chainedPairs false).reluPairs.toPartner 1 = some 2 ∧
      (chainedPairs false).reluPairIsBroken 1 2 = false ∧
      ((chainedPairs false).fixBrokenRelu 1).exitCode? = some 1 ∧
      (Reluplex.progress quietEnv (chainedPairs false)).exitCode? = some 1)) ∧
    ((chainedPairs true).reluPairs.reluPairs = [(0, 1), (1, 2)] ∧
      [0, 1, 2, 3].map (chainedPairs true).assignment = [2, 0, 0, 2] ∧
      ((chainedPairs true).allVarsWithinBounds && (chainedPairs true).allRelusHold) = false ∧
      (chainedPairs true).allVarsWithinBounds = true ∧
      (chainedPairs true).findBrokenRelues = [0, 1] ∧
      (chainedPairs true).reluPairs.toPartner 1 = some 2 ∧
      (chainedPairs true).reluPairIsBroken 1 2 = false ∧
      ((chainedPairs true).fixBrokenRelu 1).exitCode? = some 1 ∧
      (Reluplex.progress quietEnv (chainedPairs true)).exitCode? = some 1) := by
  refine ⟨⟨?_, ?_, ?_, ?_, ?_, ?_, ?_, ?_, ?_⟩, ⟨?_, ?_, ?_, ?_, ?_, ?_, ?_, ?_, ?_⟩⟩ <;> decide!

theorem rowMaxMinWith_id (s : Reluplex) (tighteningVarIndex : ℕ) (scale : ℚ)
    (row : List Entry) :
    s.rowMaxMinWith id tighteningVarIndex scale row =
      s.rowMaxMin tighteningVarIndex scale row := rfl

theorem addColumnEraseSourceWith_id (t : Tableau) (source target : ℕ) :
    t.addColumnEraseSourceWith id source target = t.addColumnEraseSource source target := rfl

set_option maxRecDepth 100000 in
/-- In `double` arithmetic the loop of `makeAllBoundsFiniteOnRow` computes, for the row
`x1 = (1 + 2^-30) x0` of `roundedProductRow` with `ub(x0) = 1 + 2^-30`, the maximum
`1 + 2^-29`, which is `2^-60` below the exact product that the exact loop gives. -/
theorem rowMaxMinWith_rounds_below :
    ((roundedProductRow false).rowMaxMinWith roundToDouble 1 (roundToDouble ((-1) / (-1)))
      ((roundedProductRow false).tableau.getRow 1)).1 = 1 + 1 / 536870912 ∧
    ((roundedProductRow false).rowMaxMin 1 ((-1) / (-1))
      ((roundedProductRow false).tableau.getRow 1)).1 =
      1 + 1 / 536870912 + 1 / 1152921504606846976 := by
  refine ⟨?_, ?_⟩ <;> decide!

set_option maxRecDepth 100000 in
/-- In `double` arithmetic `addColumnEraseSource( 1, 0 )` on `unevenRow` stores the rounded
sum `1 + 2^-30` in the cell `(2, 0)`, where exact arithmetic gives `1 + 2^-30 + 2^-60`: the
assignment `x0 = x1 = 1`, `x2 = 1 + 2^-30 + 2^-60` satisfies the row before the merge and,
with the rounded cell, not after it. -/
theorem addColumnEraseSourceWith_rounds :
    (unevenRow.getRow 2).map (fun e => (e.column, e.value)) =
      [(1, 1 / 1073741824 + 1 / 1152921504606846976), (0, 1), (2, -1)] ∧
    roundToDouble (1 / 1073741824 + 1 / 1152921504606846976) =
      1 / 1073741824 + 1 / 1152921504606846976 ∧
    (unevenRow.addColumnEraseSource 1 0).cell 2 0 =
      some (1 + 1 / 1073741824 + 1 / 1152921504606846976) ∧
    (unevenRow.addColumnEraseSourceWith roundToDouble 1 0).cell 2 0 =
      some (1 + 1 / 1073741824) ∧
    ((unevenRow.addColumnEraseSourceWith roundToDouble 1 0).getRow 2).map
      (fun e => (e.column, e.value)) = [(0, 1 + 1 / 1073741824), (2, -1)] := by
  refine ⟨?_, ?_, ?_, ?_, ?_⟩ <;> decide!

end ReluplexModel
